import Mathlib

/-!
# MUNCHKIN-SDL2: a shallow embedding of `src/munchkin.c`

The game keeps its whole state in C globals.  Here the globals are the fields of
one record, `Game`, and every C function that writes globals is a function on
`Game`.  C `int`s are `Int` (no overflow is reachable in the ranges discussed),
`/` and `%` are the truncating `Int.tdiv` and `Int.tmod`, and `rand()` reads the
head of an explicit list of draws: a function that calls `rand()` returns
`none` when the draws it was given do not suffice.
-/

namespace Munchkin

/-! ## C arithmetic and constants -/

/-- C integer division: truncation toward zero. -/
def c_div (a b : Int) : Int := Int.tdiv a b

/-- C remainder: the sign follows the dividend. -/
def c_mod (a b : Int) : Int := Int.tmod a b

/-- C logical negation `!a` as an `int`. -/
def c_not (a : Int) : Int := if a = 0 then 1 else 0

abbrev VERT_LINE_SIZE : Int := 16
abbrev HORI_LINE_SIZE : Int := 22
abbrev NUM_HORI_CELLS : Int := 9
abbrev NUM_VERT_CELLS : Int := 7
abbrev NUM_HORI_LINES_COL : Int := 8
abbrev NUM_VERT_LINES_ROW : Int := 10

abbrev LEFT : Int := 1
abbrev RIGHT : Int := 2
abbrev UP : Int := 3
abbrev DOWN : Int := 4
abbrev FALSE : Int := 0
abbrev TRUE : Int := 1

/-- The string terminator that `sprintf` writes after the wall characters. -/
def NUL : Char := Char.ofNat 0

/-! ## Data model -/

/-- One record of `pills[]`. -/
structure pill_type where
  status : Int
  x : Int
  y : Int
  direction : Int
  speed : Int
deriving DecidableEq, Repr

/-- One record of `ghosts[]`. -/
structure ghost_type where
  colour : Int
  status : Int
  recharge_timer : Int
  x : Int
  y : Int
  direction : Int
  speed : Int
deriving DecidableEq, Repr

/-- A zero-filled pill, as in a C global before it is written. -/
def pill_zero : pill_type := ⟨0, 0, 0, 0, 0⟩

/-- A zero-filled ghost, as in a C global before it is written. -/
def ghost_zero : ghost_type := ⟨0, 0, 0, 0, 0, 0, 0⟩

/-- The globals of `munchkin.c` that the game logic reads or writes.  A wall row is
the list of characters stored in `.line`; `pills` and `ghosts` list the entries of
the two arrays from index 0, entries past the end of a list being zero-filled. -/
structure Game where
  horizontal_lines : List (List Char)
  vertical_lines : List (List Char)
  pills : List pill_type
  ghosts : List ghost_type
  screen_offset_x : Int
  screen_offset_y : Int
  factor : Int
  joy_left : Int
  joy_right : Int
  joy_up : Int
  joy_down : Int
  NUM_PILLS : Int
  NUM_GHOSTS : Int
  munchkin_x_factor1 : Int
  munchkin_y_factor1 : Int
  munchkin_auto_direction : Int
  munchkin_last_direction : Int
  speed : Int
  munchkin_animation_frame : Int
  munchkin_dying_animation : Int
  munchkin_dying : Int
  maze_center_open : Int
  maze_completed : Int
  maze_completed_animations : Int
  maze_color : Char
  MAZE_OFFSET_X : Int
  MAZE_OFFSET_Y : Int
  maze_selected : Int
  arcade_mode : Int
  last_pill_speed_increased : Int
  powerpill_color : Int
  powerpill_active_timer : Int
  high_score_broken : Int
  high_score_registration : Int
  high_score_character_pos : Int
  score : Int
  high_score : Int
  high_score_name : List Char
  flash_high_score_timer : Int
  frame : Int
  start_delay : Int
deriving DecidableEq

/-- The arrow keys as `SDL_GetKeyboardState` reports them for one frame. -/
structure keystate where
  left : Bool
  right : Bool
  up : Bool
  down : Bool
deriving DecidableEq, Repr

/-- Read `rows[r].line[c]`.  An index outside the stored characters reads as `NUL`:
column 9 (resp. 10) of a row is its terminator, and column -1 of row `r` is the
terminator of row `r - 1`. -/
def line_at (rows : List (List Char)) (r c : Int) : Char :=
  if r < 0 ∨ c < 0 then NUL else ((rows.getD r.toNat []).getD c.toNat NUL)

/-- Write `rows[r].line[c] = v` for an index inside the stored rows. -/
def line_set (rows : List (List Char)) (r c : Nat) (v : Char) : List (List Char) :=
  rows.set r ((rows.getD r []).set c v)

/-! ## The player: `handle_munchkin` and the key filter of `get_user_input` -/

/-- The assignments shared by the accepted LEFT branches of `handle_munchkin`. -/
def munchkin_go_left (g : Game) : Game :=
  { g with munchkin_x_factor1 := g.munchkin_x_factor1 - g.speed,
           munchkin_auto_direction := LEFT, munchkin_last_direction := LEFT }

/-- The assignments shared by the accepted RIGHT branches of `handle_munchkin`. -/
def munchkin_go_right (g : Game) : Game :=
  { g with munchkin_x_factor1 := g.munchkin_x_factor1 + g.speed,
           munchkin_auto_direction := RIGHT, munchkin_last_direction := RIGHT }

/-- Body of `if (munchkin_manual_move == 1) switch (munchkin_direction)`. -/
def handle_munchkin_manual (g : Game) (cell_x cell_y munchkin_direction : Int) : Game :=
  if munchkin_direction = LEFT then
    let g1 :=
      if line_at g.vertical_lines cell_y cell_x = '|' ∧
          g.munchkin_x_factor1 - g.speed < g.MAZE_OFFSET_X + 7 + cell_x * (HORI_LINE_SIZE - 2) then g
      else if (g.munchkin_last_direction = UP ∨ g.munchkin_last_direction = DOWN) ∧
          c_mod (g.munchkin_y_factor1 - c_div 135 5) (c_div 70 5) = 0 then munchkin_go_left g
      else if g.munchkin_last_direction = LEFT ∨ g.munchkin_last_direction = RIGHT ∨
          g.munchkin_last_direction = 0 then munchkin_go_left g
      else g
    if g1.munchkin_x_factor1 < c_div (-20) 5 then { g1 with munchkin_x_factor1 := c_div 980 5 } else g1
  else if munchkin_direction = RIGHT then
    let g1 :=
      if line_at g.vertical_lines cell_y (cell_x + 1) = '|' ∧
          g.munchkin_x_factor1 + g.speed > g.MAZE_OFFSET_X + 7 + cell_x * (HORI_LINE_SIZE - 2) then g
      else if (g.munchkin_last_direction = UP ∨ g.munchkin_last_direction = DOWN) ∧
          c_mod (g.munchkin_y_factor1 - c_div 135 5) (c_div 70 5) = 0 then munchkin_go_right g
      else if g.munchkin_last_direction = LEFT ∨ g.munchkin_last_direction = RIGHT ∨
          g.munchkin_last_direction = 0 then munchkin_go_right g
      else g
    if g1.munchkin_x_factor1 > c_div 980 5 then { g1 with munchkin_x_factor1 := c_div (-20) 5 } else g1
  else if munchkin_direction = UP then
    if line_at g.horizontal_lines cell_y cell_x = 'x' ∧
        g.munchkin_y_factor1 - g.speed < g.MAZE_OFFSET_Y + 4 + cell_y * (VERT_LINE_SIZE - 2) then g
    else if (cell_x = -1 ∧ cell_y = 4) ∨ (cell_x = 9 ∧ cell_y = 4) then g
    else { g with munchkin_y_factor1 := g.munchkin_y_factor1 - g.speed,
                  munchkin_auto_direction := UP, munchkin_last_direction := UP }
  else if munchkin_direction = DOWN then
    if line_at g.horizontal_lines (cell_y + 1) cell_x = 'x' ∧
        g.munchkin_y_factor1 + g.speed > g.MAZE_OFFSET_Y + 4 + cell_y * (VERT_LINE_SIZE - 2) then g
    else if (cell_x = -1 ∧ cell_y = 4) ∨ (cell_x = 9 ∧ cell_y = 4) then g
    else { g with munchkin_y_factor1 := g.munchkin_y_factor1 + g.speed,
                  munchkin_auto_direction := DOWN, munchkin_last_direction := DOWN }
  else g

/-- Body of the second `switch (munchkin_auto_direction)` of `handle_munchkin`:
finish the committed move, or clear the commitment on an aligned point. -/
def handle_munchkin_auto (g : Game) : Game :=
  if g.munchkin_auto_direction = LEFT then
    if c_mod (g.munchkin_x_factor1 - c_div 80 5) (c_div 100 5) = 0 then
      { g with munchkin_auto_direction := 0 }
    else
      let x1 := g.munchkin_x_factor1 - g.speed
      { g with munchkin_x_factor1 := if x1 < c_div (-20) 5 then c_div 980 5 else x1,
               munchkin_last_direction := LEFT }
  else if g.munchkin_auto_direction = RIGHT then
    if c_mod (g.munchkin_x_factor1 - c_div 80 5) (c_div 100 5) = 0 then
      { g with munchkin_auto_direction := 0 }
    else
      let x1 := g.munchkin_x_factor1 + g.speed
      { g with munchkin_x_factor1 := if x1 > c_div 980 5 then c_div (-20) 5 else x1,
               munchkin_last_direction := RIGHT }
  else if g.munchkin_auto_direction = UP then
    if c_mod (g.munchkin_y_factor1 - c_div 135 5) (c_div 70 5) = 0 then
      { g with munchkin_auto_direction := 0 }
    else
      { g with munchkin_y_factor1 := g.munchkin_y_factor1 - g.speed, munchkin_last_direction := UP }
  else if g.munchkin_auto_direction = DOWN then
    if c_mod (g.munchkin_y_factor1 - c_div 135 5) (c_div 70 5) = 0 then
      { g with munchkin_auto_direction := 0 }
    else
      { g with munchkin_y_factor1 := g.munchkin_y_factor1 + g.speed, munchkin_last_direction := DOWN }
  else g

/-- The function `handle_munchkin`.  The second guard is written in the source as
`munchkin_auto_direction +! 0 && munchkin_manual_move == 0`, which C reads as
`(munchkin_auto_direction + (!0)) && ...`. -/
def handle_munchkin (g : Game) (munchkin_direction munchkin_manual_move : Int) : Game :=
  let cell_x := c_div (g.munchkin_x_factor1 - (7 + g.MAZE_OFFSET_X)) (HORI_LINE_SIZE - 2)
  let cell_y := c_div (g.munchkin_y_factor1 - (4 + g.MAZE_OFFSET_Y)) (VERT_LINE_SIZE - 2)
  let g1 := if munchkin_manual_move = 1 then handle_munchkin_manual g cell_x cell_y munchkin_direction else g
  if g1.munchkin_auto_direction + c_not 0 ≠ 0 ∧ munchkin_manual_move = 0 then handle_munchkin_auto g1
  else g1

/-- The pair `(munchkin_direction, munchkin_manual_move)` that `get_user_input`
computes from the held keys and the joystick flags (source lines 1045-1091). -/
def get_user_input_direction (g : Game) (k : keystate) : Int × Int :=
  let s0 : Int × Int := (0, 0)
  let s1 :=
    if k.left = true ∨ g.joy_left = 1 then
      if g.munchkin_auto_direction = UP ∨ g.munchkin_auto_direction = DOWN then s0
      else if s0.2 = 0 then (LEFT, 1) else s0
    else s0
  let s2 :=
    if k.right = true ∨ g.joy_right = 1 then
      if g.munchkin_auto_direction = UP ∨ g.munchkin_auto_direction = DOWN then s1
      else if s1.2 = 0 then (RIGHT, 1) else s1
    else s1
  let s3 :=
    if k.up = true ∨ g.joy_up = 1 then
      if g.munchkin_auto_direction = LEFT ∨ g.munchkin_auto_direction = RIGHT then s2
      else if s2.2 = 0 then (UP, 1) else s2
    else s2
  if k.down = true ∨ g.joy_down = 1 then
    if g.munchkin_auto_direction = LEFT ∨ g.munchkin_auto_direction = RIGHT then s3
    else if s3.2 = 0 then (DOWN, 1) else s3
  else s3

/-- The continuous-key part of `get_user_input` (source lines 1045-1106): filter the keys,
record the accepted direction and call `handle_munchkin`.  It is the whole function only on
a frame on which key 8 is not held and the event queue is empty; the head of the function
(key 8) and its event loop are `get_user_input_screen` and `get_user_input_events`, and the
whole function is `get_user_input_all`. -/
def get_user_input (g : Game) (k : keystate) : Game :=
  if g.munchkin_dying = FALSE then
    let d := get_user_input_direction g k
    let g1 := { g with munchkin_last_direction := d.1 }
    if g1.maze_completed = FALSE then handle_munchkin g1 d.1 d.2 else g1
  else g

/-- One player step as the frame loop runs it while the player is alive and the maze is
not completed: the key filter, then `handle_munchkin`. -/
def munchkin_step (g : Game) (k : keystate) : Game :=
  let d := get_user_input_direction g k
  handle_munchkin { g with munchkin_last_direction := d.1 } d.1 d.2

/-- The alignment invariant of the player: the committed direction is one of 0..4, a
horizontal or absent commitment sits on an aligned row and a vertical or absent one on an
aligned column. -/
def player_inv (g : Game) : Prop :=
  (0 ≤ g.munchkin_auto_direction ∧ g.munchkin_auto_direction ≤ 4) ∧
  (g.munchkin_auto_direction = 0 ∨ g.munchkin_auto_direction = LEFT ∨ g.munchkin_auto_direction = RIGHT →
    c_mod (g.munchkin_y_factor1 - 27) 14 = 0) ∧
  (g.munchkin_auto_direction = 0 ∨ g.munchkin_auto_direction = UP ∨ g.munchkin_auto_direction = DOWN →
    c_mod (g.munchkin_x_factor1 - 16) 20 = 0)

/-- The second state differs from the first at most in the four player globals
`munchkin_x_factor1`, `munchkin_y_factor1`, `munchkin_auto_direction` and
`munchkin_last_direction`. -/
def only_player (g g1 : Game) : Prop :=
  ∃ x y a l, g1 = { g with munchkin_x_factor1 := x, munchkin_y_factor1 := y,
                           munchkin_auto_direction := a, munchkin_last_direction := l }

/-! ## The maze: `setup_maze` and the state part of `draw_maze` -/

/-- The bytes that `sprintf(row.line, text)` stores: the characters and the terminator. -/
def cstr (s : String) : List Char := s.toList ++ [NUL]

/-- The function `setup_maze`: the hand-written wall tables, one per `maze_nr`. -/
def setup_maze (g : Game) (maze_nr : Int) : Game :=
  if maze_nr = 1 then
    { g with
      horizontal_lines := [cstr "xxxxxxxxx", cstr "-x---x-x-", cstr "----xx---", cstr "--x---x--", cstr "x---x---x", cstr "x-------x", cstr "-x--x-xx-", cstr "xxxxxxxxx"],
      vertical_lines := [cstr "|---|----|", cstr "|--|-----|", cstr "|||--|-|||", cstr "|-|----|-|", cstr "---||||---", cstr "|-|----|-|", cstr "|--|-|---|"] }
  else if maze_nr = 2 then
    { g with
      horizontal_lines := [cstr "xxxxxxxxx", cstr "-x---x-x-", cstr "-x-x--x-x", cstr "x--x-x-x-", cstr "x-x-x-x-x", cstr "x-x---x-x", cstr "---xxx-x-", cstr "xxxxxxxxx"],
      vertical_lines := [cstr "|-|-|-|--|", cstr "|--|-|---|", cstr "|-|---|--|", cstr "|--|---|-|", cstr "----||----", cstr "||-|--|--|", cstr "|-|----|-|"] }
  else if maze_nr = 3 then
    { g with
      horizontal_lines := [cstr "xxxxxxxxx", cstr "--x--x---", cstr "-------x-", cstr "----x----", cstr "x---x-x-x", cstr "x-------x", cstr "-----x-x-", cstr "xxxxxxxxx"],
      vertical_lines := [cstr "|-|-|--|-|", cstr "||--|-|-||", cstr "|-||-||-||", cstr "||-|---|-|", cstr "--|-||-|--", cstr "|-|||-|--|", cstr "||-|--|--|"] }
  else if maze_nr = 4 then
    { g with
      horizontal_lines := [cstr "xxxxxxxxx", cstr "-xxx--x-x", cstr "--x-x----", cstr "-x---x---", cstr "x-xxx-xxx", cstr "xx---x--x", cstr "-x---x-x-", cstr "xxxxxxxxx"],
      vertical_lines := [cstr "||---|---|", cstr "|----|-|-|", cstr "||-|-||-||", cstr "|---||-|-|", cstr "----|||---", cstr "|--||--|-|", cstr "|---|----|"] }
  else if maze_nr = 5 then
    { g with
      horizontal_lines := [cstr "---------", cstr "---------", cstr "---------", cstr "---------", cstr "---------", cstr "---------", cstr "-xxxxxxx-", cstr "xxxxxxxxx"],
      vertical_lines := [cstr "||------||", cstr "||------||", cstr "||------||", cstr "||------||", cstr "||------||", cstr "||------||", cstr "|--------|"] }
  else if maze_nr = 6 then
    { g with
      horizontal_lines := [cstr "xxxxxxxxx", cstr "xxxxxxxxx", cstr "xxxxxxxxx", cstr "xxxxxxxxx", cstr "xxxxxxxxx", cstr "xxxxxxxxx", cstr "xxxxxxxxx", cstr "xxxxxxxxx"],
      vertical_lines := [cstr "----------", cstr "----------", cstr "----------", cstr "----------", cstr "----------", cstr "----------", cstr "----------"] }
  else g

/-- The rotation of `draw_maze`: `if (frame % 45 == 0)` step the centre opening. -/
def rotate_center (g : Game) : Game :=
  if c_mod g.frame 45 = 0 then
    if g.maze_center_open = DOWN then { g with maze_center_open := LEFT }
    else if g.maze_center_open = LEFT then { g with maze_center_open := UP }
    else if g.maze_center_open = UP then { g with maze_center_open := RIGHT }
    else if g.maze_center_open = RIGHT then { g with maze_center_open := DOWN }
    else g
  else g

/-- The four writes `horizontal_lines[4].line[4] = a; vertical_lines[4].line[4] = b;
vertical_lines[4].line[5] = c; horizontal_lines[5].line[4] = d` of one `case` of `draw_maze`. -/
def write_center (g : Game) (a b c d : Char) : Game :=
  { g with
    horizontal_lines := line_set (line_set g.horizontal_lines 4 4 a) 5 4 d,
    vertical_lines := line_set (line_set g.vertical_lines 4 4 b) 4 5 c }

/-- The state part of `draw_maze` (source lines 1452-1486); the rest of the function
only renders. -/
def draw_maze (g : Game) : Game :=
  if g.maze_selected ≤ 4 then
    let g1 := rotate_center g
    if g1.maze_center_open = LEFT then write_center g1 'x' '-' '|' 'x'
    else if g1.maze_center_open = RIGHT then write_center g1 'x' '|' '-' 'x'
    else if g1.maze_center_open = UP then write_center g1 '-' '|' '|' 'x'
    else if g1.maze_center_open = DOWN then write_center g1 'x' '|' '|' '-'
    else g1
  else g

/-- The function `handle_maze_completed`. -/
def handle_maze_completed (g : Game) : Game :=
  let g1 := { g with maze_completed_animations := g.maze_completed_animations - 1 }
  if c_mod g1.maze_completed_animations 10 = 0 then
    if g1.maze_color = 'm' then { g1 with maze_color := 'y' } else { g1 with maze_color := 'm' }
  else g1

/-- The call `draw_maze()` made on frame number `f`. -/
def draw_maze_at (g : Game) (f : Int) : Game := draw_maze { g with frame := f }

/-- The centre cell (4,4) has exactly the opening named by `maze_center_open`: the name is
one of the four sides, and each of the four segments around the cell is open if and only
if it is the named one. -/
def center_named_open (g : Game) : Prop :=
  (g.maze_center_open = LEFT ∨ g.maze_center_open = RIGHT ∨
    g.maze_center_open = UP ∨ g.maze_center_open = DOWN) ∧
  (line_at g.vertical_lines 4 4 ≠ '|' ↔ g.maze_center_open = LEFT) ∧
  (line_at g.vertical_lines 4 5 ≠ '|' ↔ g.maze_center_open = RIGHT) ∧
  (line_at g.horizontal_lines 4 4 ≠ 'x' ↔ g.maze_center_open = UP) ∧
  (line_at g.horizontal_lines 5 4 ≠ 'x' ↔ g.maze_center_open = DOWN)

/-- The rows that `draw_maze` writes are long enough to hold the centre segments. -/
def center_writable (g : Game) : Prop :=
  4 < (g.horizontal_lines.getD 4 []).length ∧ 4 < (g.horizontal_lines.getD 5 []).length ∧
  5 < (g.vertical_lines.getD 4 []).length

/-- The outer ring is closed except at the two tunnel openings of row 4. -/
def outer_boundary_closed (g : Game) : Prop :=
  (∀ c : Int, 0 ≤ c → c ≤ 8 →
    line_at g.horizontal_lines 0 c = 'x' ∧ line_at g.horizontal_lines 7 c = 'x') ∧
  (∀ r : Int, 0 ≤ r → r ≤ 6 → r ≠ 4 →
    line_at g.vertical_lines r 0 = '|' ∧ line_at g.vertical_lines r 9 = '|') ∧
  line_at g.vertical_lines 4 0 ≠ '|' ∧ line_at g.vertical_lines 4 9 ≠ '|'

/-! ## Arrays -/

/-- Write `a[i] = v` in an array listed from index 0, entries past the end being `z`. -/
def arr_put {α : Type} (z : α) : List α → Nat → α → List α
  | [], 0, v => [v]
  | [], i + 1, v => z :: arr_put z [] i v
  | _ :: l, 0, v => v :: l
  | a :: l, i + 1, v => a :: arr_put z l i v

/-- Read `pills[i]`. -/
def pill_at (g : Game) (i : Nat) : pill_type := g.pills.getD i pill_zero

/-- Write `pills[i] = p`. -/
def pill_put (g : Game) (i : Nat) (p : pill_type) : Game :=
  { g with pills := arr_put pill_zero g.pills i p }

/-- Read `ghosts[i]`. -/
def ghost_at (g : Game) (i : Nat) : ghost_type := g.ghosts.getD i ghost_zero

/-- Write `ghosts[i] = p`. -/
def ghost_put (g : Game) (i : Nat) (p : ghost_type) : Game :=
  { g with ghosts := arr_put ghost_zero g.ghosts i p }

/-! ## Pills -/

/-- The function `check_pill_eaten`: strict overlap of the pill box and the shrunk player box. -/
def check_pill_eaten (g : Game) (i : Nat) : Int :=
  let a_xr := (pill_at g i).x + 3 * g.factor
  let a_yb := (pill_at g i).y + 2 * g.factor
  let a_x := (pill_at g i).x
  let a_y := (pill_at g i).y
  let b_xr := (g.munchkin_x_factor1 * g.factor + g.screen_offset_x) + 4 * g.factor
  let b_yb := (g.munchkin_y_factor1 * g.factor + g.screen_offset_y) + 4 * g.factor
  let b_x := (g.munchkin_x_factor1 * g.factor + g.screen_offset_x) + 2 * g.factor
  let b_y := (g.munchkin_y_factor1 * g.factor + g.screen_offset_y) + 2 * g.factor
  if b_xr > a_x ∧ b_x < a_xr ∧ b_yb > a_y ∧ b_y < a_yb then TRUE else FALSE

/-- The loop `found = 0; while (found == 0) { if (rand()%2 == 0 && first_open == 1) ..
else if (second_open == 1) .. }`: the chosen direction and the draws left, or `none`
when the draws run out before a side is found. -/
def rand_side (first_open second_open first second : Int) : List Nat → Option (Int × List Nat)
  | [] => none
  | r :: rs =>
    if r % 2 = 0 ∧ first_open = 1 then some (first, rs)
    else if second_open = 1 then some (second, rs)
    else rand_side first_open second_open first second rs

/-- One `case` of the direction switch of `choose_pill_direction`, for a pill heading
`ahead` with perpendicular sides `first`, `second` and reverse `back`: continue when
`rand()%10 >= threshold`, else turn to an open perpendicular side, else go on or reverse.
`rand()` is called only when the two tests before it in the `&&` chain hold. -/
def choose_case (threshold : Nat) (ahead_open first_open second_open ahead first second back : Int)
    (rs : List Nat) : Option (Int × List Nat) :=
  if ahead_open = 1 ∧ (first_open = 1 ∨ second_open = 1) then
    match rs with
    | [] => none
    | r :: rs1 =>
      if r % 10 ≥ threshold then some (ahead, rs1)
      else rand_side first_open second_open first second rs1
  else if first_open = 1 ∨ second_open = 1 then rand_side first_open second_open first second rs
  else if ahead_open = 1 then some (ahead, rs)
  else some (back, rs)

/-- The function `choose_pill_direction`. -/
def choose_pill_direction (g : Game) (i : Nat) (rs : List Nat) : Option (Game × List Nat) :=
  let p := pill_at g i
  let cell_nr_x := c_div (c_div (p.x - g.screen_offset_x) g.factor - (9 + g.MAZE_OFFSET_X)) (HORI_LINE_SIZE - 2)
  let cell_nr_y := c_div (c_div (p.y - g.screen_offset_y) g.factor - (7 + g.MAZE_OFFSET_Y)) (VERT_LINE_SIZE - 2)
  let cell_x_pill := (g.MAZE_OFFSET_X + 9 + cell_nr_x * 20) * g.factor + g.screen_offset_x
  let cell_y_pill := (g.MAZE_OFFSET_Y + 7 + cell_nr_y * 14) * g.factor + g.screen_offset_y
  if cell_x_pill = p.x ∧ cell_y_pill = p.y then
    let left_open0 : Int := if line_at g.vertical_lines cell_nr_y cell_nr_x = '|' then 0 else 1
    let right_open0 : Int := if line_at g.vertical_lines cell_nr_y (cell_nr_x + 1) = '|' then 0 else 1
    let up_open0 : Int := if line_at g.horizontal_lines cell_nr_y cell_nr_x = 'x' then 0 else 1
    let down_open0 : Int := if line_at g.horizontal_lines (cell_nr_y + 1) cell_nr_x = 'x' then 0 else 1
    let right_open : Int := if cell_nr_y = 4 ∧ cell_nr_x = 3 then 0 else right_open0
    let left_open : Int := if cell_nr_y = 4 ∧ cell_nr_x = 5 then 0 else left_open0
    let up_open : Int := if cell_nr_y = 5 ∧ cell_nr_x = 4 then 0 else up_open0
    let down_open : Int := if cell_nr_y = 3 ∧ cell_nr_x = 4 then 0 else down_open0
    let r :=
      if p.direction = LEFT then choose_case 3 left_open up_open down_open LEFT UP DOWN RIGHT rs
      else if p.direction = RIGHT then choose_case 3 right_open up_open down_open RIGHT UP DOWN LEFT rs
      else if p.direction = UP then choose_case 3 up_open left_open right_open UP LEFT RIGHT DOWN rs
      else if p.direction = DOWN then choose_case 3 down_open left_open right_open DOWN LEFT RIGHT UP rs
      else some (p.direction, rs)
    match r with
    | none => none
    | some (d, rs1) => some (pill_put g i { p with direction := d }, rs1)
  else some (g, rs)

/-- One of the twelve fixed `if (NUM_PILLS >= k)` blocks of `setup_pills`. -/
def setup_pill_fixed (g : Game) (i : Nat) (cx cy dir st : Int) : Game :=
  if g.NUM_PILLS ≥ (i : Int) + 1 then
    pill_put g i { pill_at g i with
      x := (g.MAZE_OFFSET_X + 9 + cx * 20) * g.factor + g.screen_offset_x,
      y := (g.MAZE_OFFSET_Y + 7 + cy * 14) * g.factor + g.screen_offset_y,
      direction := dir, status := st }
  else g

/-- The loop `for (i = 12; i < NUM_PILLS; i++)` of `setup_pills`, over the indices given. -/
def setup_pills_random : List Nat → Game → List Nat → Option (Game × List Nat)
  | [], g, rs => some (g, rs)
  | i :: is, g, rs =>
    match rs with
    | rx :: ry :: rs1 =>
      let g1 := pill_put g i { pill_at g i with
        x := (g.MAZE_OFFSET_X + 9 + ((rx % 8 : Nat) : Int) * 20) * g.factor + g.screen_offset_x,
        y := (g.MAZE_OFFSET_Y + 7 + ((ry % 6 : Nat) : Int) * 14) * g.factor,
        status := 1, direction := 2 }
      match choose_pill_direction g1 i rs1 with
      | none => none
      | some (g2, rs2) => setup_pills_random is g2 rs2
    | _ => none

/-- The function `setup_pills`. -/
def setup_pills (g : Game) (rs : List Nat) : Option (Game × List Nat) :=
  let g := setup_pill_fixed g 0 0 0 4 2
  let g := setup_pill_fixed g 1 1 0 1 1
  let g := setup_pill_fixed g 2 0 1 2 1
  let g := setup_pill_fixed g 3 7 0 1 1
  let g := setup_pill_fixed g 4 8 0 4 2
  let g := setup_pill_fixed g 5 8 1 1 1
  let g := setup_pill_fixed g 6 0 5 2 1
  let g := setup_pill_fixed g 7 0 6 3 2
  let g := setup_pill_fixed g 8 1 6 2 1
  let g := setup_pill_fixed g 9 8 5 1 1
  let g := setup_pill_fixed g 10 7 6 1 1
  let g := setup_pill_fixed g 11 8 6 3 2
  match (if g.NUM_PILLS ≥ 13 then
      setup_pills_random ((List.range g.NUM_PILLS.toNat).drop 12) g rs else some (g, rs)) with
  | none => none
  | some (g1, rs1) =>
    let g2 := (List.range g1.NUM_PILLS.toNat).foldl
      (fun h i => pill_put h i { pill_at h i with speed := 1 }) g1
    some ({ g2 with last_pill_speed_increased := 0 }, rs1)

/-- The counting loop `for (i = 0; i < NUM_PILLS; i++) if (pills[i].status != 0) active_pills++`. -/
def count_active_pills (g : Game) : Int :=
  (List.range g.NUM_PILLS.toNat).foldl
    (fun n i => if (pill_at g i).status ≠ 0 then n + 1 else n) 0

/-- The test `cell_x_pill == pills[i].x && cell_y_pill == pills[i].y` of `handle_pills`. -/
def pill_in_middle (g : Game) (i : Nat) : Prop :=
  let p := pill_at g i
  let cell_nr_x := c_div (c_div (p.x - g.screen_offset_x) g.factor - (9 + g.MAZE_OFFSET_X)) (HORI_LINE_SIZE - 2)
  let cell_nr_y := c_div (c_div (p.y - g.screen_offset_y) g.factor - (7 + g.MAZE_OFFSET_Y)) (VERT_LINE_SIZE - 2)
  (g.MAZE_OFFSET_X + 9 + cell_nr_x * 20) * g.factor + g.screen_offset_x = p.x ∧
    (g.MAZE_OFFSET_Y + 7 + cell_nr_y * 14) * g.factor + g.screen_offset_y = p.y

instance (g : Game) (i : Nat) : Decidable (pill_in_middle g i) := by
  unfold pill_in_middle; infer_instance

/-- The first speed-up of `handle_pills` (fewer than half of the pills left). -/
def speed_up_pills (g : Game) : Game :=
  (List.range g.NUM_PILLS.toNat).foldl
    (fun h i =>
      if (pill_at h i).status ≠ 0 then
        if pill_in_middle h i then pill_put h i { pill_at h i with speed := 2 } else h
      else h) g

/-- The second speed-up of `handle_pills` (one pill left). -/
def speed_up_last_pill (g : Game) : Game :=
  (List.range g.NUM_PILLS.toNat).foldl
    (fun h i =>
      if (pill_at h i).status ≠ 0 then
        if h.last_pill_speed_increased = 0 then
          if pill_in_middle h i then
            let h1 := pill_put h i { pill_at h i with speed := h.factor }
            { h1 with last_pill_speed_increased := 1 }
          else h
        else h
      else h) g

/-- The `switch (pills[i].direction)` of `handle_pills`: one step of a pill, with the wrap. -/
def move_pill (g : Game) (i : Nat) : Game :=
  let p := pill_at g i
  if p.direction = LEFT then
    let x1 := p.x - p.speed
    let x2 := if c_div (x1 - g.screen_offset_x) g.factor < g.MAZE_OFFSET_X - 7
      then (187 + g.MAZE_OFFSET_X) * g.factor + g.screen_offset_x else x1
    pill_put g i { p with x := x2 }
  else if p.direction = RIGHT then
    let x1 := p.x + p.speed
    let x2 := if c_div (x1 - g.screen_offset_x) g.factor > 187 + g.MAZE_OFFSET_X
      then (g.MAZE_OFFSET_X - 7) * g.factor + g.screen_offset_x else x1
    pill_put g i { p with x := x2 }
  else if p.direction = UP then pill_put g i { p with y := p.y - p.speed }
  else if p.direction = DOWN then pill_put g i { p with y := p.y + p.speed }
  else g

/-- The loop over the ghosts run when a power pill is eaten. -/
def powerpill_ghosts (g : Game) : Game :=
  (List.range g.NUM_GHOSTS.toNat).foldl
    (fun h j =>
      if (ghost_at h j).status = 1 ∨ (ghost_at h j).status = 2 then
        let h1 := ghost_put h j { ghost_at h j with status := 2 }
        { h1 with powerpill_active_timer := 180 }
      else h) g

/-- The statement `if (pills[i].status == 1) score++;`. -/
def eat_normal (g : Game) (i : Nat) : Game :=
  if (pill_at g i).status = 1 then { g with score := g.score + 1 } else g

/-- The statement `if (pills[i].status == 2) { score = score + 3; for (j ...) ... }`. -/
def eat_power (g : Game) (i : Nat) : Game :=
  if (pill_at g i).status = 2 then powerpill_ghosts { g with score := g.score + 3 } else g

/-- The statement `if (score > high_score) { high_score = score; high_score_broken = TRUE; }`. -/
def update_high_score (g : Game) : Game :=
  if g.score > g.high_score then { g with high_score := g.score, high_score_broken := TRUE } else g

/-- The `else` branch of `handle_pills` for an eaten pill: score, ghosts, high score,
and the pill goes inactive. -/
def eat_pill (g : Game) (i : Nat) : Game :=
  let g3 := update_high_score (eat_power (eat_normal g i) i)
  pill_put g3 i { pill_at g3 i with status := 0 }

/-- The body of the main loop of `handle_pills` for pill `i`; the state carries the local
`active_pills` and the draws left. -/
def handle_pills_body (g : Game) (i : Nat) (active_pills : Int) (rs : List Nat) :
    Option (Game × Int × List Nat) :=
  if (pill_at g i).status ≠ 0 then
    let pill_eaten := if g.munchkin_dying = FALSE then check_pill_eaten g i else FALSE
    if pill_eaten = FALSE then
      match choose_pill_direction g i rs with
      | none => none
      | some (g1, rs1) => some (move_pill g1 i, active_pills + 1, rs1)
    else
      let g1 := eat_pill g i
      some (g1, count_active_pills g1, rs)
  else some (g, active_pills, rs)

/-- The main loop `for (i = 0; i < NUM_PILLS && maze_completed == FALSE; i++)` of
`handle_pills`, over the indices given. -/
def handle_pills_loop : List Nat → Game → Int → List Nat → Option (Game × Int × List Nat)
  | [], g, active_pills, rs => some (g, active_pills, rs)
  | i :: is, g, active_pills, rs =>
    if g.maze_completed = FALSE then
      match handle_pills_body g i active_pills rs with
      | none => none
      | some (g1, active_pills1, rs1) => handle_pills_loop is g1 active_pills1 rs1
    else some (g, active_pills, rs)

/-- The function `handle_pills`. -/
def handle_pills (g : Game) (rs : List Nat) : Option (Game × List Nat) :=
  let active_pills := count_active_pills g
  let g1 := if active_pills ≥ 2 ∧ active_pills < c_div g.NUM_PILLS 2 then speed_up_pills g else g
  let g2 := if active_pills = 1 then speed_up_last_pill g1 else g1
  match handle_pills_loop (List.range g2.NUM_PILLS.toNat) g2 active_pills rs with
  | none => none
  | some (g3, active_pills3, rs3) =>
    if active_pills3 = 0 ∧ g3.maze_completed = FALSE then
      some ({ g3 with maze_completed := TRUE, maze_completed_animations := 75 }, rs3)
    else some (g3, rs3)

/-- The number of pills with status `st` that overlap the player, among `pills[0..NUM_PILLS-1]`. -/
def eaten_count (g : Game) (st : Int) : Int :=
  (((List.range g.NUM_PILLS.toNat).filter
    (fun i => (pill_at g i).status = st ∧ check_pill_eaten g i = TRUE)).length : Int)

/-- The globals that decide which pills and ghosts the player touches are the same in
both states: player position, scale, screen offsets, counts, and the two mode flags. -/
def same_play (g g1 : Game) : Prop :=
  g1.munchkin_x_factor1 = g.munchkin_x_factor1 ∧ g1.munchkin_y_factor1 = g.munchkin_y_factor1 ∧
  g1.factor = g.factor ∧ g1.screen_offset_x = g.screen_offset_x ∧
  g1.screen_offset_y = g.screen_offset_y ∧ g1.NUM_PILLS = g.NUM_PILLS ∧
  g1.NUM_GHOSTS = g.NUM_GHOSTS ∧ g1.munchkin_dying = g.munchkin_dying ∧
  g1.maze_completed = g.maze_completed

/-- Pill `i` is active and its box overlaps the player. -/
def pill_touched (g : Game) (i : Nat) : Prop :=
  (pill_at g i).status ≠ 0 ∧ check_pill_eaten g i = TRUE

instance (g : Game) (i : Nat) : Decidable (pill_touched g i) := by
  unfold pill_touched; infer_instance

/-- The points pill `i` is worth to the player where it stands: 1 for a touched normal
pill, 3 for a touched power pill, 0 otherwise. -/
def pill_value (g : Game) (i : Nat) : Int :=
  if check_pill_eaten g i = TRUE then
    (if (pill_at g i).status = 1 then 1 else 0) + (if (pill_at g i).status = 2 then 3 else 0)
  else 0

/-- The second state differs from the first at most in the speeds of the pills and in
`last_pill_speed_increased`. -/
def only_pill_speeds (g g1 : Game) : Prop :=
  (∃ ps l, g1 = { g with pills := ps, last_pill_speed_increased := l }) ∧
  ∀ j, (pill_at g1 j).status = (pill_at g j).status ∧ (pill_at g1 j).x = (pill_at g j).x ∧
    (pill_at g1 j).y = (pill_at g j).y ∧ (pill_at g1 j).direction = (pill_at g j).direction

/-- The high-score bookkeeping between a state and a later one: the score did not go down,
the high score is the larger of the old high score and the new score, and the flag
`high_score_broken` is TRUE if the new score is above the old high score and is otherwise
as it was. -/
def score_kept (g g1 : Game) : Prop :=
  g.score ≤ g1.score ∧ g1.high_score = max g.high_score g1.score ∧
  (g.high_score < g1.score → g1.high_score_broken = TRUE) ∧
  (¬ g.high_score < g1.score → g1.high_score_broken = g.high_score_broken)

/-- Neither the score nor the high score is lower in the second state. -/
def scores_up (g g1 : Game) : Prop :=
  g.score ≤ g1.score ∧ g.high_score ≤ g1.high_score

/-- The body of the ghost loop run when a power pill is eaten (source lines 1740-1745),
for ghost `j`. -/
def powerpill_ghost (h : Game) (j : Nat) : Game :=
  if (ghost_at h j).status = 1 ∨ (ghost_at h j).status = 2 then
    let h1 := ghost_put h j { ghost_at h j with status := 2 }
    { h1 with powerpill_active_timer := 180 }
  else h

/-- What a power pill does to one ghost: a patrol or vulnerable ghost is vulnerable
afterwards, any other ghost is as before. -/
def make_vulnerable (gh : ghost_type) : ghost_type :=
  if gh.status = 1 ∨ gh.status = 2 then { gh with status := 2 } else gh

/-- Some ghost among `ghosts[0..NUM_GHOSTS-1]` is patrol or vulnerable. -/
def some_ghost_active (g : Game) : Prop :=
  ∃ j : Nat, (j : Int) < g.NUM_GHOSTS ∧ ((ghost_at g j).status = 1 ∨ (ghost_at g j).status = 2)

/-- The ghosts and the timer of the second state are those of the first after a power
pill: every ghost `0..NUM_GHOSTS-1` went through `make_vulnerable`, and the timer is 180 if
some ghost was patrol or vulnerable and is otherwise as before. -/
def powered (g g1 : Game) : Prop :=
  (∀ j : Nat, ghost_at g1 j =
    if (j : Int) < g.NUM_GHOSTS then make_vulnerable (ghost_at g j) else ghost_at g j) ∧
  (some_ghost_active g → g1.powerpill_active_timer = 180) ∧
  (¬ some_ghost_active g → g1.powerpill_active_timer = g.powerpill_active_timer)

/-- The ghosts and the timer are the same in both states. -/
def ghosts_same (g g1 : Game) : Prop :=
  (∀ j : Nat, ghost_at g1 j = ghost_at g j) ∧
  g1.powerpill_active_timer = g.powerpill_active_timer

/-- Some pill among `pills[0..NUM_PILLS-1]` is a power pill whose box overlaps the player. -/
def power_pill_touched (g : Game) : Prop :=
  ∃ i : Nat, (i : Int) < g.NUM_PILLS ∧ (pill_at g i).status = 2 ∧ check_pill_eaten g i = TRUE

/-- The points a pill of status `st` gives when eaten, as `handle_pills` adds them
(source lines 1736 and 1738-1739): 1 for status 1, 3 for status 2. -/
def pill_worth (st : Int) : Int :=
  (if st = 1 then 1 else 0) + (if st = 2 then 3 else 0)

/-- The points still on the board: the sum of `pill_worth` over `pills[0..NUM_PILLS-1]`. -/
def pills_worth (g : Game) : Int :=
  ((List.range g.NUM_PILLS.toNat).map (fun i => pill_worth (pill_at g i).status)).sum

/-- The pills' view of `k` frames of the main loop of `game`: in each frame the rest of
the frame, `f`, runs first and `handle_pills` after it. -/
def pill_frames (f : Game → Game) : Nat → Game → List Nat → Option (Game × List Nat)
  | 0, g, rs => some (g, rs)
  | k + 1, g, rs =>
    match pill_frames f k g rs with
    | none => none
    | some (g1, rs1) => handle_pills (f g1) rs1

/-- The guard of the first speed-up of `handle_pills` (source line 1661):
`active_pills >= 2 && active_pills < NUM_PILLS/2`, on the count made at entry. -/
def few_pills_left (g : Game) : Prop :=
  count_active_pills g ≥ 2 ∧ count_active_pills g < c_div g.NUM_PILLS 2

instance (g : Game) : Decidable (few_pills_left g) := by
  unfold few_pills_left; infer_instance

/-- The second state differs from the first at most in the globals the main loop of
`handle_pills` writes: the pills, the ghosts, the power-pill timer, the score, the high
score and its flag. -/
def pill_loop_writes (g g1 : Game) : Prop :=
  ∃ ps gs t sc hs hb, g1 =
    { g with pills := ps, ghosts := gs, powerpill_active_timer := t, score := sc, high_score := hs, high_score_broken := hb }

/-! ## Ghosts and the player -/

/-- The function `setup_ghosts`. -/
def setup_ghosts (g : Game) : Game :=
  (List.range g.NUM_GHOSTS.toNat).foldl
    (fun h i => ghost_put h i
      { colour := c_mod (i : Int) 4 + 1, status := 1, recharge_timer := 0,
        x := h.MAZE_OFFSET_X + 4 * (HORI_LINE_SIZE - 2) + 7,
        y := h.MAZE_OFFSET_Y + 4 * (VERT_LINE_SIZE - 2) + 4,
        direction := DOWN, speed := h.speed }) g

/-- The body of the loop of `check_ghosts_hits_munchkin` for ghost `i`. -/
def ghost_hit (g : Game) (i : Nat) : Game :=
  let gh := ghost_at g i
  if gh.status = 1 ∨ gh.status = 2 then
    let a_xr := gh.x + 8
    let a_yb := gh.y + 8
    let a_x := gh.x
    let a_y := gh.y
    if g.munchkin_x_factor1 + 6 > a_x ∧ g.munchkin_x_factor1 + 2 < a_xr ∧
        g.munchkin_y_factor1 + 6 > a_y ∧ g.munchkin_y_factor1 + 2 < a_yb then
      if gh.status = 1 then { g with munchkin_dying := TRUE, munchkin_dying_animation := 1 }
      else
        let g0 := ghost_put g i { gh with status := 3 }
        update_high_score { g0 with score := g0.score + 10 }
    else g
  else g

/-- The function `check_ghosts_hits_munchkin`. -/
def check_ghosts_hits_munchkin (g : Game) : Game :=
  if g.munchkin_dying = FALSE then (List.range g.NUM_GHOSTS.toNat).foldl ghost_hit g else g

/-- The overlap test of `check_ghosts_hits_munchkin` for ghost `i`: the ghost's 8x8 box
strictly overlaps the player's shrunk box. -/
def ghost_touch (g : Game) (i : Nat) : Prop :=
  g.munchkin_x_factor1 + 6 > (ghost_at g i).x ∧ g.munchkin_x_factor1 + 2 < (ghost_at g i).x + 8 ∧
  g.munchkin_y_factor1 + 6 > (ghost_at g i).y ∧ g.munchkin_y_factor1 + 2 < (ghost_at g i).y + 8

instance (g : Game) (i : Nat) : Decidable (ghost_touch g i) := by
  unfold ghost_touch; infer_instance

/-- The points ghost `i` is worth to the player where it stands: 10 for a touched ghost
with status 2, 0 otherwise. -/
def ghost_value (g : Game) (i : Nat) : Int :=
  if (ghost_at g i).status = 2 ∧ ghost_touch g i then 10 else 0

/-- The number of ghosts with status 2 that overlap the player, among
`ghosts[0..NUM_GHOSTS-1]`. -/
def captured_count (g : Game) : Int :=
  (((List.range g.NUM_GHOSTS.toNat).filter
    (fun i => (ghost_at g i).status = 2 ∧ ghost_touch g i)).length : Int)

/-- The function `start_new_maze`. -/
def start_new_maze (g : Game) (rs : List Nat) : Option (Game × List Nat) :=
  let g1 := { g with
    munchkin_x_factor1 := (g.MAZE_OFFSET_X + 4 * (HORI_LINE_SIZE - 2)) + 7,
    munchkin_y_factor1 := (g.MAZE_OFFSET_Y + 3 * (VERT_LINE_SIZE - 2)) + 4,
    munchkin_auto_direction := 0,
    munchkin_last_direction := 0,
    munchkin_animation_frame := 0,
    munchkin_dying_animation := 0,
    maze_center_open := DOWN,
    maze_completed := FALSE,
    maze_color := 'm',
    last_pill_speed_increased := 0,
    powerpill_color := 1,
    powerpill_active_timer := 0,
    joy_left := 0, joy_right := 0, joy_up := 0, joy_down := 0 }
  match setup_pills (setup_maze g1 g1.maze_selected) rs with
  | none => none
  | some (g2, rs2) => some (setup_ghosts g2, rs2)

/-- The function `start_new_game`. -/
def start_new_game (g : Game) (rs : List Nat) : Option (Game × List Nat) :=
  start_new_maze { g with munchkin_dying := FALSE, score := 0, high_score_broken := FALSE,
                          speed := 1, start_delay := g.frame } rs

/-! ## Ghost movement: `choose_ghost_direction` and `handle_ghosts` -/

/-- The fallback at cell (3,4) when the centre is closed (source lines 2143-2153): nine
conditional assignments to `ghosts[i].direction`, run in order. -/
def stay_around_3_4 (direction left_open up_open down_open : Int) : Int :=
  let d := if direction = UP ∧ up_open = 1 then UP else direction
  let d := if d = UP ∧ up_open = 0 ∧ left_open = 1 then LEFT else d
  let d := if d = UP ∧ up_open = 0 ∧ down_open = 1 then DOWN else d
  let d := if d = DOWN ∧ down_open = 1 then DOWN else d
  let d := if d = DOWN ∧ down_open = 0 ∧ left_open = 1 then LEFT else d
  let d := if d = DOWN ∧ down_open = 0 ∧ left_open = 0 then UP else d
  let d := if d = RIGHT ∧ up_open = 1 then UP else d
  let d := if d = RIGHT ∧ up_open = 0 ∧ down_open = 1 then DOWN else d
  let d := if d = RIGHT ∧ up_open = 0 ∧ down_open = 0 then LEFT else d
  d

/-- The fallback at cell (5,4) when the centre is closed (source lines 2166-2176). -/
def stay_around_5_4 (direction right_open up_open down_open : Int) : Int :=
  let d := if direction = UP ∧ up_open = 1 then UP else direction
  let d := if d = UP ∧ up_open = 0 ∧ right_open = 1 then RIGHT else d
  let d := if d = UP ∧ up_open = 0 ∧ right_open = 0 then DOWN else d
  let d := if d = DOWN ∧ down_open = 1 then DOWN else d
  let d := if d = DOWN ∧ down_open = 0 ∧ right_open = 1 then RIGHT else d
  let d := if d = DOWN ∧ down_open = 0 ∧ right_open = 0 then UP else d
  let d := if d = LEFT ∧ up_open = 1 then UP else d
  let d := if d = LEFT ∧ up_open = 0 ∧ down_open = 1 then DOWN else d
  let d := if d = LEFT ∧ up_open = 0 ∧ down_open = 0 then RIGHT else d
  d

/-- The fallback at cell (4,3) when the centre is closed (source lines 2187-2197). -/
def stay_around_4_3 (direction left_open right_open up_open : Int) : Int :=
  let d := if direction = LEFT ∧ left_open = 1 then LEFT else direction
  let d := if d = LEFT ∧ left_open = 0 ∧ up_open = 1 then UP else d
  let d := if d = LEFT ∧ left_open = 0 ∧ up_open = 0 then RIGHT else d
  let d := if d = RIGHT ∧ right_open = 1 then RIGHT else d
  let d := if d = RIGHT ∧ right_open = 0 ∧ up_open = 1 then UP else d
  let d := if d = RIGHT ∧ right_open = 0 ∧ up_open = 0 then LEFT else d
  let d := if d = DOWN ∧ left_open = 1 then LEFT else d
  let d := if d = DOWN ∧ left_open = 0 ∧ right_open = 1 then RIGHT else d
  let d := if d = DOWN ∧ left_open = 0 ∧ right_open = 0 then UP else d
  d

/-- The fallback at cell (4,5) when the centre is closed (source lines 2208-2218). -/
def stay_around_4_5 (direction left_open right_open down_open : Int) : Int :=
  let d := if direction = LEFT ∧ left_open = 1 then LEFT else direction
  let d := if d = LEFT ∧ left_open = 0 ∧ down_open = 1 then DOWN else d
  let d := if d = LEFT ∧ left_open = 0 ∧ down_open = 0 then RIGHT else d
  let d := if d = RIGHT ∧ right_open = 1 then RIGHT else d
  let d := if d = RIGHT ∧ right_open = 0 ∧ down_open = 1 then DOWN else d
  let d := if d = RIGHT ∧ right_open = 0 ∧ down_open = 0 then LEFT else d
  let d := if d = UP ∧ left_open = 1 then LEFT else d
  let d := if d = UP ∧ left_open = 0 ∧ right_open = 1 then RIGHT else d
  let d := if d = UP ∧ left_open = 0 ∧ right_open = 0 then DOWN else d
  d

/-- The `else` branch of the homing block of `choose_ghost_direction` (source lines
2136-2220): the eight `if`s for the four cells next to the centre, run in order on the pair
`(ghosts[i].direction, direction_to_center_set)`. -/
def ghost_approach (direction cell_nr_x cell_nr_y left_open right_open up_open down_open : Int) :
    Int × Int :=
  let s : Int × Int := (direction, FALSE)
  let s := if cell_nr_x = 3 ∧ cell_nr_y = 4 ∧ right_open = 1 then (RIGHT, TRUE) else s
  let s := if cell_nr_x = 3 ∧ cell_nr_y = 4 ∧ s.2 = FALSE then
    (stay_around_3_4 s.1 left_open up_open down_open, TRUE) else s
  let s := if cell_nr_x = 5 ∧ cell_nr_y = 4 ∧ left_open = 1 then (LEFT, TRUE) else s
  let s := if cell_nr_x = 5 ∧ cell_nr_y = 4 ∧ s.2 = FALSE then
    (stay_around_5_4 s.1 right_open up_open down_open, TRUE) else s
  let s := if cell_nr_x = 4 ∧ cell_nr_y = 3 ∧ down_open = 1 then (DOWN, TRUE) else s
  let s := if cell_nr_x = 4 ∧ cell_nr_y = 3 ∧ s.2 = FALSE then
    (stay_around_4_3 s.1 left_open right_open up_open, TRUE) else s
  let s := if cell_nr_x = 4 ∧ cell_nr_y = 5 ∧ up_open = 1 then (UP, TRUE) else s
  let s := if cell_nr_x = 4 ∧ cell_nr_y = 5 ∧ s.2 = FALSE then
    (stay_around_4_5 s.1 left_open right_open down_open, TRUE) else s
  s

/-- The block `if (ghosts[i].status == 3)` of `choose_ghost_direction`: the ghost record
after it and the local `direction_to_center_set`. -/
def ghost_homing (gh : ghost_type)
    (cell_nr_x cell_nr_y left_open right_open up_open down_open : Int) : ghost_type × Int :=
  if gh.status = 3 then
    if cell_nr_x = 4 ∧ cell_nr_y = 4 then
      ({ gh with status := 4, direction := 0, recharge_timer := 200 }, FALSE)
    else
      let s := ghost_approach gh.direction cell_nr_x cell_nr_y left_open right_open up_open down_open
      ({ gh with direction := s.1 }, s.2)
  else (gh, FALSE)

/-- The block `if (ghosts[i].status == 4)` of `choose_ghost_direction`. -/
def ghost_recharge (gh : ghost_type) : ghost_type :=
  if gh.status = 4 then
    let gh1 := { gh with recharge_timer := gh.recharge_timer - 1 }
    if gh1.recharge_timer = -1 then { gh1 with status := 1, recharge_timer := 0, direction := DOWN }
    else gh1
  else gh

/-- The random-walk `switch (ghosts[i].direction)` of `choose_ghost_direction`: the four
cases have the shape of those of `choose_pill_direction`, with `rand()%10 >= 5`. -/
def ghost_walk (direction left_open right_open up_open down_open : Int) (rs : List Nat) :
    Option (Int × List Nat) :=
  if direction = LEFT then choose_case 5 left_open up_open down_open LEFT UP DOWN RIGHT rs
  else if direction = RIGHT then choose_case 5 right_open up_open down_open RIGHT UP DOWN LEFT rs
  else if direction = UP then choose_case 5 up_open left_open right_open UP LEFT RIGHT DOWN rs
  else if direction = DOWN then choose_case 5 down_open left_open right_open DOWN LEFT RIGHT UP rs
  else some (direction, rs)

/-- The body of `if (cell_x_ghost == ghosts[i].x && cell_y_ghost == ghosts[i].y)` in
`choose_ghost_direction`, once the cell and the four open flags are known: homing block,
recharge block, then the random walk unless `direction_to_center_set`. -/
def choose_ghost_aligned (g : Game) (i : Nat)
    (cell_nr_x cell_nr_y left_open right_open up_open down_open : Int) (rs : List Nat) :
    Option (Game × List Nat) :=
  let s := ghost_homing (ghost_at g i) cell_nr_x cell_nr_y left_open right_open up_open down_open
  let gh2 := ghost_recharge s.1
  if s.2 = FALSE then
    match ghost_walk gh2.direction left_open right_open up_open down_open rs with
    | none => none
    | some (d, rs1) => some (ghost_put g i { gh2 with direction := d }, rs1)
  else some (ghost_put g i gh2, rs)

/-- The function `choose_ghost_direction`. -/
def choose_ghost_direction (g : Game) (i : Nat) (rs : List Nat) : Option (Game × List Nat) :=
  let gh := ghost_at g i
  let cell_nr_x := c_div (gh.x - (7 + g.MAZE_OFFSET_X)) (HORI_LINE_SIZE - 2)
  let cell_nr_y := c_div (gh.y - (4 + g.MAZE_OFFSET_Y)) (VERT_LINE_SIZE - 2)
  let cell_x_ghost := 9 + 7 + cell_nr_x * 20
  let cell_y_ghost := 23 + 4 + cell_nr_y * 14
  if cell_x_ghost = gh.x ∧ cell_y_ghost = gh.y then
    let left_open : Int := if line_at g.vertical_lines cell_nr_y cell_nr_x = '|' then 0 else 1
    let right_open : Int := if line_at g.vertical_lines cell_nr_y (cell_nr_x + 1) = '|' then 0 else 1
    let up_open : Int := if line_at g.horizontal_lines cell_nr_y cell_nr_x = 'x' then 0 else 1
    let down_open : Int := if line_at g.horizontal_lines (cell_nr_y + 1) cell_nr_x = 'x' then 0 else 1
    choose_ghost_aligned g i cell_nr_x cell_nr_y left_open right_open up_open down_open rs
  else some (g, rs)

/-- The `switch (ghosts[i].direction)` of `handle_ghosts`: one step of a ghost, with the wrap. -/
def move_ghost (g : Game) (i : Nat) : Game :=
  let gh := ghost_at g i
  if gh.direction = LEFT then
    let x1 := gh.x - gh.speed
    let x2 := if x1 < -2 then 194 else x1
    ghost_put g i { gh with x := x2 }
  else if gh.direction = RIGHT then
    let x1 := gh.x + gh.speed
    let x2 := if x1 > 194 then -2 else x1
    ghost_put g i { gh with x := x2 }
  else if gh.direction = UP then ghost_put g i { gh with y := gh.y - gh.speed }
  else if gh.direction = DOWN then ghost_put g i { gh with y := gh.y + gh.speed }
  else g

/-- The first loop of `handle_ghosts`, run when the timer reaches 0: vulnerable ghosts
return to patrol. -/
def revert_ghosts (g : Game) : Game :=
  (List.range g.NUM_GHOSTS.toNat).foldl
    (fun h i =>
      if h.maze_completed = FALSE then
        if (ghost_at h i).status = 2 then ghost_put h i { ghost_at h i with status := 1 } else h
      else h) g

/-- The second loop `for (i = 0; i < NUM_GHOSTS && maze_completed == FALSE; i++)` of
`handle_ghosts`, over the indices given. -/
def handle_ghosts_loop : List Nat → Game → List Nat → Option (Game × List Nat)
  | [], g, rs => some (g, rs)
  | i :: is, g, rs =>
    if g.maze_completed = FALSE then
      match choose_ghost_direction g i rs with
      | none => none
      | some (g1, rs1) => handle_ghosts_loop is (move_ghost g1 i) rs1
    else some (g, rs)

/-- The function `handle_ghosts`. -/
def handle_ghosts (g : Game) (rs : List Nat) : Option (Game × List Nat) :=
  let g1 := { g with powerpill_active_timer := g.powerpill_active_timer - 1 }
  let g2 := if g1.powerpill_active_timer = 0 then revert_ghosts g1 else g1
  handle_ghosts_loop (List.range g2.NUM_GHOSTS.toNat) g2 rs

/-- What one pass of the main loop of `handle_ghosts` does to a ghost, as far as it is
used below: a ghost that is neither captured (3) nor recharging (4) keeps its status, and a
recharging ghost with direction 0 that is still recharging afterwards has not moved and
still has direction 0. -/
def ghost_moved (gh gh1 : ghost_type) : Prop :=
  (gh.status ≠ 3 → gh.status ≠ 4 → gh1.status = gh.status) ∧
  (gh.status = 4 → gh.direction = 0 → gh1.status = 4 →
    gh1.x = gh.x ∧ gh1.y = gh.y ∧ gh1.direction = 0)

/-- The ghosts' view of `k` frames of the main loop of `game`: in each frame the rest of
the frame, `f`, runs first and `handle_ghosts` after it. -/
def ghost_frames (f : Game → Game) : Nat → Game → List Nat → Option (Game × List Nat)
  | 0, g, rs => some (g, rs)
  | k + 1, g, rs =>
    match ghost_frames f k g rs with
    | none => none
    | some (g1, rs1) => handle_ghosts (f g1) rs1

/-! ## The open flags of `choose_pill_direction` and `choose_ghost_direction` -/

/-- The test `vertical_lines[cy].line[cx] == '|'` as the flag `left_open` of cell `(cx, cy)`. -/
def wall_left_open (g : Game) (cx cy : Int) : Int :=
  if line_at g.vertical_lines cy cx = '|' then 0 else 1

/-- The flag `right_open` of cell `(cx, cy)`. -/
def wall_right_open (g : Game) (cx cy : Int) : Int :=
  if line_at g.vertical_lines cy (cx + 1) = '|' then 0 else 1

/-- The flag `up_open` of cell `(cx, cy)`. -/
def wall_up_open (g : Game) (cx cy : Int) : Int :=
  if line_at g.horizontal_lines cy cx = 'x' then 0 else 1

/-- The flag `down_open` of cell `(cx, cy)`. -/
def wall_down_open (g : Game) (cx cy : Int) : Int :=
  if line_at g.horizontal_lines (cy + 1) cx = 'x' then 0 else 1

/-- The cell numbers `(cell_nr_x, cell_nr_y)` that `choose_pill_direction` computes for
pill `i`. -/
def pill_cell (g : Game) (i : Nat) : Int × Int :=
  (c_div (c_div ((pill_at g i).x - g.screen_offset_x) g.factor - (9 + g.MAZE_OFFSET_X)) (HORI_LINE_SIZE - 2),
   c_div (c_div ((pill_at g i).y - g.screen_offset_y) g.factor - (7 + g.MAZE_OFFSET_Y)) (VERT_LINE_SIZE - 2))

/-- The flag of direction `d` that `choose_pill_direction` uses in cell `(cx, cy)`: the
wall flag, set to 0 for the side of a neighbour of the centre that faces the centre
(source lines 1832-1836, `do not choose center cell`). -/
def pill_flag (g : Game) (cx cy d : Int) : Int :=
  if d = LEFT then (if cy = 4 ∧ cx = 5 then 0 else wall_left_open g cx cy)
  else if d = RIGHT then (if cy = 4 ∧ cx = 3 then 0 else wall_right_open g cx cy)
  else if d = UP then (if cy = 5 ∧ cx = 4 then 0 else wall_up_open g cx cy)
  else (if cy = 3 ∧ cx = 4 then 0 else wall_down_open g cx cy)

/-- The flag of direction `d` that `choose_ghost_direction` uses in cell `(cx, cy)`: the
wall flag. -/
def ghost_flag (g : Game) (cx cy d : Int) : Int :=
  if d = LEFT then wall_left_open g cx cy
  else if d = RIGHT then wall_right_open g cx cy
  else if d = UP then wall_up_open g cx cy
  else wall_down_open g cx cy

/-- The first perpendicular side tried from direction `d`: UP for a horizontal direction,
LEFT for a vertical one. -/
def first_side (d : Int) : Int := if d = LEFT ∨ d = RIGHT then UP else LEFT

/-- The second perpendicular side tried from direction `d`: DOWN for a horizontal
direction, RIGHT for a vertical one. -/
def second_side (d : Int) : Int := if d = LEFT ∨ d = RIGHT then DOWN else RIGHT

/-- The direction opposite to `d`. -/
def back_side (d : Int) : Int :=
  if d = LEFT then RIGHT else if d = RIGHT then LEFT else if d = UP then DOWN else UP

/-- The `switch` on the current direction that `choose_pill_direction` (threshold 3) and
`choose_ghost_direction` (threshold 5) share, as a function of the flag of each direction. -/
def direction_switch (threshold : Nat) (flag : Int → Int) (d : Int) (rs : List Nat) :
    Option (Int × List Nat) :=
  if d = LEFT then choose_case threshold (flag LEFT) (flag UP) (flag DOWN) LEFT UP DOWN RIGHT rs
  else if d = RIGHT then
    choose_case threshold (flag RIGHT) (flag UP) (flag DOWN) RIGHT UP DOWN LEFT rs
  else if d = UP then choose_case threshold (flag UP) (flag LEFT) (flag RIGHT) UP LEFT RIGHT DOWN rs
  else if d = DOWN then
    choose_case threshold (flag DOWN) (flag LEFT) (flag RIGHT) DOWN LEFT RIGHT UP rs
  else some (d, rs)

/-- The cell numbers `(cell_nr_x, cell_nr_y)` that `choose_ghost_direction` computes for
ghost `i`. -/
def ghost_cell (g : Game) (i : Nat) : Int × Int :=
  (c_div ((ghost_at g i).x - (7 + g.MAZE_OFFSET_X)) (HORI_LINE_SIZE - 2),
   c_div ((ghost_at g i).y - (4 + g.MAZE_OFFSET_Y)) (VERT_LINE_SIZE - 2))

/-- The test `cell_x_ghost == ghosts[i].x && cell_y_ghost == ghosts[i].y` of
`choose_ghost_direction`. -/
def ghost_in_middle (g : Game) (i : Nat) : Prop :=
  9 + 7 + (ghost_cell g i).1 * 20 = (ghost_at g i).x ∧
  23 + 4 + (ghost_cell g i).2 * 14 = (ghost_at g i).y

instance (g : Game) (i : Nat) : Decidable (ghost_in_middle g i) := by
  unfold ghost_in_middle; infer_instance

/-- The step `f` of the rest of a frame leaves ghost `j` alone, and with it the globals
that `handle_ghosts` reads for it: the maze offsets, `maze_completed` and `NUM_GHOSTS`. -/
def keeps_ghost (f : Game → Game) (j : Nat) : Prop :=
  ∀ s, ghost_at (f s) j = ghost_at s j ∧ (f s).MAZE_OFFSET_X = s.MAZE_OFFSET_X ∧
    (f s).MAZE_OFFSET_Y = s.MAZE_OFFSET_Y ∧ (f s).maze_completed = s.maze_completed ∧
    (f s).NUM_GHOSTS = s.NUM_GHOSTS

/-! ## Sample states -/

/-- A concrete play state: maze 1 with the centre open downwards, the player on the
decision point of cell (4,3), two pills and one ghost. -/
def demo : Game :=
  { horizontal_lines := [cstr "xxxxxxxxx", cstr "-x---x-x-", cstr "----xx---", cstr "--x---x--", cstr "x---x---x", cstr "x-------x", cstr "-x--x-xx-", cstr "xxxxxxxxx"],
    vertical_lines := [cstr "|---|----|", cstr "|--|-----|", cstr "|||--|-|||", cstr "|-|----|-|", cstr "---||||---", cstr "|-|----|-|", cstr "|--|-|---|"],
    pills := [⟨2, 90, 115, 4, 1⟩, ⟨1, 190, 115, 1, 1⟩],
    ghosts := [⟨1, 1, 0, 96, 83, 4, 1⟩],
    screen_offset_x := 0, screen_offset_y := 0, factor := 5,
    joy_left := 0, joy_right := 0, joy_up := 0, joy_down := 0,
    NUM_PILLS := 2, NUM_GHOSTS := 1,
    munchkin_x_factor1 := 96, munchkin_y_factor1 := 69,
    munchkin_auto_direction := 0, munchkin_last_direction := 0, speed := 1,
    munchkin_animation_frame := 0, munchkin_dying_animation := 0, munchkin_dying := 0,
    maze_center_open := 4, maze_completed := 0, maze_completed_animations := 0,
    maze_color := 'm', MAZE_OFFSET_X := 9, MAZE_OFFSET_Y := 23, maze_selected := 1,
    arcade_mode := 0, last_pill_speed_increased := 0, powerpill_color := 1,
    powerpill_active_timer := 0, high_score_broken := 0, high_score_registration := 0,
    high_score_character_pos := 0, score := 0, high_score := 0,
    high_score_name := "??????".toList, flash_high_score_timer := 0, frame := 1, start_delay := 0 }

/-- The state `start_new_maze` produces from `demo` (twelve or fewer pills: no draws). -/
def demo_started : Game := ((start_new_maze demo []).getD (demo, [])).1

/-- The state `demo` with the player inside the left tunnel, at x = 10 on row y = 83. -/
def demo_tunnel : Game := { demo with munchkin_x_factor1 := 10, munchkin_y_factor1 := 83 }

/-- The state `demo` with a power pill under the player and a normal pill far away. -/
def demo_pills : Game :=
  { demo with pills := [⟨2, 488, 352, 4, 1⟩, ⟨1, 190, 115, 1, 1⟩] }

/-- The state after `handle_pills` on `demo_pills` (no draw is needed there). -/
def demo_pills_after : Game := ((handle_pills demo_pills []).getD (demo_pills, [])).1

/-- The state `demo` with the player gliding left between two decision points. -/
def demo_glide : Game :=
  { demo with munchkin_auto_direction := LEFT, munchkin_x_factor1 := 90 }

/-- The state `demo` with two vulnerable ghosts: ghost 0 on the player, ghost 1 in the
centre cell. -/
def demo_capture : Game :=
  { demo with ghosts := [⟨1, 2, 0, 96, 69, 4, 1⟩, ⟨2, 2, 0, 96, 83, 4, 1⟩], NUM_GHOSTS := 2 }

/-- The state `demo` with a captured and a recharging ghost, both on the player. -/
def demo_inert : Game :=
  { demo with ghosts := [⟨1, 3, 0, 96, 69, 4, 1⟩, ⟨2, 4, 7, 96, 69, 0, 1⟩], NUM_GHOSTS := 2 }

/-- The state `demo` with a patrol ghost on the player. -/
def demo_fatal : Game :=
  { demo with ghosts := [⟨1, 1, 0, 96, 69, 4, 1⟩] }

/-- The state `demo` with a patrol ghost on the player and a vulnerable ghost one step to
its right, also overlapping the player. -/
def demo_fatal_capture : Game :=
  { demo with ghosts := [⟨1, 1, 0, 96, 69, 4, 1⟩, ⟨2, 2, 0, 97, 69, 1, 1⟩], NUM_GHOSTS := 2 }

/-- The state `demo_pills` with a patrol, a vulnerable, a captured and a recharging ghost
and 130 frames left on the timer of an earlier power pill. -/
def demo_power : Game :=
  { demo_pills with
    ghosts := [⟨1, 1, 0, 96, 83, 4, 1⟩, ⟨2, 2, 0, 16, 27, 2, 1⟩, ⟨3, 3, 0, 36, 27, 2, 1⟩,
               ⟨4, 4, 7, 96, 83, 0, 1⟩],
    NUM_GHOSTS := 4, powerpill_active_timer := 130 }

/-- The state after `handle_pills` on `demo_power` (no draw is needed there). -/
def demo_power_after : Game := ((handle_pills demo_power []).getD (demo_power, [])).1

/-- The state `demo` with one vulnerable ghost in the centre cell and one frame left on
the power-pill timer. -/
def demo_revert : Game :=
  { demo with ghosts := [⟨1, 2, 0, 96, 83, 4, 1⟩], powerpill_active_timer := 1 }

/-- The state after `handle_ghosts` on `demo_revert` (no draw is needed there). -/
def demo_revert_after : Game := ((handle_ghosts demo_revert []).getD (demo_revert, [])).1

/-- The state `demo_revert` just after a power pill: the timer is 180. -/
def demo_timer : Game := { demo_revert with powerpill_active_timer := 180 }

/-- The state after `handle_ghosts` on `demo_timer` (no draw is needed there). -/
def demo_timer_after : Game := ((handle_ghosts demo_timer []).getD (demo_timer, [])).1

/-- The state `demo` with a captured ghost that has just reached the centre cell. -/
def demo_home : Game := { demo with ghosts := [⟨1, 3, 0, 96, 83, 4, 1⟩] }

/-- The state `demo` with a recharging ghost at rest in the centre cell. -/
def demo_parked : Game := { demo with ghosts := [⟨1, 4, 199, 96, 83, 0, 1⟩] }

/-- The state after `handle_ghosts` on `demo_parked` (no draw is needed there). -/
def demo_parked_after : Game := ((handle_ghosts demo_parked []).getD (demo_parked, [])).1

/-- The state `demo` with its last active pill, a power pill, under the player. -/
def demo_last : Game :=
  { demo with pills := [⟨2, 488, 352, 4, 1⟩, ⟨0, 190, 115, 1, 1⟩] }

/-- The state after `handle_pills` on `demo_last` (no draw is needed there). -/
def demo_last_after : Game := ((handle_pills demo_last []).getD (demo_last, [])).1

/-- The state after a second `handle_pills` call, on `demo_pills_after`, given two draws. -/
def demo_pills_twice : Game :=
  ((handle_pills demo_pills_after [0, 0]).getD (demo_pills_after, [])).1

/-- The state `demo` with the default twelve pills still to be set up. -/
def demo_twelve : Game := { demo with NUM_PILLS := 12 }

/-- The state `setup_pills` produces from `demo_twelve` (twelve pills: no draws). -/
def demo_twelve_set : Game := ((setup_pills demo_twelve []).getD (demo_twelve, [])).1

/-- A rest-of-frame step for the sample run: every pill of `pills[0..11]` is put under
the player of `demo`; statuses, score and counts stay as they are. -/
def demo_gather (s : Game) : Game :=
  (List.range 12).foldl (fun h i => pill_put h i { pill_at h i with x := 488, y := 352 }) s

/-- The state after one frame, `demo_gather` and then `handle_pills`, from `demo_twelve_set`. -/
def demo_twelve_after : Game :=
  ((pill_frames demo_gather 1 demo_twelve_set []).getD (demo_twelve_set, [])).1

/-- A state with thirteen pills of which six are active, all on their start cells: the
pills `setup_pills` makes for `NUM_PILLS = 13`, with pills 0..6 eaten. -/
def demo_thirteen : Game :=
  (List.range 7).foldl (fun h i => pill_put h i { pill_at h i with status := 0 })
    ((setup_pills { demo with NUM_PILLS := 13 } [3, 2, 0, 0]).getD (demo, [])).1

/-- The state after `handle_pills` on `demo_thirteen`, given four draws. -/
def demo_thirteen_after : Game :=
  ((handle_pills demo_thirteen [7, 7, 7, 7]).getD (demo_thirteen, [])).1

/-- The state `demo_twelve_set` with the player dying. -/
def demo_dying : Game :=
  { demo_twelve_set with munchkin_dying := TRUE, munchkin_dying_animation := 1 }

/-- The state after `handle_pills` on `demo_dying`, given eight draws. -/
def demo_dying_after : Game :=
  ((handle_pills demo_dying (List.replicate 8 7)).getD (demo_dying, [])).1

/-! ## Name entry: `print_high_score_char` and the key events of `get_user_input` -/

/-- The function `print_high_score_char`.  The name is modelled by its characters (the
terminator that `strcpy` moves with them is not modelled); `none` stands for a write
`text_line[high_score_character_pos] = character` outside `char text_line[6]`. -/
def print_high_score_char (g : Game) (character : Int) : Option Game :=
  if character ≠ 13 ∧ (g.high_score_character_pos < 0 ∨ g.high_score_character_pos > 5) then none
  else
    let text_line :=
      if character ≠ 13 then
        g.high_score_name.set g.high_score_character_pos.toNat (Char.ofNat character.toNat)
      else g.high_score_name
    let g1 := { g with high_score_name := text_line,
                       high_score_character_pos := g.high_score_character_pos + 1 }
    if g1.high_score_character_pos > 5 ∨ character = 13 then
      some { g1 with high_score_registration := FALSE }
    else some g1

/-- The `SDL_KEYDOWN` case of the event loop of `get_user_input` (source lines 973-987) for
a key `sym` other than Escape: a letter, the space or Return goes to
`print_high_score_char` while `high_score_registration` is TRUE. -/
def get_user_input_key (g : Game) (sym : Int) : Option Game :=
  if (sym ≥ 97 ∧ sym ≤ 122) ∨ sym = 32 ∨ sym = 13 then
    if g.high_score_registration = TRUE then print_high_score_char g sym else some g
  else some g

/-- The event loop of `get_user_input` on a queue that holds only key presses `syms`, none
of them Escape (27); the loop on any queue, Escape included, is `get_user_input_events`. -/
def get_user_input_keys : List Int → Game → Option Game
  | [], g => some g
  | sym :: syms, g =>
    match get_user_input_key g sym with
    | none => none
    | some g1 => get_user_input_keys syms g1

/-- The keys that the filter of `get_user_input` passes on: `a`..`z`, the space, Return. -/
def key_accepted (sym : Int) : Prop := (sym ≥ 97 ∧ sym ≤ 122) ∨ sym = 32 ∨ sym = 13

instance (sym : Int) : Decidable (key_accepted sym) := by
  unfold key_accepted; infer_instance

/-- The key presses that can reach the name: those the filter accepts, up to the first
Return. -/
def stored_keys (syms : List Int) : List Int :=
  (syms.filter (fun s => decide (key_accepted s))).takeWhile (fun s => decide (s ≠ 13))

/-- The name with the characters `cs` written over it one after the other from index `p`
on, as the claim on the name entry words it. -/
def entered_name : List Char → Nat → List Int → List Char
  | name, _, [] => name
  | name, p, c :: cs => entered_name (name.set p (Char.ofNat c.toNat)) (p + 1) cs

/-- The state part of `draw_munchkin`: the chewing animation counter, and while the player
is dying the death animation, which on its step 25 opens the name entry if the high score
was broken. -/
def draw_munchkin (g : Game) : Game :=
  let g1 :=
    if g.maze_completed = FALSE then
      if g.munchkin_last_direction ≠ 0 then
        let a := g.munchkin_animation_frame + 1
        { g with munchkin_animation_frame := if a = 6 then 0 else a }
      else g
    else g
  if g1.munchkin_dying = TRUE then
    let g2 := if g1.munchkin_dying_animation = 7 then { g1 with flash_high_score_timer := 55 }
      else g1
    if c_mod g2.frame 7 = 0 then
      let g3 := { g2 with munchkin_dying_animation := g2.munchkin_dying_animation + 1 }
      if g3.munchkin_dying_animation ≥ 8 then
        if g3.munchkin_dying_animation = 25 then
          if g3.high_score_broken = TRUE then
            { g3 with high_score_registration := TRUE, high_score_character_pos := 0 }
          else g3
        else g3
      else g3
    else g2
  else g1

/-- The state part of `flash_high_score_name`. -/
def flash_high_score_name (g : Game) : Game :=
  let g1 := if g.high_score_broken = TRUE then { g with high_score_name := "??????".toList }
    else g
  let g2 := if c_mod g1.frame 3 = 0 then
      { g1 with flash_high_score_timer := g1.flash_high_score_timer - 1 }
    else g1
  if g2.flash_high_score_timer < 0 then { g2 with flash_high_score_timer := 150 } else g2

/-- The state part of `draw_score_line`: the name flashes while the player is dying. -/
def draw_score_line (g : Game) : Game :=
  if g.munchkin_dying = 1 then flash_high_score_name g else g

/-! ## The main loop of `game` -/

/-- The function `intermission1`: its leading assignments, then the rest of the function
(the ghost set-up, `setup_maze(5)` and the animation loop), given as `rest`. -/
def intermission1 (rest : Game → List Nat → Option (Game × List Nat)) (g : Game)
    (rs : List Nat) : Option (Game × List Nat) :=
  rest { g with start_delay := g.frame, speed := 1,
                munchkin_x_factor1 := (g.MAZE_OFFSET_X + 0 * (HORI_LINE_SIZE - 2)) + 7,
                munchkin_y_factor1 := (g.MAZE_OFFSET_Y + 6 * (VERT_LINE_SIZE - 2)) + 4,
                munchkin_auto_direction := 0, munchkin_last_direction := 0,
                munchkin_animation_frame := 0 } rs

/-- The function `intermission2`: its leading assignments, then the rest of the function
(the ghost set-up, `setup_maze(6)` and the animation loop), given as `rest`. -/
def intermission2 (rest : Game → List Nat → Option (Game × List Nat)) (g : Game)
    (rs : List Nat) : Option (Game × List Nat) :=
  rest { g with powerpill_color := 1, start_delay := g.frame, speed := 1,
                munchkin_x_factor1 := (g.MAZE_OFFSET_X + 4 * (HORI_LINE_SIZE - 2)) + 7,
                munchkin_y_factor1 := (g.MAZE_OFFSET_Y + 3 * (VERT_LINE_SIZE - 2)) + 4,
                munchkin_auto_direction := 0, munchkin_last_direction := 0,
                munchkin_animation_frame := 0 } rs

/-- The rest of an intermission leaves `speed`, `maze_selected` and `arcade_mode` as they
are: the source assigns `speed` only in `game`, `start_new_game` and at the top of the two
intermissions, and `maze_selected` and `arcade_mode` only in `game`, `setup` and
`title_screen`. -/
def keeps_progress (rest : Game → List Nat → Option (Game × List Nat)) : Prop :=
  ∀ s rs s1 rs1, rest s rs = some (s1, rs1) →
    s1.speed = s.speed ∧ s1.maze_selected = s.maze_selected ∧ s1.arcade_mode = s.arcade_mode

/-- The block `if (arcade_mode == TRUE) { .. }` of the continuation step of `game` (source
lines 508-523): the state handed to `start_new_maze`. -/
def game_advance (rest1 rest2 : Game → List Nat → Option (Game × List Nat)) (g : Game)
    (rs : List Nat) : Option (Game × List Nat) :=
  if g.arcade_mode = TRUE then
    let g1 : Game := { g with maze_selected := g.maze_selected + 1 }
    match (if g1.maze_selected = (3 : Int) then
        match intermission1 rest1 { g1 with maze_completed := FALSE } rs with
        | none => none
        | some (g2, rs2) => some ({ g2 with maze_selected := 3 }, rs2)
      else some (g1, rs)) with
    | none => none
    | some (g3, rs3) =>
      if g3.maze_selected = (5 : Int) then
        match intermission2 rest2 { g3 with maze_completed := FALSE } rs3 with
        | none => none
        | some (g4, rs4) =>
          let g5 : Game := { g4 with maze_selected := 1 }
          some (if g5.speed = 1 then { g5 with speed := 2 } else g5, rs4)
      else some (g3, rs3)
  else some (g, rs)

/-- The continuation step of `game` (source lines 507-525). -/
def game_continue (rest1 rest2 : Game → List Nat → Option (Game × List Nat)) (g : Game)
    (rs : List Nat) : Option (Game × List Nat) :=
  if g.maze_completed = TRUE ∧ g.maze_completed_animations = 0 then
    match game_advance rest1 rest2 g rs with
    | none => none
    | some (g1, rs1) => start_new_maze g1 rs1
  else some (g, rs)

/-- The restart after death of `game` (source lines 501-505). -/
def game_restart (g : Game) (rs : List Nat) : Option (Game × List Nat) :=
  if g.munchkin_dying = TRUE ∧ g.munchkin_dying_animation = 25 then
    start_new_game (if g.arcade_mode = TRUE then { g with maze_selected := 1 } else g) rs
  else some (g, rs)

/-- The calls of one turn of the main loop of `game` after `get_user_input`, with the
state parts of the drawing functions. -/
def game_frame_tail (g : Game) (rs : List Nat) : Option (Game × List Nat) :=
  let g5 := draw_munchkin g
  let g6 := if g5.maze_completed = TRUE then handle_maze_completed g5 else g5
  match handle_pills g6 rs with
  | none => none
  | some (g7, rs3) =>
    match (if g7.munchkin_dying = FALSE ∨ g7.munchkin_dying_animation = 0 then
        handle_ghosts g7 rs3 else some (g7, rs3)) with
    | none => none
    | some (g8, rs4) =>
      let g9 := if g8.maze_completed = FALSE then check_ghosts_hits_munchkin g8 else g8
      some (draw_score_line (draw_maze g9), rs4)

/-- One turn of the main loop of `game` on a frame on which key 8 is not held and whose
event queue holds only the key presses `syms`, none of them Escape; `k` are the arrow keys
held.  The turn on any frame, with the value of `done`, is `game_turn`. -/
def game_frame (rest1 rest2 : Game → List Nat → Option (Game × List Nat)) (g : Game)
    (syms : List Int) (k : keystate) (rs : List Nat) : Option (Game × List Nat) :=
  match game_restart { g with frame := g.frame + 1 } rs with
  | none => none
  | some (g1, rs1) =>
    match game_continue rest1 rest2 g1 rs1 with
    | none => none
    | some (g2, rs2) =>
      match get_user_input_keys syms g2 with
      | none => none
      | some g3 => game_frame_tail (get_user_input g3 k) rs2

/-- The turns of the main loop for the inputs `ins`, one `(syms, k)` per frame, as
`game_frame` takes them. -/
def game_frames (rest1 rest2 : Game → List Nat → Option (Game × List Nat)) :
    List (List Int × keystate) → Game → List Nat → Option (Game × List Nat)
  | [], g, rs => some (g, rs)
  | i :: is, g, rs =>
    match game_frame rest1 rest2 g i.1 i.2 rs with
    | none => none
    | some (g1, rs1) => game_frames rest1 rest2 is g1 rs1

/-- What a completed maze freezes: the player's position and committed direction, the
ghosts, the place, direction and status of every pill, the score, the flags
`maze_completed` and `munchkin_dying`, and the level settings. -/
def maze_frozen (g g1 : Game) : Prop :=
  g1.maze_completed = g.maze_completed ∧ g1.munchkin_dying = g.munchkin_dying ∧
  g1.munchkin_x_factor1 = g.munchkin_x_factor1 ∧ g1.munchkin_y_factor1 = g.munchkin_y_factor1 ∧
  g1.munchkin_auto_direction = g.munchkin_auto_direction ∧ g1.ghosts = g.ghosts ∧
  (∀ j, (pill_at g1 j).status = (pill_at g j).status ∧ (pill_at g1 j).x = (pill_at g j).x ∧
    (pill_at g1 j).y = (pill_at g j).y ∧ (pill_at g1 j).direction = (pill_at g j).direction) ∧
  g1.score = g.score ∧ g1.high_score = g.high_score ∧ g1.maze_selected = g.maze_selected ∧
  g1.speed = g.speed ∧ g1.arcade_mode = g.arcade_mode

/-- The level invariant of `game`: the maze number is one of 1..4, the player speed is 1
or 2, and mazes 3 and 4 have speed 1. -/
def level_ok (g : Game) : Prop :=
  1 ≤ g.maze_selected ∧ g.maze_selected ≤ 4 ∧ (g.speed = 1 ∨ g.speed = 2) ∧
  (g.maze_selected = 3 ∨ g.maze_selected = 4 → g.speed = 1)

instance (g : Game) : Decidable (level_ok g) := by
  unfold level_ok; infer_instance

/-! ## The title screen -/

/-- The function `switch_active_mini_map`; `fac` is the value of
`(int)round(screen_height / VIDEOPAC_RES_H)`, which the window decides. -/
def switch_active_mini_map (g : Game) (maze_selected fac : Int) (rs : List Nat) :
    Option (Game × List Nat) :=
  let g1 := { g with factor := 1 }
  let g2 :=
    if maze_selected = 1 then { g1 with MAZE_OFFSET_X := 9 + 40, MAZE_OFFSET_Y := 175 }
    else if maze_selected = 2 then { g1 with MAZE_OFFSET_X := 235 + 9 + 40, MAZE_OFFSET_Y := 175 }
    else if maze_selected = 3 then { g1 with MAZE_OFFSET_X := 470 + 9 + 40, MAZE_OFFSET_Y := 175 }
    else if maze_selected = 4 then { g1 with MAZE_OFFSET_X := 705 + 9 + 40, MAZE_OFFSET_Y := 175 }
    else g1
  match setup_pills g2 rs with
  | none => none
  | some (g3, rs1) => some ({ g3 with MAZE_OFFSET_X := 9, MAZE_OFFSET_Y := 23, factor := fac }, rs1)

/-- The `case(2)` of the option switch of `title_screen`, the same for left and right:
toggle arcade mode, and reset maze, ghosts and pills when it is switched on. -/
def title_arcade (g : Game) (fac : Int) (rs : List Nat) : Option (Game × List Nat) :=
  if g.arcade_mode = FALSE then
    match switch_active_mini_map { g with arcade_mode := TRUE, maze_selected := 1 } 1 fac rs with
    | none => none
    | some (g1, rs1) => some ({ g1 with NUM_GHOSTS := 4, NUM_PILLS := 12 }, rs1)
  else some ({ g with arcade_mode := FALSE }, rs)

/-- The option switch of `title_screen` for `right` (key or joystick) on the row
`active_option_row`; row 5 only ends the title screen. -/
def title_right (g : Game) (active_option_row fac : Int) (rs : List Nat) :
    Option (Game × List Nat) :=
  if active_option_row = 1 then
    let m := g.maze_selected + 1
    let g1 := { g with maze_selected := if m = 5 then 1 else m }
    switch_active_mini_map g1 g1.maze_selected fac rs
  else if active_option_row = 2 then title_arcade g fac rs
  else if active_option_row = 3 then
    let n := g.NUM_GHOSTS + 1
    some ({ g with NUM_GHOSTS := if n > 10 then 10 else n }, rs)
  else if active_option_row = 4 then
    let n := g.NUM_PILLS + 1
    some ({ g with NUM_PILLS := if n > 99 then 99 else n }, rs)
  else some (g, rs)

/-- The option switch of `title_screen` for `left` (key or joystick). -/
def title_left (g : Game) (active_option_row fac : Int) (rs : List Nat) :
    Option (Game × List Nat) :=
  if active_option_row = 1 then
    let m := g.maze_selected - 1
    let g1 := { g with maze_selected := if m = 0 then 4 else m }
    switch_active_mini_map g1 g1.maze_selected fac rs
  else if active_option_row = 2 then title_arcade g fac rs
  else if active_option_row = 3 then
    let n := g.NUM_GHOSTS - 1
    some ({ g with NUM_GHOSTS := if n < 1 then 1 else n }, rs)
  else if active_option_row = 4 then
    let n := g.NUM_PILLS - 1
    some ({ g with NUM_PILLS := if n < 12 then 12 else n }, rs)
  else some (g, rs)

/-- One arrow key of `title_screen` (1073741906 up, 1073741905 down, 1073741903 right,
1073741904 left) on the state and the local `active_option_row`. -/
def title_arrow (g : Game) (active_option_row key fac : Int) (rs : List Nat) :
    Option (Game × Int × List Nat) :=
  if key = 1073741906 then
    let r1 := if active_option_row > 1 ∧ g.arcade_mode = FALSE then active_option_row - 1
      else active_option_row
    some (g, if r1 = 5 ∧ g.arcade_mode = TRUE then 2 else r1, rs)
  else if key = 1073741905 then
    let r1 := if active_option_row < 5 ∧ g.arcade_mode = FALSE then active_option_row + 1
      else active_option_row
    some (g, if r1 = 2 ∧ g.arcade_mode = TRUE then 5 else r1, rs)
  else if key = 1073741903 then
    match title_right g active_option_row fac rs with
    | none => none
    | some (g1, rs1) => some (g1, active_option_row, rs1)
  else if key = 1073741904 then
    match title_left g active_option_row fac rs with
    | none => none
    | some (g1, rs1) => some (g1, active_option_row, rs1)
  else some (g, active_option_row, rs)

/-- The arrow keys `keys` of a stay on the title screen, in order. -/
def title_arrows : List Int → Game → Int → Int → List Nat → Option (Game × Int × List Nat)
  | [], g, row, _, rs => some (g, row, rs)
  | key :: keys, g, row, fac, rs =>
    match title_arrow g row key fac rs with
    | none => none
    | some (g1, row1, rs1) => title_arrows keys g1 row1 fac rs1

/-- The assignments of `setup` to the level settings (source lines 637-643). -/
def setup (g : Game) : Game :=
  { g with NUM_PILLS := 12, NUM_GHOSTS := 4, MAZE_OFFSET_X := 9, MAZE_OFFSET_Y := 23,
           maze_selected := 1, arcade_mode := FALSE }

/-- The bounds of the title screen on the level settings. -/
def settings_ok (g : Game) : Prop :=
  1 ≤ g.NUM_GHOSTS ∧ g.NUM_GHOSTS ≤ 10 ∧ 12 ≤ g.NUM_PILLS ∧ g.NUM_PILLS ≤ 99 ∧
  1 ≤ g.maze_selected ∧ g.maze_selected ≤ 4

instance (g : Game) : Decidable (settings_ok g) := by
  unfold settings_ok; infer_instance

/-! ## More sample states -/

/-- The state `demo` with its ghost on patrol in the corner cell (0,0), heading down. -/
def demo_corner : Game := { demo with ghosts := [⟨1, 1, 0, 16, 27, 4, 1⟩] }

/-- The state `demo` with a pill on the centre of cell (3,4), left of the centre cell,
heading left, and a second pill far away. -/
def demo_beside : Game :=
  { demo with pills := [⟨1, 390, 430, 1, 1⟩, ⟨1, 190, 115, 1, 1⟩] }

/-- The state `demo` on frame 90, after `draw_maze` has turned the centre opening from
DOWN to LEFT, with a recharging ghost at rest in the centre cell whose countdown is 0. -/
def demo_left : Game :=
  draw_maze { demo with frame := 90, ghosts := [⟨1, 4, 0, 96, 83, 0, 1⟩] }

/-- The state after `choose_ghost_direction` for ghost 0 of `demo_left`, given one draw. -/
def demo_left_after : Game := ((choose_ghost_direction demo_left 0 [0]).getD (demo_left, [])).1

/-- The state after `handle_ghosts` on `demo_home` (no draw is needed there). -/
def demo_home_after : Game := ((handle_ghosts demo_home []).getD (demo_home, [])).1

/-- The state after a further `handle_ghosts` call, on `demo_home_after`. -/
def demo_home_twice : Game := ((handle_ghosts demo_home_after []).getD (demo_home_after, [])).1

/-- The state `demo` at the start of a name entry. -/
def demo_entry : Game := { demo with high_score_registration := TRUE }

/-- The state after the key presses `m`, `a`, `x`, Return, `q` on `demo_entry`. -/
def demo_entry_after : Game :=
  (get_user_input_keys [109, 97, 120, 13, 113] demo_entry).getD demo_entry

/-- An intermission rest that does nothing, for the sample runs. -/
def no_rest (s : Game) (rs : List Nat) : Option (Game × List Nat) := some (s, rs)

/-- The state `demo` in arcade mode with maze 4 completed and its animation over. -/
def demo_wrap : Game :=
  { demo with arcade_mode := TRUE, maze_selected := 4, maze_completed := TRUE,
              maze_completed_animations := 0 }

/-- The state `demo` with the maze just completed. -/
def demo_complete : Game :=
  { demo with maze_completed := TRUE, maze_completed_animations := 75 }

/-! ## Sample states and helpers for the walk, the loop and the runs -/

/-- The state `demo_left` (centre open to the left) with a captured ghost on the point of
cell (3,4), left of the centre, heading up. -/
def demo_approach : Game := { demo_left with ghosts := [⟨1, 3, 0, 76, 83, 3, 1⟩] }

/-- The state `demo_left` (centre open to the left, so closed below) with a captured ghost
on the point of cell (4,5), under the centre, heading down. -/
def demo_below : Game := { demo_left with ghosts := [⟨1, 3, 0, 96, 97, 4, 1⟩] }

/-- The state after `choose_ghost_direction` for ghost 0 of `demo_below` (no draw). -/
def demo_below_after : Game := ((choose_ghost_direction demo_below 0 []).getD (demo_below, [])).1

/-- The state after `handle_ghosts` on `demo_below` (no draw). -/
def demo_below_moved : Game := ((handle_ghosts demo_below []).getD (demo_below, [])).1

/-- The state `demo` with a patrol ghost on the point of cell (1,0), a cell of the top
corridor with walls above and below, heading left. -/
def demo_corridor : Game := { demo with ghosts := [⟨1, 1, 0, 36, 27, 1, 1⟩] }

/-- The state `demo` (centre open below) with a captured ghost on the point of the centre
cell (4,4), heading up. -/
def demo_in : Game := { demo with ghosts := [⟨1, 3, 0, 96, 83, 3, 1⟩] }

/-- The state after `choose_pill_direction` for pill 2 of `demo_twelve_set`, given the
draws 0 and 1. -/
def demo_pill_turn : Game :=
  ((choose_pill_direction demo_twelve_set 2 [0, 1]).getD (demo_twelve_set, [])).1

/-- The state `demo_left` (centre open to the left only) with a patrol ghost on the point of
the centre cell, heading down as after `setup_ghosts`. -/
def demo_wait : Game := { demo_left with ghosts := [⟨1, 1, 0, 96, 83, 4, 1⟩] }

/-- The state `demo_pills` (a power pill under the player) with a captured and a recharging
ghost and 7 frames left on the timer of an earlier power pill. -/
def demo_spent : Game :=
  { demo_pills with ghosts := [⟨1, 3, 0, 36, 27, 2, 1⟩, ⟨2, 4, 50, 96, 83, 0, 1⟩],
                    NUM_GHOSTS := 2, powerpill_active_timer := 7 }

/-- The state after `handle_pills` on `demo_spent` (no draw is needed there). -/
def demo_spent_after : Game := ((handle_pills demo_spent []).getD (demo_spent, [])).1

/-- The state `demo` with its last active pill, a normal pill, under the player and a patrol
ghost on the player. -/
def demo_last_fatal : Game :=
  { demo with pills := [⟨1, 488, 352, 4, 1⟩, ⟨0, 190, 115, 1, 1⟩],
              ghosts := [⟨1, 1, 0, 96, 69, 4, 1⟩] }

/-- The state after one turn of the main loop on `demo_last_fatal`, with no key held. -/
def demo_last_fatal_after : Game :=
  ((game_frame no_rest no_rest demo_last_fatal [] ⟨false, false, false, false⟩ []).getD
    (demo_last_fatal, [])).1

/-- The cell numbers `(cell_x, cell_y)` that `handle_munchkin` computes for the player
(source lines 1147-1148). -/
def munchkin_cell (g : Game) : Int × Int :=
  (c_div (g.munchkin_x_factor1 - (7 + g.MAZE_OFFSET_X)) (HORI_LINE_SIZE - 2),
   c_div (g.munchkin_y_factor1 - (4 + g.MAZE_OFFSET_Y)) (VERT_LINE_SIZE - 2))

/-- The coordinates the `switch (ghosts[i].direction)` of `handle_ghosts` (`move_ghost`)
leaves a ghost with, from its direction, its speed and its coordinates before. -/
def ghost_slide (direction speed : Int) (p : Int × Int) : Int × Int :=
  if direction = LEFT then (if p.1 - speed < -2 then 194 else p.1 - speed, p.2)
  else if direction = RIGHT then (if p.1 + speed > 194 then -2 else p.1 + speed, p.2)
  else if direction = UP then (p.1, p.2 - speed)
  else if direction = DOWN then (p.1, p.2 + speed)
  else p

/-- The step `f` of the rest of a frame leaves the place, direction and speed of ghost `j`
as they are (its status may change), and with them the globals that `handle_ghosts` reads
for it: the maze offsets, `maze_completed` and `NUM_GHOSTS`. -/
def keeps_ghost_path (f : Game → Game) (j : Nat) : Prop :=
  ∀ s, (ghost_at (f s) j).x = (ghost_at s j).x ∧ (ghost_at (f s) j).y = (ghost_at s j).y ∧
    (ghost_at (f s) j).direction = (ghost_at s j).direction ∧
    (ghost_at (f s) j).speed = (ghost_at s j).speed ∧
    (f s).MAZE_OFFSET_X = s.MAZE_OFFSET_X ∧ (f s).MAZE_OFFSET_Y = s.MAZE_OFFSET_Y ∧
    (f s).maze_completed = s.maze_completed ∧ (f s).NUM_GHOSTS = s.NUM_GHOSTS

/-- The state after twenty frames of `ghost_frames` with nothing else going on, from
`demo_corridor` (no draw is needed there). -/
def demo_corridor_after : Game :=
  ((ghost_frames id 20 demo_corridor []).getD (demo_corridor, [])).1

/-- The coordinates the `switch (pills[i].direction)` of `handle_pills` (`move_pill`) leaves
a pill with, from its direction, its speed and its coordinates before; the wrap reads the
scale, the screen offset and the maze offset of `g`. -/
def pill_slide (g : Game) (direction speed : Int) (p : Int × Int) : Int × Int :=
  if direction = LEFT then
    (if c_div (p.1 - speed - g.screen_offset_x) g.factor < g.MAZE_OFFSET_X - 7
      then (187 + g.MAZE_OFFSET_X) * g.factor + g.screen_offset_x else p.1 - speed, p.2)
  else if direction = RIGHT then
    (if c_div (p.1 + speed - g.screen_offset_x) g.factor > 187 + g.MAZE_OFFSET_X
      then (g.MAZE_OFFSET_X - 7) * g.factor + g.screen_offset_x else p.1 + speed, p.2)
  else if direction = UP then (p.1, p.2 - speed)
  else if direction = DOWN then (p.1, p.2 + speed)
  else p

/-- The step `f` of the rest of a frame leaves pill `i` alone, and with it the globals that
`handle_pills` reads for it: the scale, the screen offsets, the maze offsets,
`maze_completed` and `NUM_PILLS`. -/
def keeps_pill (f : Game → Game) (i : Nat) : Prop :=
  ∀ s, pill_at (f s) i = pill_at s i ∧ (f s).factor = s.factor ∧
    (f s).screen_offset_x = s.screen_offset_x ∧ (f s).screen_offset_y = s.screen_offset_y ∧
    (f s).MAZE_OFFSET_X = s.MAZE_OFFSET_X ∧ (f s).MAZE_OFFSET_Y = s.MAZE_OFFSET_Y ∧
    (f s).maze_completed = s.maze_completed ∧ (f s).NUM_PILLS = s.NUM_PILLS

/-- The windowed scale of `toggle_full_screen_mode` (factor 5, screen offsets 203 and 0)
on maze 1, with one pill left: it stands on the centre of cell (1,0) in the top corridor,
heading left at speed 1. -/
def demo_slide : Game :=
  { demo with screen_offset_x := 203, pills := [⟨1, 393, 150, 1, 1⟩, ⟨0, 293, 150, 1, 1⟩] }

/-- The state after twenty frames of `pill_frames` with nothing else going on, from
`demo_slide` (no draw is needed there). -/
def demo_slide_after : Game := ((pill_frames id 20 demo_slide []).getD (demo_slide, [])).1

/-! ## The whole of `get_user_input`, the turn of `game` with its return value -/

/-- An event of the SDL queue, by what the program reads of it: the event type, and with it
`key.keysym.sym`, `jbutton.button`, or `jaxis.which`, `jaxis.axis` and `jaxis.value`;
`other` is an event of any other type. -/
inductive event where
  | SDL_QUIT : event
  | SDL_KEYDOWN (sym : Int) : event
  | SDL_JOYBUTTONDOWN (button : Int) : event
  | SDL_JOYAXISMOTION (which axis value : Int) : event
  | other : event
deriving DecidableEq

/-- The function `toggle_full_screen_mode`, by its assignments to the globals of the model.
Both branches on `fullscreen` assign `screen_width = 1366`, `screen_height = 768` and
`factor = 5`, so the argument (and the global `full_screen` that is passed for it) is left
out; the window, the renderer and the images are not modelled. -/
def toggle_full_screen_mode (g : Game) : Game :=
  let screen_width : Int := 1366
  let screen_height : Int := 768
  { g with factor := 5,
           screen_offset_x := c_div (screen_width - c_div screen_height 4 * 5) 2,
           screen_offset_y := 0 }

/-- The function `handle_screen_resize`: `load_images()` (no state of the model), then
`setup_pills()`. -/
def handle_screen_resize (g : Game) (rs : List Nat) : Option (Game × List Nat) :=
  setup_pills g rs

/-- The head of `get_user_input` (source lines 936-958): with key 8 held and the player not
dying the full-screen mode is toggled, which ends in `toggle_full_screen_mode` and
`handle_screen_resize` whichever way it goes (the assignment `factor = 5` of the branch that
leaves full screen is made again by `toggle_full_screen_mode`). -/
def get_user_input_screen (g : Game) (key_8 : Bool) (rs : List Nat) :
    Option (Game × List Nat) :=
  if key_8 = true ∧ g.munchkin_dying ≠ 1 then
    handle_screen_resize (toggle_full_screen_mode g) rs
  else some (g, rs)

/-- The `SDL_JOYAXISMOTION` case of the event loop of `get_user_input` (source lines
1001-1039). -/
def get_user_input_axis (g : Game) (which axis value : Int) : Game :=
  if which = 0 then
    if axis = 0 then
      if value > -8000 ∧ value < 8000 then { g with joy_left := 0, joy_right := 0 }
      else if value < 0 then { g with joy_left := 1, joy_right := 0 }
      else { g with joy_left := 0, joy_right := 1 }
    else if axis = 1 then
      if value > -8000 ∧ value < 8000 then { g with joy_up := 0, joy_down := 0 }
      else if value < 0 then { g with joy_up := 1, joy_down := 0 }
      else { g with joy_up := 0, joy_down := 1 }
    else g
  else g

/-- The event loop of `get_user_input` (source lines 964-1042) on the queue `events`.  The
number in the result is 1 when the loop left the function by `start_new_game(); return(1);`
(the Escape key, 27, or joystick button 8 or 7; the events behind it stay in the queue and
are not part of the result) and 0 when the queue is drained.  `none`: the call does not
come back (`exit(0)` on `SDL_QUIT`, a write outside `text_line`, or the draws ran out). -/
def get_user_input_events : List event → Game → List Nat → Option (Game × Int × List Nat)
  | [], g, rs => some (g, 0, rs)
  | event.SDL_QUIT :: _, _, _ => none
  | event.SDL_KEYDOWN sym :: es, g, rs =>
    if sym = 27 then
      match start_new_game g rs with
      | none => none
      | some (g1, rs1) => some (g1, 1, rs1)
    else
      match get_user_input_key g sym with
      | none => none
      | some g1 => get_user_input_events es g1 rs
  | event.SDL_JOYBUTTONDOWN button :: es, g, rs =>
    if button = 8 ∨ button = 7 then
      match start_new_game g rs with
      | none => none
      | some (g1, rs1) => some (g1, 1, rs1)
    else get_user_input_events es g rs
  | event.SDL_JOYAXISMOTION which axis value :: es, g, rs =>
    get_user_input_events es (get_user_input_axis g which axis value) rs
  | event.other :: es, g, rs => get_user_input_events es g rs

/-- The function `get_user_input` as a whole, with its return value: the full-screen key,
the event loop, and when the loop did not return, the continuous-key part. -/
def get_user_input_all (g : Game) (key_8 : Bool) (events : List event) (k : keystate)
    (rs : List Nat) : Option (Game × Int × List Nat) :=
  match get_user_input_screen g key_8 rs with
  | none => none
  | some (g1, rs1) =>
    match get_user_input_events events g1 rs1 with
    | none => none
    | some (g2, ret, rs2) =>
      if ret = 1 then some (g2, 1, rs2) else some (get_user_input g2 k, 0, rs2)

/-- What one frame brings to `get_user_input`: whether key 8 is held, the event queue, and
the arrow keys held. -/
structure frame_input where
  key_8 : Bool
  events : List event
  arrows : keystate
deriving DecidableEq

/-- One turn of the main loop of `game` (source lines 495-543), with the value of `done`
that `get_user_input` returned; the rest of the turn runs whatever that value is. -/
def game_turn (rest1 rest2 : Game → List Nat → Option (Game × List Nat)) (g : Game)
    (i : frame_input) (rs : List Nat) : Option (Game × Int × List Nat) :=
  match game_restart { g with frame := g.frame + 1 } rs with
  | none => none
  | some (g1, rs1) =>
    match game_continue rest1 rest2 g1 rs1 with
    | none => none
    | some (g2, rs2) =>
      match get_user_input_all g2 i.key_8 i.events i.arrows rs2 with
      | none => none
      | some (g3, done, rs3) =>
        match game_frame_tail g3 rs3 with
        | none => none
        | some (g4, rs4) => some (g4, done, rs4)

/-- The main loop of `game` on the frames `ins`: it goes on while `done` is 0 (`quit` is
never set), and the result carries the last `done`. -/
def game_turns (rest1 rest2 : Game → List Nat → Option (Game × List Nat)) :
    List frame_input → Game → List Nat → Option (Game × Int × List Nat)
  | [], g, rs => some (g, 0, rs)
  | i :: is, g, rs =>
    match game_turn rest1 rest2 g i rs with
    | none => none
    | some (g1, done, rs1) =>
      if done = 0 then game_turns rest1 rest2 is g1 rs1 else some (g1, done, rs1)

/-- An event that does not make `get_user_input` restart the game: not the Escape key and
not joystick button 8 or 7. -/
def no_restart : event → Prop
  | event.SDL_KEYDOWN sym => sym ≠ 27
  | event.SDL_JOYBUTTONDOWN button => ¬ (button = 8 ∨ button = 7)
  | _ => True

instance (e : event) : Decidable (no_restart e) := by
  cases e <;> unfold no_restart <;> infer_instance

/-- What a completed maze freezes whether or not the window is resized: all of
`maze_frozen` but the pills. -/
def maze_held (g g1 : Game) : Prop :=
  g1.maze_completed = g.maze_completed ∧ g1.munchkin_dying = g.munchkin_dying ∧
  g1.munchkin_x_factor1 = g.munchkin_x_factor1 ∧ g1.munchkin_y_factor1 = g.munchkin_y_factor1 ∧
  g1.munchkin_auto_direction = g.munchkin_auto_direction ∧ g1.ghosts = g.ghosts ∧
  g1.score = g.score ∧ g1.high_score = g.high_score ∧ g1.maze_selected = g.maze_selected ∧
  g1.speed = g.speed ∧ g1.arcade_mode = g.arcade_mode

/-- A game with the settings of `setup` (maze 1, four ghosts, twelve pills) in which the
last pill has just been eaten: every pill has status 0, `maze_completed` is TRUE and the
completion animation is at its start. -/
def demo_cleared : Game :=
  let s := ((start_new_maze (setup demo) []).getD (demo, [])).1
  { s with pills := s.pills.map (fun p => { p with status := 0 }), maze_completed := TRUE,
           maze_completed_animations := 75 }

/-- A frame with key 8 not held, the event queue empty and no arrow key held. -/
def frame_idle : frame_input := ⟨false, [], ⟨false, false, false, false⟩⟩

/-- The state after one turn of the main loop on `demo_cleared` in which the Escape key
arrives. -/
def demo_escape_after : Game :=
  ((game_turns no_rest no_rest [{ frame_idle with events := [event.SDL_KEYDOWN 27] }]
    demo_cleared (List.replicate 16 0)).getD (demo_cleared, 0, [])).1

/-- The state after one turn of the main loop on `demo_cleared` with key 8 held and the
joystick pushed to the left. -/
def demo_resize_after : Game :=
  ((game_turns no_rest no_rest
    [{ frame_idle with key_8 := true, events := [event.SDL_JOYAXISMOTION 0 0 (-9000)] }]
    demo_cleared []).getD (demo_cleared, 0, [])).1

/-! ## The rest of `intermission2`, and the entry of `title_screen` -/

/-- One of the sixteen place assignments of `intermission2`: `ghosts[i].x =
MAZE_OFFSET_X + column * (HORI_LINE_SIZE - 2) + shift` and `ghosts[i].y = MAZE_OFFSET_Y + row
* (VERT_LINE_SIZE - 2) + 4`, for `p = (i, column, shift, row)`. -/
def intermission2_place (s : Game) (p : Nat × Int × Int × Int) : Game :=
  let x := s.MAZE_OFFSET_X + p.2.1 * (HORI_LINE_SIZE - 2) + p.2.2.1
  let y := s.MAZE_OFFSET_Y + p.2.2.2 * (VERT_LINE_SIZE - 2) + 4
  ghost_put s p.1 { ghost_at s p.1 with x := x, y := y }

/-- The places of the sixteen ghosts of `intermission2` (source lines 3646-3697), in the
order of the source: column -1 (shift 8) for `ghosts[15..9]`, column 0 (shift 0) for
`ghosts[8..4]`, column 1 (shift -8) for `ghosts[3..1]` and column 2 (shift -16) for
`ghosts[0]`. -/
def intermission2_places (g : Game) : Game :=
  [(15, -1, 8, 0), (14, -1, 8, 1), (13, -1, 8, 2), (12, -1, 8, 3), (11, -1, 8, 4),
   (10, -1, 8, 5), (9, -1, 8, 6), (8, 0, 0, 1), (7, 0, 0, 2), (6, 0, 0, 3), (5, 0, 0, 4),
   (4, 0, 0, 5), (3, 1, -8, 2), (2, 1, -8, 3), (1, 1, -8, 4), (0, 2, -16, 3)].foldl
    intermission2_place g

/-- The attributes that the set-up loop of `intermission2` gives ghost `i` (source lines
3702-3706). -/
def intermission2_ghost (s : Game) (i : Nat) : Game :=
  let colour : Int := c_mod (i : Int) 4 + 1
  let gh := ghost_at s i
  ghost_put s i { gh with colour := colour, status := 1, recharge_timer := 0, speed := 1, direction := RIGHT }

/-- The ghost set-up of `intermission2` (source lines 3646-3707): the sixteen places,
`NUM_GHOSTS = 16`, and the loop that makes every ghost a hunter heading right. -/
def intermission2_ghosts (g : Game) : Game :=
  let g1 : Game := { intermission2_places g with NUM_GHOSTS := 16 }
  (List.range g1.NUM_GHOSTS.toNat).foldl intermission2_ghost g1

/-- One event of the event loop of `intermission2` (source lines 3717-3749) on the state
and the local `done`: Left Ctrl (1073742048) or key 1 (49) sets `done`, key 8 (56) toggles
the full-screen mode.  `none`: the program leaves by `exit(0)` (the Escape key,
`SDL_QUIT`, joystick button 8). -/
def intermission2_event (g : Game) (done : Int) (e : event) : Option (Game × Int) :=
  match e with
  | event.SDL_KEYDOWN key =>
    let done1 := if key = 1073742048 ∨ key = 49 then TRUE else done
    let g1 := if key = 56 then toggle_full_screen_mode g else g
    if key = 27 then none else some (g1, done1)
  | event.SDL_QUIT => none
  | event.SDL_JOYBUTTONDOWN button => if button = 8 then none else some (g, done)
  | _ => some (g, done)

/-- The event loop of `intermission2` on the queue `events`. -/
def intermission2_events : List event → Game → Int → Option (Game × Int)
  | [], g, done => some (g, done)
  | e :: es, g, done =>
    match intermission2_event g done e with
    | none => none
    | some (g1, done1) => intermission2_events es g1 done1

/-- The powerpill colour step that closes a turn of the loop of `intermission2` (source
lines 3814-3816). -/
def intermission2_powerpill (g : Game) : Game :=
  if g.frame - g.start_delay ≤ 242 then
    let g1 := if c_mod g.frame 20 = 0 then { g with powerpill_color := g.powerpill_color + 1 } else g
    if g1.powerpill_color = 5 then { g1 with powerpill_color := 1 } else g1
  else g

/-- The body of the loop of `intermission2` that takes a fleeing ghost left of the screen
out of play (source line 3766). -/
def intermission2_off_screen (s : Game) (i : Nat) : Game :=
  if (ghost_at s i).status = 2 ∧ (ghost_at s i).x < 0 then
    ghost_put s i { ghost_at s i with status := 0 }
  else s

/-- The body of the loop of `intermission2` that turns the ghosts round when the player
eats the power pill (source lines 3794-3796). -/
def intermission2_flee (s : Game) (i : Nat) : Game :=
  { (ghost_put s i { ghost_at s i with status := 2, direction := LEFT }) with
    powerpill_active_timer := 180 }

/-- The ghost part of a turn of the loop of `intermission2` (source lines 3759-3769): from
the hundredth frame on `handle_ghosts`, then the loop that takes the ghosts that left the
screen out of play. -/
def intermission2_hunt (g : Game) (rs : List Nat) : Option (Game × List Nat) :=
  if g.frame - g.start_delay < 100 then some (g, rs)
  else
    match handle_ghosts g rs with
    | none => none
    | some (g1, rs1) =>
      some ((List.range g1.NUM_GHOSTS.toNat).foldl intermission2_off_screen g1, rs1)

/-- The step `start moving munchkin` of the loop of `intermission2` (source lines
3772-3776). -/
def intermission2_start_player (g : Game) : Game :=
  if g.frame - g.start_delay = 150 then
    { g with munchkin_auto_direction := RIGHT, munchkin_last_direction := RIGHT }
  else g

/-- The step `move munchkin` of the loop of `intermission2` (source line 3779). -/
def intermission2_move_player (g : Game) : Game :=
  if g.frame - g.start_delay > 120 ∧ g.frame - g.start_delay < 420 then
    handle_munchkin g g.munchkin_last_direction TRUE
  else g

/-- The drawing step of the loop of `intermission2` (source lines 3781-3785), by the state
part of `draw_munchkin`. -/
def intermission2_draw (g : Game) : Game :=
  if g.frame - g.start_delay > 60 then draw_munchkin g else g

/-- The step `munchkin eats powerpill` of the loop of `intermission2` (source lines
3788-3798). -/
def intermission2_eat (g : Game) : Game :=
  if g.frame - g.start_delay = 242 then
    (List.range g.NUM_GHOSTS.toNat).foldl intermission2_flee
      { g with munchkin_auto_direction := LEFT, munchkin_last_direction := LEFT }
  else g

/-- The step `stop moving munchkin` of the loop of `intermission2` (source lines
3801-3804). -/
def intermission2_stop_player (g : Game) : Game :=
  if g.frame - g.start_delay = 420 then
    { g with munchkin_auto_direction := 0, munchkin_last_direction := 0 }
  else g

/-- The step `stop intermission` of the loop of `intermission2` (source lines 3807-3810),
on the state and the local `done`: the one place where the intermission sets `NUM_GHOSTS`
back to 4. -/
def intermission2_stop (g : Game) (done : Int) : Game × Int :=
  if g.frame - g.start_delay = 460 then ({ g with NUM_GHOSTS := 4 }, TRUE) else (g, done)

/-- The player part of a turn of the loop of `intermission2` (source lines 3771-3810) on
the state and the local `done`. -/
def intermission2_act (g : Game) (done : Int) : Game × Int :=
  intermission2_stop (intermission2_stop_player (intermission2_eat (intermission2_draw
    (intermission2_move_player (intermission2_start_player g))))) done

/-- One turn of the loop of `intermission2` (source lines 3712-3839) on the queue `events`,
with the value of `done` at its end (`done` is FALSE when a turn starts). -/
def intermission2_frame (g : Game) (events : List event) (rs : List Nat) :
    Option (Game × Int × List Nat) :=
  match intermission2_events events g FALSE with
  | none => none
  | some (g1, done1) =>
    match intermission2_hunt { g1 with frame := g1.frame + 1 } rs with
    | none => none
    | some (g2, rs1) =>
      let e := intermission2_act g2 done1
      some (intermission2_powerpill e.1, e.2, rs1)

/-- The loop `do .. while (done == FALSE)` of `intermission2`; `frames` holds the event
queue of each turn.  `none` when the queues are used up before `done` is set. -/
def intermission2_frames : List (List event) → Game → List Nat → Option (Game × List Nat)
  | [], _, _ => none
  | events :: frames, g, rs =>
    match intermission2_frame g events rs with
    | none => none
    | some (g1, done, rs1) =>
      if done = FALSE then intermission2_frames frames g1 rs1 else some (g1, rs1)

/-- The rest of `intermission2` after its leading assignments (source lines 3646-3842):
the ghost set-up, `setup_maze(6)` and the animation loop. -/
def intermission2_rest (frames : List (List event)) (g : Game) (rs : List Nat) :
    Option (Game × List Nat) :=
  intermission2_frames frames (setup_maze (intermission2_ghosts g) 6) rs

/-- The entry of `title_screen` up to its key loop (source lines 2743-2762): the state and
the local `active_option_row`. -/
def title_screen_enter (g : Game) (fac : Int) (rs : List Nat) :
    Option (Game × Int × List Nat) :=
  let g1 : Game := { g with start_delay := g.frame }
  let active_option_row : Int := if g1.arcade_mode = TRUE then 2 else 1
  match switch_active_mini_map { g1 with powerpill_color := 1 } g1.maze_selected fac rs with
  | none => none
  | some (g2, rs1) => some (g2, active_option_row, rs1)

/-- An arcade game on maze 4 with the settings that arcade mode gives (four ghosts, twelve
pills), every pill eaten and the completion animation over. -/
def demo_arcade_done : Game :=
  let s := ((start_new_maze { setup demo with arcade_mode := TRUE, maze_selected := 4 } []).getD
    (demo, [])).1
  { s with pills := s.pills.map (fun p => { p with status := 0 }), maze_completed := TRUE,
           maze_completed_animations := 0 }

/-- The frames of the sample game that skips the second intermission: a turn with nothing
pressed, which runs the continuation step, then a turn in which the Escape key arrives. -/
def demo_skip_frames : List frame_input :=
  [frame_idle, { frame_idle with events := [event.SDL_KEYDOWN 27] }]

/-- The state in which `game` returns on `demo_arcade_done` when key 1 (49) is pressed in
the first frame of `intermission2` and the Escape key in the turn after it. -/
def demo_skip_game : Game :=
  ((game_turns no_rest (intermission2_rest [[event.SDL_KEYDOWN 49]]) demo_skip_frames
    demo_arcade_done (List.replicate 32 0)).getD (demo_arcade_done, 0, [])).1

/-- The state `demo_skip_game` on the title screen, before a key is pressed. -/
def demo_skip_title : Game :=
  ((title_screen_enter demo_skip_game 5 []).getD (demo_skip_game, 0, [])).1

/-- The state after `right` (row 2: arcade mode off), `down` (to row 3) and `left` (one
ghost less) on the title screen entered with `demo_skip_game`. -/
def demo_skip_adjusted : Game :=
  ((title_arrows [1073741903, 1073741905, 1073741904] demo_skip_title 2 5 []).getD
    (demo_skip_title, 0, [])).1

/-! # Theorems -/

/-! ## Arithmetic facts -/

theorem c_div_consts : c_div 135 5 = 27 ∧ c_div 70 5 = 14 ∧ c_div 80 5 = 16 ∧ c_div 100 5 = 20 ∧
    c_div (-20) 5 = -4 ∧ c_div 980 5 = 196 := by decide

theorem c_div_mul_left (a b : Int) (hb : b ≠ 0) : c_div (b * a) b = a := by
  unfold c_div
  exact Int.mul_tdiv_cancel_left a hb

theorem c_not_zero : c_not 0 = 1 := by decide

/-! ## The player -/

/-- C2. Wall blocking for the player: standing on the decision point of cell `(cx, cy)`
with the segment in direction `d` closed, `handle_munchkin(d, 1)` leaves the position and
the committed direction as they were, at every speed of at least 1. -/
theorem wall_blocks_player (g : Game) (cx cy d : Int)
    (hox : g.MAZE_OFFSET_X = 9) (hoy : g.MAZE_OFFSET_Y = 23)
    (hcx : 0 ≤ cx ∧ cx ≤ 8) (_hcy : 0 ≤ cy ∧ cy ≤ 6)
    (hx : g.munchkin_x_factor1 = 16 + 20 * cx) (hy : g.munchkin_y_factor1 = 27 + 14 * cy)
    (hs : 1 ≤ g.speed)
    (hwall : (d = LEFT ∧ line_at g.vertical_lines cy cx = '|') ∨
      (d = RIGHT ∧ line_at g.vertical_lines cy (cx + 1) = '|') ∨
      (d = UP ∧ line_at g.horizontal_lines cy cx = 'x') ∨
      (d = DOWN ∧ line_at g.horizontal_lines (cy + 1) cx = 'x')) :
    (handle_munchkin g d 1).munchkin_x_factor1 = g.munchkin_x_factor1 ∧
    (handle_munchkin g d 1).munchkin_y_factor1 = g.munchkin_y_factor1 ∧
    (handle_munchkin g d 1).munchkin_auto_direction = g.munchkin_auto_direction := by
  have hcellx : c_div (g.munchkin_x_factor1 - (7 + g.MAZE_OFFSET_X)) (HORI_LINE_SIZE - 2) = cx := by
    rw [hx, hox]
    have : (16 + 20 * cx - (7 + 9) : Int) = 20 * cx := by ring
    rw [this]; exact c_div_mul_left cx 20 (by decide)
  have hcelly : c_div (g.munchkin_y_factor1 - (4 + g.MAZE_OFFSET_Y)) (VERT_LINE_SIZE - 2) = cy := by
    rw [hy, hoy]
    have : (27 + 14 * cy - (4 + 23) : Int) = 14 * cy := by ring
    rw [this]; exact c_div_mul_left cy 14 (by decide)
  obtain ⟨c1, c2, c3, c4, c5, c6⟩ := c_div_consts
  have hg : handle_munchkin g d 1 = g := by
    unfold handle_munchkin
    simp only [hcellx, hcelly, if_true, one_ne_zero, and_false, if_false]
    unfold handle_munchkin_manual
    rcases hwall with ⟨rfl, hw⟩ | ⟨rfl, hw⟩ | ⟨rfl, hw⟩ | ⟨rfl, hw⟩
    · have h1 : g.munchkin_x_factor1 - g.speed < g.MAZE_OFFSET_X + 7 + cx * (HORI_LINE_SIZE - 2) := by
        rw [hx, hox]; simp only [HORI_LINE_SIZE]; omega
      have h2 : ¬ g.munchkin_x_factor1 < c_div (-20) 5 := by rw [c5, hx]; omega
      simp [hw, h1, h2]
    · have h1 : g.munchkin_x_factor1 + g.speed > g.MAZE_OFFSET_X + 7 + cx * (HORI_LINE_SIZE - 2) := by
        rw [hx, hox]; simp only [HORI_LINE_SIZE]; omega
      have h2 : ¬ g.munchkin_x_factor1 > c_div 980 5 := by rw [c6, hx]; omega
      simp [hw, h1, h2]
    · have h1 : g.munchkin_y_factor1 - g.speed < g.MAZE_OFFSET_Y + 4 + cy * (VERT_LINE_SIZE - 2) := by
        rw [hy, hoy]; simp only [VERT_LINE_SIZE]; omega
      simp [hw, h1]
    · have h1 : g.munchkin_y_factor1 + g.speed > g.MAZE_OFFSET_Y + 4 + cy * (VERT_LINE_SIZE - 2) := by
        rw [hy, hoy]; simp only [VERT_LINE_SIZE]; omega
      simp [hw, h1]
  rw [hg]; exact ⟨rfl, rfl, rfl⟩

theorem wall_blocks_player_witness :
    (handle_munchkin demo DOWN 1).munchkin_x_factor1 = 96 ∧
    (handle_munchkin demo DOWN 1).munchkin_y_factor1 = 69 ∧
    (handle_munchkin demo DOWN 1).munchkin_auto_direction = 0 :=
  wall_blocks_player demo 4 3 DOWN (by decide) (by decide) (by decide) (by decide) (by decide)
    (by decide) (by decide) (by decide)

/-- C3. Commitment: `handle_munchkin(0, 0)` clears a committed direction on an aligned
point without moving, otherwise it moves by `speed` in the committed direction (wrapping
horizontally) and keeps the commitment; with no commitment it changes nothing, so the guard
`munchkin_auto_direction +! 0` acts as `munchkin_auto_direction != 0`. -/
theorem commitment_glide (g : Game) :
    (g.munchkin_auto_direction = LEFT →
      (c_mod (g.munchkin_x_factor1 - 16) 20 = 0 →
        (handle_munchkin g 0 0).munchkin_auto_direction = 0 ∧
        (handle_munchkin g 0 0).munchkin_x_factor1 = g.munchkin_x_factor1 ∧
        (handle_munchkin g 0 0).munchkin_y_factor1 = g.munchkin_y_factor1) ∧
      (c_mod (g.munchkin_x_factor1 - 16) 20 ≠ 0 →
        (handle_munchkin g 0 0).munchkin_auto_direction = LEFT ∧
        (handle_munchkin g 0 0).munchkin_x_factor1 =
          (if g.munchkin_x_factor1 - g.speed < -4 then 196 else g.munchkin_x_factor1 - g.speed) ∧
        (handle_munchkin g 0 0).munchkin_y_factor1 = g.munchkin_y_factor1)) ∧
    (g.munchkin_auto_direction = RIGHT →
      (c_mod (g.munchkin_x_factor1 - 16) 20 = 0 →
        (handle_munchkin g 0 0).munchkin_auto_direction = 0 ∧
        (handle_munchkin g 0 0).munchkin_x_factor1 = g.munchkin_x_factor1 ∧
        (handle_munchkin g 0 0).munchkin_y_factor1 = g.munchkin_y_factor1) ∧
      (c_mod (g.munchkin_x_factor1 - 16) 20 ≠ 0 →
        (handle_munchkin g 0 0).munchkin_auto_direction = RIGHT ∧
        (handle_munchkin g 0 0).munchkin_x_factor1 =
          (if g.munchkin_x_factor1 + g.speed > 196 then -4 else g.munchkin_x_factor1 + g.speed) ∧
        (handle_munchkin g 0 0).munchkin_y_factor1 = g.munchkin_y_factor1)) ∧
    (g.munchkin_auto_direction = UP →
      (c_mod (g.munchkin_y_factor1 - 27) 14 = 0 →
        (handle_munchkin g 0 0).munchkin_auto_direction = 0 ∧
        (handle_munchkin g 0 0).munchkin_x_factor1 = g.munchkin_x_factor1 ∧
        (handle_munchkin g 0 0).munchkin_y_factor1 = g.munchkin_y_factor1) ∧
      (c_mod (g.munchkin_y_factor1 - 27) 14 ≠ 0 →
        (handle_munchkin g 0 0).munchkin_auto_direction = UP ∧
        (handle_munchkin g 0 0).munchkin_x_factor1 = g.munchkin_x_factor1 ∧
        (handle_munchkin g 0 0).munchkin_y_factor1 = g.munchkin_y_factor1 - g.speed)) ∧
    (g.munchkin_auto_direction = DOWN →
      (c_mod (g.munchkin_y_factor1 - 27) 14 = 0 →
        (handle_munchkin g 0 0).munchkin_auto_direction = 0 ∧
        (handle_munchkin g 0 0).munchkin_x_factor1 = g.munchkin_x_factor1 ∧
        (handle_munchkin g 0 0).munchkin_y_factor1 = g.munchkin_y_factor1) ∧
      (c_mod (g.munchkin_y_factor1 - 27) 14 ≠ 0 →
        (handle_munchkin g 0 0).munchkin_auto_direction = DOWN ∧
        (handle_munchkin g 0 0).munchkin_x_factor1 = g.munchkin_x_factor1 ∧
        (handle_munchkin g 0 0).munchkin_y_factor1 = g.munchkin_y_factor1 + g.speed)) ∧
    (g.munchkin_auto_direction = 0 → handle_munchkin g 0 0 = g) ∧
    handle_munchkin g 0 0 = (if g.munchkin_auto_direction ≠ 0 then handle_munchkin_auto g else g) := by
  obtain ⟨c1, c2, c3, c4, c5, c6⟩ := c_div_consts
  have hh : handle_munchkin g 0 0 = (if g.munchkin_auto_direction + 1 ≠ 0 then handle_munchkin_auto g else g) := by
    unfold handle_munchkin
    simp [c_not_zero]
  have ha : ∀ d : Int, d ≠ 0 → g.munchkin_auto_direction = d → 0 < d → handle_munchkin g 0 0 = handle_munchkin_auto g := by
    intro d _ hd hpos
    rw [hh, if_pos (by omega)]
  refine ⟨?_, ?_, ?_, ?_, ?_, ?_⟩
  · intro h
    rw [ha LEFT (by decide) h (by decide)]
    unfold handle_munchkin_auto
    simp only [h, c3, c4, c5, c6, if_true]
    constructor
    · intro hz; simp [hz]
    · intro hz; simp [hz]
  · intro h
    rw [ha RIGHT (by decide) h (by decide)]
    unfold handle_munchkin_auto
    simp only [h, c3, c4, c5, c6]
    constructor
    · intro hz; simp [hz]
    · intro hz; simp [hz]
  · intro h
    rw [ha UP (by decide) h (by decide)]
    unfold handle_munchkin_auto
    simp only [h, c1, c2]
    constructor
    · intro hz; simp [hz]
    · intro hz; simp [hz]
  · intro h
    rw [ha DOWN (by decide) h (by decide)]
    unfold handle_munchkin_auto
    simp only [h, c1, c2]
    constructor
    · intro hz; simp [hz]
    · intro hz; simp [hz]
  · intro h
    rw [hh]
    unfold handle_munchkin_auto
    simp [h]
  · rw [hh]
    unfold handle_munchkin_auto
    by_cases h0 : g.munchkin_auto_direction = 0
    · simp [h0]
    · by_cases h1 : g.munchkin_auto_direction + 1 = 0
      · have : g.munchkin_auto_direction = -1 := by omega
        simp [this]
      · simp [h0, h1]

theorem direction_cases (g : Game) (k : keystate) :
    get_user_input_direction g k = (0, 0) ∨
    ((get_user_input_direction g k = (LEFT, 1) ∨ get_user_input_direction g k = (RIGHT, 1)) ∧
      g.munchkin_auto_direction ≠ UP ∧ g.munchkin_auto_direction ≠ DOWN) ∨
    ((get_user_input_direction g k = (UP, 1) ∨ get_user_input_direction g k = (DOWN, 1)) ∧
      g.munchkin_auto_direction ≠ LEFT ∧ g.munchkin_auto_direction ≠ RIGHT) := by
  unfold get_user_input_direction
  by_cases h1 : g.munchkin_auto_direction = UP ∨ g.munchkin_auto_direction = DOWN <;>
  by_cases h2 : g.munchkin_auto_direction = LEFT ∨ g.munchkin_auto_direction = RIGHT
  · exfalso; rcases h1 with h | h <;> rw [h] at h2 <;> revert h2 <;> decide
  all_goals
    by_cases a : (k.left = true ∨ g.joy_left = 1) <;>
    by_cases b : (k.right = true ∨ g.joy_right = 1) <;>
    by_cases c : (k.up = true ∨ g.joy_up = 1) <;>
    by_cases d : (k.down = true ∨ g.joy_down = 1) <;>
    simp only [h1, h2, a, b, c, d, if_true, if_false, one_ne_zero, not_false_eq_true,
      not_true_eq_false, ne_eq, Prod.mk.injEq, and_true, and_false, or_false, false_or, or_true,
      true_or, true_and, false_and, zero_ne_one] <;>
    first
      | trivial
      | decide
      | exact ⟨fun h => h1 (Or.inl h), fun h => h1 (Or.inr h)⟩
      | exact ⟨fun h => h2 (Or.inl h), fun h => h2 (Or.inr h)⟩
      | (left; exact ⟨fun h => h1 (Or.inl h), fun h => h1 (Or.inr h)⟩)
      | (right; exact ⟨fun h => h2 (Or.inl h), fun h => h2 (Or.inr h)⟩)

theorem manual_horizontal (g : Game) (d : Int) (hd : d = LEFT ∨ d = RIGHT) :
    (handle_munchkin g d 1).munchkin_y_factor1 = g.munchkin_y_factor1 ∧
    (((handle_munchkin g d 1).munchkin_auto_direction = g.munchkin_auto_direction ∧
        ((handle_munchkin g d 1).munchkin_x_factor1 = g.munchkin_x_factor1 ∨
         (handle_munchkin g d 1).munchkin_x_factor1 = 196 ∨
         (handle_munchkin g d 1).munchkin_x_factor1 = -4)) ∨
      (handle_munchkin g d 1).munchkin_auto_direction = d) := by
  obtain ⟨c1, c2, c3, c4, c5, c6⟩ := c_div_consts
  unfold handle_munchkin
  simp only [if_true, one_ne_zero, and_false, if_false]
  unfold handle_munchkin_manual munchkin_go_left munchkin_go_right
  rcases hd with rfl | rfl
  · simp only [if_true, c1, c2, c5, c6]
    split_ifs <;> simp
  · simp only [show (RIGHT : Int) ≠ LEFT by decide, if_true, if_false, c1, c2, c5, c6]
    split_ifs <;> simp

theorem manual_vertical (g : Game) (d : Int) (hd : d = UP ∨ d = DOWN) :
    (handle_munchkin g d 1).munchkin_x_factor1 = g.munchkin_x_factor1 ∧
    (((handle_munchkin g d 1).munchkin_auto_direction = g.munchkin_auto_direction ∧
        (handle_munchkin g d 1).munchkin_y_factor1 = g.munchkin_y_factor1) ∨
      (handle_munchkin g d 1).munchkin_auto_direction = d) := by
  unfold handle_munchkin
  simp only [if_true, one_ne_zero, and_false, if_false]
  unfold handle_munchkin_manual
  rcases hd with rfl | rfl
  · simp only [show (UP : Int) ≠ LEFT by decide, show (UP : Int) ≠ RIGHT by decide, if_true, if_false]
    split_ifs <;> simp
  · simp only [show (DOWN : Int) ≠ LEFT by decide, show (DOWN : Int) ≠ RIGHT by decide,
      show (DOWN : Int) ≠ UP by decide, if_true, if_false]
    split_ifs <;> simp

theorem auto_move_eq (g : Game) :
    handle_munchkin g 0 0 = (if g.munchkin_auto_direction ≠ 0 then handle_munchkin_auto g else g) := by
  have hh : handle_munchkin g 0 0 =
      (if g.munchkin_auto_direction + 1 ≠ 0 then handle_munchkin_auto g else g) := by
    unfold handle_munchkin
    simp [c_not_zero]
  rw [hh]
  unfold handle_munchkin_auto
  by_cases h0 : g.munchkin_auto_direction = 0
  · simp [h0]
  · by_cases h1 : g.munchkin_auto_direction + 1 = 0
    · have : g.munchkin_auto_direction = -1 := by omega
      simp [this]
    · simp [h0, h1]

theorem auto_horizontal (g : Game) (hd : g.munchkin_auto_direction = LEFT ∨ g.munchkin_auto_direction = RIGHT) :
    (handle_munchkin g 0 0).munchkin_y_factor1 = g.munchkin_y_factor1 ∧
    (((handle_munchkin g 0 0).munchkin_auto_direction = 0 ∧
        (handle_munchkin g 0 0).munchkin_x_factor1 = g.munchkin_x_factor1 ∧
        c_mod (g.munchkin_x_factor1 - 16) 20 = 0) ∨
      (handle_munchkin g 0 0).munchkin_auto_direction = g.munchkin_auto_direction) := by
  obtain ⟨c1, c2, c3, c4, c5, c6⟩ := c_div_consts
  rw [auto_move_eq]
  unfold handle_munchkin_auto
  rcases hd with h | h <;> simp only [h, c3, c4] <;> split_ifs <;> simp_all

theorem auto_vertical (g : Game) (hd : g.munchkin_auto_direction = UP ∨ g.munchkin_auto_direction = DOWN) :
    (handle_munchkin g 0 0).munchkin_x_factor1 = g.munchkin_x_factor1 ∧
    (((handle_munchkin g 0 0).munchkin_auto_direction = 0 ∧
        (handle_munchkin g 0 0).munchkin_y_factor1 = g.munchkin_y_factor1 ∧
        c_mod (g.munchkin_y_factor1 - 27) 14 = 0) ∨
      (handle_munchkin g 0 0).munchkin_auto_direction = g.munchkin_auto_direction) := by
  obtain ⟨c1, c2, c3, c4, c5, c6⟩ := c_div_consts
  rw [auto_move_eq]
  unfold handle_munchkin_auto
  rcases hd with h | h <;> simp only [h, c1, c2] <;> split_ifs <;> simp_all

theorem handle_step (g : Game) (p : Int × Int) (h : player_inv g)
    (hp : p = (0, 0) ∨
      ((p = (LEFT, 1) ∨ p = (RIGHT, 1)) ∧
        g.munchkin_auto_direction ≠ UP ∧ g.munchkin_auto_direction ≠ DOWN) ∨
      ((p = (UP, 1) ∨ p = (DOWN, 1)) ∧
        g.munchkin_auto_direction ≠ LEFT ∧ g.munchkin_auto_direction ≠ RIGHT)) :
    player_inv (handle_munchkin g p.1 p.2) ∧
    ((g.munchkin_auto_direction = LEFT ∨ g.munchkin_auto_direction = RIGHT) →
      (handle_munchkin g p.1 p.2).munchkin_auto_direction ≠ UP ∧
      (handle_munchkin g p.1 p.2).munchkin_auto_direction ≠ DOWN) ∧
    ((g.munchkin_auto_direction = UP ∨ g.munchkin_auto_direction = DOWN) →
      (handle_munchkin g p.1 p.2).munchkin_auto_direction ≠ LEFT ∧
      (handle_munchkin g p.1 p.2).munchkin_auto_direction ≠ RIGHT) := by
  obtain ⟨⟨hlo, hhi⟩, hy, hx⟩ := h
  have k196 : c_mod (196 - 16) 20 = 0 := by decide
  have k4 : c_mod (-4 - 16) 20 = 0 := by decide
  rcases hp with h0 | ⟨hd, hn1, hn2⟩ | ⟨hd, hn1, hn2⟩
  · rw [h0]
    by_cases ha0 : g.munchkin_auto_direction = 0
    · have : handle_munchkin g 0 0 = g := by rw [auto_move_eq]; simp [ha0]
      rw [this]
      refine ⟨⟨⟨hlo, hhi⟩, hy, hx⟩, ?_, ?_⟩
      · rintro (h | h) <;> rw [h] at ha0 <;> exact absurd ha0 (by decide)
      · rintro (h | h) <;> rw [h] at ha0 <;> exact absurd ha0 (by decide)
    · by_cases hor : g.munchkin_auto_direction = LEFT ∨ g.munchkin_auto_direction = RIGHT
      · obtain ⟨a1, a2⟩ := auto_horizontal g hor
        unfold player_inv
        rw [a1]
        rcases a2 with ⟨b1, b2, b3⟩ | b1
        · rw [b1, b2]
          refine ⟨⟨⟨le_refl _, by decide⟩, fun _ => hy (Or.inr hor), fun _ => b3⟩, ?_, ?_⟩
          · intro _; decide
          · intro _; decide
        · rw [b1]
          refine ⟨⟨⟨hlo, hhi⟩, hy, ?_⟩, ?_, ?_⟩
          · intro hc; exfalso; rcases hor with h | h <;> rw [h] at hc <;> revert hc <;> decide
          · intro _; rcases hor with h | h <;> rw [h] <;> decide
          · intro hc; exfalso; rcases hor with h | h <;> rw [h] at hc <;> revert hc <;> decide
      · have hver : g.munchkin_auto_direction = UP ∨ g.munchkin_auto_direction = DOWN := by
          simp only [LEFT, RIGHT, UP, DOWN] at hor ⊢; omega
        obtain ⟨a1, a2⟩ := auto_vertical g hver
        unfold player_inv
        rw [a1]
        rcases a2 with ⟨b1, b2, b3⟩ | b1
        · rw [b1, b2]
          refine ⟨⟨⟨le_refl _, by decide⟩, fun _ => b3, fun _ => hx (Or.inr hver)⟩, ?_, ?_⟩
          · intro _; decide
          · intro _; decide
        · rw [b1]
          refine ⟨⟨⟨hlo, hhi⟩, ?_, hx⟩, ?_, ?_⟩
          · intro hc; exfalso; rcases hver with h | h <;> rw [h] at hc <;> revert hc <;> decide
          · intro hc; exact absurd hc hor
          · intro _; rcases hver with h | h <;> rw [h] <;> decide
  · have hd2 : ∃ d : Int, (d = LEFT ∨ d = RIGHT) ∧ p = (d, 1) := by
      rcases hd with h | h
      · exact ⟨LEFT, Or.inl rfl, h⟩
      · exact ⟨RIGHT, Or.inr rfl, h⟩
    obtain ⟨d, hdd, hde⟩ := hd2
    rw [hde]
    have hor : g.munchkin_auto_direction = 0 ∨ g.munchkin_auto_direction = LEFT ∨
        g.munchkin_auto_direction = RIGHT := by
      simp only [LEFT, RIGHT, UP, DOWN] at hn1 hn2 ⊢; omega
    obtain ⟨a1, a2⟩ := manual_horizontal g d hdd
    unfold player_inv
    rw [a1]
    rcases a2 with ⟨b1, b2⟩ | b1
    · rw [b1]
      refine ⟨⟨⟨hlo, hhi⟩, hy, ?_⟩, ?_, ?_⟩
      · intro hc
        rcases b2 with b | b | b <;> rw [b]
        · exact hx hc
        · exact k196
        · exact k4
      · intro _; exact ⟨hn1, hn2⟩
      · intro hc; rcases hc with hc | hc
        · exact absurd hc hn1
        · exact absurd hc hn2
    · rw [b1]
      refine ⟨⟨?_, fun _ => hy hor, ?_⟩, ?_, ?_⟩
      · rcases hdd with h | h <;> rw [h] <;> decide
      · intro hc; exfalso; rcases hdd with h | h <;> rw [h] at hc <;> revert hc <;> decide
      · intro _; rcases hdd with h | h <;> rw [h] <;> decide
      · intro hc; rcases hc with hc | hc
        · exact absurd hc hn1
        · exact absurd hc hn2
  · have hd2 : ∃ d : Int, (d = UP ∨ d = DOWN) ∧ p = (d, 1) := by
      rcases hd with h | h
      · exact ⟨UP, Or.inl rfl, h⟩
      · exact ⟨DOWN, Or.inr rfl, h⟩
    obtain ⟨d, hdd, hde⟩ := hd2
    rw [hde]
    have hver : g.munchkin_auto_direction = 0 ∨ g.munchkin_auto_direction = UP ∨
        g.munchkin_auto_direction = DOWN := by
      simp only [LEFT, RIGHT, UP, DOWN] at hn1 hn2 ⊢; omega
    obtain ⟨a1, a2⟩ := manual_vertical g d hdd
    unfold player_inv
    rw [a1]
    rcases a2 with ⟨b1, b2⟩ | b1
    · rw [b1, b2]
      refine ⟨⟨⟨hlo, hhi⟩, hy, hx⟩, ?_, ?_⟩
      · intro hc; rcases hc with hc | hc
        · exact absurd hc hn1
        · exact absurd hc hn2
      · intro _; exact ⟨hn1, hn2⟩
    · rw [b1]
      refine ⟨⟨?_, ?_, fun _ => hx hver⟩, ?_, ?_⟩
      · rcases hdd with h | h <;> rw [h] <;> decide
      · intro hc; exfalso; rcases hdd with h | h <;> rw [h] at hc <;> revert hc <;> decide
      · intro hc; rcases hc with hc | hc
        · exact absurd hc hn1
        · exact absurd hc hn2
      · intro _; rcases hdd with h | h <;> rw [h] <;> decide


theorem player_step (g : Game) (k : keystate) (h : player_inv g) :
    player_inv (munchkin_step g k) ∧
    ((g.munchkin_auto_direction = LEFT ∨ g.munchkin_auto_direction = RIGHT) →
      (munchkin_step g k).munchkin_auto_direction ≠ UP ∧
      (munchkin_step g k).munchkin_auto_direction ≠ DOWN) ∧
    ((g.munchkin_auto_direction = UP ∨ g.munchkin_auto_direction = DOWN) →
      (munchkin_step g k).munchkin_auto_direction ≠ LEFT ∧
      (munchkin_step g k).munchkin_auto_direction ≠ RIGHT) :=
  handle_step { g with munchkin_last_direction := (get_user_input_direction g k).1 }
    (get_user_input_direction g k) h (direction_cases g k)

theorem get_user_input_eq_step (g : Game) (k : keystate)
    (hd : g.munchkin_dying = FALSE) (hc : g.maze_completed = FALSE) :
    get_user_input g k = munchkin_step g k := by
  unfold get_user_input munchkin_step
  simp [hd, hc]

/-! ## Frame facts: which globals the set-up functions write -/

theorem setup_maze_frame (g : Game) (n : Int) :
    ∃ h v, setup_maze g n = { g with horizontal_lines := h, vertical_lines := v } := by
  unfold setup_maze
  split_ifs <;> exact ⟨_, _, rfl⟩

theorem choose_pill_direction_frame (g : Game) (i : Nat) (rs : List Nat) (g1 : Game) (rs1 : List Nat)
    (h : choose_pill_direction g i rs = some (g1, rs1)) :
    ∃ d, g1 = pill_put g i { pill_at g i with direction := d } ∨ g1 = g := by
  unfold choose_pill_direction at h
  simp only at h
  split_ifs at h
  all_goals
    first
    | (simp only [Option.some.injEq, Prod.mk.injEq] at h; exact ⟨0, Or.inr h.1.symm⟩)
    | (split at h
       · exact absurd h (by simp)
       · simp only [Option.some.injEq, Prod.mk.injEq] at h
         exact ⟨_, Or.inl h.1.symm⟩)

theorem choose_pill_direction_pills (g : Game) (i : Nat) (rs : List Nat) (g1 : Game) (rs1 : List Nat)
    (h : choose_pill_direction g i rs = some (g1, rs1)) : ∃ ps, g1 = { g with pills := ps } := by
  obtain ⟨d, h1 | h1⟩ := choose_pill_direction_frame g i rs g1 rs1 h
  · exact ⟨_, h1⟩
  · exact ⟨g.pills, h1⟩

theorem setup_pill_fixed_pills (g : Game) (i : Nat) (cx cy dir st : Int) :
    ∃ ps, setup_pill_fixed g i cx cy dir st = { g with pills := ps } := by
  unfold setup_pill_fixed
  split_ifs
  · exact ⟨_, rfl⟩
  · exact ⟨g.pills, rfl⟩

theorem setup_pills_random_pills (l : List Nat) : ∀ (g : Game) (rs : List Nat) (g1 : Game) (rs1 : List Nat),
    setup_pills_random l g rs = some (g1, rs1) → ∃ ps, g1 = { g with pills := ps } := by
  induction l with
  | nil =>
    intro g rs g1 rs1 h
    simp only [setup_pills_random, Option.some.injEq, Prod.mk.injEq] at h
    exact ⟨g.pills, h.1.symm⟩
  | cons i is ih =>
    intro g rs g1 rs1 h
    match rs, h with
    | rx :: ry :: rs2, h =>
      simp only [setup_pills_random] at h
      split at h
      · exact absurd h (by simp)
      · rename_i g2 rs3 hc
        obtain ⟨ps, hps⟩ := choose_pill_direction_pills _ _ _ _ _ hc
        obtain ⟨ps2, hps2⟩ := ih _ _ _ _ h
        rw [hps2, hps]
        exact ⟨ps2, rfl⟩
    | [], h => simp [setup_pills_random] at h
    | [_], h => simp [setup_pills_random] at h

theorem foldl_pills_frame (f : Game → Nat → Game) (hf : ∀ h i, ∃ ps, f h i = { h with pills := ps })
    (l : List Nat) : ∀ g : Game, ∃ ps, l.foldl f g = { g with pills := ps } := by
  induction l with
  | nil => intro g; exact ⟨g.pills, rfl⟩
  | cons i is ih =>
    intro g
    obtain ⟨ps, hps⟩ := hf g i
    obtain ⟨ps2, hps2⟩ := ih (f g i)
    rw [List.foldl_cons, hps2, hps]
    exact ⟨ps2, rfl⟩

theorem setup_pill_fixed_trans (g g1 : Game) (h : ∃ ps, g1 = { g with pills := ps })
    (i : Nat) (cx cy dir st : Int) :
    ∃ ps, setup_pill_fixed g1 i cx cy dir st = { g with pills := ps } := by
  obtain ⟨ps, rfl⟩ := h
  obtain ⟨ps2, e⟩ := setup_pill_fixed_pills { g with pills := ps } i cx cy dir st
  exact ⟨ps2, e⟩

theorem setup_pills_frame (g : Game) (rs : List Nat) (g1 : Game) (rs1 : List Nat)
    (h : setup_pills g rs = some (g1, rs1)) :
    ∃ ps, g1 = { g with pills := ps, last_pill_speed_increased := 0 } := by
  unfold setup_pills at h
  simp only at h
  have h0 := setup_pill_fixed_trans g g ⟨g.pills, rfl⟩ 0 0 0 4 2
  have h1 := setup_pill_fixed_trans g _ h0 1 1 0 1 1
  have h2 := setup_pill_fixed_trans g _ h1 2 0 1 2 1
  have h3 := setup_pill_fixed_trans g _ h2 3 7 0 1 1
  have h4 := setup_pill_fixed_trans g _ h3 4 8 0 4 2
  have h5 := setup_pill_fixed_trans g _ h4 5 8 1 1 1
  have h6 := setup_pill_fixed_trans g _ h5 6 0 5 2 1
  have h7 := setup_pill_fixed_trans g _ h6 7 0 6 3 2
  have h8 := setup_pill_fixed_trans g _ h7 8 1 6 2 1
  have h9 := setup_pill_fixed_trans g _ h8 9 8 5 1 1
  have h10 := setup_pill_fixed_trans g _ h9 10 7 6 1 1
  have h11 := setup_pill_fixed_trans g _ h10 11 8 6 3 2
  obtain ⟨ps, e⟩ := h11
  rw [e] at h
  split at h
  · exact absurd h (by simp)
  · rename_i g2 rs2 hm
    simp only [Option.some.injEq, Prod.mk.injEq] at h
    have hg2 : ∃ ps2, g2 = { g with pills := ps2 } := by
      split_ifs at hm
      · obtain ⟨ps2, e2⟩ := setup_pills_random_pills _ _ _ _ _ hm
        exact ⟨ps2, e2⟩
      · simp only [Option.some.injEq, Prod.mk.injEq] at hm
        exact ⟨ps, hm.1.symm⟩
    obtain ⟨ps2, rfl⟩ := hg2
    obtain ⟨ps3, e3⟩ := foldl_pills_frame
      (fun h i => pill_put h i { pill_at h i with speed := 1 }) (fun h i => ⟨_, rfl⟩)
      (List.range ({ g with pills := ps2 } : Game).NUM_PILLS.toNat) { g with pills := ps2 }
    rw [e3] at h
    exact ⟨ps3, h.1.symm⟩

theorem setup_ghosts_frame (g : Game) : ∃ gs, setup_ghosts g = { g with ghosts := gs } := by
  unfold setup_ghosts
  generalize List.range g.NUM_GHOSTS.toNat = l
  induction l generalizing g with
  | nil => exact ⟨g.ghosts, rfl⟩
  | cons i is ih =>
    rw [List.foldl_cons]
    obtain ⟨gs, e⟩ := ih (ghost_put g i
      { colour := c_mod (i : Int) 4 + 1, status := 1, recharge_timer := 0,
        x := g.MAZE_OFFSET_X + 4 * (HORI_LINE_SIZE - 2) + 7,
        y := g.MAZE_OFFSET_Y + 4 * (VERT_LINE_SIZE - 2) + 4,
        direction := DOWN, speed := g.speed })
    exact ⟨gs, e⟩

theorem start_new_maze_frame (g : Game) (rs : List Nat) (g0 : Game) (rs0 : List Nat)
    (h : start_new_maze g rs = some (g0, rs0)) :
    g0.munchkin_x_factor1 = g.MAZE_OFFSET_X + 4 * (HORI_LINE_SIZE - 2) + 7 ∧
    g0.munchkin_y_factor1 = g.MAZE_OFFSET_Y + 3 * (VERT_LINE_SIZE - 2) + 4 ∧
    g0.munchkin_auto_direction = 0 ∧ g0.munchkin_last_direction = 0 ∧
    g0.maze_center_open = DOWN ∧ g0.maze_completed = FALSE ∧ g0.powerpill_active_timer = 0 ∧
    g0.horizontal_lines = (setup_maze g g.maze_selected).horizontal_lines ∧
    g0.vertical_lines = (setup_maze g g.maze_selected).vertical_lines ∧
    g0.maze_selected = g.maze_selected ∧ g0.speed = g.speed ∧
    g0.MAZE_OFFSET_X = g.MAZE_OFFSET_X ∧ g0.MAZE_OFFSET_Y = g.MAZE_OFFSET_Y ∧
    g0.munchkin_dying = g.munchkin_dying ∧ g0.score = g.score ∧ g0.high_score = g.high_score ∧
    g0.high_score_broken = g.high_score_broken ∧ g0.frame = g.frame := by
  unfold start_new_maze at h
  simp only at h
  split at h
  · exact absurd h (by simp)
  · rename_i g2 rs2 hm
    simp only [Option.some.injEq, Prod.mk.injEq] at h
    obtain ⟨ps, e⟩ := setup_pills_frame _ _ _ _ hm
    obtain ⟨gs, e2⟩ := setup_ghosts_frame g2
    rw [← h.1, e2, e]
    unfold setup_maze
    simp only
    split_ifs <;> simp

theorem demo_started_eq : start_new_maze demo [] = some (demo_started, []) := by decide

/-- C1. Player alignment invariant: in every state reached from `start_new_maze` by player
steps (key filter, then `handle_munchkin`), whatever the layout, the keys and the speed, a
committed direction 0, LEFT or RIGHT implies `(y - 27) % 14 == 0` and a committed direction
0, UP or DOWN implies `(x - 16) % 20 == 0`; and a step commits to an axis it was not
committed to only from the uncommitted state, where the player is aligned on both axes. -/
theorem player_alignment (g : Game) (rs : List Nat) (g0 : Game) (rs0 : List Nat) (ks : List keystate)
    (hox : g.MAZE_OFFSET_X = 9) (hoy : g.MAZE_OFFSET_Y = 23)
    (h0 : start_new_maze g rs = some (g0, rs0)) :
    (((ks.foldl munchkin_step g0).munchkin_auto_direction = 0 ∨
      (ks.foldl munchkin_step g0).munchkin_auto_direction = LEFT ∨
      (ks.foldl munchkin_step g0).munchkin_auto_direction = RIGHT) →
        c_mod ((ks.foldl munchkin_step g0).munchkin_y_factor1 - 27) 14 = 0) ∧
    (((ks.foldl munchkin_step g0).munchkin_auto_direction = 0 ∨
      (ks.foldl munchkin_step g0).munchkin_auto_direction = UP ∨
      (ks.foldl munchkin_step g0).munchkin_auto_direction = DOWN) →
        c_mod ((ks.foldl munchkin_step g0).munchkin_x_factor1 - 16) 20 = 0) ∧
    (∀ k : keystate,
      (((munchkin_step (ks.foldl munchkin_step g0) k).munchkin_auto_direction = UP ∨
        (munchkin_step (ks.foldl munchkin_step g0) k).munchkin_auto_direction = DOWN) →
        ¬ ((ks.foldl munchkin_step g0).munchkin_auto_direction = UP ∨
           (ks.foldl munchkin_step g0).munchkin_auto_direction = DOWN) →
        (ks.foldl munchkin_step g0).munchkin_auto_direction = 0 ∧
        c_mod ((ks.foldl munchkin_step g0).munchkin_x_factor1 - 16) 20 = 0) ∧
      (((munchkin_step (ks.foldl munchkin_step g0) k).munchkin_auto_direction = LEFT ∨
        (munchkin_step (ks.foldl munchkin_step g0) k).munchkin_auto_direction = RIGHT) →
        ¬ ((ks.foldl munchkin_step g0).munchkin_auto_direction = LEFT ∨
           (ks.foldl munchkin_step g0).munchkin_auto_direction = RIGHT) →
        (ks.foldl munchkin_step g0).munchkin_auto_direction = 0 ∧
        c_mod ((ks.foldl munchkin_step g0).munchkin_y_factor1 - 27) 14 = 0)) := by
  have hstart : player_inv g0 := by
    obtain ⟨a1, a2, a3, -⟩ := start_new_maze_frame g rs g0 rs0 h0
    unfold player_inv
    rw [a1, a2, a3, hox, hoy]
    decide
  have hall : ∀ (l : List keystate) (s : Game), player_inv s → player_inv (l.foldl munchkin_step s) := by
    intro l
    induction l with
    | nil => intro s hs; exact hs
    | cons k l ih => intro s hs; exact ih _ (player_step s k hs).1
  have hinv := hall ks g0 hstart
  generalize ks.foldl munchkin_step g0 = s at hinv
  obtain ⟨⟨hlo, hhi⟩, hy, hx⟩ := id hinv
  refine ⟨hy, hx, fun k => ⟨?_, ?_⟩⟩
  · intro h1 h2
    obtain ⟨-, p1, -⟩ := player_step s k hinv
    have hz : s.munchkin_auto_direction = 0 := by
      by_contra hne
      have : s.munchkin_auto_direction = LEFT ∨ s.munchkin_auto_direction = RIGHT := by
        simp only [LEFT, RIGHT, UP, DOWN] at h2 ⊢; omega
      obtain ⟨q1, q2⟩ := p1 this
      rcases h1 with h | h
      · exact q1 h
      · exact q2 h
    exact ⟨hz, hx (Or.inl hz)⟩
  · intro h1 h2
    obtain ⟨-, -, p2⟩ := player_step s k hinv
    have hz : s.munchkin_auto_direction = 0 := by
      by_contra hne
      have : s.munchkin_auto_direction = UP ∨ s.munchkin_auto_direction = DOWN := by
        simp only [LEFT, RIGHT, UP, DOWN] at h2 ⊢; omega
      obtain ⟨q1, q2⟩ := p2 this
      rcases h1 with h | h
      · exact q1 h
      · exact q2 h
    exact ⟨hz, hy (Or.inl hz)⟩

theorem player_alignment_witness :
    c_mod ((List.foldl munchkin_step demo_started
      [⟨true, false, false, false⟩, ⟨false, false, false, false⟩]).munchkin_y_factor1 - 27) 14 = 0 :=
  (player_alignment demo [] demo_started [] [⟨true, false, false, false⟩, ⟨false, false, false, false⟩]
    (by decide) (by decide) demo_started_eq).1 (by decide)

/-! ## The maze -/

theorem getD_set_lt {α : Type} (d : α) : ∀ (l : List α) (i j : Nat) (v : α), i < l.length →
    (l.set i v).getD j d = if j = i then v else l.getD j d := by
  intro l
  induction l with
  | nil => intro i j v h; simp at h
  | cons a l ih =>
    intro i j v h
    cases i with
    | zero =>
      cases j with
      | zero => simp
      | succ j => simp
    | succ i =>
      cases j with
      | zero => simp
      | succ j =>
        simp only [List.set_cons_succ, List.getD_cons_succ]
        rw [ih i j v (by simpa using h)]
        simp

theorem getD_set_ne {α : Type} (d : α) : ∀ (l : List α) (i j : Nat) (v : α), j ≠ i →
    (l.set i v).getD j d = l.getD j d := by
  intro l
  induction l with
  | nil => intro i j v _; simp
  | cons a l ih =>
    intro i j v h
    cases i with
    | zero =>
      cases j with
      | zero => exact absurd rfl h
      | succ j => simp
    | succ i =>
      cases j with
      | zero => simp
      | succ j =>
        simp only [List.set_cons_succ, List.getD_cons_succ]
        exact ih i j v (by omega)

theorem row_of_line_set (rows : List (List Char)) (r c n : Nat) (v : Char) :
    ((line_set rows r c v).getD n []).length = (rows.getD n []).length := by
  unfold line_set
  by_cases hn : n = r
  · subst hn
    by_cases hr : n < rows.length
    · rw [getD_set_lt [] rows n n _ hr]; simp
    · have : rows.set n ((rows.getD n []).set c v) = rows := by
        apply List.set_eq_of_length_le; omega
      rw [this]
  · rw [getD_set_ne [] rows r n _ hn]

theorem line_at_line_set_ne (rows : List (List Char)) (r c : Nat) (v : Char) (r1 c1 : Int)
    (h : ¬ (r1 = r ∧ c1 = c)) : line_at (line_set rows r c v) r1 c1 = line_at rows r1 c1 := by
  unfold line_at line_set
  by_cases hneg : r1 < 0 ∨ c1 < 0
  · simp only [hneg, if_true]
  · simp only [hneg, if_false]
    have h1 : 0 ≤ r1 := by omega
    have h2 : 0 ≤ c1 := by omega
    by_cases hr : r1.toNat = r
    · have hc : c1.toNat ≠ c := by
        intro hc; apply h; constructor <;> omega
      by_cases hlen : r < rows.length
      · rw [hr, getD_set_lt [] rows r r _ hlen, if_pos rfl, getD_set_ne NUL _ c _ v hc]
      · have : rows.set r ((rows.getD r []).set c v) = rows := by
          apply List.set_eq_of_length_le; omega
        rw [this]
    · rw [getD_set_ne [] rows r _ _ hr]

theorem line_at_line_set_eq (rows : List (List Char)) (r c : Nat) (v : Char)
    (h : c < (rows.getD r []).length) : line_at (line_set rows r c v) r c = v := by
  unfold line_at line_set
  have hr : r < rows.length := by
    by_contra hn
    have : rows.getD r [] = [] := by
      rw [List.getD_eq_default]; omega
    rw [this] at h; simp at h
  have hneg : ¬ ((r : Int) < 0 ∨ (c : Int) < 0) := by omega
  simp only [hneg, if_false, Int.toNat_ofNat]
  rw [getD_set_lt [] rows r r _ hr, if_pos rfl, getD_set_lt NUL _ c c v h, if_pos rfl]

theorem write_center_horizontal_ne (g : Game) (a b c d : Char) (r1 c1 : Int)
    (h1 : ¬ (r1 = 4 ∧ c1 = 4)) (h2 : ¬ (r1 = 5 ∧ c1 = 4)) :
    line_at (write_center g a b c d).horizontal_lines r1 c1 = line_at g.horizontal_lines r1 c1 := by
  unfold write_center
  simp only
  rw [line_at_line_set_ne _ 5 4 d r1 c1 (by simpa using h2),
    line_at_line_set_ne _ 4 4 a r1 c1 (by simpa using h1)]

theorem write_center_vertical_ne (g : Game) (a b c d : Char) (r1 c1 : Int)
    (h1 : ¬ (r1 = 4 ∧ c1 = 4)) (h2 : ¬ (r1 = 4 ∧ c1 = 5)) :
    line_at (write_center g a b c d).vertical_lines r1 c1 = line_at g.vertical_lines r1 c1 := by
  unfold write_center
  simp only
  rw [line_at_line_set_ne _ 4 5 c r1 c1 (by simpa using h2),
    line_at_line_set_ne _ 4 4 b r1 c1 (by simpa using h1)]

theorem write_center_reads (g : Game) (a b c d : Char) (hw : center_writable g) :
    line_at (write_center g a b c d).horizontal_lines 4 4 = a ∧
    line_at (write_center g a b c d).horizontal_lines 5 4 = d ∧
    line_at (write_center g a b c d).vertical_lines 4 4 = b ∧
    line_at (write_center g a b c d).vertical_lines 4 5 = c ∧
    center_writable (write_center g a b c d) := by
  obtain ⟨w1, w2, w3⟩ := hw
  unfold write_center
  simp only
  refine ⟨?_, ?_, ?_, ?_, ?_⟩
  · rw [line_at_line_set_ne _ 5 4 d 4 4 (by decide)]
    exact line_at_line_set_eq _ 4 4 a w1
  · exact line_at_line_set_eq _ 5 4 d (by rw [row_of_line_set]; exact w2)
  · rw [line_at_line_set_ne _ 4 5 c 4 4 (by decide)]
    exact line_at_line_set_eq _ 4 4 b (by omega)
  · exact line_at_line_set_eq _ 4 5 c (by rw [row_of_line_set]; exact w3)
  · unfold center_writable
    simp only [row_of_line_set]
    exact ⟨w1, w2, w3⟩

theorem rotate_center_frame (g : Game) :
    ∃ o, rotate_center g = { g with maze_center_open := o } := by
  unfold rotate_center
  split_ifs <;> exact ⟨_, rfl⟩

theorem rotate_center_open (g : Game)
    (h : g.maze_center_open = LEFT ∨ g.maze_center_open = RIGHT ∨
      g.maze_center_open = UP ∨ g.maze_center_open = DOWN) :
    (c_mod g.frame 45 ≠ 0 → (rotate_center g).maze_center_open = g.maze_center_open) ∧
    (c_mod g.frame 45 = 0 →
      (g.maze_center_open = DOWN → (rotate_center g).maze_center_open = LEFT) ∧
      (g.maze_center_open = LEFT → (rotate_center g).maze_center_open = UP) ∧
      (g.maze_center_open = UP → (rotate_center g).maze_center_open = RIGHT) ∧
      (g.maze_center_open = RIGHT → (rotate_center g).maze_center_open = DOWN)) ∧
    ((rotate_center g).maze_center_open = LEFT ∨ (rotate_center g).maze_center_open = RIGHT ∨
      (rotate_center g).maze_center_open = UP ∨ (rotate_center g).maze_center_open = DOWN) := by
  unfold rotate_center
  by_cases hf : c_mod g.frame 45 = 0
  · simp only [hf, if_true, ne_eq, not_true_eq_false, false_implies, true_implies, true_and]
    rcases h with h | h | h | h <;> rw [h] <;> simp
  · simp only [hf, if_false, ne_eq, not_false_eq_true, true_implies, false_implies, true_and, and_true]
    exact h

theorem draw_maze_open (g : Game) (hm : g.maze_selected ≤ 4) :
    (draw_maze g).maze_center_open = (rotate_center g).maze_center_open := by
  obtain ⟨o, e⟩ := rotate_center_frame g
  unfold draw_maze
  rw [if_pos hm, e]
  simp only
  unfold write_center
  split_ifs <;> rfl

theorem draw_maze_selected (g : Game) : (draw_maze g).maze_selected = g.maze_selected := by
  obtain ⟨o, e⟩ := rotate_center_frame g
  unfold draw_maze
  rw [e]
  simp only
  unfold write_center
  split_ifs <;> rfl

theorem draw_maze_horizontal_ne (g : Game) (r1 c1 : Int)
    (h1 : ¬ (r1 = 4 ∧ c1 = 4)) (h2 : ¬ (r1 = 5 ∧ c1 = 4)) :
    line_at (draw_maze g).horizontal_lines r1 c1 = line_at g.horizontal_lines r1 c1 := by
  obtain ⟨o, e⟩ := rotate_center_frame g
  have hh : (rotate_center g).horizontal_lines = g.horizontal_lines := by rw [e]
  unfold draw_maze
  simp only
  split_ifs <;> first | rfl | exact hh ▸ rfl | (rw [write_center_horizontal_ne _ _ _ _ _ r1 c1 h1 h2, hh])

theorem draw_maze_vertical_ne (g : Game) (r1 c1 : Int)
    (h1 : ¬ (r1 = 4 ∧ c1 = 4)) (h2 : ¬ (r1 = 4 ∧ c1 = 5)) :
    line_at (draw_maze g).vertical_lines r1 c1 = line_at g.vertical_lines r1 c1 := by
  obtain ⟨o, e⟩ := rotate_center_frame g
  have hh : (rotate_center g).vertical_lines = g.vertical_lines := by rw [e]
  unfold draw_maze
  simp only
  split_ifs <;> first | rfl | exact hh ▸ rfl | (rw [write_center_vertical_ne _ _ _ _ _ r1 c1 h1 h2, hh])

theorem draw_maze_center (g : Game) (hm : g.maze_selected ≤ 4) (hw : center_writable g)
    (ho : g.maze_center_open = LEFT ∨ g.maze_center_open = RIGHT ∨
      g.maze_center_open = UP ∨ g.maze_center_open = DOWN) :
    center_named_open (draw_maze g) ∧ center_writable (draw_maze g) := by
  obtain ⟨o, e⟩ := rotate_center_frame g
  have ho2 := (rotate_center_open g ho).2.2
  have hw2 : center_writable (rotate_center g) := by rw [e]; exact hw
  have hopen := draw_maze_open g hm
  unfold center_named_open
  rw [hopen]
  unfold draw_maze
  rw [if_pos hm]
  simp only
  rcases ho2 with h | h | h | h
  · obtain ⟨r1, r2, r3, r4, r5⟩ := write_center_reads (rotate_center g) 'x' '-' '|' 'x' hw2
    simp only [h, if_true]
    rw [r1, r2, r3, r4]
    exact ⟨by decide, r5⟩
  · obtain ⟨r1, r2, r3, r4, r5⟩ := write_center_reads (rotate_center g) 'x' '|' '-' 'x' hw2
    simp only [h, show (RIGHT : Int) ≠ LEFT by decide, if_true, if_false]
    rw [r1, r2, r3, r4]
    exact ⟨by decide, r5⟩
  · obtain ⟨r1, r2, r3, r4, r5⟩ := write_center_reads (rotate_center g) '-' '|' '|' 'x' hw2
    simp only [h, show (UP : Int) ≠ LEFT by decide, show (UP : Int) ≠ RIGHT by decide, if_true, if_false]
    rw [r1, r2, r3, r4]
    exact ⟨by decide, r5⟩
  · obtain ⟨r1, r2, r3, r4, r5⟩ := write_center_reads (rotate_center g) 'x' '|' '|' '-' hw2
    simp only [h, show (DOWN : Int) ≠ LEFT by decide, show (DOWN : Int) ≠ RIGHT by decide,
      show (DOWN : Int) ≠ UP by decide, if_true, if_false]
    rw [r1, r2, r3, r4]
    exact ⟨by decide, r5⟩

theorem rotate_center_map (g : Game) :
    (c_mod g.frame 45 ≠ 0 → (rotate_center g).maze_center_open = g.maze_center_open) ∧
    (c_mod g.frame 45 = 0 →
      (g.maze_center_open = DOWN → (rotate_center g).maze_center_open = LEFT) ∧
      (g.maze_center_open = LEFT → (rotate_center g).maze_center_open = UP) ∧
      (g.maze_center_open = UP → (rotate_center g).maze_center_open = RIGHT) ∧
      (g.maze_center_open = RIGHT → (rotate_center g).maze_center_open = DOWN)) := by
  unfold rotate_center
  by_cases hf : c_mod g.frame 45 = 0
  · simp only [hf, if_true, ne_eq, not_true_eq_false, false_implies, true_implies, true_and]
    refine ⟨?_, ?_, ?_, ?_⟩ <;> intro h <;> rw [h] <;> simp
  · simp only [hf, if_false, ne_eq, not_false_eq_true, true_implies, false_implies, and_true]

theorem setup_maze_walls (g : Game) (id : Int) (hid : 1 ≤ id ∧ id ≤ 4) :
    (setup_maze g id).horizontal_lines = (setup_maze demo id).horizontal_lines ∧
    (setup_maze g id).vertical_lines = (setup_maze demo id).vertical_lines := by
  obtain ⟨h1, h2⟩ := hid
  interval_cases id <;> exact ⟨rfl, rfl⟩

theorem setup_maze_center (g : Game) (id : Int) (hid : 1 ≤ id ∧ id ≤ 4) :
    center_writable (setup_maze g id) ∧
    line_at (setup_maze g id).vertical_lines 4 4 = '|' ∧
    line_at (setup_maze g id).vertical_lines 4 5 = '|' ∧
    line_at (setup_maze g id).horizontal_lines 4 4 = 'x' ∧
    line_at (setup_maze g id).horizontal_lines 5 4 = '-' := by
  obtain ⟨e1, e2⟩ := setup_maze_walls g id hid
  unfold center_writable
  rw [e1, e2]
  obtain ⟨h1, h2⟩ := hid
  interval_cases id <;> decide

theorem draw_fold_inv (fs : List Int) : ∀ s : Game, s.maze_selected ≤ 4 → center_writable s →
    center_named_open s → center_named_open (fs.foldl draw_maze_at s) := by
  induction fs with
  | nil => intro s _ _ h; exact h
  | cons f fs ih =>
    intro s hm hw hc
    rw [List.foldl_cons]
    have hd := draw_maze_center { s with frame := f } hm hw hc.1
    exact ih (draw_maze_at s f) (by unfold draw_maze_at; rw [draw_maze_selected]; exact hm) hd.2 hd.1

/-- C4. Centre-rotation invariant: after `start_new_maze` on a layout 1..4 and after any
number of later `draw_maze` calls, on whatever frames, exactly one of the four segments
around the centre cell is open, the one named by `maze_center_open`. -/
theorem center_rotation_invariant (g : Game) (rs : List Nat) (g0 : Game) (rs0 : List Nat)
    (fs : List Int) (hm : 1 ≤ g.maze_selected ∧ g.maze_selected ≤ 4)
    (h0 : start_new_maze g rs = some (g0, rs0)) :
    center_named_open (fs.foldl draw_maze_at g0) := by
  obtain ⟨-, -, -, -, a5, -, -, a8, a9, a10, -⟩ := start_new_maze_frame g rs g0 rs0 h0
  obtain ⟨w, c1, c2, c3, c4⟩ := setup_maze_center g g.maze_selected hm
  apply draw_fold_inv fs g0 (by rw [a10]; exact hm.2)
  · unfold center_writable; rw [a8, a9]; exact w
  · unfold center_named_open
    rw [a5, a8, a9, c1, c2, c3, c4]
    decide

theorem center_rotation_invariant_witness :
    center_named_open (List.foldl draw_maze_at demo_started [45, 46, 90]) :=
  center_rotation_invariant demo [] demo_started [] [45, 46, 90] (by decide) demo_started_eq

/-- C5. Rotation order: with `maze_selected <= 4`, `draw_maze` leaves `maze_center_open`
alone unless `frame % 45 == 0`, and then maps DOWN to LEFT, LEFT to UP, UP to RIGHT and
RIGHT to DOWN; so four rotating calls bring the opening back and pass through all four sides. -/
theorem rotation_order (g : Game) (hm : g.maze_selected ≤ 4) :
    (c_mod g.frame 45 ≠ 0 → (draw_maze g).maze_center_open = g.maze_center_open) ∧
    (c_mod g.frame 45 = 0 →
      (g.maze_center_open = DOWN → (draw_maze g).maze_center_open = LEFT) ∧
      (g.maze_center_open = LEFT → (draw_maze g).maze_center_open = UP) ∧
      (g.maze_center_open = UP → (draw_maze g).maze_center_open = RIGHT) ∧
      (g.maze_center_open = RIGHT → (draw_maze g).maze_center_open = DOWN)) ∧
    (∀ f1 f2 f3 f4 : Int, c_mod f1 45 = 0 → c_mod f2 45 = 0 → c_mod f3 45 = 0 → c_mod f4 45 = 0 →
      (g.maze_center_open = LEFT ∨ g.maze_center_open = RIGHT ∨
        g.maze_center_open = UP ∨ g.maze_center_open = DOWN) →
      (draw_maze_at (draw_maze_at (draw_maze_at (draw_maze_at g f1) f2) f3) f4).maze_center_open
        = g.maze_center_open ∧
      ∀ d : Int, (d = LEFT ∨ d = RIGHT ∨ d = UP ∨ d = DOWN) →
        d = g.maze_center_open ∨
        d = (draw_maze_at g f1).maze_center_open ∨
        d = (draw_maze_at (draw_maze_at g f1) f2).maze_center_open ∨
        d = (draw_maze_at (draw_maze_at (draw_maze_at g f1) f2) f3).maze_center_open) := by
  have key : ∀ (s : Game) (f : Int), s.maze_selected ≤ 4 → c_mod f 45 = 0 →
      (draw_maze_at s f).maze_selected ≤ 4 ∧
      (s.maze_center_open = DOWN → (draw_maze_at s f).maze_center_open = LEFT) ∧
      (s.maze_center_open = LEFT → (draw_maze_at s f).maze_center_open = UP) ∧
      (s.maze_center_open = UP → (draw_maze_at s f).maze_center_open = RIGHT) ∧
      (s.maze_center_open = RIGHT → (draw_maze_at s f).maze_center_open = DOWN) := by
    intro s f hs hf
    have e1 := draw_maze_selected { s with frame := f }
    have e2 := draw_maze_open { s with frame := f } hs
    have e3 := (rotate_center_map { s with frame := f }).2 hf
    unfold draw_maze_at
    rw [e1, e2]
    exact ⟨hs, e3⟩
  rw [draw_maze_open g hm]
  refine ⟨(rotate_center_map g).1, (rotate_center_map g).2, ?_⟩
  intro f1 f2 f3 f4 h1 h2 h3 h4 ho
  obtain ⟨m1, a1, a2, a3, a4⟩ := key g f1 hm h1
  obtain ⟨m2, b1, b2, b3, b4⟩ := key _ f2 m1 h2
  obtain ⟨m3, c1, c2, c3, c4⟩ := key _ f3 m2 h3
  obtain ⟨-, d1, d2, d3, d4⟩ := key _ f4 m3 h4
  rcases ho with h | h | h | h
  · have e1 := a2 h
    have e2 := b3 e1
    have e3 := c4 e2
    have e4 := d1 e3
    refine ⟨by rw [e4, h], fun d hd => ?_⟩
    rw [e1, e2, e3, h]
    rcases hd with hd | hd | hd | hd <;> simp [hd]
  · have e1 := a4 h
    have e2 := b1 e1
    have e3 := c2 e2
    have e4 := d3 e3
    refine ⟨by rw [e4, h], fun d hd => ?_⟩
    rw [e1, e2, e3, h]
    rcases hd with hd | hd | hd | hd <;> simp [hd]
  · have e1 := a3 h
    have e2 := b4 e1
    have e3 := c1 e2
    have e4 := d2 e3
    refine ⟨by rw [e4, h], fun d hd => ?_⟩
    rw [e1, e2, e3, h]
    rcases hd with hd | hd | hd | hd <;> simp [hd]
  · have e1 := a1 h
    have e2 := b2 e1
    have e3 := c3 e2
    have e4 := d4 e3
    refine ⟨by rw [e4, h], fun d hd => ?_⟩
    rw [e1, e2, e3, h]
    rcases hd with hd | hd | hd | hd <;> simp [hd]

theorem rotation_order_witness :
    (draw_maze { demo with frame := 90 }).maze_center_open = LEFT :=
  ((rotation_order { demo with frame := 90 } (by decide)).2.1 (by decide)).1 (by decide)

theorem draw_fold_outside (fs : List Int) : ∀ s : Game,
    (∀ r1 c1 : Int, ¬ (r1 = 4 ∧ c1 = 4) → ¬ (r1 = 5 ∧ c1 = 4) →
      line_at (fs.foldl draw_maze_at s).horizontal_lines r1 c1 = line_at s.horizontal_lines r1 c1) ∧
    (∀ r1 c1 : Int, ¬ (r1 = 4 ∧ c1 = 4) → ¬ (r1 = 4 ∧ c1 = 5) →
      line_at (fs.foldl draw_maze_at s).vertical_lines r1 c1 = line_at s.vertical_lines r1 c1) := by
  induction fs with
  | nil => intro s; exact ⟨fun _ _ _ _ => rfl, fun _ _ _ _ => rfl⟩
  | cons f fs ih =>
    intro s
    rw [List.foldl_cons]
    obtain ⟨i1, i2⟩ := ih (draw_maze_at s f)
    constructor
    · intro r1 c1 h1 h2
      rw [i1 r1 c1 h1 h2]
      exact draw_maze_horizontal_ne { s with frame := f } r1 c1 h1 h2
    · intro r1 c1 h1 h2
      rw [i2 r1 c1 h1 h2]
      exact draw_maze_vertical_ne { s with frame := f } r1 c1 h1 h2

theorem setup_maze_boundary (g : Game) (id : Int) (hid : 1 ≤ id ∧ id ≤ 4) :
    outer_boundary_closed (setup_maze g id) := by
  obtain ⟨e1, e2⟩ := setup_maze_walls g id hid
  unfold outer_boundary_closed
  rw [e1, e2]
  obtain ⟨h1, h2⟩ := hid
  refine ⟨?_, ?_, ?_, ?_⟩
  · intro c hc1 hc2
    interval_cases id <;> interval_cases c <;> decide
  · intro r hr1 hr2 hr3
    interval_cases id <;> interval_cases r <;> first | decide | exact absurd rfl hr3
  · interval_cases id <;> decide
  · interval_cases id <;> decide

/-- C6. Closed outer boundary: for each layout 1..4, after `setup_maze` and after any number
of `draw_maze` calls, the top and bottom rows are walls, the left and right columns are walls
in every row but row 4, and the two tunnel openings of row 4 are open. -/
theorem outer_boundary (g : Game) (id : Int) (fs : List Int) (hid : 1 ≤ id ∧ id ≤ 4) :
    outer_boundary_closed (fs.foldl draw_maze_at (setup_maze g id)) := by
  obtain ⟨b1, b2, b3, b4⟩ := setup_maze_boundary g id hid
  obtain ⟨o1, o2⟩ := draw_fold_outside fs (setup_maze g id)
  refine ⟨?_, ?_, ?_, ?_⟩
  · intro c hc1 hc2
    rw [o1 0 c (by omega) (by omega), o1 7 c (by omega) (by omega)]
    exact b1 c hc1 hc2
  · intro r hr1 hr2 hr3
    rw [o2 r 0 (by omega) (by omega), o2 r 9 (by omega) (by omega)]
    exact b2 r hr1 hr2 hr3
  · rw [o2 4 0 (by omega) (by omega)]; exact b3
  · rw [o2 4 9 (by omega) (by omega)]; exact b4

theorem outer_boundary_witness :
    outer_boundary_closed (List.foldl draw_maze_at (setup_maze demo 3) [45, 90]) :=
  outer_boundary demo 3 [45, 90] (by decide)

theorem tunnel_cell_x (x : Int) :
    (-4 ≤ x ∧ x ≤ 15 → c_div (x - 16) 20 = if x = -4 then -1 else 0) ∧
    (177 ≤ x ∧ x ≤ 196 → c_div (x - 16) 20 = if x = 196 then 9 else 8) := by
  constructor
  · rintro ⟨h1, h2⟩
    interval_cases x <;> decide
  · rintro ⟨h1, h2⟩
    interval_cases x <;> decide

theorem setup_maze_tunnel_row (g : Game) (id : Int) (hid : 1 ≤ id ∧ id ≤ 4) :
    line_at (setup_maze g id).horizontal_lines 4 0 = 'x' ∧
    line_at (setup_maze g id).horizontal_lines 4 8 = 'x' ∧
    line_at (setup_maze g id).horizontal_lines 5 0 = 'x' ∧
    line_at (setup_maze g id).horizontal_lines 5 8 = 'x' := by
  obtain ⟨e1, e2⟩ := setup_maze_walls g id hid
  rw [e1]
  obtain ⟨h1, h2⟩ := hid
  interval_cases id <;> decide

/-- C7. No vertical motion in the tunnel: in a layout 1..4 (after any number of `draw_maze`
calls), with the player on the tunnel row `y = 83` at `x` in -4..15 or 177..196 and a speed
that is not negative, `handle_munchkin(UP, 1)` and `handle_munchkin(DOWN, 1)` leave
`munchkin_y_factor1` unchanged. -/
theorem no_vertical_in_tunnel (s g : Game) (id : Int) (fs : List Int) (hid : 1 ≤ id ∧ id ≤ 4)
    (hwalls : s.horizontal_lines = (fs.foldl draw_maze_at (setup_maze g id)).horizontal_lines)
    (hox : s.MAZE_OFFSET_X = 9) (hoy : s.MAZE_OFFSET_Y = 23)
    (hy : s.munchkin_y_factor1 = 83)
    (hx : (-4 ≤ s.munchkin_x_factor1 ∧ s.munchkin_x_factor1 ≤ 15) ∨
      (177 ≤ s.munchkin_x_factor1 ∧ s.munchkin_x_factor1 ≤ 196))
    (hsp : 0 ≤ s.speed) :
    (handle_munchkin s UP 1).munchkin_y_factor1 = s.munchkin_y_factor1 ∧
    (handle_munchkin s DOWN 1).munchkin_y_factor1 = s.munchkin_y_factor1 := by
  obtain ⟨t1, t2, t3, t4⟩ := setup_maze_tunnel_row g id hid
  obtain ⟨o1, -⟩ := draw_fold_outside fs (setup_maze g id)
  have w1 : line_at s.horizontal_lines 4 0 = 'x' := by rw [hwalls, o1 4 0 (by omega) (by omega)]; exact t1
  have w2 : line_at s.horizontal_lines 4 8 = 'x' := by rw [hwalls, o1 4 8 (by omega) (by omega)]; exact t2
  have w3 : line_at s.horizontal_lines 5 0 = 'x' := by rw [hwalls, o1 5 0 (by omega) (by omega)]; exact t3
  have w4 : line_at s.horizontal_lines 5 8 = 'x' := by rw [hwalls, o1 5 8 (by omega) (by omega)]; exact t4
  have hcy : c_div (s.munchkin_y_factor1 - (4 + s.MAZE_OFFSET_Y)) (VERT_LINE_SIZE - 2) = 4 := by
    rw [hy, hoy]; decide
  have hcx : c_div (s.munchkin_x_factor1 - (7 + s.MAZE_OFFSET_X)) (HORI_LINE_SIZE - 2) =
      c_div (s.munchkin_x_factor1 - 16) 20 := by
    rw [hox]; rfl
  have hcell : c_div (s.munchkin_x_factor1 - 16) 20 = -1 ∨ c_div (s.munchkin_x_factor1 - 16) 20 = 0 ∨
      c_div (s.munchkin_x_factor1 - 16) 20 = 8 ∨ c_div (s.munchkin_x_factor1 - 16) 20 = 9 := by
    rcases hx with h | h
    · rw [(tunnel_cell_x _).1 h]; split_ifs <;> simp
    · rw [(tunnel_cell_x _).2 h]; split_ifs <;> simp
  unfold handle_munchkin
  simp only [hcx, hcy, if_true, one_ne_zero, and_false, if_false]
  unfold handle_munchkin_manual
  simp only [show (UP : Int) ≠ LEFT by decide, show (UP : Int) ≠ RIGHT by decide,
    show (DOWN : Int) ≠ LEFT by decide, show (DOWN : Int) ≠ RIGHT by decide,
    show (DOWN : Int) ≠ UP by decide, if_true, if_false, hoy, hy]
  rcases hcell with hc | hc | hc | hc <;> rw [hc] <;> constructor <;>
    simp only [w1, w2, w3, w4, show ((4 : Int) + 1) = 5 by norm_num, true_and] <;>
    split_ifs <;>
    first
      | rfl
      | (simp only [VERT_LINE_SIZE] at *; omega)
      | simp_all

theorem no_vertical_in_tunnel_witness :
    (handle_munchkin demo_tunnel UP 1).munchkin_y_factor1 = 83 ∧
    (handle_munchkin demo_tunnel DOWN 1).munchkin_y_factor1 = 83 :=
  no_vertical_in_tunnel demo_tunnel demo 1 [46] (by decide) (by decide) (by decide) (by decide)
    (by decide) (by decide) (by decide)

/-! ## Pills -/

/-- C8. Overlap test for pills: `check_pill_eaten(i)` is TRUE exactly when the shrunk player
box and the pill box overlap strictly on both axes, and is FALSE otherwise, in particular
when the boxes only touch on an edge. -/
theorem pill_overlap (g : Game) (i : Nat) :
    (check_pill_eaten g i = TRUE ↔
      ((g.munchkin_x_factor1 * g.factor + g.screen_offset_x) + 4 * g.factor > (pill_at g i).x ∧
       (g.munchkin_x_factor1 * g.factor + g.screen_offset_x) + 2 * g.factor
          < (pill_at g i).x + 3 * g.factor ∧
       (g.munchkin_y_factor1 * g.factor + g.screen_offset_y) + 4 * g.factor > (pill_at g i).y ∧
       (g.munchkin_y_factor1 * g.factor + g.screen_offset_y) + 2 * g.factor
          < (pill_at g i).y + 2 * g.factor)) ∧
    (check_pill_eaten g i ≠ TRUE → check_pill_eaten g i = FALSE) ∧
    (((g.munchkin_x_factor1 * g.factor + g.screen_offset_x) + 4 * g.factor = (pill_at g i).x ∨
      (g.munchkin_x_factor1 * g.factor + g.screen_offset_x) + 2 * g.factor
          = (pill_at g i).x + 3 * g.factor ∨
      (g.munchkin_y_factor1 * g.factor + g.screen_offset_y) + 4 * g.factor = (pill_at g i).y ∨
      (g.munchkin_y_factor1 * g.factor + g.screen_offset_y) + 2 * g.factor
          = (pill_at g i).y + 2 * g.factor) →
      check_pill_eaten g i = FALSE) := by
  unfold check_pill_eaten
  simp only
  refine ⟨?_, ?_, ?_⟩
  · split_ifs with h
    · exact ⟨fun _ => h, fun _ => rfl⟩
    · exact ⟨fun h1 => absurd h1 (by decide), fun h1 => absurd h1 h⟩
  · split_ifs with h
    · intro h1; exact absurd rfl h1
    · intro _; rfl
  · intro ht
    split_ifs with h
    · exfalso; omega
    · rfl

theorem arr_put_getD {α : Type} (z : α) : ∀ (l : List α) (i j : Nat) (v : α),
    (arr_put z l i v).getD j z = if j = i then v else l.getD j z := by
  intro l
  induction l with
  | nil =>
    intro i
    induction i with
    | zero =>
      intro j v
      cases j with
      | zero => simp [arr_put]
      | succ j => simp [arr_put]
    | succ i ih =>
      intro j v
      cases j with
      | zero => simp [arr_put]
      | succ j =>
        simp only [arr_put, List.getD_cons_succ]
        rw [ih j v]
        simp
  | cons a l ih =>
    intro i j v
    cases i with
    | zero =>
      cases j with
      | zero => simp [arr_put]
      | succ j => simp [arr_put]
    | succ i =>
      cases j with
      | zero => simp [arr_put]
      | succ j =>
        simp only [arr_put, List.getD_cons_succ]
        rw [ih i j v]
        simp

theorem pill_at_pill_put (g : Game) (i j : Nat) (p : pill_type) :
    pill_at (pill_put g i p) j = if j = i then p else pill_at g j := by
  unfold pill_at pill_put
  exact arr_put_getD pill_zero g.pills i j p

theorem ghost_at_ghost_put (g : Game) (i j : Nat) (p : ghost_type) :
    ghost_at (ghost_put g i p) j = if j = i then p else ghost_at g j := by
  unfold ghost_at ghost_put
  exact arr_put_getD ghost_zero g.ghosts i j p

theorem same_play_refl (g : Game) : same_play g g :=
  ⟨rfl, rfl, rfl, rfl, rfl, rfl, rfl, rfl, rfl⟩

theorem same_play_trans (g g1 g2 : Game) (h1 : same_play g g1) (h2 : same_play g1 g2) :
    same_play g g2 := by
  obtain ⟨a1, a2, a3, a4, a5, a6, a7, a8, a9⟩ := h1
  obtain ⟨b1, b2, b3, b4, b5, b6, b7, b8, b9⟩ := h2
  exact ⟨b1.trans a1, b2.trans a2, b3.trans a3, b4.trans a4, b5.trans a5, b6.trans a6,
    b7.trans a7, b8.trans a8, b9.trans a9⟩

theorem check_pill_eaten_congr (g g1 : Game) (i : Nat) (h : same_play g g1)
    (hp : pill_at g1 i = pill_at g i) : check_pill_eaten g1 i = check_pill_eaten g i := by
  obtain ⟨a1, a2, a3, a4, a5, -⟩ := h
  unfold check_pill_eaten
  rw [hp, a1, a2, a3, a4, a5]

theorem score_kept_refl (g : Game) (h : g.score ≤ g.high_score) : score_kept g g := by
  refine ⟨le_refl _, (max_eq_left h).symm, fun h1 => absurd h1 (not_lt.mpr h), fun _ => rfl⟩

theorem score_kept_trans (g g1 g2 : Game)
    (h1 : score_kept g g1) (h2 : score_kept g1 g2) : score_kept g g2 := by
  obtain ⟨a1, a2, a3, a4⟩ := h1
  obtain ⟨b1, b2, b3, b4⟩ := h2
  have m1 : g1.high_score = g.high_score ∨ (g1.high_score = g1.score ∧ g.high_score ≤ g1.score) := by
    rcases le_total g1.score g.high_score with hh | hh
    · left; rw [a2]; exact max_eq_left hh
    · right; exact ⟨by rw [a2]; exact max_eq_right hh, hh⟩
  refine ⟨le_trans a1 b1, ?_, ?_, ?_⟩
  · rw [b2, a2, max_assoc, max_eq_right b1]
  · intro hlt
    by_cases hc : g1.high_score < g2.score
    · exact b3 hc
    · rw [b4 hc]
      apply a3
      rcases m1 with m | ⟨m, _⟩
      · exfalso; rw [m] at hc; exact hc hlt
      · by_contra hn
        have : g1.high_score = g.high_score := by rw [a2]; exact max_eq_left (not_lt.mp hn)
        rw [this] at hc; exact hc hlt
  · intro hlt
    have h1' : ¬ g.high_score < g1.score := fun hh => hlt (lt_of_lt_of_le hh b1)
    have e1 : g1.high_score = g.high_score := by rw [a2]; exact max_eq_left (not_lt.mp h1')
    have h2' : ¬ g1.high_score < g2.score := by rw [e1]; exact hlt
    rw [b4 h2', a4 h1']

theorem powerpill_ghosts_frame (g : Game) :
    ∃ gs t, powerpill_ghosts g = { g with ghosts := gs, powerpill_active_timer := t } := by
  unfold powerpill_ghosts
  generalize List.range g.NUM_GHOSTS.toNat = l
  induction l generalizing g with
  | nil => exact ⟨g.ghosts, g.powerpill_active_timer, rfl⟩
  | cons j js ih =>
    rw [List.foldl_cons]
    by_cases hj : (ghost_at g j).status = 1 ∨ (ghost_at g j).status = 2
    · simp only [hj, if_true]
      obtain ⟨gs, t, e⟩ := ih { ghost_put g j { ghost_at g j with status := 2 } with
        powerpill_active_timer := 180 }
      exact ⟨gs, t, e⟩
    · simp only [hj, if_false]
      exact ih g

theorem eat_pill_spec (g : Game) (i : Nat) :
    same_play g (eat_pill g i) ∧
    (∀ j, pill_at (eat_pill g i) j =
      if j = i then { pill_at g i with status := 0 } else pill_at g j) ∧
    (eat_pill g i).score = g.score + (if (pill_at g i).status = 1 then 1 else 0)
      + (if (pill_at g i).status = 2 then 3 else 0) ∧
    (eat_pill g i).high_score =
      (if (eat_pill g i).score > g.high_score then (eat_pill g i).score else g.high_score) ∧
    (eat_pill g i).high_score_broken =
      (if (eat_pill g i).score > g.high_score then TRUE else g.high_score_broken) := by
  have key : ∃ gs t sc, (sc = g.score + (if (pill_at g i).status = 1 then 1 else 0)
        + (if (pill_at g i).status = 2 then 3 else 0)) ∧
      eat_pill g i = pill_put
        { g with ghosts := gs, powerpill_active_timer := t, score := sc,
                 high_score := if sc > g.high_score then sc else g.high_score,
                 high_score_broken := if sc > g.high_score then TRUE else g.high_score_broken }
        i { pill_at g i with status := 0 } := by
    have k1 : ∃ sc, sc = g.score + (if (pill_at g i).status = 1 then 1 else 0) ∧
        eat_normal g i = { g with score := sc } := by
      unfold eat_normal
      split_ifs with h
      · exact ⟨g.score + 1, by simp, rfl⟩
      · exact ⟨g.score, by simp, rfl⟩
    obtain ⟨sc1, hsc1, e1⟩ := k1
    have k2 : ∃ gs t sc, sc = sc1 + (if (pill_at g i).status = 2 then 3 else 0) ∧
        eat_power (eat_normal g i) i =
          { g with ghosts := gs, powerpill_active_timer := t, score := sc } := by
      rw [e1]
      unfold eat_power
      have e : pill_at { g with score := sc1 } i = pill_at g i := rfl
      rw [e]
      split_ifs with h
      · obtain ⟨gs, t, e2⟩ := powerpill_ghosts_frame
          { ({ g with score := sc1 } : Game) with score := ({ g with score := sc1 } : Game).score + 3 }
        exact ⟨gs, t, sc1 + 3, by simp, e2⟩
      · exact ⟨g.ghosts, g.powerpill_active_timer, sc1, by simp, rfl⟩
    obtain ⟨gs, t, sc, hsc, e2⟩ := k2
    refine ⟨gs, t, sc, by rw [hsc, hsc1], ?_⟩
    unfold eat_pill
    rw [e2]
    unfold update_high_score
    simp only
    split_ifs <;> rfl
  obtain ⟨gs, t, sc, hsc, e⟩ := key
  rw [e]
  refine ⟨⟨rfl, rfl, rfl, rfl, rfl, rfl, rfl, rfl, rfl⟩, ?_, ?_, ?_, ?_⟩
  · intro j; rw [pill_at_pill_put]; rfl
  · exact hsc
  · rfl
  · rfl

theorem move_pill_spec (g : Game) (i : Nat) :
    ∃ p, (move_pill g i = pill_put g i p ∨ move_pill g i = g) ∧
      p.status = (pill_at g i).status ∧ p.speed = (pill_at g i).speed ∧
      p.direction = (pill_at g i).direction := by
  unfold move_pill
  simp only
  split_ifs <;>
    first
      | exact ⟨_, Or.inl rfl, rfl, rfl, rfl⟩
      | exact ⟨pill_at g i, Or.inr rfl, rfl, rfl, rfl⟩

/-- What one pass of the loop body of `handle_pills` does to pill `i` and to the rest. -/
theorem handle_pills_body_spec (g : Game) (i : Nat) (ap : Int) (rs : List Nat)
    (g1 : Game) (ap1 : Int) (rs1 : List Nat)
    (h : handle_pills_body g i ap rs = some (g1, ap1, rs1)) :
    (((pill_at g i).status ≠ 0 ∧ g.munchkin_dying = FALSE ∧ check_pill_eaten g i = TRUE) →
      g1 = eat_pill g i) ∧
    (¬ ((pill_at g i).status ≠ 0 ∧ g.munchkin_dying = FALSE ∧ check_pill_eaten g i = TRUE) →
      (∃ ps, g1 = { g with pills := ps }) ∧
      (∀ j, j ≠ i → pill_at g1 j = pill_at g j) ∧
      (pill_at g1 i).status = (pill_at g i).status ∧
      (pill_at g1 i).speed = (pill_at g i).speed) := by
  have hchk : check_pill_eaten g i = TRUE ∨ check_pill_eaten g i = FALSE := by
    unfold check_pill_eaten; simp only; split_ifs <;> simp
  unfold handle_pills_body at h
  by_cases hs : (pill_at g i).status ≠ 0
  swap
  · rw [if_neg hs] at h
    simp only [Option.some.injEq, Prod.mk.injEq] at h
    rw [← h.1]
    exact ⟨fun hh => absurd hh.1 hs, fun _ => ⟨⟨g.pills, rfl⟩, fun _ _ => rfl, rfl, rfl⟩⟩
  rw [if_pos hs] at h
  simp only at h
  by_cases he : g.munchkin_dying = FALSE ∧ check_pill_eaten g i = TRUE
  · have : (if g.munchkin_dying = FALSE then check_pill_eaten g i else FALSE) ≠ FALSE := by
      rw [if_pos he.1, he.2]; decide
    rw [if_neg this] at h
    simp only [Option.some.injEq, Prod.mk.injEq] at h
    exact ⟨fun _ => h.1.symm, fun hn => absurd ⟨hs, he⟩ hn⟩
  · have : (if g.munchkin_dying = FALSE then check_pill_eaten g i else FALSE) = FALSE := by
      by_cases hd : g.munchkin_dying = FALSE
      · rw [if_pos hd]
        rcases hchk with hc | hc
        · exact absurd ⟨hd, hc⟩ he
        · exact hc
      · rw [if_neg hd]
    rw [if_pos this] at h
    refine ⟨fun hh => absurd ⟨hh.2.1, hh.2.2⟩ he, fun _ => ?_⟩
    split at h
    · exact absurd h (by simp)
    · rename_i g2 rs2 hc
      simp only [Option.some.injEq, Prod.mk.injEq] at h
      obtain ⟨d, hd⟩ := choose_pill_direction_frame g i rs g2 rs2 hc
      obtain ⟨p, hp, hp1, hp2, -⟩ := move_pill_spec g2 i
      rw [← h.1]
      have hg2 : (∃ ps, g2 = { g with pills := ps }) ∧ (∀ j, j ≠ i → pill_at g2 j = pill_at g j) ∧
          (pill_at g2 i).status = (pill_at g i).status ∧
          (pill_at g2 i).speed = (pill_at g i).speed := by
        rcases hd with hd | hd
        · rw [hd]
          refine ⟨⟨_, rfl⟩, ?_, ?_, ?_⟩
          · intro j hj; rw [pill_at_pill_put, if_neg hj]
          · rw [pill_at_pill_put, if_pos rfl]
          · rw [pill_at_pill_put, if_pos rfl]
        · rw [hd]; exact ⟨⟨g.pills, rfl⟩, fun _ _ => rfl, rfl, rfl⟩
      obtain ⟨⟨ps, q0⟩, q1, q2, q3⟩ := hg2
      rcases hp with hp | hp
      · rw [hp]
        refine ⟨⟨_, by rw [q0]; rfl⟩, ?_, ?_, ?_⟩
        · intro j hj; rw [pill_at_pill_put, if_neg hj]; exact q1 j hj
        · rw [pill_at_pill_put, if_pos rfl, hp1, q2]
        · rw [pill_at_pill_put, if_pos rfl, hp2, q3]
      · rw [hp]; exact ⟨⟨ps, q0⟩, q1, q2, q3⟩

theorem pill_value_congr (g g1 : Game) (j : Nat) (h : same_play g g1)
    (hp : pill_at g1 j = pill_at g j) :
    pill_value g1 j = pill_value g j ∧ (pill_touched g1 j ↔ pill_touched g j) := by
  unfold pill_value pill_touched
  rw [check_pill_eaten_congr g g1 j h hp, hp]
  exact ⟨rfl, Iff.rfl⟩

theorem pill_value_untouched (g : Game) (i : Nat) (h : ¬ pill_touched g i) : pill_value g i = 0 := by
  unfold pill_value
  unfold pill_touched at h
  by_cases hc : check_pill_eaten g i = TRUE
  · have h0 : (pill_at g i).status = 0 := by
      by_contra hn; exact h ⟨hn, hc⟩
    rw [if_pos hc, h0]; decide
  · rw [if_neg hc]

theorem handle_pills_loop_spec (l : List Nat) : ∀ (g : Game) (ap : Int) (rs : List Nat)
    (g3 : Game) (ap3 : Int) (rs3 : List Nat), l.Nodup → g.munchkin_dying = FALSE →
    g.maze_completed = FALSE →
    handle_pills_loop l g ap rs = some (g3, ap3, rs3) →
    same_play g g3 ∧
    g3.score = g.score + (l.map (pill_value g)).sum ∧
    (∀ j, j ∈ l → pill_touched g j → (pill_at g3 j).status = 0) ∧
    (∀ j, ¬ (j ∈ l ∧ pill_touched g j) → (pill_at g3 j).status = (pill_at g j).status) ∧
    (∀ j, j ∉ l → pill_at g3 j = pill_at g j) := by
  induction l with
  | nil =>
    intro g ap rs g3 ap3 rs3 _ _ _ h
    simp only [handle_pills_loop, Option.some.injEq, Prod.mk.injEq] at h
    rw [← h.1]
    exact ⟨same_play_refl g, by simp, fun j hj => absurd hj (List.not_mem_nil j),
      fun _ _ => rfl, fun _ _ => rfl⟩
  | cons i is ih =>
    intro g ap rs g3 ap3 rs3 hnd hdy hc h
    have hi : i ∉ is := (List.nodup_cons.mp hnd).1
    have hnd2 : is.Nodup := (List.nodup_cons.mp hnd).2
    rw [handle_pills_loop, if_pos hc] at h
    split at h
    · exact absurd h (by simp)
    · rename_i g1 ap1 rs1 hb
      obtain ⟨s1, s2⟩ := handle_pills_body_spec g i ap rs g1 ap1 rs1 hb
      -- the facts about the first pass
      have first : same_play g g1 ∧ g1.score = g.score + pill_value g i ∧
          (∀ j, j ≠ i → pill_at g1 j = pill_at g j) ∧
          (pill_touched g i → (pill_at g1 i).status = 0) ∧
          (¬ pill_touched g i → (pill_at g1 i).status = (pill_at g i).status) := by
        by_cases ht : pill_touched g i
        · have he := s1 ⟨ht.1, hdy, ht.2⟩
          obtain ⟨e1, e2, e3, -, -⟩ := eat_pill_spec g i
          rw [he]
          refine ⟨e1, ?_, ?_, ?_, fun hn => absurd ht hn⟩
          · rw [e3]; unfold pill_value; rw [if_pos ht.2]; ring
          · intro j hj; rw [e2 j, if_neg hj]
          · intro _; rw [e2 i, if_pos rfl]
        · have hn : ¬ ((pill_at g i).status ≠ 0 ∧ g.munchkin_dying = FALSE ∧
              check_pill_eaten g i = TRUE) := fun hh => ht ⟨hh.1, hh.2.2⟩
          obtain ⟨⟨ps, e1⟩, e2, e3, -⟩ := s2 hn
          refine ⟨by rw [e1]; exact ⟨rfl, rfl, rfl, rfl, rfl, rfl, rfl, rfl, rfl⟩, ?_, e2,
            fun hh => absurd hh ht, fun _ => e3⟩
          rw [pill_value_untouched g i ht, e1]; simp
      obtain ⟨f1, f2, f3, f4, f5⟩ := first
      have hdy1 : g1.munchkin_dying = FALSE := by rw [f1.2.2.2.2.2.2.2.1]; exact hdy
      have hc1 : g1.maze_completed = FALSE := by rw [f1.2.2.2.2.2.2.2.2]; exact hc
      obtain ⟨r1, r2, r3, r4, r5⟩ := ih g1 ap1 rs1 g3 ap3 rs3 hnd2 hdy1 hc1 h
      have hcongr : ∀ j, j ∈ is → pill_value g1 j = pill_value g j ∧
          (pill_touched g1 j ↔ pill_touched g j) := by
        intro j hj
        have hne : j ≠ i := fun e => hi (e ▸ hj)
        exact pill_value_congr g g1 j f1 (f3 j hne)
      have hsum : (is.map (pill_value g1)).sum = (is.map (pill_value g)).sum := by
        congr 1
        apply List.map_congr_left
        intro j hj
        exact (hcongr j hj).1
      refine ⟨same_play_trans g g1 g3 f1 r1, ?_, ?_, ?_, ?_⟩
      · rw [r2, f2, hsum, List.map_cons, List.sum_cons]; ring
      · intro j hj ht
        rcases List.mem_cons.mp hj with rfl | hj2
        · rw [r5 j hi]; exact f4 ht
        · exact r3 j hj2 ((hcongr j hj2).2.mpr ht)
      · intro j hj
        by_cases hji : j = i
        · subst hji
          rw [r5 j hi]
          exact f5 (fun ht => hj ⟨List.mem_cons_self _ _, ht⟩)
        · have hne : ¬ (j ∈ is ∧ pill_touched g1 j) := by
            rintro ⟨m, t⟩
            exact hj ⟨List.mem_cons_of_mem _ m, (hcongr j m).2.mp t⟩
          rw [r4 j hne, f3 j hji]
      · intro j hj
        have hji : j ≠ i := fun e => hj (e ▸ List.mem_cons_self _ _)
        have hjs : j ∉ is := fun m => hj (List.mem_cons_of_mem _ m)
        rw [r5 j hjs, f3 j hji]

theorem foldl_rel (R : Game → Game → Prop) (hr : ∀ g, R g g)
    (ht : ∀ a b c, R a b → R b c → R a c) (f : Game → Nat → Game) (hf : ∀ h i, R h (f h i))
    (l : List Nat) : ∀ g : Game, R g (l.foldl f g) := by
  induction l with
  | nil => intro g; exact hr g
  | cons i is ih => intro g; rw [List.foldl_cons]; exact ht _ _ _ (hf g i) (ih (f g i))

theorem only_pill_speeds_refl (g : Game) : only_pill_speeds g g :=
  ⟨⟨g.pills, g.last_pill_speed_increased, rfl⟩, fun _ => ⟨rfl, rfl, rfl, rfl⟩⟩

theorem only_pill_speeds_trans (a b c : Game) (h1 : only_pill_speeds a b)
    (h2 : only_pill_speeds b c) : only_pill_speeds a c := by
  obtain ⟨⟨ps, l, e1⟩, p1⟩ := h1
  obtain ⟨⟨ps2, l2, e2⟩, p2⟩ := h2
  refine ⟨⟨ps2, l2, by rw [e2, e1]⟩, fun j => ?_⟩
  obtain ⟨a1, a2, a3, a4⟩ := p1 j
  obtain ⟨b1, b2, b3, b4⟩ := p2 j
  exact ⟨b1.trans a1, b2.trans a2, b3.trans a3, b4.trans a4⟩

theorem only_pill_speeds_put (g : Game) (i : Nat) (v : Int) :
    only_pill_speeds g (pill_put g i { pill_at g i with speed := v }) := by
  refine ⟨⟨_, g.last_pill_speed_increased, rfl⟩, fun j => ?_⟩
  rw [pill_at_pill_put]
  split_ifs with h
  · subst h; exact ⟨rfl, rfl, rfl, rfl⟩
  · exact ⟨rfl, rfl, rfl, rfl⟩

theorem speed_up_pills_spec (g : Game) : only_pill_speeds g (speed_up_pills g) := by
  unfold speed_up_pills
  apply foldl_rel only_pill_speeds only_pill_speeds_refl only_pill_speeds_trans
  intro h i
  simp only
  split_ifs
  · exact only_pill_speeds_put h i 2
  · exact only_pill_speeds_refl h
  · exact only_pill_speeds_refl h

theorem speed_up_last_pill_spec (g : Game) : only_pill_speeds g (speed_up_last_pill g) := by
  unfold speed_up_last_pill
  apply foldl_rel only_pill_speeds only_pill_speeds_refl only_pill_speeds_trans
  intro h i
  simp only
  split_ifs
  · obtain ⟨⟨ps, l, e⟩, p⟩ := only_pill_speeds_put h i h.factor
    refine ⟨⟨ps, 1, by rw [e]⟩, ?_⟩
    intro j
    exact p j
  · exact only_pill_speeds_refl h
  · exact only_pill_speeds_refl h
  · exact only_pill_speeds_refl h

/-- The two speed-ups at the head of `handle_pills` write nothing but pill speeds and
`last_pill_speed_increased`. -/
theorem handle_pills_speedups (g : Game) (n : Int) :
    only_pill_speeds g
      (if n = 1 then speed_up_last_pill
          (if n ≥ 2 ∧ n < c_div g.NUM_PILLS 2 then speed_up_pills g else g)
        else (if n ≥ 2 ∧ n < c_div g.NUM_PILLS 2 then speed_up_pills g else g)) := by
  have h1 : only_pill_speeds g (if n ≥ 2 ∧ n < c_div g.NUM_PILLS 2 then speed_up_pills g else g) := by
    split_ifs
    · exact speed_up_pills_spec g
    · exact only_pill_speeds_refl g
  by_cases h : n = 1
  · rw [if_pos h]
    exact only_pill_speeds_trans _ _ _ h1 (speed_up_last_pill_spec _)
  · rw [if_neg h]
    exact h1

theorem only_pill_speeds_play (g g1 : Game) (h : only_pill_speeds g g1) :
    same_play g g1 ∧ g1.score = g.score ∧ g1.high_score = g.high_score ∧
    g1.high_score_broken = g.high_score_broken ∧ g1.ghosts = g.ghosts ∧
    g1.powerpill_active_timer = g.powerpill_active_timer ∧
    (∀ j, pill_value g1 j = pill_value g j ∧ (pill_touched g1 j ↔ pill_touched g j)) := by
  obtain ⟨⟨ps, l, e⟩, p⟩ := h
  have sp : same_play g g1 := by rw [e]; exact ⟨rfl, rfl, rfl, rfl, rfl, rfl, rfl, rfl, rfl⟩
  refine ⟨sp, by rw [e], by rw [e], by rw [e], by rw [e], by rw [e], fun j => ?_⟩
  obtain ⟨a1, a2, a3, a4⟩ := p j
  obtain ⟨b1, b2, b3, b4, b5, -⟩ := sp
  have hc : check_pill_eaten g1 j = check_pill_eaten g j := by
    unfold check_pill_eaten
    rw [a2, a3, b1, b2, b3, b4, b5]
  unfold pill_value pill_touched
  rw [hc, a1]
  exact ⟨rfl, Iff.rfl⟩

theorem sum_pill_value (g : Game) (l : List Nat) :
    (l.map (pill_value g)).sum =
      ((l.filter (fun i => (pill_at g i).status = 1 ∧ check_pill_eaten g i = TRUE)).length : Int)
      + 3 * ((l.filter (fun i => (pill_at g i).status = 2 ∧ check_pill_eaten g i = TRUE)).length : Int) := by
  induction l with
  | nil => simp
  | cons i is ih =>
    rw [List.map_cons, List.sum_cons, ih]
    unfold pill_value
    by_cases hc : check_pill_eaten g i = TRUE
    · by_cases h1 : (pill_at g i).status = 1
      · have h2 : ¬ (pill_at g i).status = 2 := by rw [h1]; decide
        simp [List.filter_cons, hc, h1]
        ring
      · by_cases h2 : (pill_at g i).status = 2
        · simp [List.filter_cons, hc, h2]
          ring
        · simp [List.filter_cons, hc, h1, h2]
    · simp [List.filter_cons, hc]

/-- C9. Pill scoring: a `handle_pills` call made with the maze not completed and the player
alive raises the score by the number of touched normal pills plus three times the number of
touched power pills, sets exactly the touched active pills to status 0 and leaves the status
of every other pill as it was. -/
theorem pill_scoring (g : Game) (rs : List Nat) (g1 : Game) (rs1 : List Nat)
    (hc : g.maze_completed = FALSE) (hd : g.munchkin_dying = FALSE)
    (h : handle_pills g rs = some (g1, rs1)) :
    g1.score - g.score = eaten_count g 1 + 3 * eaten_count g 2 ∧
    (∀ i : Nat, (i : Int) < g.NUM_PILLS → pill_touched g i → (pill_at g1 i).status = 0) ∧
    (∀ i : Nat, ¬ ((i : Int) < g.NUM_PILLS ∧ pill_touched g i) →
      (pill_at g1 i).status = (pill_at g i).status) := by
  unfold handle_pills at h
  simp only at h
  have hsp := handle_pills_speedups g (count_active_pills g)
  generalize (if count_active_pills g = 1 then speed_up_last_pill
      (if count_active_pills g ≥ 2 ∧ count_active_pills g < c_div g.NUM_PILLS 2
        then speed_up_pills g else g)
    else (if count_active_pills g ≥ 2 ∧ count_active_pills g < c_div g.NUM_PILLS 2
        then speed_up_pills g else g)) = g2 at h hsp
  obtain ⟨sp, q1, -, -, -, -, q6⟩ := only_pill_speeds_play g g2 hsp
  obtain ⟨⟨ps, l, e⟩, p⟩ := hsp
  have hn : g2.NUM_PILLS = g.NUM_PILLS := sp.2.2.2.2.2.1
  split at h
  · exact absurd h (by simp)
  · rename_i g3 ap3 rs3 hl
    obtain ⟨r1, r2, r3, r4, -⟩ := handle_pills_loop_spec _ g2 _ rs g3 ap3 rs3
      (List.nodup_range _) (by rw [sp.2.2.2.2.2.2.2.1]; exact hd)
      (by rw [sp.2.2.2.2.2.2.2.2]; exact hc) hl
    have hfin : g1.score = g3.score ∧ ∀ j, pill_at g1 j = pill_at g3 j := by
      split_ifs at h <;> simp only [Option.some.injEq, Prod.mk.injEq] at h <;> rw [← h.1] <;>
        exact ⟨rfl, fun _ => rfl⟩
    obtain ⟨hs, hp⟩ := hfin
    have hmem : ∀ j : Nat, j ∈ List.range g2.NUM_PILLS.toNat ↔ (j : Int) < g.NUM_PILLS := by
      intro j; rw [List.mem_range, hn]; omega
    refine ⟨?_, ?_, ?_⟩
    · rw [hs, r2, q1]
      have : (List.map (pill_value g2) (List.range g2.NUM_PILLS.toNat)).sum =
          (List.map (pill_value g) (List.range g2.NUM_PILLS.toNat)).sum := by
        congr 1
        apply List.map_congr_left
        intro j _; exact (q6 j).1
      rw [this, sum_pill_value, hn]
      unfold eaten_count
      ring
    · intro i hi ht
      rw [hp i]
      exact r3 i ((hmem i).mpr hi) ((q6 i).2.mpr ht)
    · intro i hi
      rw [hp i, r4 i (fun hh => hi ⟨(hmem i).mp hh.1, (q6 i).2.mp hh.2⟩)]
      exact (p i).1

theorem score_kept_of_fields (g g1 : Game) (h : g.score ≤ g.high_score)
    (h1 : g1.score = g.score) (h2 : g1.high_score = g.high_score)
    (h3 : g1.high_score_broken = g.high_score_broken) : score_kept g g1 := by
  unfold score_kept
  rw [h1, h2, h3]
  exact score_kept_refl g h

theorem score_kept_le (g g1 : Game) (h : score_kept g g1) : g1.score ≤ g1.high_score := by
  rw [h.2.1]; exact le_max_right _ _

theorem score_kept_raise (g g1 : Game) (h1 : g.score ≤ g1.score)
    (h2 : g1.high_score = if g1.score > g.high_score then g1.score else g.high_score)
    (h3 : g1.high_score_broken = if g1.score > g.high_score then TRUE else g.high_score_broken) :
    score_kept g g1 := by
  refine ⟨h1, ?_, ?_, ?_⟩
  · rw [h2]
    split_ifs with hh
    · exact (max_eq_right (le_of_lt hh)).symm
    · exact (max_eq_left (not_lt.mp hh)).symm
  · intro hh; rw [h3, if_pos hh]
  · intro hh; rw [h3, if_neg hh]

theorem eat_pill_score_kept (g : Game) (i : Nat) :
    score_kept g (eat_pill g i) := by
  obtain ⟨-, -, e3, e4, e5⟩ := eat_pill_spec g i
  apply score_kept_raise g _ _ e4 e5
  rw [e3]
  have a : (0 : Int) ≤ (if (pill_at g i).status = 1 then 1 else 0) := by split_ifs <;> decide
  have b : (0 : Int) ≤ (if (pill_at g i).status = 2 then 3 else 0) := by split_ifs <;> decide
  omega

theorem handle_pills_loop_score (l : List Nat) : ∀ (g : Game) (ap : Int) (rs : List Nat)
    (g3 : Game) (ap3 : Int) (rs3 : List Nat), g.score ≤ g.high_score →
    handle_pills_loop l g ap rs = some (g3, ap3, rs3) → score_kept g g3 := by
  induction l with
  | nil =>
    intro g ap rs g3 ap3 rs3 hs h
    simp only [handle_pills_loop, Option.some.injEq, Prod.mk.injEq] at h
    rw [← h.1]; exact score_kept_refl g hs
  | cons i is ih =>
    intro g ap rs g3 ap3 rs3 hs h
    rw [handle_pills_loop] at h
    by_cases hc : g.maze_completed = FALSE
    swap
    · rw [if_neg hc] at h
      simp only [Option.some.injEq, Prod.mk.injEq] at h
      rw [← h.1]; exact score_kept_refl g hs
    rw [if_pos hc] at h
    split at h
    · exact absurd h (by simp)
    · rename_i g1 ap1 rs1 hb
      obtain ⟨s1, s2⟩ := handle_pills_body_spec g i ap rs g1 ap1 rs1 hb
      have first : score_kept g g1 := by
        by_cases ht : (pill_at g i).status ≠ 0 ∧ g.munchkin_dying = FALSE ∧
            check_pill_eaten g i = TRUE
        · rw [s1 ht]; exact eat_pill_score_kept g i
        · obtain ⟨⟨ps, e⟩, -⟩ := s2 ht
          rw [e]; exact score_kept_of_fields g _ hs rfl rfl rfl
      exact score_kept_trans g g1 g3 first (ih g1 ap1 rs1 g3 ap3 rs3 (score_kept_le g g1 first) h)

theorem handle_pills_score (g : Game) (rs : List Nat) (g1 : Game) (rs1 : List Nat)
    (hs : g.score ≤ g.high_score) (h : handle_pills g rs = some (g1, rs1)) : score_kept g g1 := by
  unfold handle_pills at h
  simp only at h
  have hsp := handle_pills_speedups g (count_active_pills g)
  generalize (if count_active_pills g = 1 then speed_up_last_pill
      (if count_active_pills g ≥ 2 ∧ count_active_pills g < c_div g.NUM_PILLS 2
        then speed_up_pills g else g)
    else (if count_active_pills g ≥ 2 ∧ count_active_pills g < c_div g.NUM_PILLS 2
        then speed_up_pills g else g)) = g2 at h hsp
  obtain ⟨-, q1, q2, q3, -⟩ := only_pill_speeds_play g g2 hsp
  have k2 : score_kept g g2 := score_kept_of_fields g g2 hs q1 q2 q3
  split at h
  · exact absurd h (by simp)
  · rename_i g3 ap3 rs3 hl
    have k3 := handle_pills_loop_score _ g2 _ rs g3 ap3 rs3 (score_kept_le g g2 k2) hl
    have k4 : score_kept g3 g1 := by
      split_ifs at h <;> simp only [Option.some.injEq, Prod.mk.injEq] at h <;> rw [← h.1] <;>
        exact score_kept_of_fields g3 _ (score_kept_le g2 g3 k3) rfl rfl rfl
    exact score_kept_trans g g2 g1 k2 (score_kept_trans g2 g3 g1 k3 k4)

theorem ghost_hit_score (g : Game) (i : Nat) (hs : g.score ≤ g.high_score) :
    score_kept g (ghost_hit g i) := by
  unfold ghost_hit
  simp only
  split_ifs
  · exact score_kept_of_fields g _ hs rfl rfl rfl
  · unfold update_high_score
    simp only
    split_ifs with hh
    · have hh2 : g.score + 10 > g.high_score := hh
      apply score_kept_raise g _
      · show g.score ≤ g.score + 10; omega
      · show g.score + 10 = if g.score + 10 > g.high_score then g.score + 10 else g.high_score
        rw [if_pos hh2]
      · show TRUE = if g.score + 10 > g.high_score then TRUE else g.high_score_broken
        rw [if_pos hh2]
    · have hh2 : ¬ g.score + 10 > g.high_score := hh
      apply score_kept_raise g _
      · show g.score ≤ g.score + 10; omega
      · show g.high_score = if g.score + 10 > g.high_score then g.score + 10 else g.high_score
        rw [if_neg hh2]
      · show g.high_score_broken = if g.score + 10 > g.high_score then TRUE else g.high_score_broken
        rw [if_neg hh2]
  · exact score_kept_refl g hs
  · exact score_kept_refl g hs

theorem ghost_fold_score (l : List Nat) : ∀ g : Game, g.score ≤ g.high_score →
    score_kept g (l.foldl ghost_hit g) := by
  induction l with
  | nil => intro g hs; exact score_kept_refl g hs
  | cons i is ih =>
    intro g hs
    rw [List.foldl_cons]
    have k := ghost_hit_score g i hs
    exact score_kept_trans g _ _ k (ih _ (score_kept_le g _ k))

theorem check_ghosts_score (g : Game) (hs : g.score ≤ g.high_score) :
    score_kept g (check_ghosts_hits_munchkin g) := by
  unfold check_ghosts_hits_munchkin
  split_ifs
  · exact ghost_fold_score _ g hs
  · exact score_kept_refl g hs

theorem start_new_game_scores (g : Game) (rs : List Nat) (g1 : Game) (rs1 : List Nat)
    (h : start_new_game g rs = some (g1, rs1)) :
    g1.score = 0 ∧ g1.high_score = g.high_score ∧ g1.high_score_broken = FALSE := by
  unfold start_new_game at h
  obtain ⟨-, -, -, -, -, -, -, -, -, -, -, -, -, -, a15, a16, a17, -⟩ :=
    start_new_maze_frame _ rs g1 rs1 h
  exact ⟨a15, a16, a17⟩

/-- C10. High-score tracking: on a state with `0 <= score <= high_score`, the predicate
`score <= high_score` (and `0 <= score`) holds again after `handle_pills`, after
`check_ghosts_hits_munchkin` and after `start_new_game`; after the first two `high_score` is
the larger of the old `high_score` and the new score, and `high_score_broken` is TRUE when
the new score is above the old `high_score` and unchanged otherwise. -/
theorem high_score_tracking (g : Game) (rs : List Nat)
    (h0 : 0 ≤ g.score) (hs : g.score ≤ g.high_score) :
    (∀ g1 rs1, handle_pills g rs = some (g1, rs1) →
      0 ≤ g1.score ∧ g1.score ≤ g1.high_score ∧ g1.high_score = max g.high_score g1.score ∧
      (g.high_score < g1.score → g1.high_score_broken = TRUE) ∧
      (¬ g.high_score < g1.score → g1.high_score_broken = g.high_score_broken)) ∧
    (0 ≤ (check_ghosts_hits_munchkin g).score ∧
      (check_ghosts_hits_munchkin g).score ≤ (check_ghosts_hits_munchkin g).high_score ∧
      (check_ghosts_hits_munchkin g).high_score =
        max g.high_score (check_ghosts_hits_munchkin g).score ∧
      (g.high_score < (check_ghosts_hits_munchkin g).score →
        (check_ghosts_hits_munchkin g).high_score_broken = TRUE) ∧
      (¬ g.high_score < (check_ghosts_hits_munchkin g).score →
        (check_ghosts_hits_munchkin g).high_score_broken = g.high_score_broken)) ∧
    (∀ g1 rs1, start_new_game g rs = some (g1, rs1) →
      0 ≤ g1.score ∧ g1.score ≤ g1.high_score) := by
  refine ⟨?_, ?_, ?_⟩
  · intro g1 rs1 h
    have k := handle_pills_score g rs g1 rs1 hs h
    exact ⟨le_trans h0 k.1, score_kept_le g g1 k, k.2.1, k.2.2.1, k.2.2.2⟩
  · have k := check_ghosts_score g hs
    exact ⟨le_trans h0 k.1, score_kept_le g _ k, k.2.1, k.2.2.1, k.2.2.2⟩
  · intro g1 rs1 h
    obtain ⟨a, b, -⟩ := start_new_game_scores g rs g1 rs1 h
    rw [a, b]
    exact ⟨le_refl 0, le_trans h0 hs⟩

/-! ## Returning: a stream of even draws is always enough -/

theorem rand_side_zero (fo so a b : Int) (h : fo = 1 ∨ so = 1) (m : Nat) :
    ∃ d, rand_side fo so a b (List.replicate (m + 1) 0) = some (d, List.replicate m 0) := by
  rw [List.replicate_succ, rand_side]
  by_cases h1 : fo = 1
  · exact ⟨a, by simp [h1]⟩
  · have h2 : so = 1 := by rcases h with h | h; exact absurd h h1; exact h
    exact ⟨b, by simp [h1, h2]⟩

theorem choose_case_zero (thr : Nat) (ao fo so a b c d : Int) (m : Nat) (hm : 2 ≤ m) :
    ∃ r k, k ≤ 2 ∧ choose_case thr ao fo so a b c d (List.replicate m 0)
      = some (r, List.replicate (m - k) 0) := by
  obtain ⟨n, rfl⟩ : ∃ n, m = n + 2 := ⟨m - 2, by omega⟩
  unfold choose_case
  by_cases h1 : ao = 1 ∧ (fo = 1 ∨ so = 1)
  · rw [if_pos h1]
    rw [show n + 2 = (n + 1) + 1 from rfl, List.replicate_succ]
    simp only
    by_cases h2 : 0 % 10 ≥ thr
    · rw [if_pos h2]
      exact ⟨a, 1, by omega, by simp⟩
    · rw [if_neg h2]
      obtain ⟨r, e⟩ := rand_side_zero fo so b c h1.2 n
      exact ⟨r, 2, le_refl _, by rw [e]; simp⟩
  · rw [if_neg h1]
    by_cases h2 : fo = 1 ∨ so = 1
    · rw [if_pos h2]
      obtain ⟨r, e⟩ := rand_side_zero fo so b c h2 (n + 1)
      exact ⟨r, 1, by omega, by rw [e]; simp⟩
    · rw [if_neg h2]
      split_ifs
      · exact ⟨a, 0, by omega, by simp⟩
      · exact ⟨d, 0, by omega, by simp⟩

theorem choose_dispatch_zero (dir lo ro uo dn : Int) (m : Nat) (hm : 2 ≤ m)
    (x : Option (Int × List Nat))
    (hx : (if dir = LEFT then choose_case 3 lo uo dn LEFT UP DOWN RIGHT (List.replicate m 0)
      else if dir = RIGHT then choose_case 3 ro uo dn RIGHT UP DOWN LEFT (List.replicate m 0)
      else if dir = UP then choose_case 3 uo lo ro UP LEFT RIGHT DOWN (List.replicate m 0)
      else if dir = DOWN then choose_case 3 dn lo ro DOWN LEFT RIGHT UP (List.replicate m 0)
      else some (dir, List.replicate m 0)) = x) :
    ∃ r k, k ≤ 2 ∧ x = some (r, List.replicate (m - k) 0) := by
  rw [← hx]
  by_cases h1 : dir = LEFT
  · rw [if_pos h1]; exact choose_case_zero 3 _ _ _ _ _ _ _ m hm
  rw [if_neg h1]
  by_cases h2 : dir = RIGHT
  · rw [if_pos h2]; exact choose_case_zero 3 _ _ _ _ _ _ _ m hm
  rw [if_neg h2]
  by_cases h3 : dir = UP
  · rw [if_pos h3]; exact choose_case_zero 3 _ _ _ _ _ _ _ m hm
  rw [if_neg h3]
  by_cases h4 : dir = DOWN
  · rw [if_pos h4]; exact choose_case_zero 3 _ _ _ _ _ _ _ m hm
  rw [if_neg h4]
  exact ⟨dir, 0, by omega, rfl⟩

theorem choose_pill_direction_zero_aux (g : Game) (i m : Nat) (hm : 2 ≤ m)
    (x : Option (Game × List Nat)) (hx : choose_pill_direction g i (List.replicate m 0) = x) :
    ∃ g1 k, k ≤ 2 ∧ x = some (g1, List.replicate (m - k) 0) := by
  unfold choose_pill_direction at hx
  simp only at hx
  split at hx
  · split at hx
    · rename_i heq
      obtain ⟨r, k, -, e⟩ := choose_dispatch_zero _ _ _ _ _ m hm _ heq
      exact absurd e (by simp)
    · rename_i d rs1 heq
      obtain ⟨r, k, hk, e⟩ := choose_dispatch_zero _ _ _ _ _ m hm _ heq
      simp only [Option.some.injEq, Prod.mk.injEq] at e
      rw [← hx, e.2]
      exact ⟨_, k, hk, rfl⟩
  · rw [← hx]; exact ⟨g, 0, by omega, rfl⟩

theorem choose_pill_direction_zero (g : Game) (i m : Nat) (hm : 2 ≤ m) :
    ∃ g1 k, k ≤ 2 ∧ choose_pill_direction g i (List.replicate m 0)
      = some (g1, List.replicate (m - k) 0) :=
  choose_pill_direction_zero_aux g i m hm _ rfl

theorem handle_pills_body_zero (g : Game) (i : Nat) (ap : Int) (m : Nat) (hm : 2 ≤ m) :
    ∃ g1 ap1 k, k ≤ 2 ∧ handle_pills_body g i ap (List.replicate m 0)
      = some (g1, ap1, List.replicate (m - k) 0) := by
  unfold handle_pills_body
  simp only
  by_cases hs : (pill_at g i).status ≠ 0
  swap
  · rw [if_neg hs]; exact ⟨_, _, 0, by omega, rfl⟩
  rw [if_pos hs]
  by_cases he : (if g.munchkin_dying = FALSE then check_pill_eaten g i else FALSE) = FALSE
  · rw [if_pos he]
    obtain ⟨g1, k, hk, e⟩ := choose_pill_direction_zero g i m hm
    rw [e]; exact ⟨_, _, k, hk, rfl⟩
  · rw [if_neg he]; exact ⟨_, _, 0, by omega, rfl⟩

theorem handle_pills_loop_zero (l : List Nat) : ∀ (g : Game) (ap : Int) (m : Nat),
    2 * l.length ≤ m → ∃ g3 ap3 rs3, handle_pills_loop l g ap (List.replicate m 0)
      = some (g3, ap3, rs3) := by
  induction l with
  | nil => intro g ap m _; exact ⟨g, ap, _, rfl⟩
  | cons i is ih =>
    intro g ap m hm
    rw [List.length_cons] at hm
    rw [handle_pills_loop]
    split_ifs
    · obtain ⟨g1, ap1, k, hk, e⟩ := handle_pills_body_zero g i ap m (by omega)
      rw [e]
      exact ih g1 ap1 (m - k) (by omega)
    · exact ⟨g, ap, _, rfl⟩

/-- The function `handle_pills` returns on every state when it is given at least
`2 * NUM_PILLS` draws that are all 0 (each pill needs at most two of them). -/
theorem handle_pills_returns (g : Game) (m : Nat) (hm : 2 * g.NUM_PILLS.toNat ≤ m) :
    ∃ g1 rs1, handle_pills g (List.replicate m 0) = some (g1, rs1) := by
  unfold handle_pills
  simp only
  have hsp := handle_pills_speedups g (count_active_pills g)
  generalize (if count_active_pills g = 1 then speed_up_last_pill
      (if count_active_pills g ≥ 2 ∧ count_active_pills g < c_div g.NUM_PILLS 2
        then speed_up_pills g else g)
    else (if count_active_pills g ≥ 2 ∧ count_active_pills g < c_div g.NUM_PILLS 2
        then speed_up_pills g else g)) = g2 at hsp
  obtain ⟨sp, -⟩ := only_pill_speeds_play g g2 hsp
  have hn : g2.NUM_PILLS = g.NUM_PILLS := sp.2.2.2.2.2.1
  obtain ⟨g3, ap3, rs3, e⟩ := handle_pills_loop_zero (List.range g2.NUM_PILLS.toNat) g2
    (count_active_pills g) m (by rw [List.length_range, hn]; exact hm)
  rw [e]
  simp only
  split_ifs
  · exact ⟨_, _, rfl⟩
  · exact ⟨_, _, rfl⟩

theorem setup_pills_random_zero (l : List Nat) : ∀ (g : Game) (m : Nat),
    4 * l.length ≤ m → ∃ g1 rs1, setup_pills_random l g (List.replicate m 0) = some (g1, rs1) := by
  induction l with
  | nil => intro g m _; exact ⟨g, _, rfl⟩
  | cons i is ih =>
    intro g m hm
    rw [List.length_cons] at hm
    obtain ⟨n, rfl⟩ : ∃ n, m = n + 2 := ⟨m - 2, by omega⟩
    rw [show n + 2 = (n + 1) + 1 from rfl, List.replicate_succ, List.replicate_succ,
      setup_pills_random]
    simp only
    obtain ⟨g1, k, hk, e⟩ := choose_pill_direction_zero
      (pill_put g i { pill_at g i with
        x := (g.MAZE_OFFSET_X + 9 + ((0 % 8 : Nat) : Int) * 20) * g.factor + g.screen_offset_x,
        y := (g.MAZE_OFFSET_Y + 7 + ((0 % 6 : Nat) : Int) * 14) * g.factor,
        status := 1, direction := 2 }) i n (by omega)
    rw [e]
    exact ih g1 (n - k) (by omega)

theorem setup_maze_num_pills (g : Game) (n : Int) : (setup_maze g n).NUM_PILLS = g.NUM_PILLS := by
  obtain ⟨hh, vv, e⟩ := setup_maze_frame g n
  rw [e]

/-- The function `start_new_maze` returns on every state when it is given at least
`4 * NUM_PILLS` draws that are all 0. -/
theorem start_new_maze_returns (g : Game) (m : Nat) (hm : 4 * g.NUM_PILLS.toNat ≤ m) :
    ∃ g1 rs1, start_new_maze g (List.replicate m 0) = some (g1, rs1) := by
  have key : ∀ s : Game, s.NUM_PILLS = g.NUM_PILLS →
      ∃ g1 rs1, setup_pills s (List.replicate m 0) = some (g1, rs1) := by
    intro s hs
    unfold setup_pills
    simp only
    have h0 := setup_pill_fixed_trans s s ⟨s.pills, rfl⟩ 0 0 0 4 2
    have h1 := setup_pill_fixed_trans s _ h0 1 1 0 1 1
    have h2 := setup_pill_fixed_trans s _ h1 2 0 1 2 1
    have h3 := setup_pill_fixed_trans s _ h2 3 7 0 1 1
    have h4 := setup_pill_fixed_trans s _ h3 4 8 0 4 2
    have h5 := setup_pill_fixed_trans s _ h4 5 8 1 1 1
    have h6 := setup_pill_fixed_trans s _ h5 6 0 5 2 1
    have h7 := setup_pill_fixed_trans s _ h6 7 0 6 3 2
    have h8 := setup_pill_fixed_trans s _ h7 8 1 6 2 1
    have h9 := setup_pill_fixed_trans s _ h8 9 8 5 1 1
    have h10 := setup_pill_fixed_trans s _ h9 10 7 6 1 1
    have h11 := setup_pill_fixed_trans s _ h10 11 8 6 3 2
    obtain ⟨ps, e⟩ := h11
    rw [e]
    have hr : ∃ g2 rs2, (if ({ s with pills := ps } : Game).NUM_PILLS ≥ 13 then
        setup_pills_random ((List.range ({ s with pills := ps } : Game).NUM_PILLS.toNat).drop 12)
          { s with pills := ps } (List.replicate m 0)
        else some ({ s with pills := ps }, List.replicate m 0)) = some (g2, rs2) := by
      split_ifs
      · apply setup_pills_random_zero
        rw [List.length_drop, List.length_range]
        have : ({ s with pills := ps } : Game).NUM_PILLS = g.NUM_PILLS := hs
        rw [this]; omega
      · exact ⟨_, _, rfl⟩
    obtain ⟨g2, rs2, e2⟩ := hr
    rw [e2]
    exact ⟨_, _, rfl⟩
  unfold start_new_maze
  simp only
  split
  · rename_i heq
    exfalso
    have key2 : ∀ s : Game, setup_pills s (List.replicate m 0) = none →
        s.NUM_PILLS = g.NUM_PILLS → False := by
      intro s h1 h2
      obtain ⟨g1, rs1, e1⟩ := key s h2
      rw [e1] at h1
      exact absurd h1 (by simp)
    apply key2 _ heq
    rw [setup_maze_num_pills]
  · exact ⟨_, _, rfl⟩

/-! ## Sample runs -/

theorem demo_pills_after_eq : handle_pills demo_pills [] = some (demo_pills_after, []) := by decide

theorem pill_scoring_witness : demo_pills_after.score - demo_pills.score = 3 :=
  (pill_scoring demo_pills [] demo_pills_after [] (by decide) (by decide) demo_pills_after_eq).1.trans
    (by decide)

theorem high_score_tracking_witness :
    demo_pills_after.high_score = max demo_pills.high_score demo_pills_after.score :=
  ((high_score_tracking demo_pills [] (by decide) (by decide)).1 demo_pills_after []
    demo_pills_after_eq).2.2.1

theorem commitment_glide_witness :
    (handle_munchkin demo_glide 0 0).munchkin_auto_direction = LEFT ∧
    (handle_munchkin demo_glide 0 0).munchkin_x_factor1 = 89 ∧
    (handle_munchkin demo_glide 0 0).munchkin_y_factor1 = 69 :=
  ((commitment_glide demo_glide).1 (by decide)).2 (by decide)

/-! ## Which globals each operation writes -/

theorem only_player_refl (g : Game) : only_player g g := ⟨_, _, _, _, rfl⟩

theorem only_player_trans (a b c : Game) (h1 : only_player a b) (h2 : only_player b c) :
    only_player a c := by
  obtain ⟨x, y, d, l, e⟩ := h1
  obtain ⟨x2, y2, d2, l2, e2⟩ := h2
  rw [e2, e]; exact ⟨_, _, _, _, rfl⟩

theorem only_player_ite (g a b : Game) (c : Prop) [Decidable c] (h1 : only_player g a)
    (h2 : only_player g b) : only_player g (if c then a else b) := by
  split_ifs
  · exact h1
  · exact h2

theorem only_player_x (g g1 : Game) (x : Int) (h : only_player g g1) :
    only_player g { g1 with munchkin_x_factor1 := x } := by
  obtain ⟨x1, y, d, l, e⟩ := h
  rw [e]; exact ⟨_, _, _, _, rfl⟩

theorem handle_munchkin_manual_frame (g : Game) (cx cy d : Int) :
    only_player g (handle_munchkin_manual g cx cy d) := by
  have gl : only_player g (munchkin_go_left g) := ⟨_, _, _, _, rfl⟩
  have gr : only_player g (munchkin_go_right g) := ⟨_, _, _, _, rfl⟩
  have r := only_player_refl g
  unfold handle_munchkin_manual
  apply only_player_ite
  · simp only
    have h1 := only_player_ite g g _ (line_at g.vertical_lines cy cx = '|' ∧
          g.munchkin_x_factor1 - g.speed < g.MAZE_OFFSET_X + 7 + cx * (HORI_LINE_SIZE - 2)) r
      (only_player_ite g _ _ ((g.munchkin_last_direction = UP ∨ g.munchkin_last_direction = DOWN) ∧
          c_mod (g.munchkin_y_factor1 - c_div 135 5) (c_div 70 5) = 0) gl
        (only_player_ite g _ _ (g.munchkin_last_direction = LEFT ∨ g.munchkin_last_direction = RIGHT ∨
          g.munchkin_last_direction = 0) gl r))
    exact only_player_ite g _ _ _ (only_player_x g _ _ h1) h1
  apply only_player_ite
  · simp only
    have h1 := only_player_ite g g _ (line_at g.vertical_lines cy (cx + 1) = '|' ∧
          g.munchkin_x_factor1 + g.speed > g.MAZE_OFFSET_X + 7 + cx * (HORI_LINE_SIZE - 2)) r
      (only_player_ite g _ _ ((g.munchkin_last_direction = UP ∨ g.munchkin_last_direction = DOWN) ∧
          c_mod (g.munchkin_y_factor1 - c_div 135 5) (c_div 70 5) = 0) gr
        (only_player_ite g _ _ (g.munchkin_last_direction = LEFT ∨ g.munchkin_last_direction = RIGHT ∨
          g.munchkin_last_direction = 0) gr r))
    exact only_player_ite g _ _ _ (only_player_x g _ _ h1) h1
  apply only_player_ite
  · exact only_player_ite g _ _ _ r (only_player_ite g _ _ _ r ⟨_, _, _, _, rfl⟩)
  apply only_player_ite
  · exact only_player_ite g _ _ _ r (only_player_ite g _ _ _ r ⟨_, _, _, _, rfl⟩)
  · exact r

theorem handle_munchkin_auto_frame (g : Game) : only_player g (handle_munchkin_auto g) := by
  unfold handle_munchkin_auto
  simp only
  split_ifs <;> exact ⟨_, _, _, _, rfl⟩

theorem handle_munchkin_frame (g : Game) (d m : Int) : only_player g (handle_munchkin g d m) := by
  unfold handle_munchkin
  simp only
  have h1 : only_player g (if m = 1 then handle_munchkin_manual g
      (c_div (g.munchkin_x_factor1 - (7 + g.MAZE_OFFSET_X)) (HORI_LINE_SIZE - 2))
      (c_div (g.munchkin_y_factor1 - (4 + g.MAZE_OFFSET_Y)) (VERT_LINE_SIZE - 2)) d else g) :=
    only_player_ite g _ _ _ (handle_munchkin_manual_frame g _ _ d) (only_player_refl g)
  exact only_player_ite g _ _ _
    (only_player_trans g _ _ h1 (handle_munchkin_auto_frame _)) h1

theorem get_user_input_frame (g : Game) (k : keystate) : only_player g (get_user_input g k) := by
  unfold get_user_input
  simp only
  have h0 : only_player g { g with munchkin_last_direction := (get_user_input_direction g k).1 } :=
    ⟨_, _, _, _, rfl⟩
  apply only_player_ite _ _ _ _ _ (only_player_refl g)
  exact only_player_ite g _ _ _ (only_player_trans g _ _ h0 (handle_munchkin_frame _ _ _)) h0

theorem draw_maze_frame (g : Game) :
    ∃ h v o, draw_maze g =
      { g with horizontal_lines := h, vertical_lines := v, maze_center_open := o } := by
  obtain ⟨o, e⟩ := rotate_center_frame g
  unfold draw_maze
  rw [e]
  simp only
  unfold write_center
  split_ifs <;> exact ⟨_, _, _, rfl⟩

theorem handle_maze_completed_frame (g : Game) :
    ∃ n c, handle_maze_completed g = { g with maze_completed_animations := n, maze_color := c } := by
  unfold handle_maze_completed
  simp only
  split_ifs <;> exact ⟨_, _, rfl⟩

theorem choose_ghost_aligned_frame (g : Game) (i : Nat) (cx cy lo ro uo dn : Int) (rs : List Nat)
    (g1 : Game) (rs1 : List Nat) (h : choose_ghost_aligned g i cx cy lo ro uo dn rs = some (g1, rs1)) :
    ∃ gh, g1 = ghost_put g i gh := by
  unfold choose_ghost_aligned at h
  simp only at h
  by_cases hc : (ghost_homing (ghost_at g i) cx cy lo ro uo dn).2 = FALSE
  · rw [if_pos hc] at h
    split at h
    · exact absurd h (by simp)
    · simp only [Option.some.injEq, Prod.mk.injEq] at h
      exact ⟨_, h.1.symm⟩
  · rw [if_neg hc] at h
    simp only [Option.some.injEq, Prod.mk.injEq] at h
    exact ⟨_, h.1.symm⟩

theorem choose_ghost_direction_cases (g : Game) (i : Nat) (rs : List Nat) (g1 : Game)
    (rs1 : List Nat) (h : choose_ghost_direction g i rs = some (g1, rs1)) :
    (g1 = g ∧ rs1 = rs ∧
      ¬ (9 + 7 + c_div ((ghost_at g i).x - (7 + g.MAZE_OFFSET_X)) (HORI_LINE_SIZE - 2) * 20
          = (ghost_at g i).x ∧
        23 + 4 + c_div ((ghost_at g i).y - (4 + g.MAZE_OFFSET_Y)) (VERT_LINE_SIZE - 2) * 14
          = (ghost_at g i).y)) ∨
    ((9 + 7 + c_div ((ghost_at g i).x - (7 + g.MAZE_OFFSET_X)) (HORI_LINE_SIZE - 2) * 20
          = (ghost_at g i).x ∧
        23 + 4 + c_div ((ghost_at g i).y - (4 + g.MAZE_OFFSET_Y)) (VERT_LINE_SIZE - 2) * 14
          = (ghost_at g i).y) ∧
      ∃ lo ro uo dn, choose_ghost_aligned g i
        (c_div ((ghost_at g i).x - (7 + g.MAZE_OFFSET_X)) (HORI_LINE_SIZE - 2))
        (c_div ((ghost_at g i).y - (4 + g.MAZE_OFFSET_Y)) (VERT_LINE_SIZE - 2))
        lo ro uo dn rs = some (g1, rs1)) := by
  unfold choose_ghost_direction at h
  simp only at h
  by_cases hc : 9 + 7 + c_div ((ghost_at g i).x - (7 + g.MAZE_OFFSET_X)) (HORI_LINE_SIZE - 2) * 20
          = (ghost_at g i).x ∧
        23 + 4 + c_div ((ghost_at g i).y - (4 + g.MAZE_OFFSET_Y)) (VERT_LINE_SIZE - 2) * 14
          = (ghost_at g i).y
  · rw [if_pos hc] at h
    exact Or.inr ⟨hc, _, _, _, _, h⟩
  · rw [if_neg hc] at h
    simp only [Option.some.injEq, Prod.mk.injEq] at h
    exact Or.inl ⟨h.1.symm, h.2.symm, hc⟩

theorem choose_ghost_direction_frame (g : Game) (i : Nat) (rs : List Nat) (g1 : Game)
    (rs1 : List Nat) (h : choose_ghost_direction g i rs = some (g1, rs1)) :
    g1 = g ∨ ∃ gh, g1 = ghost_put g i gh := by
  rcases choose_ghost_direction_cases g i rs g1 rs1 h with ⟨e, -, -⟩ | ⟨-, lo, ro, uo, dn, e⟩
  · exact Or.inl e
  · exact Or.inr (choose_ghost_aligned_frame g i _ _ lo ro uo dn rs g1 rs1 e)

theorem move_ghost_frame (g : Game) (i : Nat) :
    move_ghost g i = g ∨ ∃ gh, move_ghost g i = ghost_put g i gh := by
  unfold move_ghost
  simp only
  by_cases h1 : (ghost_at g i).direction = LEFT
  · rw [if_pos h1]; exact Or.inr ⟨_, rfl⟩
  rw [if_neg h1]
  by_cases h2 : (ghost_at g i).direction = RIGHT
  · rw [if_pos h2]; exact Or.inr ⟨_, rfl⟩
  rw [if_neg h2]
  by_cases h3 : (ghost_at g i).direction = UP
  · rw [if_pos h3]; exact Or.inr ⟨_, rfl⟩
  rw [if_neg h3]
  by_cases h4 : (ghost_at g i).direction = DOWN
  · rw [if_pos h4]; exact Or.inr ⟨_, rfl⟩
  rw [if_neg h4]
  exact Or.inl rfl

theorem handle_ghosts_loop_frame (l : List Nat) : ∀ (g : Game) (rs : List Nat) (g1 : Game)
    (rs1 : List Nat), handle_ghosts_loop l g rs = some (g1, rs1) →
    ∃ gs, g1 = { g with ghosts := gs } := by
  induction l with
  | nil =>
    intro g rs g1 rs1 h
    simp only [handle_ghosts_loop, Option.some.injEq, Prod.mk.injEq] at h
    exact ⟨g.ghosts, h.1.symm⟩
  | cons i is ih =>
    intro g rs g1 rs1 h
    rw [handle_ghosts_loop] at h
    split_ifs at h
    · split at h
      · exact absurd h (by simp)
      · rename_i g2 rs2 hc
        have h2 : ∃ gs, move_ghost g2 i = { g with ghosts := gs } := by
          have a : ∃ gs, g2 = { g with ghosts := gs } := by
            rcases choose_ghost_direction_frame g i rs g2 rs2 hc with e | ⟨gh, e⟩
            · exact ⟨g.ghosts, e⟩
            · exact ⟨_, e⟩
          obtain ⟨gs, e⟩ := a
          rcases move_ghost_frame g2 i with e2 | ⟨gh, e2⟩
          · rw [e2]; exact ⟨gs, e⟩
          · rw [e2, e]; exact ⟨_, rfl⟩
        obtain ⟨gs, e⟩ := h2
        obtain ⟨gs2, e2⟩ := ih _ _ _ _ h
        rw [e2, e]; exact ⟨gs2, rfl⟩
    · simp only [Option.some.injEq, Prod.mk.injEq] at h
      exact ⟨g.ghosts, h.1.symm⟩

theorem revert_ghosts_frame (g : Game) : ∃ gs, revert_ghosts g = { g with ghosts := gs } := by
  unfold revert_ghosts
  generalize List.range g.NUM_GHOSTS.toNat = l
  induction l generalizing g with
  | nil => exact ⟨g.ghosts, rfl⟩
  | cons i is ih =>
    rw [List.foldl_cons]
    simp only
    split_ifs
    · obtain ⟨gs, e⟩ := ih (ghost_put g i { ghost_at g i with status := 1 })
      exact ⟨gs, e⟩
    · exact ih g
    · exact ih g

theorem handle_ghosts_frame (g : Game) (rs : List Nat) (g1 : Game) (rs1 : List Nat)
    (h : handle_ghosts g rs = some (g1, rs1)) :
    ∃ gs, g1 = { g with ghosts := gs, powerpill_active_timer := g.powerpill_active_timer - 1 } := by
  unfold handle_ghosts at h
  simp only at h
  have a : ∃ gs, (if g.powerpill_active_timer - 1 = 0 then
      revert_ghosts { g with powerpill_active_timer := g.powerpill_active_timer - 1 }
      else { g with powerpill_active_timer := g.powerpill_active_timer - 1 }) =
      { g with ghosts := gs, powerpill_active_timer := g.powerpill_active_timer - 1 } := by
    split_ifs
    · obtain ⟨gs, e⟩ := revert_ghosts_frame
        { g with powerpill_active_timer := g.powerpill_active_timer - 1 }
      exact ⟨gs, e⟩
    · exact ⟨g.ghosts, rfl⟩
  obtain ⟨gs, e⟩ := a
  rw [e] at h
  obtain ⟨gs2, e2⟩ := handle_ghosts_loop_frame _ _ _ _ _ h
  exact ⟨gs2, e2⟩

/-! ## Score monotonicity -/

theorem scores_up_refl (g : Game) : scores_up g g := ⟨le_refl _, le_refl _⟩

theorem scores_up_trans (a b c : Game) (h1 : scores_up a b) (h2 : scores_up b c) :
    scores_up a c := ⟨le_trans h1.1 h2.1, le_trans h1.2 h2.2⟩

theorem eat_pill_scores_up (g : Game) (i : Nat) : scores_up g (eat_pill g i) := by
  obtain ⟨-, -, e3, e4, -⟩ := eat_pill_spec g i
  have a : (0 : Int) ≤ (if (pill_at g i).status = 1 then 1 else 0) := by split_ifs <;> decide
  have b : (0 : Int) ≤ (if (pill_at g i).status = 2 then 3 else 0) := by split_ifs <;> decide
  refine ⟨by rw [e3]; omega, ?_⟩
  rw [e4]
  split_ifs with h
  · exact le_of_lt h
  · exact le_refl _

theorem handle_pills_loop_scores_up (l : List Nat) : ∀ (g : Game) (ap : Int) (rs : List Nat)
    (g3 : Game) (ap3 : Int) (rs3 : List Nat),
    handle_pills_loop l g ap rs = some (g3, ap3, rs3) → scores_up g g3 := by
  induction l with
  | nil =>
    intro g ap rs g3 ap3 rs3 h
    simp only [handle_pills_loop, Option.some.injEq, Prod.mk.injEq] at h
    rw [← h.1]; exact scores_up_refl g
  | cons i is ih =>
    intro g ap rs g3 ap3 rs3 h
    rw [handle_pills_loop] at h
    by_cases hc : g.maze_completed = FALSE
    swap
    · rw [if_neg hc] at h
      simp only [Option.some.injEq, Prod.mk.injEq] at h
      rw [← h.1]; exact scores_up_refl g
    rw [if_pos hc] at h
    split at h
    · exact absurd h (by simp)
    · rename_i g1 ap1 rs1 hb
      obtain ⟨s1, s2⟩ := handle_pills_body_spec g i ap rs g1 ap1 rs1 hb
      have first : scores_up g g1 := by
        by_cases ht : (pill_at g i).status ≠ 0 ∧ g.munchkin_dying = FALSE ∧
            check_pill_eaten g i = TRUE
        · rw [s1 ht]; exact eat_pill_scores_up g i
        · obtain ⟨⟨ps, e⟩, -⟩ := s2 ht
          rw [e]; exact scores_up_refl g
      exact scores_up_trans g g1 g3 first (ih g1 ap1 rs1 g3 ap3 rs3 h)

theorem handle_pills_scores_up (g : Game) (rs : List Nat) (g1 : Game) (rs1 : List Nat)
    (h : handle_pills g rs = some (g1, rs1)) : scores_up g g1 := by
  unfold handle_pills at h
  simp only at h
  have hsp := handle_pills_speedups g (count_active_pills g)
  generalize (if count_active_pills g = 1 then speed_up_last_pill
      (if count_active_pills g ≥ 2 ∧ count_active_pills g < c_div g.NUM_PILLS 2
        then speed_up_pills g else g)
    else (if count_active_pills g ≥ 2 ∧ count_active_pills g < c_div g.NUM_PILLS 2
        then speed_up_pills g else g)) = g2 at h hsp
  obtain ⟨-, q1, q2, -⟩ := only_pill_speeds_play g g2 hsp
  split at h
  · exact absurd h (by simp)
  · rename_i g3 ap3 rs3 hl
    have k3 := handle_pills_loop_scores_up _ g2 _ rs g3 ap3 rs3 hl
    have k4 : g1.score = g3.score ∧ g1.high_score = g3.high_score := by
      split_ifs at h <;> simp only [Option.some.injEq, Prod.mk.injEq] at h <;> rw [← h.1] <;>
        exact ⟨rfl, rfl⟩
    unfold scores_up at k3 ⊢
    rw [k4.1, k4.2, ← q1, ← q2]
    exact k3

theorem ghost_hit_scores_up (g : Game) (i : Nat) : scores_up g (ghost_hit g i) := by
  unfold ghost_hit
  simp only
  split_ifs
  · exact scores_up_refl g
  · unfold update_high_score
    simp only
    split_ifs with hh
    · have hh2 : g.score + 10 > g.high_score := hh
      refine ⟨?_, ?_⟩
      · show g.score ≤ g.score + 10; omega
      · show g.high_score ≤ g.score + 10; omega
    · refine ⟨?_, ?_⟩
      · show g.score ≤ g.score + 10; omega
      · show g.high_score ≤ g.high_score; exact le_refl _
  · exact scores_up_refl g
  · exact scores_up_refl g

theorem check_ghosts_scores_up (g : Game) : scores_up g (check_ghosts_hits_munchkin g) := by
  unfold check_ghosts_hits_munchkin
  split_ifs
  · exact foldl_rel scores_up scores_up_refl scores_up_trans ghost_hit ghost_hit_scores_up _ g
  · exact scores_up_refl g

/-- C11. Score monotonicity: none of `handle_munchkin`, `handle_maze_completed`,
`handle_pills`, `handle_ghosts`, `check_ghosts_hits_munchkin`, `draw_maze` and
`start_new_maze` lowers `score`, and none of them, nor `start_new_game` nor the key step
of `get_user_input`, lowers `high_score`. -/
theorem score_monotone (g : Game) (rs : List Nat) (d m : Int) (k : keystate) :
    (g.score ≤ (handle_munchkin g d m).score ∧
     g.score ≤ (handle_maze_completed g).score ∧
     (∀ g1 rs1, handle_pills g rs = some (g1, rs1) → g.score ≤ g1.score) ∧
     (∀ g1 rs1, handle_ghosts g rs = some (g1, rs1) → g.score ≤ g1.score) ∧
     g.score ≤ (check_ghosts_hits_munchkin g).score ∧
     g.score ≤ (draw_maze g).score ∧
     (∀ g1 rs1, start_new_maze g rs = some (g1, rs1) → g.score ≤ g1.score)) ∧
    (g.high_score ≤ (handle_munchkin g d m).high_score ∧
     g.high_score ≤ (handle_maze_completed g).high_score ∧
     (∀ g1 rs1, handle_pills g rs = some (g1, rs1) → g.high_score ≤ g1.high_score) ∧
     (∀ g1 rs1, handle_ghosts g rs = some (g1, rs1) → g.high_score ≤ g1.high_score) ∧
     g.high_score ≤ (check_ghosts_hits_munchkin g).high_score ∧
     g.high_score ≤ (draw_maze g).high_score ∧
     (∀ g1 rs1, start_new_maze g rs = some (g1, rs1) → g.high_score ≤ g1.high_score) ∧
     (∀ g1 rs1, start_new_game g rs = some (g1, rs1) → g.high_score ≤ g1.high_score) ∧
     g.high_score ≤ (get_user_input g k).high_score) := by
  obtain ⟨x, y, a, l, e1⟩ := handle_munchkin_frame g d m
  obtain ⟨n, c, e2⟩ := handle_maze_completed_frame g
  obtain ⟨hh, vv, o, e3⟩ := draw_maze_frame g
  obtain ⟨x4, y4, a4, l4, e4⟩ := get_user_input_frame g k
  have hp := fun g1 rs1 h => handle_pills_scores_up g rs g1 rs1 h
  have hg : ∀ g1 rs1, handle_ghosts g rs = some (g1, rs1) →
      g1.score = g.score ∧ g1.high_score = g.high_score := by
    intro g1 rs1 h
    obtain ⟨gs, e⟩ := handle_ghosts_frame g rs g1 rs1 h
    rw [e]; exact ⟨rfl, rfl⟩
  have hm : ∀ g1 rs1, start_new_maze g rs = some (g1, rs1) →
      g1.score = g.score ∧ g1.high_score = g.high_score := by
    intro g1 rs1 h
    obtain ⟨-, -, -, -, -, -, -, -, -, -, -, -, -, -, a15, a16, -⟩ :=
      start_new_maze_frame g rs g1 rs1 h
    exact ⟨a15, a16⟩
  have hc := check_ghosts_scores_up g
  refine ⟨⟨?_, ?_, ?_, ?_, hc.1, ?_, ?_⟩, ⟨?_, ?_, ?_, ?_, hc.2, ?_, ?_, ?_, ?_⟩⟩
  · rw [e1]
  · rw [e2]
  · intro g1 rs1 h; exact (hp g1 rs1 h).1
  · intro g1 rs1 h; rw [(hg g1 rs1 h).1]
  · rw [e3]
  · intro g1 rs1 h; rw [(hm g1 rs1 h).1]
  · rw [e1]
  · rw [e2]
  · intro g1 rs1 h; exact (hp g1 rs1 h).2
  · intro g1 rs1 h; rw [(hg g1 rs1 h).2]
  · rw [e3]
  · intro g1 rs1 h; rw [(hm g1 rs1 h).2]
  · intro g1 rs1 h; rw [(start_new_game_scores g rs g1 rs1 h).2.1]
  · rw [e4]

theorem score_monotone_witness :
    demo_pills.score ≤ demo_pills_after.score ∧
    demo_pills.high_score ≤ demo_pills_after.high_score ∧
    demo_capture.score ≤ (check_ghosts_hits_munchkin demo_capture).score :=
  have w := score_monotone demo_pills [] 0 0 ⟨false, false, false, false⟩
  ⟨w.1.2.2.1 demo_pills_after [] demo_pills_after_eq,
   w.2.2.2.1 demo_pills_after [] demo_pills_after_eq,
   (score_monotone demo_capture [] 0 0 ⟨false, false, false, false⟩).1.2.2.2.2.1⟩

/-! ## Ghost collisions -/

theorem ghost_hit_step (g : Game) (i : Nat) :
    (ghost_hit g i).munchkin_x_factor1 = g.munchkin_x_factor1 ∧
    (ghost_hit g i).munchkin_y_factor1 = g.munchkin_y_factor1 ∧
    (∀ j, ghost_at (ghost_hit g i) j =
      if j = i ∧ (ghost_at g j).status = 2 ∧ ghost_touch g j
        then { ghost_at g j with status := 3 } else ghost_at g j) ∧
    (ghost_hit g i).score = g.score + ghost_value g i ∧
    (((ghost_at g i).status = 1 ∧ ghost_touch g i) →
      (ghost_hit g i).munchkin_dying = TRUE ∧ (ghost_hit g i).munchkin_dying_animation = 1) ∧
    (¬ ((ghost_at g i).status = 1 ∧ ghost_touch g i) →
      (ghost_hit g i).munchkin_dying = g.munchkin_dying ∧
      (ghost_hit g i).munchkin_dying_animation = g.munchkin_dying_animation) := by
  by_cases ht : ghost_touch g i
  swap
  · have ht2 := ht
    unfold ghost_touch at ht2
    have e : ghost_hit g i = g := by
      unfold ghost_hit
      simp only
      by_cases hs : (ghost_at g i).status = 1 ∨ (ghost_at g i).status = 2
      · rw [if_pos hs, if_neg ht2]
      · rw [if_neg hs]
    rw [e]
    refine ⟨rfl, rfl, fun j => ?_, ?_, fun h => absurd h.2 ht, fun _ => ⟨rfl, rfl⟩⟩
    · by_cases hj : j = i
      · subst hj; rw [if_neg (fun h => ht h.2.2)]
      · rw [if_neg (fun h => hj h.1)]
    · unfold ghost_value; rw [if_neg (fun h => ht h.2)]; omega
  have ht2 := ht
  unfold ghost_touch at ht2
  by_cases h1 : (ghost_at g i).status = 1
  · have h2 : ¬ (ghost_at g i).status = 2 := by rw [h1]; decide
    have e : ghost_hit g i = { g with munchkin_dying := TRUE, munchkin_dying_animation := 1 } := by
      unfold ghost_hit
      simp only
      rw [if_pos (Or.inl h1), if_pos ht2, if_pos h1]
    rw [e]
    refine ⟨rfl, rfl, fun j => ?_, ?_, fun _ => ⟨rfl, rfl⟩, fun h => absurd ⟨h1, ht⟩ h⟩
    · by_cases hj : j = i
      · subst hj; rw [if_neg (fun h => h2 h.2.1)]; rfl
      · rw [if_neg (fun h => hj h.1)]; rfl
    · unfold ghost_value; rw [if_neg (fun h => h2 h.1)]
      show g.score = g.score + 0; omega
  by_cases h2 : (ghost_at g i).status = 2
  · have e : ∃ hs hb, ghost_hit g i =
        { ghost_put g i { ghost_at g i with status := 3 } with
          score := g.score + 10, high_score := hs, high_score_broken := hb } := by
      unfold ghost_hit
      simp only
      rw [if_pos (Or.inr h2), if_pos ht2, if_neg h1]
      unfold update_high_score
      split_ifs
      · exact ⟨_, _, rfl⟩
      · exact ⟨_, _, rfl⟩
    obtain ⟨hs, hb, e⟩ := e
    rw [e]
    refine ⟨rfl, rfl, fun j => ?_, ?_, fun h => absurd h.1 h1, fun _ => ⟨rfl, rfl⟩⟩
    · have k : ghost_at { ghost_put g i { ghost_at g i with status := 3 } with
          score := g.score + 10, high_score := hs, high_score_broken := hb } j =
          ghost_at (ghost_put g i { ghost_at g i with status := 3 }) j := rfl
      rw [k, ghost_at_ghost_put]
      by_cases hj : j = i
      · subst hj; rw [if_pos rfl, if_pos ⟨rfl, h2, ht⟩]
      · rw [if_neg hj, if_neg (fun h => hj h.1)]
    · unfold ghost_value; rw [if_pos ⟨h2, ht⟩]
  · have e : ghost_hit g i = g := by
      unfold ghost_hit
      simp only
      rw [if_neg (by rintro (h | h); exact h1 h; exact h2 h)]
    rw [e]
    refine ⟨rfl, rfl, fun j => ?_, ?_, fun h => absurd h.1 h1, fun _ => ⟨rfl, rfl⟩⟩
    · by_cases hj : j = i
      · subst hj; rw [if_neg (fun h => h2 h.2.1)]
      · rw [if_neg (fun h => hj h.1)]
    · unfold ghost_value; rw [if_neg (fun h => h2 h.1)]; omega

theorem ghost_touch_congr (g g1 : Game) (j : Nat)
    (hx : g1.munchkin_x_factor1 = g.munchkin_x_factor1)
    (hy : g1.munchkin_y_factor1 = g.munchkin_y_factor1)
    (hp : ghost_at g1 j = ghost_at g j) :
    (ghost_touch g1 j ↔ ghost_touch g j) ∧ ghost_value g1 j = ghost_value g j := by
  have hiff : ghost_touch g1 j ↔ ghost_touch g j := by
    unfold ghost_touch
    rw [hx, hy, hp]
  refine ⟨hiff, ?_⟩
  unfold ghost_value
  by_cases hc : (ghost_at g j).status = 2 ∧ ghost_touch g j
  · rw [if_pos hc, if_pos ⟨by rw [hp]; exact hc.1, hiff.2 hc.2⟩]
  · rw [if_neg hc, if_neg (fun h => hc ⟨by rw [← hp]; exact h.1, hiff.1 h.2⟩)]

theorem ghost_fold_spec (l : List Nat) : ∀ g : Game, l.Nodup →
    (l.foldl ghost_hit g).munchkin_x_factor1 = g.munchkin_x_factor1 ∧
    (l.foldl ghost_hit g).munchkin_y_factor1 = g.munchkin_y_factor1 ∧
    (∀ j, ghost_at (l.foldl ghost_hit g) j =
      if j ∈ l ∧ (ghost_at g j).status = 2 ∧ ghost_touch g j
        then { ghost_at g j with status := 3 } else ghost_at g j) ∧
    (l.foldl ghost_hit g).score = g.score + (l.map (ghost_value g)).sum ∧
    ((∃ j, j ∈ l ∧ (ghost_at g j).status = 1 ∧ ghost_touch g j) →
      (l.foldl ghost_hit g).munchkin_dying = TRUE ∧
      (l.foldl ghost_hit g).munchkin_dying_animation = 1) ∧
    ((¬ ∃ j, j ∈ l ∧ (ghost_at g j).status = 1 ∧ ghost_touch g j) →
      (l.foldl ghost_hit g).munchkin_dying = g.munchkin_dying ∧
      (l.foldl ghost_hit g).munchkin_dying_animation = g.munchkin_dying_animation) := by
  induction l with
  | nil =>
    intro g _
    refine ⟨rfl, rfl, fun j => ?_, by simp, fun ⟨j, hj, _⟩ => absurd hj (List.not_mem_nil j),
      fun _ => ⟨rfl, rfl⟩⟩
    rw [if_neg (fun h => List.not_mem_nil j h.1)]; rfl
  | cons i is ih =>
    intro g hnd
    rw [List.nodup_cons] at hnd
    obtain ⟨hi, hnd⟩ := hnd
    obtain ⟨s1, s2, s3, s4, s5, s6⟩ := ghost_hit_step g i
    obtain ⟨r1, r2, r3, r4, r5, r6⟩ := ih (ghost_hit g i) hnd
    rw [List.foldl_cons]
    have same : ∀ j, j ∈ is → ghost_at (ghost_hit g i) j = ghost_at g j := by
      intro j hj
      have hne : j ≠ i := fun h => hi (h ▸ hj)
      rw [s3 j, if_neg (fun h => hne h.1)]
    have cg := fun j hj => ghost_touch_congr g (ghost_hit g i) j s1 s2 (same j hj)
    have ex : (∃ j, j ∈ is ∧ (ghost_at (ghost_hit g i) j).status = 1 ∧
          ghost_touch (ghost_hit g i) j) ↔
        (∃ j, j ∈ is ∧ (ghost_at g j).status = 1 ∧ ghost_touch g j) := by
      constructor
      · rintro ⟨j, hj, a, b⟩
        exact ⟨j, hj, by rw [← same j hj]; exact a, (cg j hj).1.1 b⟩
      · rintro ⟨j, hj, a, b⟩
        exact ⟨j, hj, by rw [same j hj]; exact a, (cg j hj).1.2 b⟩
    refine ⟨r1.trans s1, r2.trans s2, fun j => ?_, ?_, ?_, ?_⟩
    · rw [r3 j]
      by_cases hj : j ∈ is
      · have hne : j ≠ i := fun h => hi (h ▸ hj)
        rw [same j hj]
        by_cases hc : (ghost_at g j).status = 2 ∧ ghost_touch g j
        · rw [if_pos ⟨hj, hc.1, (cg j hj).1.2 hc.2⟩, if_pos ⟨List.mem_cons_of_mem i hj, hc⟩]
        · rw [if_neg (fun h => hc ⟨h.2.1, (cg j hj).1.1 h.2.2⟩), if_neg (fun h => hc h.2)]
      · rw [if_neg (fun h => hj h.1), s3 j]
        by_cases hc : j = i ∧ (ghost_at g j).status = 2 ∧ ghost_touch g j
        · rw [if_pos hc, if_pos ⟨hc.1 ▸ List.mem_cons_self i is, hc.2⟩]
        · rw [if_neg hc, if_neg]
          rintro ⟨hm, hr⟩
          rcases List.mem_cons.1 hm with h | h
          · exact hc ⟨h, hr⟩
          · exact hj h
    · rw [r4, s4, List.map_cons, List.sum_cons]
      have : is.map (ghost_value (ghost_hit g i)) = is.map (ghost_value g) :=
        List.map_congr_left (fun j hj => (cg j hj).2)
      rw [this]; omega
    · rintro ⟨j, hm, a, b⟩
      by_cases hex : ∃ j, j ∈ is ∧ (ghost_at g j).status = 1 ∧ ghost_touch g j
      · exact r5 (ex.2 hex)
      · have hji : j = i := by
          rcases List.mem_cons.1 hm with h | h
          · exact h
          · exact absurd ⟨j, h, a, b⟩ hex
        subst hji
        obtain ⟨q1, q2⟩ := r6 (fun h => hex (ex.1 h))
        obtain ⟨p1, p2⟩ := s5 ⟨a, b⟩
        exact ⟨q1.trans p1, q2.trans p2⟩
    · intro hn
      have hex : ¬ ∃ j, j ∈ is ∧ (ghost_at g j).status = 1 ∧ ghost_touch g j :=
        fun ⟨j, hj, h⟩ => hn ⟨j, List.mem_cons_of_mem i hj, h⟩
      obtain ⟨q1, q2⟩ := r6 (fun h => hex (ex.1 h))
      obtain ⟨p1, p2⟩ := s6 (fun h => hn ⟨i, List.mem_cons_self i is, h⟩)
      exact ⟨q1.trans p1, q2.trans p2⟩

theorem ghost_fold_id (l : List Nat) (g : Game)
    (h : ∀ j, j ∈ l → ¬ (((ghost_at g j).status = 1 ∨ (ghost_at g j).status = 2) ∧
      ghost_touch g j)) : l.foldl ghost_hit g = g := by
  induction l with
  | nil => rfl
  | cons i is ih =>
    have e : ghost_hit g i = g := by
      have hi := h i (List.mem_cons_self i is)
      unfold ghost_hit
      simp only
      by_cases hs : (ghost_at g i).status = 1 ∨ (ghost_at g i).status = 2
      · have ht2 : ¬ ghost_touch g i := fun ht => hi ⟨hs, ht⟩
        unfold ghost_touch at ht2
        rw [if_pos hs, if_neg ht2]
      · rw [if_neg hs]
    rw [List.foldl_cons, e]
    exact ih (fun j hj => h j (List.mem_cons_of_mem i hj))

theorem sum_ghost_value (g : Game) (l : List Nat) :
    (l.map (ghost_value g)).sum =
      10 * ((l.filter (fun i => (ghost_at g i).status = 2 ∧ ghost_touch g i)).length : Int) := by
  induction l with
  | nil => simp
  | cons i is ih =>
    rw [List.map_cons, List.sum_cons, ih]
    unfold ghost_value
    by_cases hc : (ghost_at g i).status = 2 ∧ ghost_touch g i
    · simp [List.filter_cons, hc]; ring
    · simp [List.filter_cons, hc]

theorem mem_range_toNat (n : Int) (i : Nat) : i ∈ List.range n.toNat ↔ (i : Int) < n := by
  rw [List.mem_range]; omega

/-- C17. Capturing a vulnerable ghost: in a `check_ghosts_hits_munchkin` call with the
player not dying, every ghost `0..NUM_GHOSTS-1` with status 2 whose box overlaps the
player's shrunk box gets status 3 (nothing else of it changes), the score rises by 10 for
each such ghost, and a status-2 ghost that does not overlap is unchanged. -/
theorem capture_vulnerable (g : Game) (hd : g.munchkin_dying = FALSE) :
    (∀ i : Nat, (i : Int) < g.NUM_GHOSTS → (ghost_at g i).status = 2 → ghost_touch g i →
      ghost_at (check_ghosts_hits_munchkin g) i = { ghost_at g i with status := 3 }) ∧
    (check_ghosts_hits_munchkin g).score = g.score + 10 * captured_count g ∧
    (∀ i : Nat, (ghost_at g i).status = 2 → ¬ ghost_touch g i →
      ghost_at (check_ghosts_hits_munchkin g) i = ghost_at g i) := by
  unfold check_ghosts_hits_munchkin
  rw [if_pos hd]
  obtain ⟨-, -, r3, r4, -, -⟩ :=
    ghost_fold_spec (List.range g.NUM_GHOSTS.toNat) g (List.nodup_range _)
  refine ⟨fun i hi h2 ht => ?_, ?_, fun i h2 ht => ?_⟩
  · rw [r3 i, if_pos ⟨(mem_range_toNat _ _).2 hi, h2, ht⟩]
  · rw [r4, sum_ghost_value]; rfl
  · rw [r3 i, if_neg (fun h => ht h.2.2)]

theorem capture_vulnerable_witness :
    (ghost_at (check_ghosts_hits_munchkin demo_capture) 0).status = 3 ∧
    (check_ghosts_hits_munchkin demo_capture).score = demo_capture.score + 10 ∧
    ghost_at (check_ghosts_hits_munchkin demo_capture) 1 = ghost_at demo_capture 1 :=
  ⟨congrArg ghost_type.status
      ((capture_vulnerable demo_capture (by decide)).1 0 (by decide) (by decide) (by decide)),
   (capture_vulnerable demo_capture (by decide)).2.1.trans (by decide),
   (capture_vulnerable demo_capture (by decide)).2.2 1 (by decide) (by decide)⟩

/-- C18. Captured and recharging ghosts are inert in collisions:
`check_ghosts_hits_munchkin` never modifies a ghost whose status is 3 or 4, and when every
ghost `0..NUM_GHOSTS-1` that overlaps the player has status 3 or 4 the call changes nothing
at all, in particular not `munchkin_dying`, `munchkin_dying_animation`, `score`,
`high_score` or any ghost status. -/
theorem inert_ghosts (g : Game) :
    (∀ i : Nat, (ghost_at g i).status = 3 ∨ (ghost_at g i).status = 4 →
      ghost_at (check_ghosts_hits_munchkin g) i = ghost_at g i) ∧
    ((∀ i : Nat, (i : Int) < g.NUM_GHOSTS → ghost_touch g i →
        (ghost_at g i).status = 3 ∨ (ghost_at g i).status = 4) →
      check_ghosts_hits_munchkin g = g ∧
      (check_ghosts_hits_munchkin g).munchkin_dying = g.munchkin_dying ∧
      (check_ghosts_hits_munchkin g).munchkin_dying_animation = g.munchkin_dying_animation ∧
      (check_ghosts_hits_munchkin g).score = g.score ∧
      (check_ghosts_hits_munchkin g).high_score = g.high_score ∧
      ∀ i : Nat, (ghost_at (check_ghosts_hits_munchkin g) i).status = (ghost_at g i).status) := by
  constructor
  · intro i h34
    unfold check_ghosts_hits_munchkin
    by_cases hd : g.munchkin_dying = FALSE
    · rw [if_pos hd]
      obtain ⟨-, -, r3, -⟩ :=
        ghost_fold_spec (List.range g.NUM_GHOSTS.toNat) g (List.nodup_range _)
      rw [r3 i, if_neg]
      rintro ⟨-, h2, -⟩
      rcases h34 with h | h <;> rw [h] at h2 <;> exact absurd h2 (by decide)
    · rw [if_neg hd]
  · intro h
    have e : check_ghosts_hits_munchkin g = g := by
      unfold check_ghosts_hits_munchkin
      by_cases hd : g.munchkin_dying = FALSE
      · rw [if_pos hd]
        apply ghost_fold_id
        rintro j hj ⟨hs, ht⟩
        have h34 := h j ((mem_range_toNat _ _).1 hj) ht
        rcases hs with a | a <;> rcases h34 with b | b <;> rw [a] at b <;>
          exact absurd b (by decide)
      · rw [if_neg hd]
    rw [e]
    exact ⟨rfl, rfl, rfl, rfl, rfl, fun _ => rfl⟩

theorem inert_ghosts_witness :
    ghost_touch demo_inert 0 ∧ ghost_touch demo_inert 1 ∧
    check_ghosts_hits_munchkin demo_inert = demo_inert :=
  ⟨by decide, by decide, ((inert_ghosts demo_inert).2 (by
    intro i hi _
    have hn : demo_inert.NUM_GHOSTS = 2 := by decide
    rw [hn] at hi
    have hi2 : i = 0 ∨ i = 1 := by omega
    rcases hi2 with rfl | rfl <;> decide)).1⟩

/-- C19 as stated fails: with a patrol ghost and a vulnerable ghost both on the player,
the call starts the death sequence and also raises the score by 10. -/
theorem fatal_collision_counterexample :
    demo_fatal_capture.munchkin_dying = FALSE ∧
    (ghost_at demo_fatal_capture 0).status = 1 ∧ ghost_touch demo_fatal_capture 0 ∧
    (check_ghosts_hits_munchkin demo_fatal_capture).munchkin_dying = TRUE ∧
    demo_fatal_capture.score = 0 ∧
    (check_ghosts_hits_munchkin demo_fatal_capture).score = 10 := by
  decide

/-- C19, amended. Fatal collision: in a `check_ghosts_hits_munchkin` call with the player
not dying in which some ghost `0..NUM_GHOSTS-1` with status 1 overlaps the player,
`munchkin_dying` becomes TRUE and `munchkin_dying_animation` 1, and the score rises by 10
for each ghost with status 2 that overlaps the player in the same call; it is the same as
before the call when no ghost with status 2 overlaps the player. -/
theorem fatal_collision (g : Game) (hd : g.munchkin_dying = FALSE)
    (h : ∃ i : Nat, (i : Int) < g.NUM_GHOSTS ∧ (ghost_at g i).status = 1 ∧ ghost_touch g i) :
    (check_ghosts_hits_munchkin g).munchkin_dying = TRUE ∧
    (check_ghosts_hits_munchkin g).munchkin_dying_animation = 1 ∧
    (check_ghosts_hits_munchkin g).score = g.score + 10 * captured_count g ∧
    ((∀ i : Nat, (i : Int) < g.NUM_GHOSTS → (ghost_at g i).status = 2 → ¬ ghost_touch g i) →
      (check_ghosts_hits_munchkin g).score = g.score) := by
  unfold check_ghosts_hits_munchkin
  rw [if_pos hd]
  obtain ⟨-, -, -, r4, r5, -⟩ :=
    ghost_fold_spec (List.range g.NUM_GHOSTS.toNat) g (List.nodup_range _)
  obtain ⟨i, hi, h1, ht⟩ := h
  obtain ⟨d1, d2⟩ := r5 ⟨i, (mem_range_toNat _ _).2 hi, h1, ht⟩
  refine ⟨d1, d2, ?_, fun hn => ?_⟩
  · rw [r4, sum_ghost_value]; rfl
  · rw [r4, sum_ghost_value]
    have : (List.range g.NUM_GHOSTS.toNat).filter
        (fun i => (ghost_at g i).status = 2 ∧ ghost_touch g i) = [] := by
      rw [List.filter_eq_nil_iff]
      intro j hj
      have := hn j ((mem_range_toNat _ _).1 hj)
      simp only [decide_eq_true_eq, not_and]
      exact this
    rw [this]; simp

theorem fatal_collision_witness :
    (check_ghosts_hits_munchkin demo_fatal).munchkin_dying = TRUE ∧
    (check_ghosts_hits_munchkin demo_fatal).munchkin_dying_animation = 1 ∧
    (check_ghosts_hits_munchkin demo_fatal).score = demo_fatal.score :=
  ⟨(fatal_collision demo_fatal (by decide) ⟨0, by decide, by decide, by decide⟩).1,
   (fatal_collision demo_fatal (by decide) ⟨0, by decide, by decide, by decide⟩).2.1,
   (fatal_collision demo_fatal (by decide) ⟨0, by decide, by decide, by decide⟩).2.2.2 (by
     intro i hi h2
     have hn : demo_fatal.NUM_GHOSTS = 1 := by decide
     rw [hn] at hi
     have hi2 : i = 0 := by omega
     subst hi2
     exact absurd h2 (by decide))⟩

/-! ## The power pill and the ghosts -/

theorem powerpill_ghosts_eq (g : Game) :
    powerpill_ghosts g = (List.range g.NUM_GHOSTS.toNat).foldl powerpill_ghost g := rfl

theorem make_vulnerable_idem (gh : ghost_type) :
    make_vulnerable (make_vulnerable gh) = make_vulnerable gh := by
  unfold make_vulnerable
  by_cases h : gh.status = 1 ∨ gh.status = 2
  · rw [if_pos h, if_pos (Or.inr rfl)]
  · rw [if_neg h, if_neg h]

theorem make_vulnerable_status (gh : ghost_type) :
    ((gh.status = 1 ∨ gh.status = 2) → (make_vulnerable gh).status = 2) ∧
    (¬ (gh.status = 1 ∨ gh.status = 2) → make_vulnerable gh = gh) ∧
    (((make_vulnerable gh).status = 1 ∨ (make_vulnerable gh).status = 2) ↔
      (gh.status = 1 ∨ gh.status = 2)) := by
  unfold make_vulnerable
  by_cases h : gh.status = 1 ∨ gh.status = 2
  · rw [if_pos h]
    exact ⟨fun _ => rfl, fun hn => absurd h hn, ⟨fun _ => h, fun _ => Or.inr rfl⟩⟩
  · rw [if_neg h]
    exact ⟨fun hh => absurd hh h, fun _ => rfl, Iff.rfl⟩

theorem powerpill_ghost_step (h : Game) (j : Nat) :
    (powerpill_ghost h j).NUM_GHOSTS = h.NUM_GHOSTS ∧
    (∀ k, ghost_at (powerpill_ghost h j) k =
      if k = j then make_vulnerable (ghost_at h j) else ghost_at h k) ∧
    (((ghost_at h j).status = 1 ∨ (ghost_at h j).status = 2) →
      (powerpill_ghost h j).powerpill_active_timer = 180) ∧
    (¬ ((ghost_at h j).status = 1 ∨ (ghost_at h j).status = 2) →
      (powerpill_ghost h j).powerpill_active_timer = h.powerpill_active_timer) := by
  unfold powerpill_ghost make_vulnerable
  by_cases hs : (ghost_at h j).status = 1 ∨ (ghost_at h j).status = 2
  · rw [if_pos hs, if_pos hs]
    refine ⟨rfl, fun k => ?_, fun _ => rfl, fun hn => absurd hs hn⟩
    exact ghost_at_ghost_put h j k _
  · rw [if_neg hs, if_neg hs]
    refine ⟨rfl, fun k => ?_, fun hh => absurd hh hs, fun _ => rfl⟩
    by_cases hk : k = j
    · rw [if_pos hk, hk]
    · rw [if_neg hk]

theorem powerpill_fold_spec (l : List Nat) : ∀ g : Game, l.Nodup →
    (l.foldl powerpill_ghost g).NUM_GHOSTS = g.NUM_GHOSTS ∧
    (∀ j, ghost_at (l.foldl powerpill_ghost g) j =
      if j ∈ l then make_vulnerable (ghost_at g j) else ghost_at g j) ∧
    ((∃ j, j ∈ l ∧ ((ghost_at g j).status = 1 ∨ (ghost_at g j).status = 2)) →
      (l.foldl powerpill_ghost g).powerpill_active_timer = 180) ∧
    ((¬ ∃ j, j ∈ l ∧ ((ghost_at g j).status = 1 ∨ (ghost_at g j).status = 2)) →
      (l.foldl powerpill_ghost g).powerpill_active_timer = g.powerpill_active_timer) := by
  induction l with
  | nil =>
    intro g _
    refine ⟨rfl, fun j => ?_, fun ⟨j, hj, _⟩ => absurd hj (List.not_mem_nil j), fun _ => rfl⟩
    rw [if_neg (List.not_mem_nil j)]; rfl
  | cons i is ih =>
    intro g hnd
    rw [List.nodup_cons] at hnd
    obtain ⟨hi, hnd⟩ := hnd
    obtain ⟨s0, s1, s2, s3⟩ := powerpill_ghost_step g i
    obtain ⟨r0, r1, r2, r3⟩ := ih (powerpill_ghost g i) hnd
    rw [List.foldl_cons]
    have same : ∀ j, j ∈ is → ghost_at (powerpill_ghost g i) j = ghost_at g j := by
      intro j hj
      have hne : j ≠ i := fun h => hi (h ▸ hj)
      rw [s1 j, if_neg hne]
    have ex : (∃ j, j ∈ is ∧ ((ghost_at (powerpill_ghost g i) j).status = 1 ∨
          (ghost_at (powerpill_ghost g i) j).status = 2)) ↔
        (∃ j, j ∈ is ∧ ((ghost_at g j).status = 1 ∨ (ghost_at g j).status = 2)) := by
      constructor
      · rintro ⟨j, hj, a⟩
        exact ⟨j, hj, by rw [← same j hj]; exact a⟩
      · rintro ⟨j, hj, a⟩
        exact ⟨j, hj, by rw [same j hj]; exact a⟩
    refine ⟨r0.trans s0, fun j => ?_, ?_, ?_⟩
    · rw [r1 j]
      by_cases hj : j ∈ is
      · rw [if_pos hj, if_pos (List.mem_cons_of_mem i hj), same j hj]
      · rw [if_neg hj, s1 j]
        by_cases hji : j = i
        · rw [if_pos hji, if_pos (hji ▸ List.mem_cons_self i is), hji]
        · rw [if_neg hji, if_neg]
          intro hm
          rcases List.mem_cons.1 hm with h | h
          · exact hji h
          · exact hj h
    · rintro ⟨j, hm, a⟩
      by_cases hex : ∃ j, j ∈ is ∧ ((ghost_at g j).status = 1 ∨ (ghost_at g j).status = 2)
      · exact r2 (ex.2 hex)
      · have hji : j = i := by
          rcases List.mem_cons.1 hm with h | h
          · exact h
          · exact absurd ⟨j, h, a⟩ hex
        subst hji
        rw [r3 (fun h => hex (ex.1 h))]
        exact s2 a
    · intro hn
      have hex : ¬ ∃ j, j ∈ is ∧ ((ghost_at g j).status = 1 ∨ (ghost_at g j).status = 2) :=
        fun ⟨j, hj, h⟩ => hn ⟨j, List.mem_cons_of_mem i hj, h⟩
      rw [r3 (fun h => hex (ex.1 h))]
      exact s3 (fun h => hn ⟨i, List.mem_cons_self i is, h⟩)

theorem powerpill_ghosts_powered (g : Game) : powered g (powerpill_ghosts g) := by
  rw [powerpill_ghosts_eq]
  obtain ⟨-, r1, r2, r3⟩ :=
    powerpill_fold_spec (List.range g.NUM_GHOSTS.toNat) g (List.nodup_range _)
  refine ⟨fun j => ?_, fun ⟨j, hj, a⟩ => r2 ⟨j, (mem_range_toNat _ _).2 hj, a⟩, fun hn => ?_⟩
  · rw [r1 j]
    by_cases hj : (j : Int) < g.NUM_GHOSTS
    · rw [if_pos hj, if_pos ((mem_range_toNat _ _).2 hj)]
    · rw [if_neg hj, if_neg (fun h => hj ((mem_range_toNat _ _).1 h))]
  · exact r3 (fun ⟨j, hj, a⟩ => hn ⟨j, (mem_range_toNat _ _).1 hj, a⟩)

theorem ghosts_same_refl (g : Game) : ghosts_same g g := ⟨fun _ => rfl, rfl⟩

theorem ghosts_same_trans (a b c : Game) (h1 : ghosts_same a b) (h2 : ghosts_same b c) :
    ghosts_same a c :=
  ⟨fun j => (h2.1 j).trans (h1.1 j), h2.2.trans h1.2⟩

theorem some_ghost_active_congr (a b : Game) (hn : b.NUM_GHOSTS = a.NUM_GHOSTS)
    (h : ∀ j : Nat, (((ghost_at b j).status = 1 ∨ (ghost_at b j).status = 2) ↔
      ((ghost_at a j).status = 1 ∨ (ghost_at a j).status = 2))) :
    some_ghost_active b ↔ some_ghost_active a := by
  unfold some_ghost_active
  rw [hn]
  constructor
  · rintro ⟨j, hj, x⟩; exact ⟨j, hj, (h j).1 x⟩
  · rintro ⟨j, hj, x⟩; exact ⟨j, hj, (h j).2 x⟩

theorem powered_then_same (a b c : Game) (h1 : powered a b) (h2 : ghosts_same b c) :
    powered a c := by
  obtain ⟨p1, p2, p3⟩ := h1
  obtain ⟨q1, q2⟩ := h2
  exact ⟨fun j => (q1 j).trans (p1 j), fun h => q2.trans (p2 h), fun h => q2.trans (p3 h)⟩

theorem same_then_powered (a b c : Game) (h1 : ghosts_same a b)
    (hn : b.NUM_GHOSTS = a.NUM_GHOSTS) (h2 : powered b c) : powered a c := by
  obtain ⟨p1, p2, p3⟩ := h2
  obtain ⟨q1, q2⟩ := h1
  have act : some_ghost_active b ↔ some_ghost_active a :=
    some_ghost_active_congr a b hn (fun j => by rw [q1 j])
  refine ⟨fun j => ?_, fun h => p2 (act.2 h), fun h => (p3 (fun x => h (act.1 x))).trans q2⟩
  rw [p1 j, hn, q1 j]

theorem powered_then_powered (a b c : Game) (h1 : powered a b)
    (hn : b.NUM_GHOSTS = a.NUM_GHOSTS) (h2 : powered b c) : powered a c := by
  obtain ⟨p1, p2, p3⟩ := h1
  obtain ⟨q1, q2, q3⟩ := h2
  have act : some_ghost_active b ↔ some_ghost_active a := by
    apply some_ghost_active_congr a b hn
    intro j
    rw [p1 j]
    by_cases hj : (j : Int) < a.NUM_GHOSTS
    · rw [if_pos hj]; exact (make_vulnerable_status _).2.2
    · rw [if_neg hj]
  refine ⟨fun j => ?_, fun h => q2 (act.2 h), fun h => ?_⟩
  · rw [q1 j, hn, p1 j]
    by_cases hj : (j : Int) < a.NUM_GHOSTS
    · simp only [if_pos hj]; rw [make_vulnerable_idem]
    · simp only [if_neg hj]
  · rw [q3 (fun x => h (act.1 x))]
    exact p3 h

theorem eat_pill_ghosts (g : Game) (i : Nat) :
    ((pill_at g i).status = 2 → powered g (eat_pill g i)) ∧
    (¬ (pill_at g i).status = 2 → ghosts_same g (eat_pill g i)) := by
  have e1 : ∃ sc, eat_normal g i = { g with score := sc } := by
    unfold eat_normal
    split_ifs
    · exact ⟨_, rfl⟩
    · exact ⟨g.score, rfl⟩
  obtain ⟨sc, e1⟩ := e1
  have e3 : ∀ h : Game, ghosts_same h (update_high_score h) := by
    intro h
    unfold update_high_score
    split_ifs
    · exact ⟨fun _ => rfl, rfl⟩
    · exact ghosts_same_refl h
  have e4 : ghosts_same (update_high_score (eat_power (eat_normal g i) i)) (eat_pill g i) :=
    ⟨fun _ => rfl, rfl⟩
  have hst : (pill_at (eat_normal g i) i).status = (pill_at g i).status := by rw [e1]; rfl
  constructor
  · intro h2
    have e2 : eat_power (eat_normal g i) i =
        powerpill_ghosts { eat_normal g i with score := (eat_normal g i).score + 3 } := by
      unfold eat_power
      rw [if_pos (hst.trans h2)]
    have p := powerpill_ghosts_powered { eat_normal g i with score := (eat_normal g i).score + 3 }
    rw [← e2, e1] at p
    have p2 : powered g (eat_power (eat_normal g i) i) := by
      rw [e1]; exact p
    exact powered_then_same _ _ _ (powered_then_same _ _ _ p2 (e3 _)) e4
  · intro h2
    have e2 : eat_power (eat_normal g i) i = eat_normal g i := by
      unfold eat_power
      rw [if_neg (fun h => h2 (hst.symm.trans h))]
    have s0 : ghosts_same g (eat_power (eat_normal g i) i) := by
      rw [e2, e1]; exact ⟨fun _ => rfl, rfl⟩
    exact ghosts_same_trans _ _ _ (ghosts_same_trans _ _ _ s0 (e3 _)) e4

theorem handle_pills_loop_ghosts (l : List Nat) : ∀ (g : Game) (ap : Int) (rs : List Nat)
    (g3 : Game) (ap3 : Int) (rs3 : List Nat), l.Nodup → g.munchkin_dying = FALSE →
    g.maze_completed = FALSE →
    handle_pills_loop l g ap rs = some (g3, ap3, rs3) →
    ((∃ i, i ∈ l ∧ (pill_at g i).status = 2 ∧ check_pill_eaten g i = TRUE) → powered g g3) ∧
    ((¬ ∃ i, i ∈ l ∧ (pill_at g i).status = 2 ∧ check_pill_eaten g i = TRUE) →
      ghosts_same g g3) := by
  induction l with
  | nil =>
    intro g ap rs g3 ap3 rs3 _ _ _ h
    simp only [handle_pills_loop, Option.some.injEq, Prod.mk.injEq] at h
    rw [← h.1]
    exact ⟨fun ⟨i, hi, _⟩ => absurd hi (List.not_mem_nil i), fun _ => ghosts_same_refl g⟩
  | cons i is ih =>
    intro g ap rs g3 ap3 rs3 hnd hd hc h
    rw [List.nodup_cons] at hnd
    obtain ⟨hi, hnd⟩ := hnd
    rw [handle_pills_loop, if_pos hc] at h
    split at h
    · exact absurd h (by simp)
    · rename_i g1 ap1 rs1 hb
      obtain ⟨s1, s2⟩ := handle_pills_body_spec g i ap rs g1 ap1 rs1 hb
      -- what the body did: the play globals, the other pills, the ghosts
      have body : same_play g g1 ∧ (∀ j, j ≠ i → pill_at g1 j = pill_at g j) ∧
          (((pill_at g i).status = 2 ∧ check_pill_eaten g i = TRUE) → powered g g1) ∧
          (¬ ((pill_at g i).status = 2 ∧ check_pill_eaten g i = TRUE) → ghosts_same g g1) := by
        by_cases ht : (pill_at g i).status ≠ 0 ∧ g.munchkin_dying = FALSE ∧
            check_pill_eaten g i = TRUE
        · rw [s1 ht]
          obtain ⟨a1, a2, -⟩ := eat_pill_spec g i
          obtain ⟨b1, b2⟩ := eat_pill_ghosts g i
          refine ⟨a1, fun j hj => by rw [a2 j, if_neg hj], fun h2 => b1 h2.1,
            fun hn => b2 (fun h2 => hn ⟨h2, ht.2.2⟩)⟩
        · obtain ⟨⟨ps, e⟩, q, -, -⟩ := s2 ht
          have gs : ghosts_same g g1 := by rw [e]; exact ⟨fun _ => rfl, rfl⟩
          refine ⟨by rw [e]; exact ⟨rfl, rfl, rfl, rfl, rfl, rfl, rfl, rfl, rfl⟩, q, ?_,
            fun _ => gs⟩
          rintro ⟨h2, he⟩
          exact absurd ⟨by rw [h2]; decide, hd, he⟩ ht
      obtain ⟨sp, hp, b1, b2⟩ := body
      have hn : g1.NUM_GHOSTS = g.NUM_GHOSTS := sp.2.2.2.2.2.2.1
      obtain ⟨r1, r2⟩ := ih g1 ap1 rs1 g3 ap3 rs3 hnd (sp.2.2.2.2.2.2.2.1.trans hd)
        (sp.2.2.2.2.2.2.2.2.trans hc) h
      have same : ∀ j, j ∈ is → ((pill_at g1 j).status = 2 ∧ check_pill_eaten g1 j = TRUE ↔
          (pill_at g j).status = 2 ∧ check_pill_eaten g j = TRUE) := by
        intro j hj
        have hne : j ≠ i := fun h => hi (h ▸ hj)
        rw [check_pill_eaten_congr g g1 j sp (hp j hne), hp j hne]
      have ex : (∃ j, j ∈ is ∧ (pill_at g1 j).status = 2 ∧ check_pill_eaten g1 j = TRUE) ↔
          (∃ j, j ∈ is ∧ (pill_at g j).status = 2 ∧ check_pill_eaten g j = TRUE) := by
        constructor
        · rintro ⟨j, hj, a⟩; exact ⟨j, hj, (same j hj).1 a⟩
        · rintro ⟨j, hj, a⟩; exact ⟨j, hj, (same j hj).2 a⟩
      by_cases hfirst : (pill_at g i).status = 2 ∧ check_pill_eaten g i = TRUE
      · have p1 := b1 hfirst
        have pw : powered g g3 := by
          by_cases hex : ∃ j, j ∈ is ∧ (pill_at g j).status = 2 ∧ check_pill_eaten g j = TRUE
          · exact powered_then_powered g g1 g3 p1 hn (r1 (ex.2 hex))
          · exact powered_then_same g g1 g3 p1 (r2 (fun x => hex (ex.1 x)))
        exact ⟨fun _ => pw, fun hno => absurd ⟨i, List.mem_cons_self i is, hfirst⟩ hno⟩
      · have p1 := b2 hfirst
        constructor
        · rintro ⟨j, hm, a⟩
          have hj : j ∈ is := by
            rcases List.mem_cons.1 hm with h | h
            · rw [h] at a; exact absurd a hfirst
            · exact h
          exact same_then_powered g g1 g3 p1 hn (r1 (ex.2 ⟨j, hj, a⟩))
        · intro hno
          have hex : ¬ ∃ j, j ∈ is ∧ (pill_at g j).status = 2 ∧ check_pill_eaten g j = TRUE :=
            fun ⟨j, hj, a⟩ => hno ⟨j, List.mem_cons_of_mem i hj, a⟩
          exact ghosts_same_trans g g1 g3 p1 (r2 (fun x => hex (ex.1 x)))

/-- What a whole `handle_pills` call does to the ghosts and the timer. -/
theorem handle_pills_ghosts (g : Game) (rs : List Nat) (g1 : Game) (rs1 : List Nat)
    (hc : g.maze_completed = FALSE) (hd : g.munchkin_dying = FALSE)
    (h : handle_pills g rs = some (g1, rs1)) :
    (power_pill_touched g → powered g g1) ∧ (¬ power_pill_touched g → ghosts_same g g1) := by
  unfold handle_pills at h
  simp only at h
  have hsp := handle_pills_speedups g (count_active_pills g)
  generalize (if count_active_pills g = 1 then speed_up_last_pill
      (if count_active_pills g ≥ 2 ∧ count_active_pills g < c_div g.NUM_PILLS 2
        then speed_up_pills g else g)
    else (if count_active_pills g ≥ 2 ∧ count_active_pills g < c_div g.NUM_PILLS 2
        then speed_up_pills g else g)) = g2 at h hsp
  obtain ⟨sp, -, -, -, -, -, -⟩ := only_pill_speeds_play g g2 hsp
  obtain ⟨⟨ps, l, e⟩, p⟩ := hsp
  have hn : g2.NUM_PILLS = g.NUM_PILLS := sp.2.2.2.2.2.1
  have hng : g2.NUM_GHOSTS = g.NUM_GHOSTS := sp.2.2.2.2.2.2.1
  have gs2 : ghosts_same g g2 := by rw [e]; exact ⟨fun _ => rfl, rfl⟩
  have hchk : ∀ j, check_pill_eaten g2 j = check_pill_eaten g j := by
    intro j
    obtain ⟨-, a2, a3, -⟩ := p j
    obtain ⟨b1, b2, b3, b4, b5, -⟩ := sp
    unfold check_pill_eaten
    rw [a2, a3, b1, b2, b3, b4, b5]
  have ex : (∃ i, i ∈ List.range g2.NUM_PILLS.toNat ∧ (pill_at g2 i).status = 2 ∧
      check_pill_eaten g2 i = TRUE) ↔ power_pill_touched g := by
    unfold power_pill_touched
    constructor
    · rintro ⟨i, hi, a, b⟩
      exact ⟨i, by rw [← hn]; exact (mem_range_toNat _ _).1 hi, by rw [← (p i).1]; exact a,
        by rw [← hchk i]; exact b⟩
    · rintro ⟨i, hi, a, b⟩
      exact ⟨i, (mem_range_toNat _ _).2 (by rw [hn]; exact hi), by rw [(p i).1]; exact a,
        by rw [hchk i]; exact b⟩
  split at h
  · exact absurd h (by simp)
  · rename_i g3 ap3 rs3 hl
    obtain ⟨r1, r2⟩ := handle_pills_loop_ghosts _ g2 _ rs g3 ap3 rs3
      (List.nodup_range _) (sp.2.2.2.2.2.2.2.1.trans hd) (sp.2.2.2.2.2.2.2.2.trans hc) hl
    have hfin : ghosts_same g3 g1 := by
      split_ifs at h <;> simp only [Option.some.injEq, Prod.mk.injEq] at h <;> rw [← h.1] <;>
        exact ⟨fun _ => rfl, rfl⟩
    constructor
    · intro ht
      exact powered_then_same g g3 g1 (same_then_powered g g2 g3 gs2 hng (r1 (ex.2 ht))) hfin
    · intro ht
      exact ghosts_same_trans g g3 g1
        (ghosts_same_trans g g2 g3 gs2 (r2 (fun x => ht (ex.1 x)))) hfin

/-- C15. Power pill effect: when a `handle_pills` call (maze not completed, player alive)
eats a status-2 pill and some ghost `0..NUM_GHOSTS-1` is patrol or vulnerable, then after
the call every ghost `0..NUM_GHOSTS-1` that was patrol or vulnerable is vulnerable, every
ghost that was captured or recharging is unchanged, and `powerpill_active_timer` is 180
whatever it was before. -/
theorem power_pill_effect (g : Game) (rs : List Nat) (g1 : Game) (rs1 : List Nat)
    (hc : g.maze_completed = FALSE) (hd : g.munchkin_dying = FALSE)
    (h : handle_pills g rs = some (g1, rs1))
    (hp : power_pill_touched g) (hg : some_ghost_active g) :
    (∀ j : Nat, (j : Int) < g.NUM_GHOSTS →
      (ghost_at g j).status = 1 ∨ (ghost_at g j).status = 2 → (ghost_at g1 j).status = 2) ∧
    (∀ j : Nat, (ghost_at g j).status = 3 ∨ (ghost_at g j).status = 4 →
      ghost_at g1 j = ghost_at g j) ∧
    g1.powerpill_active_timer = 180 := by
  obtain ⟨p1, p2, -⟩ := (handle_pills_ghosts g rs g1 rs1 hc hd h).1 hp
  refine ⟨fun j hj hs => ?_, fun j hs => ?_, p2 hg⟩
  · rw [p1 j, if_pos hj]
    exact (make_vulnerable_status _).1 hs
  · rw [p1 j]
    have hn : ¬ ((ghost_at g j).status = 1 ∨ (ghost_at g j).status = 2) := by
      rcases hs with a | a <;> rw [a] <;> decide
    by_cases hj : (j : Int) < g.NUM_GHOSTS
    · rw [if_pos hj]; exact (make_vulnerable_status _).2.1 hn
    · rw [if_neg hj]

theorem demo_power_after_eq : handle_pills demo_power [] = some (demo_power_after, []) := by
  decide

theorem power_pill_effect_witness :
    demo_power.powerpill_active_timer = 130 ∧ demo_power_after.powerpill_active_timer = 180 ∧
    (ghost_at demo_power_after 0).status = 2 ∧ (ghost_at demo_power_after 1).status = 2 ∧
    (ghost_at demo_power_after 2).status = 3 ∧ (ghost_at demo_power_after 3).status = 4 :=
  have w := power_pill_effect demo_power [] demo_power_after [] (by decide) (by decide)
    demo_power_after_eq ⟨0, by decide, by decide, by decide⟩ ⟨0, by decide, by decide⟩
  ⟨by decide, w.2.2, w.1 0 (by decide) (by decide), w.1 1 (by decide) (by decide),
    (congrArg ghost_type.status (w.2.1 2 (by decide))).trans (by decide),
    (congrArg ghost_type.status (w.2.1 3 (by decide))).trans (by decide)⟩

/-! ## Ghost movement -/

theorem ghost_homing_spec (gh : ghost_type) (cx cy lo ro uo dn : Int) :
    (ghost_homing gh cx cy lo ro uo dn).1.x = gh.x ∧
    (ghost_homing gh cx cy lo ro uo dn).1.y = gh.y ∧
    (gh.status ≠ 3 → ghost_homing gh cx cy lo ro uo dn = (gh, FALSE)) ∧
    (gh.status = 3 → cx = 4 → cy = 4 → ghost_homing gh cx cy lo ro uo dn =
      ({ gh with status := 4, direction := 0, recharge_timer := 200 }, FALSE)) := by
  unfold ghost_homing
  by_cases h3 : gh.status = 3
  · rw [if_pos h3]
    by_cases hc : cx = 4 ∧ cy = 4
    · rw [if_pos hc]
      exact ⟨rfl, rfl, fun h => absurd h3 h, fun _ _ _ => rfl⟩
    · rw [if_neg hc]
      exact ⟨rfl, rfl, fun h => absurd h3 h, fun _ a b => absurd ⟨a, b⟩ hc⟩
  · rw [if_neg h3]
    exact ⟨rfl, rfl, fun _ => rfl, fun h => absurd h h3⟩

theorem ghost_recharge_spec (gh : ghost_type) :
    (ghost_recharge gh).x = gh.x ∧ (ghost_recharge gh).y = gh.y ∧
    (gh.status ≠ 4 → ghost_recharge gh = gh) ∧
    (gh.status = 4 → (ghost_recharge gh).status = 4 →
      ghost_recharge gh = { gh with recharge_timer := gh.recharge_timer - 1 }) := by
  unfold ghost_recharge
  by_cases h4 : gh.status = 4
  · rw [if_pos h4]
    simp only
    by_cases ht : gh.recharge_timer - 1 = -1
    · rw [if_pos ht]
      refine ⟨rfl, rfl, fun h => absurd h4 h, fun _ h => ?_⟩
      have h1 : (1 : Int) = 4 := h
      exact absurd h1 (by decide)
    · rw [if_neg ht]
      exact ⟨rfl, rfl, fun h => absurd h4 h, fun _ _ => rfl⟩
  · rw [if_neg h4]
    exact ⟨rfl, rfl, fun _ => rfl, fun h => absurd h h4⟩

theorem ghost_walk_zero (lo ro uo dn : Int) (rs : List Nat) :
    ghost_walk 0 lo ro uo dn rs = some (0, rs) := by
  unfold ghost_walk
  rw [if_neg (by decide), if_neg (by decide), if_neg (by decide), if_neg (by decide)]

/-- The ghost that `choose_ghost_aligned` stores: same place, and the status and direction
facts of `ghost_moved`. -/
theorem choose_ghost_aligned_ghost (g : Game) (i : Nat) (cx cy lo ro uo dn : Int)
    (rs : List Nat) (g1 : Game) (rs1 : List Nat)
    (h : choose_ghost_aligned g i cx cy lo ro uo dn rs = some (g1, rs1)) :
    (∀ j, j ≠ i → ghost_at g1 j = ghost_at g j) ∧
    (ghost_at g1 i).x = (ghost_at g i).x ∧ (ghost_at g1 i).y = (ghost_at g i).y ∧
    ((ghost_at g i).status ≠ 3 → (ghost_at g i).status ≠ 4 →
      (ghost_at g1 i).status = (ghost_at g i).status) ∧
    ((ghost_at g i).status = 4 → (ghost_at g i).direction = 0 → (ghost_at g1 i).status = 4 →
      (ghost_at g1 i).direction = 0) := by
  obtain ⟨a1, a2, a3, -⟩ := ghost_homing_spec (ghost_at g i) cx cy lo ro uo dn
  obtain ⟨b1, b2, b3, b4⟩ :=
    ghost_recharge_spec (ghost_homing (ghost_at g i) cx cy lo ro uo dn).1
  unfold choose_ghost_aligned at h
  simp only at h
  by_cases hc : (ghost_homing (ghost_at g i) cx cy lo ro uo dn).2 = FALSE
  · rw [if_pos hc] at h
    split at h
    · exact absurd h (by simp)
    · rename_i d rs2 hw
      simp only [Option.some.injEq, Prod.mk.injEq] at h
      rw [← h.1]
      refine ⟨fun j hj => by rw [ghost_at_ghost_put, if_neg hj], ?_, ?_, ?_, ?_⟩
      · rw [ghost_at_ghost_put, if_pos rfl]; exact b1.trans a1
      · rw [ghost_at_ghost_put, if_pos rfl]; exact b2.trans a2
      · intro n3 n4
        rw [ghost_at_ghost_put, if_pos rfl]
        have e1 := a3 n3
        rw [e1] at b3
        have e2 := b3 n4
        show (ghost_recharge (ghost_homing (ghost_at g i) cx cy lo ro uo dn).1).status = _
        rw [e1, e2]
      · intro s4 d0
        rw [ghost_at_ghost_put, if_pos rfl]
        intro st
        have e1 := a3 (by rw [s4]; decide)
        rw [e1] at b4 hw
        have st2 : (ghost_recharge (ghost_at g i)).status = 4 := by
          rw [e1] at st; exact st
        have e2 := b4 s4 st2
        rw [e2] at hw
        have hw2 : ghost_walk (ghost_at g i).direction lo ro uo dn rs = some (d, rs2) := hw
        rw [d0, ghost_walk_zero] at hw2
        simp only [Option.some.injEq, Prod.mk.injEq] at hw2
        exact hw2.1.symm
  · rw [if_neg hc] at h
    simp only [Option.some.injEq, Prod.mk.injEq] at h
    rw [← h.1]
    refine ⟨fun j hj => by rw [ghost_at_ghost_put, if_neg hj], ?_, ?_, ?_, ?_⟩
    · rw [ghost_at_ghost_put, if_pos rfl]; exact b1.trans a1
    · rw [ghost_at_ghost_put, if_pos rfl]; exact b2.trans a2
    · intro n3 n4
      rw [ghost_at_ghost_put, if_pos rfl]
      have e1 := a3 n3
      rw [e1] at b3
      rw [e1, b3 n4]
    · intro s4 d0
      have e1 := a3 (by rw [s4]; decide)
      rw [e1] at hc
      exact absurd rfl hc

theorem choose_ghost_direction_ghost (g : Game) (i : Nat) (rs : List Nat) (g1 : Game)
    (rs1 : List Nat) (h : choose_ghost_direction g i rs = some (g1, rs1)) :
    (∀ j, j ≠ i → ghost_at g1 j = ghost_at g j) ∧
    (ghost_at g1 i).x = (ghost_at g i).x ∧ (ghost_at g1 i).y = (ghost_at g i).y ∧
    ((ghost_at g i).status ≠ 3 → (ghost_at g i).status ≠ 4 →
      (ghost_at g1 i).status = (ghost_at g i).status) ∧
    ((ghost_at g i).status = 4 → (ghost_at g i).direction = 0 → (ghost_at g1 i).status = 4 →
      (ghost_at g1 i).direction = 0) := by
  rcases choose_ghost_direction_cases g i rs g1 rs1 h with ⟨e, -, -⟩ | ⟨-, lo, ro, uo, dn, e⟩
  · rw [e]
    exact ⟨fun _ _ => rfl, rfl, rfl, fun _ _ => rfl, fun _ d0 _ => d0⟩
  · exact choose_ghost_aligned_ghost g i _ _ lo ro uo dn rs g1 rs1 e

theorem move_ghost_ghost (g : Game) (i : Nat) :
    (∀ j, j ≠ i → ghost_at (move_ghost g i) j = ghost_at g j) ∧
    (ghost_at (move_ghost g i) i).status = (ghost_at g i).status ∧
    (ghost_at (move_ghost g i) i).direction = (ghost_at g i).direction ∧
    ((ghost_at g i).direction = 0 → ghost_at (move_ghost g i) i = ghost_at g i) := by
  unfold move_ghost
  simp only
  by_cases h1 : (ghost_at g i).direction = LEFT
  · rw [if_pos h1]
    refine ⟨fun j hj => by rw [ghost_at_ghost_put, if_neg hj], ?_, ?_, ?_⟩
    · rw [ghost_at_ghost_put, if_pos rfl]
    · rw [ghost_at_ghost_put, if_pos rfl]
    · intro d0; rw [d0] at h1; exact absurd h1 (by decide)
  rw [if_neg h1]
  by_cases h2 : (ghost_at g i).direction = RIGHT
  · rw [if_pos h2]
    refine ⟨fun j hj => by rw [ghost_at_ghost_put, if_neg hj], ?_, ?_, ?_⟩
    · rw [ghost_at_ghost_put, if_pos rfl]
    · rw [ghost_at_ghost_put, if_pos rfl]
    · intro d0; rw [d0] at h2; exact absurd h2 (by decide)
  rw [if_neg h2]
  by_cases h3 : (ghost_at g i).direction = UP
  · rw [if_pos h3]
    refine ⟨fun j hj => by rw [ghost_at_ghost_put, if_neg hj], ?_, ?_, ?_⟩
    · rw [ghost_at_ghost_put, if_pos rfl]
    · rw [ghost_at_ghost_put, if_pos rfl]
    · intro d0; rw [d0] at h3; exact absurd h3 (by decide)
  rw [if_neg h3]
  by_cases h4 : (ghost_at g i).direction = DOWN
  · rw [if_pos h4]
    refine ⟨fun j hj => by rw [ghost_at_ghost_put, if_neg hj], ?_, ?_, ?_⟩
    · rw [ghost_at_ghost_put, if_pos rfl]
    · rw [ghost_at_ghost_put, if_pos rfl]
    · intro d0; rw [d0] at h4; exact absurd h4 (by decide)
  rw [if_neg h4]
  exact ⟨fun _ _ => rfl, rfl, rfl, fun _ => rfl⟩

theorem ghost_moved_refl (gh : ghost_type) : ghost_moved gh gh :=
  ⟨fun _ _ => rfl, fun _ d0 _ => ⟨rfl, rfl, d0⟩⟩

/-- One pass of the main loop of `handle_ghosts`, for ghost `i`. -/
theorem ghost_pass (g : Game) (i : Nat) (rs : List Nat) (g1 : Game) (rs1 : List Nat)
    (h : choose_ghost_direction g i rs = some (g1, rs1)) :
    (∀ j, j ≠ i → ghost_at (move_ghost g1 i) j = ghost_at g j) ∧
    ghost_moved (ghost_at g i) (ghost_at (move_ghost g1 i) i) := by
  obtain ⟨c1, c2, c3, c4, c5⟩ := choose_ghost_direction_ghost g i rs g1 rs1 h
  obtain ⟨m1, m2, m3, m4⟩ := move_ghost_ghost g1 i
  refine ⟨fun j hj => (m1 j hj).trans (c1 j hj), fun n3 n4 => m2.trans (c4 n3 n4), ?_⟩
  intro s4 d0 st
  have d1 : (ghost_at g1 i).direction = 0 := c5 s4 d0 (m2.symm.trans st)
  rw [m4 d1]
  exact ⟨c2, c3, d1⟩

theorem handle_ghosts_loop_ghosts (l : List Nat) : ∀ (g : Game) (rs : List Nat) (g1 : Game)
    (rs1 : List Nat), l.Nodup → handle_ghosts_loop l g rs = some (g1, rs1) →
    (∀ j, j ∉ l → ghost_at g1 j = ghost_at g j) ∧
    (∀ j, ghost_moved (ghost_at g j) (ghost_at g1 j)) := by
  induction l with
  | nil =>
    intro g rs g1 rs1 _ h
    simp only [handle_ghosts_loop, Option.some.injEq, Prod.mk.injEq] at h
    rw [← h.1]
    exact ⟨fun _ _ => rfl, fun _ => ghost_moved_refl _⟩
  | cons i is ih =>
    intro g rs g1 rs1 hnd h
    rw [List.nodup_cons] at hnd
    obtain ⟨hi, hnd⟩ := hnd
    rw [handle_ghosts_loop] at h
    by_cases hc : g.maze_completed = FALSE
    swap
    · rw [if_neg hc] at h
      simp only [Option.some.injEq, Prod.mk.injEq] at h
      rw [← h.1]
      exact ⟨fun _ _ => rfl, fun _ => ghost_moved_refl _⟩
    rw [if_pos hc] at h
    split at h
    · exact absurd h (by simp)
    · rename_i g2 rs2 hch
      obtain ⟨p1, p2⟩ := ghost_pass g i rs g2 rs2 hch
      obtain ⟨r1, r2⟩ := ih _ _ _ _ hnd h
      refine ⟨fun j hj => ?_, fun j => ?_⟩
      · have hne : j ≠ i := fun e => hj (e ▸ List.mem_cons_self i is)
        have hjs : j ∉ is := fun e => hj (List.mem_cons_of_mem i e)
        rw [r1 j hjs, p1 j hne]
      · by_cases hji : j = i
        · subst hji
          rw [r1 j hi]; exact p2
        · have := r2 j
          rw [p1 j hji] at this
          exact this

theorem revert_ghosts_spec (g : Game) (hc : g.maze_completed = FALSE) :
    ∀ j : Nat, ghost_at (revert_ghosts g) j =
      if (j : Int) < g.NUM_GHOSTS ∧ (ghost_at g j).status = 2
        then { ghost_at g j with status := 1 } else ghost_at g j := by
  have key : ∀ (l : List Nat) (h : Game), l.Nodup → h.maze_completed = FALSE →
      ∀ j, ghost_at (l.foldl (fun h i =>
          if h.maze_completed = FALSE then
            if (ghost_at h i).status = 2 then ghost_put h i { ghost_at h i with status := 1 }
            else h
          else h) h) j =
        if j ∈ l ∧ (ghost_at h j).status = 2 then { ghost_at h j with status := 1 }
        else ghost_at h j := by
    intro l
    induction l with
    | nil =>
      intro h _ _ j
      rw [if_neg (fun x => List.not_mem_nil j x.1)]; rfl
    | cons i is ih =>
      intro h hnd hm j
      rw [List.nodup_cons] at hnd
      obtain ⟨hi, hnd⟩ := hnd
      rw [List.foldl_cons]
      simp only [if_pos hm]
      by_cases h2 : (ghost_at h i).status = 2
      · rw [if_pos h2, ih _ hnd (by exact hm) j, ghost_at_ghost_put]
        by_cases hji : j = i
        · subst hji
          rw [if_pos rfl, if_neg (fun x => hi x.1), if_pos ⟨List.mem_cons_self j is, h2⟩]
        · rw [if_neg hji]
          by_cases hx : j ∈ is ∧ (ghost_at h j).status = 2
          · rw [if_pos hx, if_pos ⟨List.mem_cons_of_mem i hx.1, hx.2⟩]
          · rw [if_neg hx, if_neg]
            rintro ⟨hm2, hs⟩
            rcases List.mem_cons.1 hm2 with e | e
            · exact hji e
            · exact hx ⟨e, hs⟩
      · rw [if_neg h2, ih _ hnd hm j]
        by_cases hx : j ∈ is ∧ (ghost_at h j).status = 2
        · rw [if_pos hx, if_pos ⟨List.mem_cons_of_mem i hx.1, hx.2⟩]
        · rw [if_neg hx, if_neg]
          rintro ⟨hm2, hs⟩
          rcases List.mem_cons.1 hm2 with e | e
          · rw [e] at hs; exact h2 hs
          · exact hx ⟨e, hs⟩
  intro j
  unfold revert_ghosts
  rw [key _ g (List.nodup_range _) hc j]
  by_cases hx : (j : Int) < g.NUM_GHOSTS ∧ (ghost_at g j).status = 2
  · rw [if_pos hx, if_pos ⟨(mem_range_toNat _ _).2 hx.1, hx.2⟩]
  · rw [if_neg hx, if_neg (fun y => hx ⟨(mem_range_toNat _ _).1 y.1, y.2⟩)]

theorem revert_ghosts_other (g : Game) (j : Nat) (h2 : (ghost_at g j).status ≠ 2) :
    ghost_at (revert_ghosts g) j = ghost_at g j := by
  by_cases hc : g.maze_completed = FALSE
  · rw [revert_ghosts_spec g hc j, if_neg (fun x => h2 x.2)]
  · have key : ∀ (l : List Nat) (h : Game), h.maze_completed ≠ FALSE →
        l.foldl (fun h i =>
          if h.maze_completed = FALSE then
            if (ghost_at h i).status = 2 then ghost_put h i { ghost_at h i with status := 1 }
            else h
          else h) h = h := by
      intro l
      induction l with
      | nil => intro h _; rfl
      | cons i is ih =>
        intro h hm
        rw [List.foldl_cons]
        simp only [if_neg hm]
        exact ih h hm
    unfold revert_ghosts
    rw [key _ g hc]

/-- What a `handle_ghosts` call does to the timer and to the statuses of the ghosts. -/
theorem handle_ghosts_spec (g : Game) (rs : List Nat) (g1 : Game) (rs1 : List Nat)
    (h : handle_ghosts g rs = some (g1, rs1)) :
    g1.powerpill_active_timer = g.powerpill_active_timer - 1 ∧
    (g.maze_completed = FALSE → g.powerpill_active_timer - 1 = 0 →
      ∀ j : Nat, (j : Int) < g.NUM_GHOSTS → (ghost_at g j).status = 2 →
        (ghost_at g1 j).status = 1) ∧
    (g.powerpill_active_timer - 1 ≠ 0 →
      ∀ j : Nat, (ghost_at g j).status = 2 → (ghost_at g1 j).status = 2) ∧
    (∀ j : Nat, (ghost_at g j).status = 4 → (ghost_at g j).direction = 0 →
      (ghost_at g1 j).status = 4 →
      (ghost_at g1 j).x = (ghost_at g j).x ∧ (ghost_at g1 j).y = (ghost_at g j).y ∧
      (ghost_at g1 j).direction = 0) := by
  obtain ⟨gs, e⟩ := handle_ghosts_frame g rs g1 rs1 h
  unfold handle_ghosts at h
  simp only at h
  refine ⟨by rw [e], ?_, ?_, ?_⟩
  · intro hc h0 j hj h2
    rw [if_pos h0] at h
    obtain ⟨-, r2⟩ := handle_ghosts_loop_ghosts _ _ _ _ _ (List.nodup_range _) h
    have hr := revert_ghosts_spec { g with powerpill_active_timer :=
      g.powerpill_active_timer - 1 } hc j
    have hr2 : ghost_at (revert_ghosts { g with powerpill_active_timer :=
        g.powerpill_active_timer - 1 }) j = { ghost_at g j with status := 1 } := by
      rw [hr]; exact if_pos ⟨hj, h2⟩
    have m := (r2 j).1
    rw [hr2] at m
    exact m (by show (1 : Int) ≠ 3; decide) (by show (1 : Int) ≠ 4; decide)
  · intro h0 j h2
    rw [if_neg h0] at h
    obtain ⟨-, r2⟩ := handle_ghosts_loop_ghosts _ _ _ _ _ (List.nodup_range _) h
    have m := (r2 j).1
    have m2 : (ghost_at g1 j).status = (ghost_at g j).status :=
      m (by show (ghost_at g j).status ≠ 3; rw [h2]; decide)
        (by show (ghost_at g j).status ≠ 4; rw [h2]; decide)
    exact m2.trans h2
  · intro j s4 d0 st
    have base : ∀ s : Game, ghost_at s j = ghost_at g j → ∀ l : List Nat, l.Nodup →
        handle_ghosts_loop l s rs = some (g1, rs1) →
        (ghost_at g1 j).x = (ghost_at g j).x ∧ (ghost_at g1 j).y = (ghost_at g j).y ∧
        (ghost_at g1 j).direction = 0 := by
      intro s hs l hnd hl
      obtain ⟨-, r2⟩ := handle_ghosts_loop_ghosts l s rs g1 rs1 hnd hl
      have m := (r2 j).2
      rw [hs] at m
      exact m s4 d0 st
    by_cases h0 : g.powerpill_active_timer - 1 = 0
    · rw [if_pos h0] at h
      refine base _ ?_ _ (List.nodup_range _) h
      rw [revert_ghosts_other _ j]
      · rfl
      · show (ghost_at g j).status ≠ 2
        rw [s4]; decide
    · rw [if_neg h0] at h
      exact base { g with powerpill_active_timer := g.powerpill_active_timer - 1 } rfl _
        (List.nodup_range _) h

theorem ghost_walk_zeros (dir lo ro uo dn : Int) (m : Nat) (hm : 2 ≤ m) :
    ∃ r k, k ≤ 2 ∧ ghost_walk dir lo ro uo dn (List.replicate m 0)
      = some (r, List.replicate (m - k) 0) := by
  unfold ghost_walk
  by_cases h1 : dir = LEFT
  · rw [if_pos h1]; exact choose_case_zero 5 _ _ _ _ _ _ _ m hm
  rw [if_neg h1]
  by_cases h2 : dir = RIGHT
  · rw [if_pos h2]; exact choose_case_zero 5 _ _ _ _ _ _ _ m hm
  rw [if_neg h2]
  by_cases h3 : dir = UP
  · rw [if_pos h3]; exact choose_case_zero 5 _ _ _ _ _ _ _ m hm
  rw [if_neg h3]
  by_cases h4 : dir = DOWN
  · rw [if_pos h4]; exact choose_case_zero 5 _ _ _ _ _ _ _ m hm
  rw [if_neg h4]
  exact ⟨dir, 0, by omega, rfl⟩

theorem choose_ghost_direction_zeros (g : Game) (i m : Nat) (hm : 2 ≤ m) :
    ∃ g1 k, k ≤ 2 ∧ choose_ghost_direction g i (List.replicate m 0)
      = some (g1, List.replicate (m - k) 0) := by
  have al : ∀ cx cy lo ro uo dn : Int, ∃ g1 k, k ≤ 2 ∧
      choose_ghost_aligned g i cx cy lo ro uo dn (List.replicate m 0)
        = some (g1, List.replicate (m - k) 0) := by
    intro cx cy lo ro uo dn
    unfold choose_ghost_aligned
    simp only
    by_cases hc : (ghost_homing (ghost_at g i) cx cy lo ro uo dn).2 = FALSE
    · rw [if_pos hc]
      obtain ⟨r, k, hk, e⟩ := ghost_walk_zeros
        (ghost_recharge (ghost_homing (ghost_at g i) cx cy lo ro uo dn).1).direction
        lo ro uo dn m hm
      rw [e]
      exact ⟨_, k, hk, rfl⟩
    · rw [if_neg hc]
      exact ⟨_, 0, by omega, rfl⟩
  unfold choose_ghost_direction
  simp only
  by_cases hc : 9 + 7 + c_div ((ghost_at g i).x - (7 + g.MAZE_OFFSET_X)) (HORI_LINE_SIZE - 2) * 20
        = (ghost_at g i).x ∧
      23 + 4 + c_div ((ghost_at g i).y - (4 + g.MAZE_OFFSET_Y)) (VERT_LINE_SIZE - 2) * 14
        = (ghost_at g i).y
  · rw [if_pos hc]; exact al _ _ _ _ _ _
  · rw [if_neg hc]; exact ⟨g, 0, by omega, rfl⟩

theorem handle_ghosts_loop_zeros (l : List Nat) : ∀ (g : Game) (m : Nat),
    2 * l.length ≤ m → ∃ g1 rs1, handle_ghosts_loop l g (List.replicate m 0)
      = some (g1, rs1) := by
  induction l with
  | nil => intro g m _; exact ⟨g, _, rfl⟩
  | cons i is ih =>
    intro g m hm
    rw [List.length_cons] at hm
    rw [handle_ghosts_loop]
    split_ifs
    · obtain ⟨g1, k, hk, e⟩ := choose_ghost_direction_zeros g i m (by omega)
      rw [e]
      exact ih _ (m - k) (by omega)
    · exact ⟨g, _, rfl⟩

/-- The function `handle_ghosts` returns on every state when it is given at least
`2 * NUM_GHOSTS` draws that are all 0 (each ghost needs at most two of them). -/
theorem handle_ghosts_returns (g : Game) (m : Nat) (hm : 2 * g.NUM_GHOSTS.toNat ≤ m) :
    ∃ g1 rs1, handle_ghosts g (List.replicate m 0) = some (g1, rs1) := by
  unfold handle_ghosts
  simp only
  apply handle_ghosts_loop_zeros
  rw [List.length_range]
  have hn : (if g.powerpill_active_timer - 1 = 0 then
      revert_ghosts { g with powerpill_active_timer := g.powerpill_active_timer - 1 }
      else { g with powerpill_active_timer := g.powerpill_active_timer - 1 }).NUM_GHOSTS
      = g.NUM_GHOSTS := by
    split_ifs
    · obtain ⟨gs, e⟩ := revert_ghosts_frame
        { g with powerpill_active_timer := g.powerpill_active_timer - 1 }
      rw [e]
    · rfl
  rw [hn]
  exact hm

/-! ## The timer and the centre cell -/

theorem choose_ghost_aligned_centre (g : Game) (i : Nat) (lo ro uo dn : Int) (rs : List Nat)
    (h3 : (ghost_at g i).status = 3) :
    choose_ghost_aligned g i 4 4 lo ro uo dn rs =
      some (ghost_put g i { ghost_at g i with status := 4, direction := 0,
                                               recharge_timer := 199 }, rs) := by
  unfold choose_ghost_aligned
  simp only
  rw [(ghost_homing_spec (ghost_at g i) 4 4 lo ro uo dn).2.2.2 h3 rfl rfl]
  simp only
  have e : ∀ gh : ghost_type,
      ghost_recharge { gh with status := 4, direction := 0, recharge_timer := 200 } =
        { gh with status := 4, direction := 0, recharge_timer := 199 } := by
    intro gh
    unfold ghost_recharge
    simp
  simp only [e, ghost_walk_zero, if_true]

theorem choose_ghost_direction_centre (g : Game) (i : Nat) (rs : List Nat)
    (hx : g.MAZE_OFFSET_X = 9) (hy : g.MAZE_OFFSET_Y = 23)
    (h3 : (ghost_at g i).status = 3) (gx : (ghost_at g i).x = 96)
    (gy : (ghost_at g i).y = 83) :
    choose_ghost_direction g i rs =
      some (ghost_put g i { ghost_at g i with status := 4, direction := 0,
                                               recharge_timer := 199 }, rs) := by
  have e1 : c_div ((ghost_at g i).x - (7 + g.MAZE_OFFSET_X)) (HORI_LINE_SIZE - 2) = 4 := by
    rw [gx, hx]; decide
  have e2 : c_div ((ghost_at g i).y - (4 + g.MAZE_OFFSET_Y)) (VERT_LINE_SIZE - 2) = 4 := by
    rw [gy, hy]; decide
  unfold choose_ghost_direction
  simp only
  rw [e1, e2, if_pos ⟨by rw [gx]; decide, by rw [gy]; decide⟩]
  have e3 := choose_ghost_aligned_centre g i
    (if line_at g.vertical_lines 4 4 = '|' then 0 else 1)
    (if line_at g.vertical_lines 4 (4 + 1) = '|' then 0 else 1)
    (if line_at g.horizontal_lines 4 4 = 'x' then 0 else 1)
    (if line_at g.horizontal_lines (4 + 1) 4 = 'x' then 0 else 1) rs h3
  exact e3

theorem ghost_frames_succ (f : Game → Game) (k : Nat) (g : Game) (rs : List Nat)
    (g1 : Game) (rs1 : List Nat) (h : ghost_frames f (k + 1) g rs = some (g1, rs1)) :
    ∃ gk rsk, ghost_frames f k g rs = some (gk, rsk) ∧
      handle_ghosts (f gk) rsk = some (g1, rs1) := by
  rw [ghost_frames] at h
  split at h
  · exact absurd h (by simp)
  · rename_i gk rsk hk
    exact ⟨gk, rsk, hk, h⟩

theorem ghost_frames_timer (f : Game → Game)
    (hf : ∀ s, (f s).powerpill_active_timer = s.powerpill_active_timer) :
    ∀ (k : Nat) (g : Game) (rs : List Nat) (gk : Game) (rsk : List Nat),
    ghost_frames f k g rs = some (gk, rsk) →
    gk.powerpill_active_timer = g.powerpill_active_timer - k := by
  intro k
  induction k with
  | zero =>
    intro g rs gk rsk h
    simp only [ghost_frames, Option.some.injEq, Prod.mk.injEq] at h
    rw [← h.1]; simp
  | succ k ih =>
    intro g rs gk rsk h
    obtain ⟨g1, rs1, h1, h2⟩ := ghost_frames_succ f k g rs gk rsk h
    have a := (handle_ghosts_spec _ _ _ _ h2).1
    rw [a, hf, ih g rs g1 rs1 h1]
    push_cast; ring

/-- C16. Vulnerability timer: every `handle_ghosts` call lowers `powerpill_active_timer` by
exactly 1; with the maze not completed, if the lowered value is 0 every ghost
`0..NUM_GHOSTS-1` with status 2 has status 1 after the call, and if the lowered value is
not 0 every ghost with status 2 still has status 2 after the call.  Hence, when the rest of
each frame `f` leaves the timer alone and the timer starts at 180, the `(k+1)`-th
`handle_ghosts` call leaves it at `180 - (k+1)`, and the vulnerable ghosts revert to patrol
in that call if and only if it is the 180th. -/
theorem vulnerability_timer :
    (∀ (g : Game) (rs : List Nat) (g1 : Game) (rs1 : List Nat),
      handle_ghosts g rs = some (g1, rs1) →
      g1.powerpill_active_timer = g.powerpill_active_timer - 1 ∧
      (g.maze_completed = FALSE → g.powerpill_active_timer - 1 = 0 →
        ∀ j : Nat, (j : Int) < g.NUM_GHOSTS → (ghost_at g j).status = 2 →
          (ghost_at g1 j).status = 1) ∧
      (g.powerpill_active_timer - 1 ≠ 0 →
        ∀ j : Nat, (ghost_at g j).status = 2 → (ghost_at g1 j).status = 2)) ∧
    (∀ (f : Game → Game), (∀ s, (f s).powerpill_active_timer = s.powerpill_active_timer) →
      ∀ (k : Nat) (g : Game) (rs : List Nat) (gk : Game) (rsk : List Nat) (g1 : Game)
        (rs1 : List Nat),
      g.powerpill_active_timer = 180 → ghost_frames f k g rs = some (gk, rsk) →
      handle_ghosts (f gk) rsk = some (g1, rs1) →
      g1.powerpill_active_timer = 180 - ((k : Int) + 1) ∧
      ((f gk).maze_completed = FALSE → k + 1 = 180 →
        ∀ j : Nat, (j : Int) < (f gk).NUM_GHOSTS → (ghost_at (f gk) j).status = 2 →
          (ghost_at g1 j).status = 1) ∧
      (k + 1 ≠ 180 →
        ∀ j : Nat, (ghost_at (f gk) j).status = 2 → (ghost_at g1 j).status = 2)) := by
  constructor
  · intro g rs g1 rs1 h
    obtain ⟨a, b, c, -⟩ := handle_ghosts_spec g rs g1 rs1 h
    exact ⟨a, b, c⟩
  · intro f hf k g rs gk rsk g1 rs1 h180 hk h
    obtain ⟨a, b, c, -⟩ := handle_ghosts_spec (f gk) rsk g1 rs1 h
    have t := ghost_frames_timer f hf k g rs gk rsk hk
    have t2 : (f gk).powerpill_active_timer = 180 - (k : Int) := by rw [hf, t, h180]
    refine ⟨by rw [a, t2]; ring, fun hc hk180 => b hc (by rw [t2]; omega),
      fun hk180 => c (by rw [t2]; omega)⟩

theorem demo_revert_after_eq : handle_ghosts demo_revert [] = some (demo_revert_after, []) := by
  decide

theorem demo_timer_after_eq : handle_ghosts demo_timer [] = some (demo_timer_after, []) := by
  decide

theorem vulnerability_timer_witness :
    (demo_revert.powerpill_active_timer = 1 ∧ demo_revert_after.powerpill_active_timer = 0 ∧
      (ghost_at demo_revert 0).status = 2 ∧ (ghost_at demo_revert_after 0).status = 1) ∧
    (demo_timer.powerpill_active_timer = 180 ∧ demo_timer_after.powerpill_active_timer = 179 ∧
      (ghost_at demo_timer_after 0).status = 2) :=
  have a := vulnerability_timer.1 demo_revert [] demo_revert_after [] demo_revert_after_eq
  have b := vulnerability_timer.2 (fun s => s) (fun _ => rfl) 0 demo_timer [] demo_timer []
    demo_timer_after [] (by decide) rfl demo_timer_after_eq
  ⟨⟨by decide, a.1.trans (by decide), by decide,
      a.2.1 (by decide) (by decide) 0 (by decide) (by decide)⟩,
   ⟨by decide, b.1.trans (by decide), b.2.2 (by decide) 0 (by decide)⟩⟩

/-- C20. Arrival at the centre: with the play offsets, `choose_ghost_direction` on a ghost
with status 3 standing exactly on the centre point (x = 96, y = 83) returns without a draw
and leaves the ghost with status 4, direction 0 (and recharge timer 199, nothing else of it
changed); a ghost with status 4 and direction 0 that still has status 4 after a
`handle_ghosts` call has the same x and y and still direction 0; so over any number of
frames whose rest `f` leaves that ghost alone, as long as its status is 4 after every
`handle_ghosts` call its x and y are those it started with. -/
theorem centre_arrival :
    (∀ (g : Game) (i : Nat) (rs : List Nat), g.MAZE_OFFSET_X = 9 → g.MAZE_OFFSET_Y = 23 →
      (ghost_at g i).status = 3 → (ghost_at g i).x = 96 → (ghost_at g i).y = 83 →
      ∃ g1, choose_ghost_direction g i rs = some (g1, rs) ∧
        ghost_at g1 i = { ghost_at g i with status := 4, direction := 0,
                                             recharge_timer := 199 } ∧
        (ghost_at g1 i).status = 4 ∧ (ghost_at g1 i).direction = 0) ∧
    (∀ (g : Game) (rs : List Nat) (g1 : Game) (rs1 : List Nat) (i : Nat),
      handle_ghosts g rs = some (g1, rs1) →
      (ghost_at g i).status = 4 → (ghost_at g i).direction = 0 → (ghost_at g1 i).status = 4 →
      (ghost_at g1 i).x = (ghost_at g i).x ∧ (ghost_at g1 i).y = (ghost_at g i).y ∧
      (ghost_at g1 i).direction = 0) ∧
    (∀ (f : Game → Game) (i : Nat), (∀ s, ghost_at (f s) i = ghost_at s i) →
      ∀ (k : Nat) (g : Game) (rs : List Nat) (gk : Game) (rsk : List Nat),
      (ghost_at g i).status = 4 → (ghost_at g i).direction = 0 →
      ghost_frames f k g rs = some (gk, rsk) →
      (∀ (m : Nat) (gm : Game) (rsm : List Nat), m ≤ k →
        ghost_frames f m g rs = some (gm, rsm) → (ghost_at gm i).status = 4) →
      (ghost_at gk i).x = (ghost_at g i).x ∧ (ghost_at gk i).y = (ghost_at g i).y ∧
      (ghost_at gk i).direction = 0) := by
  refine ⟨?_, ?_, ?_⟩
  · intro g i rs hx hy h3 gx gy
    refine ⟨_, choose_ghost_direction_centre g i rs hx hy h3 gx gy, ?_⟩
    rw [ghost_at_ghost_put, if_pos rfl]
    exact ⟨rfl, rfl, rfl⟩
  · intro g rs g1 rs1 i h s4 d0 st
    exact (handle_ghosts_spec g rs g1 rs1 h).2.2.2 i s4 d0 st
  · intro f i hf k
    induction k with
    | zero =>
      intro g rs gk rsk _ d0 h _
      simp only [ghost_frames, Option.some.injEq, Prod.mk.injEq] at h
      rw [← h.1]
      exact ⟨rfl, rfl, d0⟩
    | succ k ih =>
      intro g rs gk rsk s4 d0 h hall
      obtain ⟨g1, rs1, h1, h2⟩ := ghost_frames_succ f k g rs gk rsk h
      obtain ⟨x1, y1, d1⟩ := ih g rs g1 rs1 s4 d0 h1
        (fun m gm rsm hm hgm => hall m gm rsm (Nat.le_succ_of_le hm) hgm)
      have st1 : (ghost_at g1 i).status = 4 := hall k g1 rs1 (Nat.le_succ k) h1
      have stk : (ghost_at gk i).status = 4 := hall (k + 1) gk rsk (le_refl _) h
      obtain ⟨x2, y2, d2⟩ := (handle_ghosts_spec (f g1) rs1 gk rsk h2).2.2.2 i
        (by rw [hf]; exact st1) (by rw [hf]; exact d1) stk
      rw [hf] at x2 y2
      exact ⟨x2.trans x1, y2.trans y1, d2⟩

theorem demo_parked_after_eq : handle_ghosts demo_parked [] = some (demo_parked_after, []) := by
  decide

theorem centre_arrival_witness :
    (∃ g1, choose_ghost_direction demo_home 0 [] = some (g1, []) ∧
      (ghost_at g1 0).status = 4 ∧ (ghost_at g1 0).direction = 0) ∧
    ((ghost_at demo_parked_after 0).status = 4 ∧ (ghost_at demo_parked_after 0).x = 96 ∧
      (ghost_at demo_parked_after 0).y = 83) :=
  have a := centre_arrival.1 demo_home 0 [] (by decide) (by decide) (by decide) (by decide)
    (by decide)
  have b := centre_arrival.2.1 demo_parked [] demo_parked_after [] 0 demo_parked_after_eq
    (by decide) (by decide) (by decide)
  ⟨⟨a.choose, a.choose_spec.1, a.choose_spec.2.2⟩,
   ⟨by decide, b.1.trans (by decide), b.2.1.trans (by decide)⟩⟩

/-! ## Counting the active pills -/

theorem count_fold (P : Nat → Prop) [DecidablePred P] (l : List Nat) : ∀ n : Int,
    l.foldl (fun n i => if P i then n + 1 else n) n = n + ((l.filter P).length : Int) := by
  induction l with
  | nil => intro n; simp
  | cons i is ih =>
    intro n
    rw [List.foldl_cons, ih]
    by_cases h : P i
    · simp [List.filter_cons, h]; ring
    · simp [List.filter_cons, h]

theorem count_active_pills_eq (g : Game) :
    count_active_pills g =
      (((List.range g.NUM_PILLS.toNat).filter (fun i => (pill_at g i).status ≠ 0)).length : Int) := by
  unfold count_active_pills
  rw [count_fold (fun i => (pill_at g i).status ≠ 0)]
  simp

theorem count_active_pills_nonneg (g : Game) : 0 ≤ count_active_pills g := by
  rw [count_active_pills_eq]; exact Int.natCast_nonneg _

theorem count_active_pills_zero (g : Game) :
    count_active_pills g = 0 ↔
      ∀ i : Nat, (i : Int) < g.NUM_PILLS → (pill_at g i).status = 0 := by
  rw [count_active_pills_eq]
  constructor
  · intro h i hi
    have h0 : (List.range g.NUM_PILLS.toNat).filter (fun i => (pill_at g i).status ≠ 0) = [] := by
      apply List.eq_nil_of_length_eq_zero
      exact_mod_cast h
    rw [List.filter_eq_nil_iff] at h0
    have := h0 i ((mem_range_toNat _ _).2 hi)
    simpa using this
  · intro h
    have h0 : (List.range g.NUM_PILLS.toNat).filter (fun i => (pill_at g i).status ≠ 0) = [] := by
      rw [List.filter_eq_nil_iff]
      intro i hi
      have := h i ((mem_range_toNat _ _).1 hi)
      simpa using this
    rw [h0]; rfl

/-- The counter `active_pills` after one pass of the loop body of `handle_pills`: it is
zero exactly when no pill is active. -/
theorem handle_pills_body_count (g : Game) (i : Nat) (ap : Int) (rs : List Nat)
    (g1 : Game) (ap1 : Int) (rs1 : List Nat)
    (h : handle_pills_body g i ap rs = some (g1, ap1, rs1))
    (hi : (i : Int) < g.NUM_PILLS) (hap : 0 ≤ ap)
    (hinv : ap = 0 ↔ count_active_pills g = 0) :
    0 ≤ ap1 ∧ (ap1 = 0 ↔ count_active_pills g1 = 0) ∧
    g1.NUM_PILLS = g.NUM_PILLS ∧ g1.maze_completed = g.maze_completed := by
  have h0 := h
  obtain ⟨s1, s2⟩ := handle_pills_body_spec g i ap rs g1 ap1 rs1 h0
  have hchk : check_pill_eaten g i = TRUE ∨ check_pill_eaten g i = FALSE := by
    unfold check_pill_eaten; simp only; split_ifs <;> simp
  unfold handle_pills_body at h
  by_cases hs : (pill_at g i).status ≠ 0
  swap
  · rw [if_neg hs] at h
    simp only [Option.some.injEq, Prod.mk.injEq] at h
    rw [← h.1, ← h.2.1]
    exact ⟨hap, hinv, rfl, rfl⟩
  rw [if_pos hs] at h
  simp only at h
  by_cases he : g.munchkin_dying = FALSE ∧ check_pill_eaten g i = TRUE
  · have : (if g.munchkin_dying = FALSE then check_pill_eaten g i else FALSE) ≠ FALSE := by
      rw [if_pos he.1, he.2]; decide
    rw [if_neg this] at h
    simp only [Option.some.injEq, Prod.mk.injEq] at h
    obtain ⟨sp, -⟩ := eat_pill_spec g i
    rw [← h.1, ← h.2.1]
    exact ⟨count_active_pills_nonneg _, Iff.rfl, sp.2.2.2.2.2.1, sp.2.2.2.2.2.2.2.2⟩
  · have hn : ¬ ((pill_at g i).status ≠ 0 ∧ g.munchkin_dying = FALSE ∧
        check_pill_eaten g i = TRUE) := fun x => he ⟨x.2.1, x.2.2⟩
    obtain ⟨⟨ps, e⟩, -, q2, -⟩ := s2 hn
    have : (if g.munchkin_dying = FALSE then check_pill_eaten g i else FALSE) = FALSE := by
      by_cases hd : g.munchkin_dying = FALSE
      · rw [if_pos hd]
        rcases hchk with hc | hc
        · exact absurd ⟨hd, hc⟩ he
        · exact hc
      · rw [if_neg hd]
    rw [if_pos this] at h
    split at h
    · exact absurd h (by simp)
    · simp only [Option.some.injEq, Prod.mk.injEq] at h
      have hnp : g1.NUM_PILLS = g.NUM_PILLS := by rw [e]
      have hmc : g1.maze_completed = g.maze_completed := by rw [e]
      refine ⟨by rw [← h.2.1]; omega, ?_, hnp, hmc⟩
      constructor
      · intro h1; rw [← h.2.1] at h1; omega
      · intro h1
        exfalso
        have := (count_active_pills_zero g1).1 h1 i (by rw [hnp]; exact hi)
        rw [q2] at this
        exact hs this

theorem handle_pills_loop_count (l : List Nat) : ∀ (g : Game) (ap : Int) (rs : List Nat)
    (g3 : Game) (ap3 : Int) (rs3 : List Nat),
    (∀ i, i ∈ l → (i : Int) < g.NUM_PILLS) → 0 ≤ ap →
    (ap = 0 ↔ count_active_pills g = 0) →
    handle_pills_loop l g ap rs = some (g3, ap3, rs3) →
    0 ≤ ap3 ∧ (ap3 = 0 ↔ count_active_pills g3 = 0) ∧
    g3.NUM_PILLS = g.NUM_PILLS ∧ g3.maze_completed = g.maze_completed := by
  induction l with
  | nil =>
    intro g ap rs g3 ap3 rs3 _ hap hinv h
    simp only [handle_pills_loop, Option.some.injEq, Prod.mk.injEq] at h
    rw [← h.1, ← h.2.1]
    exact ⟨hap, hinv, rfl, rfl⟩
  | cons i is ih =>
    intro g ap rs g3 ap3 rs3 hl hap hinv h
    rw [handle_pills_loop] at h
    by_cases hc : g.maze_completed = FALSE
    swap
    · rw [if_neg hc] at h
      simp only [Option.some.injEq, Prod.mk.injEq] at h
      rw [← h.1, ← h.2.1]
      exact ⟨hap, hinv, rfl, rfl⟩
    rw [if_pos hc] at h
    split at h
    · exact absurd h (by simp)
    · rename_i g1 ap1 rs1 hb
      obtain ⟨b1, b2, b3, b4⟩ := handle_pills_body_count g i ap rs g1 ap1 rs1 hb
        (hl i (List.mem_cons_self i is)) hap hinv
      obtain ⟨r1, r2, r3, r4⟩ := ih g1 ap1 rs1 g3 ap3 rs3
        (fun j hj => by rw [b3]; exact hl j (List.mem_cons_of_mem i hj)) b1 b2 h
      exact ⟨r1, r2, r3.trans b3, r4.trans b4⟩

/-- C13. Level completion: for a `handle_pills` call entered with `maze_completed` FALSE,
`maze_completed` is TRUE on exit if and only if every pill `0..NUM_PILLS-1` has status 0 on
exit; in that case `maze_completed_animations` is 75, and otherwise `maze_completed` is
still FALSE. -/
theorem level_completion (g : Game) (rs : List Nat) (g1 : Game) (rs1 : List Nat)
    (hc : g.maze_completed = FALSE) (h : handle_pills g rs = some (g1, rs1)) :
    (g1.maze_completed = TRUE ↔
      ∀ i : Nat, (i : Int) < g.NUM_PILLS → (pill_at g1 i).status = 0) ∧
    (g1.maze_completed = TRUE → g1.maze_completed_animations = 75) ∧
    (g1.maze_completed ≠ TRUE → g1.maze_completed = FALSE) := by
  unfold handle_pills at h
  simp only at h
  have hsp := handle_pills_speedups g (count_active_pills g)
  generalize (if count_active_pills g = 1 then speed_up_last_pill
      (if count_active_pills g ≥ 2 ∧ count_active_pills g < c_div g.NUM_PILLS 2
        then speed_up_pills g else g)
    else (if count_active_pills g ≥ 2 ∧ count_active_pills g < c_div g.NUM_PILLS 2
        then speed_up_pills g else g)) = g2 at h hsp
  obtain ⟨sp, -⟩ := only_pill_speeds_play g g2 hsp
  obtain ⟨-, p⟩ := hsp
  have hn : g2.NUM_PILLS = g.NUM_PILLS := sp.2.2.2.2.2.1
  have hm : g2.maze_completed = FALSE := sp.2.2.2.2.2.2.2.2.trans hc
  have hcount : count_active_pills g = 0 ↔ count_active_pills g2 = 0 := by
    rw [count_active_pills_zero, count_active_pills_zero, hn]
    constructor
    · intro a i hi; rw [(p i).1]; exact a i hi
    · intro a i hi; rw [← (p i).1]; exact a i hi
  split at h
  · exact absurd h (by simp)
  · rename_i g3 ap3 rs3 hl
    obtain ⟨-, r2, r3, r4⟩ := handle_pills_loop_count _ g2 _ rs g3 ap3 rs3
      (fun i hi => (mem_range_toNat _ _).1 hi) (count_active_pills_nonneg g) hcount hl
    have hm3 : g3.maze_completed = FALSE := r4.trans hm
    have hz := count_active_pills_zero g3
    rw [r3, hn] at hz
    by_cases ha : ap3 = 0
    · rw [if_pos ⟨ha, hm3⟩] at h
      simp only [Option.some.injEq, Prod.mk.injEq] at h
      rw [← h.1]
      refine ⟨⟨fun _ => hz.1 (r2.1 ha), fun _ => rfl⟩, fun _ => rfl, fun x => absurd rfl x⟩
    · rw [if_neg (fun x => ha x.1)] at h
      simp only [Option.some.injEq, Prod.mk.injEq] at h
      rw [← h.1]
      have hne : g3.maze_completed ≠ TRUE := by rw [hm3]; decide
      refine ⟨⟨fun x => absurd x hne, fun x => absurd (r2.2 (hz.2 x)) ha⟩,
        fun x => absurd x hne, fun _ => hm3⟩

theorem demo_last_after_eq : handle_pills demo_last [] = some (demo_last_after, []) := by
  decide

theorem level_completion_witness :
    demo_last_after.maze_completed = TRUE ∧ demo_last_after.maze_completed_animations = 75 ∧
    (pill_at demo_last_after 0).status = 0 ∧ (pill_at demo_last_after 1).status = 0 :=
  have w := level_completion demo_last [] demo_last_after [] (by decide) demo_last_after_eq
  have t : demo_last_after.maze_completed = TRUE := by decide
  ⟨t, w.2.1 t, w.1.1 t 0 (by decide), w.1.1 t 1 (by decide)⟩

/-! ## Inactive pills stay inactive -/

theorem handle_pills_loop_inactive (l : List Nat) : ∀ (g : Game) (ap : Int) (rs : List Nat)
    (g3 : Game) (ap3 : Int) (rs3 : List Nat),
    handle_pills_loop l g ap rs = some (g3, ap3, rs3) →
    ∀ j, (pill_at g j).status = 0 → (pill_at g3 j).status = 0 := by
  induction l with
  | nil =>
    intro g ap rs g3 ap3 rs3 h j hj
    simp only [handle_pills_loop, Option.some.injEq, Prod.mk.injEq] at h
    rw [← h.1]; exact hj
  | cons i is ih =>
    intro g ap rs g3 ap3 rs3 h j hj
    rw [handle_pills_loop] at h
    by_cases hc : g.maze_completed = FALSE
    swap
    · rw [if_neg hc] at h
      simp only [Option.some.injEq, Prod.mk.injEq] at h
      rw [← h.1]; exact hj
    rw [if_pos hc] at h
    split at h
    · exact absurd h (by simp)
    · rename_i g1 ap1 rs1 hb
      obtain ⟨s1, s2⟩ := handle_pills_body_spec g i ap rs g1 ap1 rs1 hb
      apply ih g1 ap1 rs1 g3 ap3 rs3 h j
      by_cases ht : (pill_at g i).status ≠ 0 ∧ g.munchkin_dying = FALSE ∧
          check_pill_eaten g i = TRUE
      · rw [s1 ht, (eat_pill_spec g i).2.1 j]
        by_cases hji : j = i
        · rw [if_pos hji]
        · rw [if_neg hji]; exact hj
      · obtain ⟨-, q1, q2, -⟩ := s2 ht
        by_cases hji : j = i
        · rw [hji, q2, ← hji]; exact hj
        · rw [q1 j hji]; exact hj

theorem handle_pills_loop_untouched (l : List Nat) : ∀ (g : Game) (ap : Int) (rs : List Nat)
    (g3 : Game) (ap3 : Int) (rs3 : List Nat), l.Nodup →
    (∀ j, j ∈ l → ¬ pill_touched g j) →
    handle_pills_loop l g ap rs = some (g3, ap3, rs3) →
    ∃ ps, g3 = { g with pills := ps } := by
  induction l with
  | nil =>
    intro g ap rs g3 ap3 rs3 _ _ h
    simp only [handle_pills_loop, Option.some.injEq, Prod.mk.injEq] at h
    exact ⟨g.pills, h.1.symm⟩
  | cons i is ih =>
    intro g ap rs g3 ap3 rs3 hnd hu h
    rw [List.nodup_cons] at hnd
    obtain ⟨hi, hnd⟩ := hnd
    rw [handle_pills_loop] at h
    by_cases hc : g.maze_completed = FALSE
    swap
    · rw [if_neg hc] at h
      simp only [Option.some.injEq, Prod.mk.injEq] at h
      exact ⟨g.pills, h.1.symm⟩
    rw [if_pos hc] at h
    split at h
    · exact absurd h (by simp)
    · rename_i g1 ap1 rs1 hb
      obtain ⟨-, s2⟩ := handle_pills_body_spec g i ap rs g1 ap1 rs1 hb
      have ht : ¬ ((pill_at g i).status ≠ 0 ∧ g.munchkin_dying = FALSE ∧
          check_pill_eaten g i = TRUE) :=
        fun x => hu i (List.mem_cons_self i is) ⟨x.1, x.2.2⟩
      obtain ⟨⟨ps, e⟩, q1, -, -⟩ := s2 ht
      have sp : same_play g g1 := by
        rw [e]; exact ⟨rfl, rfl, rfl, rfl, rfl, rfl, rfl, rfl, rfl⟩
      obtain ⟨ps3, e3⟩ := ih g1 ap1 rs1 g3 ap3 rs3 hnd (fun j hj => by
        have hne : j ≠ i := fun x => hi (x ▸ hj)
        rw [(pill_value_congr g g1 j sp (q1 j hne)).2]
        exact hu j (List.mem_cons_of_mem i hj)) h
      exact ⟨ps3, by rw [e3, e]⟩

/-- A `handle_pills` call never changes `NUM_PILLS`. -/
theorem handle_pills_num_pills (g : Game) (rs : List Nat) (g1 : Game) (rs1 : List Nat)
    (h : handle_pills g rs = some (g1, rs1)) : g1.NUM_PILLS = g.NUM_PILLS := by
  unfold handle_pills at h
  simp only at h
  have hsp := handle_pills_speedups g (count_active_pills g)
  generalize (if count_active_pills g = 1 then speed_up_last_pill
      (if count_active_pills g ≥ 2 ∧ count_active_pills g < c_div g.NUM_PILLS 2
        then speed_up_pills g else g)
    else (if count_active_pills g ≥ 2 ∧ count_active_pills g < c_div g.NUM_PILLS 2
        then speed_up_pills g else g)) = g2 at h hsp
  obtain ⟨sp, -⟩ := only_pill_speeds_play g g2 hsp
  obtain ⟨-, p⟩ := hsp
  have hn : g2.NUM_PILLS = g.NUM_PILLS := sp.2.2.2.2.2.1
  have hcount : count_active_pills g = 0 ↔ count_active_pills g2 = 0 := by
    rw [count_active_pills_zero, count_active_pills_zero, hn]
    constructor
    · intro a i hi; rw [(p i).1]; exact a i hi
    · intro a i hi; rw [← (p i).1]; exact a i hi
  split at h
  · exact absurd h (by simp)
  · rename_i g3 ap3 rs3 hl
    obtain ⟨-, -, r3, -⟩ := handle_pills_loop_count _ g2 _ rs g3 ap3 rs3
      (fun i hi => (mem_range_toNat _ _).1 hi) (count_active_pills_nonneg g) hcount hl
    have : g1.NUM_PILLS = g3.NUM_PILLS := by
      split_ifs at h <;> simp only [Option.some.injEq, Prod.mk.injEq] at h <;> rw [← h.1]
    rw [this, r3, hn]

theorem handle_pills_inactive (g : Game) (rs : List Nat) (g1 : Game) (rs1 : List Nat)
    (h : handle_pills g rs = some (g1, rs1)) :
    ∀ i, (pill_at g i).status = 0 → (pill_at g1 i).status = 0 := by
  unfold handle_pills at h
  simp only at h
  have hsp := handle_pills_speedups g (count_active_pills g)
  generalize (if count_active_pills g = 1 then speed_up_last_pill
      (if count_active_pills g ≥ 2 ∧ count_active_pills g < c_div g.NUM_PILLS 2
        then speed_up_pills g else g)
    else (if count_active_pills g ≥ 2 ∧ count_active_pills g < c_div g.NUM_PILLS 2
        then speed_up_pills g else g)) = g2 at h hsp
  obtain ⟨-, p⟩ := hsp
  split at h
  · exact absurd h (by simp)
  · rename_i g3 ap3 rs3 hl
    intro i hi
    have k := handle_pills_loop_inactive _ g2 _ rs g3 ap3 rs3 hl i (by rw [(p i).1]; exact hi)
    have : pill_at g1 i = pill_at g3 i := by
      split_ifs at h <;> simp only [Option.some.injEq, Prod.mk.injEq] at h <;> rw [← h.1] <;> rfl
    rw [this]; exact k

theorem handle_pills_untouched (g : Game) (rs : List Nat) (g1 : Game) (rs1 : List Nat)
    (h : handle_pills g rs = some (g1, rs1))
    (hu : ∀ i : Nat, (i : Int) < g.NUM_PILLS → check_pill_eaten g i = TRUE →
      (pill_at g i).status = 0) :
    g1.score = g.score ∧ g1.high_score = g.high_score ∧
    g1.high_score_broken = g.high_score_broken := by
  unfold handle_pills at h
  simp only at h
  have hsp := handle_pills_speedups g (count_active_pills g)
  generalize (if count_active_pills g = 1 then speed_up_last_pill
      (if count_active_pills g ≥ 2 ∧ count_active_pills g < c_div g.NUM_PILLS 2
        then speed_up_pills g else g)
    else (if count_active_pills g ≥ 2 ∧ count_active_pills g < c_div g.NUM_PILLS 2
        then speed_up_pills g else g)) = g2 at h hsp
  obtain ⟨sp, q1, q2, q3, -, -, q6⟩ := only_pill_speeds_play g g2 hsp
  have hn : g2.NUM_PILLS = g.NUM_PILLS := sp.2.2.2.2.2.1
  split at h
  · exact absurd h (by simp)
  · rename_i g3 ap3 rs3 hl
    obtain ⟨ps, e⟩ := handle_pills_loop_untouched _ g2 _ rs g3 ap3 rs3 (List.nodup_range _)
      (fun j hj => by
        rw [(q6 j).2]
        intro ht
        exact ht.1 (hu j (by rw [← hn]; exact (mem_range_toNat _ _).1 hj) ht.2)) hl
    have hfin : g1.score = g3.score ∧ g1.high_score = g3.high_score ∧
        g1.high_score_broken = g3.high_score_broken := by
      split_ifs at h <;> simp only [Option.some.injEq, Prod.mk.injEq] at h <;> rw [← h.1] <;>
        exact ⟨rfl, rfl, rfl⟩
    have e3 : g3.score = g2.score ∧ g3.high_score = g2.high_score ∧
        g3.high_score_broken = g2.high_score_broken := by
      rw [e]; exact ⟨rfl, rfl, rfl⟩
    exact ⟨hfin.1.trans (e3.1.trans q1), hfin.2.1.trans (e3.2.1.trans q2),
      hfin.2.2.trans (e3.2.2.trans q3)⟩

/-- C12. Idempotent consumption: `handle_pills` never takes a pill from status 0 to another
status; if every pill `0..NUM_PILLS-1` that overlaps the player has status 0 the call leaves
`score` and `high_score` unchanged; and in a second call after a first one (made with the
maze not completed and the player alive) every pill eaten in the first call still has
status 0, and if the pills that overlap the player at the second call are all ones eaten in
the first, the second call leaves `score` and `high_score` unchanged. -/
theorem idempotent_consumption (g : Game) (rs : List Nat) (g1 : Game) (rs1 : List Nat)
    (h : handle_pills g rs = some (g1, rs1)) :
    (∀ i : Nat, (pill_at g i).status = 0 → (pill_at g1 i).status = 0) ∧
    ((∀ i : Nat, (i : Int) < g.NUM_PILLS → check_pill_eaten g i = TRUE →
        (pill_at g i).status = 0) →
      g1.score = g.score ∧ g1.high_score = g.high_score) ∧
    (g.maze_completed = FALSE → g.munchkin_dying = FALSE →
      ∀ (rs2 : List Nat) (g2 : Game) (rs3 : List Nat),
      handle_pills g1 rs2 = some (g2, rs3) →
      (∀ i : Nat, (i : Int) < g.NUM_PILLS → pill_touched g i →
        (pill_at g1 i).status = 0 ∧ (pill_at g2 i).status = 0) ∧
      ((∀ i : Nat, (i : Int) < g.NUM_PILLS → check_pill_eaten g1 i = TRUE →
          pill_touched g i) →
        g2.score = g1.score ∧ g2.high_score = g1.high_score)) := by
  refine ⟨handle_pills_inactive g rs g1 rs1 h, fun hu => ?_, ?_⟩
  · obtain ⟨a, b, -⟩ := handle_pills_untouched g rs g1 rs1 h hu
    exact ⟨a, b⟩
  · intro hc hd rs2 g2 rs3 h2
    have hn := handle_pills_num_pills g rs g1 rs1 h
    have eaten : ∀ i : Nat, (i : Int) < g.NUM_PILLS → pill_touched g i →
        (pill_at g1 i).status = 0 := by
      have key : ∀ (g : Game) (rs : List Nat) (g1 : Game) (rs1 : List Nat),
          g.maze_completed = FALSE → g.munchkin_dying = FALSE →
          handle_pills g rs = some (g1, rs1) →
          ∀ i : Nat, (i : Int) < g.NUM_PILLS → pill_touched g i →
            (pill_at g1 i).status = 0 := by
        intro g rs g1 rs1 hc hd h
        unfold handle_pills at h
        simp only at h
        have hsp := handle_pills_speedups g (count_active_pills g)
        generalize (if count_active_pills g = 1 then speed_up_last_pill
            (if count_active_pills g ≥ 2 ∧ count_active_pills g < c_div g.NUM_PILLS 2
              then speed_up_pills g else g)
          else (if count_active_pills g ≥ 2 ∧ count_active_pills g < c_div g.NUM_PILLS 2
              then speed_up_pills g else g)) = g2 at h hsp
        obtain ⟨sp, -, -, -, -, -, q6⟩ := only_pill_speeds_play g g2 hsp
        have hn : g2.NUM_PILLS = g.NUM_PILLS := sp.2.2.2.2.2.1
        split at h
        · exact absurd h (by simp)
        · rename_i g3 ap3 rs3 hl
          obtain ⟨-, -, r3, -, -⟩ := handle_pills_loop_spec _ g2 _ rs g3 ap3 rs3
            (List.nodup_range _) (sp.2.2.2.2.2.2.2.1.trans hd)
            (sp.2.2.2.2.2.2.2.2.trans hc) hl
          intro i hi ht
          have : pill_at g1 i = pill_at g3 i := by
            split_ifs at h <;> simp only [Option.some.injEq, Prod.mk.injEq] at h <;>
              rw [← h.1] <;> rfl
          rw [this]
          exact r3 i ((mem_range_toNat _ _).2 (by rw [hn]; exact hi)) ((q6 i).2.2 ht)
      exact key g rs g1 rs1 hc hd h
    refine ⟨fun i hi ht => ⟨eaten i hi ht,
      handle_pills_inactive g1 rs2 g2 rs3 h2 i (eaten i hi ht)⟩, fun hall => ?_⟩
    obtain ⟨a, b, -⟩ := handle_pills_untouched g1 rs2 g2 rs3 h2
      (fun i hi he => eaten i (by rw [← hn]; exact hi) (hall i (by rw [← hn]; exact hi) he))
    exact ⟨a, b⟩

theorem demo_pills_twice_eq :
    handle_pills demo_pills_after [0, 0] = some (demo_pills_twice, [0, 0]) := by decide

theorem idempotent_consumption_witness :
    demo_pills_after.score = 3 ∧ (pill_at demo_pills_after 0).status = 0 ∧
    (pill_at demo_pills_twice 0).status = 0 ∧ demo_pills_twice.score = 3 ∧
    demo_pills_twice.high_score = demo_pills_after.high_score :=
  have w := (idempotent_consumption demo_pills [] demo_pills_after [] demo_pills_after_eq).2.2
    (by decide) (by decide) [0, 0] demo_pills_twice [0, 0] demo_pills_twice_eq
  have s := w.2 (by
    intro i hi
    have hn : demo_pills.NUM_PILLS = 2 := by decide
    rw [hn] at hi
    have hi2 : i = 0 ∨ i = 1 := by omega
    rcases hi2 with rfl | rfl <;> decide)
  ⟨by decide, (w.1 0 (by decide) (by decide)).1, (w.1 0 (by decide) (by decide)).2,
    s.1.trans (by decide), s.2⟩

/-! ## The points on the board -/

theorem sum_update (f f1 : Nat → Int) (i : Nat) (h : ∀ j, j ≠ i → f1 j = f j) :
    ∀ l : List Nat, l.Nodup →
      (l.map f1).sum = (l.map f).sum + (if i ∈ l then f1 i - f i else 0) := by
  intro l
  induction l with
  | nil => intro _; simp
  | cons k ks ih =>
    intro hnd
    rw [List.nodup_cons] at hnd
    obtain ⟨hk, hnd⟩ := hnd
    rw [List.map_cons, List.sum_cons, List.map_cons, List.sum_cons, ih hnd]
    by_cases hki : k = i
    · subst hki
      rw [if_neg hk, if_pos (List.mem_cons_self k ks)]; ring
    · rw [h k hki]
      by_cases hm : i ∈ ks
      · rw [if_pos hm, if_pos (List.mem_cons_of_mem k hm)]; ring
      · rw [if_neg hm, if_neg]
        · ring
        · intro x
          rcases List.mem_cons.1 x with e | e
          · exact hki e.symm
          · exact hm e

theorem pills_worth_congr (g g1 : Game) (hn : g1.NUM_PILLS = g.NUM_PILLS)
    (hs : ∀ j, (pill_at g1 j).status = (pill_at g j).status) :
    pills_worth g1 = pills_worth g := by
  unfold pills_worth
  rw [hn]
  congr 1
  apply List.map_congr_left
  intro j _
  rw [hs j]

theorem pill_worth_zero : pill_worth 0 = 0 := by decide

theorem eat_pill_worth (g : Game) (i : Nat) (hi : (i : Int) < g.NUM_PILLS) :
    (eat_pill g i).score + pills_worth (eat_pill g i) = g.score + pills_worth g := by
  obtain ⟨sp, a2, a3, -⟩ := eat_pill_spec g i
  have hn : (eat_pill g i).NUM_PILLS = g.NUM_PILLS := sp.2.2.2.2.2.1
  have hw : pills_worth (eat_pill g i) = pills_worth g - pill_worth (pill_at g i).status := by
    unfold pills_worth
    rw [hn, sum_update (fun j => pill_worth (pill_at g j).status)
      (fun j => pill_worth (pill_at (eat_pill g i) j).status) i
      (fun j hj => by beta_reduce; rw [a2 j, if_neg hj]) _ (List.nodup_range _),
      if_pos ((mem_range_toNat _ _).2 hi)]
    rw [a2 i, if_pos rfl]
    show _ + (pill_worth 0 - _) = _
    rw [pill_worth_zero]; ring
  rw [hw, a3]
  unfold pill_worth
  ring

theorem handle_pills_loop_worth (l : List Nat) : ∀ (g : Game) (ap : Int) (rs : List Nat)
    (g3 : Game) (ap3 : Int) (rs3 : List Nat),
    (∀ i, i ∈ l → (i : Int) < g.NUM_PILLS) →
    handle_pills_loop l g ap rs = some (g3, ap3, rs3) →
    g3.score + pills_worth g3 = g.score + pills_worth g ∧ g3.NUM_PILLS = g.NUM_PILLS := by
  induction l with
  | nil =>
    intro g ap rs g3 ap3 rs3 _ h
    simp only [handle_pills_loop, Option.some.injEq, Prod.mk.injEq] at h
    rw [← h.1]; exact ⟨rfl, rfl⟩
  | cons i is ih =>
    intro g ap rs g3 ap3 rs3 hl h
    rw [handle_pills_loop] at h
    by_cases hc : g.maze_completed = FALSE
    swap
    · rw [if_neg hc] at h
      simp only [Option.some.injEq, Prod.mk.injEq] at h
      rw [← h.1]; exact ⟨rfl, rfl⟩
    rw [if_pos hc] at h
    split at h
    · exact absurd h (by simp)
    · rename_i g1 ap1 rs1 hb
      obtain ⟨s1, s2⟩ := handle_pills_body_spec g i ap rs g1 ap1 rs1 hb
      have hi := hl i (List.mem_cons_self i is)
      have first : g1.score + pills_worth g1 = g.score + pills_worth g ∧
          g1.NUM_PILLS = g.NUM_PILLS := by
        by_cases ht : (pill_at g i).status ≠ 0 ∧ g.munchkin_dying = FALSE ∧
            check_pill_eaten g i = TRUE
        · rw [s1 ht]
          exact ⟨eat_pill_worth g i hi, (eat_pill_spec g i).1.2.2.2.2.2.1⟩
        · obtain ⟨⟨ps, e⟩, q1, q2, -⟩ := s2 ht
          have hn : g1.NUM_PILLS = g.NUM_PILLS := by rw [e]
          have hsc : g1.score = g.score := by rw [e]
          rw [hsc, pills_worth_congr g g1 hn (fun j => by
            by_cases hji : j = i
            · rw [hji]; exact q2
            · rw [q1 j hji])]
          exact ⟨rfl, hn⟩
      obtain ⟨r1, r2⟩ := ih g1 ap1 rs1 g3 ap3 rs3
        (fun j hj => by rw [first.2]; exact hl j (List.mem_cons_of_mem i hj)) h
      exact ⟨r1.trans first.1, r2.trans first.2⟩

/-- A `handle_pills` call keeps `score` plus the points still on the board constant. -/
theorem handle_pills_worth (g : Game) (rs : List Nat) (g1 : Game) (rs1 : List Nat)
    (h : handle_pills g rs = some (g1, rs1)) :
    g1.score + pills_worth g1 = g.score + pills_worth g := by
  unfold handle_pills at h
  simp only at h
  have hsp := handle_pills_speedups g (count_active_pills g)
  generalize (if count_active_pills g = 1 then speed_up_last_pill
      (if count_active_pills g ≥ 2 ∧ count_active_pills g < c_div g.NUM_PILLS 2
        then speed_up_pills g else g)
    else (if count_active_pills g ≥ 2 ∧ count_active_pills g < c_div g.NUM_PILLS 2
        then speed_up_pills g else g)) = g2 at h hsp
  obtain ⟨sp, q1, -⟩ := only_pill_speeds_play g g2 hsp
  obtain ⟨-, p⟩ := hsp
  have hn : g2.NUM_PILLS = g.NUM_PILLS := sp.2.2.2.2.2.1
  split at h
  · exact absurd h (by simp)
  · rename_i g3 ap3 rs3 hl
    obtain ⟨r1, r2⟩ := handle_pills_loop_worth _ g2 _ rs g3 ap3 rs3
      (fun i hi => (mem_range_toNat _ _).1 hi) hl
    have hfin : g1.score = g3.score ∧ pills_worth g1 = pills_worth g3 := by
      split_ifs at h <;> simp only [Option.some.injEq, Prod.mk.injEq] at h <;> rw [← h.1] <;>
        exact ⟨rfl, rfl⟩
    rw [hfin.1, hfin.2, r1, q1, pills_worth_congr g g2 hn (fun j => (p j).1)]

theorem pill_frames_worth (f : Game → Game)
    (hf : ∀ s, (f s).score = s.score ∧ (f s).NUM_PILLS = s.NUM_PILLS ∧
      ∀ j, (pill_at (f s) j).status = (pill_at s j).status) :
    ∀ (k : Nat) (g : Game) (rs : List Nat) (gk : Game) (rsk : List Nat),
    pill_frames f k g rs = some (gk, rsk) →
    gk.score + pills_worth gk = g.score + pills_worth g ∧ gk.NUM_PILLS = g.NUM_PILLS := by
  intro k
  induction k with
  | zero =>
    intro g rs gk rsk h
    simp only [pill_frames, Option.some.injEq, Prod.mk.injEq] at h
    rw [← h.1]; exact ⟨rfl, rfl⟩
  | succ k ih =>
    intro g rs gk rsk h
    rw [pill_frames] at h
    split at h
    · exact absurd h (by simp)
    · rename_i g1 rs1 h1
      obtain ⟨a, b⟩ := ih g rs g1 rs1 h1
      obtain ⟨f1, f2, f3⟩ := hf g1
      have w := handle_pills_worth (f g1) rs1 gk rsk h
      rw [f1, pills_worth_congr g1 (f g1) f2 f3] at w
      exact ⟨w.trans a, (handle_pills_num_pills (f g1) rs1 gk rsk h).trans (f2.trans b)⟩

theorem pills_worth_zero (g : Game)
    (h : ∀ i : Nat, (i : Int) < g.NUM_PILLS → (pill_at g i).status = 0) :
    pills_worth g = 0 := by
  unfold pills_worth
  have : (List.range g.NUM_PILLS.toNat).map (fun i => pill_worth (pill_at g i).status) =
      (List.range g.NUM_PILLS.toNat).map (fun _ => (0 : Int)) := by
    apply List.map_congr_left
    intro i hi
    rw [h i ((mem_range_toNat _ _).1 hi), pill_worth_zero]
  rw [this]
  simp

/-! ## The twelve pills of `setup_pills` -/

theorem setup_pill_fixed_status (g0 h : Game) (s : Nat → Int) (i : Nat) (cx cy dir st : Int)
    (hN : g0.NUM_PILLS = 12) (hi : i < 12)
    (hh : (∃ ps, h = { g0 with pills := ps }) ∧ ∀ j, (pill_at h j).status = s j) :
    (∃ ps, setup_pill_fixed h i cx cy dir st = { g0 with pills := ps }) ∧
    ∀ j, (pill_at (setup_pill_fixed h i cx cy dir st) j).status = if j = i then st else s j := by
  obtain ⟨⟨ps, e⟩, hs⟩ := hh
  have hn : h.NUM_PILLS = 12 := by rw [e]; exact hN
  refine ⟨setup_pill_fixed_trans g0 h ⟨ps, e⟩ i cx cy dir st, fun j => ?_⟩
  unfold setup_pill_fixed
  rw [if_pos (by rw [hn]; omega), pill_at_pill_put]
  by_cases hj : j = i
  · rw [if_pos hj, if_pos hj]
  · rw [if_neg hj, if_neg hj]; exact hs j

theorem pill_fold_status (u : pill_type → pill_type) (hu : ∀ p, (u p).status = p.status)
    (l : List Nat) : ∀ g : Game,
    (∃ ps, l.foldl (fun h i => pill_put h i (u (pill_at h i))) g = { g with pills := ps }) ∧
    ∀ j, (pill_at (l.foldl (fun h i => pill_put h i (u (pill_at h i))) g) j).status
      = (pill_at g j).status := by
  induction l with
  | nil => intro g; exact ⟨⟨g.pills, rfl⟩, fun _ => rfl⟩
  | cons i is ih =>
    intro g
    rw [List.foldl_cons]
    obtain ⟨⟨ps, e⟩, hs⟩ := ih (pill_put g i (u (pill_at g i)))
    refine ⟨⟨ps, by rw [e]; rfl⟩, fun j => ?_⟩
    rw [hs j, pill_at_pill_put]
    by_cases hj : j = i
    · rw [if_pos hj, hj, hu]
    · rw [if_neg hj]

theorem speed_fold_status (l : List Nat) : ∀ g : Game,
    (∃ ps, l.foldl (fun h i => pill_put h i { pill_at h i with speed := 1 }) g
      = { g with pills := ps }) ∧
    ∀ j, (pill_at (l.foldl (fun h i => pill_put h i { pill_at h i with speed := 1 }) g) j).status
      = (pill_at g j).status := by
  induction l with
  | nil => intro g; exact ⟨⟨g.pills, rfl⟩, fun _ => rfl⟩
  | cons i is ih =>
    intro g
    rw [List.foldl_cons]
    obtain ⟨⟨ps, e⟩, hs⟩ := ih (pill_put g i { pill_at g i with speed := 1 })
    refine ⟨⟨ps, by rw [e]; rfl⟩, fun j => ?_⟩
    rw [hs j, pill_at_pill_put]
    by_cases hj : j = i
    · rw [if_pos hj, hj]
    · rw [if_neg hj]

theorem setup_pills_twelve (g : Game) (rs : List Nat) (hN : g.NUM_PILLS = 12) :
    ∃ g1, setup_pills g rs = some (g1, rs) ∧ g1.NUM_PILLS = 12 ∧ g1.score = g.score ∧
      ∀ j, (pill_at g1 j).status =
        if j = 11 then 2 else if j = 10 then 1 else if j = 9 then 1 else if j = 8 then 1
        else if j = 7 then 2 else if j = 6 then 1 else if j = 5 then 1 else if j = 4 then 2
        else if j = 3 then 1 else if j = 2 then 1 else if j = 1 then 1 else if j = 0 then 2
        else (pill_at g j).status := by
  have h0 := setup_pill_fixed_status g g _ 0 0 0 4 2 hN (by decide)
    ⟨⟨g.pills, rfl⟩, fun _ => rfl⟩
  have h1 := setup_pill_fixed_status g _ _ 1 1 0 1 1 hN (by decide) h0
  have h2 := setup_pill_fixed_status g _ _ 2 0 1 2 1 hN (by decide) h1
  have h3 := setup_pill_fixed_status g _ _ 3 7 0 1 1 hN (by decide) h2
  have h4 := setup_pill_fixed_status g _ _ 4 8 0 4 2 hN (by decide) h3
  have h5 := setup_pill_fixed_status g _ _ 5 8 1 1 1 hN (by decide) h4
  have h6 := setup_pill_fixed_status g _ _ 6 0 5 2 1 hN (by decide) h5
  have h7 := setup_pill_fixed_status g _ _ 7 0 6 3 2 hN (by decide) h6
  have h8 := setup_pill_fixed_status g _ _ 8 1 6 2 1 hN (by decide) h7
  have h9 := setup_pill_fixed_status g _ _ 9 8 5 1 1 hN (by decide) h8
  have h10 := setup_pill_fixed_status g _ _ 10 7 6 1 1 hN (by decide) h9
  have h11 := setup_pill_fixed_status g _ _ 11 8 6 3 2 hN (by decide) h10
  clear h0 h1 h2 h3 h4 h5 h6 h7 h8 h9 h10
  unfold setup_pills
  simp only
  generalize setup_pill_fixed (setup_pill_fixed (setup_pill_fixed (setup_pill_fixed
    (setup_pill_fixed (setup_pill_fixed (setup_pill_fixed (setup_pill_fixed
    (setup_pill_fixed (setup_pill_fixed (setup_pill_fixed (setup_pill_fixed g
      0 0 0 4 2) 1 1 0 1 1) 2 0 1 2 1) 3 7 0 1 1) 4 8 0 4 2) 5 8 1 1 1) 6 0 5 2 1)
      7 0 6 3 2) 8 1 6 2 1) 9 8 5 1 1) 10 7 6 1 1) 11 8 6 3 2 = g12 at h11 ⊢
  obtain ⟨⟨ps, e⟩, hs⟩ := h11
  have hn : g12.NUM_PILLS = 12 := by rw [e]; exact hN
  rw [if_neg (by rw [hn]; decide)]
  simp only
  obtain ⟨⟨ps2, e2⟩, hs2⟩ := speed_fold_status (List.range g12.NUM_PILLS.toNat) g12
  refine ⟨_, rfl, ?_, ?_, fun j => ?_⟩
  · rw [e2]; exact hn
  · rw [e2, e]
  · exact (hs2 j).trans (hs j)

theorem setup_pills_worth (g : Game) (rs : List Nat) (g1 : Game) (rs1 : List Nat)
    (hN : g.NUM_PILLS = 12) (h : setup_pills g rs = some (g1, rs1)) :
    pills_worth g1 = 20 := by
  obtain ⟨g2, e, hn, -, hs⟩ := setup_pills_twelve g rs hN
  rw [e] at h
  simp only [Option.some.injEq, Prod.mk.injEq] at h
  rw [← h.1]
  unfold pills_worth
  rw [hn]
  have hr : List.range (12 : Int).toNat = [0, 1, 2, 3, 4, 5, 6, 7, 8, 9, 10, 11] := by decide
  rw [hr]
  simp only [List.map_cons, List.map_nil, List.sum_cons, List.sum_nil]
  rw [hs 0, hs 1, hs 2, hs 3, hs 4, hs 5, hs 6, hs 7, hs 8, hs 9, hs 10, hs 11]
  simp [pill_worth]

/-- C14. Default layout value: with `NUM_PILLS = 12`, `setup_pills` returns without a draw
and leaves pills 0, 4, 7 and 11 with status 2 and the other eight of pills `0..11` with
status 1; and when play starts from such a state with score 0 and proceeds through any
number of frames whose rest `f` leaves the score, `NUM_PILLS` and the pill statuses alone
(no ghost is eaten), a state in which all twelve pills have status 0 has score 20. -/
theorem default_layout_value :
    (∀ (g : Game) (rs : List Nat), g.NUM_PILLS = 12 →
      ∃ g1, setup_pills g rs = some (g1, rs) ∧
        (∀ j : Nat, j = 0 ∨ j = 4 ∨ j = 7 ∨ j = 11 → (pill_at g1 j).status = 2) ∧
        (∀ j : Nat, j = 1 ∨ j = 2 ∨ j = 3 ∨ j = 5 ∨ j = 6 ∨ j = 8 ∨ j = 9 ∨ j = 10 →
          (pill_at g1 j).status = 1)) ∧
    (∀ (f : Game → Game),
      (∀ s, (f s).score = s.score ∧ (f s).NUM_PILLS = s.NUM_PILLS ∧
        ∀ j, (pill_at (f s) j).status = (pill_at s j).status) →
      ∀ (g0 : Game) (rs0 : List Nat) (g : Game) (rs : List Nat) (k : Nat) (gk : Game)
        (rsk : List Nat),
      g0.NUM_PILLS = 12 → g0.score = 0 → setup_pills g0 rs0 = some (g, rs) →
      pill_frames f k g rs = some (gk, rsk) →
      (∀ i : Nat, i < 12 → (pill_at gk i).status = 0) → gk.score = 20) := by
  constructor
  · intro g rs hN
    obtain ⟨g1, e, -, -, hs⟩ := setup_pills_twelve g rs hN
    refine ⟨g1, e, fun j hj => ?_, fun j hj => ?_⟩
    · rw [hs j]
      rcases hj with h | h | h | h <;> rw [h] <;> simp
    · rw [hs j]
      rcases hj with h | h | h | h | h | h | h | h <;> rw [h] <;> simp
  · intro f hf g0 rs0 g rs k gk rsk hN h0 hs hk hall
    obtain ⟨g2, e, hn, hsc, -⟩ := setup_pills_twelve g0 rs0 hN
    have hg : g = g2 := by
      rw [e] at hs
      simp only [Option.some.injEq, Prod.mk.injEq] at hs
      exact hs.1.symm
    have w := setup_pills_worth g0 rs0 g rs hN hs
    obtain ⟨a, b⟩ := pill_frames_worth f hf k g rs gk rsk hk
    have z : pills_worth gk = 0 := by
      apply pills_worth_zero
      intro i hi
      apply hall
      rw [b, hg, hn] at hi
      omega
    rw [z, w, hg, hsc, h0] at a
    omega

theorem demo_gather_frame (s : Game) :
    (demo_gather s).score = s.score ∧ (demo_gather s).NUM_PILLS = s.NUM_PILLS ∧
    ∀ j, (pill_at (demo_gather s) j).status = (pill_at s j).status := by
  obtain ⟨⟨ps, e⟩, hs⟩ := pill_fold_status (fun p => { p with x := 488, y := 352 })
    (fun _ => rfl) (List.range 12) s
  have e2 : demo_gather s = { s with pills := ps } := e
  refine ⟨by rw [e2], by rw [e2], hs⟩

theorem demo_twelve_set_eq : setup_pills demo_twelve [] = some (demo_twelve_set, []) := by
  decide

theorem demo_twelve_after_eq :
    pill_frames demo_gather 1 demo_twelve_set [] = some (demo_twelve_after, []) := by
  decide

theorem default_layout_value_witness :
    (∃ g1, setup_pills demo_twelve [] = some (g1, []) ∧ (pill_at g1 0).status = 2 ∧
      (pill_at g1 1).status = 1) ∧
    demo_twelve_after.maze_completed = TRUE ∧ demo_twelve_after.score = 20 :=
  have a := default_layout_value.1 demo_twelve [] (by decide)
  have b := default_layout_value.2 demo_gather demo_gather_frame demo_twelve []
    demo_twelve_set [] 1 demo_twelve_after [] (by decide) (by decide) demo_twelve_set_eq
    demo_twelve_after_eq (by
      intro i hi
      interval_cases i <;> decide)
  ⟨⟨a.choose, a.choose_spec.1, a.choose_spec.2.1 0 (Or.inl rfl),
    a.choose_spec.2.2 1 (Or.inl rfl)⟩, by decide, b⟩

/-! ## Pill speeds -/

theorem pill_in_middle_congr (g h : Game) (j : Nat) (hp : only_pill_speeds g h) :
    pill_in_middle h j ↔ pill_in_middle g j := by
  obtain ⟨⟨ps, l, e⟩, p⟩ := hp
  obtain ⟨-, a2, a3, -⟩ := p j
  have b : h.screen_offset_x = g.screen_offset_x ∧ h.screen_offset_y = g.screen_offset_y ∧
      h.factor = g.factor ∧ h.MAZE_OFFSET_X = g.MAZE_OFFSET_X ∧
      h.MAZE_OFFSET_Y = g.MAZE_OFFSET_Y := by
    rw [e]; exact ⟨rfl, rfl, rfl, rfl, rfl⟩
  obtain ⟨b1, b2, b3, b4, b5⟩ := b
  unfold pill_in_middle
  simp only
  rw [a2, a3, b1, b2, b3, b4, b5]

theorem speed_up_pills_speed (l : List Nat) : ∀ g : Game, l.Nodup →
    only_pill_speeds g (l.foldl (fun h i =>
      if (pill_at h i).status ≠ 0 then
        if pill_in_middle h i then pill_put h i { pill_at h i with speed := 2 } else h
      else h) g) ∧
    ∀ j, (pill_at (l.foldl (fun h i =>
      if (pill_at h i).status ≠ 0 then
        if pill_in_middle h i then pill_put h i { pill_at h i with speed := 2 } else h
      else h) g) j).speed =
      if j ∈ l ∧ (pill_at g j).status ≠ 0 ∧ pill_in_middle g j then 2 else (pill_at g j).speed := by
  induction l with
  | nil =>
    intro g _
    refine ⟨only_pill_speeds_refl g, fun j => ?_⟩
    rw [if_neg (fun x => List.not_mem_nil j x.1)]; rfl
  | cons i is ih =>
    intro g hnd
    rw [List.nodup_cons] at hnd
    obtain ⟨hi, hnd⟩ := hnd
    rw [List.foldl_cons]
    by_cases hact : (pill_at g i).status ≠ 0 ∧ pill_in_middle g i
    · have e : (if (pill_at g i).status ≠ 0 then
          if pill_in_middle g i then pill_put g i { pill_at g i with speed := 2 } else g
          else g) = pill_put g i { pill_at g i with speed := 2 } := by
        rw [if_pos hact.1, if_pos hact.2]
      rw [e]
      have hp := only_pill_speeds_put g i 2
      obtain ⟨r1, r2⟩ := ih (pill_put g i { pill_at g i with speed := 2 }) hnd
      refine ⟨only_pill_speeds_trans _ _ _ hp r1, fun j => ?_⟩
      have cg : ((pill_at (pill_put g i { pill_at g i with speed := 2 }) j).status ≠ 0 ∧
          pill_in_middle (pill_put g i { pill_at g i with speed := 2 }) j) ↔
          ((pill_at g j).status ≠ 0 ∧ pill_in_middle g j) := by
        rw [(hp.2 j).1, pill_in_middle_congr g _ j hp]
      have sp : (pill_at (pill_put g i { pill_at g i with speed := 2 }) j).speed =
          if j = i then 2 else (pill_at g j).speed := by
        rw [pill_at_pill_put]
        by_cases hji : j = i
        · rw [if_pos hji, if_pos hji]
        · rw [if_neg hji, if_neg hji]
      rw [r2 j]
      by_cases hj : j ∈ is
      · have hne : j ≠ i := fun x => hi (x ▸ hj)
        by_cases hc : (pill_at g j).status ≠ 0 ∧ pill_in_middle g j
        · rw [if_pos ⟨hj, cg.2 hc⟩, if_pos ⟨List.mem_cons_of_mem i hj, hc⟩]
        · rw [if_neg (fun x => hc (cg.1 x.2)), if_neg (fun x => hc x.2), sp, if_neg hne]
      · rw [if_neg (fun x => hj x.1), sp]
        by_cases hji : j = i
        · rw [if_pos hji, if_pos ⟨hji ▸ List.mem_cons_self i is, hji ▸ hact⟩]
        · rw [if_neg hji, if_neg]
          rintro ⟨hm, -⟩
          rcases List.mem_cons.1 hm with x | x
          · exact hji x
          · exact hj x
    · have e : (if (pill_at g i).status ≠ 0 then
          if pill_in_middle g i then pill_put g i { pill_at g i with speed := 2 } else g
          else g) = g := by
        by_cases h1 : (pill_at g i).status ≠ 0
        · rw [if_pos h1, if_neg (fun x => hact ⟨h1, x⟩)]
        · rw [if_neg h1]
      rw [e]
      obtain ⟨r1, r2⟩ := ih g hnd
      refine ⟨r1, fun j => ?_⟩
      rw [r2 j]
      by_cases hc : j ∈ is ∧ (pill_at g j).status ≠ 0 ∧ pill_in_middle g j
      · rw [if_pos hc, if_pos ⟨List.mem_cons_of_mem i hc.1, hc.2⟩]
      · rw [if_neg hc, if_neg]
        rintro ⟨hm, hs⟩
        rcases List.mem_cons.1 hm with x | x
        · rw [x] at hs; exact hact hs
        · exact hc ⟨x, hs⟩

theorem speed_up_pills_at (g : Game) (j : Nat) :
    (pill_at (speed_up_pills g) j).speed =
      if (j : Int) < g.NUM_PILLS ∧ (pill_at g j).status ≠ 0 ∧ pill_in_middle g j then 2
      else (pill_at g j).speed := by
  unfold speed_up_pills
  rw [(speed_up_pills_speed _ g (List.nodup_range _)).2 j]
  by_cases hc : (j : Int) < g.NUM_PILLS ∧ (pill_at g j).status ≠ 0 ∧ pill_in_middle g j
  · rw [if_pos hc, if_pos ⟨(mem_range_toNat _ _).2 hc.1, hc.2⟩]
  · rw [if_neg hc, if_neg (fun x => hc ⟨(mem_range_toNat _ _).1 x.1, x.2⟩)]

/-- The second speed-up when pill `i` is the only pill of the list that is active. -/
theorem speed_up_last_fold (l : List Nat) (i : Nat) : ∀ g : Game, l.Nodup →
    (∀ j, j ∈ l → j ≠ i → (pill_at g j).status = 0) →
    l.foldl (fun h i =>
      if (pill_at h i).status ≠ 0 then
        if h.last_pill_speed_increased = 0 then
          if pill_in_middle h i then
            let h1 := pill_put h i { pill_at h i with speed := h.factor }
            { h1 with last_pill_speed_increased := 1 }
          else h
        else h
      else h) g =
    if i ∈ l ∧ (pill_at g i).status ≠ 0 ∧ g.last_pill_speed_increased = 0 ∧ pill_in_middle g i
    then { pill_put g i { pill_at g i with speed := g.factor } with
           last_pill_speed_increased := 1 }
    else g := by
  induction l with
  | nil =>
    intro g _ _
    rw [if_neg (fun x => List.not_mem_nil i x.1)]; rfl
  | cons k ks ih =>
    intro g hnd hz
    rw [List.nodup_cons] at hnd
    obtain ⟨hk, hnd⟩ := hnd
    rw [List.foldl_cons]
    by_cases hki : k = i
    · subst hki
      have hrest : ∀ s : Game, (∀ j, j ≠ k → (pill_at s j).status = (pill_at g j).status) →
          ks.foldl (fun h i =>
            if (pill_at h i).status ≠ 0 then
              if h.last_pill_speed_increased = 0 then
                if pill_in_middle h i then
                  let h1 := pill_put h i { pill_at h i with speed := h.factor }
                  { h1 with last_pill_speed_increased := 1 }
                else h
              else h
            else h) s = s := by
        intro s hs
        rw [ih s hnd (fun j hj hne => by
          rw [hs j hne]; exact hz j (List.mem_cons_of_mem k hj) hne)]
        rw [if_neg (fun x => hk x.1)]
      by_cases hc : (pill_at g k).status ≠ 0 ∧ g.last_pill_speed_increased = 0 ∧
          pill_in_middle g k
      · rw [if_pos hc.1, if_pos hc.2.1, if_pos hc.2.2, if_pos ⟨List.mem_cons_self k ks, hc⟩]
        apply hrest
        intro j hj
        show (pill_at (pill_put g k { pill_at g k with speed := g.factor }) j).status = _
        rw [pill_at_pill_put, if_neg hj]
      · have e : (if (pill_at g k).status ≠ 0 then
            if g.last_pill_speed_increased = 0 then
              if pill_in_middle g k then
                let h1 := pill_put g k { pill_at g k with speed := g.factor }
                { h1 with last_pill_speed_increased := 1 }
              else g
            else g
          else g) = g := by
          by_cases h1 : (pill_at g k).status ≠ 0
          · rw [if_pos h1]
            by_cases h2 : g.last_pill_speed_increased = 0
            · rw [if_pos h2, if_neg (fun x => hc ⟨h1, h2, x⟩)]
            · rw [if_neg h2]
          · rw [if_neg h1]
        rw [e, hrest g (fun _ _ => rfl), if_neg (fun x => hc x.2)]
    · have h0 : (pill_at g k).status = 0 := hz k (List.mem_cons_self k ks) hki
      rw [if_neg (by rw [h0]; exact fun x => x rfl)]
      rw [ih g hnd (fun j hj hne => hz j (List.mem_cons_of_mem k hj) hne)]
      by_cases hc : i ∈ ks ∧ (pill_at g i).status ≠ 0 ∧ g.last_pill_speed_increased = 0 ∧
          pill_in_middle g i
      · rw [if_pos hc, if_pos ⟨List.mem_cons_of_mem k hc.1, hc.2⟩]
      · rw [if_neg hc, if_neg]
        rintro ⟨hm, hs⟩
        rcases List.mem_cons.1 hm with x | x
        · exact hki x.symm
        · exact hc ⟨x, hs⟩

/-! ## What the main loop of `handle_pills` writes -/

theorem pill_loop_writes_refl (g : Game) : pill_loop_writes g g :=
  ⟨g.pills, g.ghosts, g.powerpill_active_timer, g.score, g.high_score, g.high_score_broken, rfl⟩

theorem pill_loop_writes_trans (a b c : Game) (h1 : pill_loop_writes a b)
    (h2 : pill_loop_writes b c) : pill_loop_writes a c := by
  obtain ⟨ps, gs, t, sc, hs, hb, e1⟩ := h1
  obtain ⟨ps2, gs2, t2, sc2, hs2, hb2, e2⟩ := h2
  exact ⟨ps2, gs2, t2, sc2, hs2, hb2, by rw [e2, e1]⟩

theorem eat_pill_writes (g : Game) (i : Nat) : pill_loop_writes g (eat_pill g i) := by
  have k1 : pill_loop_writes g (eat_normal g i) := by
    unfold eat_normal
    split_ifs
    · exact ⟨_, _, _, _, _, _, rfl⟩
    · exact pill_loop_writes_refl g
  have k2 : ∀ s : Game, pill_loop_writes s (eat_power s i) := by
    intro s
    unfold eat_power
    split_ifs
    · obtain ⟨gs, t, e⟩ := powerpill_ghosts_frame { s with score := s.score + 3 }
      rw [e]; exact ⟨_, _, _, _, _, _, rfl⟩
    · exact pill_loop_writes_refl s
  have k3 : ∀ s : Game, pill_loop_writes s (update_high_score s) := by
    intro s
    unfold update_high_score
    split_ifs
    · exact ⟨_, _, _, _, _, _, rfl⟩
    · exact pill_loop_writes_refl s
  have k4 : ∀ (s : Game) (p : pill_type), pill_loop_writes s (pill_put s i p) :=
    fun s p => ⟨_, _, _, _, _, _, rfl⟩
  unfold eat_pill
  exact pill_loop_writes_trans _ _ _ (pill_loop_writes_trans _ _ _
    (pill_loop_writes_trans _ _ _ k1 (k2 _)) (k3 _)) (k4 _ _)

theorem handle_pills_body_inactive (g : Game) (i : Nat) (ap : Int) (rs : List Nat)
    (h0 : (pill_at g i).status = 0) : handle_pills_body g i ap rs = some (g, ap, rs) := by
  unfold handle_pills_body
  rw [if_neg (fun x => x h0)]

/-- The main loop of `handle_pills`, whatever the flags: the globals it writes, the
speeds, and the pills that were inactive. -/
theorem handle_pills_loop_writes (l : List Nat) : ∀ (g : Game) (ap : Int) (rs : List Nat)
    (g3 : Game) (ap3 : Int) (rs3 : List Nat),
    handle_pills_loop l g ap rs = some (g3, ap3, rs3) →
    pill_loop_writes g g3 ∧
    (∀ j, (pill_at g3 j).speed = (pill_at g j).speed) ∧
    (∀ j, (pill_at g j).status = 0 → pill_at g3 j = pill_at g j) := by
  induction l with
  | nil =>
    intro g ap rs g3 ap3 rs3 h
    simp only [handle_pills_loop, Option.some.injEq, Prod.mk.injEq] at h
    rw [← h.1]
    exact ⟨pill_loop_writes_refl g, fun _ => rfl, fun _ _ => rfl⟩
  | cons i is ih =>
    intro g ap rs g3 ap3 rs3 h
    rw [handle_pills_loop] at h
    by_cases hc : g.maze_completed = FALSE
    swap
    · rw [if_neg hc] at h
      simp only [Option.some.injEq, Prod.mk.injEq] at h
      rw [← h.1]
      exact ⟨pill_loop_writes_refl g, fun _ => rfl, fun _ _ => rfl⟩
    rw [if_pos hc] at h
    split at h
    · exact absurd h (by simp)
    · rename_i g1 ap1 rs1 hb
      obtain ⟨s1, s2⟩ := handle_pills_body_spec g i ap rs g1 ap1 rs1 hb
      have first : pill_loop_writes g g1 ∧
          (∀ j, (pill_at g1 j).speed = (pill_at g j).speed) ∧
          (∀ j, (pill_at g j).status = 0 → pill_at g1 j = pill_at g j) := by
        by_cases ht : (pill_at g i).status ≠ 0 ∧ g.munchkin_dying = FALSE ∧
            check_pill_eaten g i = TRUE
        · rw [s1 ht]
          obtain ⟨-, a2, -⟩ := eat_pill_spec g i
          refine ⟨eat_pill_writes g i, fun j => ?_, fun j hj => ?_⟩
          · rw [a2 j]
            by_cases hji : j = i
            · rw [if_pos hji, hji]
            · rw [if_neg hji]
          · rw [a2 j, if_neg]
            intro hji
            rw [hji] at hj
            exact ht.1 hj
        · obtain ⟨⟨ps, e⟩, q1, q2, q3⟩ := s2 ht
          refine ⟨by rw [e]; exact ⟨_, _, _, _, _, _, rfl⟩, fun j => ?_, fun j hj => ?_⟩
          · by_cases hji : j = i
            · rw [hji]; exact q3
            · rw [q1 j hji]
          · by_cases hji : j = i
            · rw [hji] at hj
              rw [handle_pills_body_inactive g i ap rs hj] at hb
              simp only [Option.some.injEq, Prod.mk.injEq] at hb
              rw [← hb.1]
            · exact q1 j hji
      obtain ⟨f1, f2, f3⟩ := first
      obtain ⟨r1, r2, r3⟩ := ih g1 ap1 rs1 g3 ap3 rs3 h
      refine ⟨pill_loop_writes_trans _ _ _ f1 r1, fun j => (r2 j).trans (f2 j), fun j hj => ?_⟩
      have e1 := f3 j hj
      rw [r3 j (by rw [e1]; exact hj), e1]

/-- The three stages of a `handle_pills` call that returns: the speed-ups, the main loop,
and the completion test. -/
theorem handle_pills_parts (g : Game) (rs : List Nat) (g1 : Game) (rs1 : List Nat)
    (h : handle_pills g rs = some (g1, rs1)) :
    ∃ g2 g3 ap3,
      g2 = (if count_active_pills g = 1 then
          speed_up_last_pill (if few_pills_left g then speed_up_pills g else g)
        else (if few_pills_left g then speed_up_pills g else g)) ∧
      handle_pills_loop (List.range g2.NUM_PILLS.toNat) g2 (count_active_pills g) rs
        = some (g3, ap3, rs1) ∧
      (g1 = g3 ∨ g1 = { g3 with maze_completed := TRUE, maze_completed_animations := 75 }) := by
  unfold handle_pills at h
  simp only at h
  unfold few_pills_left
  generalize (if count_active_pills g = 1 then speed_up_last_pill
      (if count_active_pills g ≥ 2 ∧ count_active_pills g < c_div g.NUM_PILLS 2
        then speed_up_pills g else g)
    else (if count_active_pills g ≥ 2 ∧ count_active_pills g < c_div g.NUM_PILLS 2
        then speed_up_pills g else g)) = g2 at h ⊢
  split at h
  · exact absurd h (by simp)
  · rename_i g3 ap3 rs3 hl
    refine ⟨g2, g3, ap3, rfl, ?_, ?_⟩
    · split_ifs at h <;> simp only [Option.some.injEq, Prod.mk.injEq] at h <;> rw [← h.2] <;>
        exact hl
    · split_ifs at h <;> simp only [Option.some.injEq, Prod.mk.injEq] at h
      · exact Or.inr h.1.symm
      · exact Or.inl h.1.symm

theorem count_one_unique (g : Game) (h : count_active_pills g = 1) :
    ∃ i0 : Nat, (i0 : Int) < g.NUM_PILLS ∧ (pill_at g i0).status ≠ 0 ∧
      ∀ j : Nat, (j : Int) < g.NUM_PILLS → j ≠ i0 → (pill_at g j).status = 0 := by
  rw [count_active_pills_eq] at h
  have h1 : ((List.range g.NUM_PILLS.toNat).filter
      (fun i => (pill_at g i).status ≠ 0)).length = 1 := by exact_mod_cast h
  obtain ⟨i0, e⟩ := List.length_eq_one.1 h1
  have m0 : i0 ∈ (List.range g.NUM_PILLS.toNat).filter (fun i => (pill_at g i).status ≠ 0) := by
    rw [e]; exact List.mem_singleton_self i0
  rw [List.mem_filter] at m0
  refine ⟨i0, (mem_range_toNat _ _).1 m0.1, by simpa using m0.2, fun j hj hne => ?_⟩
  by_contra hs
  have mj : j ∈ (List.range g.NUM_PILLS.toNat).filter (fun i => (pill_at g i).status ≠ 0) := by
    rw [List.mem_filter]
    exact ⟨(mem_range_toNat _ _).2 hj, by simpa using hs⟩
  rw [e] at mj
  exact hne (List.mem_singleton.1 mj)

/-- The second speed-up of `handle_pills` when exactly one pill, `i0`, is active. -/
theorem speed_up_last_pill_at (g : Game) (i0 : Nat)
    (hz : ∀ j : Nat, (j : Int) < g.NUM_PILLS → j ≠ i0 → (pill_at g j).status = 0) :
    speed_up_last_pill g =
      if (i0 : Int) < g.NUM_PILLS ∧ (pill_at g i0).status ≠ 0 ∧
          g.last_pill_speed_increased = 0 ∧ pill_in_middle g i0
      then { pill_put g i0 { pill_at g i0 with speed := g.factor } with
             last_pill_speed_increased := 1 }
      else g := by
  unfold speed_up_last_pill
  rw [speed_up_last_fold _ i0 g (List.nodup_range _)
    (fun j hj hne => hz j ((mem_range_toNat _ _).1 hj) hne)]
  by_cases hc : (i0 : Int) < g.NUM_PILLS ∧ (pill_at g i0).status ≠ 0 ∧
      g.last_pill_speed_increased = 0 ∧ pill_in_middle g i0
  · rw [if_pos hc, if_pos ⟨(mem_range_toNat _ _).2 hc.1, hc.2⟩]
  · rw [if_neg hc, if_neg (fun x => hc ⟨(mem_range_toNat _ _).1 x.1, x.2⟩)]

/-- The speeds and the flag `last_pill_speed_increased` after a whole `handle_pills` call
are those after its speed-ups. -/
theorem handle_pills_speed_after (g : Game) (rs : List Nat) (g1 : Game) (rs1 : List Nat)
    (h : handle_pills g rs = some (g1, rs1)) :
    ∃ g2, g2 = (if count_active_pills g = 1 then
          speed_up_last_pill (if few_pills_left g then speed_up_pills g else g)
        else (if few_pills_left g then speed_up_pills g else g)) ∧
      (∀ j, (pill_at g1 j).speed = (pill_at g2 j).speed) ∧
      g1.last_pill_speed_increased = g2.last_pill_speed_increased := by
  obtain ⟨g2, g3, ap3, e2, hl, hfin⟩ := handle_pills_parts g rs g1 rs1 h
  obtain ⟨⟨ps, gs, t, sc, hs, hb, e3⟩, sp, -⟩ := handle_pills_loop_writes _ g2 _ rs g3 ap3 rs1 hl
  refine ⟨g2, e2, fun j => ?_, ?_⟩
  · rcases hfin with e | e <;> rw [e]
    · exact sp j
    · exact sp j
  · rcases hfin with e | e <;> rw [e, e3]

/-- The speed-up rules of `handle_pills`, with the guard of the first one as the code has
it (`few_pills_left`, an integer division). -/
theorem pill_speed_rules (g : Game) (rs : List Nat) (g1 : Game) (rs1 : List Nat)
    (h : handle_pills g rs = some (g1, rs1)) :
    (few_pills_left g → ∀ i : Nat, (i : Int) < g.NUM_PILLS → (pill_at g i).status ≠ 0 →
      pill_in_middle g i → (pill_at g1 i).speed = 2) ∧
    (count_active_pills g = 1 → ∀ i : Nat, (i : Int) < g.NUM_PILLS →
      (pill_at g i).status ≠ 0 → pill_in_middle g i → g.last_pill_speed_increased = 0 →
      (pill_at g1 i).speed = g.factor ∧ g1.last_pill_speed_increased = 1) ∧
    (∀ i : Nat,
      ¬ (few_pills_left g ∧ (i : Int) < g.NUM_PILLS ∧ (pill_at g i).status ≠ 0 ∧
        pill_in_middle g i) →
      ¬ (count_active_pills g = 1 ∧ (i : Int) < g.NUM_PILLS ∧ (pill_at g i).status ≠ 0 ∧
        pill_in_middle g i ∧ g.last_pill_speed_increased = 0) →
      (pill_at g1 i).speed = (pill_at g i).speed) := by
  obtain ⟨g2, e2, sp, la⟩ := handle_pills_speed_after g rs g1 rs1 h
  by_cases hone : count_active_pills g = 1
  · -- exactly one pill is active: only the second speed-up can act
    have hfew : ¬ few_pills_left g := by
      unfold few_pills_left; rw [hone]; exact fun x => absurd x.1 (by decide)
    rw [if_pos hone, if_neg hfew] at e2
    obtain ⟨i0, hi0, hs0, hz⟩ := count_one_unique g hone
    rw [speed_up_last_pill_at g i0 hz] at e2
    refine ⟨fun x => absurd x hfew, fun _ i hi hs hm hl => ?_, fun i _ hn => ?_⟩
    · have hii : i = i0 := by
        by_contra hne; exact hs (hz i hi hne)
      subst hii
      rw [if_pos ⟨hi, hs, hl, hm⟩] at e2
      rw [sp i, la, e2]
      refine ⟨?_, rfl⟩
      show (pill_at (pill_put g i { pill_at g i with speed := g.factor }) i).speed = _
      rw [pill_at_pill_put, if_pos rfl]
    · rw [sp i, e2]
      by_cases hc : (i0 : Int) < g.NUM_PILLS ∧ (pill_at g i0).status ≠ 0 ∧
          g.last_pill_speed_increased = 0 ∧ pill_in_middle g i0
      · rw [if_pos hc]
        show (pill_at (pill_put g i0 { pill_at g i0 with speed := g.factor }) i).speed = _
        rw [pill_at_pill_put]
        by_cases hii : i = i0
        · subst hii
          exact absurd ⟨hone, hc.1, hc.2.1, hc.2.2.2, hc.2.2.1⟩ hn
        · rw [if_neg hii]
      · rw [if_neg hc]
  · rw [if_neg hone] at e2
    by_cases hfew : few_pills_left g
    · rw [if_pos hfew] at e2
      refine ⟨fun _ i hi hs hm => ?_, fun x => absurd x hone, fun i hn _ => ?_⟩
      · rw [sp i, e2, speed_up_pills_at, if_pos ⟨hi, hs, hm⟩]
      · rw [sp i, e2, speed_up_pills_at, if_neg (fun x => hn ⟨hfew, x⟩)]
    · rw [if_neg hfew] at e2
      refine ⟨fun x => absurd x hfew, fun x => absurd x hone, fun i _ _ => ?_⟩
      rw [sp i, e2]

/-- C25, evaluated where the code departs from it: with 13 pills of which 6 are active
(fewer than half of 13), all six on a cell centre with speed 1, the guard
`active_pills < NUM_PILLS/2` is `6 < 6`, so `handle_pills` leaves the speed of pill 7
(and of the others) at 1. -/
theorem pill_speedup_odd_count :
    demo_thirteen.NUM_PILLS = 13 ∧ count_active_pills demo_thirteen = 6 ∧
    2 * count_active_pills demo_thirteen < demo_thirteen.NUM_PILLS ∧
    ¬ few_pills_left demo_thirteen ∧
    (pill_at demo_thirteen 7).status ≠ 0 ∧ pill_in_middle demo_thirteen 7 ∧
    (pill_at demo_thirteen 7).speed = 1 ∧
    handle_pills demo_thirteen [7, 7, 7, 7] = some (demo_thirteen_after, []) ∧
    (pill_at demo_thirteen_after 7).speed = 1 := by
  decide

/-! ## Pills while the player is dying or the maze is completed -/

theorem handle_pills_loop_dying (l : List Nat) : ∀ (g : Game) (ap : Int) (rs : List Nat)
    (g3 : Game) (ap3 : Int) (rs3 : List Nat), g.munchkin_dying ≠ FALSE →
    handle_pills_loop l g ap rs = some (g3, ap3, rs3) →
    (∃ ps, g3 = { g with pills := ps }) ∧
    ∀ j, (pill_at g3 j).status = (pill_at g j).status := by
  induction l with
  | nil =>
    intro g ap rs g3 ap3 rs3 _ h
    simp only [handle_pills_loop, Option.some.injEq, Prod.mk.injEq] at h
    rw [← h.1]
    exact ⟨⟨g.pills, rfl⟩, fun _ => rfl⟩
  | cons i is ih =>
    intro g ap rs g3 ap3 rs3 hd h
    rw [handle_pills_loop] at h
    by_cases hc : g.maze_completed = FALSE
    swap
    · rw [if_neg hc] at h
      simp only [Option.some.injEq, Prod.mk.injEq] at h
      rw [← h.1]
      exact ⟨⟨g.pills, rfl⟩, fun _ => rfl⟩
    rw [if_pos hc] at h
    split at h
    · exact absurd h (by simp)
    · rename_i g1 ap1 rs1 hb
      obtain ⟨-, s2⟩ := handle_pills_body_spec g i ap rs g1 ap1 rs1 hb
      obtain ⟨⟨ps, e⟩, q1, q2, -⟩ := s2 (fun x => hd x.2.1)
      have hd1 : g1.munchkin_dying ≠ FALSE := by rw [e]; exact hd
      obtain ⟨⟨ps3, e3⟩, r⟩ := ih g1 ap1 rs1 g3 ap3 rs3 hd1 h
      refine ⟨⟨ps3, by rw [e3, e]⟩, fun j => ?_⟩
      rw [r j]
      by_cases hji : j = i
      · rw [hji]; exact q2
      · rw [q1 j hji]

/-- C28, amended. While the player is dying no pill is eaten: a `handle_pills` call made
with `munchkin_dying` TRUE leaves the status of every pill, the score and the high score
as they were, and leaves a pill that is inactive where it is.  (The active pills are not
frozen: each still chooses a direction and moves.) -/
theorem dying_keeps_pill_status (g : Game) (rs : List Nat) (g1 : Game) (rs1 : List Nat)
    (hd : g.munchkin_dying = TRUE) (h : handle_pills g rs = some (g1, rs1)) :
    (∀ j : Nat, (pill_at g1 j).status = (pill_at g j).status) ∧
    g1.score = g.score ∧ g1.high_score = g.high_score ∧
    (∀ j : Nat, (pill_at g j).status = 0 →
      (pill_at g1 j).x = (pill_at g j).x ∧ (pill_at g1 j).y = (pill_at g j).y) := by
  obtain ⟨g2, g3, ap3, e2, hl, hfin⟩ := handle_pills_parts g rs g1 rs1 h
  have hsp : only_pill_speeds g g2 := by
    rw [e2]; exact handle_pills_speedups g (count_active_pills g)
  obtain ⟨sp, q1, q2, -⟩ := only_pill_speeds_play g g2 hsp
  have hd2 : g2.munchkin_dying ≠ FALSE := by
    rw [sp.2.2.2.2.2.2.2.1, hd]; decide
  obtain ⟨⟨ps, e3⟩, st⟩ := handle_pills_loop_dying _ g2 _ rs g3 ap3 rs1 hd2 hl
  obtain ⟨-, -, same⟩ := handle_pills_loop_writes _ g2 _ rs g3 ap3 rs1 hl
  have f1 : ∀ j, pill_at g1 j = pill_at g3 j := by
    intro j; rcases hfin with e | e <;> rw [e] <;> rfl
  have f2 : g1.score = g3.score ∧ g1.high_score = g3.high_score := by
    rcases hfin with e | e <;> rw [e] <;> exact ⟨rfl, rfl⟩
  have f3 : g3.score = g2.score ∧ g3.high_score = g2.high_score := by
    rw [e3]; exact ⟨rfl, rfl⟩
  refine ⟨fun j => ?_, f2.1.trans (f3.1.trans q1), f2.2.trans (f3.2.trans q2), fun j hj => ?_⟩
  · rw [f1 j, st j]; exact (hsp.2 j).1
  · have h2 : (pill_at g2 j).status = 0 := by rw [(hsp.2 j).1]; exact hj
    rw [f1 j, same j h2]
    exact ⟨(hsp.2 j).2.1, (hsp.2 j).2.2.1⟩

theorem demo_dying_after_eq :
    handle_pills demo_dying (List.replicate 8 7) = some (demo_dying_after, []) := by decide

/-- C28 as stated fails: with the player dying and the maze not completed, `handle_pills`
moves pill 0 from y = 150 to y = 151 and pill 1 from x = 190 to x = 189. -/
theorem dying_pills_move_counterexample :
    demo_dying.munchkin_dying = TRUE ∧ demo_dying.maze_completed = FALSE ∧
    handle_pills demo_dying (List.replicate 8 7) = some (demo_dying_after, []) ∧
    (pill_at demo_dying 0).y = 150 ∧ (pill_at demo_dying_after 0).y = 151 ∧
    (pill_at demo_dying 1).x = 190 ∧ (pill_at demo_dying_after 1).x = 189 := by
  decide

theorem dying_keeps_pill_status_witness :
    (pill_at demo_dying_after 0).status = 2 ∧ (pill_at demo_dying_after 1).status = 1 ∧
    demo_dying_after.score = demo_dying.score :=
  have w := dying_keeps_pill_status demo_dying (List.replicate 8 7) demo_dying_after []
    (by decide) demo_dying_after_eq
  ⟨(w.1 0).trans (by decide), (w.1 1).trans (by decide), w.2.1⟩

/-- A `handle_pills` call entered with the maze completed: only the speed-ups run. -/
theorem handle_pills_completed (g : Game) (rs : List Nat) (hc : g.maze_completed ≠ FALSE) :
    ∃ g1, handle_pills g rs = some (g1, rs) ∧ only_pill_speeds g g1 := by
  have hsp := handle_pills_speedups g (count_active_pills g)
  unfold handle_pills
  simp only
  generalize (if count_active_pills g = 1 then speed_up_last_pill
      (if count_active_pills g ≥ 2 ∧ count_active_pills g < c_div g.NUM_PILLS 2
        then speed_up_pills g else g)
    else (if count_active_pills g ≥ 2 ∧ count_active_pills g < c_div g.NUM_PILLS 2
        then speed_up_pills g else g)) = g2 at hsp ⊢
  obtain ⟨sp, -⟩ := only_pill_speeds_play g g2 hsp
  have hc2 : g2.maze_completed ≠ FALSE := by rw [sp.2.2.2.2.2.2.2.2]; exact hc
  have hl : ∀ l : List Nat, handle_pills_loop l g2 (count_active_pills g) rs =
      some (g2, count_active_pills g, rs) := by
    intro l
    cases l with
    | nil => rfl
    | cons i is => rw [handle_pills_loop, if_neg hc2]
  rw [hl]
  simp only
  rw [if_neg (fun x => hc2 x.2)]
  exact ⟨g2, rfl, hsp⟩

/-- A `handle_ghosts` call entered with the maze completed: only the timer is written. -/
theorem handle_ghosts_completed (g : Game) (rs : List Nat) (hc : g.maze_completed ≠ FALSE) :
    handle_ghosts g rs =
      some ({ g with powerpill_active_timer := g.powerpill_active_timer - 1 }, rs) := by
  have key : ∀ (l : List Nat) (h : Game), h.maze_completed ≠ FALSE →
      l.foldl (fun h i =>
        if h.maze_completed = FALSE then
          if (ghost_at h i).status = 2 then ghost_put h i { ghost_at h i with status := 1 }
          else h
        else h) h = h := by
    intro l
    induction l with
    | nil => intro h _; rfl
    | cons i is ih =>
      intro h hm
      rw [List.foldl_cons]
      simp only [if_neg hm]
      exact ih h hm
  have hc1 : ({ g with powerpill_active_timer := g.powerpill_active_timer - 1 } :
      Game).maze_completed ≠ FALSE := hc
  have rv : revert_ghosts { g with powerpill_active_timer := g.powerpill_active_timer - 1 }
      = { g with powerpill_active_timer := g.powerpill_active_timer - 1 } := by
    unfold revert_ghosts
    exact key _ _ hc1
  have hl : ∀ l : List Nat, handle_ghosts_loop l
      { g with powerpill_active_timer := g.powerpill_active_timer - 1 } rs =
      some ({ g with powerpill_active_timer := g.powerpill_active_timer - 1 }, rs) := by
    intro l
    cases l with
    | nil => rfl
    | cons i is => rw [handle_ghosts_loop, if_neg hc1]
  unfold handle_ghosts
  simp only
  by_cases h0 : g.powerpill_active_timer - 1 = 0
  · rw [if_pos h0, rv]; exact hl _
  · rw [if_neg h0]; exact hl _

/-! ## The direction switch -/

theorem choose_pill_direction_eq (g : Game) (i : Nat) (rs : List Nat) :
    choose_pill_direction g i rs =
      if pill_in_middle g i then
        match (if (pill_at g i).direction = LEFT then
            choose_case 3 (pill_flag g (pill_cell g i).1 (pill_cell g i).2 LEFT)
              (pill_flag g (pill_cell g i).1 (pill_cell g i).2 UP)
              (pill_flag g (pill_cell g i).1 (pill_cell g i).2 DOWN) LEFT UP DOWN RIGHT rs
          else if (pill_at g i).direction = RIGHT then
            choose_case 3 (pill_flag g (pill_cell g i).1 (pill_cell g i).2 RIGHT)
              (pill_flag g (pill_cell g i).1 (pill_cell g i).2 UP)
              (pill_flag g (pill_cell g i).1 (pill_cell g i).2 DOWN) RIGHT UP DOWN LEFT rs
          else if (pill_at g i).direction = UP then
            choose_case 3 (pill_flag g (pill_cell g i).1 (pill_cell g i).2 UP)
              (pill_flag g (pill_cell g i).1 (pill_cell g i).2 LEFT)
              (pill_flag g (pill_cell g i).1 (pill_cell g i).2 RIGHT) UP LEFT RIGHT DOWN rs
          else if (pill_at g i).direction = DOWN then
            choose_case 3 (pill_flag g (pill_cell g i).1 (pill_cell g i).2 DOWN)
              (pill_flag g (pill_cell g i).1 (pill_cell g i).2 LEFT)
              (pill_flag g (pill_cell g i).1 (pill_cell g i).2 RIGHT) DOWN LEFT RIGHT UP rs
          else some ((pill_at g i).direction, rs)) with
        | none => none
        | some (d, rs1) => some (pill_put g i { pill_at g i with direction := d }, rs1)
      else some (g, rs) := by
  by_cases hm : pill_in_middle g i
  · rw [if_pos hm]
    have hm2 := hm
    unfold pill_in_middle at hm2
    unfold choose_pill_direction
    simp only at hm2 ⊢
    rw [if_pos hm2]
    rfl
  · rw [if_neg hm]
    have hm2 := hm
    unfold pill_in_middle at hm2
    unfold choose_pill_direction
    simp only at hm2 ⊢
    rw [if_neg hm2]

theorem rand_side_open (fo so a b : Int) : ∀ (rs : List Nat) (x : Int) (rs1 : List Nat),
    rand_side fo so a b rs = some (x, rs1) → (x = a ∧ fo = 1) ∨ (x = b ∧ so = 1) := by
  intro rs
  induction rs with
  | nil => intro x rs1 h; exact absurd h (by simp [rand_side])
  | cons r rs ih =>
    intro x rs1 h
    rw [rand_side] at h
    by_cases h1 : r % 2 = 0 ∧ fo = 1
    · rw [if_pos h1] at h
      simp only [Option.some.injEq, Prod.mk.injEq] at h
      exact Or.inl ⟨h.1.symm, h1.2⟩
    · rw [if_neg h1] at h
      by_cases h2 : so = 1
      · rw [if_pos h2] at h
        simp only [Option.some.injEq, Prod.mk.injEq] at h
        exact Or.inr ⟨h.1.symm, h2⟩
      · rw [if_neg h2] at h
        exact ih x rs1 h

theorem rand_side_both (a b : Int) (r : Nat) (rs : List Nat) :
    rand_side 1 1 a b (r :: rs) = some (if r % 2 = 0 then a else b, rs) := by
  rw [rand_side]
  by_cases h : r % 2 = 0
  · rw [if_pos ⟨h, rfl⟩, if_pos h]
  · rw [if_neg (fun x => h x.1), if_pos rfl, if_neg h]

theorem choose_case_keep (thr : Nat) (ao fo so a b c d : Int) (r : Nat) (rs : List Nat)
    (h1 : ao = 1) (h2 : fo = 1 ∨ so = 1) (h3 : r % 10 ≥ thr) :
    choose_case thr ao fo so a b c d (r :: rs) = some (a, rs) := by
  unfold choose_case
  rw [if_pos ⟨h1, h2⟩]
  simp only
  rw [if_pos h3]

theorem choose_case_turn (thr : Nat) (ao fo so a b c d : Int) (r : Nat) (rs : List Nat)
    (h1 : ao = 1) (h2 : fo = 1 ∨ so = 1) (h3 : r % 10 < thr) :
    choose_case thr ao fo so a b c d (r :: rs) = rand_side fo so b c rs := by
  unfold choose_case
  rw [if_pos ⟨h1, h2⟩]
  simp only
  rw [if_neg (by omega)]

theorem choose_case_open (thr : Nat) (ao fo so a b c d : Int) (rs : List Nat) (x : Int)
    (rs1 : List Nat) (h : choose_case thr ao fo so a b c d rs = some (x, rs1)) :
    (x = a ∧ ao = 1) ∨ (x = b ∧ fo = 1) ∨ (x = c ∧ so = 1) ∨
    (x = d ∧ ao ≠ 1 ∧ fo ≠ 1 ∧ so ≠ 1) := by
  unfold choose_case at h
  by_cases h1 : ao = 1 ∧ (fo = 1 ∨ so = 1)
  · rw [if_pos h1] at h
    cases rs with
    | nil => exact absurd h (by simp)
    | cons r rs =>
      simp only at h
      by_cases h3 : r % 10 ≥ thr
      · rw [if_pos h3] at h
        simp only [Option.some.injEq, Prod.mk.injEq] at h
        exact Or.inl ⟨h.1.symm, h1.1⟩
      · rw [if_neg h3] at h
        rcases rand_side_open fo so b c rs x rs1 h with e | e
        · exact Or.inr (Or.inl e)
        · exact Or.inr (Or.inr (Or.inl e))
  · rw [if_neg h1] at h
    by_cases h2 : fo = 1 ∨ so = 1
    · rw [if_pos h2] at h
      rcases rand_side_open fo so b c rs x rs1 h with e | e
      · exact Or.inr (Or.inl e)
      · exact Or.inr (Or.inr (Or.inl e))
    · rw [if_neg h2] at h
      by_cases h4 : ao = 1
      · rw [if_pos h4] at h
        simp only [Option.some.injEq, Prod.mk.injEq] at h
        exact Or.inl ⟨h.1.symm, h4⟩
      · rw [if_neg h4] at h
        simp only [Option.some.injEq, Prod.mk.injEq] at h
        exact Or.inr (Or.inr (Or.inr ⟨h.1.symm, h4, fun x => h2 (Or.inl x),
          fun x => h2 (Or.inr x)⟩))

theorem direction_switch_four (thr : Nat) (flag : Int → Int) (d : Int) (rs : List Nat)
    (hd : d = LEFT ∨ d = RIGHT ∨ d = UP ∨ d = DOWN) :
    direction_switch thr flag d rs =
      choose_case thr (flag d) (flag (first_side d)) (flag (second_side d))
        d (first_side d) (second_side d) (back_side d) rs := by
  rcases hd with h | h | h | h <;> rw [h] <;> rfl

theorem direction_switch_other (thr : Nat) (flag : Int → Int) (d : Int) (rs : List Nat)
    (hd : ¬ (d = LEFT ∨ d = RIGHT ∨ d = UP ∨ d = DOWN)) :
    direction_switch thr flag d rs = some (d, rs) := by
  unfold direction_switch
  rw [if_neg (fun x => hd (Or.inl x)), if_neg (fun x => hd (Or.inr (Or.inl x))),
    if_neg (fun x => hd (Or.inr (Or.inr (Or.inl x)))),
    if_neg (fun x => hd (Or.inr (Or.inr (Or.inr x))))]

/-- The direction the switch leaves: the old one if it is none of the four, else a
direction whose flag is 1, else the way back when the way ahead and both sides are shut. -/
theorem direction_switch_open (thr : Nat) (flag : Int → Int) (d : Int) (rs : List Nat)
    (x : Int) (rs1 : List Nat) (h : direction_switch thr flag d rs = some (x, rs1)) :
    (¬ (d = LEFT ∨ d = RIGHT ∨ d = UP ∨ d = DOWN) ∧ x = d) ∨ flag x = 1 ∨
    ((d = LEFT ∨ d = RIGHT ∨ d = UP ∨ d = DOWN) ∧ x = back_side d ∧ flag d ≠ 1 ∧
      flag (first_side d) ≠ 1 ∧ flag (second_side d) ≠ 1) := by
  by_cases hd : d = LEFT ∨ d = RIGHT ∨ d = UP ∨ d = DOWN
  · rw [direction_switch_four thr flag d rs hd] at h
    rcases choose_case_open _ _ _ _ _ _ _ _ _ _ _ h with e | e | e | e
    · exact Or.inr (Or.inl (by rw [e.1]; exact e.2))
    · exact Or.inr (Or.inl (by rw [e.1]; exact e.2))
    · exact Or.inr (Or.inl (by rw [e.1]; exact e.2))
    · exact Or.inr (Or.inr ⟨hd, e.1, e.2⟩)
  · rw [direction_switch_other thr flag d rs hd] at h
    simp only [Option.some.injEq, Prod.mk.injEq] at h
    exact Or.inl ⟨hd, h.1.symm⟩

theorem choose_pill_direction_switch (g : Game) (i : Nat) (rs : List Nat)
    (hm : pill_in_middle g i) :
    choose_pill_direction g i rs =
      match direction_switch 3 (pill_flag g (pill_cell g i).1 (pill_cell g i).2)
          (pill_at g i).direction rs with
      | none => none
      | some (d, rs1) => some (pill_put g i { pill_at g i with direction := d }, rs1) := by
  rw [choose_pill_direction_eq, if_pos hm]
  rfl

theorem first_side_ne (d : Int) (hd : d = LEFT ∨ d = RIGHT ∨ d = UP ∨ d = DOWN) :
    first_side d ≠ d ∧ second_side d ≠ d := by
  rcases hd with h | h | h | h <;> rw [h] <;> decide

/-- The continuation rule of the direction switch, for any threshold and any flags: with
the way ahead and a perpendicular side open, a draw with `r % 10 ≥ threshold` keeps `d`,
any other draw turns to an open perpendicular side, an even second draw is enough for the
turn to be made, and with both sides open the second draw picks the side by its parity. -/
theorem switch_rule (thr : Nat) (flag : Int → Int) (d : Int)
    (hd : d = LEFT ∨ d = RIGHT ∨ d = UP ∨ d = DOWN) (ha : flag d = 1)
    (hp : flag (first_side d) = 1 ∨ flag (second_side d) = 1) (r : Nat) (rs : List Nat) :
    (thr ≤ r % 10 → direction_switch thr flag d (r :: rs) = some (d, rs)) ∧
    (r % 10 < thr →
      (∀ x rs1, direction_switch thr flag d (r :: rs) = some (x, rs1) →
        x ≠ d ∧ flag x = 1 ∧ (x = first_side d ∨ x = second_side d)) ∧
      (∀ r2 rs2, r2 % 2 = 0 → ∃ x, direction_switch thr flag d (r :: r2 :: rs2) = some (x, rs2)) ∧
      (flag (first_side d) = 1 → flag (second_side d) = 1 → ∀ r2 rs2,
        direction_switch thr flag d (r :: r2 :: rs2) =
          some (if r2 % 2 = 0 then first_side d else second_side d, rs2))) := by
  constructor
  · intro h
    rw [direction_switch_four thr flag d _ hd]
    exact choose_case_keep thr _ _ _ _ _ _ _ r rs ha hp h
  · intro h
    refine ⟨?_, ?_, ?_⟩
    · intro x rs1 hx
      rw [direction_switch_four thr flag d _ hd, choose_case_turn thr _ _ _ _ _ _ _ r rs ha hp h]
        at hx
      rcases rand_side_open _ _ _ _ _ _ _ hx with e | e
      · exact ⟨by rw [e.1]; exact (first_side_ne d hd).1, by rw [e.1]; exact e.2, Or.inl e.1⟩
      · exact ⟨by rw [e.1]; exact (first_side_ne d hd).2, by rw [e.1]; exact e.2, Or.inr e.1⟩
    · intro r2 rs2 h2
      rw [direction_switch_four thr flag d _ hd,
        choose_case_turn thr _ _ _ _ _ _ _ r (r2 :: rs2) ha hp h, rand_side]
      by_cases hf : flag (first_side d) = 1
      · rw [if_pos ⟨h2, hf⟩]
        exact ⟨_, rfl⟩
      · rw [if_neg (fun x => hf x.2), if_pos (hp.resolve_left hf)]
        exact ⟨_, rfl⟩
    · intro h1 h2 r2 rs2
      rw [direction_switch_four thr flag d _ hd,
        choose_case_turn thr _ _ _ _ _ _ _ r (r2 :: rs2) ha hp h, h1, h2]
      exact rand_side_both _ _ r2 rs2

theorem pill_switch_some (g : Game) (i : Nat) (rs : List Nat) (hm : pill_in_middle g i)
    (x : Int) (rs1 : List Nat)
    (h : direction_switch 3 (pill_flag g (pill_cell g i).1 (pill_cell g i).2)
      (pill_at g i).direction rs = some (x, rs1)) :
    ∃ g1, choose_pill_direction g i rs = some (g1, rs1) ∧ (pill_at g1 i).direction = x := by
  refine ⟨pill_put g i { pill_at g i with direction := x }, ?_, ?_⟩
  · rw [choose_pill_direction_switch g i rs hm, h]
  · rw [pill_at_pill_put, if_pos rfl]

theorem pill_switch_inv (g : Game) (i : Nat) (rs : List Nat) (hm : pill_in_middle g i)
    (g1 : Game) (rs1 : List Nat) (h : choose_pill_direction g i rs = some (g1, rs1)) :
    direction_switch 3 (pill_flag g (pill_cell g i).1 (pill_cell g i).2)
      (pill_at g i).direction rs = some ((pill_at g1 i).direction, rs1) := by
  rw [choose_pill_direction_switch g i rs hm] at h
  cases hs : direction_switch 3 (pill_flag g (pill_cell g i).1 (pill_cell g i).2)
      (pill_at g i).direction rs with
  | none => rw [hs] at h; exact absurd h (by simp)
  | some v =>
    obtain ⟨x, rs2⟩ := v
    rw [hs] at h
    simp only [Option.some.injEq, Prod.mk.injEq] at h
    rw [← h.1, ← h.2, pill_at_pill_put, if_pos rfl]

theorem choose_ghost_direction_switch (g : Game) (i : Nat) (rs : List Nat)
    (hm : ghost_in_middle g i) (h3 : (ghost_at g i).status ≠ 3) (h4 : (ghost_at g i).status ≠ 4) :
    choose_ghost_direction g i rs =
      match direction_switch 5 (ghost_flag g (ghost_cell g i).1 (ghost_cell g i).2)
          (ghost_at g i).direction rs with
      | none => none
      | some (d, rs1) => some (ghost_put g i { ghost_at g i with direction := d }, rs1) := by
  have hm2 := hm
  unfold ghost_in_middle ghost_cell at hm2
  unfold choose_ghost_direction
  simp only at hm2 ⊢
  rw [if_pos hm2]
  unfold choose_ghost_aligned ghost_homing ghost_recharge
  simp only [if_neg h3, if_neg h4]
  rfl

theorem ghost_switch_some (g : Game) (i : Nat) (rs : List Nat) (hm : ghost_in_middle g i)
    (h3 : (ghost_at g i).status ≠ 3) (h4 : (ghost_at g i).status ≠ 4)
    (x : Int) (rs1 : List Nat)
    (h : direction_switch 5 (ghost_flag g (ghost_cell g i).1 (ghost_cell g i).2)
      (ghost_at g i).direction rs = some (x, rs1)) :
    ∃ g1, choose_ghost_direction g i rs = some (g1, rs1) ∧ (ghost_at g1 i).direction = x := by
  refine ⟨ghost_put g i { ghost_at g i with direction := x }, ?_, ?_⟩
  · rw [choose_ghost_direction_switch g i rs hm h3 h4, h]
  · rw [ghost_at_ghost_put, if_pos rfl]

theorem ghost_switch_inv (g : Game) (i : Nat) (rs : List Nat) (hm : ghost_in_middle g i)
    (h3 : (ghost_at g i).status ≠ 3) (h4 : (ghost_at g i).status ≠ 4)
    (g1 : Game) (rs1 : List Nat) (h : choose_ghost_direction g i rs = some (g1, rs1)) :
    direction_switch 5 (ghost_flag g (ghost_cell g i).1 (ghost_cell g i).2)
      (ghost_at g i).direction rs = some ((ghost_at g1 i).direction, rs1) := by
  rw [choose_ghost_direction_switch g i rs hm h3 h4] at h
  cases hs : direction_switch 5 (ghost_flag g (ghost_cell g i).1 (ghost_cell g i).2)
      (ghost_at g i).direction rs with
  | none => rw [hs] at h; exact absurd h (by simp)
  | some v =>
    obtain ⟨x, rs2⟩ := v
    rw [hs] at h
    simp only [Option.some.injEq, Prod.mk.injEq] at h
    rw [← h.1, ← h.2, ghost_at_ghost_put, if_pos rfl]

/-- C23. Pill and ghost continuation rule: for an aligned pill heading `d` (one of the
four directions) whose flag for `d` is 1 and with the flag of a perpendicular side 1,
`choose_pill_direction` keeps `d` when the draw has `r % 10 ≥ 3`; for any other draw it
leaves a direction different from `d` that is a perpendicular side with flag 1, an even
next draw is enough for it to return, and with both perpendicular sides open the first
side is taken iff the next draw is even and the second side otherwise. For an aligned
ghost in status 1 or 2, `choose_ghost_direction` does the same with `r % 10 ≥ 5`. -/
theorem continuation_rule (g : Game) (i : Nat) (d : Int) (r : Nat) (rs : List Nat)
    (hd : d = LEFT ∨ d = RIGHT ∨ d = UP ∨ d = DOWN) :
    (pill_in_middle g i → (pill_at g i).direction = d →
      pill_flag g (pill_cell g i).1 (pill_cell g i).2 d = 1 →
      (pill_flag g (pill_cell g i).1 (pill_cell g i).2 (first_side d) = 1 ∨
        pill_flag g (pill_cell g i).1 (pill_cell g i).2 (second_side d) = 1) →
      (3 ≤ r % 10 → ∃ g1, choose_pill_direction g i (r :: rs) = some (g1, rs) ∧
        (pill_at g1 i).direction = d) ∧
      (r % 10 < 3 →
        (∀ g1 rs1, choose_pill_direction g i (r :: rs) = some (g1, rs1) →
          (pill_at g1 i).direction ≠ d ∧
          pill_flag g (pill_cell g i).1 (pill_cell g i).2 (pill_at g1 i).direction = 1 ∧
          ((pill_at g1 i).direction = first_side d ∨ (pill_at g1 i).direction = second_side d)) ∧
        (∀ r2 rs2, r2 % 2 = 0 →
          ∃ g1, choose_pill_direction g i (r :: r2 :: rs2) = some (g1, rs2)) ∧
        (pill_flag g (pill_cell g i).1 (pill_cell g i).2 (first_side d) = 1 →
          pill_flag g (pill_cell g i).1 (pill_cell g i).2 (second_side d) = 1 →
          ∀ r2 rs2, ∃ g1, choose_pill_direction g i (r :: r2 :: rs2) = some (g1, rs2) ∧
            (pill_at g1 i).direction = if r2 % 2 = 0 then first_side d else second_side d))) ∧
    (ghost_in_middle g i → ((ghost_at g i).status = 1 ∨ (ghost_at g i).status = 2) →
      (ghost_at g i).direction = d →
      ghost_flag g (ghost_cell g i).1 (ghost_cell g i).2 d = 1 →
      (ghost_flag g (ghost_cell g i).1 (ghost_cell g i).2 (first_side d) = 1 ∨
        ghost_flag g (ghost_cell g i).1 (ghost_cell g i).2 (second_side d) = 1) →
      (5 ≤ r % 10 → ∃ g1, choose_ghost_direction g i (r :: rs) = some (g1, rs) ∧
        (ghost_at g1 i).direction = d) ∧
      (r % 10 < 5 →
        (∀ g1 rs1, choose_ghost_direction g i (r :: rs) = some (g1, rs1) →
          (ghost_at g1 i).direction ≠ d ∧
          ghost_flag g (ghost_cell g i).1 (ghost_cell g i).2 (ghost_at g1 i).direction = 1 ∧
          ((ghost_at g1 i).direction = first_side d ∨
            (ghost_at g1 i).direction = second_side d)) ∧
        (∀ r2 rs2, r2 % 2 = 0 →
          ∃ g1, choose_ghost_direction g i (r :: r2 :: rs2) = some (g1, rs2)) ∧
        (ghost_flag g (ghost_cell g i).1 (ghost_cell g i).2 (first_side d) = 1 →
          ghost_flag g (ghost_cell g i).1 (ghost_cell g i).2 (second_side d) = 1 →
          ∀ r2 rs2, ∃ g1, choose_ghost_direction g i (r :: r2 :: rs2) = some (g1, rs2) ∧
            (ghost_at g1 i).direction = if r2 % 2 = 0 then first_side d else second_side d))) := by
  constructor
  · intro hm hdir ha hp
    obtain ⟨k1, k2⟩ := switch_rule 3 (pill_flag g (pill_cell g i).1 (pill_cell g i).2) d hd ha hp r rs
    constructor
    · intro h
      exact pill_switch_some g i _ hm d rs (by rw [hdir]; exact k1 h)
    · intro h
      refine ⟨?_, ?_, ?_⟩
      · intro g1 rs1 hc
        have e := pill_switch_inv g i _ hm g1 rs1 hc
        rw [hdir] at e
        exact (k2 h).1 _ _ e
      · intro r2 rs2 h2
        obtain ⟨x, hx⟩ := (switch_rule 3 (pill_flag g (pill_cell g i).1 (pill_cell g i).2) d hd ha
          hp r (r2 :: rs2)).2 h |>.2.1 r2 rs2 h2
        obtain ⟨g1, e, _⟩ := pill_switch_some g i _ hm x rs2 (by rw [hdir]; exact hx)
        exact ⟨g1, e⟩
      · intro h1 h2 r2 rs2
        exact pill_switch_some g i _ hm _ rs2
          (by rw [hdir]; exact ((switch_rule 3 (pill_flag g (pill_cell g i).1 (pill_cell g i).2) d
            hd ha hp r (r2 :: rs2)).2 h).2.2 h1 h2 r2 rs2)
  · intro hm hst hdir ha hp
    have h3 : (ghost_at g i).status ≠ 3 := by rcases hst with e | e <;> rw [e] <;> decide
    have h4 : (ghost_at g i).status ≠ 4 := by rcases hst with e | e <;> rw [e] <;> decide
    obtain ⟨k1, k2⟩ := switch_rule 5 (ghost_flag g (ghost_cell g i).1 (ghost_cell g i).2) d hd ha
      hp r rs
    constructor
    · intro h
      exact ghost_switch_some g i _ hm h3 h4 d rs (by rw [hdir]; exact k1 h)
    · intro h
      refine ⟨?_, ?_, ?_⟩
      · intro g1 rs1 hc
        have e := ghost_switch_inv g i _ hm h3 h4 g1 rs1 hc
        rw [hdir] at e
        exact (k2 h).1 _ _ e
      · intro r2 rs2 h2
        obtain ⟨x, hx⟩ := (switch_rule 5 (ghost_flag g (ghost_cell g i).1 (ghost_cell g i).2) d hd
          ha hp r (r2 :: rs2)).2 h |>.2.1 r2 rs2 h2
        obtain ⟨g1, e, _⟩ := ghost_switch_some g i _ hm h3 h4 x rs2 (by rw [hdir]; exact hx)
        exact ⟨g1, e⟩
      · intro h1 h2 r2 rs2
        exact ghost_switch_some g i _ hm h3 h4 _ rs2
          (by rw [hdir]; exact ((switch_rule 5 (ghost_flag g (ghost_cell g i).1 (ghost_cell g i).2)
            d hd ha hp r (r2 :: rs2)).2 h).2.2 h1 h2 r2 rs2)

theorem continuation_rule_witness :
    (∃ g1, choose_pill_direction demo_twelve_set 2 [7] = some (g1, []) ∧
      (pill_at g1 2).direction = RIGHT) ∧
    (∃ g1, choose_pill_direction demo_twelve_set 2 [0, 1] = some (g1, []) ∧
      (pill_at g1 2).direction = DOWN) ∧
    (∃ g1, choose_ghost_direction demo_corner 0 [5] = some (g1, []) ∧
      (ghost_at g1 0).direction = DOWN) :=
  ⟨((continuation_rule demo_twelve_set 2 RIGHT 7 [] (by decide)).1 (by decide) (by decide)
      (by decide) (by decide)).1 (by decide),
    (((continuation_rule demo_twelve_set 2 RIGHT 0 [] (by decide)).1 (by decide) (by decide)
      (by decide) (by decide)).2 (by decide)).2.2 (by decide) (by decide) 1 [],
    ((continuation_rule demo_corner 0 DOWN 5 [] (by decide)).2 (by decide) (by decide)
      (by decide) (by decide) (by decide)).1 (by decide)⟩

/-! ## The centre cell and the pills -/

theorem neighbour_open (g0 : Game) (id : Int) (fs : List Int) (g : Game)
    (hid : 1 ≤ id ∧ id ≤ 4)
    (hh : g.horizontal_lines = (fs.foldl draw_maze_at (setup_maze g0 id)).horizontal_lines)
    (hv : g.vertical_lines = (fs.foldl draw_maze_at (setup_maze g0 id)).vertical_lines) :
    (wall_left_open g 3 4 = 1 ∨ wall_up_open g 3 4 = 1 ∨ wall_down_open g 3 4 = 1) ∧
    (wall_right_open g 5 4 = 1 ∨ wall_up_open g 5 4 = 1 ∨ wall_down_open g 5 4 = 1) ∧
    (wall_left_open g 4 3 = 1 ∨ wall_right_open g 4 3 = 1 ∨ wall_up_open g 4 3 = 1) ∧
    (wall_left_open g 4 5 = 1 ∨ wall_right_open g 4 5 = 1 ∨ wall_down_open g 4 5 = 1) := by
  obtain ⟨o1, o2⟩ := draw_fold_outside fs (setup_maze g0 id)
  obtain ⟨e1, e2⟩ := setup_maze_walls g0 id hid
  unfold wall_left_open wall_right_open wall_up_open wall_down_open
  rw [hh, hv]
  rw [o1 4 3 (by decide) (by decide), o1 (4 + 1) 3 (by decide) (by decide),
    o1 4 5 (by decide) (by decide), o1 (4 + 1) 5 (by decide) (by decide),
    o1 3 4 (by decide) (by decide), o1 (5 + 1) 4 (by decide) (by decide),
    o2 4 3 (by decide) (by decide), o2 4 (5 + 1) (by decide) (by decide),
    o2 3 4 (by decide) (by decide), o2 3 (4 + 1) (by decide) (by decide),
    o2 5 4 (by decide) (by decide), o2 5 (4 + 1) (by decide) (by decide), e1, e2]
  obtain ⟨h1, h2⟩ := hid
  interval_cases id <;> decide

/-- C24. Centre cell excluded for pills: in a maze whose walls are those of a layout 1..4
after any number of `draw_maze` calls (any state of the rotating centre opening), for any
current direction and any draws, an aligned pill in cell (3,4), (5,4), (4,3) or (4,5) does
not leave `choose_pill_direction` heading RIGHT, LEFT, DOWN or UP respectively. -/
theorem centre_excluded (g0 : Game) (id : Int) (fs : List Int) (g : Game) (i : Nat)
    (rs : List Nat) (g1 : Game) (rs1 : List Nat) (hid : 1 ≤ id ∧ id ≤ 4)
    (hh : g.horizontal_lines = (fs.foldl draw_maze_at (setup_maze g0 id)).horizontal_lines)
    (hv : g.vertical_lines = (fs.foldl draw_maze_at (setup_maze g0 id)).vertical_lines)
    (hm : pill_in_middle g i) (hc : choose_pill_direction g i rs = some (g1, rs1)) :
    (pill_cell g i = (3, 4) → (pill_at g1 i).direction ≠ RIGHT) ∧
    (pill_cell g i = (5, 4) → (pill_at g1 i).direction ≠ LEFT) ∧
    (pill_cell g i = (4, 3) → (pill_at g1 i).direction ≠ DOWN) ∧
    (pill_cell g i = (4, 5) → (pill_at g1 i).direction ≠ UP) := by
  obtain ⟨t1, t2, t3, t4⟩ := neighbour_open g0 id fs g hid hh hv
  have e := pill_switch_inv g i rs hm g1 rs1 hc
  have k := direction_switch_open 3 _ _ _ _ _ e
  refine ⟨?_, ?_, ?_, ?_⟩
  · intro hcell hx
    rw [hcell, hx] at k
    rcases k with ⟨hn, hd⟩ | hf | ⟨hd, hb, n1, n2, n3⟩
    · exact hn (Or.inr (Or.inl hd.symm))
    · exact absurd hf (by show ¬ ((0 : Int) = 1); decide)
    · have ed : (pill_at g i).direction = LEFT := by
        rcases hd with h | h | h | h <;> rw [h] at hb <;> first | exact h | exact absurd hb (by decide)
      rw [ed] at n1 n2 n3
      rcases t1 with t | t | t
      · exact n1 t
      · exact n2 t
      · exact n3 t
  · intro hcell hx
    rw [hcell, hx] at k
    rcases k with ⟨hn, hd⟩ | hf | ⟨hd, hb, n1, n2, n3⟩
    · exact hn (Or.inl hd.symm)
    · exact absurd hf (by show ¬ ((0 : Int) = 1); decide)
    · have ed : (pill_at g i).direction = RIGHT := by
        rcases hd with h | h | h | h <;> rw [h] at hb <;> first | exact h | exact absurd hb (by decide)
      rw [ed] at n1 n2 n3
      rcases t2 with t | t | t
      · exact n1 t
      · exact n2 t
      · exact n3 t
  · intro hcell hx
    rw [hcell, hx] at k
    rcases k with ⟨hn, hd⟩ | hf | ⟨hd, hb, n1, n2, n3⟩
    · exact hn (Or.inr (Or.inr (Or.inr hd.symm)))
    · exact absurd hf (by show ¬ ((0 : Int) = 1); decide)
    · have ed : (pill_at g i).direction = UP := by
        rcases hd with h | h | h | h <;> rw [h] at hb <;> first | exact h | exact absurd hb (by decide)
      rw [ed] at n1 n2 n3
      rcases t3 with t | t | t
      · exact n2 t
      · exact n3 t
      · exact n1 t
  · intro hcell hx
    rw [hcell, hx] at k
    rcases k with ⟨hn, hd⟩ | hf | ⟨hd, hb, n1, n2, n3⟩
    · exact hn (Or.inr (Or.inr (Or.inl hd.symm)))
    · exact absurd hf (by show ¬ ((0 : Int) = 1); decide)
    · have ed : (pill_at g i).direction = DOWN := by
        rcases hd with h | h | h | h <;> rw [h] at hb <;> first | exact h | exact absurd hb (by decide)
      rw [ed] at n1 n2 n3
      rcases t4 with t | t | t
      · exact n2 t
      · exact n3 t
      · exact n1 t

theorem centre_excluded_witness :
    choose_pill_direction demo_beside 0 [0] =
      some (pill_put demo_beside 0 { pill_at demo_beside 0 with direction := UP }, []) ∧
    (pill_at (pill_put demo_beside 0 { pill_at demo_beside 0 with direction := UP }) 0).direction
      ≠ RIGHT :=
  ⟨by decide, (centre_excluded demo 1 [] demo_beside 0 [0] _ [] (by decide) (by decide) (by decide)
    (by decide) (by decide)).1 (by decide)⟩

/-! ## One pass of a ghost through `handle_ghosts` -/

theorem choose_ghost_direction_eq (g : Game) (i : Nat) (rs : List Nat) :
    choose_ghost_direction g i rs =
      if ghost_in_middle g i then
        choose_ghost_aligned g i (ghost_cell g i).1 (ghost_cell g i).2
          (ghost_flag g (ghost_cell g i).1 (ghost_cell g i).2 LEFT)
          (ghost_flag g (ghost_cell g i).1 (ghost_cell g i).2 RIGHT)
          (ghost_flag g (ghost_cell g i).1 (ghost_cell g i).2 UP)
          (ghost_flag g (ghost_cell g i).1 (ghost_cell g i).2 DOWN) rs
      else some (g, rs) := by
  by_cases hm : ghost_in_middle g i
  · rw [if_pos hm]
    have hm2 := hm
    unfold ghost_in_middle ghost_cell at hm2
    unfold choose_ghost_direction
    simp only at hm2 ⊢
    rw [if_pos hm2]
    rfl
  · rw [if_neg hm]
    have hm2 := hm
    unfold ghost_in_middle ghost_cell at hm2
    unfold choose_ghost_direction
    simp only at hm2 ⊢
    rw [if_neg hm2]

/-- The record `choose_ghost_aligned` stores: the one the homing and recharge blocks
leave, with the direction of the random walk when that runs. -/
theorem choose_ghost_aligned_put (g : Game) (i : Nat) (cx cy lo ro uo dn : Int)
    (rs : List Nat) (g1 : Game) (rs1 : List Nat)
    (h : choose_ghost_aligned g i cx cy lo ro uo dn rs = some (g1, rs1)) :
    ∃ d, g1 = ghost_put g i
        { ghost_recharge (ghost_homing (ghost_at g i) cx cy lo ro uo dn).1 with direction := d } ∧
      ((ghost_homing (ghost_at g i) cx cy lo ro uo dn).2 = FALSE →
        ghost_walk (ghost_recharge (ghost_homing (ghost_at g i) cx cy lo ro uo dn).1).direction
          lo ro uo dn rs = some (d, rs1)) := by
  unfold choose_ghost_aligned at h
  simp only at h
  by_cases hc : (ghost_homing (ghost_at g i) cx cy lo ro uo dn).2 = FALSE
  · rw [if_pos hc] at h
    cases hw : ghost_walk (ghost_recharge (ghost_homing (ghost_at g i) cx cy lo ro uo dn).1).direction
        lo ro uo dn rs with
    | none => rw [hw] at h; exact absurd h (by simp)
    | some v =>
      obtain ⟨d, rs2⟩ := v
      rw [hw] at h
      simp only [Option.some.injEq, Prod.mk.injEq] at h
      exact ⟨d, h.1.symm, fun _ => by rw [h.2]⟩
  · rw [if_neg hc] at h
    simp only [Option.some.injEq, Prod.mk.injEq] at h
    exact ⟨_, h.1.symm, fun x => absurd x hc⟩

/-- The homing and recharge blocks on one ghost record: a ghost that was not recharging
and is recharging afterwards was captured (3) in cell (4,4) and now has direction 0 and
199 on its countdown; a recharging ghost counts down by one, and returns to patrol facing
DOWN with the countdown reset to 0 when the countdown was 0. -/
theorem ghost_blocks (gh : ghost_type) (cx cy lo ro uo dn : Int) :
    (gh.status ≠ 4 → (ghost_recharge (ghost_homing gh cx cy lo ro uo dn).1).status = 4 →
      ghost_recharge (ghost_homing gh cx cy lo ro uo dn).1 =
        { gh with status := 4, direction := 0, recharge_timer := 199 } ∧
      (ghost_homing gh cx cy lo ro uo dn).2 = FALSE ∧ gh.status = 3 ∧ cx = 4 ∧ cy = 4) ∧
    (gh.status = 4 → (ghost_homing gh cx cy lo ro uo dn).2 = FALSE ∧
      (gh.recharge_timer ≠ 0 → ghost_recharge (ghost_homing gh cx cy lo ro uo dn).1 =
        { gh with recharge_timer := gh.recharge_timer - 1 }) ∧
      (gh.recharge_timer = 0 → ghost_recharge (ghost_homing gh cx cy lo ro uo dn).1 =
        { gh with status := 1, recharge_timer := 0, direction := DOWN })) := by
  constructor
  · intro h4 h
    by_cases h3 : gh.status = 3
    · by_cases hc : cx = 4 ∧ cy = 4
      · have e : ghost_homing gh cx cy lo ro uo dn =
            ({ gh with status := 4, direction := 0, recharge_timer := 200 }, FALSE) := by
          unfold ghost_homing; rw [if_pos h3, if_pos hc]
        rw [e]
        refine ⟨?_, rfl, h3, hc.1, hc.2⟩
        unfold ghost_recharge
        simp
      · have e : (ghost_homing gh cx cy lo ro uo dn).1 =
            { gh with direction := (ghost_approach gh.direction cx cy lo ro uo dn).1 } := by
          unfold ghost_homing; rw [if_pos h3, if_neg hc]
        rw [e] at h
        unfold ghost_recharge at h
        rw [if_neg (by rw [h3]; decide)] at h
        rw [h3] at h
        exact absurd h (by decide)
    · have e : ghost_homing gh cx cy lo ro uo dn = (gh, FALSE) := by
        unfold ghost_homing; rw [if_neg h3]
      rw [e] at h
      unfold ghost_recharge at h
      rw [if_neg h4] at h
      exact absurd h h4
  · intro h4
    have e : ghost_homing gh cx cy lo ro uo dn = (gh, FALSE) := by
      unfold ghost_homing; rw [if_neg (by rw [h4]; decide)]
    rw [e]
    refine ⟨rfl, ?_, ?_⟩
    · intro ht
      unfold ghost_recharge
      simp only
      rw [if_pos h4, if_neg (by omega)]
    · intro ht
      unfold ghost_recharge
      simp only
      rw [if_pos h4, if_pos (by omega)]

/-- A ghost that was not recharging before `choose_ghost_direction` and is recharging
after it was aligned in cell (4,4), and its record is the old one with status 4,
direction 0 and 199 on the countdown. -/
theorem ghost_arrival (g : Game) (i : Nat) (rs : List Nat) (g1 : Game) (rs1 : List Nat)
    (h : choose_ghost_direction g i rs = some (g1, rs1))
    (h0 : (ghost_at g i).status ≠ 4) (h1 : (ghost_at g1 i).status = 4) :
    ghost_in_middle g i ∧
    ghost_at g1 i = { ghost_at g i with status := 4, direction := 0, recharge_timer := 199 } := by
  rw [choose_ghost_direction_eq] at h
  by_cases hm : ghost_in_middle g i
  · rw [if_pos hm] at h
    obtain ⟨d, e, hw⟩ := choose_ghost_aligned_put _ _ _ _ _ _ _ _ _ _ _ h
    rw [e, ghost_at_ghost_put, if_pos rfl] at h1
    obtain ⟨b1, b2, -⟩ := (ghost_blocks (ghost_at g i) _ _ _ _ _ _).1 h0 h1
    have hd := hw b2
    rw [b1] at hd
    have hd2 : ghost_walk 0 (ghost_flag g (ghost_cell g i).1 (ghost_cell g i).2 LEFT)
        (ghost_flag g (ghost_cell g i).1 (ghost_cell g i).2 RIGHT)
        (ghost_flag g (ghost_cell g i).1 (ghost_cell g i).2 UP)
        (ghost_flag g (ghost_cell g i).1 (ghost_cell g i).2 DOWN) rs = some (d, rs1) := hd
    rw [ghost_walk_zero] at hd2
    simp only [Option.some.injEq, Prod.mk.injEq] at hd2
    refine ⟨hm, ?_⟩
    rw [e, ghost_at_ghost_put, if_pos rfl, b1, ← hd2.1]
  · rw [if_neg hm] at h
    simp only [Option.some.injEq, Prod.mk.injEq] at h
    rw [← h.1] at h1
    exact absurd h1 h0

/-- A recharging ghost that is aligned: `choose_ghost_direction` lowers its countdown by
one, leaving it recharging (and leaving the rest of its record when its direction is 0),
when the countdown was not 0, and makes it a patrol ghost with countdown 0, walking on
from DOWN, when the countdown was 0. -/
theorem ghost_countdown (g : Game) (i : Nat) (rs : List Nat) (g1 : Game) (rs1 : List Nat)
    (h : choose_ghost_direction g i rs = some (g1, rs1))
    (hm : ghost_in_middle g i) (h4 : (ghost_at g i).status = 4) :
    ((ghost_at g i).recharge_timer ≠ 0 → (ghost_at g1 i).status = 4 ∧
      ((ghost_at g i).direction = 0 → ghost_at g1 i =
        { ghost_at g i with recharge_timer := (ghost_at g i).recharge_timer - 1 })) ∧
    ((ghost_at g i).recharge_timer = 0 →
      ghost_at g1 i = { ghost_at g i with status := 1, recharge_timer := 0,
                                          direction := (ghost_at g1 i).direction } ∧
      ghost_walk DOWN (ghost_flag g (ghost_cell g i).1 (ghost_cell g i).2 LEFT)
        (ghost_flag g (ghost_cell g i).1 (ghost_cell g i).2 RIGHT)
        (ghost_flag g (ghost_cell g i).1 (ghost_cell g i).2 UP)
        (ghost_flag g (ghost_cell g i).1 (ghost_cell g i).2 DOWN) rs
          = some ((ghost_at g1 i).direction, rs1)) := by
  rw [choose_ghost_direction_eq, if_pos hm] at h
  obtain ⟨d, e, hw⟩ := choose_ghost_aligned_put _ _ _ _ _ _ _ _ _ _ _ h
  obtain ⟨b1, b2, b3⟩ := (ghost_blocks (ghost_at g i) (ghost_cell g i).1 (ghost_cell g i).2
    (ghost_flag g (ghost_cell g i).1 (ghost_cell g i).2 LEFT)
    (ghost_flag g (ghost_cell g i).1 (ghost_cell g i).2 RIGHT)
    (ghost_flag g (ghost_cell g i).1 (ghost_cell g i).2 UP)
    (ghost_flag g (ghost_cell g i).1 (ghost_cell g i).2 DOWN)).2 h4
  have hd := hw b1
  constructor
  · intro ht
    rw [b2 ht] at hd
    constructor
    · rw [e, ghost_at_ghost_put, if_pos rfl, b2 ht]
      exact h4
    · intro d0
      have hd2 : ghost_walk (ghost_at g i).direction
          (ghost_flag g (ghost_cell g i).1 (ghost_cell g i).2 LEFT)
          (ghost_flag g (ghost_cell g i).1 (ghost_cell g i).2 RIGHT)
          (ghost_flag g (ghost_cell g i).1 (ghost_cell g i).2 UP)
          (ghost_flag g (ghost_cell g i).1 (ghost_cell g i).2 DOWN) rs = some (d, rs1) := hd
      rw [d0, ghost_walk_zero] at hd2
      simp only [Option.some.injEq, Prod.mk.injEq] at hd2
      rw [e, ghost_at_ghost_put, if_pos rfl, b2 ht, ← hd2.1, ← d0]
  · intro ht
    rw [b3 ht] at hd
    have ed : (ghost_at g1 i).direction = d := by
      rw [e, ghost_at_ghost_put, if_pos rfl]
    rw [ed]
    refine ⟨?_, hd⟩
    rw [e, ghost_at_ghost_put, if_pos rfl, b3 ht]

theorem move_ghost_fields (g : Game) (i : Nat) :
    (ghost_at (move_ghost g i) i).status = (ghost_at g i).status ∧
    (ghost_at (move_ghost g i) i).recharge_timer = (ghost_at g i).recharge_timer ∧
    (ghost_at (move_ghost g i) i).direction = (ghost_at g i).direction := by
  unfold move_ghost
  simp only
  split_ifs <;> simp [ghost_at_ghost_put]

theorem ghost_in_middle_congr (a b : Game) (j : Nat)
    (hx : (ghost_at a j).x = (ghost_at b j).x) (hy : (ghost_at a j).y = (ghost_at b j).y)
    (ox : a.MAZE_OFFSET_X = b.MAZE_OFFSET_X) (oy : a.MAZE_OFFSET_Y = b.MAZE_OFFSET_Y) :
    ghost_in_middle a j ↔ ghost_in_middle b j := by
  unfold ghost_in_middle ghost_cell
  rw [hx, hy, ox, oy]

theorem ghost_step_frame (g : Game) (i : Nat) (rs : List Nat) (g2 : Game) (rs2 : List Nat)
    (h : choose_ghost_direction g i rs = some (g2, rs2)) :
    ∃ gs, move_ghost g2 i = { g with ghosts := gs } := by
  have a : ∃ gs, g2 = { g with ghosts := gs } := by
    rcases choose_ghost_direction_frame g i rs g2 rs2 h with e | ⟨gh, e⟩
    · exact ⟨g.ghosts, e⟩
    · exact ⟨_, e⟩
  obtain ⟨gs, e⟩ := a
  rcases move_ghost_frame g2 i with e2 | ⟨gh, e2⟩
  · rw [e2]; exact ⟨gs, e⟩
  · rw [e2, e]; exact ⟨_, rfl⟩

/-- The pass of ghost `j` in the main loop of `handle_ghosts`: it is one
`choose_ghost_direction` call and one move, made on a state that differs from the state
at loop entry in the other ghosts only. -/
theorem handle_ghosts_loop_pass (l : List Nat) : ∀ (g : Game) (rs : List Nat) (g1 : Game)
    (rs1 : List Nat), l.Nodup → g.maze_completed = FALSE →
    handle_ghosts_loop l g rs = some (g1, rs1) → ∀ j, j ∈ l →
    ∃ s rs2 s1 rs3, (∃ gs, s = { g with ghosts := gs }) ∧ ghost_at s j = ghost_at g j ∧
      choose_ghost_direction s j rs2 = some (s1, rs3) ∧
      ghost_at g1 j = ghost_at (move_ghost s1 j) j := by
  induction l with
  | nil => intro g rs g1 rs1 _ _ _ j hj; exact absurd hj (List.not_mem_nil j)
  | cons i is ih =>
    intro g rs g1 rs1 hnd hc h j hj
    rw [List.nodup_cons] at hnd
    obtain ⟨hi, hnd⟩ := hnd
    rw [handle_ghosts_loop, if_pos hc] at h
    split at h
    · exact absurd h (by simp)
    · rename_i g2 rs2 hch
      obtain ⟨gs, e⟩ := ghost_step_frame g i rs g2 rs2 hch
      by_cases hji : j = i
      · subst hji
        exact ⟨g, rs, g2, rs2, ⟨g.ghosts, rfl⟩, rfl, hch,
          (handle_ghosts_loop_ghosts is _ _ _ _ hnd h).1 j hi⟩
      · have hjs : j ∈ is := by
          rcases List.mem_cons.mp hj with x | x
          · exact absurd x hji
          · exact x
        have hc2 : (move_ghost g2 i).maze_completed = FALSE := by rw [e]; exact hc
        obtain ⟨s, r2, s1, r3, ⟨gs2, es⟩, a1, a2, a3⟩ := ih _ _ _ _ hnd hc2 h j hjs
        refine ⟨s, r2, s1, r3, ⟨gs2, ?_⟩, ?_, a2, a3⟩
        · rw [es, e]
        · rw [a1]
          exact (ghost_pass g i rs g2 rs2 hch).1 j hji

/-- The pass of ghost `j` in a `handle_ghosts` call with the maze not completed. -/
theorem handle_ghosts_pass (g : Game) (rs : List Nat) (g1 : Game) (rs1 : List Nat)
    (hc : g.maze_completed = FALSE) (h : handle_ghosts g rs = some (g1, rs1)) (j : Nat) :
    (¬ (j : Int) < g.NUM_GHOSTS → ghost_at g1 j = ghost_at g j) ∧
    ((j : Int) < g.NUM_GHOSTS →
      ∃ s rs2 s1 rs3,
        (∃ gs, s = { g with ghosts := gs,
                            powerpill_active_timer := g.powerpill_active_timer - 1 }) ∧
        ((ghost_at g j).status ≠ 2 → ghost_at s j = ghost_at g j) ∧
        ((ghost_at g j).status = 2 → (ghost_at s j).status = 1 ∨ (ghost_at s j).status = 2) ∧
        choose_ghost_direction s j rs2 = some (s1, rs3) ∧
        ghost_at g1 j = ghost_at (move_ghost s1 j) j) := by
  unfold handle_ghosts at h
  simp only at h
  have a : ∃ gs, (if g.powerpill_active_timer - 1 = 0 then
      revert_ghosts { g with powerpill_active_timer := g.powerpill_active_timer - 1 }
      else { g with powerpill_active_timer := g.powerpill_active_timer - 1 }) =
      { g with ghosts := gs, powerpill_active_timer := g.powerpill_active_timer - 1 } := by
    split_ifs
    · obtain ⟨gs, e⟩ := revert_ghosts_frame
        { g with powerpill_active_timer := g.powerpill_active_timer - 1 }
      exact ⟨gs, e⟩
    · exact ⟨g.ghosts, rfl⟩
  have b : ∀ j : Nat, ghost_at (if g.powerpill_active_timer - 1 = 0 then
      revert_ghosts { g with powerpill_active_timer := g.powerpill_active_timer - 1 }
      else { g with powerpill_active_timer := g.powerpill_active_timer - 1 }) j =
      if g.powerpill_active_timer - 1 = 0 ∧ (j : Int) < g.NUM_GHOSTS ∧ (ghost_at g j).status = 2
        then { ghost_at g j with status := 1 } else ghost_at g j := by
    intro j
    by_cases h0 : g.powerpill_active_timer - 1 = 0
    · rw [if_pos h0]
      have r2 : ghost_at (revert_ghosts
          { g with powerpill_active_timer := g.powerpill_active_timer - 1 }) j =
          if (j : Int) < g.NUM_GHOSTS ∧ (ghost_at g j).status = 2
            then { ghost_at g j with status := 1 } else ghost_at g j :=
        revert_ghosts_spec { g with powerpill_active_timer := g.powerpill_active_timer - 1 } hc j
      rw [r2]
      by_cases hx : (j : Int) < g.NUM_GHOSTS ∧ (ghost_at g j).status = 2
      · rw [if_pos hx, if_pos ⟨h0, hx⟩]
      · rw [if_neg hx, if_neg (fun x => hx x.2)]
    · rw [if_neg h0, if_neg (fun x => h0 x.1)]
      rfl
  obtain ⟨gs, e⟩ := a
  have hn : (if g.powerpill_active_timer - 1 = 0 then
      revert_ghosts { g with powerpill_active_timer := g.powerpill_active_timer - 1 }
      else { g with powerpill_active_timer := g.powerpill_active_timer - 1 }).NUM_GHOSTS
        = g.NUM_GHOSTS := by rw [e]
  have hm : (if g.powerpill_active_timer - 1 = 0 then
      revert_ghosts { g with powerpill_active_timer := g.powerpill_active_timer - 1 }
      else { g with powerpill_active_timer := g.powerpill_active_timer - 1 }).maze_completed
        = FALSE := by rw [e]; exact hc
  constructor
  · intro hj
    rw [(handle_ghosts_loop_ghosts _ _ _ _ _ (List.nodup_range _) h).1 j
      (fun x => hj (by rw [mem_range_toNat, hn] at x; exact x)), b j,
      if_neg (fun x => hj x.2.1)]
  · intro hj
    obtain ⟨s, r2, s1, r3, ⟨gs2, es⟩, a1, a2, a3⟩ :=
      handle_ghosts_loop_pass _ _ _ _ _ (List.nodup_range _) hm h j
        (by rw [mem_range_toNat, hn]; exact hj)
    refine ⟨s, r2, s1, r3, ⟨gs2, by rw [es, e]⟩, ?_, ?_, a2, a3⟩
    · intro h2
      rw [a1, b j, if_neg (fun x => h2 x.2.2)]
    · intro h2
      rw [a1, b j]
      by_cases h0 : g.powerpill_active_timer - 1 = 0
      · rw [if_pos ⟨h0, hj, h2⟩]
        exact Or.inl rfl
      · rw [if_neg (fun x => h0 x.1)]
        exact Or.inr h2

/-! ## Recharging -/

/-- The `handle_ghosts` call in which ghost `j` becomes recharging leaves it aligned, at
rest (direction 0), with 199 on its countdown. -/
theorem recharge_arrival (g : Game) (rs : List Nat) (g1 : Game) (rs1 : List Nat) (j : Nat)
    (hc : g.maze_completed = FALSE) (h : handle_ghosts g rs = some (g1, rs1))
    (h0 : (ghost_at g j).status ≠ 4) (h1 : (ghost_at g1 j).status = 4) :
    (j : Int) < g.NUM_GHOSTS ∧ ghost_in_middle g1 j ∧ (ghost_at g1 j).direction = 0 ∧
    (ghost_at g1 j).recharge_timer = 199 := by
  obtain ⟨p1, p2⟩ := handle_ghosts_pass g rs g1 rs1 hc h j
  have hj : (j : Int) < g.NUM_GHOSTS := by
    by_contra hn
    rw [p1 hn] at h1
    exact h0 h1
  obtain ⟨s, r2, s1, r3, ⟨gs, es⟩, a1, a2, a3, a4⟩ := p2 hj
  obtain ⟨gs1, e1⟩ := handle_ghosts_frame g rs g1 rs1 h
  have hs1 : (ghost_at s1 j).status = 4 := by
    rw [← (move_ghost_fields s1 j).1, ← a4]; exact h1
  have hs0 : (ghost_at s j).status ≠ 4 := by
    by_cases h2 : (ghost_at g j).status = 2
    · rcases a2 h2 with x | x <;> rw [x] <;> decide
    · rw [a1 h2]; exact h0
  obtain ⟨m, e⟩ := ghost_arrival s j r2 s1 r3 a3 hs0 hs1
  have d0 : (ghost_at s1 j).direction = 0 := by rw [e]
  have e2 : ghost_at g1 j = ghost_at s1 j := by
    rw [a4]; exact (move_ghost_ghost s1 j).2.2.2 d0
  refine ⟨hj, ?_, by rw [e2, e], by rw [e2, e]⟩
  refine (ghost_in_middle_congr g1 s j ?_ ?_ ?_ ?_).2 m
  · rw [e2, e]
  · rw [e2, e]
  · rw [e1, es]
  · rw [e1, es]

/-- One `handle_ghosts` call on a ghost `j` that is recharging, aligned and at rest: the
countdown drops by one and nothing else of the ghost changes while the countdown was not 0,
and the ghost is a patrol ghost with countdown 0 afterwards when it was 0. -/
theorem recharge_step (g : Game) (rs : List Nat) (g1 : Game) (rs1 : List Nat) (j : Nat)
    (hc : g.maze_completed = FALSE) (h : handle_ghosts g rs = some (g1, rs1))
    (hj : (j : Int) < g.NUM_GHOSTS) (hm : ghost_in_middle g j)
    (h4 : (ghost_at g j).status = 4) (d0 : (ghost_at g j).direction = 0) :
    ((ghost_at g j).recharge_timer ≠ 0 →
      ghost_at g1 j = { ghost_at g j with recharge_timer := (ghost_at g j).recharge_timer - 1 }) ∧
    ((ghost_at g j).recharge_timer = 0 →
      (ghost_at g1 j).status = 1 ∧ (ghost_at g1 j).recharge_timer = 0) := by
  obtain ⟨-, p2⟩ := handle_ghosts_pass g rs g1 rs1 hc h j
  obtain ⟨s, r2, s1, r3, ⟨gs, es⟩, a1, -, a3, a4⟩ := p2 hj
  have eg : ghost_at s j = ghost_at g j := a1 (by rw [h4]; decide)
  have ms : ghost_in_middle s j :=
    (ghost_in_middle_congr s g j (by rw [eg]) (by rw [eg]) (by rw [es]) (by rw [es])).2 hm
  obtain ⟨c1, c2⟩ := ghost_countdown s j r2 s1 r3 a3 ms (by rw [eg]; exact h4)
  rw [eg] at c1 c2
  constructor
  · intro ht
    have e := (c1 ht).2 d0
    have d1 : (ghost_at s1 j).direction = 0 := by rw [e]; exact d0
    rw [a4, (move_ghost_ghost s1 j).2.2.2 d1, e]
  · intro ht
    obtain ⟨e, -⟩ := c2 ht
    obtain ⟨f1, f2, -⟩ := move_ghost_fields s1 j
    rw [a4, f1, f2, e]
    exact ⟨rfl, rfl⟩

theorem recharge_frames (f : Game → Game) (j : Nat) (hf : keeps_ghost f j) (g1 : Game)
    (rs1 : List Nat) (hc : g1.maze_completed = FALSE) (hj : (j : Int) < g1.NUM_GHOSTS)
    (hm : ghost_in_middle g1 j) (h4 : (ghost_at g1 j).status = 4)
    (d0 : (ghost_at g1 j).direction = 0) (ht : (ghost_at g1 j).recharge_timer = 199) :
    ∀ (k : Nat) (gk : Game) (rsk : List Nat), ghost_frames f k g1 rs1 = some (gk, rsk) →
      k ≤ 199 →
      gk.maze_completed = FALSE ∧ gk.NUM_GHOSTS = g1.NUM_GHOSTS ∧ ghost_in_middle gk j ∧
      (ghost_at gk j).status = 4 ∧ (ghost_at gk j).direction = 0 ∧
      (ghost_at gk j).recharge_timer = 199 - k := by
  intro k
  induction k with
  | zero =>
    intro gk rsk h _
    simp only [ghost_frames, Option.some.injEq, Prod.mk.injEq] at h
    rw [← h.1]
    exact ⟨hc, rfl, hm, h4, d0, by rw [ht]; rfl⟩
  | succ k ih =>
    intro gk rsk h hk
    obtain ⟨a, ra, ha, hb⟩ := ghost_frames_succ f k g1 rs1 gk rsk h
    obtain ⟨i1, i2, i3, i4, i5, i6⟩ := ih a ra ha (by omega)
    obtain ⟨k1, k2, k3, k4, k5⟩ := hf a
    obtain ⟨gs, e⟩ := handle_ghosts_frame (f a) ra gk rsk hb
    have mf : ghost_in_middle (f a) j :=
      (ghost_in_middle_congr (f a) a j (by rw [k1]) (by rw [k1]) k2 k3).2 i3
    have st := (recharge_step (f a) ra gk rsk j (by rw [k4]; exact i1) hb
      (by rw [k5, i2]; exact hj) mf (by rw [k1]; exact i4) (by rw [k1]; exact i5)).1
      (by rw [k1, i6]; omega)
    rw [k1] at st
    refine ⟨by rw [e]; exact k4.trans i1, by rw [e]; exact k5.trans i2, ?_, by rw [st]; exact i4,
      by rw [st]; exact i5, by rw [st]; show (ghost_at a j).recharge_timer - 1 = _; rw [i6]; omega⟩
    refine (ghost_in_middle_congr gk (f a) j (by rw [st, k1]) (by rw [st, k1]) (by rw [e])
      (by rw [e])).2 mf

/-- C21. Recharge duration: with the maze not completed, when ghost `j` is not recharging
before a `handle_ghosts` call and is recharging (status 4) after it, its countdown is 199
after that call; and when the rest of each following frame, `f`, leaves the ghost, the
maze offsets, `maze_completed` and `NUM_GHOSTS` alone, the ghost has status 4 and
countdown `199 - k` after each of the next `k ≤ 199` calls, and has status 1 with
countdown 0 after the 200th. -/
theorem recharge_duration (f : Game → Game) (j : Nat) (g : Game) (rs : List Nat) (g1 : Game)
    (rs1 : List Nat) (hf : keeps_ghost f j) (hc : g.maze_completed = FALSE)
    (h0 : (ghost_at g j).status ≠ 4) (h : handle_ghosts g rs = some (g1, rs1))
    (h1 : (ghost_at g1 j).status = 4) :
    (ghost_at g1 j).recharge_timer = 199 ∧
    ∀ (k : Nat) (gk : Game) (rsk : List Nat), ghost_frames f k g1 rs1 = some (gk, rsk) →
      (k ≤ 199 → (ghost_at gk j).status = 4 ∧ (ghost_at gk j).recharge_timer = 199 - k) ∧
      (k = 200 → (ghost_at gk j).status = 1 ∧ (ghost_at gk j).recharge_timer = 0) := by
  obtain ⟨hj, hm, d0, ht⟩ := recharge_arrival g rs g1 rs1 j hc h h0 h1
  obtain ⟨gs, e⟩ := handle_ghosts_frame g rs g1 rs1 h
  have hc1 : g1.maze_completed = FALSE := by rw [e]; exact hc
  have hj1 : (j : Int) < g1.NUM_GHOSTS := by rw [e]; exact hj
  have fr := recharge_frames f j hf g1 rs1 hc1 hj1 hm h1 d0 ht
  refine ⟨ht, fun k gk rsk hk => ⟨fun hle => ?_, fun h200 => ?_⟩⟩
  · obtain ⟨-, -, -, i4, -, i6⟩ := fr k gk rsk hk hle
    exact ⟨i4, i6⟩
  · subst h200
    obtain ⟨a, ra, ha, hb⟩ := ghost_frames_succ f 199 g1 rs1 gk rsk hk
    obtain ⟨i1, i2, i3, i4, i5, i6⟩ := fr 199 a ra ha (le_refl _)
    obtain ⟨k1, k2, k3, k4, k5⟩ := hf a
    have mf : ghost_in_middle (f a) j :=
      (ghost_in_middle_congr (f a) a j (by rw [k1]) (by rw [k1]) k2 k3).2 i3
    exact (recharge_step (f a) ra gk rsk j (by rw [k4]; exact i1) hb
      (by rw [k5, i2]; exact hj1) mf (by rw [k1]; exact i4) (by rw [k1]; exact i5)).2
      (by rw [k1, i6]; rfl)

theorem recharge_duration_witness :
    (ghost_at demo_home 0).status = 3 ∧
    (ghost_at demo_home_after 0).status = 4 ∧ (ghost_at demo_home_after 0).recharge_timer = 199 ∧
    (ghost_at demo_home_twice 0).status = 4 ∧ (ghost_at demo_home_twice 0).recharge_timer = 198 :=
  have w := recharge_duration id 0 demo_home [] demo_home_after []
    (fun _ => ⟨rfl, rfl, rfl, rfl, rfl⟩) (by decide) (by decide) (by decide) (by decide)
  have w1 := (w.2 1 demo_home_twice [] (by decide)).1 (by decide)
  ⟨by decide, by decide, w.1, w1.1, w1.2⟩

/-! ## The facing after recharge -/

theorem centre_flags (g : Game) (hc : center_named_open g) :
    (ghost_flag g 4 4 LEFT = 1 ↔ g.maze_center_open = LEFT) ∧
    (ghost_flag g 4 4 RIGHT = 1 ↔ g.maze_center_open = RIGHT) ∧
    (ghost_flag g 4 4 UP = 1 ↔ g.maze_center_open = UP) ∧
    (ghost_flag g 4 4 DOWN = 1 ↔ g.maze_center_open = DOWN) := by
  obtain ⟨-, c1, c2, c3, c4⟩ := hc
  refine ⟨?_, ?_, ?_, ?_⟩
  · rw [← c1]
    show (if line_at g.vertical_lines 4 4 = '|' then (0 : Int) else 1) = 1 ↔ _
    split_ifs with h <;> simp [h]
  · rw [← c2]
    show (if line_at g.vertical_lines 4 5 = '|' then (0 : Int) else 1) = 1 ↔ _
    split_ifs with h <;> simp [h]
  · rw [← c3]
    show (if line_at g.horizontal_lines 4 4 = 'x' then (0 : Int) else 1) = 1 ↔ _
    split_ifs with h <;> simp [h]
  · rw [← c4]
    show (if line_at g.horizontal_lines 5 4 = 'x' then (0 : Int) else 1) = 1 ↔ _
    split_ifs with h <;> simp [h]

/-- C22, as the code has it. Facing after recharge: when the centre cell has exactly the
opening named by `maze_center_open`, a recharging ghost in cell (4,4) that returns to
patrol (status 4 to 1) in a `choose_ghost_direction` call leaves the call facing the side
on which the centre cell is open: the default DOWN is kept only when that side is DOWN. -/
theorem recharge_facing (g : Game) (i : Nat) (rs : List Nat) (g1 : Game) (rs1 : List Nat)
    (hc : center_named_open g) (hcell : ghost_cell g i = (4, 4))
    (h4 : (ghost_at g i).status = 4) (h : choose_ghost_direction g i rs = some (g1, rs1))
    (h1 : (ghost_at g1 i).status = 1) :
    (ghost_at g1 i).direction = g.maze_center_open ∧
    ((ghost_at g1 i).direction = DOWN ↔ g.maze_center_open = DOWN) := by
  have key : (ghost_at g1 i).direction = g.maze_center_open := by
    by_cases hm : ghost_in_middle g i
    · obtain ⟨c1, c2⟩ := ghost_countdown g i rs g1 rs1 h hm h4
      by_cases ht : (ghost_at g i).recharge_timer = 0
      · obtain ⟨-, hw⟩ := c2 ht
        rw [hcell] at hw
        obtain ⟨f1, f2, f3, f4⟩ := centre_flags g hc
        have hw2 : choose_case 5 (ghost_flag g 4 4 DOWN) (ghost_flag g 4 4 LEFT)
            (ghost_flag g 4 4 RIGHT) DOWN LEFT RIGHT UP rs
              = some ((ghost_at g1 i).direction, rs1) := hw
        rcases choose_case_open _ _ _ _ _ _ _ _ _ _ _ hw2 with e | e | e | e
        · rw [e.1]; exact (f4.1 e.2).symm
        · rw [e.1]; exact (f1.1 e.2).symm
        · rw [e.1]; exact (f2.1 e.2).symm
        · rw [e.1]
          rcases hc.1 with o | o | o | o
          · exact absurd (f1.2 o) e.2.2.1
          · exact absurd (f2.2 o) e.2.2.2
          · exact o.symm
          · exact absurd (f4.2 o) e.2.1
      · rw [(c1 ht).1] at h1
        exact absurd h1 (by decide)
    · rw [choose_ghost_direction_eq, if_neg hm] at h
      simp only [Option.some.injEq, Prod.mk.injEq] at h
      rw [← h.1, h4] at h1
      exact absurd h1 (by decide)
  exact ⟨key, by rw [key]⟩

theorem default_facing_counterexample :
    center_named_open demo_left ∧ demo_left.maze_center_open = LEFT ∧
    ghost_cell demo_left 0 = (4, 4) ∧ (ghost_at demo_left 0).status = 4 ∧
    choose_ghost_direction demo_left 0 [0] = some (demo_left_after, []) ∧
    (ghost_at demo_left_after 0).status = 1 ∧
    (ghost_at demo_left_after 0).direction = LEFT ∧
    (ghost_at demo_left_after 0).direction ≠ DOWN :=
  ⟨by unfold center_named_open; decide, by decide, by decide, by decide, by decide, by decide,
    by decide, by decide⟩

theorem recharge_facing_witness :
    choose_ghost_direction demo_left 0 [0] = some (demo_left_after, []) ∧
    (ghost_at demo_left_after 0).direction = demo_left.maze_center_open :=
  ⟨by decide, (recharge_facing demo_left 0 [0] demo_left_after []
    (by unfold center_named_open; decide) (by decide) (by decide) (by decide) (by decide)).1⟩

/-! ## Name entry -/

theorem print_high_score_char_spec (g : Game) (c : Int)
    (h0 : 0 ≤ g.high_score_character_pos) (h5 : g.high_score_character_pos ≤ 5) :
    print_high_score_char g c = some
      { g with
        high_score_name :=
          if c ≠ 13 then
            g.high_score_name.set g.high_score_character_pos.toNat (Char.ofNat c.toNat)
          else g.high_score_name,
        high_score_character_pos := g.high_score_character_pos + 1,
        high_score_registration :=
          if g.high_score_character_pos + 1 > 5 ∨ c = 13 then FALSE
          else g.high_score_registration } := by
  unfold print_high_score_char
  rw [if_neg (by omega)]
  simp only
  split_ifs <;> rfl

theorem get_user_input_key_closed (g : Game) (sym : Int)
    (hr : g.high_score_registration ≠ TRUE) : get_user_input_key g sym = some g := by
  unfold get_user_input_key
  rw [if_neg hr]
  split_ifs <;> rfl

theorem get_user_input_keys_closed (syms : List Int) (g : Game)
    (hr : g.high_score_registration ≠ TRUE) : get_user_input_keys syms g = some g := by
  induction syms with
  | nil => rfl
  | cons s ss ih => rw [get_user_input_keys, get_user_input_key_closed g s hr]; exact ih

theorem get_user_input_key_other (g : Game) (sym : Int) (ha : ¬ key_accepted sym) :
    get_user_input_key g sym = some g := by
  unfold key_accepted at ha
  unfold get_user_input_key
  rw [if_neg ha]

theorem get_user_input_key_char (g : Game) (sym : Int) (ha : key_accepted sym)
    (hr : g.high_score_registration = TRUE) :
    get_user_input_key g sym = print_high_score_char g sym := by
  unfold key_accepted at ha
  unfold get_user_input_key
  rw [if_pos ha, if_pos hr]

/-- A run of key presses from an open name entry at position `p` in 0..5: the accepted
keys before the first Return are written from `p` on, at most `6 - p` of them; the entry
is closed by a Return or by the key that fills index 5, and is open otherwise. -/
theorem name_entry_run : ∀ (syms : List Int) (g : Game),
    g.high_score_registration = TRUE → 0 ≤ g.high_score_character_pos →
    g.high_score_character_pos ≤ 5 →
    ∃ g1, get_user_input_keys syms g = some g1 ∧
      g1.high_score_name = entered_name g.high_score_name g.high_score_character_pos.toNat
        ((stored_keys syms).take (6 - g.high_score_character_pos.toNat)) ∧
      ((13 ∉ syms.filter (fun s => decide (key_accepted s)) ∧
        g.high_score_character_pos +
          ((syms.filter (fun s => decide (key_accepted s))).length : Int) < 6) →
          g1.high_score_registration = TRUE) ∧
      ((13 ∈ syms.filter (fun s => decide (key_accepted s)) ∨
        6 ≤ g.high_score_character_pos +
          ((syms.filter (fun s => decide (key_accepted s))).length : Int)) →
          g1.high_score_registration = FALSE) := by
  intro syms
  induction syms with
  | nil =>
    intro g hr h0 h5
    refine ⟨g, rfl, ?_, fun _ => hr, ?_⟩
    · simp [stored_keys, entered_name]
    · intro h
      simp only [List.filter_nil, List.not_mem_nil, List.length_nil, false_or] at h
      omega
  | cons s ss ih =>
    intro g hr h0 h5
    by_cases ha : key_accepted s
    · have hf : (s :: ss).filter (fun s => decide (key_accepted s)) =
          s :: ss.filter (fun s => decide (key_accepted s)) := by
        rw [List.filter_cons, if_pos (by simpa using ha)]
      rw [get_user_input_keys, get_user_input_key_char g s ha hr,
        print_high_score_char_spec g s h0 h5, hf]
      simp only
      by_cases hc : s = 13
      · have hk : stored_keys (s :: ss) = [] := by
          unfold stored_keys
          rw [hf, List.takeWhile_cons, if_neg (by simpa using hc)]
        rw [get_user_input_keys_closed ss _ (by
          show (if g.high_score_character_pos + 1 > 5 ∨ s = 13 then FALSE
            else g.high_score_registration) ≠ TRUE
          rw [if_pos (Or.inr hc)]; decide)]
        refine ⟨_, rfl, ?_, ?_, ?_⟩
        · rw [hk]
          show (if s ≠ 13 then _ else g.high_score_name) = _
          rw [if_neg (by simpa using hc)]
          simp [entered_name]
        · intro h
          exact absurd (hc ▸ List.mem_cons_self s _) h.1
        · intro _
          show (if g.high_score_character_pos + 1 > 5 ∨ s = 13 then FALSE
            else g.high_score_registration) = FALSE
          rw [if_pos (Or.inr hc)]
      · have hk : stored_keys (s :: ss) = s :: stored_keys ss := by
          unfold stored_keys
          rw [hf, List.takeWhile_cons, if_pos (by simpa using hc)]
        have ht : (stored_keys (s :: ss)).take (6 - g.high_score_character_pos.toNat) =
            s :: (stored_keys ss).take (6 - (g.high_score_character_pos.toNat + 1)) := by
          rw [hk]
          obtain ⟨n, hn⟩ : ∃ n, 6 - g.high_score_character_pos.toNat = n + 1 :=
            ⟨5 - g.high_score_character_pos.toNat, by omega⟩
          rw [hn, List.take_succ_cons]
          congr 2
          omega
        by_cases h6 : g.high_score_character_pos = 5
        · rw [get_user_input_keys_closed ss _ (by
            show (if g.high_score_character_pos + 1 > 5 ∨ s = 13 then FALSE
              else g.high_score_registration) ≠ TRUE
            rw [if_pos (Or.inl (by omega))]; decide)]
          refine ⟨_, rfl, ?_, ?_, ?_⟩
          · rw [ht]
            show (if s ≠ 13 then _ else g.high_score_name) = _
            rw [if_pos hc, h6]
            simp [entered_name]
          · intro h
            rw [List.length_cons] at h
            push_cast at h
            omega
          · intro _
            show (if g.high_score_character_pos + 1 > 5 ∨ s = 13 then FALSE
              else g.high_score_registration) = FALSE
            rw [if_pos (Or.inl (by omega))]
        · obtain ⟨g2, hg2⟩ : ∃ g2 : Game, g2 =
              { g with
                high_score_name :=
                  if s ≠ 13 then
                    g.high_score_name.set g.high_score_character_pos.toNat (Char.ofNat s.toNat)
                  else g.high_score_name,
                high_score_character_pos := g.high_score_character_pos + 1,
                high_score_registration :=
                  if g.high_score_character_pos + 1 > 5 ∨ s = 13 then FALSE
                  else g.high_score_registration } := ⟨_, rfl⟩
          have hp : g2.high_score_character_pos = g.high_score_character_pos + 1 := by rw [hg2]
          have hn : g2.high_score_name =
              g.high_score_name.set g.high_score_character_pos.toNat (Char.ofNat s.toNat) := by
            rw [hg2]; exact if_pos hc
          have hreg : g2.high_score_registration = TRUE := by
            rw [hg2]
            show (if g.high_score_character_pos + 1 > 5 ∨ s = 13 then FALSE
              else g.high_score_registration) = TRUE
            rw [if_neg (by
              intro x
              rcases x with x | x
              · omega
              · exact hc x)]
            exact hr
          rw [← hg2]
          obtain ⟨g1, e1, e2, e3, e4⟩ := ih g2 hreg (by rw [hp]; omega) (by rw [hp]; omega)
          rw [hp] at e2 e3 e4
          rw [hn] at e2
          have t1 : (g.high_score_character_pos + 1).toNat =
              g.high_score_character_pos.toNat + 1 := by omega
          rw [t1] at e2
          refine ⟨g1, e1, ?_, ?_, ?_⟩
          · rw [e2, ht, entered_name]
          · intro h
            apply e3
            rw [List.length_cons] at h
            push_cast at h
            exact ⟨fun x => h.1 (List.mem_cons_of_mem _ x), by omega⟩
          · intro h
            apply e4
            rw [List.length_cons] at h
            push_cast at h
            rcases h with h | h
            · rcases List.mem_cons.mp h with x | x
              · exact absurd x.symm hc
              · exact Or.inl x
            · exact Or.inr (by omega)
    · have hf : (s :: ss).filter (fun s => decide (key_accepted s)) =
          ss.filter (fun s => decide (key_accepted s)) := by
        rw [List.filter_cons, if_neg (by simpa using ha)]
      have hk : stored_keys (s :: ss) = stored_keys ss := by
        unfold stored_keys
        rw [hf]
      rw [get_user_input_keys, get_user_input_key_other g s ha, hf, hk]
      exact ih g hr h0 h5

theorem draw_munchkin_frame (g : Game) :
    ∃ a d f r p, draw_munchkin g =
      { g with munchkin_animation_frame := a, munchkin_dying_animation := d,
               flash_high_score_timer := f, high_score_registration := r,
               high_score_character_pos := p } ∧
      ((r = g.high_score_registration ∧ p = g.high_score_character_pos) ∨ (r = TRUE ∧ p = 0)) := by
  have p1 : ∃ a, (if g.maze_completed = FALSE then
        if g.munchkin_last_direction ≠ 0 then
          { g with munchkin_animation_frame :=
              if g.munchkin_animation_frame + 1 = 6 then 0 else g.munchkin_animation_frame + 1 }
        else g
      else g) = { g with munchkin_animation_frame := a } := by
    split_ifs <;> exact ⟨_, rfl⟩
  obtain ⟨a, ea⟩ := p1
  unfold draw_munchkin
  simp only
  rw [ea]
  by_cases hd : g.munchkin_dying = TRUE
  · rw [if_pos hd]
    have p2 : ∃ f, (if g.munchkin_dying_animation = 7 then
          ({ ({ g with munchkin_animation_frame := a } : Game) with
            flash_high_score_timer := 55 } : Game)
        else { g with munchkin_animation_frame := a }) =
        { g with munchkin_animation_frame := a, flash_high_score_timer := f } := by
      split_ifs <;> exact ⟨_, rfl⟩
    obtain ⟨f, ef⟩ := p2
    rw [ef]
    by_cases h7 : c_mod g.frame 7 = 0
    · rw [if_pos h7]
      by_cases h8 : g.munchkin_dying_animation + 1 ≥ 8
      · rw [if_pos h8]
        by_cases h25 : g.munchkin_dying_animation + 1 = 25
        · rw [if_pos h25]
          by_cases hb : g.high_score_broken = TRUE
          · rw [if_pos hb]
            exact ⟨_, _, _, _, _, rfl, Or.inr ⟨rfl, rfl⟩⟩
          · rw [if_neg hb]
            exact ⟨_, _, _, _, _, rfl, Or.inl ⟨rfl, rfl⟩⟩
        · rw [if_neg h25]
          exact ⟨_, _, _, _, _, rfl, Or.inl ⟨rfl, rfl⟩⟩
      · rw [if_neg h8]
        exact ⟨_, _, _, _, _, rfl, Or.inl ⟨rfl, rfl⟩⟩
    · rw [if_neg h7]
      exact ⟨_, _, _, _, _, rfl, Or.inl ⟨rfl, rfl⟩⟩
  · rw [if_neg hd]
    exact ⟨_, _, _, _, _, rfl, Or.inl ⟨rfl, rfl⟩⟩

theorem draw_munchkin_entry (g : Game) :
    (draw_munchkin g).high_score_name = g.high_score_name ∧
    ((draw_munchkin g).high_score_registration = g.high_score_registration ∧
      (draw_munchkin g).high_score_character_pos = g.high_score_character_pos ∨
    (draw_munchkin g).high_score_registration = TRUE ∧
      (draw_munchkin g).high_score_character_pos = 0) := by
  obtain ⟨a, d, f, r, p, e, h⟩ := draw_munchkin_frame g
  rw [e]
  exact ⟨rfl, h⟩

/-- C27. Name entry is capped at 6 characters: from an open entry at position 0, a run of
key presses through the event loop of `get_user_input` returns (no write falls outside
indices 0..5), and the name after it is the old name with the accepted keys before the
first Return written from index 0 on, at most six of them; the entry is closed once a
Return or six accepted keys have come and is open until then; once it is closed any
further key presses leave the state, and with it the name, as it is.  `draw_munchkin`,
which opens the entry, leaves the name alone and opens it at position 0 only. -/
theorem name_entry_capped (g : Game) (syms : List Int)
    (hr : g.high_score_registration = TRUE) (hp : g.high_score_character_pos = 0) :
    (∃ g1, get_user_input_keys syms g = some g1 ∧
      g1.high_score_name = entered_name g.high_score_name 0 ((stored_keys syms).take 6) ∧
      ((13 ∈ syms.filter (fun s => decide (key_accepted s)) ∨
        6 ≤ (syms.filter (fun s => decide (key_accepted s))).length) →
          g1.high_score_registration = FALSE) ∧
      ((13 ∉ syms.filter (fun s => decide (key_accepted s)) ∧
        (syms.filter (fun s => decide (key_accepted s))).length < 6) →
          g1.high_score_registration = TRUE) ∧
      (g1.high_score_registration = FALSE →
        ∀ more, get_user_input_keys more g1 = some g1)) ∧
    (∀ s : Game, (draw_munchkin s).high_score_name = s.high_score_name ∧
      ((draw_munchkin s).high_score_registration = s.high_score_registration ∧
        (draw_munchkin s).high_score_character_pos = s.high_score_character_pos ∨
      (draw_munchkin s).high_score_registration = TRUE ∧
        (draw_munchkin s).high_score_character_pos = 0)) := by
  refine ⟨?_, draw_munchkin_entry⟩
  obtain ⟨g1, e1, e2, e3, e4⟩ := name_entry_run syms g hr (by omega) (by omega)
  rw [hp] at e2 e3 e4
  refine ⟨g1, e1, e2, ?_, ?_, ?_⟩
  · intro h
    apply e4
    rcases h with h | h
    · exact Or.inl h
    · exact Or.inr (by omega)
  · intro h
    exact e3 ⟨h.1, by omega⟩
  · intro h more
    exact get_user_input_keys_closed more g1 (by rw [h]; decide)

theorem name_entry_capped_witness :
    ∃ g1, get_user_input_keys [109, 97, 120, 13, 113] demo_entry = some g1 ∧
      g1.high_score_name = entered_name demo_entry.high_score_name 0 [109, 97, 120] ∧
      g1.high_score_registration = FALSE :=
  (name_entry_capped demo_entry [109, 97, 120, 13, 113] (by decide) (by decide)).1.elim
    fun g1 h => ⟨g1, h.1, h.2.1, h.2.2.1 (by decide)⟩

/-! ## The title screen -/

theorem setup_pills_returns (s : Game) (m : Nat) (hm : 4 * s.NUM_PILLS.toNat ≤ m) :
    ∃ g1 rs1, setup_pills s (List.replicate m 0) = some (g1, rs1) := by
  unfold setup_pills
  simp only
  have h0 := setup_pill_fixed_trans s s ⟨s.pills, rfl⟩ 0 0 0 4 2
  have h1 := setup_pill_fixed_trans s _ h0 1 1 0 1 1
  have h2 := setup_pill_fixed_trans s _ h1 2 0 1 2 1
  have h3 := setup_pill_fixed_trans s _ h2 3 7 0 1 1
  have h4 := setup_pill_fixed_trans s _ h3 4 8 0 4 2
  have h5 := setup_pill_fixed_trans s _ h4 5 8 1 1 1
  have h6 := setup_pill_fixed_trans s _ h5 6 0 5 2 1
  have h7 := setup_pill_fixed_trans s _ h6 7 0 6 3 2
  have h8 := setup_pill_fixed_trans s _ h7 8 1 6 2 1
  have h9 := setup_pill_fixed_trans s _ h8 9 8 5 1 1
  have h10 := setup_pill_fixed_trans s _ h9 10 7 6 1 1
  have h11 := setup_pill_fixed_trans s _ h10 11 8 6 3 2
  obtain ⟨ps, e⟩ := h11
  rw [e]
  have hr : ∃ g2 rs2, (if ({ s with pills := ps } : Game).NUM_PILLS ≥ 13 then
      setup_pills_random ((List.range ({ s with pills := ps } : Game).NUM_PILLS.toNat).drop 12)
        { s with pills := ps } (List.replicate m 0)
      else some ({ s with pills := ps }, List.replicate m 0)) = some (g2, rs2) := by
    split_ifs
    · apply setup_pills_random_zero
      rw [List.length_drop, List.length_range]
      have : ({ s with pills := ps } : Game).NUM_PILLS = s.NUM_PILLS := rfl
      rw [this]; omega
    · exact ⟨_, _, rfl⟩
  obtain ⟨g2, rs2, e2⟩ := hr
  rw [e2]
  exact ⟨_, _, rfl⟩

/-- What `switch_active_mini_map` writes: the pills, `last_pill_speed_increased`, and the
scale and maze offsets, which it sets back. -/
theorem switch_active_mini_map_frame (g : Game) (m fac : Int) (rs : List Nat) (g1 : Game)
    (rs1 : List Nat) (h : switch_active_mini_map g m fac rs = some (g1, rs1)) :
    ∃ ps, g1 = { g with pills := ps, last_pill_speed_increased := 0, factor := fac,
                        MAZE_OFFSET_X := 9, MAZE_OFFSET_Y := 23 } := by
  unfold switch_active_mini_map at h
  simp only at h
  split at h
  · exact absurd h (by simp)
  · rename_i g3 rs3 hs
    simp only [Option.some.injEq, Prod.mk.injEq] at h
    obtain ⟨ps, e⟩ := setup_pills_frame _ _ _ _ hs
    rw [← h.1, e]
    split_ifs <;> exact ⟨ps, rfl⟩

theorem switch_active_mini_map_returns (g : Game) (ms fac : Int) (m : Nat)
    (hm : 4 * g.NUM_PILLS.toNat ≤ m) :
    ∃ g1 rs1, switch_active_mini_map g ms fac (List.replicate m 0) = some (g1, rs1) := by
  unfold switch_active_mini_map
  simp only
  have key : ∀ s : Game, s.NUM_PILLS = g.NUM_PILLS →
      ∃ g1 rs1, (match setup_pills s (List.replicate m 0) with
        | none => none
        | some (g3, rs1) =>
          some ({ g3 with MAZE_OFFSET_X := 9, MAZE_OFFSET_Y := 23, factor := fac }, rs1)) =
        some (g1, rs1) := by
    intro s hs
    obtain ⟨a, b, e⟩ := setup_pills_returns s m (by rw [hs]; exact hm)
    rw [e]
    exact ⟨_, _, rfl⟩
  split_ifs <;> exact key _ rfl

theorem title_arcade_spec (g : Game) (fac : Int) (rs : List Nat) (g1 : Game) (rs1 : List Nat)
    (h : title_arcade g fac rs = some (g1, rs1)) :
    (g.arcade_mode = FALSE → g1.arcade_mode = TRUE ∧ g1.maze_selected = 1 ∧
      g1.NUM_GHOSTS = 4 ∧ g1.NUM_PILLS = 12) ∧
    (g.arcade_mode ≠ FALSE → g1 = { g with arcade_mode := FALSE } ∧ rs1 = rs) := by
  unfold title_arcade at h
  by_cases ha : g.arcade_mode = FALSE
  · rw [if_pos ha] at h
    split at h
    · exact absurd h (by simp)
    · rename_i g2 rs2 hs
      simp only [Option.some.injEq, Prod.mk.injEq] at h
      obtain ⟨ps, e⟩ := switch_active_mini_map_frame _ _ _ _ _ _ hs
      rw [← h.1, e]
      exact ⟨fun _ => ⟨rfl, rfl, rfl, rfl⟩, fun x => absurd ha x⟩
  · rw [if_neg ha] at h
    simp only [Option.some.injEq, Prod.mk.injEq] at h
    exact ⟨fun x => absurd x ha, fun _ => ⟨h.1.symm, h.2.symm⟩⟩

theorem title_arcade_ok (g : Game) (fac : Int) (rs : List Nat) (g1 : Game) (rs1 : List Nat)
    (h : title_arcade g fac rs = some (g1, rs1)) (hs : settings_ok g) : settings_ok g1 := by
  obtain ⟨a, b⟩ := title_arcade_spec g fac rs g1 rs1 h
  by_cases ha : g.arcade_mode = FALSE
  · obtain ⟨-, a2, a3, a4⟩ := a ha
    unfold settings_ok
    rw [a2, a3, a4]
    decide
  · rw [(b ha).1]
    exact hs

/-- The `right` key on each row of the title screen. -/
theorem title_right_spec (g : Game) (row fac : Int) (rs : List Nat) (g1 : Game)
    (rs1 : List Nat) (h : title_right g row fac rs = some (g1, rs1)) :
    (row = 1 → g1.maze_selected = (if g.maze_selected + 1 = 5 then 1 else g.maze_selected + 1) ∧
      g1.NUM_GHOSTS = g.NUM_GHOSTS ∧ g1.NUM_PILLS = g.NUM_PILLS ∧
      g1.arcade_mode = g.arcade_mode) ∧
    (row = 2 → title_arcade g fac rs = some (g1, rs1)) ∧
    (row = 3 → g1 = { g with NUM_GHOSTS :=
      if g.NUM_GHOSTS + 1 > 10 then 10 else g.NUM_GHOSTS + 1 } ∧ rs1 = rs) ∧
    (row = 4 → g1 = { g with NUM_PILLS :=
      if g.NUM_PILLS + 1 > 99 then 99 else g.NUM_PILLS + 1 } ∧ rs1 = rs) ∧
    (row ≠ 1 → row ≠ 2 → row ≠ 3 → row ≠ 4 → g1 = g ∧ rs1 = rs) := by
  unfold title_right at h
  simp only at h
  by_cases r1 : row = 1
  · rw [if_pos r1] at h
    obtain ⟨ps, e⟩ := switch_active_mini_map_frame _ _ _ _ _ _ h
    subst r1
    refine ⟨fun _ => ?_, fun x => absurd x (by decide), fun x => absurd x (by decide),
      fun x => absurd x (by decide), fun x => absurd rfl x⟩
    rw [e]
    exact ⟨rfl, rfl, rfl, rfl⟩
  rw [if_neg r1] at h
  by_cases r2 : row = 2
  · rw [if_pos r2] at h
    subst r2
    exact ⟨fun x => absurd x (by decide), fun _ => h, fun x => absurd x (by decide),
      fun x => absurd x (by decide), fun _ x => absurd rfl x⟩
  rw [if_neg r2] at h
  by_cases r3 : row = 3
  · rw [if_pos r3] at h
    simp only [Option.some.injEq, Prod.mk.injEq] at h
    subst r3
    exact ⟨fun x => absurd x (by decide), fun x => absurd x (by decide),
      fun _ => ⟨h.1.symm, h.2.symm⟩, fun x => absurd x (by decide), fun _ _ x => absurd rfl x⟩
  rw [if_neg r3] at h
  by_cases r4 : row = 4
  · rw [if_pos r4] at h
    simp only [Option.some.injEq, Prod.mk.injEq] at h
    subst r4
    exact ⟨fun x => absurd x (by decide), fun x => absurd x (by decide),
      fun x => absurd x (by decide), fun _ => ⟨h.1.symm, h.2.symm⟩,
      fun _ _ _ x => absurd rfl x⟩
  rw [if_neg r4] at h
  simp only [Option.some.injEq, Prod.mk.injEq] at h
  exact ⟨fun x => absurd x r1, fun x => absurd x r2, fun x => absurd x r3,
    fun x => absurd x r4, fun _ _ _ _ => ⟨h.1.symm, h.2.symm⟩⟩

/-- The `left` key on each row of the title screen. -/
theorem title_left_spec (g : Game) (row fac : Int) (rs : List Nat) (g1 : Game)
    (rs1 : List Nat) (h : title_left g row fac rs = some (g1, rs1)) :
    (row = 1 → g1.maze_selected = (if g.maze_selected - 1 = 0 then 4 else g.maze_selected - 1) ∧
      g1.NUM_GHOSTS = g.NUM_GHOSTS ∧ g1.NUM_PILLS = g.NUM_PILLS ∧
      g1.arcade_mode = g.arcade_mode) ∧
    (row = 2 → title_arcade g fac rs = some (g1, rs1)) ∧
    (row = 3 → g1 = { g with NUM_GHOSTS :=
      if g.NUM_GHOSTS - 1 < 1 then 1 else g.NUM_GHOSTS - 1 } ∧ rs1 = rs) ∧
    (row = 4 → g1 = { g with NUM_PILLS :=
      if g.NUM_PILLS - 1 < 12 then 12 else g.NUM_PILLS - 1 } ∧ rs1 = rs) ∧
    (row ≠ 1 → row ≠ 2 → row ≠ 3 → row ≠ 4 → g1 = g ∧ rs1 = rs) := by
  unfold title_left at h
  simp only at h
  by_cases r1 : row = 1
  · rw [if_pos r1] at h
    obtain ⟨ps, e⟩ := switch_active_mini_map_frame _ _ _ _ _ _ h
    subst r1
    refine ⟨fun _ => ?_, fun x => absurd x (by decide), fun x => absurd x (by decide),
      fun x => absurd x (by decide), fun x => absurd rfl x⟩
    rw [e]
    exact ⟨rfl, rfl, rfl, rfl⟩
  rw [if_neg r1] at h
  by_cases r2 : row = 2
  · rw [if_pos r2] at h
    subst r2
    exact ⟨fun x => absurd x (by decide), fun _ => h, fun x => absurd x (by decide),
      fun x => absurd x (by decide), fun _ x => absurd rfl x⟩
  rw [if_neg r2] at h
  by_cases r3 : row = 3
  · rw [if_pos r3] at h
    simp only [Option.some.injEq, Prod.mk.injEq] at h
    subst r3
    exact ⟨fun x => absurd x (by decide), fun x => absurd x (by decide),
      fun _ => ⟨h.1.symm, h.2.symm⟩, fun x => absurd x (by decide), fun _ _ x => absurd rfl x⟩
  rw [if_neg r3] at h
  by_cases r4 : row = 4
  · rw [if_pos r4] at h
    simp only [Option.some.injEq, Prod.mk.injEq] at h
    subst r4
    exact ⟨fun x => absurd x (by decide), fun x => absurd x (by decide),
      fun x => absurd x (by decide), fun _ => ⟨h.1.symm, h.2.symm⟩,
      fun _ _ _ x => absurd rfl x⟩
  rw [if_neg r4] at h
  simp only [Option.some.injEq, Prod.mk.injEq] at h
  exact ⟨fun x => absurd x r1, fun x => absurd x r2, fun x => absurd x r3,
    fun x => absurd x r4, fun _ _ _ _ => ⟨h.1.symm, h.2.symm⟩⟩

theorem title_right_ok (g : Game) (row fac : Int) (rs : List Nat) (g1 : Game)
    (rs1 : List Nat) (h : title_right g row fac rs = some (g1, rs1)) (hs : settings_ok g) :
    settings_ok g1 := by
  obtain ⟨a1, a2, a3, a4, a5⟩ := title_right_spec g row fac rs g1 rs1 h
  obtain ⟨s1, s2, s3, s4, s5, s6⟩ := hs
  by_cases r1 : row = 1
  · obtain ⟨b1, b2, b3, -⟩ := a1 r1
    unfold settings_ok
    rw [b1, b2, b3]
    refine ⟨s1, s2, s3, s4, ?_, ?_⟩ <;> split_ifs <;> omega
  by_cases r2 : row = 2
  · exact title_arcade_ok g fac rs g1 rs1 (a2 r2) ⟨s1, s2, s3, s4, s5, s6⟩
  by_cases r3 : row = 3
  · rw [(a3 r3).1]
    unfold settings_ok
    refine ⟨?_, ?_, s3, s4, s5, s6⟩
    · show 1 ≤ (if g.NUM_GHOSTS + 1 > 10 then 10 else g.NUM_GHOSTS + 1)
      split_ifs <;> omega
    · show (if g.NUM_GHOSTS + 1 > 10 then 10 else g.NUM_GHOSTS + 1) ≤ 10
      split_ifs <;> omega
  by_cases r4 : row = 4
  · rw [(a4 r4).1]
    unfold settings_ok
    refine ⟨s1, s2, ?_, ?_, s5, s6⟩
    · show 12 ≤ (if g.NUM_PILLS + 1 > 99 then 99 else g.NUM_PILLS + 1)
      split_ifs <;> omega
    · show (if g.NUM_PILLS + 1 > 99 then 99 else g.NUM_PILLS + 1) ≤ 99
      split_ifs <;> omega
  rw [(a5 r1 r2 r3 r4).1]
  exact ⟨s1, s2, s3, s4, s5, s6⟩

theorem title_left_ok (g : Game) (row fac : Int) (rs : List Nat) (g1 : Game)
    (rs1 : List Nat) (h : title_left g row fac rs = some (g1, rs1)) (hs : settings_ok g) :
    settings_ok g1 := by
  obtain ⟨a1, a2, a3, a4, a5⟩ := title_left_spec g row fac rs g1 rs1 h
  obtain ⟨s1, s2, s3, s4, s5, s6⟩ := hs
  by_cases r1 : row = 1
  · obtain ⟨b1, b2, b3, -⟩ := a1 r1
    unfold settings_ok
    rw [b1, b2, b3]
    refine ⟨s1, s2, s3, s4, ?_, ?_⟩ <;> split_ifs <;> omega
  by_cases r2 : row = 2
  · exact title_arcade_ok g fac rs g1 rs1 (a2 r2) ⟨s1, s2, s3, s4, s5, s6⟩
  by_cases r3 : row = 3
  · rw [(a3 r3).1]
    unfold settings_ok
    refine ⟨?_, ?_, s3, s4, s5, s6⟩
    · show 1 ≤ (if g.NUM_GHOSTS - 1 < 1 then 1 else g.NUM_GHOSTS - 1)
      split_ifs <;> omega
    · show (if g.NUM_GHOSTS - 1 < 1 then 1 else g.NUM_GHOSTS - 1) ≤ 10
      split_ifs <;> omega
  by_cases r4 : row = 4
  · rw [(a4 r4).1]
    unfold settings_ok
    refine ⟨s1, s2, ?_, ?_, s5, s6⟩
    · show 12 ≤ (if g.NUM_PILLS - 1 < 12 then 12 else g.NUM_PILLS - 1)
      split_ifs <;> omega
    · show (if g.NUM_PILLS - 1 < 12 then 12 else g.NUM_PILLS - 1) ≤ 99
      split_ifs <;> omega
  rw [(a5 r1 r2 r3 r4).1]
  exact ⟨s1, s2, s3, s4, s5, s6⟩

theorem title_arrow_ok (g : Game) (row key fac : Int) (rs : List Nat) (g1 : Game) (row1 : Int)
    (rs1 : List Nat) (h : title_arrow g row key fac rs = some (g1, row1, rs1))
    (hs : settings_ok g) : settings_ok g1 := by
  unfold title_arrow at h
  simp only at h
  by_cases k1 : key = 1073741906
  · rw [if_pos k1] at h
    simp only [Option.some.injEq, Prod.mk.injEq] at h
    rw [← h.1]; exact hs
  rw [if_neg k1] at h
  by_cases k2 : key = 1073741905
  · rw [if_pos k2] at h
    simp only [Option.some.injEq, Prod.mk.injEq] at h
    rw [← h.1]; exact hs
  rw [if_neg k2] at h
  by_cases k3 : key = 1073741903
  · rw [if_pos k3] at h
    cases hh : title_right g row fac rs with
    | none => rw [hh] at h; exact absurd h (by simp)
    | some v =>
      obtain ⟨g2, rs2⟩ := v
      rw [hh] at h
      simp only [Option.some.injEq, Prod.mk.injEq] at h
      rw [← h.1]
      exact title_right_ok g row fac rs g2 rs2 hh hs
  rw [if_neg k3] at h
  by_cases k4 : key = 1073741904
  · rw [if_pos k4] at h
    cases hh : title_left g row fac rs with
    | none => rw [hh] at h; exact absurd h (by simp)
    | some v =>
      obtain ⟨g2, rs2⟩ := v
      rw [hh] at h
      simp only [Option.some.injEq, Prod.mk.injEq] at h
      rw [← h.1]
      exact title_left_ok g row fac rs g2 rs2 hh hs
  rw [if_neg k4] at h
  simp only [Option.some.injEq, Prod.mk.injEq] at h
  rw [← h.1]; exact hs

theorem title_arrows_ok (keys : List Int) : ∀ (g : Game) (row fac : Int) (rs : List Nat)
    (g1 : Game) (row1 : Int) (rs1 : List Nat),
    title_arrows keys g row fac rs = some (g1, row1, rs1) → settings_ok g → settings_ok g1 := by
  induction keys with
  | nil =>
    intro g row fac rs g1 row1 rs1 h hs
    simp only [title_arrows, Option.some.injEq, Prod.mk.injEq] at h
    rw [← h.1]; exact hs
  | cons k ks ih =>
    intro g row fac rs g1 row1 rs1 h hs
    rw [title_arrows] at h
    split at h
    · exact absurd h (by simp)
    · rename_i g2 row2 rs2 hh
      exact ih g2 row2 fac rs2 g1 row1 rs1 h (title_arrow_ok g row k fac rs g2 row2 rs2 hh hs)

theorem title_arcade_returns (g : Game) (fac : Int) (m : Nat) (hm : 4 * g.NUM_PILLS.toNat ≤ m) :
    ∃ g1 rs1, title_arcade g fac (List.replicate m 0) = some (g1, rs1) := by
  unfold title_arcade
  by_cases ha : g.arcade_mode = FALSE
  · rw [if_pos ha]
    obtain ⟨a, b, e⟩ := switch_active_mini_map_returns
      { g with arcade_mode := TRUE, maze_selected := 1 } 1 fac m hm
    rw [e]
    exact ⟨_, _, rfl⟩
  · rw [if_neg ha]
    exact ⟨_, _, rfl⟩

theorem title_keys_return (g : Game) (row fac : Int) (m : Nat)
    (hm : 4 * g.NUM_PILLS.toNat ≤ m) :
    (∃ g1 rs1, title_right g row fac (List.replicate m 0) = some (g1, rs1)) ∧
    (∃ g1 rs1, title_left g row fac (List.replicate m 0) = some (g1, rs1)) := by
  unfold title_right title_left
  simp only
  by_cases r1 : row = 1
  · rw [if_pos r1, if_pos r1]
    exact ⟨switch_active_mini_map_returns _ _ fac m hm,
      switch_active_mini_map_returns _ _ fac m hm⟩
  rw [if_neg r1, if_neg r1]
  by_cases r2 : row = 2
  · rw [if_pos r2, if_pos r2]
    exact ⟨title_arcade_returns g fac m hm, title_arcade_returns g fac m hm⟩
  rw [if_neg r2, if_neg r2]
  by_cases r3 : row = 3
  · rw [if_pos r3, if_pos r3]
    exact ⟨⟨_, _, rfl⟩, ⟨_, _, rfl⟩⟩
  rw [if_neg r3, if_neg r3]
  by_cases r4 : row = 4
  · rw [if_pos r4, if_pos r4]
    exact ⟨⟨_, _, rfl⟩, ⟨_, _, rfl⟩⟩
  rw [if_neg r4, if_neg r4]
  exact ⟨⟨_, _, rfl⟩, ⟨_, _, rfl⟩⟩

/-- The title-screen adjustments on settings within the bounds.  `setup` leaves 4 ghosts
and 12 pills, within the bounds `1 ≤ NUM_GHOSTS ≤ 10`, `12 ≤ NUM_PILLS ≤ 99`,
`1 ≤ maze_selected ≤ 4`, and a run of arrow keys on the title screen that starts within
these bounds keeps them.  Within the bounds, right on the ghosts
(pills) row leaves 10 (99) as it is and adds 1 to any other value, left leaves 1 (12) as
it is and takes 1 from any other value; switching arcade mode on, with left or right,
gives 4 ghosts, 12 pills and maze 1; right on the maze row goes from 4 to 1 and up by one
otherwise, left goes from 1 to 4 and down by one otherwise, and right then left gives the
maze back; and left and right return on every row, given draws for the pills. -/
theorem title_keys_within_bounds :
    (∀ g : Game, settings_ok (setup g) ∧ (setup g).NUM_GHOSTS = 4 ∧ (setup g).NUM_PILLS = 12) ∧
    (∀ (keys : List Int) (g : Game) (row fac : Int) (rs : List Nat) (g1 : Game) (row1 : Int)
      (rs1 : List Nat), settings_ok g →
      title_arrows keys g row fac rs = some (g1, row1, rs1) → settings_ok g1) ∧
    (∀ (g : Game) (fac : Int) (rs : List Nat), settings_ok g →
      title_right g 3 fac rs = some ({ g with NUM_GHOSTS :=
        if g.NUM_GHOSTS = 10 then 10 else g.NUM_GHOSTS + 1 }, rs) ∧
      title_left g 3 fac rs = some ({ g with NUM_GHOSTS :=
        if g.NUM_GHOSTS = 1 then 1 else g.NUM_GHOSTS - 1 }, rs) ∧
      title_right g 4 fac rs = some ({ g with NUM_PILLS :=
        if g.NUM_PILLS = 99 then 99 else g.NUM_PILLS + 1 }, rs) ∧
      title_left g 4 fac rs = some ({ g with NUM_PILLS :=
        if g.NUM_PILLS = 12 then 12 else g.NUM_PILLS - 1 }, rs)) ∧
    (∀ (g : Game) (fac : Int) (rs : List Nat) (g1 : Game) (rs1 : List Nat),
      g.arcade_mode = FALSE →
      title_right g 2 fac rs = some (g1, rs1) ∨ title_left g 2 fac rs = some (g1, rs1) →
      g1.arcade_mode = TRUE ∧ g1.NUM_GHOSTS = 4 ∧ g1.NUM_PILLS = 12 ∧ g1.maze_selected = 1) ∧
    (∀ (g : Game) (fac : Int) (rs : List Nat) (g1 : Game) (rs1 : List Nat), settings_ok g →
      (title_right g 1 fac rs = some (g1, rs1) →
        g1.maze_selected = (if g.maze_selected = 4 then 1 else g.maze_selected + 1) ∧
        ∀ (rs2 : List Nat) (g2 : Game) (rs3 : List Nat),
          title_left g1 1 fac rs2 = some (g2, rs3) → g2.maze_selected = g.maze_selected) ∧
      (title_left g 1 fac rs = some (g1, rs1) →
        g1.maze_selected = (if g.maze_selected = 1 then 4 else g.maze_selected - 1))) ∧
    (∀ (g : Game) (row fac : Int) (m : Nat), 4 * g.NUM_PILLS.toNat ≤ m →
      (∃ g1 rs1, title_right g row fac (List.replicate m 0) = some (g1, rs1)) ∧
      (∃ g1 rs1, title_left g row fac (List.replicate m 0) = some (g1, rs1))) := by
  refine ⟨fun g => ⟨by unfold settings_ok setup; simp, rfl, rfl⟩, ?_, ?_, ?_, ?_,
    title_keys_return⟩
  · intro keys g row fac rs g1 row1 rs1 hs h
    exact title_arrows_ok keys g row fac rs g1 row1 rs1 h hs
  · intro g fac rs hs
    obtain ⟨s1, s2, s3, s4, -, -⟩ := hs
    have e1 : (if g.NUM_GHOSTS + 1 > 10 then 10 else g.NUM_GHOSTS + 1) =
        (if g.NUM_GHOSTS = 10 then 10 else g.NUM_GHOSTS + 1) := by
      split_ifs <;> omega
    have e2 : (if g.NUM_GHOSTS - 1 < 1 then 1 else g.NUM_GHOSTS - 1) =
        (if g.NUM_GHOSTS = 1 then 1 else g.NUM_GHOSTS - 1) := by
      split_ifs <;> omega
    have e3 : (if g.NUM_PILLS + 1 > 99 then 99 else g.NUM_PILLS + 1) =
        (if g.NUM_PILLS = 99 then 99 else g.NUM_PILLS + 1) := by
      split_ifs <;> omega
    have e4 : (if g.NUM_PILLS - 1 < 12 then 12 else g.NUM_PILLS - 1) =
        (if g.NUM_PILLS = 12 then 12 else g.NUM_PILLS - 1) := by
      split_ifs <;> omega
    refine ⟨?_, ?_, ?_, ?_⟩
    · rw [← e1]; rfl
    · rw [← e2]; rfl
    · rw [← e3]; rfl
    · rw [← e4]; rfl
  · intro g fac rs g1 rs1 ha h
    rcases h with h | h
    · obtain ⟨a1, a2, a3, a4⟩ :=
        (title_arcade_spec g fac rs g1 rs1 ((title_right_spec g 2 fac rs g1 rs1 h).2.1 rfl)).1 ha
      exact ⟨a1, a3, a4, a2⟩
    · obtain ⟨a1, a2, a3, a4⟩ :=
        (title_arcade_spec g fac rs g1 rs1 ((title_left_spec g 2 fac rs g1 rs1 h).2.1 rfl)).1 ha
      exact ⟨a1, a3, a4, a2⟩
  · intro g fac rs g1 rs1 hs
    obtain ⟨-, -, -, -, s5, s6⟩ := hs
    constructor
    · intro h
      obtain ⟨b1, -⟩ := (title_right_spec g 1 fac rs g1 rs1 h).1 rfl
      have c1 : g1.maze_selected = (if g.maze_selected = 4 then 1 else g.maze_selected + 1) := by
        rw [b1]; split_ifs <;> omega
      refine ⟨c1, fun rs2 g2 rs3 h2 => ?_⟩
      obtain ⟨b2, -⟩ := (title_left_spec g1 1 fac rs2 g2 rs3 h2).1 rfl
      rw [b2, c1]
      split_ifs <;> omega
    · intro h
      obtain ⟨b1, -⟩ := (title_left_spec g 1 fac rs g1 rs1 h).1 rfl
      rw [b1]; split_ifs <;> omega

theorem title_keys_within_bounds_sample :
    settings_ok (setup demo) ∧
    title_right (setup demo) 3 5 [] = some ({ setup demo with NUM_GHOSTS := 5 }, []) ∧
    title_left (setup demo) 4 5 [] = some ({ setup demo with NUM_PILLS := 12 }, []) :=
  ⟨(title_keys_within_bounds.1 demo).1,
    (title_keys_within_bounds.2.2.1 (setup demo) 5 [] (title_keys_within_bounds.1 demo).1).1,
    (title_keys_within_bounds.2.2.1 (setup demo) 5 [] (title_keys_within_bounds.1 demo).1).2.2.2⟩

/-! ## The ghost count of `intermission2` -/

theorem toggle_full_screen_mode_frame (g : Game) :
    ∃ f x y, toggle_full_screen_mode g =
      { g with factor := f, screen_offset_x := x, screen_offset_y := y } :=
  ⟨_, _, _, rfl⟩

/-- One event of `intermission2` leaves the ghost count, `frame` and `start_delay` as they
are; `done` stays TRUE once it is, and key 1 or Left Ctrl sets it. -/
theorem intermission2_event_keeps (g : Game) (done : Int) (e : event) (g1 : Game) (d1 : Int)
    (h : intermission2_event g done e = some (g1, d1)) :
    g1.NUM_GHOSTS = g.NUM_GHOSTS ∧ g1.frame = g.frame ∧ g1.start_delay = g.start_delay ∧
    (done = TRUE → d1 = TRUE) ∧
    (e = event.SDL_KEYDOWN 49 ∨ e = event.SDL_KEYDOWN 1073742048 → d1 = TRUE) := by
  cases e with
  | SDL_QUIT => exact absurd h (by simp [intermission2_event])
  | SDL_KEYDOWN key =>
    simp only [intermission2_event] at h
    by_cases hk : key = 27
    · rw [if_pos hk] at h
      exact absurd h (by simp)
    · rw [if_neg hk] at h
      simp only [Option.some.injEq, Prod.mk.injEq] at h
      obtain ⟨h1, h2⟩ := h
      have e1 : g1.NUM_GHOSTS = g.NUM_GHOSTS ∧ g1.frame = g.frame ∧
          g1.start_delay = g.start_delay := by
        rw [← h1]
        split_ifs
        · exact ⟨rfl, rfl, rfl⟩
        · exact ⟨rfl, rfl, rfl⟩
      refine ⟨e1.1, e1.2.1, e1.2.2, ?_, ?_⟩
      · intro hd
        rw [← h2, hd]
        split_ifs <;> rfl
      · intro hs
        rw [← h2]
        rcases hs with hs | hs
        · simp only [event.SDL_KEYDOWN.injEq] at hs
          rw [if_pos (Or.inr hs)]
        · simp only [event.SDL_KEYDOWN.injEq] at hs
          rw [if_pos (Or.inl hs)]
  | SDL_JOYBUTTONDOWN button =>
    simp only [intermission2_event] at h
    by_cases hb : button = 8
    · rw [if_pos hb] at h
      exact absurd h (by simp)
    · rw [if_neg hb] at h
      simp only [Option.some.injEq, Prod.mk.injEq] at h
      rw [← h.1, ← h.2]
      exact ⟨rfl, rfl, rfl, fun x => x, fun x => by simp at x⟩
  | SDL_JOYAXISMOTION which axis value =>
    simp only [intermission2_event, Option.some.injEq, Prod.mk.injEq] at h
    rw [← h.1, ← h.2]
    exact ⟨rfl, rfl, rfl, fun x => x, fun x => by simp at x⟩
  | other =>
    simp only [intermission2_event, Option.some.injEq, Prod.mk.injEq] at h
    rw [← h.1, ← h.2]
    exact ⟨rfl, rfl, rfl, fun x => x, fun x => by simp at x⟩

theorem intermission2_events_keeps (events : List event) : ∀ (g : Game) (done : Int) (g1 : Game)
    (d1 : Int), intermission2_events events g done = some (g1, d1) →
    g1.NUM_GHOSTS = g.NUM_GHOSTS ∧ g1.frame = g.frame ∧ g1.start_delay = g.start_delay ∧
    (done = TRUE → d1 = TRUE) ∧
    (event.SDL_KEYDOWN 49 ∈ events ∨ event.SDL_KEYDOWN 1073742048 ∈ events → d1 = TRUE) := by
  induction events with
  | nil =>
    intro g done g1 d1 h
    simp only [intermission2_events, Option.some.injEq, Prod.mk.injEq] at h
    rw [← h.1, ← h.2]
    exact ⟨rfl, rfl, rfl, fun x => x, fun x => by simp at x⟩
  | cons e es ih =>
    intro g done g1 d1 h
    rw [intermission2_events] at h
    cases he : intermission2_event g done e with
    | none => rw [he] at h; exact absurd h (by simp)
    | some v =>
      obtain ⟨g2, d2⟩ := v
      rw [he] at h
      simp only at h
      obtain ⟨a1, a2, a3, a4, a5⟩ := intermission2_event_keeps g done e g2 d2 he
      obtain ⟨b1, b2, b3, b4, b5⟩ := ih g2 d2 g1 d1 h
      refine ⟨b1.trans a1, b2.trans a2, b3.trans a3, fun x => b4 (a4 x), ?_⟩
      intro hs
      have c : (e = event.SDL_KEYDOWN 49 ∨ e = event.SDL_KEYDOWN 1073742048) ∨
          (event.SDL_KEYDOWN 49 ∈ es ∨ event.SDL_KEYDOWN 1073742048 ∈ es) := by
        rcases hs with hs | hs
        · rcases List.mem_cons.1 hs with q | q
          · exact Or.inl (Or.inl q.symm)
          · exact Or.inr (Or.inl q)
        · rcases List.mem_cons.1 hs with q | q
          · exact Or.inl (Or.inr q.symm)
          · exact Or.inr (Or.inr q)
      rcases c with c | c
      · exact b4 (a5 c)
      · exact b5 c

theorem intermission2_powerpill_frame (g : Game) :
    ∃ c, intermission2_powerpill g = { g with powerpill_color := c } := by
  unfold intermission2_powerpill
  simp only
  split_ifs <;> exact ⟨_, rfl⟩

theorem ghosts_fold_frame {α : Type} (f : Game → α → Game)
    (hf : ∀ s i, ∃ gs, f s i = { s with ghosts := gs }) (l : List α) :
    ∀ g : Game, ∃ gs, l.foldl f g = { g with ghosts := gs } := by
  induction l with
  | nil => exact fun g => ⟨g.ghosts, rfl⟩
  | cons i is ih =>
    intro g
    rw [List.foldl_cons]
    obtain ⟨gs, e⟩ := hf g i
    obtain ⟨gs2, e2⟩ := ih (f g i)
    rw [e2, e]
    exact ⟨gs2, rfl⟩

theorem intermission2_ghosts_frame (g : Game) :
    ∃ gs, intermission2_ghosts g = { g with ghosts := gs, NUM_GHOSTS := 16 } := by
  unfold intermission2_ghosts intermission2_places
  simp only
  obtain ⟨gs0, e0⟩ := ghosts_fold_frame intermission2_place (fun s i => ⟨_, rfl⟩)
    [(15, -1, 8, 0), (14, -1, 8, 1), (13, -1, 8, 2), (12, -1, 8, 3), (11, -1, 8, 4),
     (10, -1, 8, 5), (9, -1, 8, 6), (8, 0, 0, 1), (7, 0, 0, 2), (6, 0, 0, 3), (5, 0, 0, 4),
     (4, 0, 0, 5), (3, 1, -8, 2), (2, 1, -8, 3), (1, 1, -8, 4), (0, 2, -16, 3)] g
  rw [e0]
  obtain ⟨gs, e⟩ := ghosts_fold_frame intermission2_ghost (fun s i => ⟨_, rfl⟩)
    (List.range (16 : Int).toNat) { g with ghosts := gs0, NUM_GHOSTS := 16 }
  exact ⟨gs, e⟩

theorem intermission2_off_screen_frame (s : Game) (i : Nat) :
    ∃ gs, intermission2_off_screen s i = { s with ghosts := gs } := by
  unfold intermission2_off_screen
  by_cases c : (ghost_at s i).status = 2 ∧ (ghost_at s i).x < 0
  · rw [if_pos c]
    exact ⟨_, rfl⟩
  · rw [if_neg c]
    exact ⟨s.ghosts, rfl⟩

/-- The ghost part of a turn of `intermission2` leaves the ghost count, `frame` and
`start_delay` as they are. -/
theorem intermission2_hunt_keeps (g : Game) (rs : List Nat) (g1 : Game) (rs1 : List Nat)
    (h : intermission2_hunt g rs = some (g1, rs1)) :
    g1.NUM_GHOSTS = g.NUM_GHOSTS ∧ g1.frame = g.frame ∧ g1.start_delay = g.start_delay ∧
    (g.frame - g.start_delay < 100 → rs1 = rs) := by
  unfold intermission2_hunt at h
  by_cases c : g.frame - g.start_delay < 100
  · rw [if_pos c] at h
    simp only [Option.some.injEq, Prod.mk.injEq] at h
    rw [← h.1]
    exact ⟨rfl, rfl, rfl, fun _ => h.2.symm⟩
  · rw [if_neg c] at h
    cases hg : handle_ghosts g rs with
    | none => rw [hg] at h; exact absurd h (by simp)
    | some w =>
      obtain ⟨s3, rs3⟩ := w
      rw [hg] at h
      simp only [Option.some.injEq, Prod.mk.injEq] at h
      obtain ⟨gs, e3⟩ := handle_ghosts_frame g rs s3 rs3 hg
      obtain ⟨gs4, e4⟩ := ghosts_fold_frame intermission2_off_screen
        intermission2_off_screen_frame (List.range s3.NUM_GHOSTS.toNat) s3
      rw [← h.1, e4, e3]
      exact ⟨rfl, rfl, rfl, fun x => absurd x c⟩

theorem intermission2_flee_frame (l : List Nat) : ∀ s : Game,
    ∃ gs t, l.foldl intermission2_flee s = { s with ghosts := gs, powerpill_active_timer := t } := by
  induction l with
  | nil => exact fun s => ⟨_, _, rfl⟩
  | cons i is ih =>
    intro s
    rw [List.foldl_cons]
    obtain ⟨gs, t, e⟩ := ih (intermission2_flee s i)
    rw [e]
    exact ⟨gs, t, rfl⟩

/-- The steps of the player part of a turn of `intermission2` before the last one leave
the ghost count, `frame` and `start_delay` as they are, and do nothing in the first sixty
frames. -/
theorem intermission2_steps_keep (g : Game) :
    (intermission2_stop_player (intermission2_eat (intermission2_draw
      (intermission2_move_player (intermission2_start_player g))))).NUM_GHOSTS = g.NUM_GHOSTS ∧
    (intermission2_stop_player (intermission2_eat (intermission2_draw
      (intermission2_move_player (intermission2_start_player g))))).frame = g.frame ∧
    (intermission2_stop_player (intermission2_eat (intermission2_draw
      (intermission2_move_player (intermission2_start_player g))))).start_delay =
      g.start_delay ∧
    (g.frame - g.start_delay ≤ 60 →
      intermission2_stop_player (intermission2_eat (intermission2_draw
        (intermission2_move_player (intermission2_start_player g)))) = g) := by
  have k1 : ∀ s : Game, (intermission2_start_player s).NUM_GHOSTS = s.NUM_GHOSTS ∧
      (intermission2_start_player s).frame = s.frame ∧
      (intermission2_start_player s).start_delay = s.start_delay ∧
      (s.frame - s.start_delay ≤ 60 → intermission2_start_player s = s) := by
    intro s
    unfold intermission2_start_player
    by_cases c : s.frame - s.start_delay = 150
    · rw [if_pos c]
      exact ⟨rfl, rfl, rfl, fun x => by omega⟩
    · rw [if_neg c]
      exact ⟨rfl, rfl, rfl, fun _ => rfl⟩
  have k2 : ∀ s : Game, (intermission2_move_player s).NUM_GHOSTS = s.NUM_GHOSTS ∧
      (intermission2_move_player s).frame = s.frame ∧
      (intermission2_move_player s).start_delay = s.start_delay ∧
      (s.frame - s.start_delay ≤ 60 → intermission2_move_player s = s) := by
    intro s
    unfold intermission2_move_player
    by_cases c : s.frame - s.start_delay > 120 ∧ s.frame - s.start_delay < 420
    · rw [if_pos c]
      obtain ⟨x, y, a, l, e⟩ := handle_munchkin_frame s s.munchkin_last_direction TRUE
      rw [e]
      exact ⟨rfl, rfl, rfl, fun x => by omega⟩
    · rw [if_neg c]
      exact ⟨rfl, rfl, rfl, fun _ => rfl⟩
  have k3 : ∀ s : Game, (intermission2_draw s).NUM_GHOSTS = s.NUM_GHOSTS ∧
      (intermission2_draw s).frame = s.frame ∧
      (intermission2_draw s).start_delay = s.start_delay ∧
      (s.frame - s.start_delay ≤ 60 → intermission2_draw s = s) := by
    intro s
    unfold intermission2_draw
    by_cases c : s.frame - s.start_delay > 60
    · rw [if_pos c]
      obtain ⟨a, d, f, r, p, e, -⟩ := draw_munchkin_frame s
      rw [e]
      exact ⟨rfl, rfl, rfl, fun x => by omega⟩
    · rw [if_neg c]
      exact ⟨rfl, rfl, rfl, fun _ => rfl⟩
  have k4 : ∀ s : Game, (intermission2_eat s).NUM_GHOSTS = s.NUM_GHOSTS ∧
      (intermission2_eat s).frame = s.frame ∧
      (intermission2_eat s).start_delay = s.start_delay ∧
      (s.frame - s.start_delay ≤ 60 → intermission2_eat s = s) := by
    intro s
    unfold intermission2_eat
    by_cases c : s.frame - s.start_delay = 242
    · rw [if_pos c]
      obtain ⟨gs, t, e⟩ := intermission2_flee_frame (List.range s.NUM_GHOSTS.toNat)
        { s with munchkin_auto_direction := LEFT, munchkin_last_direction := LEFT }
      rw [e]
      exact ⟨rfl, rfl, rfl, fun x => by omega⟩
    · rw [if_neg c]
      exact ⟨rfl, rfl, rfl, fun _ => rfl⟩
  have k5 : ∀ s : Game, (intermission2_stop_player s).NUM_GHOSTS = s.NUM_GHOSTS ∧
      (intermission2_stop_player s).frame = s.frame ∧
      (intermission2_stop_player s).start_delay = s.start_delay ∧
      (s.frame - s.start_delay ≤ 60 → intermission2_stop_player s = s) := by
    intro s
    unfold intermission2_stop_player
    by_cases c : s.frame - s.start_delay = 420
    · rw [if_pos c]
      exact ⟨rfl, rfl, rfl, fun x => by omega⟩
    · rw [if_neg c]
      exact ⟨rfl, rfl, rfl, fun _ => rfl⟩
  obtain ⟨a1, a2, a3, a4⟩ := k1 g
  obtain ⟨b1, b2, b3, b4⟩ := k2 (intermission2_start_player g)
  obtain ⟨c1, c2, c3, c4⟩ := k3 (intermission2_move_player (intermission2_start_player g))
  obtain ⟨d1, d2, d3, d4⟩ := k4 (intermission2_draw
    (intermission2_move_player (intermission2_start_player g)))
  obtain ⟨e1, e2, e3, e4⟩ := k5 (intermission2_eat (intermission2_draw
    (intermission2_move_player (intermission2_start_player g))))
  refine ⟨by rw [e1, d1, c1, b1, a1], by rw [e2, d2, c2, b2, a2], by rw [e3, d3, c3, b3, a3], ?_⟩
  intro h
  rw [a4 h, (k2 g).2.2.2 h, (k3 g).2.2.2 h, (k4 g).2.2.2 h, (k5 g).2.2.2 h]

/-- The player part of a turn of `intermission2`: at 460 it sets `done` and the ghost count
4, and in the first sixty frames it leaves the state and `done` as they are. -/
theorem intermission2_act_count (g : Game) (done : Int) :
    (g.frame - g.start_delay = 460 →
      (intermission2_act g done).1.NUM_GHOSTS = 4 ∧ (intermission2_act g done).2 = TRUE) ∧
    (g.frame - g.start_delay ≤ 60 → intermission2_act g done = (g, done)) := by
  obtain ⟨a1, a2, a3, a4⟩ := intermission2_steps_keep g
  unfold intermission2_act intermission2_stop
  constructor
  · intro hf
    rw [if_pos (by rw [a2, a3]; exact hf)]
    exact ⟨rfl, rfl⟩
  · intro hf
    rw [a4 hf, if_neg (by omega)]

/-- The turn of the loop of `intermission2` that brings `frame - start_delay` to 460 ends
the intermission and sets the ghost count back to 4. -/
theorem intermission2_frame_end (g : Game) (events : List event) (rs : List Nat) (g1 : Game)
    (done : Int) (rs1 : List Nat) (hf : g.frame + 1 - g.start_delay = 460)
    (h : intermission2_frame g events rs = some (g1, done, rs1)) :
    g1.NUM_GHOSTS = 4 ∧ done = TRUE := by
  unfold intermission2_frame at h
  cases he : intermission2_events events g FALSE with
  | none => rw [he] at h; exact absurd h (by simp)
  | some v =>
    obtain ⟨s1, d1⟩ := v
    rw [he] at h
    simp only at h
    obtain ⟨-, a2, a3, -, -⟩ := intermission2_events_keeps events g FALSE s1 d1 he
    cases hh : intermission2_hunt { s1 with frame := s1.frame + 1 } rs with
    | none => rw [hh] at h; exact absurd h (by simp)
    | some w =>
      obtain ⟨s2, rs2⟩ := w
      rw [hh] at h
      simp only [Option.some.injEq, Prod.mk.injEq] at h
      obtain ⟨b1, b2, b3, -⟩ := intermission2_hunt_keeps _ rs s2 rs2 hh
      have f2 : s2.frame - s2.start_delay = 460 := by
        rw [b2, b3]
        show s1.frame + 1 - s1.start_delay = 460
        rw [a2, a3]
        exact hf
      obtain ⟨c1, c2⟩ := (intermission2_act_count s2 d1).1 f2
      obtain ⟨c, ec⟩ := intermission2_powerpill_frame (intermission2_act s2 d1).1
      refine ⟨?_, by rw [← h.2.1, c2]⟩
      rw [← h.1, ec]
      exact c1

/-- The state that `intermission2` hands to its loop: the ghost count is 16 and
`start_delay` is `frame`. -/
theorem intermission2_start (g : Game) :
    (setup_maze (intermission2_ghosts
      { g with powerpill_color := 1, start_delay := g.frame, speed := 1,
               munchkin_x_factor1 := (g.MAZE_OFFSET_X + 4 * (HORI_LINE_SIZE - 2)) + 7,
               munchkin_y_factor1 := (g.MAZE_OFFSET_Y + 3 * (VERT_LINE_SIZE - 2)) + 4,
               munchkin_auto_direction := 0, munchkin_last_direction := 0,
               munchkin_animation_frame := 0 }) 6).NUM_GHOSTS = 16 ∧
    (setup_maze (intermission2_ghosts
      { g with powerpill_color := 1, start_delay := g.frame, speed := 1,
               munchkin_x_factor1 := (g.MAZE_OFFSET_X + 4 * (HORI_LINE_SIZE - 2)) + 7,
               munchkin_y_factor1 := (g.MAZE_OFFSET_Y + 3 * (VERT_LINE_SIZE - 2)) + 4,
               munchkin_auto_direction := 0, munchkin_last_direction := 0,
               munchkin_animation_frame := 0 }) 6).frame -
    (setup_maze (intermission2_ghosts
      { g with powerpill_color := 1, start_delay := g.frame, speed := 1,
               munchkin_x_factor1 := (g.MAZE_OFFSET_X + 4 * (HORI_LINE_SIZE - 2)) + 7,
               munchkin_y_factor1 := (g.MAZE_OFFSET_Y + 3 * (VERT_LINE_SIZE - 2)) + 4,
               munchkin_auto_direction := 0, munchkin_last_direction := 0,
               munchkin_animation_frame := 0 }) 6).start_delay = 0 := by
  obtain ⟨gs, e1⟩ := intermission2_ghosts_frame
    { g with powerpill_color := 1, start_delay := g.frame, speed := 1,
             munchkin_x_factor1 := (g.MAZE_OFFSET_X + 4 * (HORI_LINE_SIZE - 2)) + 7,
             munchkin_y_factor1 := (g.MAZE_OFFSET_Y + 3 * (VERT_LINE_SIZE - 2)) + 4,
             munchkin_auto_direction := 0, munchkin_last_direction := 0,
             munchkin_animation_frame := 0 }
  rw [e1]
  obtain ⟨hh, vv, e2⟩ := setup_maze_frame
    { g with powerpill_color := 1, start_delay := g.frame, speed := 1,
             munchkin_x_factor1 := (g.MAZE_OFFSET_X + 4 * (HORI_LINE_SIZE - 2)) + 7,
             munchkin_y_factor1 := (g.MAZE_OFFSET_Y + 3 * (VERT_LINE_SIZE - 2)) + 4,
             munchkin_auto_direction := 0, munchkin_last_direction := 0,
             munchkin_animation_frame := 0, ghosts := gs, NUM_GHOSTS := 16 } 6
  rw [e2]
  refine ⟨rfl, ?_⟩
  show g.frame - g.frame = 0
  omega

/-- Key 1 (49) or Left Ctrl (1073742048) in the first frame of `intermission2` ends it
with the ghost count at 16 and no draw used: the frame that sets the count back to 4 is not
reached. -/
theorem intermission2_skipped (g : Game) (rs : List Nat) (events : List event)
    (frames : List (List event)) (g1 : Game) (rs1 : List Nat)
    (hk : event.SDL_KEYDOWN 49 ∈ events ∨ event.SDL_KEYDOWN 1073742048 ∈ events)
    (h : intermission2 (intermission2_rest (events :: frames)) g rs = some (g1, rs1)) :
    g1.NUM_GHOSTS = 16 ∧ rs1 = rs := by
  unfold intermission2 intermission2_rest at h
  obtain ⟨n0, t0⟩ := intermission2_start g
  generalize setup_maze (intermission2_ghosts _) 6 = s0 at h n0 t0
  rw [intermission2_frames] at h
  unfold intermission2_frame at h
  cases he : intermission2_events events s0 FALSE with
  | none => rw [he] at h; exact absurd h (by simp)
  | some v =>
    obtain ⟨s1, d1⟩ := v
    rw [he] at h
    simp only at h
    obtain ⟨a1, a2, a3, -, a5⟩ := intermission2_events_keeps events s0 FALSE s1 d1 he
    cases hh : intermission2_hunt { s1 with frame := s1.frame + 1 } rs with
    | none => rw [hh] at h; exact absurd h (by simp)
    | some w =>
      obtain ⟨s2, rs2⟩ := w
      rw [hh] at h
      simp only at h
      obtain ⟨b1, b2, b3, b4⟩ := intermission2_hunt_keeps _ rs s2 rs2 hh
      have f1 : ({ s1 with frame := s1.frame + 1 } : Game).frame -
          ({ s1 with frame := s1.frame + 1 } : Game).start_delay = 1 := by
        show s1.frame + 1 - s1.start_delay = 1
        rw [a2, a3]
        omega
      have f2 : s2.frame - s2.start_delay = 1 := by rw [b2, b3]; exact f1
      rw [(intermission2_act_count s2 d1).2 (by rw [f2]; decide), a5 hk] at h
      simp only at h
      rw [if_neg (show ¬ (TRUE = FALSE) by decide)] at h
      simp only [Option.some.injEq, Prod.mk.injEq] at h
      obtain ⟨c, ec⟩ := intermission2_powerpill_frame s2
      refine ⟨?_, ?_⟩
      · rw [← h.1, ec]
        show s2.NUM_GHOSTS = 16
        rw [b1]
        show s1.NUM_GHOSTS = 16
        rw [a1, n0]
      · rw [← h.2]
        exact b4 (by rw [f1]; decide)

theorem intermission2_events_progress (events : List event) : ∀ (g : Game) (done : Int)
    (g1 : Game) (d1 : Int), intermission2_events events g done = some (g1, d1) →
    g1.speed = g.speed ∧ g1.maze_selected = g.maze_selected ∧ g1.arcade_mode = g.arcade_mode := by
  induction events with
  | nil =>
    intro g done g1 d1 h
    simp only [intermission2_events, Option.some.injEq, Prod.mk.injEq] at h
    rw [← h.1]
    exact ⟨rfl, rfl, rfl⟩
  | cons e es ih =>
    intro g done g1 d1 h
    rw [intermission2_events] at h
    cases he : intermission2_event g done e with
    | none => rw [he] at h; exact absurd h (by simp)
    | some v =>
      obtain ⟨g2, d2⟩ := v
      rw [he] at h
      simp only at h
      obtain ⟨b1, b2, b3⟩ := ih g2 d2 g1 d1 h
      have a : g2.speed = g.speed ∧ g2.maze_selected = g.maze_selected ∧
          g2.arcade_mode = g.arcade_mode := by
        cases e with
        | SDL_QUIT => exact absurd he (by simp [intermission2_event])
        | SDL_KEYDOWN key =>
          simp only [intermission2_event] at he
          by_cases hk : key = 27
          · rw [if_pos hk] at he
            exact absurd he (by simp)
          · rw [if_neg hk] at he
            simp only [Option.some.injEq, Prod.mk.injEq] at he
            rw [← he.1]
            split_ifs
            · exact ⟨rfl, rfl, rfl⟩
            · exact ⟨rfl, rfl, rfl⟩
        | SDL_JOYBUTTONDOWN button =>
          simp only [intermission2_event] at he
          by_cases hb : button = 8
          · rw [if_pos hb] at he
            exact absurd he (by simp)
          · rw [if_neg hb] at he
            simp only [Option.some.injEq, Prod.mk.injEq] at he
            rw [← he.1]
            exact ⟨rfl, rfl, rfl⟩
        | SDL_JOYAXISMOTION which axis value =>
          simp only [intermission2_event, Option.some.injEq, Prod.mk.injEq] at he
          rw [← he.1]
          exact ⟨rfl, rfl, rfl⟩
        | other =>
          simp only [intermission2_event, Option.some.injEq, Prod.mk.injEq] at he
          rw [← he.1]
          exact ⟨rfl, rfl, rfl⟩
      exact ⟨b1.trans a.1, b2.trans a.2.1, b3.trans a.2.2⟩

theorem intermission2_act_progress (g : Game) (done : Int) :
    (intermission2_act g done).1.speed = g.speed ∧
    (intermission2_act g done).1.maze_selected = g.maze_selected ∧
    (intermission2_act g done).1.arcade_mode = g.arcade_mode := by
  have k1 : ∀ s : Game, (intermission2_start_player s).speed = s.speed ∧
      (intermission2_start_player s).maze_selected = s.maze_selected ∧
      (intermission2_start_player s).arcade_mode = s.arcade_mode := by
    intro s
    unfold intermission2_start_player
    split_ifs
    · exact ⟨rfl, rfl, rfl⟩
    · exact ⟨rfl, rfl, rfl⟩
  have k2 : ∀ s : Game, (intermission2_move_player s).speed = s.speed ∧
      (intermission2_move_player s).maze_selected = s.maze_selected ∧
      (intermission2_move_player s).arcade_mode = s.arcade_mode := by
    intro s
    unfold intermission2_move_player
    by_cases c : s.frame - s.start_delay > 120 ∧ s.frame - s.start_delay < 420
    · rw [if_pos c]
      obtain ⟨x, y, a, l, e⟩ := handle_munchkin_frame s s.munchkin_last_direction TRUE
      rw [e]
      exact ⟨rfl, rfl, rfl⟩
    · rw [if_neg c]
      exact ⟨rfl, rfl, rfl⟩
  have k3 : ∀ s : Game, (intermission2_draw s).speed = s.speed ∧
      (intermission2_draw s).maze_selected = s.maze_selected ∧
      (intermission2_draw s).arcade_mode = s.arcade_mode := by
    intro s
    unfold intermission2_draw
    by_cases c : s.frame - s.start_delay > 60
    · rw [if_pos c]
      obtain ⟨a, d, f, r, p, e, -⟩ := draw_munchkin_frame s
      rw [e]
      exact ⟨rfl, rfl, rfl⟩
    · rw [if_neg c]
      exact ⟨rfl, rfl, rfl⟩
  have k4 : ∀ s : Game, (intermission2_eat s).speed = s.speed ∧
      (intermission2_eat s).maze_selected = s.maze_selected ∧
      (intermission2_eat s).arcade_mode = s.arcade_mode := by
    intro s
    unfold intermission2_eat
    by_cases c : s.frame - s.start_delay = 242
    · rw [if_pos c]
      obtain ⟨gs, t, e⟩ := intermission2_flee_frame (List.range s.NUM_GHOSTS.toNat)
        { s with munchkin_auto_direction := LEFT, munchkin_last_direction := LEFT }
      rw [e]
      exact ⟨rfl, rfl, rfl⟩
    · rw [if_neg c]
      exact ⟨rfl, rfl, rfl⟩
  have k5 : ∀ s : Game, (intermission2_stop_player s).speed = s.speed ∧
      (intermission2_stop_player s).maze_selected = s.maze_selected ∧
      (intermission2_stop_player s).arcade_mode = s.arcade_mode := by
    intro s
    unfold intermission2_stop_player
    split_ifs
    · exact ⟨rfl, rfl, rfl⟩
    · exact ⟨rfl, rfl, rfl⟩
  have k6 : ∀ s : Game, (intermission2_stop s done).1.speed = s.speed ∧
      (intermission2_stop s done).1.maze_selected = s.maze_selected ∧
      (intermission2_stop s done).1.arcade_mode = s.arcade_mode := by
    intro s
    unfold intermission2_stop
    split_ifs
    · exact ⟨rfl, rfl, rfl⟩
    · exact ⟨rfl, rfl, rfl⟩
  obtain ⟨a1, a2, a3⟩ := k1 g
  obtain ⟨b1, b2, b3⟩ := k2 (intermission2_start_player g)
  obtain ⟨c1, c2, c3⟩ := k3 (intermission2_move_player (intermission2_start_player g))
  obtain ⟨d1, d2, d3⟩ := k4 (intermission2_draw
    (intermission2_move_player (intermission2_start_player g)))
  obtain ⟨e1, e2, e3⟩ := k5 (intermission2_eat (intermission2_draw
    (intermission2_move_player (intermission2_start_player g))))
  obtain ⟨f1, f2, f3⟩ := k6 (intermission2_stop_player (intermission2_eat (intermission2_draw
    (intermission2_move_player (intermission2_start_player g)))))
  unfold intermission2_act
  exact ⟨by rw [f1, e1, d1, c1, b1, a1], by rw [f2, e2, d2, c2, b2, a2],
    by rw [f3, e3, d3, c3, b3, a3]⟩

theorem intermission2_frame_progress (g : Game) (events : List event) (rs : List Nat)
    (g1 : Game) (done : Int) (rs1 : List Nat)
    (h : intermission2_frame g events rs = some (g1, done, rs1)) :
    g1.speed = g.speed ∧ g1.maze_selected = g.maze_selected ∧ g1.arcade_mode = g.arcade_mode := by
  unfold intermission2_frame at h
  cases he : intermission2_events events g FALSE with
  | none => rw [he] at h; exact absurd h (by simp)
  | some v =>
    obtain ⟨s1, d1⟩ := v
    rw [he] at h
    simp only at h
    obtain ⟨a1, a2, a3⟩ := intermission2_events_progress events g FALSE s1 d1 he
    cases hh : intermission2_hunt { s1 with frame := s1.frame + 1 } rs with
    | none => rw [hh] at h; exact absurd h (by simp)
    | some w =>
      obtain ⟨s2, rs2⟩ := w
      rw [hh] at h
      simp only [Option.some.injEq, Prod.mk.injEq] at h
      have b : s2.speed = s1.speed ∧ s2.maze_selected = s1.maze_selected ∧
          s2.arcade_mode = s1.arcade_mode := by
        unfold intermission2_hunt at hh
        by_cases c : ({ s1 with frame := s1.frame + 1 } : Game).frame -
            ({ s1 with frame := s1.frame + 1 } : Game).start_delay < 100
        · rw [if_pos c] at hh
          simp only [Option.some.injEq, Prod.mk.injEq] at hh
          rw [← hh.1]
          exact ⟨rfl, rfl, rfl⟩
        · rw [if_neg c] at hh
          cases hg : handle_ghosts { s1 with frame := s1.frame + 1 } rs with
          | none => rw [hg] at hh; exact absurd hh (by simp)
          | some u =>
            obtain ⟨s3, rs3⟩ := u
            rw [hg] at hh
            simp only [Option.some.injEq, Prod.mk.injEq] at hh
            obtain ⟨gs, e3⟩ := handle_ghosts_frame _ rs s3 rs3 hg
            obtain ⟨gs4, e4⟩ := ghosts_fold_frame intermission2_off_screen
              intermission2_off_screen_frame (List.range s3.NUM_GHOSTS.toNat) s3
            rw [← hh.1, e4, e3]
            exact ⟨rfl, rfl, rfl⟩
      obtain ⟨c1, c2, c3⟩ := intermission2_act_progress s2 d1
      obtain ⟨c, ec⟩ := intermission2_powerpill_frame (intermission2_act s2 d1).1
      rw [← h.1, ec]
      exact ⟨c1.trans (b.1.trans a1), c2.trans (b.2.1.trans a2), c3.trans (b.2.2.trans a3)⟩

/-- The rest of `intermission2` as the source has it leaves `speed`, `maze_selected` and
`arcade_mode` as they are, whatever the event queues of its frames hold. -/
theorem intermission2_rest_keeps_progress (frames : List (List event)) :
    keeps_progress (intermission2_rest frames) := by
  have key : ∀ (fs : List (List event)) (s : Game) (rs : List Nat) (s1 : Game)
      (rs1 : List Nat), intermission2_frames fs s rs = some (s1, rs1) →
      s1.speed = s.speed ∧ s1.maze_selected = s.maze_selected ∧
      s1.arcade_mode = s.arcade_mode := by
    intro fs
    induction fs with
    | nil =>
      intro s rs s1 rs1 h
      exact absurd h (by simp [intermission2_frames])
    | cons f fs ih =>
      intro s rs s1 rs1 h
      rw [intermission2_frames] at h
      cases hf : intermission2_frame s f rs with
      | none => rw [hf] at h; exact absurd h (by simp)
      | some v =>
        obtain ⟨s2, d2, rs2⟩ := v
        rw [hf] at h
        simp only at h
        obtain ⟨a1, a2, a3⟩ := intermission2_frame_progress s f rs s2 d2 rs2 hf
        by_cases hd : d2 = FALSE
        · rw [if_pos hd] at h
          obtain ⟨b1, b2, b3⟩ := ih s2 rs2 s1 rs1 h
          exact ⟨b1.trans a1, b2.trans a2, b3.trans a3⟩
        · rw [if_neg hd] at h
          simp only [Option.some.injEq, Prod.mk.injEq] at h
          rw [← h.1]
          exact ⟨a1, a2, a3⟩
  intro s rs s1 rs1 h
  unfold intermission2_rest at h
  obtain ⟨gs, e1⟩ := intermission2_ghosts_frame s
  obtain ⟨hh, vv, e2⟩ := setup_maze_frame (intermission2_ghosts s) 6
  obtain ⟨a1, a2, a3⟩ := key frames _ rs s1 rs1 h
  rw [a1, a2, a3, e2, e1]
  exact ⟨rfl, rfl, rfl⟩

set_option maxRecDepth 100000 in
/-- C26 on the path that skips the second intermission.  On `demo_arcade_done` (arcade
mode, maze 4 completed, four ghosts and twelve pills: within the bounds) the continuation
step runs `intermission2`, which sets `NUM_GHOSTS` to 16; key 1 in its first frame ends it
before the frame that sets the count back to 4, and `game` goes on with 16 ghosts.  After
the Escape key the title screen is entered on row 2 with 16 ghosts; `right` switches arcade
mode off, `down` goes to row 3, and `left` gives 15 ghosts, outside 1..10. -/
theorem ghost_count_after_skipped_intermission :
    settings_ok demo_arcade_done ∧ demo_arcade_done.NUM_GHOSTS = 4 ∧
    demo_arcade_done.arcade_mode = TRUE ∧
    game_turns no_rest (intermission2_rest [[event.SDL_KEYDOWN 49]]) demo_skip_frames
      demo_arcade_done (List.replicate 32 0) = some (demo_skip_game, 1, []) ∧
    demo_skip_game.NUM_GHOSTS = 16 ∧
    title_screen_enter demo_skip_game 5 [] = some (demo_skip_title, 2, []) ∧
    title_arrows [1073741903, 1073741905, 1073741904] demo_skip_title 2 5 [] =
      some (demo_skip_adjusted, 3, []) ∧
    demo_skip_adjusted.NUM_GHOSTS = 15 ∧ ¬ settings_ok demo_skip_adjusted := by
  refine ⟨?_, ?_, ?_, ?_, ?_, ?_, ?_, ?_, ?_⟩ <;> decide

/-! ## Level progression -/

/-- The state that the continuation step of `game` hands to `start_new_maze`. -/
theorem game_advance_spec (rest1 rest2 : Game → List Nat → Option (Game × List Nat))
    (h1 : keeps_progress rest1) (h2 : keeps_progress rest2) (g : Game) (rs : List Nat)
    (g1 : Game) (rs1 : List Nat) (h : game_advance rest1 rest2 g rs = some (g1, rs1)) :
    (g.arcade_mode ≠ TRUE → g1 = g ∧ rs1 = rs) ∧
    (g.arcade_mode = TRUE → g.maze_selected + 1 = 3 → g1.maze_selected = 3 ∧ g1.speed = 1) ∧
    (g.arcade_mode = TRUE → g.maze_selected + 1 = 5 → g1.maze_selected = 1 ∧ g1.speed = 2) ∧
    (g.arcade_mode = TRUE → g.maze_selected + 1 ≠ 3 → g.maze_selected + 1 ≠ 5 →
      g1 = { g with maze_selected := g.maze_selected + 1 } ∧ rs1 = rs) := by
  unfold game_advance at h
  by_cases ha : g.arcade_mode = TRUE
  · rw [if_pos ha] at h
    simp only at h
    by_cases m3 : g.maze_selected + 1 = 3
    · rw [if_pos m3] at h
      unfold intermission1 at h
      cases hr : rest1 { ({ ({ g with maze_selected := g.maze_selected + 1 } : Game) with
          maze_completed := FALSE } : Game) with
          start_delay := g.frame, speed := 1,
          munchkin_x_factor1 := (g.MAZE_OFFSET_X + 0 * (HORI_LINE_SIZE - 2)) + 7,
          munchkin_y_factor1 := (g.MAZE_OFFSET_Y + 6 * (VERT_LINE_SIZE - 2)) + 4,
          munchkin_auto_direction := 0, munchkin_last_direction := 0,
          munchkin_animation_frame := 0 } rs with
      | none =>
        rw [hr] at h
        exact absurd h (by simp)
      | some v =>
        obtain ⟨g2, rs2⟩ := v
        obtain ⟨k1, -, -⟩ := h1 _ _ _ _ hr
        rw [hr] at h
        simp only at h
        rw [if_neg (by decide)] at h
        simp only [Option.some.injEq, Prod.mk.injEq] at h
        refine ⟨fun x => absurd ha x, fun _ _ => ?_, fun _ x => ?_, fun _ x => absurd m3 x⟩
        · rw [← h.1]
          exact ⟨rfl, k1⟩
        · omega
    · rw [if_neg m3] at h
      simp only at h
      by_cases m5 : g.maze_selected + 1 = 5
      · rw [if_pos m5] at h
        unfold intermission2 at h
        cases hr : rest2 { ({ ({ g with maze_selected := g.maze_selected + 1 } : Game) with
            maze_completed := FALSE } : Game) with
            powerpill_color := 1, start_delay := g.frame, speed := 1,
            munchkin_x_factor1 := (g.MAZE_OFFSET_X + 4 * (HORI_LINE_SIZE - 2)) + 7,
            munchkin_y_factor1 := (g.MAZE_OFFSET_Y + 3 * (VERT_LINE_SIZE - 2)) + 4,
            munchkin_auto_direction := 0, munchkin_last_direction := 0,
            munchkin_animation_frame := 0 } rs with
        | none =>
          rw [hr] at h
          exact absurd h (by simp)
        | some v =>
          obtain ⟨g4, rs4⟩ := v
          obtain ⟨k1, -, -⟩ := h2 _ _ _ _ hr
          rw [hr] at h
          simp only at h
          have k2 : g4.speed = 1 := k1
          rw [if_pos k2] at h
          simp only [Option.some.injEq, Prod.mk.injEq] at h
          refine ⟨fun x => absurd ha x, fun _ x => absurd x m3, fun _ _ => ?_,
            fun _ _ x => absurd m5 x⟩
          rw [← h.1]
          exact ⟨rfl, rfl⟩
      · rw [if_neg m5] at h
        simp only [Option.some.injEq, Prod.mk.injEq] at h
        exact ⟨fun x => absurd ha x, fun _ x => absurd x m3, fun _ x => absurd x m5,
          fun _ _ _ => ⟨h.1.symm, h.2.symm⟩⟩
  · rw [if_neg ha] at h
    simp only [Option.some.injEq, Prod.mk.injEq] at h
    exact ⟨fun _ => ⟨h.1.symm, h.2.symm⟩, fun x => absurd x ha, fun x => absurd x ha,
      fun x => absurd x ha⟩

theorem game_advance_ok (rest1 rest2 : Game → List Nat → Option (Game × List Nat))
    (h1 : keeps_progress rest1) (h2 : keeps_progress rest2) (g : Game) (rs : List Nat)
    (g1 : Game) (rs1 : List Nat) (h : game_advance rest1 rest2 g rs = some (g1, rs1))
    (hl : level_ok g) : level_ok g1 := by
  obtain ⟨a1, a2, a3, a4⟩ := game_advance_spec rest1 rest2 h1 h2 g rs g1 rs1 h
  obtain ⟨l1, l2, l3, l4⟩ := hl
  by_cases ha : g.arcade_mode = TRUE
  · by_cases m3 : g.maze_selected + 1 = 3
    · obtain ⟨b1, b2⟩ := a2 ha m3
      unfold level_ok
      rw [b1, b2]
      decide
    · by_cases m5 : g.maze_selected + 1 = 5
      · obtain ⟨b1, b2⟩ := a3 ha m5
        unfold level_ok
        rw [b1, b2]
        decide
      · rw [(a4 ha m3 m5).1]
        refine ⟨?_, ?_, l3, ?_⟩
        · show 1 ≤ g.maze_selected + 1
          omega
        · show g.maze_selected + 1 ≤ 4
          omega
        · intro x
          have x2 : g.maze_selected + 1 = 3 ∨ g.maze_selected + 1 = 4 := x
          exact l4 (by omega)
  · rw [(a1 ha).1]
    exact ⟨l1, l2, l3, l4⟩

theorem start_new_maze_level (g : Game) (rs : List Nat) (g1 : Game) (rs1 : List Nat)
    (h : start_new_maze g rs = some (g1, rs1)) :
    g1.maze_selected = g.maze_selected ∧ g1.speed = g.speed := by
  obtain ⟨-, -, -, -, -, -, -, -, -, a, b, -⟩ := start_new_maze_frame g rs g1 rs1 h
  exact ⟨a, b⟩

theorem start_new_game_level (g : Game) (rs : List Nat) (g1 : Game) (rs1 : List Nat)
    (h : start_new_game g rs = some (g1, rs1)) :
    g1.maze_selected = g.maze_selected ∧ g1.speed = 1 := by
  unfold start_new_game at h
  exact start_new_maze_level _ rs g1 rs1 h

/-- C30. Level progression: when the rest of each intermission leaves `speed`,
`maze_selected` and `arcade_mode` alone, the state that the continuation step of `game`
hands to `start_new_maze` has, in arcade mode, maze 2 after maze 1 and maze 4 after maze 3
with the speed as it was, maze 3 with speed 1 after maze 2 (after `intermission1`), and
maze 1 with speed 2 after maze 4 (after `intermission2`); with arcade mode off it is the
state as it was.  The level invariant (maze in 1..4, speed 1 or 2, speed 1 on mazes 3 and
4) holds of that state and after the continuation step if it held before; `start_new_maze`
keeps the maze and the speed; `start_new_game` gives speed 1, so the restart after a death
gives the invariant too; and the step returns when the intermissions do. -/
theorem level_progression (rest1 rest2 : Game → List Nat → Option (Game × List Nat))
    (h1 : keeps_progress rest1) (h2 : keeps_progress rest2) :
    (∀ (g : Game) (rs : List Nat) (g1 : Game) (rs1 : List Nat),
      game_advance rest1 rest2 g rs = some (g1, rs1) →
      (g.arcade_mode = TRUE →
        (g.maze_selected = 1 → g1.maze_selected = 2 ∧ g1.speed = g.speed) ∧
        (g.maze_selected = 2 → g1.maze_selected = 3 ∧ g1.speed = 1) ∧
        (g.maze_selected = 3 → g1.maze_selected = 4 ∧ g1.speed = g.speed) ∧
        (g.maze_selected = 4 → g1.maze_selected = 1 ∧ g1.speed = 2)) ∧
      (g.arcade_mode ≠ TRUE → g1.maze_selected = g.maze_selected ∧ g1.speed = g.speed) ∧
      (level_ok g → level_ok g1)) ∧
    (∀ (g : Game) (rs : List Nat) (g1 : Game) (rs1 : List Nat),
      game_continue rest1 rest2 g rs = some (g1, rs1) → level_ok g → level_ok g1) ∧
    (∀ (g : Game) (rs : List Nat) (g1 : Game) (rs1 : List Nat),
      start_new_maze g rs = some (g1, rs1) →
      g1.maze_selected = g.maze_selected ∧ g1.speed = g.speed) ∧
    (∀ (g : Game) (rs : List Nat) (g1 : Game) (rs1 : List Nat),
      game_restart g rs = some (g1, rs1) → level_ok g → level_ok g1) ∧
    ((∀ s r, ∃ s1 r1, rest1 s r = some (s1, r1)) → (∀ s r, ∃ s1 r1, rest2 s r = some (s1, r1)) →
      ∀ (g : Game) (rs : List Nat), ∃ g1 rs1, game_advance rest1 rest2 g rs = some (g1, rs1)) := by
  refine ⟨?_, ?_, start_new_maze_level, ?_, ?_⟩
  · intro g rs g1 rs1 h
    obtain ⟨a1, a2, a3, a4⟩ := game_advance_spec rest1 rest2 h1 h2 g rs g1 rs1 h
    refine ⟨fun ha => ⟨fun m => ?_, fun m => a2 ha (by omega), fun m => ?_,
      fun m => a3 ha (by omega)⟩, fun ha => ?_, game_advance_ok rest1 rest2 h1 h2 g rs g1 rs1 h⟩
    · rw [(a4 ha (by omega) (by omega)).1]
      exact ⟨by show g.maze_selected + 1 = 2; omega, rfl⟩
    · rw [(a4 ha (by omega) (by omega)).1]
      exact ⟨by show g.maze_selected + 1 = 4; omega, rfl⟩
    · rw [(a1 ha).1]
      exact ⟨rfl, rfl⟩
  · intro g rs g1 rs1 h hl
    unfold game_continue at h
    by_cases hc : g.maze_completed = TRUE ∧ g.maze_completed_animations = 0
    · rw [if_pos hc] at h
      cases ha : game_advance rest1 rest2 g rs with
      | none => rw [ha] at h; exact absurd h (by simp)
      | some v =>
        obtain ⟨g2, rs2⟩ := v
        rw [ha] at h
        simp only at h
        obtain ⟨b1, b2⟩ := start_new_maze_level g2 rs2 g1 rs1 h
        have l2 := game_advance_ok rest1 rest2 h1 h2 g rs g2 rs2 ha hl
        unfold level_ok at l2 ⊢
        rw [b1, b2]
        exact l2
    · rw [if_neg hc] at h
      simp only [Option.some.injEq, Prod.mk.injEq] at h
      rw [← h.1]; exact hl
  · intro g rs g1 rs1 h hl
    unfold game_restart at h
    by_cases hc : g.munchkin_dying = TRUE ∧ g.munchkin_dying_animation = 25
    · rw [if_pos hc] at h
      obtain ⟨b1, b2⟩ := start_new_game_level _ rs g1 rs1 h
      obtain ⟨l1, l2, -, -⟩ := hl
      unfold level_ok
      rw [b1, b2]
      by_cases ha : g.arcade_mode = TRUE
      · rw [if_pos ha]
        exact ⟨by show (1 : Int) ≤ 1; decide, by show (1 : Int) ≤ 4; decide, Or.inl rfl,
          fun _ => rfl⟩
      · rw [if_neg ha]
        exact ⟨l1, l2, Or.inl rfl, fun _ => rfl⟩
    · rw [if_neg hc] at h
      simp only [Option.some.injEq, Prod.mk.injEq] at h
      rw [← h.1]; exact hl
  · intro t1 t2 g rs
    unfold game_advance
    by_cases ha : g.arcade_mode = TRUE
    · rw [if_pos ha]
      simp only
      by_cases m3 : g.maze_selected + 1 = 3
      · rw [if_pos m3]
        unfold intermission1
        obtain ⟨s1, r1, e⟩ := t1 { ({ ({ g with maze_selected := g.maze_selected + 1 } : Game) with
          maze_completed := FALSE } : Game) with
          start_delay := g.frame, speed := 1,
          munchkin_x_factor1 := (g.MAZE_OFFSET_X + 0 * (HORI_LINE_SIZE - 2)) + 7,
          munchkin_y_factor1 := (g.MAZE_OFFSET_Y + 6 * (VERT_LINE_SIZE - 2)) + 4,
          munchkin_auto_direction := 0, munchkin_last_direction := 0,
          munchkin_animation_frame := 0 } rs
        rw [e]
        simp only
        rw [if_neg (by decide)]
        exact ⟨_, _, rfl⟩
      · rw [if_neg m3]
        simp only
        by_cases m5 : g.maze_selected + 1 = 5
        · rw [if_pos m5]
          unfold intermission2
          obtain ⟨s1, r1, e⟩ := t2 { ({ ({ g with maze_selected := g.maze_selected + 1 } : Game)
            with maze_completed := FALSE } : Game) with
            powerpill_color := 1, start_delay := g.frame, speed := 1,
            munchkin_x_factor1 := (g.MAZE_OFFSET_X + 4 * (HORI_LINE_SIZE - 2)) + 7,
            munchkin_y_factor1 := (g.MAZE_OFFSET_Y + 3 * (VERT_LINE_SIZE - 2)) + 4,
            munchkin_auto_direction := 0, munchkin_last_direction := 0,
            munchkin_animation_frame := 0 } rs
          rw [e]
          exact ⟨_, _, rfl⟩
        · rw [if_neg m5]
          exact ⟨_, _, rfl⟩
    · rw [if_neg ha]
      exact ⟨_, _, rfl⟩

theorem no_rest_keeps : keeps_progress no_rest := by
  intro s rs s1 rs1 h
  unfold no_rest at h
  simp only [Option.some.injEq, Prod.mk.injEq] at h
  rw [← h.1]
  exact ⟨rfl, rfl, rfl⟩

theorem level_progression_witness :
    ∃ g1 rs1, game_advance no_rest no_rest demo_wrap [] = some (g1, rs1) ∧
      g1.maze_selected = 1 ∧ g1.speed = 2 :=
  have w := level_progression no_rest no_rest no_rest_keeps no_rest_keeps
  (w.2.2.2.2 (fun s r => ⟨s, r, rfl⟩) (fun s r => ⟨s, r, rfl⟩) demo_wrap []).elim
    fun g1 h => h.elim fun rs1 e =>
      ⟨g1, rs1, e, ((w.1 demo_wrap [] g1 rs1 e).1 (by decide)).2.2.2 (by decide)⟩

/-! ## A completed maze -/

theorem maze_frozen_refl (g : Game) : maze_frozen g g :=
  ⟨rfl, rfl, rfl, rfl, rfl, rfl, fun _ => ⟨rfl, rfl, rfl, rfl⟩, rfl, rfl, rfl, rfl, rfl⟩

theorem maze_frozen_trans (a b c : Game) (h1 : maze_frozen a b) (h2 : maze_frozen b c) :
    maze_frozen a c := by
  obtain ⟨a1, a2, a3, a4, a5, a6, a7, a8, a9, a10, a11, a12⟩ := h1
  obtain ⟨b1, b2, b3, b4, b5, b6, b7, b8, b9, b10, b11, b12⟩ := h2
  refine ⟨b1.trans a1, b2.trans a2, b3.trans a3, b4.trans a4, b5.trans a5, b6.trans a6,
    fun j => ?_, b8.trans a8, b9.trans a9, b10.trans a10, b11.trans a11, b12.trans a12⟩
  obtain ⟨p1, p2, p3, p4⟩ := a7 j
  obtain ⟨q1, q2, q3, q4⟩ := b7 j
  exact ⟨q1.trans p1, q2.trans p2, q3.trans p3, q4.trans p4⟩

theorem print_high_score_char_frame (g : Game) (c : Int) (g1 : Game)
    (h : print_high_score_char g c = some g1) :
    ∃ n p r, g1 = { g with high_score_name := n, high_score_character_pos := p,
                           high_score_registration := r } := by
  unfold print_high_score_char at h
  by_cases hb : c ≠ 13 ∧ (g.high_score_character_pos < 0 ∨ g.high_score_character_pos > 5)
  · rw [if_pos hb] at h
    exact absurd h (by simp)
  · rw [if_neg hb] at h
    simp only at h
    by_cases h2 : g.high_score_character_pos + 1 > 5 ∨ c = 13
    · rw [if_pos h2] at h
      simp only [Option.some.injEq] at h
      exact ⟨_, _, _, h.symm⟩
    · rw [if_neg h2] at h
      simp only [Option.some.injEq] at h
      exact ⟨_, _, _, h.symm⟩

theorem get_user_input_key_frame (g : Game) (sym : Int) (g1 : Game)
    (h : get_user_input_key g sym = some g1) :
    ∃ n p r, g1 = { g with high_score_name := n, high_score_character_pos := p,
                           high_score_registration := r } := by
  unfold get_user_input_key at h
  by_cases ha : (sym ≥ 97 ∧ sym ≤ 122) ∨ sym = 32 ∨ sym = 13
  · rw [if_pos ha] at h
    by_cases hr : g.high_score_registration = TRUE
    · rw [if_pos hr] at h
      exact print_high_score_char_frame g sym g1 h
    · rw [if_neg hr] at h
      simp only [Option.some.injEq] at h
      exact ⟨_, _, _, h.symm⟩
  · rw [if_neg ha] at h
    simp only [Option.some.injEq] at h
    exact ⟨_, _, _, h.symm⟩

theorem get_user_input_keys_frame (syms : List Int) : ∀ (g g1 : Game),
    get_user_input_keys syms g = some g1 →
    ∃ n p r, g1 = { g with high_score_name := n, high_score_character_pos := p,
                           high_score_registration := r } := by
  induction syms with
  | nil =>
    intro g g1 h
    simp only [get_user_input_keys, Option.some.injEq] at h
    exact ⟨_, _, _, h.symm⟩
  | cons s ss ih =>
    intro g g1 h
    rw [get_user_input_keys] at h
    cases hk : get_user_input_key g s with
    | none => rw [hk] at h; exact absurd h (by simp)
    | some g2 =>
      rw [hk] at h
      simp only at h
      obtain ⟨n, p, r, e⟩ := get_user_input_key_frame g s g2 hk
      obtain ⟨n2, p2, r2, e2⟩ := ih g2 g1 h
      rw [e2, e]
      exact ⟨_, _, _, rfl⟩

/-- With the maze completed `get_user_input` does not reach `handle_munchkin`: it only
records the filtered direction, and that only while the player is not dying. -/
theorem get_user_input_completed (g : Game) (k : keystate) (hc : g.maze_completed ≠ FALSE) :
    get_user_input g k =
      if g.munchkin_dying = FALSE then
        { g with munchkin_last_direction := (get_user_input_direction g k).1 }
      else g := by
  unfold get_user_input
  by_cases hd : g.munchkin_dying = FALSE
  · rw [if_pos hd, if_pos hd]
    simp only
    rw [if_neg hc]
  · rw [if_neg hd, if_neg hd]

theorem draw_munchkin_idle (g : Game) (hc : g.maze_completed ≠ FALSE)
    (hd : g.munchkin_dying ≠ TRUE) : draw_munchkin g = g := by
  unfold draw_munchkin
  simp only
  rw [if_neg hc, if_neg hd]

theorem handle_maze_completed_count (g : Game) :
    ∃ c, handle_maze_completed g =
      { g with maze_completed_animations := g.maze_completed_animations - 1, maze_color := c } := by
  unfold handle_maze_completed
  simp only
  split_ifs <;> exact ⟨_, rfl⟩

theorem draw_score_line_idle (g : Game) (hd : g.munchkin_dying ≠ 1) : draw_score_line g = g := by
  unfold draw_score_line
  rw [if_neg hd]

/-- The calls of a frame after `get_user_input`, on a completed maze with the player
alive: they return without a draw, the animation counter drops by one, and what a
completed maze freezes is as it was, so neither the pills nor the ghosts advanced and
`check_ghosts_hits_munchkin` did not run. -/
theorem game_frame_tail_completed (g : Game) (rs : List Nat) (hc : g.maze_completed = TRUE)
    (hd : g.munchkin_dying = FALSE) :
    ∃ g1, game_frame_tail g rs = some (g1, rs) ∧ maze_frozen g g1 ∧
      g1.maze_completed_animations = g.maze_completed_animations - 1 := by
  have hc0 : g.maze_completed ≠ FALSE := by rw [hc]; decide
  have hd1 : g.munchkin_dying ≠ TRUE := by rw [hd]; decide
  unfold game_frame_tail
  simp only
  rw [draw_munchkin_idle g hc0 hd1, if_pos hc]
  obtain ⟨c, e6⟩ := handle_maze_completed_count g
  rw [e6]
  obtain ⟨g7, e7, ⟨ps, l, o7⟩, p7⟩ := handle_pills_completed
    { g with maze_completed_animations := g.maze_completed_animations - 1, maze_color := c } rs hc0
  rw [e7]
  simp only
  have d7 : g7.munchkin_dying = FALSE := by rw [o7]; exact hd
  have c7 : g7.maze_completed ≠ FALSE := by rw [o7]; exact hc0
  rw [if_pos (Or.inl d7), handle_ghosts_completed g7 rs c7]
  simp only
  rw [if_neg c7]
  obtain ⟨hh, vv, oo, e9⟩ := draw_maze_frame
    { g7 with powerpill_active_timer := g7.powerpill_active_timer - 1 }
  rw [e9, draw_score_line_idle _ (by show g7.munchkin_dying ≠ 1; rw [d7]; decide)]
  refine ⟨_, rfl, ?_, ?_⟩
  · refine ⟨?_, ?_, ?_, ?_, ?_, ?_, ?_, ?_, ?_, ?_, ?_, ?_⟩
    · show g7.maze_completed = g.maze_completed
      rw [o7]
    · show g7.munchkin_dying = g.munchkin_dying
      rw [o7]
    · show g7.munchkin_x_factor1 = g.munchkin_x_factor1
      rw [o7]
    · show g7.munchkin_y_factor1 = g.munchkin_y_factor1
      rw [o7]
    · show g7.munchkin_auto_direction = g.munchkin_auto_direction
      rw [o7]
    · show g7.ghosts = g.ghosts
      rw [o7]
    · intro j
      exact p7 j
    · show g7.score = g.score
      rw [o7]
    · show g7.high_score = g.high_score
      rw [o7]
    · show g7.maze_selected = g.maze_selected
      rw [o7]
    · show g7.speed = g.speed
      rw [o7]
    · show g7.arcade_mode = g.arcade_mode
      rw [o7]
  · show g7.maze_completed_animations = g.maze_completed_animations - 1
    rw [o7]

/-! ## The completed maze under the whole of `get_user_input` -/

theorem maze_frozen_held (g g1 : Game) (h : maze_frozen g g1) : maze_held g g1 := by
  obtain ⟨a1, a2, a3, a4, a5, a6, -, a8, a9, a10, a11, a12⟩ := h
  exact ⟨a1, a2, a3, a4, a5, a6, a8, a9, a10, a11, a12⟩

theorem maze_held_trans (a b c : Game) (h1 : maze_held a b) (h2 : maze_held b c) :
    maze_held a c := by
  obtain ⟨a1, a2, a3, a4, a5, a6, a7, a8, a9, a10, a11⟩ := h1
  obtain ⟨b1, b2, b3, b4, b5, b6, b7, b8, b9, b10, b11⟩ := h2
  exact ⟨b1.trans a1, b2.trans a2, b3.trans a3, b4.trans a4, b5.trans a5, b6.trans a6,
    b7.trans a7, b8.trans a8, b9.trans a9, b10.trans a10, b11.trans a11⟩

/-- What the event loop of `get_user_input` and its full-screen key can change when the game
is not restarted: the window scale, the pills (by `setup_pills`), the joystick flags and
the name entry. -/
theorem get_user_input_screen_frame (g : Game) (key_8 : Bool) (rs : List Nat) (g1 : Game)
    (rs1 : List Nat) (h : get_user_input_screen g key_8 rs = some (g1, rs1)) :
    (key_8 = false → g1 = g ∧ rs1 = rs) ∧
    ∃ f x y ps l, g1 =
      { g with factor := f, screen_offset_x := x, screen_offset_y := y, pills := ps,
               last_pill_speed_increased := l } := by
  unfold get_user_input_screen at h
  by_cases hk : key_8 = true ∧ g.munchkin_dying ≠ 1
  · rw [if_pos hk] at h
    unfold handle_screen_resize at h
    obtain ⟨ps, e⟩ := setup_pills_frame _ rs g1 rs1 h
    refine ⟨fun hf => absurd hk.1 (by rw [hf]; decide), ?_⟩
    rw [e]
    exact ⟨_, _, _, _, _, rfl⟩
  · rw [if_neg hk] at h
    simp only [Option.some.injEq, Prod.mk.injEq] at h
    refine ⟨fun _ => ⟨h.1.symm, h.2.symm⟩, ?_⟩
    rw [← h.1]
    exact ⟨_, _, _, _, _, rfl⟩

theorem get_user_input_axis_frame (g : Game) (which axis value : Int) :
    ∃ jl jr ju jd, get_user_input_axis g which axis value =
      { g with joy_left := jl, joy_right := jr, joy_up := ju, joy_down := jd } := by
  unfold get_user_input_axis
  split_ifs <;> exact ⟨_, _, _, _, rfl⟩

theorem get_user_input_events_frame (events : List event) : ∀ (g : Game) (rs : List Nat)
    (g1 : Game) (ret : Int) (rs1 : List Nat), (∀ e ∈ events, no_restart e) →
    get_user_input_events events g rs = some (g1, ret, rs1) →
    ret = 0 ∧ rs1 = rs ∧
    ∃ jl jr ju jd n p r, g1 =
      { g with joy_left := jl, joy_right := jr, joy_up := ju, joy_down := jd,
               high_score_name := n, high_score_character_pos := p,
               high_score_registration := r } := by
  induction events with
  | nil =>
    intro g rs g1 ret rs1 _ h
    simp only [get_user_input_events, Option.some.injEq, Prod.mk.injEq] at h
    refine ⟨h.2.1.symm, h.2.2.symm, ?_⟩
    rw [← h.1]
    exact ⟨_, _, _, _, _, _, _, rfl⟩
  | cons e es ih =>
    intro g rs g1 ret rs1 hn h
    have hes : ∀ e ∈ es, no_restart e := fun x hx => hn x (List.mem_cons_of_mem _ hx)
    have he : no_restart e := hn e (List.mem_cons_self _ _)
    cases e with
    | SDL_QUIT =>
      simp only [get_user_input_events] at h
      exact absurd h (by simp)
    | SDL_KEYDOWN sym =>
      have hs : sym ≠ 27 := he
      simp only [get_user_input_events] at h
      rw [if_neg hs] at h
      cases hk : get_user_input_key g sym with
      | none => rw [hk] at h; exact absurd h (by simp)
      | some g2 =>
        rw [hk] at h
        simp only at h
        obtain ⟨n, p, r, e2⟩ := get_user_input_key_frame g sym g2 hk
        obtain ⟨q1, q2, jl, jr, ju, jd, n2, p2, r2, e3⟩ := ih g2 rs g1 ret rs1 hes h
        refine ⟨q1, q2, ?_⟩
        rw [e3, e2]
        exact ⟨_, _, _, _, _, _, _, rfl⟩
    | SDL_JOYBUTTONDOWN button =>
      have hs : ¬ (button = 8 ∨ button = 7) := he
      simp only [get_user_input_events] at h
      rw [if_neg hs] at h
      exact ih g rs g1 ret rs1 hes h
    | SDL_JOYAXISMOTION which axis value =>
      simp only [get_user_input_events] at h
      obtain ⟨jl, jr, ju, jd, e2⟩ := get_user_input_axis_frame g which axis value
      obtain ⟨q1, q2, jl2, jr2, ju2, jd2, n2, p2, r2, e3⟩ := ih _ rs g1 ret rs1 hes h
      refine ⟨q1, q2, ?_⟩
      rw [e3, e2]
      exact ⟨_, _, _, _, _, _, _, rfl⟩
    | other =>
      simp only [get_user_input_events] at h
      exact ih g rs g1 ret rs1 hes h

/-- The whole of `get_user_input` on a completed maze when no event restarts the game: it
returns 0 and leaves what a completed maze freezes, pills apart, as it is (so
`handle_munchkin` did not run); with key 8 not held the pills and the draws are as they
were too. -/
theorem get_user_input_all_completed (g : Game) (key_8 : Bool) (events : List event)
    (k : keystate) (rs : List Nat) (g1 : Game) (ret : Int) (rs1 : List Nat)
    (hc : g.maze_completed = TRUE) (hn : ∀ e ∈ events, no_restart e)
    (h : get_user_input_all g key_8 events k rs = some (g1, ret, rs1)) :
    ret = 0 ∧ maze_held g g1 ∧
    g1.maze_completed_animations = g.maze_completed_animations ∧
    (key_8 = false → maze_frozen g g1 ∧ rs1 = rs) := by
  unfold get_user_input_all at h
  cases h1 : get_user_input_screen g key_8 rs with
  | none => rw [h1] at h; exact absurd h (by simp)
  | some v1 =>
    obtain ⟨g2, rs2⟩ := v1
    rw [h1] at h
    simp only at h
    cases h2 : get_user_input_events events g2 rs2 with
    | none => rw [h2] at h; exact absurd h (by simp)
    | some v2 =>
      obtain ⟨g3, ret3, rs3⟩ := v2
      rw [h2] at h
      simp only at h
      obtain ⟨s1, f, x, y, ps, l, e2⟩ := get_user_input_screen_frame g key_8 rs g2 rs2 h1
      obtain ⟨r0, q2, jl, jr, ju, jd, n, p, r, e3⟩ :=
        get_user_input_events_frame events g2 rs2 g3 ret3 rs3 hn h2
      rw [r0, if_neg (by decide)] at h
      simp only [Option.some.injEq, Prod.mk.injEq] at h
      obtain ⟨h4, h5, h6⟩ := h
      have c3 : g3.maze_completed ≠ FALSE := by
        rw [e3, e2]
        show g.maze_completed ≠ FALSE
        rw [hc]
        decide
      have e4 : ∃ d, get_user_input g3 k = { g3 with munchkin_last_direction := d } := by
        rw [get_user_input_completed g3 k c3]
        split_ifs
        · exact ⟨_, rfl⟩
        · exact ⟨g3.munchkin_last_direction, rfl⟩
      obtain ⟨d, e5⟩ := e4
      refine ⟨h5.symm, ?_, ?_, ?_⟩
      · rw [← h4, e5, e3, e2]
        exact ⟨rfl, rfl, rfl, rfl, rfl, rfl, rfl, rfl, rfl, rfl, rfl⟩
      · rw [← h4, e5, e3, e2]
      · intro hf
        obtain ⟨t1, t2⟩ := s1 hf
        refine ⟨?_, ?_⟩
        · rw [← h4, e5, e3, t1]
          exact ⟨rfl, rfl, rfl, rfl, rfl, rfl, fun _ => ⟨rfl, rfl, rfl, rfl⟩, rfl, rfl, rfl,
            rfl, rfl⟩
        · rw [← h6, q2, t2]

/-- One turn of the main loop on a completed maze whose animation is not over, with the
player alive and no event that restarts the game. -/
theorem game_turn_completed (rest1 rest2 : Game → List Nat → Option (Game × List Nat))
    (g : Game) (i : frame_input) (rs : List Nat)
    (hc : g.maze_completed = TRUE) (hd : g.munchkin_dying = FALSE)
    (ha : g.maze_completed_animations ≠ 0) (hni : ∀ e ∈ i.events, no_restart e) :
    (∀ g1 done rs1, game_turn rest1 rest2 g i rs = some (g1, done, rs1) →
      done = 0 ∧ maze_held g g1 ∧
      g1.maze_completed_animations = g.maze_completed_animations - 1 ∧
      (i.key_8 = false → maze_frozen g g1 ∧ rs1 = rs)) ∧
    (i.key_8 = false → i.events = [] →
      ∃ g1, game_turn rest1 rest2 g i rs = some (g1, 0, rs)) := by
  have hd1 : ¬ (g.munchkin_dying = TRUE ∧ g.munchkin_dying_animation = 25) := by
    rw [hd]; exact fun x => absurd x.1 (by decide)
  have r1 : game_restart { g with frame := g.frame + 1 } rs =
      some ({ g with frame := g.frame + 1 }, rs) := by
    unfold game_restart
    exact if_neg hd1
  have r2 : game_continue rest1 rest2 { g with frame := g.frame + 1 } rs =
      some ({ g with frame := g.frame + 1 }, rs) := by
    unfold game_continue
    exact if_neg (fun x => ha x.2)
  have hf : maze_frozen g { g with frame := g.frame + 1 } :=
    ⟨rfl, rfl, rfl, rfl, rfl, rfl, fun _ => ⟨rfl, rfl, rfl, rfl⟩, rfl, rfl, rfl, rfl, rfl⟩
  constructor
  · intro g1 done rs1 h
    unfold game_turn at h
    rw [r1] at h
    simp only at h
    rw [r2] at h
    simp only at h
    cases h3 : get_user_input_all { g with frame := g.frame + 1 } i.key_8 i.events i.arrows rs with
    | none => rw [h3] at h; exact absurd h (by simp)
    | some v3 =>
      obtain ⟨g3, d3, rs3⟩ := v3
      rw [h3] at h
      simp only at h
      have hc1 : ({ g with frame := g.frame + 1 } : Game).maze_completed = TRUE := hc
      obtain ⟨u1, u2, u3, u4⟩ := get_user_input_all_completed { g with frame := g.frame + 1 }
        i.key_8 i.events i.arrows rs g3 d3 rs3 hc1 hni h3
      have c3 : g3.maze_completed = TRUE := u2.1.trans hc
      have d3a : g3.munchkin_dying = FALSE := u2.2.1.trans hd
      obtain ⟨g4, t1, t2, t3⟩ := game_frame_tail_completed g3 rs3 c3 d3a
      rw [t1] at h
      simp only [Option.some.injEq, Prod.mk.injEq] at h
      obtain ⟨h4, h5, h6⟩ := h
      refine ⟨by rw [← h5, u1], ?_, ?_, ?_⟩
      · rw [← h4]
        exact maze_held_trans g _ g4 (maze_frozen_held _ _ hf)
          (maze_held_trans _ g3 g4 u2 (maze_frozen_held _ _ t2))
      · rw [← h4, t3, u3]
      · intro hk
        obtain ⟨w1, w2⟩ := u4 hk
        refine ⟨?_, by rw [← h6, w2]⟩
        rw [← h4]
        exact maze_frozen_trans g _ g4 hf (maze_frozen_trans _ g3 g4 w1 t2)
  · intro hk he
    unfold game_turn
    rw [r1]
    simp only
    rw [r2]
    simp only
    rw [hk, he]
    have c0 : ({ g with frame := g.frame + 1 } : Game).maze_completed ≠ FALSE := by
      show g.maze_completed ≠ FALSE
      rw [hc]
      decide
    have e1 : get_user_input_all { g with frame := g.frame + 1 } false [] i.arrows rs =
        some (get_user_input { g with frame := g.frame + 1 } i.arrows, 0, rs) := by
      unfold get_user_input_all get_user_input_screen
      rw [if_neg (fun x => absurd x.1 (by decide))]
      simp only [get_user_input_events]
      rw [if_neg (by decide)]
    rw [e1]
    simp only
    have e2 : get_user_input { g with frame := g.frame + 1 } i.arrows =
        { g with frame := g.frame + 1, munchkin_last_direction :=
          (get_user_input_direction { g with frame := g.frame + 1 } i.arrows).1 } := by
      rw [get_user_input_completed _ _ c0, if_pos hd]
    rw [e2]
    obtain ⟨g4, t1, -, -⟩ := game_frame_tail_completed
      { g with frame := g.frame + 1, munchkin_last_direction :=
        (get_user_input_direction { g with frame := g.frame + 1 } i.arrows).1 } rs hc hd
    rw [t1]
    exact ⟨g4, rfl⟩

theorem game_turns_completed (rest1 rest2 : Game → List Nat → Option (Game × List Nat)) :
    ∀ (ins : List frame_input) (g : Game) (rs : List Nat),
      g.maze_completed = TRUE → g.munchkin_dying = FALSE →
      (ins.length : Int) ≤ g.maze_completed_animations →
      (∀ i ∈ ins, ∀ e ∈ i.events, no_restart e) →
      (∀ gk done rsk, game_turns rest1 rest2 ins g rs = some (gk, done, rsk) →
        done = 0 ∧ maze_held g gk ∧
        gk.maze_completed_animations = g.maze_completed_animations - ins.length ∧
        ((∀ i ∈ ins, i.key_8 = false) → maze_frozen g gk ∧ rsk = rs)) ∧
      ((∀ i ∈ ins, i.key_8 = false ∧ i.events = []) →
        ∃ gk, game_turns rest1 rest2 ins g rs = some (gk, 0, rs)) := by
  intro ins
  induction ins with
  | nil =>
    intro g rs _ _ _ _
    constructor
    · intro gk done rsk h
      simp only [game_turns, Option.some.injEq, Prod.mk.injEq] at h
      rw [← h.1, ← h.2.1, ← h.2.2]
      exact ⟨rfl, maze_frozen_held _ _ (maze_frozen_refl g), by simp,
        fun _ => ⟨maze_frozen_refl g, rfl⟩⟩
    · intro _
      exact ⟨g, rfl⟩
  | cons i is ih =>
    intro g rs hc hd hl hn
    rw [List.length_cons] at hl
    push_cast at hl
    have hni : ∀ e ∈ i.events, no_restart e := hn i (List.mem_cons_self _ _)
    have hns : ∀ j ∈ is, ∀ e ∈ j.events, no_restart e :=
      fun j hj => hn j (List.mem_cons_of_mem _ hj)
    obtain ⟨f1, f2⟩ := game_turn_completed rest1 rest2 g i rs hc hd (by omega) hni
    constructor
    · intro gk done rsk h
      rw [game_turns] at h
      cases hf : game_turn rest1 rest2 g i rs with
      | none => rw [hf] at h; exact absurd h (by simp)
      | some v =>
        obtain ⟨g1, d1, rs1⟩ := v
        rw [hf] at h
        simp only at h
        obtain ⟨a1, a2, a3, a4⟩ := f1 g1 d1 rs1 hf
        rw [if_pos a1] at h
        obtain ⟨k1, k2, k3, k4⟩ := (ih g1 rs1 (a2.1.trans hc) (a2.2.1.trans hd)
          (by rw [a3]; omega) hns).1 gk done rsk h
        refine ⟨k1, maze_held_trans g g1 gk a2 k2, ?_, ?_⟩
        · rw [k3, a3, List.length_cons]
          push_cast
          ring
        · intro hk
          obtain ⟨b1, b2⟩ := a4 (hk i (List.mem_cons_self _ _))
          obtain ⟨c1, c2⟩ := k4 (fun j hj => hk j (List.mem_cons_of_mem _ hj))
          exact ⟨maze_frozen_trans g g1 gk b1 c1, c2.trans b2⟩
    · intro hq
      obtain ⟨q1, q2⟩ := hq i (List.mem_cons_self _ _)
      obtain ⟨g1, e1⟩ := f2 q1 q2
      obtain ⟨a1, a2, a3, a4⟩ := f1 g1 0 rs e1
      obtain ⟨gk, ek⟩ := (ih g1 rs (a2.1.trans hc) (a2.2.1.trans hd)
        (by rw [a3]; omega) hns).2 (fun j hj => hq j (List.mem_cons_of_mem _ hj))
      refine ⟨gk, ?_⟩
      rw [game_turns, e1]
      simp only
      first | rw [if_pos rfl, ek] | rw [if_pos trivial, ek]

/-- The turn of the main loop with key 8 not held and only key presses other than Escape
in the queue is the turn `game_frame`, with `done` 0. -/
theorem game_turn_keys (rest1 rest2 : Game → List Nat → Option (Game × List Nat))
    (g : Game) (syms : List Int) (k : keystate) (rs : List Nat) (hs : ∀ s ∈ syms, s ≠ 27) :
    game_turn rest1 rest2 g ⟨false, syms.map event.SDL_KEYDOWN, k⟩ rs =
      (game_frame rest1 rest2 g syms k rs).map (fun r => (r.1, 0, r.2)) := by
  have key : ∀ (l : List Int) (s : Game) (r : List Nat), (∀ x ∈ l, x ≠ 27) →
      get_user_input_events (l.map event.SDL_KEYDOWN) s r =
        (get_user_input_keys l s).map (fun t => (t, 0, r)) := by
    intro l
    induction l with
    | nil => intro s r _; rfl
    | cons x xs ih =>
      intro s r hx
      rw [List.map_cons, get_user_input_events, if_neg (hx x (List.mem_cons_self _ _)),
        get_user_input_keys]
      cases hk : get_user_input_key s x with
      | none => rfl
      | some s1 =>
        simp only
        exact ih s1 r (fun y hy => hx y (List.mem_cons_of_mem _ hy))
  unfold game_turn game_frame
  cases h1 : game_restart { g with frame := g.frame + 1 } rs with
  | none => rfl
  | some v1 =>
    obtain ⟨g1, rs1⟩ := v1
    simp only
    cases h2 : game_continue rest1 rest2 g1 rs1 with
    | none => rfl
    | some v2 =>
      obtain ⟨g2, rs2⟩ := v2
      simp only
      unfold get_user_input_all get_user_input_screen
      rw [if_neg (fun x => absurd x.1 (by decide))]
      simp only
      rw [key syms g2 rs2 hs]
      cases h3 : get_user_input_keys syms g2 with
      | none => rfl
      | some g3 =>
        simp only [Option.map_some']
        rw [if_neg (by decide)]
        simp only
        cases h4 : game_frame_tail (get_user_input g3 k) rs2 with
        | none => rfl
        | some v4 => rfl

/-- C29, as the code has it.  With `maze_completed` TRUE at entry: `handle_pills` returns
without a draw and leaves the status, place and direction of every pill and the score as
they are; `handle_ghosts` returns without a draw and leaves the ghosts as they are; and
the rest of a frame after `get_user_input`, with the player alive, leaves what a completed
maze freezes as it is and lowers the animation counter by one.  When no event of the queue
restarts the game (the Escape key, joystick button 8 or 7): `get_user_input` returns 0 and
leaves the player's position and committed direction, the ghosts, the score and
`munchkin_dying` as they are, so `handle_munchkin` did not run; and from a counter of 75,
after `n ≤ 75` turns of the main loop with the player alive the loop goes on,
`maze_completed` is still TRUE, the counter is `75 - n`, and the player, the ghosts, the
score and `munchkin_dying` are as they were, so `check_ghosts_hits_munchkin` did not run;
the pills are as they were too when key 8 was not held in these turns (key 8 lays them out
again through `handle_screen_resize`).  The continuation step that finds the counter at 0
ends with `maze_completed` FALSE, and turns with an empty queue and key 8 not held
return. -/
theorem completion_freeze_unless_escape
    (rest1 rest2 : Game → List Nat → Option (Game × List Nat)) :
    (∀ (g : Game) (rs : List Nat), g.maze_completed = TRUE →
      ∃ g1, handle_pills g rs = some (g1, rs) ∧ g1.score = g.score ∧
        ∀ j, (pill_at g1 j).status = (pill_at g j).status ∧ (pill_at g1 j).x = (pill_at g j).x ∧
          (pill_at g1 j).y = (pill_at g j).y ∧
          (pill_at g1 j).direction = (pill_at g j).direction) ∧
    (∀ (g : Game) (rs : List Nat), g.maze_completed = TRUE →
      ∃ g1, handle_ghosts g rs = some (g1, rs) ∧ g1.ghosts = g.ghosts) ∧
    (∀ (g : Game) (key_8 : Bool) (events : List event) (k : keystate) (rs : List Nat)
      (g1 : Game) (ret : Int) (rs1 : List Nat), g.maze_completed = TRUE →
      (∀ e ∈ events, no_restart e) →
      get_user_input_all g key_8 events k rs = some (g1, ret, rs1) →
      ret = 0 ∧ maze_held g g1 ∧ (key_8 = false → maze_frozen g g1 ∧ rs1 = rs)) ∧
    (∀ (g : Game) (rs : List Nat), g.maze_completed = TRUE → g.munchkin_dying = FALSE →
      ∃ g1, game_frame_tail g rs = some (g1, rs) ∧ maze_frozen g g1 ∧
        g1.maze_completed_animations = g.maze_completed_animations - 1) ∧
    (∀ (ins : List frame_input) (g : Game) (rs : List Nat) (gk : Game) (done : Int)
      (rsk : List Nat), g.maze_completed = TRUE → g.munchkin_dying = FALSE →
      g.maze_completed_animations = 75 → ins.length ≤ 75 →
      (∀ i ∈ ins, ∀ e ∈ i.events, no_restart e) →
      game_turns rest1 rest2 ins g rs = some (gk, done, rsk) →
      done = 0 ∧ maze_held g gk ∧ gk.maze_completed = TRUE ∧
      gk.maze_completed_animations = 75 - ins.length ∧
      ((∀ i ∈ ins, i.key_8 = false) → maze_frozen g gk ∧ rsk = rs)) ∧
    (∀ (g : Game) (rs : List Nat) (g1 : Game) (rs1 : List Nat), g.maze_completed = TRUE →
      g.maze_completed_animations = 0 → game_continue rest1 rest2 g rs = some (g1, rs1) →
      g1.maze_completed = FALSE) ∧
    (∀ (ins : List frame_input) (g : Game) (rs : List Nat), g.maze_completed = TRUE →
      g.munchkin_dying = FALSE → g.maze_completed_animations = 75 → ins.length ≤ 75 →
      (∀ i ∈ ins, i.key_8 = false ∧ i.events = []) →
      ∃ gk, game_turns rest1 rest2 ins g rs = some (gk, 0, rs)) := by
  refine ⟨?_, ?_, ?_, game_frame_tail_completed, ?_, ?_, ?_⟩
  · intro g rs hc
    obtain ⟨g1, e, ⟨ps, l, o⟩, p⟩ := handle_pills_completed g rs (by rw [hc]; decide)
    exact ⟨g1, e, by rw [o], p⟩
  · intro g rs hc
    exact ⟨_, handle_ghosts_completed g rs (by rw [hc]; decide), rfl⟩
  · intro g key_8 events k rs g1 ret rs1 hc hn h
    obtain ⟨a1, a2, -, a4⟩ := get_user_input_all_completed g key_8 events k rs g1 ret rs1 hc hn h
    exact ⟨a1, a2, a4⟩
  · intro ins g rs gk done rsk hc hd ha hl hn h
    obtain ⟨f1, f2, f3, f4⟩ := (game_turns_completed rest1 rest2 ins g rs hc hd
      (by rw [ha]; exact_mod_cast hl) hn).1 gk done rsk h
    exact ⟨f1, f2, f2.1.trans hc, by rw [f3, ha], f4⟩
  · intro g rs g1 rs1 hc ha h
    unfold game_continue at h
    rw [if_pos ⟨hc, ha⟩] at h
    cases hv : game_advance rest1 rest2 g rs with
    | none => rw [hv] at h; exact absurd h (by simp)
    | some v =>
      obtain ⟨g2, rs2⟩ := v
      rw [hv] at h
      exact (start_new_maze_frame g2 rs2 g1 rs1 h).2.2.2.2.2.1
  · intro ins g rs hc hd ha hl hq
    have hn : ∀ i ∈ ins, ∀ e ∈ i.events, no_restart e := by
      intro i hi e he
      rw [(hq i hi).2] at he
      exact absurd he (List.not_mem_nil e)
    exact (game_turns_completed rest1 rest2 ins g rs hc hd
      (by rw [ha]; exact_mod_cast hl) hn).2 hq

theorem demo_resize_after_eq :
    game_turns no_rest no_rest
      [{ frame_idle with key_8 := true, events := [event.SDL_JOYAXISMOTION 0 0 (-9000)] }]
      demo_cleared [] = some (demo_resize_after, 0, []) := by
  decide

theorem completion_freeze_unless_escape_witness :
    demo_resize_after.maze_completed = TRUE ∧
    demo_resize_after.maze_completed_animations = 74 ∧
    demo_resize_after.munchkin_x_factor1 = demo_cleared.munchkin_x_factor1 ∧
    demo_resize_after.ghosts = demo_cleared.ghosts ∧
    demo_resize_after.score = demo_cleared.score :=
  have w := (completion_freeze_unless_escape no_rest no_rest).2.2.2.2.1
    [{ frame_idle with key_8 := true, events := [event.SDL_JOYAXISMOTION 0 0 (-9000)] }]
    demo_cleared [] demo_resize_after 0 [] (by decide) (by decide) (by decide) (by decide)
    (by decide) demo_resize_after_eq
  ⟨w.2.2.1, w.2.2.2.1, w.2.1.2.2.1, w.2.1.2.2.2.2.2.1, w.2.1.2.2.2.2.2.2.1⟩

/-- C29 fails as stated when the Escape key arrives: on the completed maze `demo_cleared`
(player alive, animation counter 75, all twelve pills eaten) one turn of the main loop whose
queue holds the Escape key returns `done = 1` with `maze_completed` FALSE while the counter
is still 75, and in that same turn the pills are laid out again and pill 0 and ghost 0 have
moved. -/
theorem escape_ends_completion_counterexample :
    demo_cleared.maze_completed = TRUE ∧ demo_cleared.munchkin_dying = FALSE ∧
    demo_cleared.maze_completed_animations = 75 ∧
    game_turns no_rest no_rest [{ frame_idle with events := [event.SDL_KEYDOWN 27] }]
      demo_cleared (List.replicate 16 0) = some (demo_escape_after, 1, []) ∧
    demo_escape_after.maze_completed = FALSE ∧
    demo_escape_after.maze_completed_animations = 75 ∧
    (pill_at demo_cleared 0).status = 0 ∧ (pill_at demo_escape_after 0).status = 2 ∧
    (pill_at demo_cleared 0).x = 90 ∧ (pill_at demo_escape_after 0).x = 91 ∧
    (ghost_at demo_cleared 0).y = 83 ∧ (ghost_at demo_escape_after 0).y = 84 := by
  decide

/-- Key 8 on a completed maze: the turn leaves `maze_completed` TRUE and lowers the counter,
but `handle_screen_resize` has laid the eaten pills out again. -/
theorem resize_resets_pills_sample :
    (pill_at demo_cleared 0).status = 0 ∧ (pill_at demo_cleared 1).status = 0 ∧
    (pill_at demo_resize_after 0).status = 2 ∧ (pill_at demo_resize_after 1).status = 1 ∧
    demo_resize_after.maze_completed = TRUE ∧ demo_resize_after.joy_left = 1 := by
  decide

/-! ## Homing at the approach cells -/

theorem ghost_flag_bit (g : Game) (cx cy d : Int) :
    ghost_flag g cx cy d = 0 ∨ ghost_flag g cx cy d = 1 := by
  unfold ghost_flag wall_left_open wall_right_open wall_up_open wall_down_open
  split_ifs <;> simp

theorem ghost_approach_forced (d lo ro uo dn : Int) :
    ghost_approach d 3 4 lo 1 uo dn = (RIGHT, TRUE) ∧
    ghost_approach d 5 4 1 ro uo dn = (LEFT, TRUE) ∧
    ghost_approach d 4 3 lo ro uo 1 = (DOWN, TRUE) ∧
    ghost_approach d 4 5 lo ro 1 dn = (UP, TRUE) := by
  refine ⟨?_, ?_, ?_, ?_⟩ <;> simp [ghost_approach]

theorem ghost_approach_fallback (d lo ro uo dn : Int) :
    (ro ≠ 1 → ghost_approach d 3 4 lo ro uo dn = (stay_around_3_4 d lo uo dn, TRUE)) ∧
    (lo ≠ 1 → ghost_approach d 5 4 lo ro uo dn = (stay_around_5_4 d ro uo dn, TRUE)) ∧
    (dn ≠ 1 → ghost_approach d 4 3 lo ro uo dn = (stay_around_4_3 d lo ro uo, TRUE)) ∧
    (uo ≠ 1 → ghost_approach d 4 5 lo ro uo dn = (stay_around_4_5 d lo ro dn, TRUE)) := by
  refine ⟨?_, ?_, ?_, ?_⟩ <;> intro h <;> simp [ghost_approach, h]

theorem ghost_approach_other (d cx cy lo ro uo dn : Int)
    (h1 : ¬ (cx = 3 ∧ cy = 4)) (h2 : ¬ (cx = 5 ∧ cy = 4)) (h3 : ¬ (cx = 4 ∧ cy = 3))
    (h4 : ¬ (cx = 4 ∧ cy = 5)) : ghost_approach d cx cy lo ro uo dn = (d, FALSE) := by
  have a1 : ∀ p : Prop, ¬ (cx = 3 ∧ cy = 4 ∧ p) := fun _ x => h1 ⟨x.1, x.2.1⟩
  have a2 : ∀ p : Prop, ¬ (cx = 5 ∧ cy = 4 ∧ p) := fun _ x => h2 ⟨x.1, x.2.1⟩
  have a3 : ∀ p : Prop, ¬ (cx = 4 ∧ cy = 3 ∧ p) := fun _ x => h3 ⟨x.1, x.2.1⟩
  have a4 : ∀ p : Prop, ¬ (cx = 4 ∧ cy = 5 ∧ p) := fun _ x => h4 ⟨x.1, x.2.1⟩
  unfold ghost_approach
  simp only
  rw [if_neg (a1 (ro = 1)), if_neg (a1 _), if_neg (a2 (lo = 1)), if_neg (a2 _),
    if_neg (a3 (dn = 1)), if_neg (a3 _), if_neg (a4 (uo = 1)), if_neg (a4 _)]

/-- A captured ghost that is aligned outside the centre cell and for which the approach
block sets `direction_to_center_set`: `choose_ghost_direction` stores the direction of the
approach block, without a draw. -/
theorem choose_ghost_direction_homing (g : Game) (i : Nat) (rs : List Nat)
    (hm : ghost_in_middle g i) (h3 : (ghost_at g i).status = 3)
    (hc : ¬ ((ghost_cell g i).1 = 4 ∧ (ghost_cell g i).2 = 4))
    (ht : (ghost_approach (ghost_at g i).direction (ghost_cell g i).1 (ghost_cell g i).2
      (ghost_flag g (ghost_cell g i).1 (ghost_cell g i).2 LEFT)
      (ghost_flag g (ghost_cell g i).1 (ghost_cell g i).2 RIGHT)
      (ghost_flag g (ghost_cell g i).1 (ghost_cell g i).2 UP)
      (ghost_flag g (ghost_cell g i).1 (ghost_cell g i).2 DOWN)).2 = TRUE) :
    choose_ghost_direction g i rs = some (ghost_put g i { ghost_at g i with direction :=
      (ghost_approach (ghost_at g i).direction (ghost_cell g i).1 (ghost_cell g i).2
        (ghost_flag g (ghost_cell g i).1 (ghost_cell g i).2 LEFT)
        (ghost_flag g (ghost_cell g i).1 (ghost_cell g i).2 RIGHT)
        (ghost_flag g (ghost_cell g i).1 (ghost_cell g i).2 UP)
        (ghost_flag g (ghost_cell g i).1 (ghost_cell g i).2 DOWN)).1 }, rs) := by
  rw [choose_ghost_direction_eq, if_pos hm]
  unfold choose_ghost_aligned ghost_homing
  rw [if_pos h3, if_neg hc]
  simp only
  rw [ht, if_neg (by decide)]
  simp [ghost_recharge, h3]

/-- C31. Forced homing at the approach cells: for an aligned ghost with status 3 in cell
(3,4), (5,4), (4,3) or (4,5) whose wall flag towards the centre is 1,
`choose_ghost_direction` returns without a draw and leaves the ghost as it was except for
its direction, which is RIGHT, LEFT, DOWN or UP respectively, whatever its previous
direction and the draws. -/
theorem forced_homing (g : Game) (i : Nat) (rs : List Nat) (hm : ghost_in_middle g i)
    (h3 : (ghost_at g i).status = 3) :
    (ghost_cell g i = (3, 4) → ghost_flag g 3 4 RIGHT = 1 →
      choose_ghost_direction g i rs =
        some (ghost_put g i { ghost_at g i with direction := RIGHT }, rs)) ∧
    (ghost_cell g i = (5, 4) → ghost_flag g 5 4 LEFT = 1 →
      choose_ghost_direction g i rs =
        some (ghost_put g i { ghost_at g i with direction := LEFT }, rs)) ∧
    (ghost_cell g i = (4, 3) → ghost_flag g 4 3 DOWN = 1 →
      choose_ghost_direction g i rs =
        some (ghost_put g i { ghost_at g i with direction := DOWN }, rs)) ∧
    (ghost_cell g i = (4, 5) → ghost_flag g 4 5 UP = 1 →
      choose_ghost_direction g i rs =
        some (ghost_put g i { ghost_at g i with direction := UP }, rs)) := by
  refine ⟨?_, ?_, ?_, ?_⟩
  · intro hc hf
    have e := (ghost_approach_forced (ghost_at g i).direction (ghost_flag g 3 4 LEFT)
      (ghost_flag g 3 4 RIGHT) (ghost_flag g 3 4 UP) (ghost_flag g 3 4 DOWN)).1
    have k := choose_ghost_direction_homing g i rs hm h3 (by rw [hc]; decide)
    rw [hc] at k
    simp only [hf, e] at k
    exact k trivial
  · intro hc hf
    have e := (ghost_approach_forced (ghost_at g i).direction (ghost_flag g 5 4 LEFT)
      (ghost_flag g 5 4 RIGHT) (ghost_flag g 5 4 UP) (ghost_flag g 5 4 DOWN)).2.1
    have k := choose_ghost_direction_homing g i rs hm h3 (by rw [hc]; decide)
    rw [hc] at k
    simp only [hf, e] at k
    exact k trivial
  · intro hc hf
    have e := (ghost_approach_forced (ghost_at g i).direction (ghost_flag g 4 3 LEFT)
      (ghost_flag g 4 3 RIGHT) (ghost_flag g 4 3 UP) (ghost_flag g 4 3 DOWN)).2.2.1
    have k := choose_ghost_direction_homing g i rs hm h3 (by rw [hc]; decide)
    rw [hc] at k
    simp only [hf, e] at k
    exact k trivial
  · intro hc hf
    have e := (ghost_approach_forced (ghost_at g i).direction (ghost_flag g 4 5 LEFT)
      (ghost_flag g 4 5 RIGHT) (ghost_flag g 4 5 UP) (ghost_flag g 4 5 DOWN)).2.2.2
    have k := choose_ghost_direction_homing g i rs hm h3 (by rw [hc]; decide)
    rw [hc] at k
    simp only [hf, e] at k
    exact k trivial

theorem forced_homing_witness :
    (ghost_at demo_approach 0).direction = UP ∧
    choose_ghost_direction demo_approach 0 [] =
      some (ghost_put demo_approach 0 { ghost_at demo_approach 0 with direction := RIGHT }, []) :=
  ⟨by decide, (forced_homing demo_approach 0 [] (by decide) (by decide)).1 (by decide)
    (by decide)⟩

/-! ## The fallback at the approach cells -/

theorem stay_around_3_4_legal (d lo uo dn : Int) (hd : d = RIGHT ∨ d = UP ∨ d = DOWN)
    (hl : lo = 0 ∨ lo = 1) (hu : uo = 0 ∨ uo = 1) (hn : dn = 0 ∨ dn = 1)
    (ho : lo = 1 ∨ uo = 1 ∨ dn = 1) :
    (stay_around_3_4 d lo uo dn = LEFT ∧ lo = 1) ∨ (stay_around_3_4 d lo uo dn = UP ∧ uo = 1) ∨
    (stay_around_3_4 d lo uo dn = DOWN ∧ dn = 1) := by
  rcases hd with rfl | rfl | rfl <;> rcases hl with rfl | rfl <;> rcases hu with rfl | rfl <;>
    rcases hn with rfl | rfl <;> revert ho <;> decide

theorem stay_around_5_4_legal (d ro uo dn : Int) (hd : d = LEFT ∨ d = UP ∨ d = DOWN)
    (hr : ro = 0 ∨ ro = 1) (hu : uo = 0 ∨ uo = 1) (hn : dn = 0 ∨ dn = 1)
    (ho : ro = 1 ∨ uo = 1 ∨ dn = 1) :
    (stay_around_5_4 d ro uo dn = RIGHT ∧ ro = 1) ∨ (stay_around_5_4 d ro uo dn = UP ∧ uo = 1) ∨
    (stay_around_5_4 d ro uo dn = DOWN ∧ dn = 1) := by
  rcases hd with rfl | rfl | rfl <;> rcases hr with rfl | rfl <;> rcases hu with rfl | rfl <;>
    rcases hn with rfl | rfl <;> revert ho <;> decide

theorem stay_around_4_3_legal (d lo ro uo : Int) (hd : d = LEFT ∨ d = RIGHT ∨ d = DOWN)
    (hl : lo = 0 ∨ lo = 1) (hr : ro = 0 ∨ ro = 1) (hu : uo = 0 ∨ uo = 1)
    (ho : lo = 1 ∨ ro = 1 ∨ uo = 1) :
    (stay_around_4_3 d lo ro uo = LEFT ∧ lo = 1) ∨ (stay_around_4_3 d lo ro uo = RIGHT ∧ ro = 1) ∨
    (stay_around_4_3 d lo ro uo = UP ∧ uo = 1) := by
  rcases hd with rfl | rfl | rfl <;> rcases hl with rfl | rfl <;> rcases hr with rfl | rfl <;>
    rcases hu with rfl | rfl <;> revert ho <;> decide

theorem stay_around_4_5_legal (d lo ro dn : Int) (hd : d = LEFT ∨ d = RIGHT ∨ d = UP)
    (hl : lo = 0 ∨ lo = 1) (hr : ro = 0 ∨ ro = 1) (hn : dn = 0 ∨ dn = 1)
    (ho : lo = 1 ∨ ro = 1 ∨ dn = 1) :
    (stay_around_4_5 d lo ro dn = LEFT ∧ lo = 1) ∨ (stay_around_4_5 d lo ro dn = RIGHT ∧ ro = 1) ∨
    (stay_around_4_5 d lo ro dn = DOWN ∧ dn = 1) := by
  rcases hd with rfl | rfl | rfl <;> rcases hl with rfl | rfl <;> rcases hr with rfl | rfl <;>
    rcases hn with rfl | rfl <;> revert ho <;> decide

/-- The direction that no fallback line names is kept: LEFT at (3,4), RIGHT at (5,4), UP at
(4,3) and DOWN at (4,5). -/
theorem stay_around_away (a b c : Int) :
    stay_around_3_4 LEFT a b c = LEFT ∧ stay_around_5_4 RIGHT a b c = RIGHT ∧
    stay_around_4_3 UP a b c = UP ∧ stay_around_4_5 DOWN a b c = DOWN := by
  refine ⟨?_, ?_, ?_, ?_⟩
  · simp [stay_around_3_4]
  · simp [stay_around_5_4]
  · simp [stay_around_4_3]
  · simp [stay_around_4_5]

/-- The fallback at an approach cell whose side to the centre is closed, from a direction
that the fallback lines name (every direction but the one pointing away from the centre):
when one of the other three sides is open, `choose_ghost_direction` returns without a draw
and the stored direction points at an open side. From the direction pointing away from the
centre the direction is kept as it is. -/
theorem homing_fallback_handled (g : Game) (i : Nat) (rs : List Nat)
    (hm : ghost_in_middle g i) (h3 : (ghost_at g i).status = 3) :
    (ghost_cell g i = (3, 4) → ghost_flag g 3 4 RIGHT ≠ 1 →
      ((ghost_at g i).direction = RIGHT ∨ (ghost_at g i).direction = UP ∨
        (ghost_at g i).direction = DOWN →
        ghost_flag g 3 4 LEFT = 1 ∨ ghost_flag g 3 4 UP = 1 ∨ ghost_flag g 3 4 DOWN = 1 →
        ∃ g1, choose_ghost_direction g i rs = some (g1, rs) ∧
          ghost_flag g 3 4 (ghost_at g1 i).direction = 1) ∧
      ((ghost_at g i).direction = LEFT →
        choose_ghost_direction g i rs = some (ghost_put g i (ghost_at g i), rs))) ∧
    (ghost_cell g i = (5, 4) → ghost_flag g 5 4 LEFT ≠ 1 →
      ((ghost_at g i).direction = LEFT ∨ (ghost_at g i).direction = UP ∨
        (ghost_at g i).direction = DOWN →
        ghost_flag g 5 4 RIGHT = 1 ∨ ghost_flag g 5 4 UP = 1 ∨ ghost_flag g 5 4 DOWN = 1 →
        ∃ g1, choose_ghost_direction g i rs = some (g1, rs) ∧
          ghost_flag g 5 4 (ghost_at g1 i).direction = 1) ∧
      ((ghost_at g i).direction = RIGHT →
        choose_ghost_direction g i rs = some (ghost_put g i (ghost_at g i), rs))) ∧
    (ghost_cell g i = (4, 3) → ghost_flag g 4 3 DOWN ≠ 1 →
      ((ghost_at g i).direction = LEFT ∨ (ghost_at g i).direction = RIGHT ∨
        (ghost_at g i).direction = DOWN →
        ghost_flag g 4 3 LEFT = 1 ∨ ghost_flag g 4 3 RIGHT = 1 ∨ ghost_flag g 4 3 UP = 1 →
        ∃ g1, choose_ghost_direction g i rs = some (g1, rs) ∧
          ghost_flag g 4 3 (ghost_at g1 i).direction = 1) ∧
      ((ghost_at g i).direction = UP →
        choose_ghost_direction g i rs = some (ghost_put g i (ghost_at g i), rs))) ∧
    (ghost_cell g i = (4, 5) → ghost_flag g 4 5 UP ≠ 1 →
      ((ghost_at g i).direction = LEFT ∨ (ghost_at g i).direction = RIGHT ∨
        (ghost_at g i).direction = UP →
        ghost_flag g 4 5 LEFT = 1 ∨ ghost_flag g 4 5 RIGHT = 1 ∨ ghost_flag g 4 5 DOWN = 1 →
        ∃ g1, choose_ghost_direction g i rs = some (g1, rs) ∧
          ghost_flag g 4 5 (ghost_at g1 i).direction = 1) ∧
      ((ghost_at g i).direction = DOWN →
        choose_ghost_direction g i rs = some (ghost_put g i (ghost_at g i), rs))) := by
  refine ⟨?_, ?_, ?_, ?_⟩
  · intro hc hf
    have e := (ghost_approach_fallback (ghost_at g i).direction (ghost_flag g 3 4 LEFT)
      (ghost_flag g 3 4 RIGHT) (ghost_flag g 3 4 UP) (ghost_flag g 3 4 DOWN)).1 hf
    have k := choose_ghost_direction_homing g i rs hm h3 (by rw [hc]; decide)
    rw [hc] at k
    simp only [e] at k
    have k2 := k trivial
    constructor
    · intro hd ho
      refine ⟨_, k2, ?_⟩
      rw [ghost_at_ghost_put, if_pos rfl]
      rcases stay_around_3_4_legal _ _ _ _ hd (ghost_flag_bit g 3 4 LEFT)
        (ghost_flag_bit g 3 4 UP) (ghost_flag_bit g 3 4 DOWN) ho with a | a | a
      · show ghost_flag g 3 4 (stay_around_3_4 _ _ _ _) = 1
        rw [a.1]; exact a.2
      · show ghost_flag g 3 4 (stay_around_3_4 _ _ _ _) = 1
        rw [a.1]; exact a.2
      · show ghost_flag g 3 4 (stay_around_3_4 _ _ _ _) = 1
        rw [a.1]; exact a.2
    · intro hd
      rw [k2, hd, (stay_around_away _ _ _).1, ← hd]
  · intro hc hf
    have e := (ghost_approach_fallback (ghost_at g i).direction (ghost_flag g 5 4 LEFT)
      (ghost_flag g 5 4 RIGHT) (ghost_flag g 5 4 UP) (ghost_flag g 5 4 DOWN)).2.1 hf
    have k := choose_ghost_direction_homing g i rs hm h3 (by rw [hc]; decide)
    rw [hc] at k
    simp only [e] at k
    have k2 := k trivial
    constructor
    · intro hd ho
      refine ⟨_, k2, ?_⟩
      rw [ghost_at_ghost_put, if_pos rfl]
      rcases stay_around_5_4_legal _ _ _ _ hd (ghost_flag_bit g 5 4 RIGHT)
        (ghost_flag_bit g 5 4 UP) (ghost_flag_bit g 5 4 DOWN) ho with a | a | a
      · show ghost_flag g 5 4 (stay_around_5_4 _ _ _ _) = 1
        rw [a.1]; exact a.2
      · show ghost_flag g 5 4 (stay_around_5_4 _ _ _ _) = 1
        rw [a.1]; exact a.2
      · show ghost_flag g 5 4 (stay_around_5_4 _ _ _ _) = 1
        rw [a.1]; exact a.2
    · intro hd
      rw [k2, hd, (stay_around_away _ _ _).2.1, ← hd]
  · intro hc hf
    have e := (ghost_approach_fallback (ghost_at g i).direction (ghost_flag g 4 3 LEFT)
      (ghost_flag g 4 3 RIGHT) (ghost_flag g 4 3 UP) (ghost_flag g 4 3 DOWN)).2.2.1 hf
    have k := choose_ghost_direction_homing g i rs hm h3 (by rw [hc]; decide)
    rw [hc] at k
    simp only [e] at k
    have k2 := k trivial
    constructor
    · intro hd ho
      refine ⟨_, k2, ?_⟩
      rw [ghost_at_ghost_put, if_pos rfl]
      rcases stay_around_4_3_legal _ _ _ _ hd (ghost_flag_bit g 4 3 LEFT)
        (ghost_flag_bit g 4 3 RIGHT) (ghost_flag_bit g 4 3 UP) ho with a | a | a
      · show ghost_flag g 4 3 (stay_around_4_3 _ _ _ _) = 1
        rw [a.1]; exact a.2
      · show ghost_flag g 4 3 (stay_around_4_3 _ _ _ _) = 1
        rw [a.1]; exact a.2
      · show ghost_flag g 4 3 (stay_around_4_3 _ _ _ _) = 1
        rw [a.1]; exact a.2
    · intro hd
      rw [k2, hd, (stay_around_away _ _ _).2.2.1, ← hd]
  · intro hc hf
    have e := (ghost_approach_fallback (ghost_at g i).direction (ghost_flag g 4 5 LEFT)
      (ghost_flag g 4 5 RIGHT) (ghost_flag g 4 5 UP) (ghost_flag g 4 5 DOWN)).2.2.2 hf
    have k := choose_ghost_direction_homing g i rs hm h3 (by rw [hc]; decide)
    rw [hc] at k
    simp only [e] at k
    have k2 := k trivial
    constructor
    · intro hd ho
      refine ⟨_, k2, ?_⟩
      rw [ghost_at_ghost_put, if_pos rfl]
      rcases stay_around_4_5_legal _ _ _ _ hd (ghost_flag_bit g 4 5 LEFT)
        (ghost_flag_bit g 4 5 RIGHT) (ghost_flag_bit g 4 5 DOWN) ho with a | a | a
      · show ghost_flag g 4 5 (stay_around_4_5 _ _ _ _) = 1
        rw [a.1]; exact a.2
      · show ghost_flag g 4 5 (stay_around_4_5 _ _ _ _) = 1
        rw [a.1]; exact a.2
      · show ghost_flag g 4 5 (stay_around_4_5 _ _ _ _) = 1
        rw [a.1]; exact a.2
    · intro hd
      rw [k2, hd, (stay_around_away _ _ _).2.2.2, ← hd]

/-- C32, the code at the failing input. In `demo_below` (layout 1, the centre opening turned
to the left) a captured ghost is aligned at the approach cell (4,5) and heads DOWN; the side
to the centre (UP) and the side below are closed, the sides to the left and right are open.
`choose_ghost_direction` keeps the direction DOWN, which no fallback line for cell (4,5)
names, and `handle_ghosts` then moves the ghost from y = 97 to y = 98, through the closed
lower side. -/
theorem homing_fallback_into_wall :
    (ghost_at demo_below 0).status = 3 ∧ ghost_in_middle demo_below 0 ∧
    ghost_cell demo_below 0 = (4, 5) ∧ (ghost_at demo_below 0).direction = DOWN ∧
    ghost_flag demo_below 4 5 UP = 0 ∧ ghost_flag demo_below 4 5 DOWN = 0 ∧
    ghost_flag demo_below 4 5 LEFT = 1 ∧ ghost_flag demo_below 4 5 RIGHT = 1 ∧
    choose_ghost_direction demo_below 0 [] = some (demo_below_after, []) ∧
    (ghost_at demo_below_after 0).direction = DOWN ∧
    ghost_flag demo_below 4 5 (ghost_at demo_below_after 0).direction ≠ 1 ∧
    handle_ghosts demo_below [] = some (demo_below_moved, []) ∧
    (ghost_at demo_below 0).y = 97 ∧ (ghost_at demo_below_moved 0).y = 98 ∧
    (ghost_at demo_below_moved 0).direction = DOWN := by
  refine ⟨by decide, by decide, by decide, by decide, by decide, by decide, by decide,
    by decide, by rfl, by decide, by decide, by rfl, by decide, by decide, by decide⟩

/-! ## Dead ends and open sides in the random walk -/

theorem choose_case_closed (thr : Nat) (ao fo so a b c d : Int) (rs : List Nat)
    (h1 : fo ≠ 1) (h2 : so ≠ 1) :
    choose_case thr ao fo so a b c d rs = some (if ao = 1 then a else d, rs) := by
  unfold choose_case
  have h : ¬ (fo = 1 ∨ so = 1) := fun x => x.elim h1 h2
  rw [if_neg (fun x => h x.2), if_neg h]
  by_cases ha : ao = 1
  · rw [if_pos ha, if_pos ha]
  · rw [if_neg ha, if_neg ha]

theorem direction_switch_closed (thr : Nat) (flag : Int → Int) (d : Int) (rs : List Nat)
    (hd : d = LEFT ∨ d = RIGHT ∨ d = UP ∨ d = DOWN)
    (h1 : flag (first_side d) ≠ 1) (h2 : flag (second_side d) ≠ 1) :
    direction_switch thr flag d rs = some (if flag d = 1 then d else back_side d, rs) := by
  rw [direction_switch_four thr flag d rs hd, choose_case_closed _ _ _ _ _ _ _ _ _ h1 h2]

theorem back_side_open (flag : Int → Int) (d : Int)
    (hd : d = LEFT ∨ d = RIGHT ∨ d = UP ∨ d = DOWN)
    (ho : flag LEFT = 1 ∨ flag RIGHT = 1 ∨ flag UP = 1 ∨ flag DOWN = 1)
    (h0 : flag d ≠ 1) (h1 : flag (first_side d) ≠ 1) (h2 : flag (second_side d) ≠ 1) :
    flag (back_side d) = 1 := by
  rcases hd with rfl | rfl | rfl | rfl
  · have e1 : first_side LEFT = UP := by decide
    have e2 : second_side LEFT = DOWN := by decide
    have e3 : back_side LEFT = RIGHT := by decide
    rw [e1] at h1; rw [e2] at h2; rw [e3]
    rcases ho with a | a | a | a
    · exact absurd a h0
    · exact a
    · exact absurd a h1
    · exact absurd a h2
  · have e1 : first_side RIGHT = UP := by decide
    have e2 : second_side RIGHT = DOWN := by decide
    have e3 : back_side RIGHT = LEFT := by decide
    rw [e1] at h1; rw [e2] at h2; rw [e3]
    rcases ho with a | a | a | a
    · exact a
    · exact absurd a h0
    · exact absurd a h1
    · exact absurd a h2
  · have e1 : first_side UP = LEFT := by decide
    have e2 : second_side UP = RIGHT := by decide
    have e3 : back_side UP = DOWN := by decide
    rw [e1] at h1; rw [e2] at h2; rw [e3]
    rcases ho with a | a | a | a
    · exact absurd a h1
    · exact absurd a h2
    · exact absurd a h0
    · exact a
  · have e1 : first_side DOWN = LEFT := by decide
    have e2 : second_side DOWN = RIGHT := by decide
    have e3 : back_side DOWN = UP := by decide
    rw [e1] at h1; rw [e2] at h2; rw [e3]
    rcases ho with a | a | a | a
    · exact absurd a h1
    · exact absurd a h2
    · exact a
    · exact absurd a h0

theorem sides_four (d : Int) (hd : d = LEFT ∨ d = RIGHT ∨ d = UP ∨ d = DOWN) :
    (first_side d = LEFT ∨ first_side d = RIGHT ∨ first_side d = UP ∨ first_side d = DOWN) ∧
    (second_side d = LEFT ∨ second_side d = RIGHT ∨ second_side d = UP ∨ second_side d = DOWN) ∧
    (back_side d = LEFT ∨ back_side d = RIGHT ∨ back_side d = UP ∨ back_side d = DOWN) := by
  rcases hd with rfl | rfl | rfl | rfl <;> decide

/-- The shared switch from one of the four directions, in a cell with an open side: the
direction it returns is one of the four and its flag is 1. -/
theorem direction_switch_side (thr : Nat) (flag : Int → Int) (d : Int) (rs : List Nat)
    (x : Int) (rs1 : List Nat) (h : direction_switch thr flag d rs = some (x, rs1))
    (hd : d = LEFT ∨ d = RIGHT ∨ d = UP ∨ d = DOWN)
    (ho : flag LEFT = 1 ∨ flag RIGHT = 1 ∨ flag UP = 1 ∨ flag DOWN = 1) :
    (x = LEFT ∨ x = RIGHT ∨ x = UP ∨ x = DOWN) ∧ flag x = 1 := by
  have h4 : x = LEFT ∨ x = RIGHT ∨ x = UP ∨ x = DOWN := by
    rw [direction_switch_four thr flag d rs hd] at h
    obtain ⟨s1, s2, s3⟩ := sides_four d hd
    rcases choose_case_open _ _ _ _ _ _ _ _ _ _ _ h with e | e | e | e
    · rw [e.1]; exact hd
    · rw [e.1]; exact s1
    · rw [e.1]; exact s2
    · rw [e.1]; exact s3
  refine ⟨h4, ?_⟩
  rcases direction_switch_open thr flag d rs x rs1 h with e | e | e
  · exact absurd hd e.1
  · exact e
  · rw [e.2.1]
    exact back_side_open flag d hd ho e.2.2.1 e.2.2.2.1 e.2.2.2.2

theorem ghost_walk_switch (g : Game) (cx cy d : Int) (rs : List Nat) :
    ghost_walk d (ghost_flag g cx cy LEFT) (ghost_flag g cx cy RIGHT) (ghost_flag g cx cy UP)
      (ghost_flag g cx cy DOWN) rs = direction_switch 5 (ghost_flag g cx cy) d rs := rfl

/-- A captured ghost that is aligned outside the four approach cells and the centre cell
goes through the random-walk switch like a patrol ghost. -/
theorem choose_ghost_direction_roam (g : Game) (i : Nat) (rs : List Nat)
    (hm : ghost_in_middle g i) (h3 : (ghost_at g i).status = 3)
    (c0 : ¬ ((ghost_cell g i).1 = 4 ∧ (ghost_cell g i).2 = 4))
    (c1 : ¬ ((ghost_cell g i).1 = 3 ∧ (ghost_cell g i).2 = 4))
    (c2 : ¬ ((ghost_cell g i).1 = 5 ∧ (ghost_cell g i).2 = 4))
    (c3 : ¬ ((ghost_cell g i).1 = 4 ∧ (ghost_cell g i).2 = 3))
    (c4 : ¬ ((ghost_cell g i).1 = 4 ∧ (ghost_cell g i).2 = 5)) :
    choose_ghost_direction g i rs =
      match direction_switch 5 (ghost_flag g (ghost_cell g i).1 (ghost_cell g i).2)
          (ghost_at g i).direction rs with
      | none => none
      | some (d, rs1) => some (ghost_put g i { ghost_at g i with direction := d }, rs1) := by
  rw [choose_ghost_direction_eq, if_pos hm]
  unfold choose_ghost_aligned ghost_homing
  rw [if_pos h3, if_neg c0]
  simp only
  rw [ghost_approach_other _ _ _ _ _ _ _ c1 c2 c3 c4]
  simp only [if_true]
  have er : ghost_recharge { ghost_at g i with direction := (ghost_at g i).direction } =
      ghost_at g i := by
    unfold ghost_recharge
    rw [if_neg (by show ¬ ((ghost_at g i).status = 4); rw [h3]; decide)]
  first
    | (rw [er, ghost_walk_switch]; done)
    | (rw [er, ghost_walk_switch]; rfl)

theorem roam_inv (g : Game) (i : Nat) (rs : List Nat) (g1 : Game) (rs1 : List Nat)
    (x : Option (Int × List Nat))
    (e : (match x with
      | none => none
      | some (d, rs2) => some (ghost_put g i { ghost_at g i with direction := d }, rs2)) =
        some (g1, rs1)) : x = some ((ghost_at g1 i).direction, rs1) := by
  cases x with
  | none => exact absurd e (by simp)
  | some p =>
    obtain ⟨d, rs2⟩ := p
    simp only [Option.some.injEq, Prod.mk.injEq] at e
    rw [← e.1, ← e.2, ghost_at_ghost_put, if_pos rfl]

/-- Pills, dead-end rule: with neither perpendicular flag 1 the call uses no draw; the pill
keeps `d` when the flag ahead is 1 and reverses otherwise. -/
theorem dead_end_pill (g : Game) (i : Nat) (d : Int) (rs : List Nat)
    (hd : d = LEFT ∨ d = RIGHT ∨ d = UP ∨ d = DOWN) (hm : pill_in_middle g i)
    (e : (pill_at g i).direction = d)
    (h1 : pill_flag g (pill_cell g i).1 (pill_cell g i).2 (first_side d) ≠ 1)
    (h2 : pill_flag g (pill_cell g i).1 (pill_cell g i).2 (second_side d) ≠ 1) :
    ∃ g1, choose_pill_direction g i rs = some (g1, rs) ∧ (pill_at g1 i).direction =
      if pill_flag g (pill_cell g i).1 (pill_cell g i).2 d = 1 then d else back_side d := by
  apply pill_switch_some g i rs hm
  rw [e]
  exact direction_switch_closed 3 _ d rs hd h1 h2

/-- Ghosts in random mode, dead-end rule. -/
theorem dead_end_ghost (g : Game) (i : Nat) (d : Int) (rs : List Nat)
    (hd : d = LEFT ∨ d = RIGHT ∨ d = UP ∨ d = DOWN) (hm : ghost_in_middle g i)
    (hs : (ghost_at g i).status = 1 ∨ (ghost_at g i).status = 2)
    (e : (ghost_at g i).direction = d)
    (h1 : ghost_flag g (ghost_cell g i).1 (ghost_cell g i).2 (first_side d) ≠ 1)
    (h2 : ghost_flag g (ghost_cell g i).1 (ghost_cell g i).2 (second_side d) ≠ 1) :
    ∃ g1, choose_ghost_direction g i rs = some (g1, rs) ∧ (ghost_at g1 i).direction =
      if ghost_flag g (ghost_cell g i).1 (ghost_cell g i).2 d = 1 then d else back_side d := by
  have s3 : (ghost_at g i).status ≠ 3 := by rcases hs with a | a <;> rw [a] <;> decide
  have s4 : (ghost_at g i).status ≠ 4 := by rcases hs with a | a <;> rw [a] <;> decide
  apply ghost_switch_some g i rs hm s3 s4
  rw [e]
  exact direction_switch_closed 5 _ d rs hd h1 h2

/-- C33, counterexample. Pill 1 of `demo_twelve_set` is aligned in cell (1,0) of the top
corridor heading LEFT; the sides above and below are closed and the side ahead is open.
`choose_pill_direction` keeps LEFT, which is not the reverse of LEFT. -/
theorem dead_end_keeps_counterexample :
    pill_in_middle demo_twelve_set 1 ∧ pill_cell demo_twelve_set 1 = (1, 0) ∧
    (pill_at demo_twelve_set 1).direction = LEFT ∧
    pill_flag demo_twelve_set 1 0 UP = 0 ∧ pill_flag demo_twelve_set 1 0 DOWN = 0 ∧
    pill_flag demo_twelve_set 1 0 LEFT = 1 ∧
    (∃ g1, choose_pill_direction demo_twelve_set 1 [] = some (g1, []) ∧
      (pill_at g1 1).direction = LEFT) ∧ LEFT ≠ back_side LEFT := by
  refine ⟨by decide, by decide, by decide, by decide, by decide, by decide, ?_, by decide⟩
  exact dead_end_pill demo_twelve_set 1 LEFT [] (by decide) (by decide) (by decide)
    (by decide) (by decide)

/-- C33, amended. For every aligned pill (`choose_pill_direction`) and every aligned ghost
with status 1 or 2 (`choose_ghost_direction`) with current direction `d` in LEFT, RIGHT, UP,
DOWN: if neither side perpendicular to `d` is open, the call uses no draw and the resulting
direction is `d` when the side ahead is open and the reverse of `d` when it is closed. -/
theorem dead_end_rule (g : Game) (i : Nat) (d : Int) (rs : List Nat)
    (hd : d = LEFT ∨ d = RIGHT ∨ d = UP ∨ d = DOWN) :
    (pill_in_middle g i → (pill_at g i).direction = d →
      pill_flag g (pill_cell g i).1 (pill_cell g i).2 (first_side d) ≠ 1 →
      pill_flag g (pill_cell g i).1 (pill_cell g i).2 (second_side d) ≠ 1 →
      ∃ g1, choose_pill_direction g i rs = some (g1, rs) ∧ (pill_at g1 i).direction =
        if pill_flag g (pill_cell g i).1 (pill_cell g i).2 d = 1 then d else back_side d) ∧
    (ghost_in_middle g i → ((ghost_at g i).status = 1 ∨ (ghost_at g i).status = 2) →
      (ghost_at g i).direction = d →
      ghost_flag g (ghost_cell g i).1 (ghost_cell g i).2 (first_side d) ≠ 1 →
      ghost_flag g (ghost_cell g i).1 (ghost_cell g i).2 (second_side d) ≠ 1 →
      ∃ g1, choose_ghost_direction g i rs = some (g1, rs) ∧ (ghost_at g1 i).direction =
        if ghost_flag g (ghost_cell g i).1 (ghost_cell g i).2 d = 1 then d else back_side d) :=
  ⟨fun hm e h1 h2 => dead_end_pill g i d rs hd hm e h1 h2,
    fun hm hs e h1 h2 => dead_end_ghost g i d rs hd hm hs e h1 h2⟩

theorem dead_end_rule_witness :
    (∃ g1, choose_pill_direction demo_twelve_set 1 [] = some (g1, []) ∧
      (pill_at g1 1).direction = LEFT) ∧
    (∃ g1, choose_ghost_direction demo_corridor 0 [] = some (g1, []) ∧
      (ghost_at g1 0).direction = LEFT) :=
  ⟨(dead_end_rule demo_twelve_set 1 LEFT [] (by decide)).1 (by decide) (by decide) (by decide)
      (by decide),
    (dead_end_rule demo_corridor 0 LEFT [] (by decide)).2 (by decide) (by decide) (by decide)
      (by decide) (by decide)⟩

/-- C34, counterexample. In `demo_in` a captured ghost is aligned in the centre cell (4,4),
which is none of the four approach cells, heading UP; the lower side of the cell is open.
`choose_ghost_direction` returns without a draw and leaves the ghost with status 4 and
direction 0, which is none of the four directions. -/
theorem centre_stop_counterexample :
    (ghost_at demo_in 0).status = 3 ∧ ghost_in_middle demo_in 0 ∧
    ghost_cell demo_in 0 = (4, 4) ∧ (ghost_at demo_in 0).direction = UP ∧
    ghost_flag demo_in 4 4 DOWN = 1 ∧
    (choose_ghost_direction demo_in 0 []).map (fun s => (ghost_at s.1 0, s.2)) =
      some (⟨1, 4, 199, 96, 83, 0, 1⟩, []) ∧
    ¬ ((0 : Int) = LEFT ∨ (0 : Int) = RIGHT ∨ (0 : Int) = UP ∨ (0 : Int) = DOWN) := by
  refine ⟨by decide, by decide, by decide, by decide, by decide, by rfl, by decide⟩

/-- C34, amended. The random walk never chooses a wall. For every aligned pill (with the
side facing the centre cell counted as closed, `pill_flag`) and every aligned ghost that is
in status 1 or 2, or in status 3 outside the four approach cells and outside the centre
cell, with current direction in LEFT, RIGHT, UP, DOWN, and for every aligned ghost in the
call where it finishes recharging (status 4 with countdown 0): if one of the four sides of
the cell is open and the call returns, the direction after the call is one of the four and
points at an open side. -/
theorem random_walk_open (g : Game) (i : Nat) (rs : List Nat) :
    (pill_in_middle g i →
      ((pill_at g i).direction = LEFT ∨ (pill_at g i).direction = RIGHT ∨
        (pill_at g i).direction = UP ∨ (pill_at g i).direction = DOWN) →
      (pill_flag g (pill_cell g i).1 (pill_cell g i).2 LEFT = 1 ∨
        pill_flag g (pill_cell g i).1 (pill_cell g i).2 RIGHT = 1 ∨
        pill_flag g (pill_cell g i).1 (pill_cell g i).2 UP = 1 ∨
        pill_flag g (pill_cell g i).1 (pill_cell g i).2 DOWN = 1) →
      ∀ g1 rs1, choose_pill_direction g i rs = some (g1, rs1) →
        ((pill_at g1 i).direction = LEFT ∨ (pill_at g1 i).direction = RIGHT ∨
          (pill_at g1 i).direction = UP ∨ (pill_at g1 i).direction = DOWN) ∧
        pill_flag g (pill_cell g i).1 (pill_cell g i).2 (pill_at g1 i).direction = 1) ∧
    (ghost_in_middle g i →
      ((((ghost_at g i).status = 1 ∨ (ghost_at g i).status = 2 ∨
          ((ghost_at g i).status = 3 ∧ ghost_cell g i ≠ (4, 4) ∧ ghost_cell g i ≠ (3, 4) ∧
            ghost_cell g i ≠ (5, 4) ∧ ghost_cell g i ≠ (4, 3) ∧ ghost_cell g i ≠ (4, 5))) ∧
        ((ghost_at g i).direction = LEFT ∨ (ghost_at g i).direction = RIGHT ∨
          (ghost_at g i).direction = UP ∨ (ghost_at g i).direction = DOWN)) ∨
        ((ghost_at g i).status = 4 ∧ (ghost_at g i).recharge_timer = 0)) →
      (ghost_flag g (ghost_cell g i).1 (ghost_cell g i).2 LEFT = 1 ∨
        ghost_flag g (ghost_cell g i).1 (ghost_cell g i).2 RIGHT = 1 ∨
        ghost_flag g (ghost_cell g i).1 (ghost_cell g i).2 UP = 1 ∨
        ghost_flag g (ghost_cell g i).1 (ghost_cell g i).2 DOWN = 1) →
      ∀ g1 rs1, choose_ghost_direction g i rs = some (g1, rs1) →
        ((ghost_at g1 i).direction = LEFT ∨ (ghost_at g1 i).direction = RIGHT ∨
          (ghost_at g1 i).direction = UP ∨ (ghost_at g1 i).direction = DOWN) ∧
        ghost_flag g (ghost_cell g i).1 (ghost_cell g i).2 (ghost_at g1 i).direction = 1) := by
  constructor
  · intro hm hd ho g1 rs1 h
    exact direction_switch_side 3 _ _ rs _ rs1 (pill_switch_inv g i rs hm g1 rs1 h) hd ho
  · intro hm hs ho g1 rs1 h
    rcases hs with ⟨hs, hd⟩ | ⟨s4, t0⟩
    · rcases hs with s1 | s2 | ⟨s3, c0, c1, c2, c3, c4⟩
      · exact direction_switch_side 5 _ _ rs _ rs1
          (ghost_switch_inv g i rs hm (by rw [s1]; decide) (by rw [s1]; decide) g1 rs1 h) hd ho
      · exact direction_switch_side 5 _ _ rs _ rs1
          (ghost_switch_inv g i rs hm (by rw [s2]; decide) (by rw [s2]; decide) g1 rs1 h) hd ho
      · have q : ∀ a b : Int, ghost_cell g i ≠ (a, b) →
            ¬ ((ghost_cell g i).1 = a ∧ (ghost_cell g i).2 = b) :=
          fun a b n x => n (Prod.ext x.1 x.2)
        rw [choose_ghost_direction_roam g i rs hm s3 (q _ _ c0) (q _ _ c1) (q _ _ c2)
          (q _ _ c3) (q _ _ c4)] at h
        exact direction_switch_side 5 _ _ rs _ rs1 (roam_inv g i rs g1 rs1 _ h) hd ho
    · have k := ((ghost_countdown g i rs g1 rs1 h hm s4).2 t0).2
      rw [ghost_walk_switch] at k
      exact direction_switch_side 5 _ _ rs _ rs1 k (by decide) ho

theorem random_walk_open_witness :
    (pill_at demo_twelve_set 2).direction = RIGHT ∧
    ((pill_at demo_pill_turn 2).direction = DOWN ∧
      pill_flag demo_twelve_set 0 1 (pill_at demo_pill_turn 2).direction = 1) ∧
    (ghost_at demo_left 0).status = 4 ∧
    ((ghost_at demo_left_after 0).direction = LEFT ∧
      ghost_flag demo_left 4 4 (ghost_at demo_left_after 0).direction = 1) :=
  have a := (random_walk_open demo_twelve_set 2 [0, 1]).1 (by decide) (by decide) (by decide)
    demo_pill_turn [] (by rfl)
  have b := (random_walk_open demo_left 0 [0]).2 (by decide) (Or.inr (by decide)) (by decide)
    demo_left_after [] (by rfl)
  ⟨by decide, ⟨by decide, a.2⟩, by decide, ⟨by decide, b.2⟩⟩

/-! ## The loop that picks a perpendicular side -/

theorem rand_side_second (fo a b : Int) (r : Nat) (rs : List Nat) :
    rand_side fo 1 a b (r :: rs) = some (if r % 2 = 0 ∧ fo = 1 then a else b, rs) := by
  unfold rand_side
  by_cases h : r % 2 = 0 ∧ fo = 1
  · rw [if_pos h, if_pos h]
  · rw [if_neg h, if_neg h, if_pos rfl]

theorem rand_side_first_only (so a b : Int) (hs : so ≠ 1) (r : Nat) (hr : r % 2 = 0)
    (rs : List Nat) : ∀ odds : List Nat, (∀ o ∈ odds, o % 2 = 1) →
    rand_side 1 so a b (odds ++ r :: rs) = some (a, rs) := by
  intro odds
  induction odds with
  | nil =>
    intro _
    show rand_side 1 so a b (r :: rs) = some (a, rs)
    unfold rand_side
    rw [if_pos ⟨hr, rfl⟩]
  | cons o os ih =>
    intro ho
    show rand_side 1 so a b (o :: (os ++ r :: rs)) = some (a, rs)
    unfold rand_side
    have h1 : o % 2 = 1 := ho o (List.mem_cons_self _ _)
    rw [if_neg (fun x => by rw [h1] at x; exact absurd x.1 (by decide)), if_neg hs]
    exact ih (fun x hx => ho x (List.mem_cons_of_mem _ hx))

theorem rand_side_odd (fo so a b : Int) (hs : so ≠ 1) : ∀ odds : List Nat,
    (∀ o ∈ odds, o % 2 = 1) → rand_side fo so a b odds = none := by
  intro odds
  induction odds with
  | nil => intro _; rfl
  | cons o os ih =>
    intro ho
    unfold rand_side
    have h1 : o % 2 = 1 := ho o (List.mem_cons_self _ _)
    rw [if_neg (fun x => by rw [h1] at x; exact absurd x.1 (by decide)), if_neg hs]
    exact ih (fun x hx => ho x (List.mem_cons_of_mem _ hx))

theorem choose_case_loop (thr : Nat) (ao fo so a b c d : Int) (rs : List Nat) (ha : ao ≠ 1)
    (hp : fo = 1 ∨ so = 1) :
    choose_case thr ao fo so a b c d rs = rand_side fo so b c rs := by
  unfold choose_case
  rw [if_neg (fun x => ha x.1), if_pos hp]

/-- The shared switch and the loop. With neither perpendicular flag 1 the loop is not
entered and no draw is used; with the second-tried flag 1 the loop ends on its first draw;
with only the first-tried flag 1 it ends on the first even draw and does not end on a list
of odd draws. When the flag ahead is 1 the draw for the `rand()%10` test comes first. -/
theorem switch_loop (thr : Nat) (flag : Int → Int) (d : Int)
    (hd : d = LEFT ∨ d = RIGHT ∨ d = UP ∨ d = DOWN) :
    (flag (first_side d) ≠ 1 → flag (second_side d) ≠ 1 → ∀ rs,
      direction_switch thr flag d rs = some (if flag d = 1 then d else back_side d, rs)) ∧
    (flag (second_side d) = 1 →
      (flag d ≠ 1 → ∀ r rs, direction_switch thr flag d (r :: rs) =
        some (if r % 2 = 0 ∧ flag (first_side d) = 1 then first_side d else second_side d, rs)) ∧
      (flag d = 1 → ∀ r0 r rs, r0 % 10 < thr → direction_switch thr flag d (r0 :: r :: rs) =
        some (if r % 2 = 0 ∧ flag (first_side d) = 1 then first_side d else second_side d, rs))) ∧
    (flag (first_side d) = 1 → flag (second_side d) ≠ 1 →
      ∀ odds : List Nat, (∀ o ∈ odds, o % 2 = 1) →
      (flag d ≠ 1 →
        (∀ r rs, r % 2 = 0 →
          direction_switch thr flag d (odds ++ r :: rs) = some (first_side d, rs)) ∧
        direction_switch thr flag d odds = none) ∧
      (flag d = 1 → ∀ r0, r0 % 10 < thr →
        (∀ r rs, r % 2 = 0 →
          direction_switch thr flag d (r0 :: (odds ++ r :: rs)) = some (first_side d, rs)) ∧
        direction_switch thr flag d (r0 :: odds) = none)) := by
  refine ⟨?_, ?_, ?_⟩
  · intro h1 h2 rs
    rw [direction_switch_four thr flag d rs hd]
    unfold choose_case
    have h : ¬ (flag (first_side d) = 1 ∨ flag (second_side d) = 1) := fun x => x.elim h1 h2
    rw [if_neg (fun x => h x.2), if_neg h]
    by_cases ha : flag d = 1
    · rw [if_pos ha, if_pos ha]
    · rw [if_neg ha, if_neg ha]
  · intro h2
    constructor
    · intro ha r rs
      rw [direction_switch_four thr flag d _ hd, choose_case_loop _ _ _ _ _ _ _ _ _ ha (Or.inr h2),
        h2, rand_side_second]
    · intro ha r0 r rs hr
      rw [direction_switch_four thr flag d _ hd,
        choose_case_turn _ _ _ _ _ _ _ _ _ _ ha (Or.inr h2) hr, h2, rand_side_second]
  · intro h1 h2 odds ho
    constructor
    · intro ha
      constructor
      · intro r rs hr
        rw [direction_switch_four thr flag d _ hd,
          choose_case_loop _ _ _ _ _ _ _ _ _ ha (Or.inl h1), h1]
        exact rand_side_first_only _ _ _ h2 r hr rs odds ho
      · rw [direction_switch_four thr flag d _ hd,
          choose_case_loop _ _ _ _ _ _ _ _ _ ha (Or.inl h1)]
        exact rand_side_odd _ _ _ _ h2 odds ho
    · intro ha r0 hr0
      constructor
      · intro r rs hr
        rw [direction_switch_four thr flag d _ hd,
          choose_case_turn _ _ _ _ _ _ _ _ _ _ ha (Or.inl h1) hr0, h1]
        exact rand_side_first_only _ _ _ h2 r hr rs odds ho
      · rw [direction_switch_four thr flag d _ hd,
          choose_case_turn _ _ _ _ _ _ _ _ _ _ ha (Or.inl h1) hr0]
        exact rand_side_odd _ _ _ _ h2 odds ho

theorem pill_switch_none (g : Game) (i : Nat) (rs : List Nat) (hm : pill_in_middle g i)
    (h : direction_switch 3 (pill_flag g (pill_cell g i).1 (pill_cell g i).2)
      (pill_at g i).direction rs = none) : choose_pill_direction g i rs = none := by
  rw [choose_pill_direction_switch g i rs hm, h]

theorem ghost_switch_none (g : Game) (i : Nat) (rs : List Nat) (hm : ghost_in_middle g i)
    (h3 : (ghost_at g i).status ≠ 3) (h4 : (ghost_at g i).status ≠ 4)
    (h : direction_switch 5 (ghost_flag g (ghost_cell g i).1 (ghost_cell g i).2)
      (ghost_at g i).direction rs = none) : choose_ghost_direction g i rs = none := by
  rw [choose_ghost_direction_switch g i rs hm h3 h4, h]

/-- The loop of `choose_pill_direction`, for an aligned pill heading `d`. -/
theorem pill_loop (g : Game) (i : Nat) (d : Int)
    (hd : d = LEFT ∨ d = RIGHT ∨ d = UP ∨ d = DOWN) (hm : pill_in_middle g i)
    (e : (pill_at g i).direction = d) :
    (pill_flag g (pill_cell g i).1 (pill_cell g i).2 (first_side d) ≠ 1 →
      pill_flag g (pill_cell g i).1 (pill_cell g i).2 (second_side d) ≠ 1 →
      ∀ rs, ∃ g1, choose_pill_direction g i rs = some (g1, rs)) ∧
    (pill_flag g (pill_cell g i).1 (pill_cell g i).2 (second_side d) = 1 →
      (pill_flag g (pill_cell g i).1 (pill_cell g i).2 d ≠ 1 → ∀ r rs,
        ∃ g1, choose_pill_direction g i (r :: rs) = some (g1, rs)) ∧
      (pill_flag g (pill_cell g i).1 (pill_cell g i).2 d = 1 → ∀ r0 r rs, r0 % 10 < 3 →
        ∃ g1, choose_pill_direction g i (r0 :: r :: rs) = some (g1, rs))) ∧
    (pill_flag g (pill_cell g i).1 (pill_cell g i).2 (first_side d) = 1 →
      pill_flag g (pill_cell g i).1 (pill_cell g i).2 (second_side d) ≠ 1 →
      ∀ odds : List Nat, (∀ o ∈ odds, o % 2 = 1) →
      (pill_flag g (pill_cell g i).1 (pill_cell g i).2 d ≠ 1 →
        (∀ r rs, r % 2 = 0 → ∃ g1, choose_pill_direction g i (odds ++ r :: rs) = some (g1, rs) ∧
          (pill_at g1 i).direction = first_side d) ∧
        choose_pill_direction g i odds = none) ∧
      (pill_flag g (pill_cell g i).1 (pill_cell g i).2 d = 1 → ∀ r0, r0 % 10 < 3 →
        (∀ r rs, r % 2 = 0 →
          ∃ g1, choose_pill_direction g i (r0 :: (odds ++ r :: rs)) = some (g1, rs) ∧
            (pill_at g1 i).direction = first_side d) ∧
        choose_pill_direction g i (r0 :: odds) = none)) := by
  obtain ⟨s1, s2, s3⟩ := switch_loop 3 (pill_flag g (pill_cell g i).1 (pill_cell g i).2) d hd
  refine ⟨?_, ?_, ?_⟩
  · intro h1 h2 rs
    obtain ⟨g1, a, -⟩ := pill_switch_some g i rs hm _ rs (by rw [e]; exact s1 h1 h2 rs)
    exact ⟨g1, a⟩
  · intro h2
    constructor
    · intro ha r rs
      obtain ⟨g1, a, -⟩ := pill_switch_some g i _ hm _ rs (by rw [e]; exact (s2 h2).1 ha r rs)
      exact ⟨g1, a⟩
    · intro ha r0 r rs hr
      obtain ⟨g1, a, -⟩ := pill_switch_some g i _ hm _ rs
        (by rw [e]; exact (s2 h2).2 ha r0 r rs hr)
      exact ⟨g1, a⟩
  · intro h1 h2 odds ho
    constructor
    · intro ha
      refine ⟨fun r rs hr => pill_switch_some g i _ hm _ rs
        (by rw [e]; exact ((s3 h1 h2 odds ho).1 ha).1 r rs hr), ?_⟩
      exact pill_switch_none g i _ hm (by rw [e]; exact ((s3 h1 h2 odds ho).1 ha).2)
    · intro ha r0 hr0
      refine ⟨fun r rs hr => pill_switch_some g i _ hm _ rs
        (by rw [e]; exact ((s3 h1 h2 odds ho).2 ha r0 hr0).1 r rs hr), ?_⟩
      exact pill_switch_none g i _ hm (by rw [e]; exact ((s3 h1 h2 odds ho).2 ha r0 hr0).2)

/-- The loop of `choose_ghost_direction`, for an aligned ghost in status 1 or 2 heading `d`. -/
theorem ghost_loop (g : Game) (i : Nat) (d : Int)
    (hd : d = LEFT ∨ d = RIGHT ∨ d = UP ∨ d = DOWN) (hm : ghost_in_middle g i)
    (hs : (ghost_at g i).status = 1 ∨ (ghost_at g i).status = 2)
    (e : (ghost_at g i).direction = d) :
    (ghost_flag g (ghost_cell g i).1 (ghost_cell g i).2 (first_side d) ≠ 1 →
      ghost_flag g (ghost_cell g i).1 (ghost_cell g i).2 (second_side d) ≠ 1 →
      ∀ rs, ∃ g1, choose_ghost_direction g i rs = some (g1, rs)) ∧
    (ghost_flag g (ghost_cell g i).1 (ghost_cell g i).2 (second_side d) = 1 →
      (ghost_flag g (ghost_cell g i).1 (ghost_cell g i).2 d ≠ 1 → ∀ r rs,
        ∃ g1, choose_ghost_direction g i (r :: rs) = some (g1, rs)) ∧
      (ghost_flag g (ghost_cell g i).1 (ghost_cell g i).2 d = 1 → ∀ r0 r rs, r0 % 10 < 5 →
        ∃ g1, choose_ghost_direction g i (r0 :: r :: rs) = some (g1, rs))) ∧
    (ghost_flag g (ghost_cell g i).1 (ghost_cell g i).2 (first_side d) = 1 →
      ghost_flag g (ghost_cell g i).1 (ghost_cell g i).2 (second_side d) ≠ 1 →
      ∀ odds : List Nat, (∀ o ∈ odds, o % 2 = 1) →
      (ghost_flag g (ghost_cell g i).1 (ghost_cell g i).2 d ≠ 1 →
        (∀ r rs, r % 2 = 0 → ∃ g1, choose_ghost_direction g i (odds ++ r :: rs) = some (g1, rs) ∧
          (ghost_at g1 i).direction = first_side d) ∧
        choose_ghost_direction g i odds = none) ∧
      (ghost_flag g (ghost_cell g i).1 (ghost_cell g i).2 d = 1 → ∀ r0, r0 % 10 < 5 →
        (∀ r rs, r % 2 = 0 →
          ∃ g1, choose_ghost_direction g i (r0 :: (odds ++ r :: rs)) = some (g1, rs) ∧
            (ghost_at g1 i).direction = first_side d) ∧
        choose_ghost_direction g i (r0 :: odds) = none)) := by
  have h3 : (ghost_at g i).status ≠ 3 := by rcases hs with a | a <;> rw [a] <;> decide
  have h4 : (ghost_at g i).status ≠ 4 := by rcases hs with a | a <;> rw [a] <;> decide
  obtain ⟨s1, s2, s3⟩ := switch_loop 5 (ghost_flag g (ghost_cell g i).1 (ghost_cell g i).2) d hd
  refine ⟨?_, ?_, ?_⟩
  · intro h1 h2 rs
    obtain ⟨g1, a, -⟩ := ghost_switch_some g i rs hm h3 h4 _ rs (by rw [e]; exact s1 h1 h2 rs)
    exact ⟨g1, a⟩
  · intro h2
    constructor
    · intro ha r rs
      obtain ⟨g1, a, -⟩ := ghost_switch_some g i _ hm h3 h4 _ rs
        (by rw [e]; exact (s2 h2).1 ha r rs)
      exact ⟨g1, a⟩
    · intro ha r0 r rs hr
      obtain ⟨g1, a, -⟩ := ghost_switch_some g i _ hm h3 h4 _ rs
        (by rw [e]; exact (s2 h2).2 ha r0 r rs hr)
      exact ⟨g1, a⟩
  · intro h1 h2 odds ho
    constructor
    · intro ha
      refine ⟨fun r rs hr => ghost_switch_some g i _ hm h3 h4 _ rs
        (by rw [e]; exact ((s3 h1 h2 odds ho).1 ha).1 r rs hr), ?_⟩
      exact ghost_switch_none g i _ hm h3 h4 (by rw [e]; exact ((s3 h1 h2 odds ho).1 ha).2)
    · intro ha r0 hr0
      refine ⟨fun r rs hr => ghost_switch_some g i _ hm h3 h4 _ rs
        (by rw [e]; exact ((s3 h1 h2 odds ho).2 ha r0 hr0).1 r rs hr), ?_⟩
      exact ghost_switch_none g i _ hm h3 h4
        (by rw [e]; exact ((s3 h1 h2 odds ho).2 ha r0 hr0).2)

/-- C37. Termination of the perpendicular-choice loop (`rand_side`, the loop
`while (found == 0)`), for an aligned pill in `choose_pill_direction` and an aligned ghost
with status 1 or 2 in `choose_ghost_direction`, heading `d` in LEFT, RIGHT, UP, DOWN, over
the list of draws of `rand()`. (1) With neither perpendicular side open the call returns
with every draw left: the loop is not entered. (2) With the second-tried side (DOWN, resp.
RIGHT) open the loop ends with its first draw, for every draw: the call returns having used
that one draw, after the draw `r0` of the `rand()%10` test when the side ahead is open.
(3) With only the first-tried side (UP, resp. LEFT) open the loop ends exactly at the first
even draw, after any list of odd draws, and the direction is the first-tried side; on a
list of odd draws only the call does not return (`none`: the draws run out with the loop
still going), however long the list is. -/
theorem perpendicular_loop_termination (g : Game) (i : Nat) (d : Int)
    (hd : d = LEFT ∨ d = RIGHT ∨ d = UP ∨ d = DOWN) :
    (pill_in_middle g i → (pill_at g i).direction = d →
      (pill_flag g (pill_cell g i).1 (pill_cell g i).2 (first_side d) ≠ 1 →
        pill_flag g (pill_cell g i).1 (pill_cell g i).2 (second_side d) ≠ 1 →
        ∀ rs, ∃ g1, choose_pill_direction g i rs = some (g1, rs)) ∧
      (pill_flag g (pill_cell g i).1 (pill_cell g i).2 (second_side d) = 1 →
        (pill_flag g (pill_cell g i).1 (pill_cell g i).2 d ≠ 1 → ∀ r rs,
          ∃ g1, choose_pill_direction g i (r :: rs) = some (g1, rs)) ∧
        (pill_flag g (pill_cell g i).1 (pill_cell g i).2 d = 1 → ∀ r0 r rs, r0 % 10 < 3 →
          ∃ g1, choose_pill_direction g i (r0 :: r :: rs) = some (g1, rs))) ∧
      (pill_flag g (pill_cell g i).1 (pill_cell g i).2 (first_side d) = 1 →
        pill_flag g (pill_cell g i).1 (pill_cell g i).2 (second_side d) ≠ 1 →
        ∀ odds : List Nat, (∀ o ∈ odds, o % 2 = 1) →
        (pill_flag g (pill_cell g i).1 (pill_cell g i).2 d ≠ 1 →
          (∀ r rs, r % 2 = 0 →
            ∃ g1, choose_pill_direction g i (odds ++ r :: rs) = some (g1, rs) ∧
              (pill_at g1 i).direction = first_side d) ∧
          choose_pill_direction g i odds = none) ∧
        (pill_flag g (pill_cell g i).1 (pill_cell g i).2 d = 1 → ∀ r0, r0 % 10 < 3 →
          (∀ r rs, r % 2 = 0 →
            ∃ g1, choose_pill_direction g i (r0 :: (odds ++ r :: rs)) = some (g1, rs) ∧
              (pill_at g1 i).direction = first_side d) ∧
          choose_pill_direction g i (r0 :: odds) = none))) ∧
    (ghost_in_middle g i → ((ghost_at g i).status = 1 ∨ (ghost_at g i).status = 2) →
      (ghost_at g i).direction = d →
      (ghost_flag g (ghost_cell g i).1 (ghost_cell g i).2 (first_side d) ≠ 1 →
        ghost_flag g (ghost_cell g i).1 (ghost_cell g i).2 (second_side d) ≠ 1 →
        ∀ rs, ∃ g1, choose_ghost_direction g i rs = some (g1, rs)) ∧
      (ghost_flag g (ghost_cell g i).1 (ghost_cell g i).2 (second_side d) = 1 →
        (ghost_flag g (ghost_cell g i).1 (ghost_cell g i).2 d ≠ 1 → ∀ r rs,
          ∃ g1, choose_ghost_direction g i (r :: rs) = some (g1, rs)) ∧
        (ghost_flag g (ghost_cell g i).1 (ghost_cell g i).2 d = 1 → ∀ r0 r rs, r0 % 10 < 5 →
          ∃ g1, choose_ghost_direction g i (r0 :: r :: rs) = some (g1, rs))) ∧
      (ghost_flag g (ghost_cell g i).1 (ghost_cell g i).2 (first_side d) = 1 →
        ghost_flag g (ghost_cell g i).1 (ghost_cell g i).2 (second_side d) ≠ 1 →
        ∀ odds : List Nat, (∀ o ∈ odds, o % 2 = 1) →
        (ghost_flag g (ghost_cell g i).1 (ghost_cell g i).2 d ≠ 1 →
          (∀ r rs, r % 2 = 0 →
            ∃ g1, choose_ghost_direction g i (odds ++ r :: rs) = some (g1, rs) ∧
              (ghost_at g1 i).direction = first_side d) ∧
          choose_ghost_direction g i odds = none) ∧
        (ghost_flag g (ghost_cell g i).1 (ghost_cell g i).2 d = 1 → ∀ r0, r0 % 10 < 5 →
          (∀ r rs, r % 2 = 0 →
            ∃ g1, choose_ghost_direction g i (r0 :: (odds ++ r :: rs)) = some (g1, rs) ∧
              (ghost_at g1 i).direction = first_side d) ∧
          choose_ghost_direction g i (r0 :: odds) = none))) :=
  ⟨fun hm e => pill_loop g i d hd hm e, fun hm hs e => ghost_loop g i d hd hm hs e⟩

theorem perpendicular_loop_termination_witness :
    (∃ g1, choose_pill_direction demo_twelve_set 2 [0, 5, 8] = some (g1, [8])) ∧
    (∃ g1, choose_ghost_direction demo_wait 0 [1, 3, 4, 9] = some (g1, [9]) ∧
      (ghost_at g1 0).direction = LEFT) ∧
    choose_ghost_direction demo_wait 0 [1, 3] = none :=
  have a := ((perpendicular_loop_termination demo_twelve_set 2 RIGHT (by decide)).1
    (by decide) (by decide)).2.1 (by decide)
  have b := (((perpendicular_loop_termination demo_wait 0 DOWN (by decide)).2
    (by decide) (by decide) (by decide)).2.2 (by decide) (by decide) [1, 3] (by decide)).1
    (by decide)
  ⟨a.2 (by decide) 0 5 [8] (by decide), b.1 4 [9] (by decide), b.2⟩

/-! ## A power pill with no ghost to frighten -/

theorem powered_spent (g g1 : Game) (hp : powered g g1)
    (hg : ∀ j : Nat, (j : Int) < g.NUM_GHOSTS →
      (ghost_at g j).status = 3 ∨ (ghost_at g j).status = 4) :
    g1.powerpill_active_timer = g.powerpill_active_timer ∧ ∀ j, ghost_at g1 j = ghost_at g j := by
  obtain ⟨p1, -, p3⟩ := hp
  constructor
  · apply p3
    rintro ⟨j, hj, hs⟩
    rcases hg j hj with a | a <;> rw [a] at hs <;> revert hs <;> decide
  · intro j
    rw [p1 j]
    by_cases hj : (j : Int) < g.NUM_GHOSTS
    · rw [if_pos hj]
      apply (make_vulnerable_status _).2.1
      intro hs
      rcases hg j hj with a | a <;> rw [a] at hs <;> revert hs <;> decide
    · rw [if_neg hj]

theorem eaten_count_pos (g : Game) (hp : power_pill_touched g) : 1 ≤ eaten_count g 2 := by
  obtain ⟨i, hi, hs, he⟩ := hp
  unfold eaten_count
  have hm : i ∈ (List.range g.NUM_PILLS.toNat).filter
      (fun i => (pill_at g i).status = 2 ∧ check_pill_eaten g i = TRUE) := by
    rw [List.mem_filter]
    exact ⟨(mem_range_toNat _ _).2 hi, by simp [hs, he]⟩
  have := List.length_pos_of_mem hm
  omega

/-- C40. Power pill with no eligible ghost. While every ghost `0..NUM_GHOSTS-1` has status 3
or 4: the consumption of a status-2 pill (`eat_pill`, the eaten branch of `handle_pills`)
leaves `powerpill_active_timer` and every ghost record as they are and adds 3 to the score;
and a whole `handle_pills` call in which the player eats a status-2 pill (entered with
`maze_completed` and `munchkin_dying` FALSE) leaves the timer and every ghost record as they
are, while the score goes up by 1 per normal pill eaten and 3 per power pill eaten, at
least one of which is eaten. -/
theorem spent_power_pill (g : Game)
    (hg : ∀ j : Nat, (j : Int) < g.NUM_GHOSTS →
      (ghost_at g j).status = 3 ∨ (ghost_at g j).status = 4) :
    (∀ i : Nat, (pill_at g i).status = 2 →
      (eat_pill g i).powerpill_active_timer = g.powerpill_active_timer ∧
      (∀ j, ghost_at (eat_pill g i) j = ghost_at g j) ∧
      (eat_pill g i).score = g.score + 3) ∧
    (∀ (rs : List Nat) (g1 : Game) (rs1 : List Nat), g.maze_completed = FALSE →
      g.munchkin_dying = FALSE → handle_pills g rs = some (g1, rs1) → power_pill_touched g →
      g1.powerpill_active_timer = g.powerpill_active_timer ∧
      (∀ j, ghost_at g1 j = ghost_at g j) ∧
      g1.score = g.score + eaten_count g 1 + 3 * eaten_count g 2 ∧ 1 ≤ eaten_count g 2) := by
  constructor
  · intro i hs
    obtain ⟨a, b⟩ := powered_spent g _ ((eat_pill_ghosts g i).1 hs) hg
    refine ⟨a, b, ?_⟩
    rw [(eat_pill_spec g i).2.2.1, hs]
    simp
  · intro rs g1 rs1 hc hd h hp
    obtain ⟨a, b⟩ := powered_spent g g1 ((handle_pills_ghosts g rs g1 rs1 hc hd h).1 hp) hg
    have s := (pill_scoring g rs g1 rs1 hc hd h).1
    exact ⟨a, b, by omega, eaten_count_pos g hp⟩

theorem spent_power_pill_witness :
    demo_spent.powerpill_active_timer = 7 ∧
    (demo_spent_after.powerpill_active_timer = 7 ∧
      (∀ j, ghost_at demo_spent_after j = ghost_at demo_spent j) ∧
      demo_spent_after.score = demo_spent.score + eaten_count demo_spent 1 +
        3 * eaten_count demo_spent 2 ∧ 1 ≤ eaten_count demo_spent 2) ∧
    demo_spent_after.score = 3 :=
  have w := (spent_power_pill demo_spent (fun j hj => by
    have hj2 : j < 2 := by
      have : demo_spent.NUM_GHOSTS = 2 := rfl
      omega
    interval_cases j
    · exact Or.inl rfl
    · exact Or.inr rfl)).2 [] demo_spent_after [] (by decide)
    (by decide) (by rfl) ⟨0, by decide, by decide, by decide⟩
  ⟨by decide, ⟨w.1.trans (by decide), w.2⟩, by decide⟩

/-! ## Completion before the collision check -/

theorem handle_pills_flags (g : Game) (rs : List Nat) (g1 : Game) (rs1 : List Nat)
    (h : handle_pills g rs = some (g1, rs1)) :
    g1.munchkin_dying = g.munchkin_dying ∧ g1.NUM_PILLS = g.NUM_PILLS ∧
    g1.munchkin_x_factor1 = g.munchkin_x_factor1 ∧
    g1.munchkin_y_factor1 = g.munchkin_y_factor1 ∧ g1.NUM_GHOSTS = g.NUM_GHOSTS := by
  obtain ⟨g2, g3, ap3, e2, hl, e1⟩ := handle_pills_parts g rs g1 rs1 h
  have hsp : only_pill_speeds g g2 := by
    rw [e2]; exact handle_pills_speedups g (count_active_pills g)
  obtain ⟨⟨ps, l, e⟩, -⟩ := hsp
  obtain ⟨⟨ps3, gs, t, sc, hs, hb, e3⟩, -, -⟩ :=
    handle_pills_loop_writes _ g2 _ rs g3 ap3 rs1 hl
  rcases e1 with e1 | e1 <;> rw [e1, e3, e] <;> exact ⟨rfl, rfl, rfl, rfl, rfl⟩

theorem ghost_hit_pills (g : Game) (i : Nat) : (ghost_hit g i).pills = g.pills := by
  unfold ghost_hit update_high_score
  simp only
  split_ifs <;> rfl

theorem check_ghosts_pills (g : Game) : (check_ghosts_hits_munchkin g).pills = g.pills := by
  have q : ∀ (l : List Nat) (s : Game), (l.foldl ghost_hit s).pills = s.pills := by
    intro l
    induction l with
    | nil => intro s; rfl
    | cons i is ih => intro s; rw [List.foldl_cons, ih, ghost_hit_pills]
  unfold check_ghosts_hits_munchkin
  split_ifs
  · exact q _ g
  · rfl

theorem draw_score_line_pills (g : Game) : (draw_score_line g).pills = g.pills := by
  unfold draw_score_line flash_high_score_name
  simp only
  split_ifs <;> rfl

/-- The turn of the main loop after `get_user_input`, entered with the maze not completed:
the pills at the end are those `handle_pills` leaves, and when `handle_pills` completes the
maze the collision check is skipped, so `munchkin_dying` is as `handle_pills` left it. -/
theorem game_frame_tail_parts (g : Game) (rs : List Nat) (g1 : Game) (rs1 : List Nat)
    (hc : g.maze_completed = FALSE) (h : game_frame_tail g rs = some (g1, rs1)) :
    ∃ g7 rs3, handle_pills (draw_munchkin g) rs = some (g7, rs3) ∧
      (draw_munchkin g).maze_completed = FALSE ∧
      (draw_munchkin g).munchkin_dying = g.munchkin_dying ∧
      (draw_munchkin g).NUM_PILLS = g.NUM_PILLS ∧
      g1.pills = g7.pills ∧
      (g7.maze_completed = TRUE → g7.munchkin_dying = FALSE →
        g1.maze_completed = TRUE ∧ g1.munchkin_dying = FALSE) := by
  obtain ⟨a, d, f, r, p, e5, -⟩ := draw_munchkin_frame g
  have c5 : (draw_munchkin g).maze_completed = FALSE := by rw [e5]; exact hc
  have d5 : (draw_munchkin g).munchkin_dying = g.munchkin_dying := by rw [e5]
  have n5 : (draw_munchkin g).NUM_PILLS = g.NUM_PILLS := by rw [e5]
  unfold game_frame_tail at h
  simp only at h
  rw [if_neg (by rw [c5]; decide)] at h
  cases h7 : handle_pills (draw_munchkin g) rs with
  | none => rw [h7] at h; exact absurd h (by simp)
  | some p7 =>
    obtain ⟨g7, rs3⟩ := p7
    rw [h7] at h
    simp only at h
    refine ⟨g7, rs3, rfl, c5, d5, n5, ?_⟩
    cases h8 : (if g7.munchkin_dying = FALSE ∨ g7.munchkin_dying_animation = 0 then
        handle_ghosts g7 rs3 else some (g7, rs3)) with
    | none => rw [h8] at h; exact absurd h (by simp)
    | some p8 =>
      obtain ⟨g8, rs4⟩ := p8
      rw [h8] at h
      simp only [Option.some.injEq, Prod.mk.injEq] at h
      have e8 : ∃ gs t, g8 = { g7 with ghosts := gs, powerpill_active_timer := t } := by
        by_cases hx : g7.munchkin_dying = FALSE ∨ g7.munchkin_dying_animation = 0
        · rw [if_pos hx] at h8
          obtain ⟨gs, e⟩ := handle_ghosts_frame g7 rs3 g8 rs4 h8
          exact ⟨gs, _, e⟩
        · rw [if_neg hx] at h8
          simp only [Option.some.injEq, Prod.mk.injEq] at h8
          exact ⟨g7.ghosts, g7.powerpill_active_timer, h8.1.symm⟩
      obtain ⟨gs, t, e8⟩ := e8
      constructor
      · rw [← h.1, draw_score_line_pills]
        have hp9 : (if g8.maze_completed = FALSE then check_ghosts_hits_munchkin g8 else g8).pills
            = g8.pills := by
          by_cases hx : g8.maze_completed = FALSE
          · rw [if_pos hx]
            exact check_ghosts_pills g8
          · rw [if_neg hx]
        obtain ⟨hh, v, o, em⟩ := draw_maze_frame
          (if g8.maze_completed = FALSE then check_ghosts_hits_munchkin g8 else g8)
        rw [em]
        show (if g8.maze_completed = FALSE then check_ghosts_hits_munchkin g8 else g8).pills
          = g7.pills
        rw [hp9, e8]
      · intro c7 d7
        have c8 : g8.maze_completed = TRUE := by rw [e8]; exact c7
        have d8 : g8.munchkin_dying = FALSE := by rw [e8]; exact d7
        rw [if_neg (by rw [c8]; decide)] at h
        obtain ⟨hh, v, o, em⟩ := draw_maze_frame g8
        have dm : (draw_maze g8).munchkin_dying ≠ 1 := by
          rw [em]
          show g8.munchkin_dying ≠ 1
          rw [d8]
          decide
        rw [draw_score_line_idle _ dm] at h
        rw [← h.1, em]
        exact ⟨c8, d8⟩

/-- C38. Completing the level takes precedence over dying in the same frame. In one turn of
the main loop of `game` (`game_frame`: `get_user_input` with `handle_munchkin`,
`handle_pills`, `handle_ghosts`, then `check_ghosts_hits_munchkin` only if `maze_completed`
is FALSE) entered with `maze_completed` and `munchkin_dying` FALSE: if no pill
`0..NUM_PILLS-1` is active at the end of the turn (the last active pill was eaten in it),
then at the end of the turn `maze_completed` is TRUE and `munchkin_dying` is still FALSE,
wherever the ghosts are. -/
theorem completion_precedes_dying (rest1 rest2 : Game → List Nat → Option (Game × List Nat))
    (g : Game) (syms : List Int) (k : keystate) (rs : List Nat) (g1 : Game) (rs1 : List Nat)
    (hc : g.maze_completed = FALSE) (hd : g.munchkin_dying = FALSE)
    (h : game_frame rest1 rest2 g syms k rs = some (g1, rs1))
    (he : ∀ i : Nat, (i : Int) < g.NUM_PILLS → (pill_at g1 i).status = 0) :
    g1.maze_completed = TRUE ∧ g1.munchkin_dying = FALSE := by
  unfold game_frame game_restart game_continue at h
  simp only at h
  rw [if_neg (fun x => by rw [hd] at x; exact absurd x.1 (by decide))] at h
  simp only at h
  rw [if_neg (fun x => by rw [hc] at x; exact absurd x.1 (by decide))] at h
  simp only at h
  cases hk : get_user_input_keys syms { g with frame := g.frame + 1 } with
  | none => rw [hk] at h; exact absurd h (by simp)
  | some g3 =>
    rw [hk] at h
    simp only at h
    obtain ⟨n, p, r, e3⟩ := get_user_input_keys_frame syms _ g3 hk
    obtain ⟨x, y, a, l, e4⟩ := get_user_input_frame g3 k
    have c4 : (get_user_input g3 k).maze_completed = FALSE := by rw [e4, e3]; exact hc
    have d4 : (get_user_input g3 k).munchkin_dying = FALSE := by rw [e4, e3]; exact hd
    have n4 : (get_user_input g3 k).NUM_PILLS = g.NUM_PILLS := by rw [e4, e3]
    obtain ⟨g7, rs3, h7, c5, d5, n5, ep, hf⟩ := game_frame_tail_parts _ rs g1 rs1 c4 h
    have f7 := handle_pills_flags _ rs g7 rs3 h7
    have c7 : g7.maze_completed = TRUE := by
      apply (level_completion _ rs g7 rs3 c5 h7).1.2
      intro i hi
      rw [n5, n4] at hi
      have := he i hi
      unfold pill_at at this ⊢
      rw [← ep]
      exact this
    exact hf c7 (by rw [f7.1, d5, d4])

theorem demo_last_fatal_after_eq :
    game_frame no_rest no_rest demo_last_fatal [] ⟨false, false, false, false⟩ [] =
      some (demo_last_fatal_after, []) := by
  rfl

theorem completion_precedes_dying_witness :
    ((ghost_at demo_last_fatal 0).status = 1 ∧ ghost_touch demo_last_fatal 0) ∧
    ((ghost_at demo_last_fatal_after 0).status = 1 ∧ ghost_touch demo_last_fatal_after 0) ∧
    (pill_at demo_last_fatal 0).status = 1 ∧
    demo_last_fatal_after.maze_completed = TRUE ∧ demo_last_fatal_after.munchkin_dying = FALSE :=
  ⟨by decide, by decide, by decide,
    completion_precedes_dying no_rest no_rest demo_last_fatal [] ⟨false, false, false, false⟩ []
      demo_last_fatal_after [] (by decide) (by decide) demo_last_fatal_after_eq
      (fun i hi => by
        have hi2 : i < 2 := by
          have : demo_last_fatal.NUM_PILLS = 2 := rfl
          omega
        interval_cases i
        · decide
        · decide)⟩

/-! ## The player's cell column -/

theorem player_column (x : Int) (h1 : -4 ≤ x) (h2 : x ≤ 196) :
    -1 ≤ c_div (x - 16) 20 ∧ c_div (x - 16) 20 ≤ 9 ∧
    (c_div (x - 16) 20 = -1 ↔ x = -4) ∧ (c_div (x - 16) 20 = 9 ↔ x = 196) ∧
    (x ≤ 15 → x ≠ -4 → c_div (x - 16) 20 = 0) := by
  interval_cases x <;> decide

theorem handle_munchkin_cell (g : Game) (d m : Int) :
    handle_munchkin g d m =
      (if (if m = 1 then handle_munchkin_manual g (munchkin_cell g).1 (munchkin_cell g).2 d
            else g).munchkin_auto_direction + c_not 0 ≠ 0 ∧ m = 0 then
        handle_munchkin_auto
          (if m = 1 then handle_munchkin_manual g (munchkin_cell g).1 (munchkin_cell g).2 d else g)
      else (if m = 1 then handle_munchkin_manual g (munchkin_cell g).1 (munchkin_cell g).2 d
        else g)) := rfl

theorem wrap_left_range (g1 : Game) (h : g1.munchkin_x_factor1 ≤ 196) :
    -4 ≤ (if g1.munchkin_x_factor1 < -4 then { g1 with munchkin_x_factor1 := 196 }
      else g1).munchkin_x_factor1 ∧
    (if g1.munchkin_x_factor1 < -4 then { g1 with munchkin_x_factor1 := 196 }
      else g1).munchkin_x_factor1 ≤ 196 ∧
    (if g1.munchkin_x_factor1 < -4 then { g1 with munchkin_x_factor1 := 196 }
      else g1).speed = g1.speed := by
  by_cases hw : g1.munchkin_x_factor1 < -4
  · rw [if_pos hw]
    exact ⟨by show (-4 : Int) ≤ 196; decide, by show (196 : Int) ≤ 196; decide, rfl⟩
  · rw [if_neg hw]
    exact ⟨by omega, h, rfl⟩

theorem wrap_right_range (g1 : Game) (h : -4 ≤ g1.munchkin_x_factor1) :
    -4 ≤ (if g1.munchkin_x_factor1 > 196 then { g1 with munchkin_x_factor1 := -4 }
      else g1).munchkin_x_factor1 ∧
    (if g1.munchkin_x_factor1 > 196 then { g1 with munchkin_x_factor1 := -4 }
      else g1).munchkin_x_factor1 ≤ 196 ∧
    (if g1.munchkin_x_factor1 > 196 then { g1 with munchkin_x_factor1 := -4 }
      else g1).speed = g1.speed := by
  by_cases hw : g1.munchkin_x_factor1 > 196
  · rw [if_pos hw]
    exact ⟨by show (-4 : Int) ≤ -4; decide, by show (-4 : Int) ≤ 196; decide, rfl⟩
  · rw [if_neg hw]
    exact ⟨h, by omega, rfl⟩

theorem handle_munchkin_manual_range (g : Game) (cx cy d : Int)
    (h1 : -4 ≤ g.munchkin_x_factor1) (h2 : g.munchkin_x_factor1 ≤ 196) (hs : 0 ≤ g.speed) :
    -4 ≤ (handle_munchkin_manual g cx cy d).munchkin_x_factor1 ∧
    (handle_munchkin_manual g cx cy d).munchkin_x_factor1 ≤ 196 ∧
    (handle_munchkin_manual g cx cy d).speed = g.speed := by
  have c5 := c_div_consts.2.2.2.2.1
  have c6 := c_div_consts.2.2.2.2.2
  have gl : (munchkin_go_left g).munchkin_x_factor1 = g.munchkin_x_factor1 - g.speed ∧
      (munchkin_go_left g).speed = g.speed := ⟨rfl, rfl⟩
  have gr : (munchkin_go_right g).munchkin_x_factor1 = g.munchkin_x_factor1 + g.speed ∧
      (munchkin_go_right g).speed = g.speed := ⟨rfl, rfl⟩
  unfold handle_munchkin_manual
  simp only [c5, c6]
  by_cases dl : d = LEFT
  · rw [if_pos dl]
    have k : ∀ g1 : Game, (g1 = g ∨ g1 = munchkin_go_left g) →
        g1.munchkin_x_factor1 ≤ 196 ∧ g1.speed = g.speed := by
      intro g1 e
      rcases e with e | e <;> rw [e]
      · exact ⟨h2, rfl⟩
      · rw [gl.1, gl.2]; exact ⟨by omega, rfl⟩
    have e : ∀ g1 : Game, (g1 = g ∨ g1 = munchkin_go_left g) →
        -4 ≤ (if g1.munchkin_x_factor1 < -4 then { g1 with munchkin_x_factor1 := 196 }
          else g1).munchkin_x_factor1 ∧
        (if g1.munchkin_x_factor1 < -4 then { g1 with munchkin_x_factor1 := 196 }
          else g1).munchkin_x_factor1 ≤ 196 ∧
        (if g1.munchkin_x_factor1 < -4 then { g1 with munchkin_x_factor1 := 196 }
          else g1).speed = g.speed := by
      intro g1 e
      obtain ⟨a, b, c⟩ := wrap_left_range g1 (k g1 e).1
      exact ⟨a, b, c.trans (k g1 e).2⟩
    apply e
    split_ifs
    · exact Or.inl rfl
    · exact Or.inr rfl
    · exact Or.inr rfl
    · exact Or.inl rfl
  rw [if_neg dl]
  by_cases dr : d = RIGHT
  · rw [if_pos dr]
    have k : ∀ g1 : Game, (g1 = g ∨ g1 = munchkin_go_right g) →
        -4 ≤ g1.munchkin_x_factor1 ∧ g1.speed = g.speed := by
      intro g1 e
      rcases e with e | e <;> rw [e]
      · exact ⟨h1, rfl⟩
      · rw [gr.1, gr.2]; exact ⟨by omega, rfl⟩
    have e : ∀ g1 : Game, (g1 = g ∨ g1 = munchkin_go_right g) →
        -4 ≤ (if g1.munchkin_x_factor1 > 196 then { g1 with munchkin_x_factor1 := -4 }
          else g1).munchkin_x_factor1 ∧
        (if g1.munchkin_x_factor1 > 196 then { g1 with munchkin_x_factor1 := -4 }
          else g1).munchkin_x_factor1 ≤ 196 ∧
        (if g1.munchkin_x_factor1 > 196 then { g1 with munchkin_x_factor1 := -4 }
          else g1).speed = g.speed := by
      intro g1 e
      obtain ⟨a, b, c⟩ := wrap_right_range g1 (k g1 e).1
      exact ⟨a, b, c.trans (k g1 e).2⟩
    apply e
    split_ifs
    · exact Or.inl rfl
    · exact Or.inr rfl
    · exact Or.inr rfl
    · exact Or.inl rfl
  rw [if_neg dr]
  split_ifs <;> exact ⟨h1, h2, rfl⟩

theorem handle_munchkin_auto_range (g : Game)
    (h1 : -4 ≤ g.munchkin_x_factor1) (h2 : g.munchkin_x_factor1 ≤ 196) (hs : 0 ≤ g.speed) :
    -4 ≤ (handle_munchkin_auto g).munchkin_x_factor1 ∧
    (handle_munchkin_auto g).munchkin_x_factor1 ≤ 196 := by
  have c5 := c_div_consts.2.2.2.2.1
  have c6 := c_div_consts.2.2.2.2.2
  unfold handle_munchkin_auto
  simp only [c5, c6]
  by_cases dl : g.munchkin_auto_direction = LEFT
  · rw [if_pos dl]
    split_ifs
    · exact ⟨h1, h2⟩
    · show -4 ≤ (196 : Int) ∧ (196 : Int) ≤ 196
      decide
    · show -4 ≤ g.munchkin_x_factor1 - g.speed ∧ g.munchkin_x_factor1 - g.speed ≤ 196
      omega
  rw [if_neg dl]
  by_cases dr : g.munchkin_auto_direction = RIGHT
  · rw [if_pos dr]
    split_ifs
    · exact ⟨h1, h2⟩
    · show -4 ≤ (-4 : Int) ∧ (-4 : Int) ≤ 196
      decide
    · show -4 ≤ g.munchkin_x_factor1 + g.speed ∧ g.munchkin_x_factor1 + g.speed ≤ 196
      omega
  rw [if_neg dr]
  split_ifs <;> exact ⟨h1, h2⟩

theorem handle_munchkin_range (g : Game) (d m : Int)
    (h1 : -4 ≤ g.munchkin_x_factor1) (h2 : g.munchkin_x_factor1 ≤ 196) (hs : 0 ≤ g.speed) :
    -4 ≤ (handle_munchkin g d m).munchkin_x_factor1 ∧
    (handle_munchkin g d m).munchkin_x_factor1 ≤ 196 := by
  rw [handle_munchkin_cell]
  have k : -4 ≤ (if m = 1 then handle_munchkin_manual g (munchkin_cell g).1 (munchkin_cell g).2 d
        else g).munchkin_x_factor1 ∧
      (if m = 1 then handle_munchkin_manual g (munchkin_cell g).1 (munchkin_cell g).2 d
        else g).munchkin_x_factor1 ≤ 196 ∧
      (if m = 1 then handle_munchkin_manual g (munchkin_cell g).1 (munchkin_cell g).2 d
        else g).speed = g.speed := by
    by_cases hm : m = 1
    · rw [if_pos hm]; exact handle_munchkin_manual_range g _ _ d h1 h2 hs
    · rw [if_neg hm]; exact ⟨h1, h2, rfl⟩
  generalize (if m = 1 then handle_munchkin_manual g (munchkin_cell g).1 (munchkin_cell g).2 d
        else g) = g1 at k ⊢
  by_cases ha : g1.munchkin_auto_direction + c_not 0 ≠ 0 ∧ m = 0
  · rw [if_pos ha]; exact handle_munchkin_auto_range g1 k.1 k.2.1 (by rw [k.2.2]; exact hs)
  · rw [if_neg ha]; exact ⟨k.1, k.2.1⟩

/-- C39. Cell index range of the player. With `MAZE_OFFSET_X` 9 the column
`cell_x = (x - 16) / 20` that `handle_munchkin` computes (`munchkin_cell`, C truncating
division) is in 0..8 for every player x in -3..195, is 0 for all x in -3..15, and for x in
-4..196 is -1 exactly at the left wrap point x = -4 and 9 exactly at the right wrap point
x = 196. The range -4..196 is kept by `handle_munchkin` for every direction and flag (speed
not negative) and holds after `start_new_maze` (x = 96), so the only position in reach at
which a wall column `cell_x` below 0 is read is x = -4 (the column `cell_x + 1` read for
RIGHT is never below 0), and both wrap points pass the horizontal alignment test
`(x - 80/5) % (100/5) == 0`. -/
theorem player_cell_range (g : Game) (hx : g.MAZE_OFFSET_X = 9) :
    (-3 ≤ g.munchkin_x_factor1 → g.munchkin_x_factor1 ≤ 195 →
      0 ≤ (munchkin_cell g).1 ∧ (munchkin_cell g).1 ≤ 8) ∧
    (-3 ≤ g.munchkin_x_factor1 → g.munchkin_x_factor1 ≤ 15 → (munchkin_cell g).1 = 0) ∧
    (-4 ≤ g.munchkin_x_factor1 → g.munchkin_x_factor1 ≤ 196 →
      ((munchkin_cell g).1 = -1 ↔ g.munchkin_x_factor1 = -4) ∧
      ((munchkin_cell g).1 = 9 ↔ g.munchkin_x_factor1 = 196) ∧
      ((munchkin_cell g).1 < 0 ↔ g.munchkin_x_factor1 = -4) ∧
      0 ≤ (munchkin_cell g).1 + 1) ∧
    (g.munchkin_x_factor1 = -4 ∨ g.munchkin_x_factor1 = 196 →
      c_mod (g.munchkin_x_factor1 - c_div 80 5) (c_div 100 5) = 0) ∧
    (-4 ≤ g.munchkin_x_factor1 → g.munchkin_x_factor1 ≤ 196 → 0 ≤ g.speed →
      ∀ d m : Int, -4 ≤ (handle_munchkin g d m).munchkin_x_factor1 ∧
        (handle_munchkin g d m).munchkin_x_factor1 ≤ 196) ∧
    (∀ (rs : List Nat) (g1 : Game) (rs1 : List Nat), start_new_maze g rs = some (g1, rs1) →
      g1.munchkin_x_factor1 = 96 ∧ g1.MAZE_OFFSET_X = 9) ∧
    (∀ d m : Int, handle_munchkin g d m =
      (if (if m = 1 then handle_munchkin_manual g (munchkin_cell g).1 (munchkin_cell g).2 d
            else g).munchkin_auto_direction + c_not 0 ≠ 0 ∧ m = 0 then
        handle_munchkin_auto
          (if m = 1 then handle_munchkin_manual g (munchkin_cell g).1 (munchkin_cell g).2 d else g)
      else (if m = 1 then handle_munchkin_manual g (munchkin_cell g).1 (munchkin_cell g).2 d
        else g))) := by
  have e : (munchkin_cell g).1 = c_div (g.munchkin_x_factor1 - 16) 20 := by
    unfold munchkin_cell
    rw [hx]
    rfl
  refine ⟨?_, ?_, ?_, ?_, ?_, ?_, ?_⟩
  · intro h1 h2
    rw [e]
    obtain ⟨a, b, c, d, -⟩ := player_column g.munchkin_x_factor1 (by omega) (by omega)
    have n1 : c_div (g.munchkin_x_factor1 - 16) 20 ≠ -1 := fun x => by have := c.1 x; omega
    have n2 : c_div (g.munchkin_x_factor1 - 16) 20 ≠ 9 := fun x => by have := d.1 x; omega
    omega
  · intro h1 h2
    rw [e]
    exact (player_column g.munchkin_x_factor1 (by omega) (by omega)).2.2.2.2 h2 (by omega)
  · intro h1 h2
    rw [e]
    obtain ⟨a, b, c, d, -⟩ := player_column g.munchkin_x_factor1 h1 h2
    refine ⟨c, d, ⟨fun x => c.1 (by omega), fun x => by have := c.2 x; omega⟩, by omega⟩
  · intro h
    rcases h with h | h <;> rw [h] <;> decide
  · intro h1 h2 hs d m
    exact handle_munchkin_range g d m h1 h2 hs
  · intro rs g1 rs1 h
    obtain ⟨a, -, -, -, -, -, -, -, -, -, -, b, -⟩ := start_new_maze_frame g rs g1 rs1 h
    rw [a, b, hx]
    exact ⟨by decide, rfl⟩
  · intro d m
    exact handle_munchkin_cell g d m

theorem player_cell_range_witness :
    (munchkin_cell demo_tunnel).1 = 0 ∧
    (munchkin_cell { demo_tunnel with munchkin_x_factor1 := -4 }).1 = -1 ∧
    (-4 ≤ (handle_munchkin { demo_tunnel with munchkin_x_factor1 := -4 } LEFT 1).munchkin_x_factor1 ∧
      (handle_munchkin { demo_tunnel with munchkin_x_factor1 := -4 } LEFT 1).munchkin_x_factor1
        ≤ 196) ∧
    (handle_munchkin { demo_tunnel with munchkin_x_factor1 := -4 } LEFT 1).munchkin_x_factor1
      = 196 :=
  have a := player_cell_range demo_tunnel (by decide)
  have b := player_cell_range { demo_tunnel with munchkin_x_factor1 := -4 } (by decide)
  ⟨a.2.1 (by decide) (by decide), (b.2.2.1 (by decide) (by decide)).1.2 (by decide),
    b.2.2.2.2.1 (by decide) (by decide) (by decide) LEFT 1, by decide⟩

/-! ## Ghosts between two decision points -/

theorem tdiv_aligned (a b c : Int) (hb : 0 < b) : c + c_div a b * b = a + c ↔ a % b = 0 := by
  unfold c_div
  constructor
  · intro h
    have h2 : a.tdiv b * b = a := by omega
    have hd : b ∣ a := ⟨a.tdiv b, by rw [mul_comm]; exact h2.symm⟩
    exact Int.emod_eq_zero_of_dvd hd
  · intro h
    rw [Int.tdiv_mul_cancel (Int.dvd_of_emod_eq_zero h)]
    omega

theorem ghost_in_middle_iff (g : Game) (j : Nat) (hx0 : g.MAZE_OFFSET_X = 9)
    (hy0 : g.MAZE_OFFSET_Y = 23) :
    ghost_in_middle g j ↔
      ((ghost_at g j).x - 16) % 20 = 0 ∧ ((ghost_at g j).y - 27) % 14 = 0 := by
  unfold ghost_in_middle ghost_cell
  rw [hx0, hy0]
  have a := tdiv_aligned ((ghost_at g j).x - 16) 20 16 (by decide)
  have b := tdiv_aligned ((ghost_at g j).y - 27) 14 27 (by decide)
  have e1 : (9 : Int) + 7 = 16 := by decide
  have e2 : (23 : Int) + 4 = 27 := by decide
  have e3 : (7 : Int) + 9 = 16 := by decide
  have e4 : (4 : Int) + 23 = 27 := by decide
  have e5 : HORI_LINE_SIZE - 2 = 20 := by decide
  have e6 : VERT_LINE_SIZE - 2 = 14 := by decide
  simp only [e1, e2, e3, e4, e5, e6]
  constructor
  · rintro ⟨p, q⟩
    exact ⟨a.1 (by omega), b.1 (by omega)⟩
  · rintro ⟨p, q⟩
    have := a.2 p
    have := b.2 q
    constructor <;> omega

theorem move_ghost_slide (g : Game) (i : Nat) :
    ((ghost_at (move_ghost g i) i).x, (ghost_at (move_ghost g i) i).y) =
      ghost_slide (ghost_at g i).direction (ghost_at g i).speed
        ((ghost_at g i).x, (ghost_at g i).y) ∧
    (ghost_at (move_ghost g i) i).direction = (ghost_at g i).direction ∧
    (ghost_at (move_ghost g i) i).speed = (ghost_at g i).speed := by
  unfold move_ghost ghost_slide
  simp only
  split_ifs <;> (try rw [ghost_at_ghost_put, if_pos rfl]) <;> exact ⟨rfl, rfl, rfl⟩

theorem ghost_recharge_speed (gh : ghost_type) : (ghost_recharge gh).speed = gh.speed := by
  unfold ghost_recharge
  simp only
  split_ifs <;> rfl

theorem ghost_homing_speed (gh : ghost_type) (cx cy lo ro uo dn : Int) :
    (ghost_homing gh cx cy lo ro uo dn).1.speed = gh.speed := by
  unfold ghost_homing
  split_ifs <;> rfl

theorem choose_ghost_direction_speed (g : Game) (i : Nat) (rs : List Nat) (g1 : Game)
    (rs1 : List Nat) (h : choose_ghost_direction g i rs = some (g1, rs1)) :
    (ghost_at g1 i).speed = (ghost_at g i).speed ∧
    (¬ ghost_in_middle g i → g1 = g) := by
  rw [choose_ghost_direction_eq] at h
  by_cases hm : ghost_in_middle g i
  · rw [if_pos hm] at h
    obtain ⟨d, e, -⟩ := choose_ghost_aligned_put _ _ _ _ _ _ _ _ _ _ _ h
    refine ⟨?_, fun x => absurd hm x⟩
    rw [e, ghost_at_ghost_put, if_pos rfl]
    show (ghost_recharge _).speed = _
    rw [ghost_recharge_speed, ghost_homing_speed]
  · rw [if_neg hm] at h
    simp only [Option.some.injEq, Prod.mk.injEq] at h
    rw [← h.1]
    exact ⟨rfl, fun _ => rfl⟩

/-- One `handle_ghosts` call, for a ghost `j` below `NUM_GHOSTS` while the maze is not
completed: the ghost moves one step of its speed in the direction it has after the call;
its speed is as before, and so is its direction unless it stood on a decision point. -/
theorem handle_ghosts_track (g : Game) (rs : List Nat) (g1 : Game) (rs1 : List Nat)
    (hc : g.maze_completed = FALSE) (h : handle_ghosts g rs = some (g1, rs1)) (j : Nat)
    (hj : (j : Int) < g.NUM_GHOSTS) :
    ((ghost_at g1 j).x, (ghost_at g1 j).y) =
      ghost_slide (ghost_at g1 j).direction (ghost_at g j).speed
        ((ghost_at g j).x, (ghost_at g j).y) ∧
    (ghost_at g1 j).speed = (ghost_at g j).speed ∧
    (¬ ghost_in_middle g j → (ghost_at g1 j).direction = (ghost_at g j).direction) ∧
    g1.maze_completed = FALSE ∧ g1.MAZE_OFFSET_X = g.MAZE_OFFSET_X ∧
    g1.MAZE_OFFSET_Y = g.MAZE_OFFSET_Y ∧ g1.NUM_GHOSTS = g.NUM_GHOSTS := by
  obtain ⟨gs1, e1⟩ := handle_ghosts_frame g rs g1 rs1 h
  have fr : g1.maze_completed = FALSE ∧ g1.MAZE_OFFSET_X = g.MAZE_OFFSET_X ∧
      g1.MAZE_OFFSET_Y = g.MAZE_OFFSET_Y ∧ g1.NUM_GHOSTS = g.NUM_GHOSTS := by
    rw [e1]; exact ⟨hc, rfl, rfl, rfl⟩
  unfold handle_ghosts at h
  simp only at h
  have a : ∃ gs, (if g.powerpill_active_timer - 1 = 0 then
      revert_ghosts { g with powerpill_active_timer := g.powerpill_active_timer - 1 }
      else { g with powerpill_active_timer := g.powerpill_active_timer - 1 }) =
      { g with ghosts := gs, powerpill_active_timer := g.powerpill_active_timer - 1 } := by
    split_ifs
    · obtain ⟨gs, e⟩ := revert_ghosts_frame
        { g with powerpill_active_timer := g.powerpill_active_timer - 1 }
      exact ⟨gs, e⟩
    · exact ⟨g.ghosts, rfl⟩
  have b : ghost_at (if g.powerpill_active_timer - 1 = 0 then
      revert_ghosts { g with powerpill_active_timer := g.powerpill_active_timer - 1 }
      else { g with powerpill_active_timer := g.powerpill_active_timer - 1 }) j =
      ghost_at g j ∨
      ghost_at (if g.powerpill_active_timer - 1 = 0 then
      revert_ghosts { g with powerpill_active_timer := g.powerpill_active_timer - 1 }
      else { g with powerpill_active_timer := g.powerpill_active_timer - 1 }) j =
      { ghost_at g j with status := 1 } := by
    by_cases h0 : g.powerpill_active_timer - 1 = 0
    · rw [if_pos h0]
      have r2 : ghost_at (revert_ghosts
          { g with powerpill_active_timer := g.powerpill_active_timer - 1 }) j =
          if (j : Int) < g.NUM_GHOSTS ∧ (ghost_at g j).status = 2
            then { ghost_at g j with status := 1 } else ghost_at g j :=
        revert_ghosts_spec { g with powerpill_active_timer := g.powerpill_active_timer - 1 } hc j
      rw [r2]
      by_cases hx : (j : Int) < g.NUM_GHOSTS ∧ (ghost_at g j).status = 2
      · rw [if_pos hx]; exact Or.inr rfl
      · rw [if_neg hx]; exact Or.inl rfl
    · rw [if_neg h0]
      exact Or.inl rfl
  obtain ⟨gs, e⟩ := a
  have hn : (if g.powerpill_active_timer - 1 = 0 then
      revert_ghosts { g with powerpill_active_timer := g.powerpill_active_timer - 1 }
      else { g with powerpill_active_timer := g.powerpill_active_timer - 1 }).NUM_GHOSTS
        = g.NUM_GHOSTS := by rw [e]
  have hm : (if g.powerpill_active_timer - 1 = 0 then
      revert_ghosts { g with powerpill_active_timer := g.powerpill_active_timer - 1 }
      else { g with powerpill_active_timer := g.powerpill_active_timer - 1 }).maze_completed
        = FALSE := by rw [e]; exact hc
  obtain ⟨s, r2, s1, r3, ⟨gs2, es⟩, a1, a2, a3⟩ :=
    handle_ghosts_loop_pass _ _ _ _ _ (List.nodup_range _) hm h j
      (by rw [mem_range_toNat, hn]; exact hj)
  have q : (ghost_at s j).x = (ghost_at g j).x ∧ (ghost_at s j).y = (ghost_at g j).y ∧
      (ghost_at s j).direction = (ghost_at g j).direction ∧
      (ghost_at s j).speed = (ghost_at g j).speed := by
    rw [a1]
    rcases b with b | b <;> rw [b] <;> exact ⟨rfl, rfl, rfl, rfl⟩
  have ox : s.MAZE_OFFSET_X = g.MAZE_OFFSET_X := by rw [es, e]
  have oy : s.MAZE_OFFSET_Y = g.MAZE_OFFSET_Y := by rw [es, e]
  have hmid : ghost_in_middle s j ↔ ghost_in_middle g j :=
    ghost_in_middle_congr s g j q.1 q.2.1 ox oy
  obtain ⟨-, cx, cy, -, -⟩ := choose_ghost_direction_ghost s j r2 s1 r3 a2
  obtain ⟨cs, cm⟩ := choose_ghost_direction_speed s j r2 s1 r3 a2
  obtain ⟨m1, m2, m3⟩ := move_ghost_slide s1 j
  have ed : (ghost_at g1 j).direction = (ghost_at s1 j).direction := by rw [a3, m2]
  refine ⟨?_, ?_, ?_, fr⟩
  · rw [ed, a3, m1, cs, cx, cy, q.1, q.2.1, q.2.2.2]
  · rw [a3, m3, cs, q.2.2.2]
  · intro hnm
    rw [ed, cm (fun x => hnm (hmid.1 x)), q.2.2.1]

theorem ghost_frames_one (f : Game → Game) (g : Game) (rs : List Nat) :
    ghost_frames f 1 g rs = handle_ghosts (f g) rs := rfl

/-- A ghost on its way: from the call `ghost_frames f 1` on, as long as the points of the
path passed so far are no decision points, the ghost follows the path `path` that
`ghost_slide` steps through with the direction it has after the first call, keeping that
direction and its speed. -/
theorem ghost_path_run (f : Game → Game) (j : Nat) (hf : keeps_ghost_path f j)
    (g : Game) (rs : List Nat) (g1 : Game) (rs1 : List Nat)
    (h1 : ghost_frames f 1 g rs = some (g1, rs1))
    (hc : g.maze_completed = FALSE) (hj : (j : Int) < g.NUM_GHOSTS)
    (hx0 : g.MAZE_OFFSET_X = 9) (hy0 : g.MAZE_OFFSET_Y = 23)
    (path : Nat → Int × Int)
    (h0 : ghost_slide (ghost_at g1 j).direction (ghost_at g j).speed
      ((ghost_at g j).x, (ghost_at g j).y) = path 1) :
    ∀ k, 1 ≤ k →
      (∀ m, 1 ≤ m → m < k →
        ghost_slide (ghost_at g1 j).direction (ghost_at g j).speed (path m) = path (m + 1) ∧
        ¬ (((path m).1 - 16) % 20 = 0 ∧ ((path m).2 - 27) % 14 = 0)) →
      ∀ gk rsk, ghost_frames f k g rs = some (gk, rsk) →
      ((ghost_at gk j).x, (ghost_at gk j).y) = path k ∧
      (ghost_at gk j).direction = (ghost_at g1 j).direction ∧
      (ghost_at gk j).speed = (ghost_at g j).speed ∧
      gk.maze_completed = FALSE ∧ gk.MAZE_OFFSET_X = 9 ∧ gk.MAZE_OFFSET_Y = 23 ∧
      gk.NUM_GHOSTS = g.NUM_GHOSTS := by
  intro k
  induction k with
  | zero => intro hk; exact absurd hk (by decide)
  | succ k ih =>
    intro _ hpath gk rsk hk
    by_cases hk0 : k = 0
    · subst hk0
      have e : gk = g1 := by
        rw [h1] at hk
        simp only [Option.some.injEq, Prod.mk.injEq] at hk
        exact hk.1.symm
      rw [e]
      rw [ghost_frames_one] at h1
      obtain ⟨f1, f2, f3, f4, f5, f6, f7, f8⟩ := hf g
      obtain ⟨t1, t2, -, t4, t5, t6, t7⟩ := handle_ghosts_track (f g) rs g1 rs1
        (by rw [f7]; exact hc) h1 j (by rw [f8]; exact hj)
      rw [f1, f2, f4] at t1
      exact ⟨t1.trans h0, rfl, by rw [t2, f4], t4, by rw [t5, f5, hx0], by rw [t6, f6, hy0],
        by rw [t7, f8]⟩
    · obtain ⟨gp, rsp, hp, hg⟩ := ghost_frames_succ f k g rs gk rsk hk
      have k1 : 1 ≤ k := Nat.one_le_iff_ne_zero.2 hk0
      obtain ⟨i1, i2, i3, i4, i5, i6, i7⟩ := ih k1
        (fun m hm1 hm2 => hpath m hm1 (by omega)) gp rsp hp
      obtain ⟨f1, f2, f3, f4, f5, f6, f7, f8⟩ := hf gp
      obtain ⟨t1, t2, t3, t4, t5, t6, t7⟩ := handle_ghosts_track (f gp) rsp gk rsk
        (by rw [f7]; exact i4) hg j (by rw [f8, i7]; exact hj)
      obtain ⟨hstep, hmid⟩ := hpath k k1 (by omega)
      have nm : ¬ ghost_in_middle (f gp) j := by
        rw [ghost_in_middle_iff (f gp) j (by rw [f5]; exact i5) (by rw [f6]; exact i6), f1, f2]
        rw [← i1] at hmid
        exact hmid
      have ed : (ghost_at gk j).direction = (ghost_at g1 j).direction := by
        rw [t3 nm, f3, i2]
      rw [ed, f1, f2, f4, i3, i1, hstep] at t1
      exact ⟨t1, ed, by rw [t2, f4, i3], t4, by rw [t5, f5, i5], by rw [t6, f6, i6],
        by rw [t7, f8, i7]⟩

theorem ghost_slide_cases (s : Int) (p : Int × Int) :
    ghost_slide LEFT s p = (if p.1 - s < -2 then 194 else p.1 - s, p.2) ∧
    ghost_slide RIGHT s p = (if p.1 + s > 194 then -2 else p.1 + s, p.2) ∧
    ghost_slide UP s p = (p.1, p.2 - s) ∧ ghost_slide DOWN s p = (p.1, p.2 + s) :=
  ⟨rfl, rfl, rfl, rfl⟩

theorem ghost_run_left (f : Game → Game) (j : Nat) (hf : keeps_ghost_path f j)
    (g : Game) (rs : List Nat) (g1 : Game) (rs1 : List Nat) (cx cy s : Int)
    (hc : g.maze_completed = FALSE) (hj : (j : Int) < g.NUM_GHOSTS)
    (hx0 : g.MAZE_OFFSET_X = 9) (hy0 : g.MAZE_OFFSET_Y = 23)
    (hx : (ghost_at g j).x = 16 + 20 * cx) (hy : (ghost_at g j).y = 27 + 14 * cy)
    (hs : (ghost_at g j).speed = s) (hs12 : s = 1 ∨ s = 2)
    (h1 : ghost_frames f 1 g rs = some (g1, rs1))
    (hd : (ghost_at g1 j).direction = LEFT) (hcx : 1 ≤ cx)
    (k : Nat) (gk : Game) (rsk : List Nat) (hk1 : 1 ≤ k)
    (hk : ghost_frames f k g rs = some (gk, rsk)) (hkn : s * k ≤ 20) :
    (ghost_at gk j).x = 16 + 20 * cx - s * k ∧ (ghost_at gk j).y = 27 + 14 * cy ∧
    (ghost_at gk j).direction = LEFT ∧ (ghost_in_middle gk j ↔ s * k = 20) := by
  have r := ghost_path_run f j hf g rs g1 rs1 h1 hc hj hx0 hy0
    (fun m => (16 + 20 * cx - s * (m : Int), 27 + 14 * cy))
    (by
      rw [hd, hs, hx, hy, (ghost_slide_cases _ _).1]
      refine Prod.ext ?_ rfl
      dsimp only
      rcases hs12 with rfl | rfl <;> (try split_ifs) <;> push_cast <;> omega)
    k hk1
    (by
      intro m hm1 hm2
      rw [hd, hs, (ghost_slide_cases _ _).1]
      dsimp only
      constructor
      · refine Prod.ext ?_ rfl
        dsimp only
        rcases hs12 with rfl | rfl <;> (try split_ifs) <;> push_cast <;> omega
      · rcases hs12 with rfl | rfl <;> omega)
    gk rsk hk
  obtain ⟨r1, r2, -, -, r5, r6, -⟩ := r
  have ex : (ghost_at gk j).x = 16 + 20 * cx - s * k := congrArg Prod.fst r1
  have ey : (ghost_at gk j).y = 27 + 14 * cy := congrArg Prod.snd r1
  refine ⟨ex, ey, r2.trans hd, ?_⟩
  rw [ghost_in_middle_iff gk j r5 r6, ex, ey]
  rcases hs12 with rfl | rfl <;> omega


theorem ghost_run_right (f : Game → Game) (j : Nat) (hf : keeps_ghost_path f j)
    (g : Game) (rs : List Nat) (g1 : Game) (rs1 : List Nat) (cx cy s : Int)
    (hc : g.maze_completed = FALSE) (hj : (j : Int) < g.NUM_GHOSTS)
    (hx0 : g.MAZE_OFFSET_X = 9) (hy0 : g.MAZE_OFFSET_Y = 23)
    (hx : (ghost_at g j).x = 16 + 20 * cx) (hy : (ghost_at g j).y = 27 + 14 * cy)
    (hs : (ghost_at g j).speed = s) (hs12 : s = 1 ∨ s = 2)
    (h1 : ghost_frames f 1 g rs = some (g1, rs1))
    (hd : (ghost_at g1 j).direction = RIGHT) (hcx : cx ≤ 7)
    (k : Nat) (gk : Game) (rsk : List Nat) (hk1 : 1 ≤ k)
    (hk : ghost_frames f k g rs = some (gk, rsk)) (hkn : s * k ≤ 20) :
    (ghost_at gk j).x = 16 + 20 * cx + s * k ∧ (ghost_at gk j).y = 27 + 14 * cy ∧
    (ghost_at gk j).direction = RIGHT ∧ (ghost_in_middle gk j ↔ s * k = 20) := by
  have r := ghost_path_run f j hf g rs g1 rs1 h1 hc hj hx0 hy0
    (fun m => (16 + 20 * cx + s * (m : Int), 27 + 14 * cy))
    (by
      rw [hd, hs, hx, hy, (ghost_slide_cases _ _).2.1]
      refine Prod.ext ?_ rfl
      dsimp only
      rcases hs12 with rfl | rfl <;> (try split_ifs) <;> push_cast <;> omega)
    k hk1
    (by
      intro m hm1 hm2
      rw [hd, hs, (ghost_slide_cases _ _).2.1]
      dsimp only
      constructor
      · refine Prod.ext ?_ rfl
        dsimp only
        rcases hs12 with rfl | rfl <;> (try split_ifs) <;> push_cast <;> omega
      · rcases hs12 with rfl | rfl <;> (try split_ifs) <;> omega)
    gk rsk hk
  obtain ⟨r1, r2, -, -, r5, r6, -⟩ := r
  have ex : (ghost_at gk j).x = 16 + 20 * cx + s * k := congrArg Prod.fst r1
  have ey : (ghost_at gk j).y = 27 + 14 * cy := congrArg Prod.snd r1
  refine ⟨ex, ey, r2.trans hd, ?_⟩
  rw [ghost_in_middle_iff gk j r5 r6, ex, ey]
  rcases hs12 with rfl | rfl <;> (try split_ifs) <;> omega

theorem ghost_run_up (f : Game → Game) (j : Nat) (hf : keeps_ghost_path f j)
    (g : Game) (rs : List Nat) (g1 : Game) (rs1 : List Nat) (cx cy s : Int)
    (hc : g.maze_completed = FALSE) (hj : (j : Int) < g.NUM_GHOSTS)
    (hx0 : g.MAZE_OFFSET_X = 9) (hy0 : g.MAZE_OFFSET_Y = 23)
    (hx : (ghost_at g j).x = 16 + 20 * cx) (hy : (ghost_at g j).y = 27 + 14 * cy)
    (hs : (ghost_at g j).speed = s) (hs12 : s = 1 ∨ s = 2)
    (h1 : ghost_frames f 1 g rs = some (g1, rs1))
    (hd : (ghost_at g1 j).direction = UP)
    (k : Nat) (gk : Game) (rsk : List Nat) (hk1 : 1 ≤ k)
    (hk : ghost_frames f k g rs = some (gk, rsk)) (hkn : s * k ≤ 14) :
    (ghost_at gk j).x = 16 + 20 * cx ∧ (ghost_at gk j).y = 27 + 14 * cy - s * k ∧
    (ghost_at gk j).direction = UP ∧ (ghost_in_middle gk j ↔ s * k = 14) := by
  have r := ghost_path_run f j hf g rs g1 rs1 h1 hc hj hx0 hy0
    (fun m => (16 + 20 * cx, 27 + 14 * cy - s * (m : Int)))
    (by
      rw [hd, hs, hx, hy, (ghost_slide_cases _ _).2.2.1]
      refine Prod.ext rfl ?_
      dsimp only
      rcases hs12 with rfl | rfl <;> (try split_ifs) <;> push_cast <;> omega)
    k hk1
    (by
      intro m hm1 hm2
      rw [hd, hs, (ghost_slide_cases _ _).2.2.1]
      dsimp only
      constructor
      · refine Prod.ext rfl ?_
        dsimp only
        rcases hs12 with rfl | rfl <;> (try split_ifs) <;> push_cast <;> omega
      · rcases hs12 with rfl | rfl <;> (try split_ifs) <;> omega)
    gk rsk hk
  obtain ⟨r1, r2, -, -, r5, r6, -⟩ := r
  have ex : (ghost_at gk j).x = 16 + 20 * cx := congrArg Prod.fst r1
  have ey : (ghost_at gk j).y = 27 + 14 * cy - s * k := congrArg Prod.snd r1
  refine ⟨ex, ey, r2.trans hd, ?_⟩
  rw [ghost_in_middle_iff gk j r5 r6, ex, ey]
  rcases hs12 with rfl | rfl <;> (try split_ifs) <;> omega

theorem ghost_run_down (f : Game → Game) (j : Nat) (hf : keeps_ghost_path f j)
    (g : Game) (rs : List Nat) (g1 : Game) (rs1 : List Nat) (cx cy s : Int)
    (hc : g.maze_completed = FALSE) (hj : (j : Int) < g.NUM_GHOSTS)
    (hx0 : g.MAZE_OFFSET_X = 9) (hy0 : g.MAZE_OFFSET_Y = 23)
    (hx : (ghost_at g j).x = 16 + 20 * cx) (hy : (ghost_at g j).y = 27 + 14 * cy)
    (hs : (ghost_at g j).speed = s) (hs12 : s = 1 ∨ s = 2)
    (h1 : ghost_frames f 1 g rs = some (g1, rs1))
    (hd : (ghost_at g1 j).direction = DOWN)
    (k : Nat) (gk : Game) (rsk : List Nat) (hk1 : 1 ≤ k)
    (hk : ghost_frames f k g rs = some (gk, rsk)) (hkn : s * k ≤ 14) :
    (ghost_at gk j).x = 16 + 20 * cx ∧ (ghost_at gk j).y = 27 + 14 * cy + s * k ∧
    (ghost_at gk j).direction = DOWN ∧ (ghost_in_middle gk j ↔ s * k = 14) := by
  have r := ghost_path_run f j hf g rs g1 rs1 h1 hc hj hx0 hy0
    (fun m => (16 + 20 * cx, 27 + 14 * cy + s * (m : Int)))
    (by
      rw [hd, hs, hx, hy, (ghost_slide_cases _ _).2.2.2]
      refine Prod.ext rfl ?_
      dsimp only
      rcases hs12 with rfl | rfl <;> (try split_ifs) <;> push_cast <;> omega)
    k hk1
    (by
      intro m hm1 hm2
      rw [hd, hs, (ghost_slide_cases _ _).2.2.2]
      dsimp only
      constructor
      · refine Prod.ext rfl ?_
        dsimp only
        rcases hs12 with rfl | rfl <;> (try split_ifs) <;> push_cast <;> omega
      · rcases hs12 with rfl | rfl <;> (try split_ifs) <;> omega)
    gk rsk hk
  obtain ⟨r1, r2, -, -, r5, r6, -⟩ := r
  have ex : (ghost_at gk j).x = 16 + 20 * cx := congrArg Prod.fst r1
  have ey : (ghost_at gk j).y = 27 + 14 * cy + s * k := congrArg Prod.snd r1
  refine ⟨ex, ey, r2.trans hd, ?_⟩
  rw [ghost_in_middle_iff gk j r5 r6, ex, ey]
  rcases hs12 with rfl | rfl <;> (try split_ifs) <;> omega

theorem ghost_run_left_wrap (f : Game → Game) (j : Nat) (hf : keeps_ghost_path f j)
    (g : Game) (rs : List Nat) (g1 : Game) (rs1 : List Nat) (cx cy s : Int)
    (hc : g.maze_completed = FALSE) (hj : (j : Int) < g.NUM_GHOSTS)
    (hx0 : g.MAZE_OFFSET_X = 9) (hy0 : g.MAZE_OFFSET_Y = 23)
    (hx : (ghost_at g j).x = 16 + 20 * cx) (hy : (ghost_at g j).y = 27 + 14 * cy)
    (hs : (ghost_at g j).speed = s) (hs12 : s = 1 ∨ s = 2)
    (h1 : ghost_frames f 1 g rs = some (g1, rs1))
    (hd : (ghost_at g1 j).direction = LEFT) (hcx : cx = 0)
    (k : Nat) (gk : Game) (rsk : List Nat) (hk1 : 1 ≤ k)
    (hk : ghost_frames f k g rs = some (gk, rsk)) (hkn : s * k ≤ 36 + s) :
    (ghost_at gk j).x = (if s * k ≤ 18 then 16 - s * k else 212 + s - s * k) ∧ (ghost_at gk j).y = 27 + 14 * cy ∧
    (ghost_at gk j).direction = LEFT ∧ (ghost_in_middle gk j ↔ s * k = 36 + s) := by
  have r := ghost_path_run f j hf g rs g1 rs1 h1 hc hj hx0 hy0
    (fun m => ((if s * (m : Int) ≤ 18 then 16 - s * (m : Int) else 212 + s - s * (m : Int)), 27 + 14 * cy))
    (by
      rw [hd, hs, hx, hy, (ghost_slide_cases _ _).1]
      refine Prod.ext ?_ rfl
      dsimp only
      rcases hs12 with rfl | rfl <;> (try split_ifs) <;> push_cast <;> omega)
    k hk1
    (by
      intro m hm1 hm2
      rw [hd, hs, (ghost_slide_cases _ _).1]
      dsimp only
      constructor
      · refine Prod.ext ?_ rfl
        dsimp only
        rcases hs12 with rfl | rfl <;> (try split_ifs) <;> push_cast <;> omega
      · rcases hs12 with rfl | rfl <;> (try split_ifs) <;> omega)
    gk rsk hk
  obtain ⟨r1, r2, -, -, r5, r6, -⟩ := r
  have ex : (ghost_at gk j).x = (if s * k ≤ 18 then 16 - s * k else 212 + s - s * k) := congrArg Prod.fst r1
  have ey : (ghost_at gk j).y = 27 + 14 * cy := congrArg Prod.snd r1
  refine ⟨ex, ey, r2.trans hd, ?_⟩
  rw [ghost_in_middle_iff gk j r5 r6, ex, ey]
  rcases hs12 with rfl | rfl <;> (try split_ifs) <;> omega

theorem ghost_run_right_wrap (f : Game → Game) (j : Nat) (hf : keeps_ghost_path f j)
    (g : Game) (rs : List Nat) (g1 : Game) (rs1 : List Nat) (cx cy s : Int)
    (hc : g.maze_completed = FALSE) (hj : (j : Int) < g.NUM_GHOSTS)
    (hx0 : g.MAZE_OFFSET_X = 9) (hy0 : g.MAZE_OFFSET_Y = 23)
    (hx : (ghost_at g j).x = 16 + 20 * cx) (hy : (ghost_at g j).y = 27 + 14 * cy)
    (hs : (ghost_at g j).speed = s) (hs12 : s = 1 ∨ s = 2)
    (h1 : ghost_frames f 1 g rs = some (g1, rs1))
    (hd : (ghost_at g1 j).direction = RIGHT) (hcx : cx = 8)
    (k : Nat) (gk : Game) (rsk : List Nat) (hk1 : 1 ≤ k)
    (hk : ghost_frames f k g rs = some (gk, rsk)) (hkn : s * k ≤ 36 + s) :
    (ghost_at gk j).x = (if s * k ≤ 18 then 176 + s * k else s * k - 20 - s) ∧ (ghost_at gk j).y = 27 + 14 * cy ∧
    (ghost_at gk j).direction = RIGHT ∧ (ghost_in_middle gk j ↔ s * k = 36 + s) := by
  have r := ghost_path_run f j hf g rs g1 rs1 h1 hc hj hx0 hy0
    (fun m => ((if s * (m : Int) ≤ 18 then 176 + s * (m : Int) else s * (m : Int) - 20 - s), 27 + 14 * cy))
    (by
      rw [hd, hs, hx, hy, (ghost_slide_cases _ _).2.1]
      refine Prod.ext ?_ rfl
      dsimp only
      rcases hs12 with rfl | rfl <;> (try split_ifs) <;> push_cast <;> omega)
    k hk1
    (by
      intro m hm1 hm2
      rw [hd, hs, (ghost_slide_cases _ _).2.1]
      dsimp only
      constructor
      · refine Prod.ext ?_ rfl
        dsimp only
        rcases hs12 with rfl | rfl <;> (try split_ifs) <;> push_cast <;> omega
      · rcases hs12 with rfl | rfl <;> (try split_ifs) <;> omega)
    gk rsk hk
  obtain ⟨r1, r2, -, -, r5, r6, -⟩ := r
  have ex : (ghost_at gk j).x = (if s * k ≤ 18 then 176 + s * k else s * k - 20 - s) := congrArg Prod.fst r1
  have ey : (ghost_at gk j).y = 27 + 14 * cy := congrArg Prod.snd r1
  refine ⟨ex, ey, r2.trans hd, ?_⟩
  rw [ghost_in_middle_iff gk j r5 r6, ex, ey]
  rcases hs12 with rfl | rfl <;> (try split_ifs) <;> omega

/-- C35. Ghosts never skip a decision point. A ghost `j` with speed `s` in 1, 2 stands on
the decision point of cell `(cx, cy)` (x = 16 + 20 cx, y = 27 + 14 cy, 0 ≤ cx ≤ 8,
0 ≤ cy ≤ 6), the maze is not completed, and the rest of each frame (`f`) leaves its place,
direction and speed alone. Then the ghost is treated as aligned in the first
`handle_ghosts` call, and with the direction `d` it has after that call, after `k` calls
in all (`ghost_frames f k`): heading LEFT or RIGHT (cx ≥ 1, resp. cx ≤ 7) it is `s k` to
the left or right of the point for `s k ≤ 20`, heading UP or DOWN it is `s k` above or
below it for `s k ≤ 14`, still with direction `d`, and it is on a decision point exactly
when `s k = 20` (resp. 14), that is after exactly 20/s (resp. 14/s) calls, on the
neighbouring cell's point, and in no call in between. Through the tunnel: heading LEFT
from column 0 it goes down to x = -2, wraps to 194 and is next on a decision point exactly
at x = 176 (cell column 8, when `s k = 36 + s`); heading RIGHT from column 8 it goes up to
x = 194, wraps to -2 and is next on a decision point exactly at x = 16 (cell column 0). -/
theorem ghosts_never_skip (f : Game → Game) (j : Nat) (hf : keeps_ghost_path f j)
    (g : Game) (rs : List Nat) (g1 : Game) (rs1 : List Nat) (cx cy s : Int)
    (hc : g.maze_completed = FALSE) (hj : (j : Int) < g.NUM_GHOSTS)
    (hx0 : g.MAZE_OFFSET_X = 9) (hy0 : g.MAZE_OFFSET_Y = 23)
    (hcx : 0 ≤ cx ∧ cx ≤ 8) (hcy : 0 ≤ cy ∧ cy ≤ 6)
    (hx : (ghost_at g j).x = 16 + 20 * cx) (hy : (ghost_at g j).y = 27 + 14 * cy)
    (hs : (ghost_at g j).speed = s) (hs12 : s = 1 ∨ s = 2)
    (h1 : ghost_frames f 1 g rs = some (g1, rs1)) :
    ghost_in_middle g j ∧ ghost_cell g j = (cx, cy) ∧
    ∀ (k : Nat) (gk : Game) (rsk : List Nat), 1 ≤ k →
      ghost_frames f k g rs = some (gk, rsk) →
      ((ghost_at g1 j).direction = LEFT → 1 ≤ cx → s * k ≤ 20 →
        (ghost_at gk j).x = 16 + 20 * cx - s * k ∧ (ghost_at gk j).y = 27 + 14 * cy ∧
        (ghost_at gk j).direction = LEFT ∧ (ghost_in_middle gk j ↔ s * k = 20)) ∧
      ((ghost_at g1 j).direction = RIGHT → cx ≤ 7 → s * k ≤ 20 →
        (ghost_at gk j).x = 16 + 20 * cx + s * k ∧ (ghost_at gk j).y = 27 + 14 * cy ∧
        (ghost_at gk j).direction = RIGHT ∧ (ghost_in_middle gk j ↔ s * k = 20)) ∧
      ((ghost_at g1 j).direction = UP → s * k ≤ 14 →
        (ghost_at gk j).x = 16 + 20 * cx ∧ (ghost_at gk j).y = 27 + 14 * cy - s * k ∧
        (ghost_at gk j).direction = UP ∧ (ghost_in_middle gk j ↔ s * k = 14)) ∧
      ((ghost_at g1 j).direction = DOWN → s * k ≤ 14 →
        (ghost_at gk j).x = 16 + 20 * cx ∧ (ghost_at gk j).y = 27 + 14 * cy + s * k ∧
        (ghost_at gk j).direction = DOWN ∧ (ghost_in_middle gk j ↔ s * k = 14)) ∧
      ((ghost_at g1 j).direction = LEFT → cx = 0 → s * k ≤ 36 + s →
        (ghost_at gk j).x = (if s * k ≤ 18 then 16 - s * k else 212 + s - s * k) ∧
        (ghost_at gk j).y = 27 + 14 * cy ∧ (ghost_at gk j).direction = LEFT ∧
        (ghost_in_middle gk j ↔ s * k = 36 + s) ∧ (s * k = 36 + s → (ghost_at gk j).x = 176)) ∧
      ((ghost_at g1 j).direction = RIGHT → cx = 8 → s * k ≤ 36 + s →
        (ghost_at gk j).x = (if s * k ≤ 18 then 176 + s * k else s * k - 20 - s) ∧
        (ghost_at gk j).y = 27 + 14 * cy ∧ (ghost_at gk j).direction = RIGHT ∧
        (ghost_in_middle gk j ↔ s * k = 36 + s) ∧ (s * k = 36 + s → (ghost_at gk j).x = 16)) := by
  refine ⟨?_, ?_, ?_⟩
  · rw [ghost_in_middle_iff g j hx0 hy0, hx, hy]
    omega
  · unfold ghost_cell
    rw [hx0, hy0, hx, hy]
    have e1 : (16 : Int) + 20 * cx - (7 + 9) = 20 * cx := by omega
    have e2 : (27 : Int) + 14 * cy - (4 + 23) = 14 * cy := by omega
    have e5 : HORI_LINE_SIZE - 2 = 20 := by decide
    have e6 : VERT_LINE_SIZE - 2 = 14 := by decide
    rw [e1, e2, e5, e6, c_div_mul_left cx 20 (by decide), c_div_mul_left cy 14 (by decide)]
  · intro k gk rsk hk1 hk
    refine ⟨?_, ?_, ?_, ?_, ?_, ?_⟩
    · intro hd h2 hkn
      exact ghost_run_left f j hf g rs g1 rs1 cx cy s hc hj hx0 hy0 hx hy hs hs12 h1 hd h2
        k gk rsk hk1 hk hkn
    · intro hd h2 hkn
      exact ghost_run_right f j hf g rs g1 rs1 cx cy s hc hj hx0 hy0 hx hy hs hs12 h1 hd h2
        k gk rsk hk1 hk hkn
    · intro hd hkn
      exact ghost_run_up f j hf g rs g1 rs1 cx cy s hc hj hx0 hy0 hx hy hs hs12 h1 hd
        k gk rsk hk1 hk hkn
    · intro hd hkn
      exact ghost_run_down f j hf g rs g1 rs1 cx cy s hc hj hx0 hy0 hx hy hs hs12 h1 hd
        k gk rsk hk1 hk hkn
    · intro hd h2 hkn
      obtain ⟨a, b, c, d⟩ := ghost_run_left_wrap f j hf g rs g1 rs1 cx cy s hc hj hx0 hy0 hx hy
        hs hs12 h1 hd h2 k gk rsk hk1 hk hkn
      refine ⟨a, b, c, d, fun e => ?_⟩
      rw [a]
      rcases hs12 with rfl | rfl <;> split_ifs <;> omega
    · intro hd h2 hkn
      obtain ⟨a, b, c, d⟩ := ghost_run_right_wrap f j hf g rs g1 rs1 cx cy s hc hj hx0 hy0 hx hy
        hs hs12 h1 hd h2 k gk rsk hk1 hk hkn
      refine ⟨a, b, c, d, fun e => ?_⟩
      rw [a]
      rcases hs12 with rfl | rfl <;> split_ifs <;> omega

theorem demo_corridor_after_eq :
    ghost_frames id 20 demo_corridor [] = some (demo_corridor_after, []) := by
  rfl

theorem ghosts_never_skip_witness :
    ((ghost_at demo_corridor 0).x = 36 ∧ (ghost_at demo_corridor 0).speed = 1) ∧
    ghost_in_middle demo_corridor 0 ∧
    ((ghost_at demo_corridor_after 0).x = 16 + 20 * 1 - 1 * (20 : Nat) ∧
      (ghost_at demo_corridor_after 0).y = 27 + 14 * 0 ∧
      (ghost_at demo_corridor_after 0).direction = LEFT ∧
      (ghost_in_middle demo_corridor_after 0 ↔ (1 : Int) * (20 : Nat) = 20)) :=
  have w := ghosts_never_skip id 0 (fun _ => ⟨rfl, rfl, rfl, rfl, rfl, rfl, rfl, rfl⟩)
    demo_corridor [] ((ghost_frames id 1 demo_corridor []).getD (demo_corridor, [])).1 [] 1 0 1
    (by decide) (by decide) (by decide) (by decide) (by decide) (by decide) (by decide)
    (by decide) (by decide) (by decide) (by rfl)
  ⟨by decide, w.1, (w.2.2 20 demo_corridor_after [] (by decide) demo_corridor_after_eq).1
    (by decide) (by decide) (by decide)⟩

/-! ## Pills between two cell centres -/

theorem pill_frames_succ (f : Game → Game) (k : Nat) (g : Game) (rs : List Nat)
    (g1 : Game) (rs1 : List Nat) (h : pill_frames f (k + 1) g rs = some (g1, rs1)) :
    ∃ gk rsk, pill_frames f k g rs = some (gk, rsk) ∧
      handle_pills (f gk) rsk = some (g1, rs1) := by
  rw [pill_frames] at h
  split at h
  · exact absurd h (by simp)
  · rename_i gk rsk hk
    exact ⟨gk, rsk, hk, h⟩

theorem pill_frames_one (f : Game → Game) (g : Game) (rs : List Nat) :
    pill_frames f 1 g rs = handle_pills (f g) rs := rfl

theorem pill_in_middle_iff (g : Game) (i : Nat) (hf : g.factor = 5)
    (hsx : g.screen_offset_x = 203) (hsy : g.screen_offset_y = 0)
    (hx0 : g.MAZE_OFFSET_X = 9) (hy0 : g.MAZE_OFFSET_Y = 23) :
    pill_in_middle g i ↔
      ((pill_at g i).x - 293) % 100 = 0 ∧ ((pill_at g i).y - 150) % 70 = 0 := by
  unfold pill_in_middle
  simp only
  rw [hf, hsx, hsy, hx0, hy0]
  have e5 : HORI_LINE_SIZE - 2 = 20 := by decide
  have e6 : VERT_LINE_SIZE - 2 = 14 := by decide
  rw [e5, e6]
  constructor
  · rintro ⟨p, q⟩
    constructor <;> omega
  · rintro ⟨p, q⟩
    obtain ⟨a, ha⟩ : ∃ a, (pill_at g i).x = 293 + 100 * a :=
      ⟨((pill_at g i).x - 293) / 100, by omega⟩
    obtain ⟨b, hb⟩ : ∃ b, (pill_at g i).y = 150 + 70 * b :=
      ⟨((pill_at g i).y - 150) / 70, by omega⟩
    rw [ha, hb]
    have e1 : (293 : Int) + 100 * a - 203 = 5 * (18 + 20 * a) := by omega
    have e2 : (150 : Int) + 70 * b - 0 = 5 * (30 + 14 * b) := by omega
    have e3 : (18 : Int) + 20 * a - (9 + 9) = 20 * a := by omega
    have e4 : (30 : Int) + 14 * b - (7 + 23) = 14 * b := by omega
    rw [e1, e2, c_div_mul_left _ 5 (by decide), c_div_mul_left _ 5 (by decide), e3, e4,
      c_div_mul_left _ 20 (by decide), c_div_mul_left _ 14 (by decide)]
    constructor <;> omega

theorem move_pill_slide (g : Game) (i : Nat) :
    ((pill_at (move_pill g i) i).x, (pill_at (move_pill g i) i).y) =
      pill_slide g (pill_at g i).direction (pill_at g i).speed
        ((pill_at g i).x, (pill_at g i).y) ∧
    (pill_at (move_pill g i) i).direction = (pill_at g i).direction ∧
    (pill_at (move_pill g i) i).speed = (pill_at g i).speed ∧
    (pill_at (move_pill g i) i).status = (pill_at g i).status := by
  unfold move_pill pill_slide
  simp only
  split_ifs <;> (try rw [pill_at_pill_put, if_pos rfl]) <;> exact ⟨rfl, rfl, rfl, rfl⟩

theorem choose_pill_direction_track (g : Game) (i : Nat) (rs : List Nat) (g1 : Game)
    (rs1 : List Nat) (h : choose_pill_direction g i rs = some (g1, rs1)) :
    (pill_at g1 i).x = (pill_at g i).x ∧ (pill_at g1 i).y = (pill_at g i).y ∧
    (pill_at g1 i).speed = (pill_at g i).speed ∧
    (pill_at g1 i).status = (pill_at g i).status ∧
    (¬ pill_in_middle g i → g1 = g) ∧ (∃ ps, g1 = { g with pills := ps }) := by
  have hp := choose_pill_direction_pills g i rs g1 rs1 h
  have hn : ¬ pill_in_middle g i → g1 = g := by
    intro hm
    rw [choose_pill_direction_eq, if_neg hm] at h
    simp only [Option.some.injEq, Prod.mk.injEq] at h
    exact h.1.symm
  obtain ⟨d, e | e⟩ := choose_pill_direction_frame g i rs g1 rs1 h
  · rw [e, pill_at_pill_put, if_pos rfl]
    rw [e] at hn hp
    exact ⟨rfl, rfl, rfl, rfl, hn, hp⟩
  · rw [e]
    rw [e] at hn hp
    exact ⟨rfl, rfl, rfl, rfl, hn, hp⟩

/-- The main loop of `handle_pills` leaves a pill alone whose index is not in the list. -/
theorem handle_pills_loop_other (l : List Nat) : ∀ (g : Game) (ap : Int) (rs : List Nat)
    (g3 : Game) (ap3 : Int) (rs3 : List Nat),
    handle_pills_loop l g ap rs = some (g3, ap3, rs3) →
    ∀ j, j ∉ l → pill_at g3 j = pill_at g j := by
  induction l with
  | nil =>
    intro g ap rs g3 ap3 rs3 h j _
    simp only [handle_pills_loop, Option.some.injEq, Prod.mk.injEq] at h
    rw [← h.1]
  | cons i is ih =>
    intro g ap rs g3 ap3 rs3 h j hj
    have hji : j ≠ i := fun x => hj (x ▸ List.mem_cons_self i is)
    have hjs : j ∉ is := fun x => hj (List.mem_cons_of_mem i x)
    rw [handle_pills_loop] at h
    by_cases hc : g.maze_completed = FALSE
    swap
    · rw [if_neg hc] at h
      simp only [Option.some.injEq, Prod.mk.injEq] at h
      rw [← h.1]
    rw [if_pos hc] at h
    split at h
    · exact absurd h (by simp)
    · rename_i g1 ap1 rs1 hb
      obtain ⟨s1, s2⟩ := handle_pills_body_spec g i ap rs g1 ap1 rs1 hb
      have first : pill_at g1 j = pill_at g j := by
        by_cases ht : (pill_at g i).status ≠ 0 ∧ g.munchkin_dying = FALSE ∧
            check_pill_eaten g i = TRUE
        · rw [s1 ht, (eat_pill_spec g i).2.1 j, if_neg hji]
        · exact (s2 ht).2.1 j hji
      rw [ih g1 ap1 rs1 g3 ap3 rs3 h j hjs, first]

/-- One pass of the main loop of `handle_pills` over a pill `i` of the list that is still
active afterwards: the pill was not eaten; its direction was chosen in a state `s` in which
it is as at the start of the loop, and it was then moved one step. -/
theorem handle_pills_loop_pass (l : List Nat) : ∀ (g : Game) (ap : Int) (rs : List Nat)
    (g3 : Game) (ap3 : Int) (rs3 : List Nat), l.Nodup → g.maze_completed = FALSE →
    handle_pills_loop l g ap rs = some (g3, ap3, rs3) → ∀ i, i ∈ l →
    (pill_at g3 i).status ≠ 0 →
    ∃ s rs2 s1 rs4, pill_loop_writes g s ∧ pill_at s i = pill_at g i ∧
      choose_pill_direction s i rs2 = some (s1, rs4) ∧
      pill_at g3 i = pill_at (move_pill s1 i) i := by
  induction l with
  | nil => intro g ap rs g3 ap3 rs3 _ _ _ i hi; exact absurd hi (List.not_mem_nil i)
  | cons j js ih =>
    intro g ap rs g3 ap3 rs3 hnd hc h i hi ha
    rw [List.nodup_cons] at hnd
    obtain ⟨hj, hnd⟩ := hnd
    rw [handle_pills_loop, if_pos hc] at h
    split at h
    · exact absurd h (by simp)
    · rename_i g1 ap1 rs1 hb
      obtain ⟨w1, -, w3⟩ := handle_pills_loop_writes js g1 ap1 rs1 g3 ap3 rs3 h
      by_cases hij : i = j
      · subst hij
        have rest := handle_pills_loop_other js g1 ap1 rs1 g3 ap3 rs3 h i hj
        have a1 : (pill_at g1 i).status ≠ 0 := by rw [← rest]; exact ha
        have a0 : (pill_at g i).status ≠ 0 := by
          intro h0
          rw [handle_pills_body_inactive g i ap rs h0] at hb
          simp only [Option.some.injEq, Prod.mk.injEq] at hb
          rw [← hb.1] at a1
          exact a1 h0
        unfold handle_pills_body at hb
        rw [if_pos a0] at hb
        simp only at hb
        by_cases he : (if g.munchkin_dying = FALSE then check_pill_eaten g i else FALSE) = FALSE
        · rw [if_pos he] at hb
          cases hch : choose_pill_direction g i rs with
          | none => rw [hch] at hb; exact absurd hb (by simp)
          | some p =>
            obtain ⟨s1, rs4⟩ := p
            rw [hch] at hb
            simp only [Option.some.injEq, Prod.mk.injEq] at hb
            refine ⟨g, rs, s1, rs4, pill_loop_writes_refl g, rfl, hch, ?_⟩
            rw [rest, ← hb.1]
        · rw [if_neg he] at hb
          simp only [Option.some.injEq, Prod.mk.injEq] at hb
          rw [← hb.1, (eat_pill_spec g i).2.1 i, if_pos rfl] at a1
          exact absurd rfl a1
      · have hjs : i ∈ js := by
          rcases List.mem_cons.mp hi with x | x
          · exact absurd x hij
          · exact x
        obtain ⟨s1, s2⟩ := handle_pills_body_spec g j ap rs g1 ap1 rs1 hb
        have first : pill_loop_writes g g1 ∧ pill_at g1 i = pill_at g i := by
          by_cases ht : (pill_at g j).status ≠ 0 ∧ g.munchkin_dying = FALSE ∧
              check_pill_eaten g j = TRUE
          · rw [s1 ht, (eat_pill_spec g j).2.1 i, if_neg hij]
            exact ⟨eat_pill_writes g j, rfl⟩
          · obtain ⟨⟨ps, e⟩, q1, -, -⟩ := s2 ht
            exact ⟨by rw [e]; exact ⟨_, _, _, _, _, _, rfl⟩, q1 i hij⟩
        have hc1 : g1.maze_completed = FALSE := by
          obtain ⟨ps, gs, t, sc, hs, hb2, e⟩ := first.1
          rw [e]; exact hc
        obtain ⟨s, r2, sa, r4, b1, b2, b3, b4⟩ := ih g1 ap1 rs1 g3 ap3 rs3 hnd hc1 h i hjs ha
        exact ⟨s, r2, sa, r4, pill_loop_writes_trans _ _ _ first.1 b1, b2.trans first.2, b3, b4⟩

/-- One `handle_pills` call, for a pill `i` below `NUM_PILLS` that is still active after
it, while the maze is not completed: the pill moves one step of the speed it has after the
call in the direction it has after the call; both are as before unless it stood on a cell
centre; the maze is still not completed. -/
theorem handle_pills_track (g : Game) (rs : List Nat) (g1 : Game) (rs1 : List Nat)
    (hc : g.maze_completed = FALSE) (h : handle_pills g rs = some (g1, rs1)) (i : Nat)
    (hi : (i : Int) < g.NUM_PILLS) (ha : (pill_at g1 i).status ≠ 0) :
    ((pill_at g1 i).x, (pill_at g1 i).y) =
      pill_slide g (pill_at g1 i).direction (pill_at g1 i).speed
        ((pill_at g i).x, (pill_at g i).y) ∧
    (¬ pill_in_middle g i → (pill_at g1 i).direction = (pill_at g i).direction ∧
      (pill_at g1 i).speed = (pill_at g i).speed) ∧
    (pill_at g i).status ≠ 0 ∧
    g1.maze_completed = FALSE ∧ g1.factor = g.factor ∧
    g1.screen_offset_x = g.screen_offset_x ∧ g1.screen_offset_y = g.screen_offset_y ∧
    g1.MAZE_OFFSET_X = g.MAZE_OFFSET_X ∧ g1.MAZE_OFFSET_Y = g.MAZE_OFFSET_Y ∧
    g1.NUM_PILLS = g.NUM_PILLS := by
  have hc1 : g1.maze_completed = FALSE := by
    obtain ⟨l1, -, l3⟩ := level_completion g rs g1 rs1 hc h
    apply l3
    intro ht
    exact ha (l1.1 ht i hi)
  have a0 : (pill_at g i).status ≠ 0 := fun h0 => ha (handle_pills_inactive g rs g1 rs1 h i h0)
  obtain ⟨g2, g3, ap3, e2, hl, e1⟩ := handle_pills_parts g rs g1 rs1 h
  have hsp : only_pill_speeds g g2 := by
    rw [e2]; exact handle_pills_speedups g (count_active_pills g)
  have hmid : pill_in_middle g2 i ↔ pill_in_middle g i := pill_in_middle_congr g g2 i hsp
  obtain ⟨⟨ps, l, e⟩, pf⟩ := hsp
  have c2 : g2.maze_completed = FALSE := by rw [e]; exact hc
  have n2 : g2.NUM_PILLS = g.NUM_PILLS := by rw [e]
  have e13 : pill_at g1 i = pill_at g3 i := by
    rcases e1 with e1 | e1 <;> rw [e1] <;> rfl
  obtain ⟨s, r2, s1, r4, ⟨ps3, gs, t, sc, hs, hb, es⟩, b2, b3, b4⟩ :=
    handle_pills_loop_pass _ g2 _ rs g3 ap3 rs1 (List.nodup_range _) c2 hl i
      (by rw [mem_range_toNat, n2]; exact hi) (by rw [← e13]; exact ha)
  obtain ⟨cx, cy, cs, -, cm, ⟨ps1, ec⟩⟩ := choose_pill_direction_track s i r2 s1 r4 b3
  obtain ⟨m1, m2, m3, -⟩ := move_pill_slide s1 i
  obtain ⟨⟨ps4, gs4, t4, sc4, hs4, hb4, e34⟩, -, -⟩ :=
    handle_pills_loop_writes _ g2 _ rs g3 ap3 rs1 hl
  have fr : g1.factor = g.factor ∧
      g1.screen_offset_x = g.screen_offset_x ∧ g1.screen_offset_y = g.screen_offset_y ∧
      g1.MAZE_OFFSET_X = g.MAZE_OFFSET_X ∧ g1.MAZE_OFFSET_Y = g.MAZE_OFFSET_Y ∧
      g1.NUM_PILLS = g.NUM_PILLS := by
    rcases e1 with e1 | e1 <;> rw [e1, e34, e] <;> exact ⟨rfl, rfl, rfl, rfl, rfl, rfl⟩
  have sl : ∀ d v p, pill_slide s1 d v p = pill_slide g d v p := by
    intro d v p
    rw [ec, es, e]
    rfl
  have smid : pill_in_middle s i ↔ pill_in_middle g2 i := by
    unfold pill_in_middle
    rw [b2, es]
  refine ⟨?_, ?_, a0, hc1, fr⟩
  · rw [e13, b4, m1, m2, m3, sl, cx, cy, b2, (pf i).2.1, (pf i).2.2.1]
  · intro hnm
    have hn2 : ¬ pill_in_middle s i := fun x => hnm (hmid.1 (smid.1 x))
    have es1 := cm hn2
    rw [e13, b4, m2, m3, es1, b2]
    refine ⟨(pf i).2.2.2, ?_⟩
    have q := (pill_speed_rules g rs g1 rs1 h).2.2 i (fun x => hnm x.2.2.2)
      (fun x => hnm x.2.2.2.1)
    rw [← q, e13, b4, m3, es1, b2]

theorem pill_slide_congr (a b : Game) (h1 : a.factor = b.factor)
    (h2 : a.screen_offset_x = b.screen_offset_x) (h3 : a.MAZE_OFFSET_X = b.MAZE_OFFSET_X)
    (d v : Int) (p : Int × Int) : pill_slide a d v p = pill_slide b d v p := by
  unfold pill_slide
  rw [h1, h2, h3]

theorem wrap_tests (a : Int) (h : 0 ≤ a) :
    (c_div a 5 < 2 ↔ a < 10) ∧ (c_div a 5 > 196 ↔ 985 ≤ a) := by
  unfold c_div
  rw [Int.tdiv_eq_ediv h (by decide)]
  constructor <;> constructor <;> intro x <;> omega

theorem pill_slide_cases (g : Game) (hf : g.factor = 5) (hsx : g.screen_offset_x = 203)
    (hx0 : g.MAZE_OFFSET_X = 9) (v : Int) (p : Int × Int) :
    (203 ≤ p.1 - v → pill_slide g LEFT v p = (if p.1 - v < 213 then 1183 else p.1 - v, p.2)) ∧
    (203 ≤ p.1 + v →
      pill_slide g RIGHT v p = (if 1188 ≤ p.1 + v then 213 else p.1 + v, p.2)) ∧
    pill_slide g UP v p = (p.1, p.2 - v) ∧ pill_slide g DOWN v p = (p.1, p.2 + v) := by
  refine ⟨?_, ?_, rfl, rfl⟩
  · intro h
    have e : pill_slide g LEFT v p =
        (if c_div (p.1 - v - g.screen_offset_x) g.factor < g.MAZE_OFFSET_X - 7
          then (187 + g.MAZE_OFFSET_X) * g.factor + g.screen_offset_x else p.1 - v, p.2) := rfl
    rw [e, hf, hsx, hx0]
    have t := (wrap_tests (p.1 - v - 203) (by omega)).1
    have c1 : (9 : Int) - 7 = 2 := by decide
    have c2 : ((187 : Int) + 9) * 5 + 203 = 1183 := by decide
    rw [c1, c2]
    by_cases hw : p.1 - v < 213
    · rw [if_pos hw, if_pos (t.2 (by omega))]
    · rw [if_neg hw, if_neg (fun x => hw (by have := t.1 x; omega))]
  · intro h
    have e : pill_slide g RIGHT v p =
        (if c_div (p.1 + v - g.screen_offset_x) g.factor > 187 + g.MAZE_OFFSET_X
          then (g.MAZE_OFFSET_X - 7) * g.factor + g.screen_offset_x else p.1 + v, p.2) := rfl
    rw [e, hf, hsx, hx0]
    have t := (wrap_tests (p.1 + v - 203) (by omega)).2
    have c1 : (187 : Int) + 9 = 196 := by decide
    have c2 : ((9 : Int) - 7) * 5 + 203 = 213 := by decide
    rw [c1, c2]
    by_cases hw : 1188 ≤ p.1 + v
    · rw [if_pos hw, if_pos (t.2 (by omega))]
    · rw [if_neg hw, if_neg (fun x => hw (by have := t.1 x; omega))]

/-- A pill on its way: from the call `pill_frames f 1` on, as long as the pill is still
active and the points of the path passed so far are no cell centres, the pill follows the
path `path` that `pill_slide` steps through with the direction and the speed it has after
the first call, keeping both. -/
theorem pill_path_run (f : Game → Game) (i : Nat) (hf : keeps_pill f i)
    (g : Game) (rs : List Nat) (g1 : Game) (rs1 : List Nat)
    (h1 : pill_frames f 1 g rs = some (g1, rs1))
    (hc : g.maze_completed = FALSE) (hi : (i : Int) < g.NUM_PILLS)
    (hfac : g.factor = 5) (hsx : g.screen_offset_x = 203) (hsy : g.screen_offset_y = 0)
    (hx0 : g.MAZE_OFFSET_X = 9) (hy0 : g.MAZE_OFFSET_Y = 23)
    (path : Nat → Int × Int)
    (h0 : pill_slide g (pill_at g1 i).direction (pill_at g1 i).speed
      ((pill_at g i).x, (pill_at g i).y) = path 1) :
    ∀ k, 1 ≤ k →
      (∀ m, 1 ≤ m → m < k →
        pill_slide g (pill_at g1 i).direction (pill_at g1 i).speed (path m) = path (m + 1) ∧
        ¬ (((path m).1 - 293) % 100 = 0 ∧ ((path m).2 - 150) % 70 = 0)) →
      ∀ gk rsk, pill_frames f k g rs = some (gk, rsk) → (pill_at gk i).status ≠ 0 →
      ((pill_at gk i).x, (pill_at gk i).y) = path k ∧
      (pill_at gk i).direction = (pill_at g1 i).direction ∧
      (pill_at gk i).speed = (pill_at g1 i).speed ∧
      gk.maze_completed = FALSE ∧ gk.factor = 5 ∧ gk.screen_offset_x = 203 ∧
      gk.screen_offset_y = 0 ∧ gk.MAZE_OFFSET_X = 9 ∧ gk.MAZE_OFFSET_Y = 23 ∧
      gk.NUM_PILLS = g.NUM_PILLS := by
  intro k
  induction k with
  | zero => intro hk; exact absurd hk (by decide)
  | succ k ih =>
    intro _ hpath gk rsk hk ha
    by_cases hk0 : k = 0
    · subst hk0
      have e : gk = g1 := by
        rw [h1] at hk
        simp only [Option.some.injEq, Prod.mk.injEq] at hk
        exact hk.1.symm
      rw [e] at ha ⊢
      rw [pill_frames_one] at h1
      obtain ⟨f1, f2, f3, f4, f5, f6, f7, f8⟩ := hf g
      obtain ⟨t1, -, -, t4, t5, t6, t7, t8, t9, t10⟩ := handle_pills_track (f g) rs g1 rs1
        (by rw [f7]; exact hc) h1 i (by rw [f8]; exact hi) ha
      rw [f1, pill_slide_congr (f g) g f2 f3 f5] at t1
      exact ⟨t1.trans h0, rfl, rfl, t4, by rw [t5, f2, hfac], by rw [t6, f3, hsx],
        by rw [t7, f4, hsy], by rw [t8, f5, hx0], by rw [t9, f6, hy0], by rw [t10, f8]⟩
    · obtain ⟨gp, rsp, hp, hg⟩ := pill_frames_succ f k g rs gk rsk hk
      have k1 : 1 ≤ k := Nat.one_le_iff_ne_zero.2 hk0
      obtain ⟨f1, f2, f3, f4, f5, f6, f7, f8⟩ := hf gp
      have ap : (pill_at gp i).status ≠ 0 := by
        intro h0
        apply ha
        exact handle_pills_inactive (f gp) rsp gk rsk hg i (by rw [f1]; exact h0)
      obtain ⟨i1, i2, i3, i4, i5, i6, i7, i8, i9, i10⟩ := ih k1
        (fun m hm1 hm2 => hpath m hm1 (by omega)) gp rsp hp ap
      obtain ⟨t1, t2, -, t4, t5, t6, t7, t8, t9, t10⟩ := handle_pills_track (f gp) rsp gk rsk
        (by rw [f7]; exact i4) hg i (by rw [f8, i10]; exact hi) ha
      obtain ⟨hstep, hmid⟩ := hpath k k1 (by omega)
      have nm : ¬ pill_in_middle (f gp) i := by
        rw [pill_in_middle_iff (f gp) i (by rw [f2]; exact i5) (by rw [f3]; exact i6)
          (by rw [f4]; exact i7) (by rw [f5]; exact i8) (by rw [f6]; exact i9), f1]
        rw [← i1] at hmid
        exact hmid
      obtain ⟨ed, ev⟩ := t2 nm
      rw [f1] at ed ev t1
      rw [i2] at ed
      rw [i3] at ev
      rw [ed, ev, i1, pill_slide_congr (f gp) g (by rw [f2, i5, hfac]) (by rw [f3, i6, hsx])
        (by rw [f5, i8, hx0]), hstep] at t1
      exact ⟨t1, ed, ev, t4, by rw [t5, f2, i5], by rw [t6, f3, i6], by rw [t7, f4, i7],
        by rw [t8, f5, i8], by rw [t9, f6, i9], by rw [t10, f8, i10]⟩

theorem pill_run_left (f : Game → Game) (i : Nat) (hf : keeps_pill f i)
    (g : Game) (rs : List Nat) (g1 : Game) (rs1 : List Nat) (c r v : Int)
    (hc : g.maze_completed = FALSE) (hi : (i : Int) < g.NUM_PILLS)
    (hfac : g.factor = 5) (hsx : g.screen_offset_x = 203) (hsy : g.screen_offset_y = 0)
    (hx0 : g.MAZE_OFFSET_X = 9) (hy0 : g.MAZE_OFFSET_Y = 23)
    (hx : (pill_at g i).x = 293 + 100 * c) (hy : (pill_at g i).y = 150 + 70 * r)
    (h1 : pill_frames f 1 g rs = some (g1, rs1))
    (hv : (pill_at g1 i).speed = v) (hv125 : v = 1 ∨ v = 2 ∨ v = 5)
    (hd : (pill_at g1 i).direction = LEFT) (hcx : 1 ≤ c)
    (k : Nat) (gk : Game) (rsk : List Nat) (hk1 : 1 ≤ k)
    (hk : pill_frames f k g rs = some (gk, rsk)) (ha : (pill_at gk i).status ≠ 0)
    (hkn : v * k ≤ 100) :
    (pill_at gk i).x = 293 + 100 * c - v * k ∧ (pill_at gk i).y = 150 + 70 * r ∧
    (pill_at gk i).direction = LEFT ∧ (pill_at gk i).speed = v ∧
    (pill_in_middle gk i ↔ v * k = 100) := by
  have r := pill_path_run f i hf g rs g1 rs1 h1 hc hi hfac hsx hsy hx0 hy0
    (fun m => (293 + 100 * c - v * (m : Int), 150 + 70 * r))
    (by
      rw [hd, hv, hx, hy, (pill_slide_cases g hfac hsx hx0 _ _).1 (by dsimp only; rcases hv125 with rfl | rfl | rfl <;> (try split_ifs) <;> omega)]
      refine Prod.ext ?_ rfl
      dsimp only
      rcases hv125 with rfl | rfl | rfl <;> (try split_ifs) <;> push_cast <;> omega)
    k hk1
    (by
      intro m hm1 hm2
      rw [hd, hv, (pill_slide_cases g hfac hsx hx0 _ _).1 (by dsimp only; rcases hv125 with rfl | rfl | rfl <;> (try split_ifs) <;> omega)]
      dsimp only
      constructor
      · refine Prod.ext ?_ rfl
        dsimp only
        rcases hv125 with rfl | rfl | rfl <;> (try split_ifs) <;> push_cast <;> omega
      · rcases hv125 with rfl | rfl | rfl <;> (try split_ifs) <;> omega)
    gk rsk hk ha
  obtain ⟨r1, r2, r3, -, r5, r6, r7, r8, r9, -⟩ := r
  have ex : (pill_at gk i).x = 293 + 100 * c - v * k := congrArg Prod.fst r1
  have ey : (pill_at gk i).y = 150 + 70 * r := congrArg Prod.snd r1
  refine ⟨ex, ey, r2.trans hd, r3.trans hv, ?_⟩
  rw [pill_in_middle_iff gk i r5 r6 r7 r8 r9, ex, ey]
  rcases hv125 with rfl | rfl | rfl <;> (try split_ifs) <;> omega

theorem pill_run_right (f : Game → Game) (i : Nat) (hf : keeps_pill f i)
    (g : Game) (rs : List Nat) (g1 : Game) (rs1 : List Nat) (c r v : Int)
    (hc : g.maze_completed = FALSE) (hi : (i : Int) < g.NUM_PILLS)
    (hfac : g.factor = 5) (hsx : g.screen_offset_x = 203) (hsy : g.screen_offset_y = 0)
    (hx0 : g.MAZE_OFFSET_X = 9) (hy0 : g.MAZE_OFFSET_Y = 23)
    (hx : (pill_at g i).x = 293 + 100 * c) (hy : (pill_at g i).y = 150 + 70 * r)
    (h1 : pill_frames f 1 g rs = some (g1, rs1))
    (hv : (pill_at g1 i).speed = v) (hv125 : v = 1 ∨ v = 2 ∨ v = 5)
    (hd : (pill_at g1 i).direction = RIGHT) (hc0 : 0 ≤ c) (hcx : c ≤ 7)
    (k : Nat) (gk : Game) (rsk : List Nat) (hk1 : 1 ≤ k)
    (hk : pill_frames f k g rs = some (gk, rsk)) (ha : (pill_at gk i).status ≠ 0)
    (hkn : v * k ≤ 100) :
    (pill_at gk i).x = 293 + 100 * c + v * k ∧ (pill_at gk i).y = 150 + 70 * r ∧
    (pill_at gk i).direction = RIGHT ∧ (pill_at gk i).speed = v ∧
    (pill_in_middle gk i ↔ v * k = 100) := by
  have r := pill_path_run f i hf g rs g1 rs1 h1 hc hi hfac hsx hsy hx0 hy0
    (fun m => (293 + 100 * c + v * (m : Int), 150 + 70 * r))
    (by
      rw [hd, hv, hx, hy, (pill_slide_cases g hfac hsx hx0 _ _).2.1 (by dsimp only; rcases hv125 with rfl | rfl | rfl <;> (try split_ifs) <;> omega)]
      refine Prod.ext ?_ rfl
      dsimp only
      rcases hv125 with rfl | rfl | rfl <;> (try split_ifs) <;> push_cast <;> omega)
    k hk1
    (by
      intro m hm1 hm2
      rw [hd, hv, (pill_slide_cases g hfac hsx hx0 _ _).2.1 (by dsimp only; rcases hv125 with rfl | rfl | rfl <;> (try split_ifs) <;> omega)]
      dsimp only
      constructor
      · refine Prod.ext ?_ rfl
        dsimp only
        rcases hv125 with rfl | rfl | rfl <;> (try split_ifs) <;> push_cast <;> omega
      · rcases hv125 with rfl | rfl | rfl <;> (try split_ifs) <;> omega)
    gk rsk hk ha
  obtain ⟨r1, r2, r3, -, r5, r6, r7, r8, r9, -⟩ := r
  have ex : (pill_at gk i).x = 293 + 100 * c + v * k := congrArg Prod.fst r1
  have ey : (pill_at gk i).y = 150 + 70 * r := congrArg Prod.snd r1
  refine ⟨ex, ey, r2.trans hd, r3.trans hv, ?_⟩
  rw [pill_in_middle_iff gk i r5 r6 r7 r8 r9, ex, ey]
  rcases hv125 with rfl | rfl | rfl <;> (try split_ifs) <;> omega

theorem pill_run_up (f : Game → Game) (i : Nat) (hf : keeps_pill f i)
    (g : Game) (rs : List Nat) (g1 : Game) (rs1 : List Nat) (c r v : Int)
    (hc : g.maze_completed = FALSE) (hi : (i : Int) < g.NUM_PILLS)
    (hfac : g.factor = 5) (hsx : g.screen_offset_x = 203) (hsy : g.screen_offset_y = 0)
    (hx0 : g.MAZE_OFFSET_X = 9) (hy0 : g.MAZE_OFFSET_Y = 23)
    (hx : (pill_at g i).x = 293 + 100 * c) (hy : (pill_at g i).y = 150 + 70 * r)
    (h1 : pill_frames f 1 g rs = some (g1, rs1))
    (hv : (pill_at g1 i).speed = v) (hv125 : v = 1 ∨ v = 2 ∨ v = 5)
    (hd : (pill_at g1 i).direction = UP)
    (k : Nat) (gk : Game) (rsk : List Nat) (hk1 : 1 ≤ k)
    (hk : pill_frames f k g rs = some (gk, rsk)) (ha : (pill_at gk i).status ≠ 0)
    (hkn : v * k ≤ 70) :
    (pill_at gk i).x = 293 + 100 * c ∧ (pill_at gk i).y = 150 + 70 * r - v * k ∧
    (pill_at gk i).direction = UP ∧ (pill_at gk i).speed = v ∧
    (pill_in_middle gk i ↔ v * k = 70) := by
  have r := pill_path_run f i hf g rs g1 rs1 h1 hc hi hfac hsx hsy hx0 hy0
    (fun m => (293 + 100 * c, 150 + 70 * r - v * (m : Int)))
    (by
      rw [hd, hv, hx, hy, (pill_slide_cases g hfac hsx hx0 _ _).2.2.1]
      refine Prod.ext rfl ?_
      dsimp only
      rcases hv125 with rfl | rfl | rfl <;> (try split_ifs) <;> push_cast <;> omega)
    k hk1
    (by
      intro m hm1 hm2
      rw [hd, hv, (pill_slide_cases g hfac hsx hx0 _ _).2.2.1]
      dsimp only
      constructor
      · refine Prod.ext rfl ?_
        dsimp only
        rcases hv125 with rfl | rfl | rfl <;> (try split_ifs) <;> push_cast <;> omega
      · rcases hv125 with rfl | rfl | rfl <;> (try split_ifs) <;> omega)
    gk rsk hk ha
  obtain ⟨r1, r2, r3, -, r5, r6, r7, r8, r9, -⟩ := r
  have ex : (pill_at gk i).x = 293 + 100 * c := congrArg Prod.fst r1
  have ey : (pill_at gk i).y = 150 + 70 * r - v * k := congrArg Prod.snd r1
  refine ⟨ex, ey, r2.trans hd, r3.trans hv, ?_⟩
  rw [pill_in_middle_iff gk i r5 r6 r7 r8 r9, ex, ey]
  rcases hv125 with rfl | rfl | rfl <;> (try split_ifs) <;> omega

theorem pill_run_down (f : Game → Game) (i : Nat) (hf : keeps_pill f i)
    (g : Game) (rs : List Nat) (g1 : Game) (rs1 : List Nat) (c r v : Int)
    (hc : g.maze_completed = FALSE) (hi : (i : Int) < g.NUM_PILLS)
    (hfac : g.factor = 5) (hsx : g.screen_offset_x = 203) (hsy : g.screen_offset_y = 0)
    (hx0 : g.MAZE_OFFSET_X = 9) (hy0 : g.MAZE_OFFSET_Y = 23)
    (hx : (pill_at g i).x = 293 + 100 * c) (hy : (pill_at g i).y = 150 + 70 * r)
    (h1 : pill_frames f 1 g rs = some (g1, rs1))
    (hv : (pill_at g1 i).speed = v) (hv125 : v = 1 ∨ v = 2 ∨ v = 5)
    (hd : (pill_at g1 i).direction = DOWN)
    (k : Nat) (gk : Game) (rsk : List Nat) (hk1 : 1 ≤ k)
    (hk : pill_frames f k g rs = some (gk, rsk)) (ha : (pill_at gk i).status ≠ 0)
    (hkn : v * k ≤ 70) :
    (pill_at gk i).x = 293 + 100 * c ∧ (pill_at gk i).y = 150 + 70 * r + v * k ∧
    (pill_at gk i).direction = DOWN ∧ (pill_at gk i).speed = v ∧
    (pill_in_middle gk i ↔ v * k = 70) := by
  have r := pill_path_run f i hf g rs g1 rs1 h1 hc hi hfac hsx hsy hx0 hy0
    (fun m => (293 + 100 * c, 150 + 70 * r + v * (m : Int)))
    (by
      rw [hd, hv, hx, hy, (pill_slide_cases g hfac hsx hx0 _ _).2.2.2]
      refine Prod.ext rfl ?_
      dsimp only
      rcases hv125 with rfl | rfl | rfl <;> (try split_ifs) <;> push_cast <;> omega)
    k hk1
    (by
      intro m hm1 hm2
      rw [hd, hv, (pill_slide_cases g hfac hsx hx0 _ _).2.2.2]
      dsimp only
      constructor
      · refine Prod.ext rfl ?_
        dsimp only
        rcases hv125 with rfl | rfl | rfl <;> (try split_ifs) <;> push_cast <;> omega
      · rcases hv125 with rfl | rfl | rfl <;> (try split_ifs) <;> omega)
    gk rsk hk ha
  obtain ⟨r1, r2, r3, -, r5, r6, r7, r8, r9, -⟩ := r
  have ex : (pill_at gk i).x = 293 + 100 * c := congrArg Prod.fst r1
  have ey : (pill_at gk i).y = 150 + 70 * r + v * k := congrArg Prod.snd r1
  refine ⟨ex, ey, r2.trans hd, r3.trans hv, ?_⟩
  rw [pill_in_middle_iff gk i r5 r6 r7 r8 r9, ex, ey]
  rcases hv125 with rfl | rfl | rfl <;> (try split_ifs) <;> omega

theorem pill_run_left_wrap (f : Game → Game) (i : Nat) (hf : keeps_pill f i)
    (g : Game) (rs : List Nat) (g1 : Game) (rs1 : List Nat) (c r v : Int)
    (hc : g.maze_completed = FALSE) (hi : (i : Int) < g.NUM_PILLS)
    (hfac : g.factor = 5) (hsx : g.screen_offset_x = 203) (hsy : g.screen_offset_y = 0)
    (hx0 : g.MAZE_OFFSET_X = 9) (hy0 : g.MAZE_OFFSET_Y = 23)
    (hx : (pill_at g i).x = 293 + 100 * c) (hy : (pill_at g i).y = 150 + 70 * r)
    (h1 : pill_frames f 1 g rs = some (g1, rs1))
    (hv : (pill_at g1 i).speed = v) (hv125 : v = 1 ∨ v = 2 ∨ v = 5)
    (hd : (pill_at g1 i).direction = LEFT) (hcx : c = 0)
    (k : Nat) (gk : Game) (rsk : List Nat) (hk1 : 1 ≤ k)
    (hk : pill_frames f k g rs = some (gk, rsk)) (ha : (pill_at gk i).status ≠ 0)
    (hkn : v * k ≤ 170 + v) :
    (pill_at gk i).x = (if v * k ≤ 80 then 293 - v * k else 1263 + v - v * k) ∧ (pill_at gk i).y = 150 + 70 * r ∧
    (pill_at gk i).direction = LEFT ∧ (pill_at gk i).speed = v ∧
    (pill_in_middle gk i ↔ v * k = 170 + v) := by
  have r := pill_path_run f i hf g rs g1 rs1 h1 hc hi hfac hsx hsy hx0 hy0
    (fun m => ((if v * (m : Int) ≤ 80 then 293 - v * (m : Int) else 1263 + v - v * (m : Int)), 150 + 70 * r))
    (by
      rw [hd, hv, hx, hy, (pill_slide_cases g hfac hsx hx0 _ _).1 (by dsimp only; rcases hv125 with rfl | rfl | rfl <;> (try split_ifs) <;> omega)]
      refine Prod.ext ?_ rfl
      dsimp only
      rcases hv125 with rfl | rfl | rfl <;> (try split_ifs) <;> push_cast <;> omega)
    k hk1
    (by
      intro m hm1 hm2
      rw [hd, hv, (pill_slide_cases g hfac hsx hx0 _ _).1 (by dsimp only; rcases hv125 with rfl | rfl | rfl <;> (try split_ifs) <;> omega)]
      dsimp only
      constructor
      · refine Prod.ext ?_ rfl
        dsimp only
        rcases hv125 with rfl | rfl | rfl <;> (try split_ifs) <;> push_cast <;> omega
      · rcases hv125 with rfl | rfl | rfl <;> (try split_ifs) <;> omega)
    gk rsk hk ha
  obtain ⟨r1, r2, r3, -, r5, r6, r7, r8, r9, -⟩ := r
  have ex : (pill_at gk i).x = (if v * k ≤ 80 then 293 - v * k else 1263 + v - v * k) := congrArg Prod.fst r1
  have ey : (pill_at gk i).y = 150 + 70 * r := congrArg Prod.snd r1
  refine ⟨ex, ey, r2.trans hd, r3.trans hv, ?_⟩
  rw [pill_in_middle_iff gk i r5 r6 r7 r8 r9, ex, ey]
  rcases hv125 with rfl | rfl | rfl <;> (try split_ifs) <;> omega

theorem pill_run_right_wrap (f : Game → Game) (i : Nat) (hf : keeps_pill f i)
    (g : Game) (rs : List Nat) (g1 : Game) (rs1 : List Nat) (c r v : Int)
    (hc : g.maze_completed = FALSE) (hi : (i : Int) < g.NUM_PILLS)
    (hfac : g.factor = 5) (hsx : g.screen_offset_x = 203) (hsy : g.screen_offset_y = 0)
    (hx0 : g.MAZE_OFFSET_X = 9) (hy0 : g.MAZE_OFFSET_Y = 23)
    (hx : (pill_at g i).x = 293 + 100 * c) (hy : (pill_at g i).y = 150 + 70 * r)
    (h1 : pill_frames f 1 g rs = some (g1, rs1))
    (hv : (pill_at g1 i).speed = v) (hv125 : v = 1 ∨ v = 2 ∨ v = 5)
    (hd : (pill_at g1 i).direction = RIGHT) (hcx : c = 8)
    (k : Nat) (gk : Game) (rsk : List Nat) (hk1 : 1 ≤ k)
    (hk : pill_frames f k g rs = some (gk, rsk)) (ha : (pill_at gk i).status ≠ 0)
    (hkn : v * k ≤ 80 + (if v = 2 then 96 else 95)) :
    (pill_at gk i).x = (if v * k ≤ 94 then 1093 + v * k else 213 + v * k - (if v = 2 then 96 else 95)) ∧ (pill_at gk i).y = 150 + 70 * r ∧
    (pill_at gk i).direction = RIGHT ∧ (pill_at gk i).speed = v ∧
    (pill_in_middle gk i ↔ v * k = 80 + (if v = 2 then 96 else 95)) := by
  have r := pill_path_run f i hf g rs g1 rs1 h1 hc hi hfac hsx hsy hx0 hy0
    (fun m => ((if v * (m : Int) ≤ 94 then 1093 + v * (m : Int) else 213 + v * (m : Int) - (if v = 2 then 96 else 95)), 150 + 70 * r))
    (by
      rw [hd, hv, hx, hy, (pill_slide_cases g hfac hsx hx0 _ _).2.1 (by dsimp only; rcases hv125 with rfl | rfl | rfl <;> (try split_ifs) <;> omega)]
      refine Prod.ext ?_ rfl
      dsimp only
      rcases hv125 with rfl | rfl | rfl <;> (try split_ifs) <;> push_cast <;> omega)
    k hk1
    (by
      intro m hm1 hm2
      rw [hd, hv, (pill_slide_cases g hfac hsx hx0 _ _).2.1 (by dsimp only; rcases hv125 with rfl | rfl | rfl <;> (try split_ifs) <;> omega)]
      dsimp only
      constructor
      · refine Prod.ext ?_ rfl
        dsimp only
        rcases hv125 with rfl | rfl | rfl <;> (try split_ifs) <;> push_cast <;> omega
      · rcases hv125 with rfl | rfl | rfl <;> (try split_ifs) <;> omega)
    gk rsk hk ha
  obtain ⟨r1, r2, r3, -, r5, r6, r7, r8, r9, -⟩ := r
  have ex : (pill_at gk i).x = (if v * k ≤ 94 then 1093 + v * k else 213 + v * k - (if v = 2 then 96 else 95)) := congrArg Prod.fst r1
  have ey : (pill_at gk i).y = 150 + 70 * r := congrArg Prod.snd r1
  refine ⟨ex, ey, r2.trans hd, r3.trans hv, ?_⟩
  rw [pill_in_middle_iff gk i r5 r6 r7 r8 r9, ex, ey]
  rcases hv125 with rfl | rfl | rfl <;> (try split_ifs) <;> omega

/-! ## Pill speeds -/

theorem speed_fold_one (l : List Nat) : ∀ (g : Game) (j : Nat),
    (j ∈ l ∨ (pill_at g j).speed = 1) →
    (pill_at (l.foldl (fun h i => pill_put h i { pill_at h i with speed := 1 }) g) j).speed
      = 1 := by
  induction l with
  | nil =>
    intro g j h
    rcases h with h | h
    · exact absurd h (List.not_mem_nil j)
    · exact h
  | cons i is ih =>
    intro g j h
    rw [List.foldl_cons]
    apply ih
    by_cases hji : j = i
    · right
      rw [pill_at_pill_put, if_pos hji]
    · rcases h with h | h
      · rcases List.mem_cons.mp h with x | x
        · exact absurd x hji
        · exact Or.inl x
      · right
        rw [pill_at_pill_put, if_neg hji]
        exact h

/-- After `setup_pills` every pill `0..NUM_PILLS-1` has speed 1. -/
theorem setup_pills_speed (g : Game) (rs : List Nat) (g1 : Game) (rs1 : List Nat)
    (h : setup_pills g rs = some (g1, rs1)) :
    ∀ j : Nat, (j : Int) < g1.NUM_PILLS → (pill_at g1 j).speed = 1 := by
  unfold setup_pills at h
  simp only at h
  split at h
  · exact absurd h (by simp)
  · rename_i g2 rs2 _
    simp only [Option.some.injEq, Prod.mk.injEq] at h
    intro j hj
    obtain ⟨⟨ps, e⟩, -⟩ := speed_fold_status (List.range g2.NUM_PILLS.toNat) g2
    have hn : g1.NUM_PILLS = g2.NUM_PILLS := by rw [← h.1, e]
    rw [hn] at hj
    have k := speed_fold_one (List.range g2.NUM_PILLS.toNat) g2 j
      (Or.inl ((mem_range_toNat _ _).2 hj))
    rw [← h.1]
    exact k

/-- A `handle_pills` call at scale 5: a pill's speed stays in 1, 2, 5, and it changes only
for a pill that stands on a cell centre. -/
theorem pill_speed_step (g : Game) (rs : List Nat) (g1 : Game) (rs1 : List Nat) (j : Nat)
    (hf : g.factor = 5) (h : handle_pills g rs = some (g1, rs1)) :
    (((pill_at g j).speed = 1 ∨ (pill_at g j).speed = 2 ∨ (pill_at g j).speed = 5) →
      ((pill_at g1 j).speed = 1 ∨ (pill_at g1 j).speed = 2 ∨ (pill_at g1 j).speed = 5)) ∧
    (¬ pill_in_middle g j → (pill_at g1 j).speed = (pill_at g j).speed) := by
  obtain ⟨p1, p2, p3⟩ := pill_speed_rules g rs g1 rs1 h
  constructor
  · intro hs
    by_cases c1 : few_pills_left g ∧ (j : Int) < g.NUM_PILLS ∧ (pill_at g j).status ≠ 0 ∧
        pill_in_middle g j
    · exact Or.inr (Or.inl (p1 c1.1 j c1.2.1 c1.2.2.1 c1.2.2.2))
    · by_cases c2 : count_active_pills g = 1 ∧ (j : Int) < g.NUM_PILLS ∧
          (pill_at g j).status ≠ 0 ∧ pill_in_middle g j ∧ g.last_pill_speed_increased = 0
      · have q := (p2 c2.1 j c2.2.1 c2.2.2.1 c2.2.2.2.1 c2.2.2.2.2).1
        rw [hf] at q
        exact Or.inr (Or.inr q)
      · rw [p3 j c1 c2]
        exact hs
  · intro hm
    exact p3 j (fun x => hm x.2.2.2) (fun x => hm x.2.2.2.1)

/-- C36. Pills never skip a decision point. With factor 5, screen offsets 203 and 0 and
maze offsets 9 and 23: after `setup_pills` every pill has speed 1, and a `handle_pills`
call keeps every pill's speed in 1, 2, 5 and changes it only for a pill that is exactly
on a cell centre. A pill `i` stands on the centre of cell `(c, r)`
(x = (18 + 20 c) 5 + 203, y = (30 + 14 r) 5, 0 ≤ c ≤ 8, 0 ≤ r ≤ 6), the maze is not
completed, and the rest of each frame (`f`) leaves the pill alone. With the direction `d`
and the speed `v` the pill has after the first `handle_pills` call, after `k` calls in all
(`pill_frames f k`), the pill still being active: heading LEFT or RIGHT (c ≥ 1, resp.
c ≤ 7) it is `v k` to the left or right of the centre for `v k ≤ 100`, heading UP or DOWN
it is `v k` above or below it for `v k ≤ 70`, still with direction `d` and speed `v`, and
it is on a cell centre exactly when `v k = 100` (resp. 70), that is after exactly 100/v
(resp. 70/v) calls, on the neighbouring centre, and in no call in between. Across the
wrap: heading LEFT from column 0 it goes down to x = 213, wraps to 1183 and is next on a
cell centre exactly at x = 1093 (column 8); heading RIGHT from column 8 it wraps from the
last x below 1188 to 213 and is next on a cell centre exactly at x = 293 (column 0). -/
theorem pills_never_skip (f : Game → Game) (i : Nat) (hf : keeps_pill f i)
    (g : Game) (rs : List Nat) (g1 : Game) (rs1 : List Nat) (c r v : Int)
    (hc : g.maze_completed = FALSE) (hi : (i : Int) < g.NUM_PILLS)
    (hfac : g.factor = 5) (hsx : g.screen_offset_x = 203) (hsy : g.screen_offset_y = 0)
    (hx0 : g.MAZE_OFFSET_X = 9) (hy0 : g.MAZE_OFFSET_Y = 23)
    (hcr : 0 ≤ c ∧ c ≤ 8 ∧ 0 ≤ r ∧ r ≤ 6)
    (hx : (pill_at g i).x = (18 + 20 * c) * 5 + 203) (hy : (pill_at g i).y = (30 + 14 * r) * 5)
    (hs0 : (pill_at g i).speed = 1 ∨ (pill_at g i).speed = 2 ∨ (pill_at g i).speed = 5)
    (h1 : pill_frames f 1 g rs = some (g1, rs1)) (hv : (pill_at g1 i).speed = v) :
    (∀ (s : Game) (rs2 : List Nat) (s1 : Game) (rs3 : List Nat),
      setup_pills s rs2 = some (s1, rs3) →
      ∀ j : Nat, (j : Int) < s1.NUM_PILLS → (pill_at s1 j).speed = 1) ∧
    (∀ (s : Game) (rs2 : List Nat) (s1 : Game) (rs3 : List Nat) (j : Nat), s.factor = 5 →
      handle_pills s rs2 = some (s1, rs3) →
      (((pill_at s j).speed = 1 ∨ (pill_at s j).speed = 2 ∨ (pill_at s j).speed = 5) →
        ((pill_at s1 j).speed = 1 ∨ (pill_at s1 j).speed = 2 ∨ (pill_at s1 j).speed = 5)) ∧
      (¬ pill_in_middle s j → (pill_at s1 j).speed = (pill_at s j).speed)) ∧
    pill_in_middle g i ∧ pill_cell g i = (c, r) ∧ (v = 1 ∨ v = 2 ∨ v = 5) ∧
    ∀ (k : Nat) (gk : Game) (rsk : List Nat), 1 ≤ k →
      pill_frames f k g rs = some (gk, rsk) → (pill_at gk i).status ≠ 0 →
      ((pill_at g1 i).direction = LEFT → 1 ≤ c → v * k ≤ 100 →
        (pill_at gk i).x = 293 + 100 * c - v * k ∧ (pill_at gk i).y = 150 + 70 * r ∧
        (pill_at gk i).direction = LEFT ∧ (pill_at gk i).speed = v ∧
        (pill_in_middle gk i ↔ v * k = 100)) ∧
      ((pill_at g1 i).direction = RIGHT → c ≤ 7 → v * k ≤ 100 →
        (pill_at gk i).x = 293 + 100 * c + v * k ∧ (pill_at gk i).y = 150 + 70 * r ∧
        (pill_at gk i).direction = RIGHT ∧ (pill_at gk i).speed = v ∧
        (pill_in_middle gk i ↔ v * k = 100)) ∧
      ((pill_at g1 i).direction = UP → v * k ≤ 70 →
        (pill_at gk i).x = 293 + 100 * c ∧ (pill_at gk i).y = 150 + 70 * r - v * k ∧
        (pill_at gk i).direction = UP ∧ (pill_at gk i).speed = v ∧
        (pill_in_middle gk i ↔ v * k = 70)) ∧
      ((pill_at g1 i).direction = DOWN → v * k ≤ 70 →
        (pill_at gk i).x = 293 + 100 * c ∧ (pill_at gk i).y = 150 + 70 * r + v * k ∧
        (pill_at gk i).direction = DOWN ∧ (pill_at gk i).speed = v ∧
        (pill_in_middle gk i ↔ v * k = 70)) ∧
      ((pill_at g1 i).direction = LEFT → c = 0 → v * k ≤ 170 + v →
        (pill_at gk i).x = (if v * k ≤ 80 then 293 - v * k else 1263 + v - v * k) ∧
        (pill_at gk i).y = 150 + 70 * r ∧ (pill_at gk i).direction = LEFT ∧
        (pill_at gk i).speed = v ∧ (pill_in_middle gk i ↔ v * k = 170 + v) ∧
        (v * k = 170 + v → (pill_at gk i).x = (18 + 20 * 8) * 5 + 203)) ∧
      ((pill_at g1 i).direction = RIGHT → c = 8 →
        v * k ≤ 80 + (if v = 2 then 96 else 95) →
        (pill_at gk i).x = (if v * k ≤ 94 then 1093 + v * k
          else 213 + v * k - (if v = 2 then 96 else 95)) ∧
        (pill_at gk i).y = 150 + 70 * r ∧ (pill_at gk i).direction = RIGHT ∧
        (pill_at gk i).speed = v ∧
        (pill_in_middle gk i ↔ v * k = 80 + (if v = 2 then 96 else 95)) ∧
        (v * k = 80 + (if v = 2 then 96 else 95) →
          (pill_at gk i).x = (18 + 20 * 0) * 5 + 203)) := by
  have hx2 : (pill_at g i).x = 293 + 100 * c := by rw [hx]; omega
  have hy2 : (pill_at g i).y = 150 + 70 * r := by rw [hy]; omega
  have hmid : pill_in_middle g i := by
    rw [pill_in_middle_iff g i hfac hsx hsy hx0 hy0, hx2, hy2]
    omega
  obtain ⟨f1, f2, f3, f4, f5, f6, f7, f8⟩ := hf g
  have hv125 : v = 1 ∨ v = 2 ∨ v = 5 := by
    rw [← hv]
    rw [pill_frames_one] at h1
    apply (pill_speed_step (f g) rs g1 rs1 i (by rw [f2]; exact hfac) h1).1
    rw [f1]
    exact hs0
  refine ⟨setup_pills_speed, fun s rs2 s1 rs3 j a b => pill_speed_step s rs2 s1 rs3 j a b,
    hmid, ?_, hv125, ?_⟩
  · unfold pill_cell
    rw [hfac, hsx, hsy, hx0, hy0, hx, hy]
    have e1 : ((18 : Int) + 20 * c) * 5 + 203 - 203 = 5 * (18 + 20 * c) := by omega
    have e2 : ((30 : Int) + 14 * r) * 5 - 0 = 5 * (30 + 14 * r) := by omega
    have e3 : (18 : Int) + 20 * c - (9 + 9) = 20 * c := by omega
    have e4 : (30 : Int) + 14 * r - (7 + 23) = 14 * r := by omega
    have e5 : HORI_LINE_SIZE - 2 = 20 := by decide
    have e6 : VERT_LINE_SIZE - 2 = 14 := by decide
    rw [e1, e2, c_div_mul_left _ 5 (by decide), c_div_mul_left _ 5 (by decide), e3, e4, e5, e6,
      c_div_mul_left _ 20 (by decide), c_div_mul_left _ 14 (by decide)]
  · intro k gk rsk hk1 hk ha
    refine ⟨?_, ?_, ?_, ?_, ?_, ?_⟩
    · intro hd h2 hkn
      exact pill_run_left f i hf g rs g1 rs1 c r v hc hi hfac hsx hsy hx0 hy0 hx2 hy2 h1 hv
        hv125 hd h2 k gk rsk hk1 hk ha hkn
    · intro hd h2 hkn
      exact pill_run_right f i hf g rs g1 rs1 c r v hc hi hfac hsx hsy hx0 hy0 hx2 hy2 h1 hv
        hv125 hd hcr.1 h2 k gk rsk hk1 hk ha hkn
    · intro hd hkn
      exact pill_run_up f i hf g rs g1 rs1 c r v hc hi hfac hsx hsy hx0 hy0 hx2 hy2 h1 hv
        hv125 hd k gk rsk hk1 hk ha hkn
    · intro hd hkn
      exact pill_run_down f i hf g rs g1 rs1 c r v hc hi hfac hsx hsy hx0 hy0 hx2 hy2 h1 hv
        hv125 hd k gk rsk hk1 hk ha hkn
    · intro hd h2 hkn
      obtain ⟨a, b, c1, d, e⟩ := pill_run_left_wrap f i hf g rs g1 rs1 c r v hc hi hfac hsx
        hsy hx0 hy0 hx2 hy2 h1 hv hv125 hd h2 k gk rsk hk1 hk ha hkn
      refine ⟨a, b, c1, d, e, fun q => ?_⟩
      rw [a]
      rcases hv125 with rfl | rfl | rfl <;> split_ifs <;> omega
    · intro hd h2 hkn
      obtain ⟨a, b, c1, d, e⟩ := pill_run_right_wrap f i hf g rs g1 rs1 c r v hc hi hfac hsx
        hsy hx0 hy0 hx2 hy2 h1 hv hv125 hd h2 k gk rsk hk1 hk ha hkn
      refine ⟨a, b, c1, d, e, fun q => ?_⟩
      rw [a]
      rcases hv125 with rfl | rfl | rfl <;> split_ifs at q ⊢ <;> omega

theorem demo_slide_after_eq :
    pill_frames id 20 demo_slide [] = some (demo_slide_after, []) := by
  rfl

theorem pills_never_skip_witness :
    ((pill_at demo_slide 0).x = 393 ∧ (pill_at demo_slide 0).speed = 1) ∧
    pill_in_middle demo_slide 0 ∧
    ((pill_at demo_slide_after 0).x = 293 + 100 * 1 - 5 * (20 : Nat) ∧
      (pill_at demo_slide_after 0).y = 150 + 70 * 0 ∧
      (pill_at demo_slide_after 0).direction = LEFT ∧ (pill_at demo_slide_after 0).speed = 5 ∧
      (pill_in_middle demo_slide_after 0 ↔ (5 : Int) * (20 : Nat) = 100)) :=
  have w := pills_never_skip id 0 (fun _ => ⟨rfl, rfl, rfl, rfl, rfl, rfl, rfl, rfl⟩)
    demo_slide [] ((pill_frames id 1 demo_slide []).getD (demo_slide, [])).1 [] 1 0 5
    (by decide) (by decide) (by decide) (by decide) (by decide) (by decide) (by decide)
    (by decide) (by decide) (by decide) (by decide) (by rfl) (by decide)
  ⟨by decide, w.2.2.1, (w.2.2.2.2.2 20 demo_slide_after [] (by decide) demo_slide_after_eq
    (by decide)).1 (by decide) (by decide) (by decide)⟩

end Munchkin
